import Mathlib

set_option linter.all false

/-!
# FAT32 driver of aprinter (`aprinter/fs/FatFs.h`): shallow embedding

Every function of `FatFs.h` that is used below is rendered as one definition
carrying the name it has in the source.  The driver is written in callback
style; the embedding keeps that shape:

* the members of `FatFs::Object`, of every `File` and of the block cache are
  gathered in one `World`;
* each handler of the source is a function on `World`;
* the queued events of the event loop are an explicit list (`World.queue`);
* the answers of the collaborators (block pins, device-wide flushes, raw block
  transfers) enter as `Input`s of the transition function `step`.

Machine integers are natural numbers; a reduction modulo `2 ^ w` is written
wherever a value of the source can leave the range of its type.
`BlockIndexType` is declared by the block-access layer, outside these sources;
it is taken to be an unsigned type of at least 32 bits, wide enough for the
partition length, so block arithmetic that stays below the partition length is
exact.
-/

namespace FatFs

/-! ## Binary tools -/

/-- A block buffer: the byte held at each offset. -/
abbrev Buffer := Nat → Nat

/-- Modelled from the spec: `ReadBinaryInt<uint8_t, BinaryLittleEndian>` of
`aprinter/base/BinaryTools.h`, which is outside the sources; one byte. -/
def ReadBinaryInt8 (buffer : Buffer) (off : Nat) : Nat :=
  buffer off % 256

/-- Modelled from the spec: `ReadBinaryInt<uint16_t, BinaryLittleEndian>` of
`aprinter/base/BinaryTools.h`; two bytes, least significant first. -/
def ReadBinaryInt16 (buffer : Buffer) (off : Nat) : Nat :=
  buffer off % 256 + 256 * (buffer (off + 1) % 256)

/-- Modelled from the spec: `ReadBinaryInt<uint32_t, BinaryLittleEndian>` of
`aprinter/base/BinaryTools.h`; four bytes, least significant first. -/
def ReadBinaryInt32 (buffer : Buffer) (off : Nat) : Nat :=
  buffer off % 256 + 256 * (buffer (off + 1) % 256)
    + 65536 * (buffer (off + 2) % 256) + 16777216 * (buffer (off + 3) % 256)

/-- Modelled from the spec: `WriteBinaryInt<uint16_t, BinaryLittleEndian>` of
`aprinter/base/BinaryTools.h`; the value is first narrowed to 16 bits. -/
def WriteBinaryInt16 (value : Nat) (buffer : Buffer) (off : Nat) : Buffer :=
  fun k =>
    if k = off then value % 256
    else if k = off + 1 then value / 256 % 256
    else buffer k

/-- Modelled from the spec: `WriteBinaryInt<uint32_t, BinaryLittleEndian>` of
`aprinter/base/BinaryTools.h`; the value is first narrowed to 32 bits. -/
def WriteBinaryInt32 (value : Nat) (buffer : Buffer) (off : Nat) : Buffer :=
  fun k =>
    if k = off then value % 256
    else if k = off + 1 then value / 256 % 256
    else if k = off + 2 then value / 65536 % 256
    else if k = off + 3 then value / 16777216 % 256
    else buffer k

/-! ## Constants and enumerations -/

def UINT16_MAX : Nat := 65535
def UINT32_MAX : Nat := 4294967295

def Entry1CleanBit : Nat := 0x8000000
def FsStatusEntryIndex : Nat := 1
def EndOfChainMarker : Nat := 0x0FFFFFFF
def FreeClusterMarker : Nat := 0x00000000
def NormalClusterIndexEnd : Nat := 0x0FFFFFF8
def DirEntrySizeOffset : Nat := 0x1C
def FsInfoSig1Offset : Nat := 0x0
def FsInfoSig2Offset : Nat := 0x1E4
def FsInfoFreeClustersOffset : Nat := 0x1E8
def FsInfoAllocatedClusterOffset : Nat := 0x1EC
def FsInfoSig3Offset : Nat := 0x1FC

inductive FsState where
  | INIT | READY | FAILED
  deriving DecidableEq, Repr, Inhabited

inductive WriteMountState where
  | NOT_MOUNTED | MOUNT_META | MOUNT_FSINFO | MOUNT_FLUSH | MOUNTED
  | UMOUNT_FLUSH1 | UMOUNT_META | UMOUNT_FLUSH2
  deriving DecidableEq, Repr, Inhabited

inductive AllocationState where
  | IDLE | CHECK_EVENT | REQUESTING_BLOCK
  deriving DecidableEq, Repr, Inhabited

inductive EntryType where
  | DIR | FILE
  deriving DecidableEq, Repr, Inhabited

/-- The value type `FatFs::FsEntry`. -/
structure FsEntry where
  type : EntryType := .DIR
  dir_entry_block_offset : Nat := 0
  file_size : Nat := 0
  cluster_index : Nat := 0
  dir_entry_block_index : Nat := 0
  deriving DecidableEq, Repr, Inhabited

/-! ## Collaborators: block range, cache references, block users -/

/-- Modelled from the spec: `TheBlockAccess::BlockRange`, declared outside the
sources: an absolute base block and a length in blocks. -/
structure BlockRange where
  base : Nat := 0
  length : Nat := 0
  deriving DecidableEq, Repr, Inhabited

/-- Modelled from the spec: `BlockRange::getLength`. -/
def BlockRange.getLength (r : BlockRange) : Nat := r.length

/-- Modelled from the spec: `BlockRange::getAbsBlockIndex`, the translation of a
block index relative to the partition into an absolute device block. -/
def BlockRange.getAbsBlockIndex (r : BlockRange) (rel_block : Nat) : Nat :=
  r.base + rel_block

inductive CacheRefState where
  | INVALID | REQUESTING | READY
  deriving DecidableEq, Repr, Inhabited

/-- Modelled from the spec: `BlockCache::CacheRef` (`aprinter/fs/BlockCache.h`
is outside the sources): a pin of one cache block.  `REQUESTING` means that the
completion handler of the reference has not been called yet. -/
structure CacheBlockRef where
  state : CacheRefState := .INVALID
  block : Nat := 0
  deriving DecidableEq, Repr, Inhabited

/-- Modelled from the spec: `CacheRef::reset`, dropping the pin. -/
def CacheBlockRef.reset (_r : CacheBlockRef) : CacheBlockRef :=
  { state := .INVALID, block := 0 }

/-- Modelled from the spec: `CacheRef::getBlock`. -/
def CacheBlockRef.getBlock (r : CacheBlockRef) : Nat := r.block

/-- Modelled from the spec: `TheBlockAccess::User`, one raw block transfer at a
time; the transferred bytes themselves are not represented. -/
structure BlockAccessUser where
  busy : Bool := false
  block : Nat := 0
  writing : Bool := false
  deriving DecidableEq, Repr, Inhabited

/-! ## Objects of the driver -/

inductive ChainState where
  | IDLE
  | NEXT_CHECK | NEXT_REQUESTING_FAT
  | NEW_CHECK | NEW_REQUESTING_FAT | NEW_ALLOCATING
  | TRUNCATE_CHECK | TRUNCATE_REQUESTING_FAT | TRUNCATE_REQUESTING_FAT2
  deriving DecidableEq, Repr, Inhabited

inductive IterState where
  | START | CLUSTER | END
  deriving DecidableEq, Repr, Inhabited

/-- The members of `FatFs::ClusterChain`. -/
structure ClusterChain where
  m_fat_cache_ref1 : CacheBlockRef := {}
  m_fat_cache_ref2 : CacheBlockRef := {}
  m_state : ChainState := .IDLE
  m_iter_state : IterState := .START
  m_first_cluster : Nat := 0
  m_current_cluster : Nat := 0
  m_prev_cluster : Nat := 0
  deriving DecidableEq, Repr, Inhabited

inductive DirEntryRefState where
  | INVALID | REQUESTING_BLOCK | READY
  deriving DecidableEq, Repr, Inhabited

/-- The members of `FatFs::DirEntryRef`. -/
structure DirEntryRef where
  m_block_ref : CacheBlockRef := {}
  m_state : DirEntryRefState := .INVALID
  m_block_offset : Nat := 0
  deriving DecidableEq, Repr, Inhabited

/-- The member of `FatFs::WriteReference`. -/
structure WriteReference where
  m_taken : Bool := false
  deriving DecidableEq, Repr, Inhabited

inductive FileState where
  | IDLE
  | READ_EVENT | READ_NEXT_CLUSTER | READ_DATA
  | OPENWR_EVENT | OPENWR_DIR_ENTRY
  | WRITE_EVENT | WRITE_NEXT_CLUSTER | WRITE_DATA
  | TRUNC_EVENT | TRUNC_CHAIN
  deriving DecidableEq, Repr, Inhabited

/-- The members of `FatFs::File` (the user buffer `m_request_buf` carries file
data only and is left out). -/
structure File where
  m_chain : ClusterChain := {}
  m_block_user : BlockAccessUser := {}
  m_dir_entry : DirEntryRef := {}
  m_dir_entry_block_index : Nat := 0
  m_file_size : Nat := 0
  m_file_pos : Nat := 0
  m_write_ref : WriteReference := {}
  m_state : FileState := .IDLE
  m_dir_entry_block_offset : Nat := 0
  m_block_in_cluster : Nat := 0
  m_write_bytes_in_block : Nat := 0
  deriving DecidableEq, Repr, Inhabited

/-- The members of `FatFs::Object`.  `allocating_chains_list` holds the numbers
of the files whose chains wait for a cluster; `flush_request` tells whether a
device-wide flush is outstanding. -/
structure Object where
  block_ref : CacheBlockRef := {}
  fs_info_block_ref : CacheBlockRef := {}
  flush_request : Bool := false
  block_range : BlockRange := {}
  state : FsState := .INIT
  write_mount_state : WriteMountState := .NOT_MOUNTED
  alloc_state : AllocationState := .IDLE
  num_fats : Nat := 0
  blocks_per_cluster : Nat := 0
  root_cluster : Nat := 0
  num_fat_entries : Nat := 0
  num_reserved_blocks : Nat := 0
  fat_end_blocks : Nat := 0
  fs_info_block : Nat := 0
  num_valid_clusters : Nat := 0
  allocating_chains_list : List Nat := []
  alloc_position : Nat := 0
  alloc_start : Nat := 0
  num_write_references : Nat := 0
  deriving DecidableEq, Repr, Inhabited

/-- The queued events of the event loop that the driver owns. -/
inductive QueuedEvent where
  | alloc_event
  | file_event (i : Nat)
  | chain_event (i : Nat)
  deriving DecidableEq, Repr, Inhabited

/-- A call of one of the handlers supplied by the client of the driver. -/
inductive HandlerCall where
  | InitHandler (error_code : Nat)
  | WriteMountHandler (error : Bool)
  | FileHandler (i : Nat) (error : Bool) (length : Nat)
  deriving DecidableEq, Repr, Inhabited

/-- The driver together with its collaborators.

* `BlockSize`, `SizeBits`: `TheBlockAccess::BlockSize` and the width of `size_t`;
* `writable`: the answer of `TheBlockAccess::isWritable`;
* `data`, `dirty`, `loaded`: the block cache, by absolute block index
  (contents as seen through the cache, blocks written but not flushed, blocks
  that can be pinned without waiting);
* `files`: the `File` objects, addressed by their position;
* `queue`: the queued events, the next one to run first;
* `calls`: the client handler calls made so far, the latest first. -/
structure World where
  BlockSize : Nat := 512
  SizeBits : Nat := 32
  writable : Bool := true
  o : Object := {}
  data : Nat → Buffer := fun _ _ => 0
  dirty : Nat → Bool := fun _ => false
  loaded : Nat → Bool := fun _ => false
  files : List File := []
  queue : List QueuedEvent := []
  calls : List HandlerCall := []

instance : Inhabited World := ⟨{}⟩

/-- `FatEntriesPerBlock = BlockSize / 4`. -/
def World.FatEntriesPerBlock (w : World) : Nat := w.BlockSize / 4

/-- `DirEntriesPerBlock = BlockSize / 32`. -/
def World.DirEntriesPerBlock (w : World) : Nat := w.BlockSize / 32

/-- The file with number `i`. -/
def World.file (w : World) (i : Nat) : File := w.files.getD i default

/-- Store the file with number `i`. -/
def World.setFile (w : World) (i : Nat) (f : File) : World :=
  { w with files := w.files.set i f }

/-- Modelled from the spec: `QueuedEvent::prependNowNotAlready` of the event
loop (outside the sources): the event is put in front of the queue. -/
def World.prependNowNotAlready (w : World) (e : QueuedEvent) : World :=
  { w with queue := e :: w.queue }

/-- Modelled from the spec: `QueuedEvent::unset` of the event loop. -/
def World.unset (w : World) (e : QueuedEvent) : World :=
  { w with queue := w.queue.filter (fun x => x != e) }

/-- Record a call of a client handler. -/
def World.call (w : World) (c : HandlerCall) : World :=
  { w with calls := c :: w.calls }

/-- Modelled from the spec: `CacheRef::getData`, the buffer of the pinned
block. -/
def World.getData (w : World) (r : CacheBlockRef) : Buffer := w.data r.block

/-- Replace the cached contents of one block. -/
def World.setData (w : World) (block : Nat) (buffer : Buffer) : World :=
  { w with data := fun b => if b = block then buffer else w.data b }

/-- Modelled from the spec: `CacheRef::markDirty`. -/
def World.markDirty (w : World) (r : CacheBlockRef) : World :=
  { w with dirty := fun b => if b = r.block then true else w.dirty b }

/-- Modelled from the spec: `CacheRef::requestBlock`.  The result is the
reference after the call and the returned flag: `true` when the block is
available at once (the reference already holds it, or the cache has it, and
immediate completion is not disabled), `false` when the completion handler
will be called later. -/
def World.requestBlock (w : World) (r : CacheBlockRef) (block : Nat)
    (disable_immediate_completion : Bool) : CacheBlockRef × Bool :=
  if disable_immediate_completion = false ∧
      ((r.state = .READY ∧ r.block = block) ∨ w.loaded block = true) then
    ({ state := .READY, block := block }, true)
  else
    ({ state := .REQUESTING, block := block }, false)

/-! ## Cluster index helpers -/

def mask_cluster_entry (entry_value : Nat) : Nat :=
  entry_value &&& 0x0FFFFFFF

def update_cluster_entry (entry_value : Nat) (new_value : Nat) : Nat :=
  (entry_value &&& 0xF0000000) ||| new_value

def is_cluster_idx_normal (cluster_idx : Nat) : Bool :=
  decide (cluster_idx ≥ 2 ∧ cluster_idx < NormalClusterIndexEnd)

def is_cluster_idx_valid_for_fat (w : World) (cluster_idx : Nat) : Bool :=
  decide (cluster_idx < w.o.num_fat_entries)

def get_abs_block_index (w : World) (rel_block : Nat) : Nat :=
  w.o.block_range.getAbsBlockIndex rel_block

def get_abs_block_index_for_fat_entry (w : World) (cluster_idx : Nat) : Nat :=
  get_abs_block_index w (w.o.num_reserved_blocks + cluster_idx / w.FatEntriesPerBlock)

/-- The offset computed by `get_fat_ptr_in_cache_block`, relative to the start
of the buffer of the pinned block. -/
def get_fat_ptr_in_cache_block (w : World) (cluster_idx : Nat) : Nat :=
  4 * (cluster_idx % w.FatEntriesPerBlock)

def read_fat_entry_in_cache_block (w : World) (block_ref : CacheBlockRef)
    (cluster_idx : Nat) : Nat :=
  let entry_ptr := get_fat_ptr_in_cache_block w cluster_idx
  mask_cluster_entry (ReadBinaryInt32 (w.getData block_ref) entry_ptr)

def update_fat_entry_in_cache_block (w : World) (block_ref : CacheBlockRef)
    (cluster_idx : Nat) (value : Nat) : World :=
  let entry_ptr := get_fat_ptr_in_cache_block w cluster_idx
  let new_entry_value :=
    update_cluster_entry (ReadBinaryInt32 (w.getData block_ref) entry_ptr) value
  let w := w.setData block_ref.block
    (WriteBinaryInt32 new_entry_value (w.getData block_ref) entry_ptr)
  w.markDirty block_ref

def is_cluster_idx_valid_for_data (w : World) (cluster_idx : Nat) : Bool :=
  decide (cluster_idx ≥ 2 ∧ cluster_idx - 2 < w.o.num_valid_clusters)

def get_cluster_data_block_index (w : World) (cluster_idx : Nat)
    (cluster_block_idx : Nat) : Nat :=
  w.o.fat_end_blocks + (cluster_idx - 2) * w.o.blocks_per_cluster + cluster_block_idx

def read_dir_entry_first_cluster (buffer : Buffer) (entry_ptr : Nat) : Nat :=
  (ReadBinaryInt16 buffer (entry_ptr + 0x1A) <<< 0) |||
    (ReadBinaryInt16 buffer (entry_ptr + 0x14) <<< 16)

def write_dir_entry_first_cluster (value : Nat) (buffer : Buffer) (entry_ptr : Nat) :
    Buffer :=
  WriteBinaryInt16 (value >>> 16)
    (WriteBinaryInt16 (value >>> 0) buffer (entry_ptr + 0x1A)) (entry_ptr + 0x14)

def update_fs_clean_bit (w : World) (block_ref : CacheBlockRef) (set_else_clear : Bool) :
    World :=
  let entry1_value := read_fat_entry_in_cache_block w block_ref FsStatusEntryIndex
  let entry1_value :=
    if set_else_clear then entry1_value ||| Entry1CleanBit
    else entry1_value &&& (0xFFFFFFFF - Entry1CleanBit)
  update_fat_entry_in_cache_block w block_ref FsStatusEntryIndex entry1_value

def request_fat_cache_block (w : World) (block_ref : CacheBlockRef) (cluster_idx : Nat)
    (disable_immediate_completion : Bool) : CacheBlockRef × Bool :=
  let abs_block_idx := get_abs_block_index_for_fat_entry w cluster_idx
  w.requestBlock block_ref abs_block_idx disable_immediate_completion

/-! ## Initialisation -/

/-- `FatFs::init`: remember the block range, enter `INIT` and pin block 0 of the
range with immediate completion disabled (the cache starts empty). -/
def init (w : World) (block_range : BlockRange) : World :=
  let o : Object := { block_range := block_range, state := .INIT }
  let w := { w with dirty := fun _ => false, loaded := fun _ => false, queue := [],
                    files := [], calls := [], o := o }
  { w with o.block_ref := (w.requestBlock w.o.block_ref (get_abs_block_index w 0) true).1 }

/-- The end of `init_block_ref_handler` (label `error:`): the state becomes
`FAILED` for a non-zero code and `READY` otherwise, and `InitHandler` is
called with the code. -/
def init_block_ref_handler_exit (w : World) (error_code : Nat) : World :=
  let w := { w with o.state := if error_code ≠ 0 then FsState.FAILED else FsState.READY }
  w.call (.InitHandler error_code)

/-- `FatFs::init_block_ref_handler`.  The result is `none` exactly when the
source divides by zero, which C++ leaves undefined; each division of the
source is preceded here by the test of its divisor. -/
def init_block_ref_handler (w : World) (error : Bool) : Option World :=
  if error then some (init_block_ref_handler_exit w 20) else
  let buffer := w.getData w.o.block_ref
  let sector_size := ReadBinaryInt16 buffer 0xB
  let sectors_per_cluster := ReadBinaryInt8 buffer 0xD
  let num_reserved_sectors := ReadBinaryInt16 buffer 0xE
  let num_fats := ReadBinaryInt8 buffer 0x10
  let max_root := ReadBinaryInt16 buffer 0x11
  let sectors_per_fat := ReadBinaryInt32 buffer 0x24
  let root_cluster := ReadBinaryInt32 buffer 0x2C
  let fs_info_sector := ReadBinaryInt16 buffer 0x30
  let sig := ReadBinaryInt8 buffer 0x42
  let w := { w with o.block_ref := w.o.block_ref.reset }
  if sector_size = 0 ∨ sector_size % w.BlockSize ≠ 0 then
    some (init_block_ref_handler_exit w 22) else
  let blocks_per_sector := sector_size / w.BlockSize % 2 ^ 16
  if blocks_per_sector = 0 then none else
  if sectors_per_cluster > UINT16_MAX / blocks_per_sector then
    some (init_block_ref_handler_exit w 23) else
  let w := { w with o.blocks_per_cluster := blocks_per_sector * sectors_per_cluster % 2 ^ 16 }
  if num_reserved_sectors * sector_size % 2 ^ 32 < 0x47 then
    some (init_block_ref_handler_exit w 24) else
  if num_fats ≠ 1 ∧ num_fats ≠ 2 then
    some (init_block_ref_handler_exit w 25) else
  let w := { w with o.num_fats := num_fats }
  if sig ≠ 0x28 ∧ sig ≠ 0x29 then
    some (init_block_ref_handler_exit w 26) else
  if max_root ≠ 0 then
    some (init_block_ref_handler_exit w 27) else
  let w := { w with o.root_cluster := mask_cluster_entry root_cluster }
  if w.o.root_cluster < 2 then
    some (init_block_ref_handler_exit w 28) else
  let entries_per_sector := sector_size / 4 % 2 ^ 16
  if sectors_per_fat = 0 then
    some (init_block_ref_handler_exit w 29) else
  if entries_per_sector = 0 then none else
  if sectors_per_fat > UINT32_MAX / entries_per_sector then
    some (init_block_ref_handler_exit w 29) else
  let w := { w with o.num_fat_entries := sectors_per_fat * entries_per_sector % 2 ^ 32 }
  let fat_end_sectors_calc := (num_reserved_sectors + w.o.num_fats * sectors_per_fat) % 2 ^ 64
  if fat_end_sectors_calc > w.o.block_range.getLength / blocks_per_sector then
    some (init_block_ref_handler_exit w 29) else
  let w := { w with o.num_reserved_blocks := num_reserved_sectors * blocks_per_sector }
  let w := { w with o.fat_end_blocks := fat_end_sectors_calc * blocks_per_sector }
  if fs_info_sector ≠ 0 ∧ fs_info_sector ≠ 0xFFFF ∧
      fs_info_sector * blocks_per_sector % 2 ^ 32 ≥ w.o.num_reserved_blocks then
    some (init_block_ref_handler_exit w 31) else
  let fs_info_block :=
    if fs_info_sector = 0 ∨ fs_info_sector = 0xFFFF then 0
    else fs_info_sector * blocks_per_sector % 2 ^ 32
  let w := { w with o.fs_info_block := fs_info_block }
  if w.o.blocks_per_cluster = 0 then none else
  let valid_clusters_for_capacity :=
    (w.o.block_range.getLength - w.o.fat_end_blocks) / w.o.blocks_per_cluster % 2 ^ 32
  if valid_clusters_for_capacity < 1 then
    some (init_block_ref_handler_exit w 30) else
  let num_valid_clusters :=
    min valid_clusters_for_capacity
      (min ((w.o.num_fat_entries + 2 ^ 32 - 2) % 2 ^ 32) (NormalClusterIndexEnd - 2))
  let w := { w with o.num_valid_clusters := num_valid_clusters }
  let w := { w with o.write_mount_state := WriteMountState.NOT_MOUNTED }
  let w := { w with o.alloc_state := AllocationState.IDLE }
  let w := { w with o.allocating_chains_list := [] }
  let w := { w with o.num_write_references := 0 }
  some (init_block_ref_handler_exit w 0)

def getRootEntry (w : World) : FsEntry :=
  { type := .DIR,
    file_size := 0,
    cluster_index := w.o.root_cluster,
    dir_entry_block_index := 0,
    dir_entry_block_offset := 0 }

/-! ## Write-mount and write-unmount -/

def startWriteMount (w : World) : World :=
  let w := { w with o.write_mount_state := WriteMountState.MOUNT_META }
  { w with o.block_ref := (request_fat_cache_block w w.o.block_ref FsStatusEntryIndex true).1 }

def canStartWriteUnmount (w : World) : Bool :=
  decide (w.o.num_write_references = 0)

def startWriteUnmount (w : World) : World :=
  let w := { w with o.write_mount_state := WriteMountState.UMOUNT_FLUSH1 }
  { w with o.flush_request := true }

def complete_write_mount_request (w : World) (error : Bool) : World :=
  let w := { w with o.block_ref := w.o.block_ref.reset }
  let w := { w with o.flush_request := false }
  let w :=
    if error then
      let w := { w with o.fs_info_block_ref := w.o.fs_info_block_ref.reset }
      { w with o.write_mount_state := WriteMountState.NOT_MOUNTED }
    else
      { w with o.write_mount_state := WriteMountState.MOUNTED }
  w.call (.WriteMountHandler error)

def complete_write_unmount_request (w : World) (error : Bool) : World :=
  let w := { w with o.block_ref := w.o.block_ref.reset }
  let w := { w with o.flush_request := false }
  let w :=
    if error then
      { w with o.write_mount_state := WriteMountState.MOUNTED }
    else
      let w := { w with o.fs_info_block_ref := w.o.fs_info_block_ref.reset }
      { w with o.write_mount_state := WriteMountState.NOT_MOUNTED }
  w.call (.WriteMountHandler error)

def write_mount_metablock_ref_handler (w : World) (error : Bool) : World :=
  if error then complete_write_mount_request w true else
  let entry1_value := read_fat_entry_in_cache_block w w.o.block_ref FsStatusEntryIndex
  if entry1_value &&& Entry1CleanBit = 0 then complete_write_mount_request w true else
  if w.writable = false then complete_write_mount_request w true else
  if w.o.fs_info_block = 0 then complete_write_mount_request w true else
  let w := { w with o.write_mount_state := WriteMountState.MOUNT_FSINFO }
  let r := w.requestBlock w.o.fs_info_block_ref (get_abs_block_index w w.o.fs_info_block) true
  { w with o.fs_info_block_ref := r.1 }

def flush_request_handler (w : World) (error : Bool) : World :=
  match w.o.write_mount_state with
  | .MOUNT_FLUSH =>
    if error then
      let w := update_fs_clean_bit w w.o.block_ref true
      complete_write_mount_request w true
    else
      complete_write_mount_request w false
  | .UMOUNT_FLUSH1 =>
    if error then complete_write_unmount_request w true else
    let w := { w with o.write_mount_state := WriteMountState.UMOUNT_META }
    { w with o.block_ref := (request_fat_cache_block w w.o.block_ref FsStatusEntryIndex true).1 }
  | .UMOUNT_FLUSH2 =>
    complete_write_unmount_request w error
  | _ => w

def fs_info_block_ref_handler (w : World) (error : Bool) : World :=
  if error then complete_write_mount_request w true else
  let buffer := w.getData w.o.fs_info_block_ref
  let sig1 := ReadBinaryInt32 buffer FsInfoSig1Offset
  let sig2 := ReadBinaryInt32 buffer FsInfoSig2Offset
  let sig3 := ReadBinaryInt32 buffer FsInfoSig3Offset
  let alloc_cluster := ReadBinaryInt32 buffer FsInfoAllocatedClusterOffset
  if sig1 ≠ 0x41615252 ∨ sig2 ≠ 0x61417272 ∨ sig3 ≠ 0xAA550000 then
    complete_write_mount_request w true else
  let w := { w with o.alloc_position := 0 }
  let w :=
    if alloc_cluster ≥ 2 ∧ alloc_cluster < (2 + w.o.num_valid_clusters) % 2 ^ 32 then
      { w with o.alloc_position := alloc_cluster - 2 }
    else w
  let w := update_fs_clean_bit w w.o.block_ref false
  let w := { w with o.write_mount_state := WriteMountState.MOUNT_FLUSH }
  { w with o.flush_request := true }

def write_unmount_metablock_ref_handler (w : World) (error : Bool) : World :=
  if error then complete_write_unmount_request w true else
  let entry1_value := read_fat_entry_in_cache_block w w.o.block_ref FsStatusEntryIndex
  if entry1_value &&& Entry1CleanBit ≠ 0 then complete_write_unmount_request w true else
  let w := update_fs_clean_bit w w.o.block_ref true
  let w := { w with o.write_mount_state := WriteMountState.UMOUNT_FLUSH2 }
  { w with o.flush_request := true }

/-! ## FS information sector -/

def update_fs_info_allocated_cluster (w : World) : World :=
  let value := (2 + w.o.alloc_position) % 2 ^ 32
  let w := w.setData w.o.fs_info_block_ref.block
    (WriteBinaryInt32 value (w.getData w.o.fs_info_block_ref) FsInfoAllocatedClusterOffset)
  w.markDirty w.o.fs_info_block_ref

def update_fs_info_free_clusters (w : World) (inc_else_dec : Bool) : World :=
  let free_clusters :=
    ReadBinaryInt32 (w.getData w.o.fs_info_block_ref) FsInfoFreeClustersOffset
  if free_clusters ≤ w.o.num_valid_clusters then
    let free_clusters :=
      if inc_else_dec then (free_clusters + 1) % 2 ^ 32
      else (free_clusters + 2 ^ 32 - 1) % 2 ^ 32
    let w := w.setData w.o.fs_info_block_ref.block
      (WriteBinaryInt32 free_clusters (w.getData w.o.fs_info_block_ref)
        FsInfoFreeClustersOffset)
    w.markDirty w.o.fs_info_block_ref
  else w

/-! ## WriteReference -/

def WriteReference.isTaken (w : World) (i : Nat) : Bool :=
  (w.file i).m_write_ref.m_taken

/-- `WriteReference::take` on the reference of file `i`: the world after the
call and the returned flag. -/
def WriteReference.take (w : World) (i : Nat) : World × Bool :=
  if (w.file i).m_write_ref.m_taken = false then
    if w.o.write_mount_state ≠ WriteMountState.MOUNTED then (w, false) else
    let n := (w.o.num_write_references + 1) % 2 ^ w.SizeBits
    let w := { w with o.num_write_references := n }
    let w := w.setFile i { w.file i with m_write_ref.m_taken := true }
    (w, true)
  else (w, true)

def WriteReference.release (w : World) (i : Nat) : World :=
  if (w.file i).m_write_ref.m_taken = true then
    let n := (w.o.num_write_references + 2 ^ w.SizeBits - 1) % 2 ^ w.SizeBits
    let w := { w with o.num_write_references := n }
    w.setFile i { w.file i with m_write_ref.m_taken := false }
  else w

/-! ## DirEntryRef -/

def DirEntryRef.reset (w : World) (i : Nat) : World :=
  let d := (w.file i).m_dir_entry
  let d := { d with m_block_ref := d.m_block_ref.reset }
  let d := { d with m_state := DirEntryRefState.INVALID }
  w.setFile i { w.file i with m_dir_entry := d }

def DirEntryRef.requestEntryRef (w : World) (i : Nat) (block_index : Nat)
    (block_offset : Nat) : World :=
  let d := (w.file i).m_dir_entry
  let d := { d with m_state := DirEntryRefState.REQUESTING_BLOCK }
  let d := { d with m_block_offset := block_offset }
  let r := w.requestBlock d.m_block_ref (get_abs_block_index w block_index) true
  let d := { d with m_block_ref := r.1 }
  w.setFile i { w.file i with m_dir_entry := d }

/-- The offset computed by `DirEntryRef::get_entry_ptr`, relative to the start
of the buffer of the pinned block. -/
def DirEntryRef.get_entry_ptr (w : World) (i : Nat) : Nat :=
  (w.file i).m_dir_entry.m_block_offset * 32

def DirEntryRef.getFirstCluster (w : World) (i : Nat) : Nat :=
  mask_cluster_entry
    (read_dir_entry_first_cluster (w.getData (w.file i).m_dir_entry.m_block_ref)
      (DirEntryRef.get_entry_ptr w i))

def DirEntryRef.setFirstCluster (w : World) (i : Nat) (value : Nat) : World :=
  let r := (w.file i).m_dir_entry.m_block_ref
  let write_value :=
    update_cluster_entry
      (read_dir_entry_first_cluster (w.getData r) (DirEntryRef.get_entry_ptr w i)) value
  let w := w.setData r.block
    (write_dir_entry_first_cluster write_value (w.getData r) (DirEntryRef.get_entry_ptr w i))
  w.markDirty r

def DirEntryRef.getFileSize (w : World) (i : Nat) : Nat :=
  ReadBinaryInt32 (w.getData (w.file i).m_dir_entry.m_block_ref)
    (DirEntryRef.get_entry_ptr w i + DirEntrySizeOffset)

def DirEntryRef.setFileSize (w : World) (i : Nat) (value : Nat) : World :=
  let r := (w.file i).m_dir_entry.m_block_ref
  let w := w.setData r.block
    (WriteBinaryInt32 value (w.getData r) (DirEntryRef.get_entry_ptr w i + DirEntrySizeOffset))
  w.markDirty r

/-! ## ClusterChain: requests and accessors -/

/-- The chain owned by file `i`. -/
def World.chain (w : World) (i : Nat) : ClusterChain := (w.file i).m_chain

/-- Store the chain owned by file `i`. -/
def World.setChain (w : World) (i : Nat) (c : ClusterChain) : World :=
  w.setFile i { w.file i with m_chain := c }

def ClusterChain.rewind_internal (w : World) (i : Nat) : World :=
  let c := w.chain i
  let c := { c with m_iter_state := IterState.START }
  let c := { c with m_current_cluster := c.m_first_cluster }
  let c := { c with m_prev_cluster := 0 }
  w.setChain i c

def ClusterChain.init (w : World) (i : Nat) (first_cluster : Nat) : World :=
  let c : ClusterChain := { m_state := ChainState.IDLE, m_first_cluster := first_cluster }
  ClusterChain.rewind_internal (w.setChain i c) i

def ClusterChain.rewind (w : World) (i : Nat) : World :=
  ClusterChain.rewind_internal w i

def ClusterChain.requestNext (w : World) (i : Nat) : World :=
  let w := w.setChain i { w.chain i with m_state := ChainState.NEXT_CHECK }
  w.prependNowNotAlready (.chain_event i)

def ClusterChain.endReached (w : World) (i : Nat) : Bool :=
  decide ((w.chain i).m_iter_state = IterState.END)

def ClusterChain.getCurrentCluster (w : World) (i : Nat) : Nat :=
  (w.chain i).m_current_cluster

def ClusterChain.requestNew (w : World) (i : Nat) : World :=
  let w := w.setChain i { w.chain i with m_state := ChainState.NEW_CHECK }
  w.prependNowNotAlready (.chain_event i)

def ClusterChain.getFirstCluster (w : World) (i : Nat) : Nat :=
  (w.chain i).m_first_cluster

def ClusterChain.startTruncate (w : World) (i : Nat) : World :=
  let w := w.setChain i { w.chain i with m_state := ChainState.TRUNCATE_CHECK }
  w.prependNowNotAlready (.chain_event i)

/-! ## File -/

/-- Modelled from the spec: `TheBlockAccess::User::startRead`, a raw read of one
block into the user buffer. -/
def BlockAccessUser.startRead (w : World) (i : Nat) (block : Nat) : World :=
  let u : BlockAccessUser := { busy := true, block := block, writing := false }
  w.setFile i { w.file i with m_block_user := u }

/-- Modelled from the spec: `TheBlockAccess::User::startWrite`, a raw write of
one block from the user buffer. -/
def BlockAccessUser.startWrite (w : World) (i : Nat) (block : Nat) : World :=
  let u : BlockAccessUser := { busy := true, block := block, writing := true }
  w.setFile i { w.file i with m_block_user := u }

/-- `File::init`; the new file takes the next free number. -/
def File.init (w : World) (file_entry : FsEntry) : World :=
  let i := w.files.length
  let w := { w with files := w.files ++ [default] }
  let w := ClusterChain.init w i file_entry.cluster_index
  let f := w.file i
  let f := { f with m_block_user := {} }
  let f := { f with m_dir_entry := { m_state := DirEntryRefState.INVALID } }
  let f := { f with m_write_ref := { m_taken := false } }
  let f := { f with m_dir_entry_block_index := file_entry.dir_entry_block_index }
  let f := { f with m_dir_entry_block_offset := file_entry.dir_entry_block_offset }
  let f := { f with m_file_size := file_entry.file_size }
  let f := { f with m_state := FileState.IDLE }
  let f := { f with m_file_pos := 0 }
  let f := { f with m_block_in_cluster := w.o.blocks_per_cluster }
  w.setFile i f

def File.rewind (w : World) (i : Nat) : World :=
  let w := ClusterChain.rewind w i
  let w := w.setFile i { w.file i with m_file_pos := 0 }
  w.setFile i { w.file i with m_block_in_cluster := w.o.blocks_per_cluster }

def File.startRead (w : World) (i : Nat) : World :=
  let w := w.setFile i { w.file i with m_state := FileState.READ_EVENT }
  w.prependNowNotAlready (.file_event i)

def File.startOpenWritable (w : World) (i : Nat) : World :=
  let w := w.setFile i { w.file i with m_state := FileState.OPENWR_EVENT }
  w.prependNowNotAlready (.file_event i)

def File.startWrite (w : World) (i : Nat) (bytes_in_block : Nat) : World :=
  let w := w.setFile i { w.file i with m_write_bytes_in_block := bytes_in_block }
  let w := w.setFile i { w.file i with m_state := FileState.WRITE_EVENT }
  w.prependNowNotAlready (.file_event i)

def File.startTruncate (w : World) (i : Nat) : World :=
  let w := w.setFile i { w.file i with m_state := FileState.TRUNC_EVENT }
  w.prependNowNotAlready (.file_event i)

def File.complete_request (w : World) (i : Nat) (error : Bool) (length : Nat) : World :=
  let w := w.setFile i { w.file i with m_state := FileState.IDLE }
  w.call (.FileHandler i error length)

def File.clean_up_writability (w : World) (i : Nat) : World :=
  let w := WriteReference.release w i
  DirEntryRef.reset w i

def File.complete_open_writable_request (w : World) (i : Nat) (error : Bool) : World :=
  let w := if error then File.clean_up_writability w i else w
  File.complete_request w i error 0

def File.closeWritable (w : World) (i : Nat) : World :=
  File.clean_up_writability w i

def File.event_handler (w : World) (i : Nat) : World :=
  match (w.file i).m_state with
  | .READ_EVENT =>
    if (w.file i).m_file_pos ≥ (w.file i).m_file_size then
      File.complete_request w i false 0 else
    if (w.file i).m_block_in_cluster = w.o.blocks_per_cluster then
      let w := w.setFile i { w.file i with m_state := FileState.READ_NEXT_CLUSTER }
      ClusterChain.requestNext w i
    else
    if is_cluster_idx_valid_for_data w (ClusterChain.getCurrentCluster w i) = false then
      File.complete_request w i true 0 else
    let w := w.setFile i { w.file i with m_state := FileState.READ_DATA }
    let block_idx := get_cluster_data_block_index w (ClusterChain.getCurrentCluster w i)
      (w.file i).m_block_in_cluster
    BlockAccessUser.startRead w i (get_abs_block_index w block_idx)
  | .OPENWR_EVENT =>
    let (w, taken) := WriteReference.take w i
    if taken = false then File.complete_open_writable_request w i true else
    let w := w.setFile i { w.file i with m_state := FileState.OPENWR_DIR_ENTRY }
    DirEntryRef.requestEntryRef w i (w.file i).m_dir_entry_block_index
      (w.file i).m_dir_entry_block_offset
  | .WRITE_EVENT =>
    if WriteReference.isTaken w i = false then File.complete_request w i true 0 else
    if (w.file i).m_block_in_cluster = w.o.blocks_per_cluster then
      let w := w.setFile i { w.file i with m_state := FileState.WRITE_NEXT_CLUSTER }
      ClusterChain.requestNext w i
    else
    if is_cluster_idx_valid_for_data w (ClusterChain.getCurrentCluster w i) = false then
      File.complete_request w i true 0 else
    let w := w.setFile i { w.file i with m_state := FileState.WRITE_DATA }
    let block_idx := get_cluster_data_block_index w (ClusterChain.getCurrentCluster w i)
      (w.file i).m_block_in_cluster
    BlockAccessUser.startWrite w i (get_abs_block_index w block_idx)
  | .TRUNC_EVENT =>
    if WriteReference.isTaken w i = false then File.complete_request w i true 0 else
    let w :=
      if (w.file i).m_file_size > (w.file i).m_file_pos then
        let w := w.setFile i { w.file i with m_file_size := (w.file i).m_file_pos }
        DirEntryRef.setFileSize w i (w.file i).m_file_size
      else w
    let w := w.setFile i { w.file i with m_state := FileState.TRUNC_CHAIN }
    ClusterChain.startTruncate w i
  | _ => w

def File.chain_handler (w : World) (i : Nat) (error : Bool) (first_cluster_changed : Bool) :
    World :=
  let w :=
    if first_cluster_changed then
      DirEntryRef.setFirstCluster w i (ClusterChain.getFirstCluster w i)
    else w
  match (w.file i).m_state with
  | .READ_NEXT_CLUSTER =>
    if error = true ∨ ClusterChain.endReached w i = true then
      File.complete_request w i true 0 else
    let w := w.setFile i { w.file i with m_block_in_cluster := 0 }
    let w := w.setFile i { w.file i with m_state := FileState.READ_EVENT }
    w.prependNowNotAlready (.file_event i)
  | .WRITE_NEXT_CLUSTER =>
    if error then File.complete_request w i true 0 else
    if ClusterChain.endReached w i then ClusterChain.requestNew w i else
    let w := w.setFile i { w.file i with m_block_in_cluster := 0 }
    let w := w.setFile i { w.file i with m_state := FileState.WRITE_EVENT }
    w.prependNowNotAlready (.file_event i)
  | .TRUNC_CHAIN =>
    File.complete_request w i error 0
  | _ => w

def File.block_user_handler (w : World) (i : Nat) (error : Bool) : World :=
  match (w.file i).m_state with
  | .READ_DATA =>
    if error then File.complete_request w i true 0 else
    let bytes_in_block := min (w.BlockSize % 2 ^ 32)
      (((w.file i).m_file_size + 2 ^ 32 - (w.file i).m_file_pos) % 2 ^ 32)
    let file_pos := ((w.file i).m_file_pos + bytes_in_block) % 2 ^ 32
    let w := w.setFile i { w.file i with m_file_pos := file_pos }
    let block_in_cluster := ((w.file i).m_block_in_cluster + 1) % 2 ^ 16
    let w := w.setFile i { w.file i with m_block_in_cluster := block_in_cluster }
    File.complete_request w i false bytes_in_block
  | .WRITE_DATA =>
    if error then File.complete_request w i true 0 else
    let file_pos := ((w.file i).m_file_pos + (w.file i).m_write_bytes_in_block) % 2 ^ 32
    let w := w.setFile i { w.file i with m_file_pos := file_pos }
    let w :=
      if (w.file i).m_file_size < (w.file i).m_file_pos then
        let w := w.setFile i { w.file i with m_file_size := (w.file i).m_file_pos }
        DirEntryRef.setFileSize w i (w.file i).m_file_size
      else w
    let block_in_cluster := ((w.file i).m_block_in_cluster + 1) % 2 ^ 16
    let w := w.setFile i { w.file i with m_block_in_cluster := block_in_cluster }
    File.complete_request w i false 0
  | _ => w

def File.dir_entry_handler (w : World) (i : Nat) (error : Bool) : World :=
  if error then File.complete_open_writable_request w i true else
  if DirEntryRef.getFirstCluster w i ≠ ClusterChain.getFirstCluster w i then
    File.complete_open_writable_request w i true else
  if DirEntryRef.getFileSize w i ≠ (w.file i).m_file_size then
    File.complete_open_writable_request w i true else
  File.complete_open_writable_request w i false

def DirEntryRef.block_ref_handler (w : World) (i : Nat) (error : Bool) : World :=
  let d := (w.file i).m_dir_entry
  let state := if error then DirEntryRefState.INVALID else DirEntryRefState.READY
  let d := { d with m_state := state }
  let w := w.setFile i { w.file i with m_dir_entry := d }
  File.dir_entry_handler w i error

/-! ## ClusterChain: handlers, and the allocator -/

def ClusterChain.complete_request (w : World) (i : Nat) (error : Bool)
    (first_cluster_changed : Bool) : World :=
  let c := w.chain i
  let c := { c with m_state := ChainState.IDLE }
  let c := { c with m_fat_cache_ref1 := c.m_fat_cache_ref1.reset }
  let c := { c with m_fat_cache_ref2 := c.m_fat_cache_ref2.reset }
  File.chain_handler (w.setChain i c) i error first_cluster_changed

def start_new_allocation (w : World) : World :=
  let w := { w with o.alloc_state := AllocationState.CHECK_EVENT }
  let w := { w with o.alloc_start := w.o.alloc_position }
  w.prependNowNotAlready .alloc_event

def allocation_request_added (w : World) : World :=
  if w.o.alloc_state = AllocationState.IDLE then start_new_allocation w else w

def allocation_request_removed (w : World) : World :=
  if w.o.alloc_state ≠ AllocationState.IDLE ∧ w.o.allocating_chains_list.isEmpty = true then
    let w := { w with o.alloc_state := AllocationState.IDLE }
    let w := w.unset .alloc_event
    { w with o.block_ref := w.o.block_ref.reset }
  else w

/-- The part of `ClusterChain::event_handler`, case `NEXT_CHECK`, that follows
the block guarded by `m_iter_state == IterState::CLUSTER`. -/
def ClusterChain.event_handler_next_check_end (w : World) (i : Nat) : World :=
  let c := w.chain i
  let iter_state :=
    if is_cluster_idx_normal c.m_current_cluster then IterState.CLUSTER else IterState.END
  let w :=
    if c.m_iter_state ≠ IterState.END then w.setChain i { c with m_iter_state := iter_state }
    else w
  ClusterChain.complete_request w i false false

def ClusterChain.event_handler (w : World) (i : Nat) : World :=
  match (w.chain i).m_state with
  | .NEXT_CHECK =>
    if (w.chain i).m_iter_state = IterState.CLUSTER then
      if is_cluster_idx_valid_for_fat w (w.chain i).m_current_cluster = false then
        ClusterChain.complete_request w i true false else
      let r := request_fat_cache_block w (w.chain i).m_fat_cache_ref1
        (w.chain i).m_current_cluster false
      let w := w.setChain i { w.chain i with m_fat_cache_ref1 := r.1 }
      if r.2 = false then
        w.setChain i { w.chain i with m_state := ChainState.NEXT_REQUESTING_FAT } else
      let w := w.setChain i { w.chain i with m_prev_cluster := (w.chain i).m_current_cluster }
      let fat_value := read_fat_entry_in_cache_block w (w.chain i).m_fat_cache_ref1
        (w.chain i).m_current_cluster
      let w := w.setChain i { w.chain i with m_current_cluster := fat_value }
      ClusterChain.event_handler_next_check_end w i
    else
      ClusterChain.event_handler_next_check_end w i
  | .NEW_CHECK =>
    let r :=
      if is_cluster_idx_normal (w.chain i).m_prev_cluster then
        request_fat_cache_block w (w.chain i).m_fat_cache_ref1 (w.chain i).m_prev_cluster false
      else ((w.chain i).m_fat_cache_ref1, true)
    let w := w.setChain i { w.chain i with m_fat_cache_ref1 := r.1 }
    if r.2 = false then
      w.setChain i { w.chain i with m_state := ChainState.NEW_REQUESTING_FAT } else
    let w := w.setChain i { w.chain i with m_state := ChainState.NEW_ALLOCATING }
    let w := { w with o.allocating_chains_list := w.o.allocating_chains_list ++ [i] }
    allocation_request_added w
  | .TRUNCATE_CHECK =>
    if is_cluster_idx_normal (w.chain i).m_current_cluster = false then
      ClusterChain.complete_request w i false false else
    if is_cluster_idx_valid_for_fat w (w.chain i).m_current_cluster = false then
      ClusterChain.complete_request w i true false else
    let r := request_fat_cache_block w (w.chain i).m_fat_cache_ref1
      (w.chain i).m_current_cluster false
    let w := w.setChain i { w.chain i with m_fat_cache_ref1 := r.1 }
    if r.2 = false then
      w.setChain i { w.chain i with m_state := ChainState.TRUNCATE_REQUESTING_FAT } else
    let next_cluster := read_fat_entry_in_cache_block w (w.chain i).m_fat_cache_ref1
      (w.chain i).m_current_cluster
    if is_cluster_idx_normal next_cluster = false then
      if (w.chain i).m_iter_state = IterState.START then
        let w := update_fat_entry_in_cache_block w (w.chain i).m_fat_cache_ref1
          (w.chain i).m_current_cluster FreeClusterMarker
        let w := update_fs_info_free_clusters w true
        let w := w.setChain i { w.chain i with m_first_cluster := EndOfChainMarker }
        let w := w.setChain i { w.chain i with m_current_cluster := (w.chain i).m_first_cluster }
        ClusterChain.complete_request w i false true
      else
        ClusterChain.complete_request w i false false
    else
    if is_cluster_idx_valid_for_fat w next_cluster = false then
      ClusterChain.complete_request w i true false else
    let r := request_fat_cache_block w (w.chain i).m_fat_cache_ref2 next_cluster false
    let w := w.setChain i { w.chain i with m_fat_cache_ref2 := r.1 }
    if r.2 = false then
      w.setChain i { w.chain i with m_state := ChainState.TRUNCATE_REQUESTING_FAT2 } else
    let after_next_cluster :=
      read_fat_entry_in_cache_block w (w.chain i).m_fat_cache_ref2 next_cluster
    let w := update_fat_entry_in_cache_block w (w.chain i).m_fat_cache_ref1
      (w.chain i).m_current_cluster after_next_cluster
    let w := update_fat_entry_in_cache_block w (w.chain i).m_fat_cache_ref2
      next_cluster FreeClusterMarker
    let w := update_fs_info_free_clusters w true
    w.prependNowNotAlready (.chain_event i)
  | _ => w

def ClusterChain.fat_cache_ref_handler (w : World) (i : Nat) (error : Bool) : World :=
  match (w.chain i).m_state with
  | .NEXT_REQUESTING_FAT =>
    if error then ClusterChain.complete_request w i true false else
    let w := w.setChain i { w.chain i with m_state := ChainState.NEXT_CHECK }
    w.prependNowNotAlready (.chain_event i)
  | .NEW_REQUESTING_FAT =>
    if error then ClusterChain.complete_request w i true false else
    let w := w.setChain i { w.chain i with m_state := ChainState.NEW_CHECK }
    w.prependNowNotAlready (.chain_event i)
  | .TRUNCATE_REQUESTING_FAT =>
    if error then ClusterChain.complete_request w i true false else
    let w := w.setChain i { w.chain i with m_state := ChainState.TRUNCATE_CHECK }
    w.prependNowNotAlready (.chain_event i)
  | .TRUNCATE_REQUESTING_FAT2 =>
    if error then ClusterChain.complete_request w i true false else
    let w := w.setChain i { w.chain i with m_state := ChainState.TRUNCATE_CHECK }
    w.prependNowNotAlready (.chain_event i)
  | _ => w

def ClusterChain.allocation_result (w : World) (i : Nat) (error : Bool)
    (new_cluster_index : Nat) : World :=
  let w := { w with o.allocating_chains_list := w.o.allocating_chains_list.erase i }
  if error then ClusterChain.complete_request w i error false else
  let w := w.setChain i { w.chain i with m_current_cluster := new_cluster_index }
  let changing_first_cluster := !is_cluster_idx_normal (w.chain i).m_prev_cluster
  let w :=
    if changing_first_cluster then
      w.setChain i { w.chain i with m_first_cluster := (w.chain i).m_current_cluster }
    else
      update_fat_entry_in_cache_block w (w.chain i).m_fat_cache_ref1
        (w.chain i).m_prev_cluster (w.chain i).m_current_cluster
  let w := w.setChain i { w.chain i with m_iter_state := IterState.CLUSTER }
  ClusterChain.complete_request w i false changing_first_cluster

def ClusterChain.deinit (w : World) (i : Nat) : World :=
  let w :=
    if (w.chain i).m_state = ChainState.NEW_ALLOCATING then
      let w := { w with o.allocating_chains_list := w.o.allocating_chains_list.erase i }
      allocation_request_removed w
    else w
  let w := w.setChain i { w.chain i with m_fat_cache_ref2 := (w.chain i).m_fat_cache_ref2.reset }
  let w := w.setChain i { w.chain i with m_fat_cache_ref1 := (w.chain i).m_fat_cache_ref1.reset }
  w.unset (.chain_event i)

def File.deinit (w : World) (i : Nat) : World :=
  let w := WriteReference.release w i
  let w := DirEntryRef.reset w i
  let w := w.setFile i { w.file i with m_block_user := {} }
  let w := ClusterChain.deinit w i
  w.unset (.file_event i)

def complete_allocation (w : World) (error : Bool) (cluster_index : Nat) : World :=
  match w.o.allocating_chains_list with
  | [] => w
  | complete_request :: more =>
    let have_more_requests := !more.isEmpty
    let w :=
      if have_more_requests then start_new_allocation w
      else
        let w := { w with o.alloc_state := AllocationState.IDLE }
        { w with o.block_ref := w.o.block_ref.reset }
    ClusterChain.allocation_result w complete_request error cluster_index

/-- The `while (true)` loop of `alloc_event_handler`, one iteration for each
unit of `fuel`; `none` when the fuel is used up before the loop is left. -/
def alloc_event_handler_loop : Nat → World → Option World
  | 0, _ => none
  | fuel + 1, w =>
    let current_cluster := (2 + w.o.alloc_position) % 2 ^ 32
    let r := request_fat_cache_block w w.o.block_ref current_cluster false
    let w := { w with o.block_ref := r.1 }
    if r.2 = false then
      some { w with o.alloc_state := AllocationState.REQUESTING_BLOCK } else
    let w := { w with o.alloc_position := (w.o.alloc_position + 1) % 2 ^ 32 }
    let w :=
      if w.o.alloc_position = w.o.num_valid_clusters then { w with o.alloc_position := 0 }
      else w
    let fat_value := read_fat_entry_in_cache_block w w.o.block_ref current_cluster
    if fat_value = 0 then
      let w := update_fat_entry_in_cache_block w w.o.block_ref current_cluster EndOfChainMarker
      let w := update_fs_info_free_clusters w false
      let w := update_fs_info_allocated_cluster w
      some (complete_allocation w false current_cluster)
    else
    if w.o.alloc_position = w.o.alloc_start then
      some (complete_allocation w true 0)
    else
      alloc_event_handler_loop fuel w

/-- `FatFs::alloc_event_handler`.  `alloc_position` is a 32-bit counter that is
reset on reaching `num_valid_clusters`, so it repeats a value within
`2 ^ 32 + num_valid_clusters + 1` iterations; `none` means that the loop has
not been left by then. -/
def alloc_event_handler (w : World) : Option World :=
  alloc_event_handler_loop (2 ^ 32 + w.o.num_valid_clusters + 1) w

def alloc_block_ref_handler (w : World) (error : Bool) : World :=
  if error then complete_allocation w true 0 else
  let w := { w with o.alloc_state := AllocationState.CHECK_EVENT }
  w.prependNowNotAlready .alloc_event

def block_ref_handler (w : World) (error : Bool) : Option World :=
  if w.o.state = FsState.INIT then init_block_ref_handler w error
  else if w.o.state = FsState.READY then
    if w.o.write_mount_state = WriteMountState.MOUNT_META then
      some (write_mount_metablock_ref_handler w error)
    else if w.o.write_mount_state = WriteMountState.UMOUNT_META then
      some (write_unmount_metablock_ref_handler w error)
    else if w.o.alloc_state = AllocationState.REQUESTING_BLOCK then
      some (alloc_block_ref_handler w error)
    else some w
  else some w

/-! ## The transition function -/

/-- What reaches the driver from outside: the event loop running the first
queued event, a collaborator completing an outstanding request (with its error
flag), or the client calling the programming interface. -/
inductive Input where
  | queued
  | block_ref (error : Bool)
  | fs_info_block_ref (error : Bool)
  | flush_request (error : Bool)
  | fat_cache_ref1 (i : Nat) (error : Bool)
  | fat_cache_ref2 (i : Nat) (error : Bool)
  | dir_entry_block_ref (i : Nat) (error : Bool)
  | block_user (i : Nat) (error : Bool)
  | startWriteMount
  | startWriteUnmount
  | File_init (file_entry : FsEntry)
  | File_deinit (i : Nat)
  | File_rewind (i : Nat)
  | File_startRead (i : Nat)
  | File_startOpenWritable (i : Nat)
  | File_closeWritable (i : Nat)
  | File_startWrite (i : Nat) (bytes_in_block : Nat)
  | File_startTruncate (i : Nat)
  deriving DecidableEq, Repr, Inhabited

/-- Modelled from the spec: the block cache ends a pending pin; on success the
reference becomes usable, on error it is dropped. -/
def CacheBlockRef.complete (r : CacheBlockRef) (error : Bool) : CacheBlockRef :=
  if error then r.reset else { state := .READY, block := r.block }

/-- Modelled from the spec: after a successful pin the block is in the cache. -/
def World.blockLoaded (w : World) (r : CacheBlockRef) (error : Bool) : World :=
  if error then w
  else { w with loaded := fun b => if b = r.block then true else w.loaded b }

/-- Modelled from the spec: a successful device-wide flush leaves no block
dirty; in both cases the flush request is no longer outstanding. -/
def World.flushDone (w : World) (error : Bool) : World :=
  let w := { w with o.flush_request := false }
  if error then w else { w with dirty := fun _ => false }

/-- Modelled from the spec: the block cache answers the pin held by
`block_ref` of the filesystem object. -/
def World.answer_block_ref (w : World) (error : Bool) : World :=
  let w := w.blockLoaded w.o.block_ref error
  { w with o.block_ref := w.o.block_ref.complete error }

/-- Modelled from the spec: the block cache answers the pin held by
`fs_info_block_ref`. -/
def World.answer_fs_info_block_ref (w : World) (error : Bool) : World :=
  let w := w.blockLoaded w.o.fs_info_block_ref error
  { w with o.fs_info_block_ref := w.o.fs_info_block_ref.complete error }

/-- Modelled from the spec: the block cache answers the pin held by
`m_fat_cache_ref1` of the chain of file `i`. -/
def World.answer_fat_cache_ref1 (w : World) (i : Nat) (error : Bool) : World :=
  let w := w.blockLoaded (w.chain i).m_fat_cache_ref1 error
  let r := (w.chain i).m_fat_cache_ref1.complete error
  w.setChain i { w.chain i with m_fat_cache_ref1 := r }

/-- Modelled from the spec: the block cache answers the pin held by
`m_fat_cache_ref2` of the chain of file `i`. -/
def World.answer_fat_cache_ref2 (w : World) (i : Nat) (error : Bool) : World :=
  let w := w.blockLoaded (w.chain i).m_fat_cache_ref2 error
  let r := (w.chain i).m_fat_cache_ref2.complete error
  w.setChain i { w.chain i with m_fat_cache_ref2 := r }

/-- Modelled from the spec: the block cache answers the pin held by the
directory-entry reference of file `i`. -/
def World.answer_dir_entry_block_ref (w : World) (i : Nat) (error : Bool) : World :=
  let w := w.blockLoaded (w.file i).m_dir_entry.m_block_ref error
  let d := (w.file i).m_dir_entry
  let d := { d with m_block_ref := d.m_block_ref.complete error }
  w.setFile i { w.file i with m_dir_entry := d }

/-- Modelled from the spec: the block-access layer ends the raw transfer of
file `i`. -/
def World.answer_block_user (w : World) (i : Nat) : World :=
  let u := { (w.file i).m_block_user with busy := false }
  w.setFile i { w.file i with m_block_user := u }

/-- One transition of the driver.  `none` means that the input cannot occur in
this state (nothing queued, no such request outstanding, or a client call
whose assertions do not hold), or that the source runs into undefined
behaviour or a loop without end (see `init_block_ref_handler`,
`alloc_event_handler`). -/
def step (w : World) : Input → Option World
  | .queued =>
    match w.queue with
    | [] => none
    | e :: rest =>
      let w := { w with queue := rest }
      match e with
      | .alloc_event => alloc_event_handler w
      | .file_event i => some (File.event_handler w i)
      | .chain_event i => some (ClusterChain.event_handler w i)
  | .block_ref error =>
    if w.o.block_ref.state = CacheRefState.REQUESTING then
      block_ref_handler (w.answer_block_ref error) error
    else none
  | .fs_info_block_ref error =>
    if w.o.fs_info_block_ref.state = CacheRefState.REQUESTING then
      some (fs_info_block_ref_handler (w.answer_fs_info_block_ref error) error)
    else none
  | .flush_request error =>
    if w.o.flush_request = true then
      some (flush_request_handler (w.flushDone error) error)
    else none
  | .fat_cache_ref1 i error =>
    if i < w.files.length ∧ (w.chain i).m_fat_cache_ref1.state = CacheRefState.REQUESTING then
      some (ClusterChain.fat_cache_ref_handler (w.answer_fat_cache_ref1 i error) i error)
    else none
  | .fat_cache_ref2 i error =>
    if i < w.files.length ∧ (w.chain i).m_fat_cache_ref2.state = CacheRefState.REQUESTING then
      some (ClusterChain.fat_cache_ref_handler (w.answer_fat_cache_ref2 i error) i error)
    else none
  | .dir_entry_block_ref i error =>
    if i < w.files.length ∧
        (w.file i).m_dir_entry.m_block_ref.state = CacheRefState.REQUESTING then
      some (DirEntryRef.block_ref_handler (w.answer_dir_entry_block_ref i error) i error)
    else none
  | .block_user i error =>
    if i < w.files.length ∧ (w.file i).m_block_user.busy = true then
      some (File.block_user_handler (w.answer_block_user i) i error)
    else none
  | .startWriteMount =>
    if w.o.state = FsState.READY ∧ w.o.write_mount_state = WriteMountState.NOT_MOUNTED then
      some (startWriteMount w)
    else none
  | .startWriteUnmount =>
    if w.o.state = FsState.READY ∧ w.o.write_mount_state = WriteMountState.MOUNTED ∧
        w.o.num_write_references = 0 then
      some (startWriteUnmount w)
    else none
  | .File_init file_entry =>
    if w.o.state = FsState.READY ∧ file_entry.type = EntryType.FILE then
      some (File.init w file_entry)
    else none
  | .File_deinit i =>
    if i < w.files.length ∧ (w.file i).m_state = FileState.IDLE then
      some (File.deinit w i)
    else none
  | .File_rewind i =>
    if i < w.files.length ∧ (w.file i).m_state = FileState.IDLE then
      some (File.rewind w i)
    else none
  | .File_startRead i =>
    if i < w.files.length ∧ (w.file i).m_state = FileState.IDLE then
      some (File.startRead w i)
    else none
  | .File_startOpenWritable i =>
    if i < w.files.length ∧ (w.file i).m_state = FileState.IDLE ∧
        WriteReference.isTaken w i = false then
      some (File.startOpenWritable w i)
    else none
  | .File_closeWritable i =>
    if i < w.files.length ∧ (w.file i).m_state = FileState.IDLE then
      some (File.closeWritable w i)
    else none
  | .File_startWrite i bytes_in_block =>
    if i < w.files.length ∧ (w.file i).m_state = FileState.IDLE ∧ bytes_in_block > 0 ∧
        bytes_in_block ≤ w.BlockSize ∧ (w.file i).m_file_pos % w.BlockSize = 0 then
      some (File.startWrite w i bytes_in_block)
    else none
  | .File_startTruncate i =>
    if i < w.files.length ∧ (w.file i).m_state = FileState.IDLE then
      some (File.startTruncate w i)
    else none

/-! ## Running the collaborators -/

/-- The request of one file that a collaborator has still to answer, if any. -/
def File.pending (f : File) (i : Nat) : Option (Bool → Input) :=
  if f.m_chain.m_fat_cache_ref1.state = CacheRefState.REQUESTING then
    some (Input.fat_cache_ref1 i)
  else if f.m_chain.m_fat_cache_ref2.state = CacheRefState.REQUESTING then
    some (Input.fat_cache_ref2 i)
  else if f.m_dir_entry.m_block_ref.state = CacheRefState.REQUESTING then
    some (Input.dir_entry_block_ref i)
  else if f.m_block_user.busy = true then
    some (Input.block_user i)
  else none

/-- The first pending request among the files `fs`, numbered from `i`. -/
def pendingFiles : List File → Nat → Option (Bool → Input)
  | [], _ => none
  | f :: fs, i =>
    match f.pending i with
    | some p => some p
    | none => pendingFiles fs (i + 1)

/-- The request that a collaborator has still to answer, if any: those of the
filesystem object first, then those of the files in order. -/
def pending (w : World) : Option (Bool → Input) :=
  if w.o.block_ref.state = CacheRefState.REQUESTING then some Input.block_ref
  else if w.o.fs_info_block_ref.state = CacheRefState.REQUESTING then
    some Input.fs_info_block_ref
  else if w.o.flush_request = true then some Input.flush_request
  else pendingFiles w.files 0

/-- Let the event loop and the collaborators work until nothing is queued and
nothing is outstanding: queued events run first; otherwise the pending request
is answered, with the next flag of `errors` as its error flag (no error once
the list is used up).  At most `fuel` transitions are made; `none` when that
is not enough or when a transition has no result. -/
def run : Nat → List Bool → World → Option World
  | 0, _, _ => none
  | fuel + 1, errors, w =>
    if w.queue ≠ [] then (step w .queued).bind (run fuel errors)
    else
      match pending w with
      | none => some w
      | some answer => (step w (answer (errors.headD false))).bind (run fuel errors.tail)

/-- A boot block given by its EBPB fields (all other bytes zero). -/
def bootBlock (sector_size sectors_per_cluster num_reserved_sectors num_fats max_root
    sectors_per_fat root_cluster fs_info_sector sig : Nat) : Buffer :=
  WriteBinaryInt16 sector_size
    (fun k => if k = 0xD then sectors_per_cluster % 256 else
      (WriteBinaryInt16 num_reserved_sectors
        (fun k => if k = 0x10 then num_fats % 256 else
          (WriteBinaryInt16 max_root
            (WriteBinaryInt32 sectors_per_fat
              (WriteBinaryInt32 root_cluster
                (WriteBinaryInt16 fs_info_sector
                  (fun k => if k = 0x42 then sig % 256 else 0) 0x30) 0x2C) 0x24) 0x11) k)
        0xE) k)
    0xB

/-- A world in state `INIT` whose block 0 is the given buffer, on a partition of
`length` blocks of 512 bytes starting at device block 0. -/
def initWorld (buffer : Buffer) (length : Nat) : World :=
  init { data := fun b => if b = 0 then buffer else fun _ => 0 } { base := 0, length := length }

/-! ## Notions used in the statements -/

/-- The conditions under which the specification lets `init` succeed, in its
words, for a boot block `buffer` on a partition of `length` blocks. -/
def InitConditions (BlockSize : Nat) (buffer : Buffer) (length : Nat) : Prop :=
  let sector_size := ReadBinaryInt16 buffer 0xB
  let sectors_per_cluster := ReadBinaryInt8 buffer 0xD
  let reserved_sectors := ReadBinaryInt16 buffer 0xE
  let num_fats := ReadBinaryInt8 buffer 0x10
  let max_root := ReadBinaryInt16 buffer 0x11
  let sectors_per_fat := ReadBinaryInt32 buffer 0x24
  let root_cluster := ReadBinaryInt32 buffer 0x2C
  let fs_info_sector := ReadBinaryInt16 buffer 0x30
  let sig := ReadBinaryInt8 buffer 0x42
  let blocks_per_sector := sector_size / BlockSize
  let blocks_per_cluster := sectors_per_cluster * blocks_per_sector
  let num_reserved_blocks := reserved_sectors * blocks_per_sector
  let fat_end_blocks := (reserved_sectors + num_fats * sectors_per_fat) * blocks_per_sector
  (sector_size > 0 ∧ sector_size % BlockSize = 0) ∧
  sectors_per_cluster * blocks_per_sector ≤ 65535 ∧
  reserved_sectors * sector_size ≥ 0x47 ∧
  (num_fats = 1 ∨ num_fats = 2) ∧
  (sig = 0x28 ∨ sig = 0x29) ∧
  max_root = 0 ∧
  root_cluster &&& 0x0FFFFFFF ≥ 2 ∧
  (sectors_per_fat > 0 ∧ sectors_per_fat * (sector_size / 4) ≤ 2 ^ 32 - 1) ∧
  reserved_sectors + num_fats * sectors_per_fat ≤ length / blocks_per_sector ∧
  (fs_info_sector = 0 ∨ fs_info_sector = 0xFFFF ∨
    fs_info_sector * blocks_per_sector < num_reserved_blocks) ∧
  (length - fat_end_blocks) / blocks_per_cluster ≥ 1

instance (BlockSize : Nat) (buffer : Buffer) (length : Nat) :
    Decidable (InitConditions BlockSize buffer length) := by
  unfold InitConditions
  infer_instance

/-- Nothing is queued and no request is outstanding. -/
def quiescent (w : World) : Prop := w.queue = [] ∧ (pending w).isNone = true

instance (w : World) : Decidable (quiescent w) := by
  unfold quiescent
  infer_instance

/-- The raw 32-bit word of FAT entry #1 as the cache holds it. -/
def fatEntry1 (w : World) : Nat :=
  ReadBinaryInt32 (w.data (get_abs_block_index_for_fat_entry w FsStatusEntryIndex))
    (get_fat_ptr_in_cache_block w FsStatusEntryIndex)

/-- The three signatures of the FS information sector are the expected ones. -/
def fsInfoSignaturesOk (w : World) : Prop :=
  let buffer := w.data (get_abs_block_index w w.o.fs_info_block)
  ReadBinaryInt32 buffer 0x0 = 0x41615252 ∧
  ReadBinaryInt32 buffer 0x1E4 = 0x61417272 ∧
  ReadBinaryInt32 buffer 0x1FC = 0xAA550000

/-- The world in the middle of a write-mount, after the FAT block with entry #1
has been pinned and has passed the checks: the FS information sector is being
pinned. -/
def mountMetaOk (w : World) : World :=
  let F := get_abs_block_index_for_fat_entry w FsStatusEntryIndex
  let I := get_abs_block_index w w.o.fs_info_block
  let o := { w.o with block_ref := { state := .READY, block := F },
                      fs_info_block_ref := { state := .REQUESTING, block := I },
                      write_mount_state := WriteMountState.MOUNT_FSINFO }
  { w with loaded := fun b => if b = F then true else w.loaded b, o := o }

/-- The world in the middle of a write-mount, after the FS information sector
has been pinned and its signatures accepted: the clean bit has been cleared in
the cache and the device-wide flush is outstanding. -/
def mountFsInfoOk (w : World) : World :=
  fs_info_block_ref_handler ((mountMetaOk w).answer_fs_info_block_ref false) false

/-- The same world written out, with `p` the seeded `alloc_position`. -/
def mountFsInfoWorld (w : World) (p : Nat) : World :=
  let w := (mountMetaOk w).answer_fs_info_block_ref false
  let w := { w with o.alloc_position := p }
  let w := update_fs_clean_bit w w.o.block_ref false
  let w := { w with o.write_mount_state := WriteMountState.MOUNT_FLUSH }
  { w with o.flush_request := true }

/-- The conditions, in the order of the protocol, under which the specification
lets a write-mount succeed; `e1`, `e2`, `e3` are the error flags of the pin of
the FAT block, of the pin of the FS information sector and of the flush. -/
def MountConditions (w : World) (e1 e2 e3 : Bool) : Prop :=
  e1 = false ∧ (fatEntry1 w).testBit 27 = true ∧ w.writable = true ∧
  w.o.fs_info_block ≠ 0 ∧ e2 = false ∧ fsInfoSignaturesOk w ∧ e3 = false

instance (w : World) : Decidable (fsInfoSignaturesOk w) := by
  unfold fsInfoSignaturesOk
  infer_instance

instance (w : World) (e1 e2 e3 : Bool) : Decidable (MountConditions w e1 e2 e3) := by
  unfold MountConditions
  infer_instance

/-- The world in the middle of a write-unmount, after the first flush: the FAT
block with entry #1 is being pinned. -/
def unmountFlush1Ok (w : World) : World :=
  flush_request_handler ((startWriteUnmount w).flushDone false) false

/-- The last assignments of `write_unmount_metablock_ref_handler`: the state
becomes `UMOUNT_FLUSH2` and the flush is requested. -/
def unmountMetaWorld (w : World) : World :=
  let w := { w with o.write_mount_state := WriteMountState.UMOUNT_FLUSH2 }
  { w with o.flush_request := true }

/-- The world in the middle of a write-unmount, after the FAT block has been
pinned and the clean bit set in the cache: the second flush is outstanding. -/
def unmountMetaOk (w : World) : World :=
  write_unmount_metablock_ref_handler ((unmountFlush1Ok w).answer_block_ref false) false

/-- The conditions, in the order of the protocol, under which the specification
lets a write-unmount succeed; `e1`, `e2`, `e3` are the error flags of the
first flush, of the pin of the FAT block and of the second flush. -/
def UnmountConditions (w : World) (e1 e2 e3 : Bool) : Prop :=
  e1 = false ∧ e2 = false ∧ (fatEntry1 w).testBit 27 = false ∧ e3 = false

instance (w : World) (e1 e2 e3 : Bool) : Decidable (UnmountConditions w e1 e2 e3) := by
  unfold UnmountConditions
  infer_instance

/-! ## A sample volume -/

/-- A buffer holding the given 32-bit words, least significant byte first. -/
def wordsBuffer (words : List Nat) : Buffer :=
  fun k => words.getD (k / 4) 0 / 256 ^ (k % 4) % 256

/-- An FS information sector with the three signatures, `free` free clusters
and `last` as the last allocated cluster. -/
def fsInfoBuffer (free last : Nat) : Buffer :=
  WriteBinaryInt32 0x41615252
    (WriteBinaryInt32 0x61417272
      (WriteBinaryInt32 free
        (WriteBinaryInt32 last
          (WriteBinaryInt32 0xAA550000 (fun _ => 0) 0x1FC) 0x1EC) 0x1E8) 0x1E4) 0x0

/-- A small FAT32 volume of 100 blocks of 512 bytes: 32 reserved sectors, two
FATs of one sector, clusters of 8 sectors, the FS information sector in
block 1, the root directory in cluster 2 and one file of clusters 3 and 4;
FAT entry #1 has the clean bit set. -/
def sampleImage : Nat → Buffer := fun b =>
  if b = 0 then bootBlock 512 8 32 2 0 1 2 1 0x29
  else if b = 1 then fsInfoBuffer 5 3
  else if b = 32 then wordsBuffer [0x0FFFFFF8, 0xFFFFFFFF, 0x0FFFFFFF, 4, 0x0FFFFFFF, 0]
  else fun _ => 0

/-- The sample volume after `init` and the answer to the pin of block 0. -/
def sampleReady : World :=
  (run 4 [] (init { data := sampleImage } { base := 0, length := 100 })).getD default

/-- The sample volume mounted for writing. -/
def sampleMounted : World :=
  ((step sampleReady .startWriteMount).bind (run 4 [false, false, false])).getD default


/-! ## The life of the write-mount state -/

/-- The number of write references that are taken. -/
def takenCount (fs : List File) : Nat :=
  fs.countP (fun f => f.m_write_ref.m_taken)

/-- One operation on the write-mount state or on a write reference:
`startWriteMount`, `startWriteUnmount` (only when `canStartWriteUnmount`
allows it), a completion event of the filesystem object, the creation of a
`File` with its untaken reference (the objects are in memory, so there are
fewer of them than `size_t` has values), and `take` and `release` on the
reference of a file. -/
inductive MountStep : World → World → Prop where
  | startWriteMount {w w2 : World} :
      step w .startWriteMount = some w2 → MountStep w w2
  | startWriteUnmount {w w2 : World} :
      canStartWriteUnmount w = true → step w .startWriteUnmount = some w2 → MountStep w w2
  | block_ref {w w2 : World} (error : Bool) :
      step w (.block_ref error) = some w2 → MountStep w w2
  | fs_info_block_ref {w w2 : World} (error : Bool) :
      step w (.fs_info_block_ref error) = some w2 → MountStep w w2
  | flush_request {w w2 : World} (error : Bool) :
      step w (.flush_request error) = some w2 → MountStep w w2
  | File_init {w w2 : World} (file_entry : FsEntry) :
      w.files.length + 1 < 2 ^ w.SizeBits →
      step w (.File_init file_entry) = some w2 → MountStep w w2
  | take {w : World} (i : Nat) :
      i < w.files.length → MountStep w (WriteReference.take w i).1
  | release {w : World} (i : Nat) :
      i < w.files.length → MountStep w (WriteReference.release w i)

/-- The states reached from a successful `init` by the operations of
`MountStep`. -/
inductive MountReachable : World → Prop where
  | init (w0 : World) {w : World} (block_range : BlockRange) :
      step (init w0 block_range) (.block_ref false) = some w →
      w.o.state = FsState.READY → MountReachable w
  | step {w w2 : World} : MountReachable w → MountStep w w2 → MountReachable w2

/-- The invariant that carries C6: the filesystem is `READY`, the allocator is
idle, `num_write_references` counts the taken references, there are fewer
files than `size_t` has values, no reference is taken unless the state is
`MOUNTED`, and the FS information sector is only being pinned in
`MOUNT_FSINFO`. -/
def MountInv (w : World) : Prop :=
  w.o.state = FsState.READY ∧ w.o.alloc_state = AllocationState.IDLE ∧
  w.o.num_write_references = takenCount w.files ∧ w.files.length < 2 ^ w.SizeBits ∧
  (w.o.write_mount_state ≠ WriteMountState.MOUNTED → takenCount w.files = 0) ∧
  (w.o.fs_info_block_ref.state = CacheRefState.REQUESTING →
    w.o.write_mount_state = WriteMountState.MOUNT_FSINFO)


/-- The parts of a world that the counting of references looks at. -/
def SameRefs (w w2 : World) : Prop :=
  w2.files = w.files ∧ w2.SizeBits = w.SizeBits ∧ w2.o.state = w.o.state ∧
  w2.o.alloc_state = w.o.alloc_state ∧ w2.o.num_write_references = w.o.num_write_references


/-! ## Worlds seen from one file -/

/-- The world `w` with file `i` replaced by `f` and with the given filesystem
object, cache contents, queue and handler calls. -/
def fileWorld (w : World) (i : Nat) (f : File) (o : Object) (data : Nat → Buffer)
    (dirty loaded : Nat → Bool) (queue : List QueuedEvent) (calls : List HandlerCall) :
    World :=
  { BlockSize := w.BlockSize, SizeBits := w.SizeBits, writable := w.writable, o := o,
    data := data, dirty := dirty, loaded := loaded, files := w.files.set i f,
    queue := queue, calls := calls }

/-! ## Sequential reading -/

/-- The FAT entry of cluster `c` as the cache holds it, masked to 28 bits: the
cluster that follows `c` in its chain. -/
def fatNext (w : World) (c : Nat) : Nat :=
  read_fat_entry_in_cache_block w
    { state := .READY, block := get_abs_block_index_for_fat_entry w c } c

/-- The cluster number `k` of the chain that starts at `first`. -/
def chainCluster (w : World) (first : Nat) : Nat → Nat
  | 0 => first
  | k + 1 => fatNext w (chainCluster w first k)

/-- One `startRead` on file `i`, followed by the work of the event loop and of
the collaborators, none of which reports an error. -/
def readOnce (fuel : Nat) (i : Nat) (w : World) : Option World :=
  (step w (.File_startRead i)).bind (run fuel [])

/-- The first `n` successive reads of file `i`. -/
def reads (fuel : Nat) (i : Nat) : Nat → World → Option World
  | 0, w => some w
  | n + 1, w => (reads fuel i n w).bind (readOnce fuel i)

/-- The length that read number `k` (from 0) of a file of `S` bytes returns:
`min(BlockSize, S - file_pos)` for `file_pos = min(S, k * BlockSize)`. -/
def readLength (BlockSize S k : Nat) : Nat := min BlockSize (S - k * BlockSize)

/-- File `i` as `File::init` and `File::rewind` leave it: at position 0, with
the chain at its start. -/
def AtStart (w : World) (i : Nat) : Prop :=
  (w.file i).m_state = FileState.IDLE ∧ (w.chain i).m_state = ChainState.IDLE ∧
  (w.file i).m_file_pos = 0 ∧ (w.file i).m_block_in_cluster = w.o.blocks_per_cluster ∧
  (w.chain i).m_iter_state = IterState.START ∧
  (w.chain i).m_current_cluster = (w.chain i).m_first_cluster

instance (w : World) (i : Nat) : Decidable (AtStart w i) := by
  unfold AtStart
  infer_instance

/-- The state of a file of `S` bytes between its reads number `k - 1` and `k`
(from 0, `k` at most the number of blocks of the file). -/
def ReadState (w : World) (S first k : Nat) (f : File) : Prop :=
  f.m_state = FileState.IDLE ∧ f.m_chain.m_state = ChainState.IDLE ∧
  f.m_file_size = S ∧ f.m_file_pos = min S (k * w.BlockSize) ∧
  f.m_chain.m_fat_cache_ref1.state ≠ CacheRefState.REQUESTING ∧
  f.m_chain.m_fat_cache_ref2.state ≠ CacheRefState.REQUESTING ∧
  f.m_dir_entry.m_block_ref.state ≠ CacheRefState.REQUESTING ∧
  f.m_block_user.busy = false ∧
  ((k = 0 ∧ f.m_block_in_cluster = w.o.blocks_per_cluster ∧
      f.m_chain.m_iter_state = IterState.START ∧ f.m_chain.m_current_cluster = first) ∨
    (0 < k ∧ f.m_block_in_cluster = (k - 1) % w.o.blocks_per_cluster + 1 ∧
      f.m_chain.m_iter_state = IterState.CLUSTER ∧
      f.m_chain.m_current_cluster = chainCluster w first ((k - 1) / w.o.blocks_per_cluster)))


/-- The directory entry of the sample file: 1000 bytes in the chain that
starts at cluster 3. -/
def sampleFileEntry : FsEntry :=
  { type := .FILE, cluster_index := 3, file_size := 1000, dir_entry_block_index := 34,
    dir_entry_block_offset := 0 }

/-- The sample volume with the sample file opened by `File::init`. -/
def sampleOpen : World :=
  (step sampleReady (.File_init sampleFileEntry)).getD default


/-- A file of `2 ^ 32 - 512` bytes on the mounted sample volume, open for
writing and positioned at its end, inside its current cluster (the state of
the `File` alone is given; the sample volume is too small to hold such a
file). -/
def sampleAtLimit : World :=
  let o := { sampleMounted.o with num_write_references := 1 }
  let f : File :=
    { m_chain := { m_iter_state := .CLUSTER, m_first_cluster := 3, m_current_cluster := 4,
                   m_prev_cluster := 3 },
      m_dir_entry := { m_state := .READY, m_block_ref := { state := .READY, block := 34 } },
      m_dir_entry_block_index := 34, m_file_size := 0xFFFFFE00, m_file_pos := 0xFFFFFE00,
      m_write_ref := { m_taken := true }, m_block_in_cluster := 7 }
  { sampleMounted with o := o, files := [f] }


/-! ## Opening a file for writing -/

/-- The directory entry of file `i` as the cache holds it agrees with the
`File`: the volume is `MOUNTED`, the pin of the block of the entry succeeds
(`error = false`), the first cluster of the entry, masked to 28 bits, is the
first cluster of the chain, and the size field is `file_size`. -/
def OpenConditions (w : World) (i : Nat) (error : Bool) : Prop :=
  w.o.write_mount_state = WriteMountState.MOUNTED ∧ error = false ∧
  mask_cluster_entry
      (read_dir_entry_first_cluster
        (w.data (get_abs_block_index w (w.file i).m_dir_entry_block_index))
        ((w.file i).m_dir_entry_block_offset * 32)) = (w.chain i).m_first_cluster ∧
  ReadBinaryInt32 (w.data (get_abs_block_index w (w.file i).m_dir_entry_block_index))
      ((w.file i).m_dir_entry_block_offset * 32 + DirEntrySizeOffset) = (w.file i).m_file_size

instance (w : World) (i : Nat) (error : Bool) : Decidable (OpenConditions w i error) := by
  unfold OpenConditions
  infer_instance


/-- A block that holds one directory entry at offset 0: a file with the given
first cluster and size (name `FILE.TXT`, attribute archive). -/
def dirEntryBuffer (first_cluster file_size : Nat) : Buffer := fun k =>
  if k < 11 then [70, 73, 76, 69, 32, 32, 32, 32, 84, 88, 84].getD k 0
  else if k = 0xB then 0x20
  else if k = 0x14 then first_cluster / 2 ^ 16 % 256
  else if k = 0x15 then first_cluster / 2 ^ 24 % 256
  else if k = 0x1A then first_cluster % 256
  else if k = 0x1B then first_cluster / 2 ^ 8 % 256
  else if k = 0x1C then file_size % 256
  else if k = 0x1D then file_size / 2 ^ 8 % 256
  else if k = 0x1E then file_size / 2 ^ 16 % 256
  else if k = 0x1F then file_size / 2 ^ 24 % 256
  else 0

/-- The sample volume with the directory entry of the sample file in the first
block of the root directory (cluster 2, block 34). -/
def sampleDirImage : Nat → Buffer := fun b =>
  if b = 34 then dirEntryBuffer 3 1000 else sampleImage b

/-- The volume of `sampleDirImage`, initialised, mounted for writing, and with
the sample file opened by `File::init`. -/
def sampleDirOpen : World :=
  let w := (run 4 [] (init { data := sampleDirImage } { base := 0, length := 100 })).getD default
  let w := ((step w .startWriteMount).bind (run 4 [false, false, false])).getD default
  (step w (.File_init sampleFileEntry)).getD default


/-- The sample file opened for writing and then truncated at its start. -/
def sampleTruncated : World :=
  let w := ((step sampleDirOpen (.File_startOpenWritable 0)).bind (run 3 [])).getD default
  ((step w (.File_startTruncate 0)).bind (run 20 [])).getD default


/-! ## Scenario S4 -/

/-- The volume of scenario S4: 100 blocks of 512 bytes, clusters of 8 blocks
(4096 bytes), the root directory in cluster 3 and, apart from it, only the
one-cluster chain of the file, which starts at cluster 2; the directory entry
of the file (first cluster 2, size 0) is in the first block of the root
directory (block 42); the FS information sector counts 6 free clusters. -/
def s4Image : Nat → Buffer := fun b =>
  if b = 0 then bootBlock 512 8 32 2 0 1 3 1 0x29
  else if b = 1 then fsInfoBuffer 6 3
  else if b = 32 then wordsBuffer [0x0FFFFFF8, 0xFFFFFFFF, 0x0FFFFFFF, 0x0FFFFFFF]
  else if b = 42 then dirEntryBuffer 2 0
  else fun _ => 0

/-- One client call on the file, followed by the work of the event loop and of
the collaborators without errors. -/
def clientCall (input : Input) (w : World) : World :=
  ((step w input).bind (run 20 [])).getD default

/-- The directory entry of the file of scenario S4 as `File::init` gets it. -/
def s4FileEntry : FsEntry :=
  { type := .FILE, cluster_index := 2, file_size := 0, dir_entry_block_index := 42,
    dir_entry_block_offset := 0 }

/-- Scenario S4 up to the three writes: `init`, `startWriteMount`, `File::init`
for the entry of the file, `startOpenWritable`, and three `startWrite` calls of
512 bytes. -/
def s4Written : World :=
  let w := (run 4 [] (init { data := s4Image } { base := 0, length := 100 })).getD default
  let w := clientCall .startWriteMount w
  let w := clientCall (.File_init s4FileEntry) w
  let w := clientCall (.File_startOpenWritable 0) w
  let w := clientCall (.File_startWrite 0 512) w
  let w := clientCall (.File_startWrite 0 512) w
  clientCall (.File_startWrite 0 512) w

/-- Scenario S4 after the `startTruncate` that follows the writes. -/
def s4Truncated : World := clientCall (.File_startTruncate 0) s4Written

/-- The free-cluster count of the FS information sector as the cache holds
it. -/
def fsInfoFreeClusters (w : World) : Nat :=
  ReadBinaryInt32 (w.getData w.o.fs_info_block_ref) FsInfoFreeClustersOffset


/-! ## Error codes of `init` -/

/-- A boot block that fails the check of the FAT size: `sectors_per_fat` is
0 (all other fields as in the sample volume). -/
def bootNoFat : Buffer := bootBlock 512 8 32 2 0 0 2 1 0x29

/-- A boot block that passes the check of the FAT size and fails the next
check: with `sectors_per_fat` = 1000 the FATs end beyond a partition of 100
blocks. -/
def bootFatBeyondEnd : Buffer := bootBlock 512 8 32 2 0 1000 2 1 0x29

/-- The error code that `init` hands to `InitHandler` for the boot block
`buffer` on a partition of 100 blocks, when the block is read without
error. -/
def initCode (buffer : Buffer) : Option (List HandlerCall) :=
  (run 4 [] (initWorld buffer 100)).map (fun w => w.calls)


/-! ## Truncation -/

/-- FAT entry `y`, masked to 28 bits, in the cache contents `data` of the
volume of `w`. -/
def fatOf (w : World) (data : Nat → Buffer) (y : Nat) : Nat :=
  mask_cluster_entry
    (ReadBinaryInt32 (data (get_abs_block_index_for_fat_entry w y))
      (get_fat_ptr_in_cache_block w y))

/-- The cache contents after `update_fat_entry_in_cache_block` for entry `y`
through a reference to its block. -/
def fatWrite (w : World) (data : Nat → Buffer) (y value : Nat) : Nat → Buffer :=
  fun b =>
    if b = get_abs_block_index_for_fat_entry w y then
      WriteBinaryInt32
        (update_cluster_entry
          (ReadBinaryInt32 (data (get_abs_block_index_for_fat_entry w y))
            (get_fat_ptr_in_cache_block w y)) value)
        (data (get_abs_block_index_for_fat_entry w y)) (get_fat_ptr_in_cache_block w y)
    else data b

/-- The cache contents after `update_fs_info_free_clusters`. -/
def fsInfoUpdate (w : World) (data : Nat → Buffer) (inc_else_dec : Bool) : Nat → Buffer :=
  if ReadBinaryInt32 (data w.o.fs_info_block_ref.block) FsInfoFreeClustersOffset
      ≤ w.o.num_valid_clusters then
    fun b =>
      if b = w.o.fs_info_block_ref.block then
        WriteBinaryInt32
          (if inc_else_dec then
            (ReadBinaryInt32 (data w.o.fs_info_block_ref.block) FsInfoFreeClustersOffset + 1)
              % 2 ^ 32
          else
            (ReadBinaryInt32 (data w.o.fs_info_block_ref.block) FsInfoFreeClustersOffset
              + 2 ^ 32 - 1) % 2 ^ 32)
          (data w.o.fs_info_block_ref.block) FsInfoFreeClustersOffset
      else data b
  else data

/-- The dirty flags after `update_fs_info_free_clusters`. -/
def fsInfoDirty (w : World) (data : Nat → Buffer) (dirty : Nat → Bool) : Nat → Bool :=
  if ReadBinaryInt32 (data w.o.fs_info_block_ref.block) FsInfoFreeClustersOffset
      ≤ w.o.num_valid_clusters then
    fun b => if b = w.o.fs_info_block_ref.block then true else dirty b
  else dirty

/-- The cache contents after `DirEntryRef::setFirstCluster(value)` on the
directory entry reference of the file `f`. -/
def dirEntryFirst (f : File) (data : Nat → Buffer) (value : Nat) : Nat → Buffer :=
  fun b =>
    if b = f.m_dir_entry.m_block_ref.block then
      write_dir_entry_first_cluster
        (update_cluster_entry
          (read_dir_entry_first_cluster (data f.m_dir_entry.m_block_ref.block)
            (f.m_dir_entry.m_block_offset * 32)) value)
        (data f.m_dir_entry.m_block_ref.block) (f.m_dir_entry.m_block_offset * 32)
    else data b

/-- Enumerating a chain: from `start`, the FAT `fat` visits the clusters `ds` in
this order and then reaches `t`. -/
def chainFrom (fat : Nat → Nat) (start : Nat) : List Nat → Nat → Prop
  | [], t => start = t
  | d :: ds, t => start = d ∧ chainFrom fat (fat d) ds t

instance chainFrom.decidable (fat : Nat → Nat) :
    (start : Nat) → (ds : List Nat) → (t : Nat) → Decidable (chainFrom fat start ds t)
  | start, [], t => inferInstanceAs (Decidable (start = t))
  | start, d :: ds, t =>
    @instDecidableAnd (start = d) (chainFrom fat (fat d) ds t) _
      (chainFrom.decidable fat (fat d) ds t)

/-- The number of clusters of `K` bytes that `P` bytes take:
`ceil(P / K)`. -/
def clustersFor (P K : Nat) : Nat := (P + K - 1) / K

/-- A well-formed chain: from `first` the FAT of `w` visits the clusters `ds`,
all normal, in range of the FAT and different from each other (no cycle), and
then reaches the entry `t`, which is not normal. -/
def WellFormedChain (w : World) (first : Nat) (ds : List Nat) (t : Nat) : Prop :=
  chainFrom (fatNext w) first ds t ∧ ds.Nodup ∧
  (∀ d ∈ ds, is_cluster_idx_normal d = true ∧ is_cluster_idx_valid_for_fat w d = true) ∧
  is_cluster_idx_normal t = false

instance (w : World) (first : Nat) (ds : List Nat) (t : Nat) :
    Decidable (WellFormedChain w first ds t) := by
  unfold WellFormedChain
  infer_instance

/-- The iterator of the chain of file `i` stands where the file position is:
at `START` with position 0, or on the last of the `ceil(file_pos / K)`
clusters that the position takes (`K` the bytes of a cluster), as after `init`
or `rewind` and reads and writes without error. -/
def TruncateAt (w : World) (i : Nat) (ds : List Nat) : Prop :=
  let n := clustersFor (w.file i).m_file_pos (w.BlockSize * w.o.blocks_per_cluster)
  n ≤ ds.length ∧
  (((w.chain i).m_iter_state = IterState.START ∧ (w.file i).m_file_pos = 0 ∧
      (w.chain i).m_current_cluster = (w.chain i).m_first_cluster) ∨
    ((w.chain i).m_iter_state = IterState.CLUSTER ∧ 0 < n ∧
      (w.chain i).m_current_cluster = ds.getD (n - 1) 0))

instance (w : World) (i : Nat) (ds : List Nat) : Decidable (TruncateAt w i ds) := by
  unfold TruncateAt
  infer_instance

/-- The blocks of the FAT entries of the clusters `ds` are neither the block of
the FS information sector nor the block of the directory entry of file `i`. -/
def FatApart (w : World) (i : Nat) (ds : List Nat) : Prop :=
  ∀ d ∈ ds, get_abs_block_index_for_fat_entry w d ≠ w.o.fs_info_block_ref.block ∧
    get_abs_block_index_for_fat_entry w d ≠ (w.file i).m_dir_entry.m_block_ref.block

instance (w : World) (i : Nat) (ds : List Nat) : Decidable (FatApart w i ds) := by
  unfold FatApart
  infer_instance

/-- The world in which the chain of file `i` (the file `f` with the FAT
references `r1` and `r2`) is about to run its event. -/
def chainWorld (w : World) (i : Nat) (f : File) (r1 r2 : CacheBlockRef)
    (data : Nat → Buffer) (dirty loaded : Nat → Bool) (calls : List HandlerCall) : World :=
  fileWorld w i
    { f with m_chain := { f.m_chain with m_fat_cache_ref1 := r1, m_fat_cache_ref2 := r2 } }
    w.o data dirty loaded [.chain_event i] calls

/-- A pin of `block` through the reference `r` completes at once. -/
def Immediate (loaded : Nat → Bool) (r : CacheBlockRef) (block : Nat) : Prop :=
  (r.state = CacheRefState.READY ∧ r.block = block) ∨ loaded block = true


/-- The cache contents after `DirEntryRef::setFileSize(value)` on the directory
entry reference of the file `f`. -/
def dirEntrySize (f : File) (data : Nat → Buffer) (value : Nat) : Nat → Buffer :=
  fun b =>
    if b = f.m_dir_entry.m_block_ref.block then
      WriteBinaryInt32 value (data f.m_dir_entry.m_block_ref.block)
        (f.m_dir_entry.m_block_offset * 32 + DirEntrySizeOffset)
    else data b

/-- One `startTruncate` on file `i`, followed by the work of the event loop and
of the collaborators, none of which reports an error. -/
def truncateOnce (fuel : Nat) (i : Nat) (w : World) : Option World :=
  (step w (.File_startTruncate i)).bind (run fuel [])


/-- The sample file of `sampleDirOpen` (chain 3, 4 of clusters of 4096 bytes)
opened for writing. -/
def sampleWritable : World := clientCall (.File_startOpenWritable 0) sampleDirOpen

/-- The sample file opened for writing, after one read of a block: the file
position is 512 and the iterator is on cluster 3. -/
def sampleReadOnce : World := clientCall (.File_startRead 0) sampleWritable

/-- The sample file opened for writing, after a read whose block transfer
failed: the file position is still 0, but the iterator has moved to cluster
3. -/
def sampleFailedRead : World :=
  ((step sampleWritable (.File_startRead 0)).bind (run 20 [true])).getD default

/-- The sample file truncated after the failed read. -/
def sampleFailedReadTruncated : World := clientCall (.File_startTruncate 0) sampleFailedRead


/-! ## The allocator scan -/

/-- The loop of `alloc_event_handler` with its outcome made explicit: the state
in which the loop is left, the arguments `error` and `cluster_index` of the
call of `complete_allocation` that ends it (`none` when the loop is left to
wait for a FAT block), and the clusters whose FAT entry has been read, in
order.  The statements are those of `alloc_event_handler_loop`. -/
def alloc_scan_loop : Nat → World → List Nat →
    Option (World × Option (Bool × Nat) × List Nat)
  | 0, _, _ => none
  | fuel + 1, w, examined =>
    let current_cluster := (2 + w.o.alloc_position) % 2 ^ 32
    let r := request_fat_cache_block w w.o.block_ref current_cluster false
    let w := { w with o.block_ref := r.1 }
    if r.2 = false then
      some ({ w with o.alloc_state := AllocationState.REQUESTING_BLOCK }, none, examined) else
    let w := { w with o.alloc_position := (w.o.alloc_position + 1) % 2 ^ 32 }
    let w :=
      if w.o.alloc_position = w.o.num_valid_clusters then { w with o.alloc_position := 0 }
      else w
    let fat_value := read_fat_entry_in_cache_block w w.o.block_ref current_cluster
    if fat_value = 0 then
      let w := update_fat_entry_in_cache_block w w.o.block_ref current_cluster EndOfChainMarker
      let w := update_fs_info_free_clusters w false
      let w := update_fs_info_allocated_cluster w
      some (w, some (false, current_cluster), examined ++ [current_cluster])
    else
    if w.o.alloc_position = w.o.alloc_start then
      some (w, some (true, 0), examined ++ [current_cluster])
    else
      alloc_scan_loop fuel w (examined ++ [current_cluster])

/-- What a run of `alloc_scan_loop` leads to: the outcome of the loop when it
ends with `complete_allocation`; otherwise the FAT block arrives without error
and what follows is given by `next`. -/
def allocScanStep (next : World → List Nat → Option (World × Bool × Nat × List Nat))
    (fuel : Nat) (w : World) (examined : List Nat) : Option (World × Bool × Nat × List Nat) :=
  match alloc_scan_loop fuel w examined with
  | none => none
  | some (w1, some (error, cluster_index), examined1) =>
    some (w1, error, cluster_index, examined1)
  | some (w1, none, examined1) =>
    match step w1 (.block_ref false) with
    | none => none
    | some w2 => next { w2 with queue := w2.queue.tail } examined1

/-- One scan of the allocator, from the run of `alloc_event_handler` in the
state `w` (the allocation event taken from the queue) to the call of
`complete_allocation`, with the FAT blocks that the scan waits for arriving
without error: the state at that call, its arguments `error` and
`cluster_index`, and the clusters whose FAT entry the scan has read.  At most
`fuel` runs of the handler are made. -/
def allocScan : Nat → World → List Nat → Option (World × Bool × Nat × List Nat)
  | 0, _, _ => none
  | n + 1, w, examined =>
    allocScanStep (allocScan n) (2 ^ 32 + w.o.num_valid_clusters + 1) w examined

/-- The first position in the cyclic order `start`, `start + 1`, ..., wrapping
at `n`, at which the cluster `2 + position` has FAT entry 0. -/
def firstFree (fat : Nat → Nat) (n start : Nat) : Option Nat :=
  ((List.range n).map (fun j => (start + j) % n)).find? (fun p => fat (2 + p) = 0)

/-- The state of a scan that is about to examine the candidate at position
`pos`, with the reference `r` to a FAT block and the blocks `l` in the
cache. -/
def allocWorld (w : World) (pos : Nat) (r : CacheBlockRef) (l : Nat → Bool) : World :=
  { w with
    queue := [], loaded := l,
    o := { w.o with alloc_position := pos, block_ref := r,
                    alloc_state := AllocationState.CHECK_EVENT } }

/-- The state in which the scan of `w` that finds the cluster at position `pos`
free calls `complete_allocation`. -/
def allocFound (w : World) (pos : Nat) (l : Nat → Bool) : World :=
  update_fs_info_allocated_cluster
    (update_fs_info_free_clusters
      (update_fat_entry_in_cache_block
        (allocWorld w ((pos + 1) % w.o.num_valid_clusters)
          { state := .READY, block := get_abs_block_index_for_fat_entry w (2 + pos) } l)
        { state := .READY, block := get_abs_block_index_for_fat_entry w (2 + pos) }
        (2 + pos) EndOfChainMarker)
      false)


instance (l : Nat → Bool) (r : CacheBlockRef) (b : Nat) : Decidable (Immediate l r b) := by
  unfold Immediate
  infer_instance

/-- The state in which a scan waits for the FAT block of the candidate at
position `pos`. -/
def allocWaiting (w : World) (pos : Nat) (l : Nat → Bool) : World :=
  { w with
    queue := [], loaded := l,
    o := { w.o with alloc_position := pos,
                    block_ref := { state := .REQUESTING,
                                   block := get_abs_block_index_for_fat_entry w (2 + pos) },
                    alloc_state := AllocationState.REQUESTING_BLOCK } }


/-- The clusters that a scan from position `start` has examined after `j`
turns of the loop. -/
def examinedAfter (n start j : Nat) : List Nat :=
  (List.range j).map (fun t => 2 + (start + t) % n)


/-- The state in which `alloc_event_handler` runs at the start of a scan: the
filesystem is mounted for writing, a chain waits, `start_new_allocation` has set
`alloc_start` to `alloc_position` and queued the allocation event, which the
event loop has taken from the queue; `alloc_position` is a valid position. -/
def ScanStart (w : World) : Prop :=
  w.o.state = FsState.READY ∧ w.o.write_mount_state = WriteMountState.MOUNTED ∧
  w.o.alloc_state = AllocationState.CHECK_EVENT ∧ w.queue = [] ∧
  w.o.allocating_chains_list ≠ [] ∧
  w.o.alloc_start = w.o.alloc_position ∧ w.o.alloc_position < w.o.num_valid_clusters ∧
  w.o.num_valid_clusters + 2 ≤ 2 ^ 32

instance (w : World) : Decidable (ScanStart w) := by
  unfold ScanStart
  infer_instance

/-- The block of the FS information sector lies before the first block of the
FAT (in the reserved sectors). -/
def FsInfoBeforeFat (w : World) : Prop :=
  w.o.fs_info_block_ref.block < get_abs_block_index w w.o.num_reserved_blocks

instance (w : World) : Decidable (FsInfoBeforeFat w) := by
  unfold FsInfoBeforeFat
  infer_instance

/-- A block that holds two directory entries, at offsets 0 and 1, both of an
empty file (first cluster 0, size 0). -/
def twoEntriesBuffer : Buffer := fun k =>
  if k < 32 then dirEntryBuffer 0 0 k else if k < 64 then dirEntryBuffer 0 0 (k - 32) else 0

/-- The volume of scenario S5: 100 blocks of 512 bytes, 8 valid clusters (2 to
9) of 8 blocks; the root directory is cluster 2 and holds the entries of two
empty files in its first block (block 34); clusters 3 and 4 are taken and
clusters 5 to 9 are free; the FS information sector counts 5 free clusters and
names `last` as the last allocated cluster. -/
def s5Image (last : Nat) : Nat → Buffer := fun b =>
  if b = 0 then bootBlock 512 8 32 2 0 1 2 1 0x29
  else if b = 1 then fsInfoBuffer 5 last
  else if b = 32 then wordsBuffer [0x0FFFFFF8, 0xFFFFFFFF, 0x0FFFFFFF, 0x0FFFFFFF, 0x0FFFFFFF]
  else if b = 34 then twoEntriesBuffer
  else fun _ => 0

/-- The directory entry of one of the two files of scenario S5 as `File::init`
gets it. -/
def s5Entry (offset : Nat) : FsEntry :=
  { type := .FILE, cluster_index := 0, file_size := 0, dir_entry_block_index := 34,
    dir_entry_block_offset := offset }

/-- Scenario S5 up to the requests: `init`, `startWriteMount`, `File::init` for
both files and `startOpenWritable` for both.  The allocator position is
`last - 2`. -/
def s5Open (last : Nat) : World :=
  let w := (run 4 [] (init { data := s5Image last } { base := 0, length := 100 })).getD default
  let w := clientCall .startWriteMount w
  let w := clientCall (.File_init (s5Entry 0)) w
  let w := clientCall (.File_init (s5Entry 1)) w
  let w := clientCall (.File_startOpenWritable 0) w
  clientCall (.File_startOpenWritable 1) w

/-- The state in which the allocator starts its scan for file 0 of scenario S5
(allocator position 3): after `startWrite` of file 0, the event of the file and
the two events of its chain (`requestNext`, `requestNew`) have run, and the
allocation event has been taken from the queue. -/
def sampleScanStart : World :=
  let w := (step (s5Open 5) (.File_startWrite 0 512)).getD default
  let w := (step w .queued).getD default
  let w := (step w .queued).getD default
  let w := (step w .queued).getD default
  { w with queue := w.queue.tail }


/-- The sample volume in state `INIT`, with the pin of block 0 answered. -/
def sampleInit : World :=
  (init { data := sampleImage } { base := 0, length := 100 }).answer_block_ref false


/-- The state in which `ClusterChain::complete_request` calls the handler of
the chain of file `i`: the chain `c` made idle, with both FAT references
dropped. -/
def chainCompleted (w : World) (i : Nat) (c : ClusterChain) : World :=
  w.setChain i
    { c with m_state := ChainState.IDLE, m_fat_cache_ref1 := CacheBlockRef.reset {},
             m_fat_cache_ref2 := CacheBlockRef.reset {} }

/-- The state `w` with the chain of file `i` taken from the list of the chains
that wait for a cluster. -/
def stopWaiting (w : World) (i : Nat) : World :=
  { w with o.allocating_chains_list := w.o.allocating_chains_list.erase i }


/-! ## Traversal of a chain -/

/-- The chain after a `requestNext` that completes without error, as
`ClusterChain::event_handler` (case `NEXT_CHECK`) and
`ClusterChain::complete_request` leave it: from `CLUSTER` the FAT entry `fat` of
the current cluster becomes the current cluster and the old one the previous
cluster; unless the iterator is at `END`, it becomes `CLUSTER` or `END` as the
current cluster is normal or not; the request is over and the FAT references
are dropped. -/
def nextChain (fat : Nat → Nat) (c : ClusterChain) : ClusterChain :=
  let c1 : ClusterChain :=
    if c.m_iter_state = IterState.CLUSTER then
      { c with m_prev_cluster := c.m_current_cluster,
               m_current_cluster := fat c.m_current_cluster }
    else c
  let c2 : ClusterChain :=
    if c1.m_iter_state ≠ IterState.END then
      { c1 with m_iter_state :=
          if is_cluster_idx_normal c1.m_current_cluster then IterState.CLUSTER
          else IterState.END }
    else c1
  { c2 with m_state := ChainState.IDLE, m_fat_cache_ref1 := CacheBlockRef.reset {},
            m_fat_cache_ref2 := CacheBlockRef.reset {} }

/-- One `requestNext` on the chain of file `i`, followed by the work of the
event loop and of the block cache without errors. -/
def chainNext (fuel : Nat) (i : Nat) (w : World) : Option World :=
  run fuel [] (ClusterChain.requestNext w i)

/-- The first `n` successive `requestNext` calls on the chain of file `i`. -/
def chainNexts (fuel : Nat) (i : Nat) : Nat → World → Option World
  | 0, w => some w
  | n + 1, w => (chainNexts fuel i n w).bind (chainNext fuel i)


/-- The chain after `k` successive `requestNext` calls that complete without
error. -/
def nextChainN (fat : Nat → Nat) : Nat → ClusterChain → ClusterChain
  | 0, c => c
  | k + 1, c => nextChain fat (nextChainN fat k c)

/-- The chain `c` after `rewind`. -/
def rewound (c : ClusterChain) : ClusterChain :=
  { c with m_iter_state := IterState.START, m_current_cluster := c.m_first_cluster,
           m_prev_cluster := 0 }


/-- The volume of `sampleDirImage` with the chain of the sample file (clusters
3 and 4) ended by the marker `0x0FFFFFF8` instead of `0x0FFFFFFF`. -/
def markerImage : Nat → Buffer := fun b =>
  if b = 32 then wordsBuffer [0x0FFFFFF8, 0xFFFFFFFF, 0x0FFFFFFF, 4, 0x0FFFFFF8, 0]
  else sampleDirImage b

/-- The volume of `markerImage`, initialised and mounted for writing, with the
sample file opened for writing and read once: the file position is 512 and the
iterator is on cluster 3. -/
def markerReadOnce : World :=
  let w := (run 4 [] (init { data := markerImage } { base := 0, length := 100 })).getD default
  let w := clientCall .startWriteMount w
  let w := clientCall (.File_init sampleFileEntry) w
  let w := clientCall (.File_startOpenWritable 0) w
  clientCall (.File_startRead 0) w

/-- The file of `markerReadOnce` truncated at its position. -/
def markerTruncated : World := clientCall (.File_startTruncate 0) markerReadOnce

/-- The state of `markerReadOnce` in which the chain of the file runs the first
event of the truncation: `startTruncate` has been called, the event of the file
has run, and the event of the chain has been taken from the queue. -/
def markerTruncating : World :=
  let w := ((step markerReadOnce (.File_startTruncate 0)).bind
    (fun w => step w .queued)).getD default
  { w with queue := [] }


/-- The invariant of the iterator of a cluster chain: at `CLUSTER` the current
cluster is a normal cluster index, at `END` it is not, and at `START` it is
the first cluster. -/
def IterInv (c : ClusterChain) : Prop :=
  (c.m_iter_state = IterState.CLUSTER → is_cluster_idx_normal c.m_current_cluster = true) ∧
  (c.m_iter_state = IterState.END → is_cluster_idx_normal c.m_current_cluster = false) ∧
  (c.m_iter_state = IterState.START → c.m_current_cluster = c.m_first_cluster)

instance (c : ClusterChain) : Decidable (IterInv c) := by
  unfold IterInv
  infer_instance

/-- The iterator of the chain of a file: its state, the first cluster and the
current cluster. -/
def iterOf (f : File) : IterState × Nat × Nat :=
  (f.m_chain.m_iter_state, f.m_chain.m_first_cluster, f.m_chain.m_current_cluster)

/-- The part of the state that the invariants of the allocator position and of
the chain iterators are about: the state of the filesystem, the number of valid
clusters, the number of FAT entries, the allocator position, and the iterators
of the chains of all files. -/
def World.core (w : World) : FsState × Nat × Nat × Nat × List (IterState × Nat × Nat) :=
  (w.o.state, w.o.num_valid_clusters, w.o.num_fat_entries, w.o.alloc_position,
    w.files.map iterOf)


/-- The invariant of the states in which the filesystem is `READY`: the number
of valid clusters is at most `0x0FFFFFF8 - 2`, the FAT has an entry for every
valid cluster, the allocator position is below the number of valid clusters,
and the iterator of every chain satisfies `IterInv`. -/
def ReadyInv (w : World) : Prop :=
  w.o.state = FsState.READY ∧ w.o.num_valid_clusters ≤ 0x0FFFFFF6 ∧
  2 + w.o.num_valid_clusters ≤ w.o.num_fat_entries ∧
  w.o.alloc_position < w.o.num_valid_clusters ∧
  ∀ j, IterInv (w.chain j)

/-- The invariant `ReadyInv` without the part for the chain of file `i`. -/
def ReadyInvExcept (i : Nat) (w : World) : Prop :=
  w.o.state = FsState.READY ∧ w.o.num_valid_clusters ≤ 0x0FFFFFF6 ∧
  2 + w.o.num_valid_clusters ≤ w.o.num_fat_entries ∧
  w.o.alloc_position < w.o.num_valid_clusters ∧
  ∀ j, j ≠ i → IterInv (w.chain j)


/-- The invariant of the states in which the filesystem is not `READY`: no
file exists, no event is queued, neither the FS information sector nor a flush
is requested, the allocator position has not been set, the volume is not
mounted for writing, and the block size and the length of the partition are
those that the source asserts. -/
def Unready (w : World) : Prop :=
  w.o.state ≠ FsState.READY ∧ w.files = [] ∧ w.queue = [] ∧
  w.o.fs_info_block_ref.state ≠ CacheRefState.REQUESTING ∧ w.o.flush_request = false ∧
  w.o.alloc_position = 0 ∧ 512 ≤ w.BlockSize ∧ w.o.block_range.length < 2 ^ 32 ∧
  w.o.write_mount_state = WriteMountState.NOT_MOUNTED

/-- What `init_block_ref_handler` leaves as it was, for a result `r` of the
handler that is the state `w2`: the files, the queue, the reference to the FS
information sector, the flush request, the allocator position, the block size
and the block range of `w`, and a write-mount state `NOT_MOUNTED`. -/
def InitFrame (w w2 : World) (r : Option World) : Prop :=
  r = some w2 →
    w2.files = w.files ∧ w2.queue = w.queue ∧
    w2.o.fs_info_block_ref = w.o.fs_info_block_ref ∧
    w2.o.flush_request = w.o.flush_request ∧
    w2.o.alloc_position = w.o.alloc_position ∧ w2.BlockSize = w.BlockSize ∧
    w2.o.block_range = w.o.block_range ∧
    (w.o.write_mount_state = WriteMountState.NOT_MOUNTED →
      w2.o.write_mount_state = WriteMountState.NOT_MOUNTED)

/-- The invariant of the driver. -/
def Inv (w : World) : Prop := ReadyInv w ∨ Unready w

/-- The states that the driver reaches from `init` on a device of blocks of at
least 512 bytes and a partition of fewer than `2 ^ 32` blocks. -/
inductive Reachable : World → Prop where
  | init (w : World) (block_range : BlockRange) (hBS : 512 ≤ w.BlockSize)
      (hlen : block_range.length < 2 ^ 32) : Reachable (init w block_range)
  | step (w w2 : World) (input : Input) (h : Reachable w) (hs : step w input = some w2) :
      Reachable w2


/-- A boot block whose root cluster, 50, lies beyond the 8 clusters of the volume. -/
def farRootWorld : World := initWorld (bootBlock 512 1 32 2 0 1 50 1 0x29) 42

/-- The world `farRootWorld` with the pin of block 0 answered. -/
def farRootInit : World := farRootWorld.answer_block_ref false

/-- The world after `init` has accepted the boot block of `farRootWorld`. -/
def farRootReady : World := (init_block_ref_handler farRootInit false).getD default


/-- The mounted sample volume after a write-unmount whose second flush failed. -/
def sampleUnmountFailed : World :=
  ((step sampleMounted .startWriteUnmount).bind (run 4 [false, false, true])).getD default


/-! ## DirectoryIterator, DirLister and Opener -/

inductive DirIterState where
  | WAIT_REQUEST | CHECK_NEXT_EVENT | REQUESTING_CLUSTER | REQUESTING_BLOCK
  deriving DecidableEq, Repr, Inhabited

/-- The members of `FatFs::DirectoryIterator`.  `m_vfat_seq` is an `int8_t`
(-1 when no VFAT run is being collected) and `m_filename` the buffer of
`MaxFileNameSize + 1` bytes. -/
structure DirectoryIterator where
  m_chain : ClusterChain := {}
  m_dir_block_ref : CacheBlockRef := {}
  m_block_in_cluster : Nat := 0
  m_block_entry_pos : Nat := 0
  m_state : DirIterState := .WAIT_REQUEST
  m_vfat_seq : Int := -1
  m_vfat_csum : Nat := 0
  m_filename_pos : Nat := 0
  m_filename : Buffer := fun _ => 0

instance : Inhabited DirectoryIterator := ⟨{}⟩

inductive OpenerState where
  | REQUESTING_ENTRY | COMPLETED
  deriving DecidableEq, Repr, Inhabited

inductive OpenerStatus where
  | SUCCESS | NOT_FOUND | ERROR
  deriving DecidableEq, Repr, Inhabited

/-- The members of `FatFs::Opener` other than its iterator; `m_name` is the
requested name, a C string given by its bytes. -/
structure Opener where
  m_entry_type : EntryType := .DIR
  m_case_insens : Bool := false
  m_state : OpenerState := .REQUESTING_ENTRY
  m_name : List Nat := []
  deriving DecidableEq, Repr, Inhabited

/-- The queued events of a directory iterator: its own and that of its
chain. -/
inductive DirEvent where
  | iter_event
  | chain_event
  deriving DecidableEq, Repr, Inhabited

/-- A call of the handler of the client of a `DirLister` or of an `Opener`.  A
name is a C string given by its bytes, `none` for the null pointer. -/
inductive DirCall where
  | DirListerHandler (is_error : Bool) (name : Option (List Nat)) (entry : FsEntry)
  | OpenerHandler (status : OpenerStatus) (entry : FsEntry)
  deriving DecidableEq, Repr, Inhabited

/-- A directory iterator with what it works on.

* `w`: the filesystem object and the block cache;
* `MaxFileNameSize`: `Params::MaxFileNameSize`;
* `opener`: the `Opener` that owns the iterator, `none` when a `DirLister`
  owns it;
* `it`: the iterator;
* `queue`: the queued events of the iterator and of its chain, first to run
  first;
* `calls`: the calls of the handler of the client, latest first. -/
structure DirWorld where
  w : World := {}
  MaxFileNameSize : Nat := 12
  opener : Option Opener := none
  it : DirectoryIterator := {}
  queue : List DirEvent := []
  calls : List DirCall := []

instance : Inhabited DirWorld := ⟨{}⟩

/-- Modelled from the spec: `QueuedEvent::prependNowNotAlready` of the event
loop. -/
def DirWorld.prependNowNotAlready (d : DirWorld) (e : DirEvent) : DirWorld :=
  { d with queue := e :: d.queue }

/-- Modelled from the spec: `QueuedEvent::unset` of the event loop. -/
def DirWorld.unset (d : DirWorld) (e : DirEvent) : DirWorld :=
  { d with queue := d.queue.filter (fun x => x != e) }

/-- Record a call of the handler of the client. -/
def DirWorld.call (d : DirWorld) (c : DirCall) : DirWorld :=
  { d with calls := c :: d.calls }

/-- Modelled from the spec: `Utf8EncodeChar` of `aprinter/base/`, which is
outside the sources: the UTF-8 encoding of one 16-bit code unit, of one to
three bytes. -/
def Utf8EncodeChar (ch : Nat) : List Nat :=
  if ch < 0x80 then [ch]
  else if ch < 0x800 then [0xC0 ||| (ch >>> 6), 0x80 ||| (ch &&& 0x3F)]
  else [0xE0 ||| (ch >>> 12), 0x80 ||| ((ch >>> 6) &&& 0x3F), 0x80 ||| (ch &&& 0x3F)]

/-- Modelled from the spec: ASCII lower case of one byte. -/
def asciiLower (b : Nat) : Nat := if 65 ≤ b ∧ b ≤ 90 then b + 32 else b

/-- Modelled from the spec: `AsciiCaseInsensStringEqual`, which is outside the
sources: equality of two C strings up to the case of ASCII letters. -/
def AsciiCaseInsensStringEqual (str1 str2 : List Nat) : Bool :=
  decide ((str1.takeWhile (fun b => b != 0)).map asciiLower =
    (str2.takeWhile (fun b => b != 0)).map asciiLower)

/-- Modelled from the spec: `memcpy(dst + off, src, src.length)`. -/
def memcpy (dst : Buffer) (off : Nat) (src : List Nat) : Buffer :=
  fun k => if off ≤ k ∧ k < off + src.length then src.getD (k - off) 0 else dst k

/-- Modelled from the spec: `memmove(buffer + dst, buffer + src, n)`, a copy inside one
buffer that reads the bytes before it writes them. -/
def memmove (buffer : Buffer) (dst src n : Nat) : Buffer :=
  fun k => if dst ≤ k ∧ k < dst + n then buffer (src + (k - dst)) else buffer k

/-- The `length` bytes of `buffer` from offset `off`. -/
def bytesOf (buffer : Buffer) (off length : Nat) : List Nat :=
  (List.range length).map (fun k => buffer (off + k) % 256)

/-- `DirectoryIterator::vfat_checksum` on the 11 name bytes at `entry_ptr`; the
last argument counts the iterations of the loop. -/
def vfat_checksum_loop (buffer : Buffer) (entry_ptr : Nat) : Nat → Nat
  | 0 => 0
  | i + 1 =>
    let csum := vfat_checksum_loop buffer entry_ptr i
    ((((csum &&& 1) <<< 7) % 256 + (csum >>> 1)) % 256 + buffer (entry_ptr + i) % 256) % 256

def vfat_checksum (buffer : Buffer) (entry_ptr : Nat) : Nat :=
  vfat_checksum_loop buffer entry_ptr 11

/-- The loop `while (length > 0 && data[length - 1] == ' ') length--` of
`fixup_83_name`. -/
def fixup_83_name_length (data : Buffer) : Nat → Nat
  | 0 => 0
  | length + 1 => if data length = 0x20 then fixup_83_name_length data length else length + 1

/-- `DirectoryIterator::fixup_83_name`: the data after the call and the
returned length. -/
def fixup_83_name (data : Buffer) (length : Nat) (lowercase : Bool) : Buffer × Nat :=
  let length := fixup_83_name_length data length
  let data : Buffer :=
    if lowercase then
      fun i => if i < length ∧ data i ≥ 65 ∧ data i ≤ 90 then data i + 32 else data i
    else data
  (data, length)

/-- The loop over the 13 code units of a VFAT entry in
`DirectoryIterator::event_handler`: `n` code units are still to be looked at,
the next one is number `i`.  The result is the name buffer, `chunk_len`, and
whether the loop was left by `goto cancel_vfat`.  (`m_filename_pos - chunk_len`
does not wrap: the loop keeps `chunk_len ≤ m_filename_pos`.) -/
def collect_loop (name_data : Buffer) (filename_pos : Nat) :
    Nat → Nat → Buffer → Nat → Buffer × Nat × Bool
  | 0, _, filename, chunk_len => (filename, chunk_len, false)
  | n + 1, i, filename, chunk_len =>
    let ch := ReadBinaryInt16 name_data (2 * i)
    if ch = 0 then (filename, chunk_len, false) else
    let enc := Utf8EncodeChar ch
    if enc.length > filename_pos - chunk_len then (filename, chunk_len, true) else
    let filename := memcpy filename chunk_len enc
    collect_loop name_data filename_pos n (i + 1) filename (chunk_len + enc.length)

/-- Store the iterator. -/
def DirWorld.setIt (d : DirWorld) (it : DirectoryIterator) : DirWorld :=
  { d with it := it }

/-- `ClusterChain::init` on the chain of the iterator. -/
def DirectoryIterator.chain_init (d : DirWorld) (first_cluster : Nat) : DirWorld :=
  let c : ClusterChain := { m_state := ChainState.IDLE, m_first_cluster := first_cluster }
  let c := { c with m_iter_state := IterState.START }
  let c := { c with m_current_cluster := c.m_first_cluster }
  let c := { c with m_prev_cluster := 0 }
  d.setIt { d.it with m_chain := c }

/-- `ClusterChain::deinit` on the chain of the iterator, which never waits for
an allocation. -/
def DirectoryIterator.chain_deinit (d : DirWorld) : DirWorld :=
  let c := d.it.m_chain
  let c := { c with m_fat_cache_ref2 := c.m_fat_cache_ref2.reset }
  let c := { c with m_fat_cache_ref1 := c.m_fat_cache_ref1.reset }
  let d := d.setIt { d.it with m_chain := c }
  d.unset .chain_event

/-- `ClusterChain::requestNext` on the chain of the iterator. -/
def DirectoryIterator.chain_requestNext (d : DirWorld) : DirWorld :=
  let d := d.setIt { d.it with m_chain := { d.it.m_chain with m_state := ChainState.NEXT_CHECK } }
  d.prependNowNotAlready .chain_event

def DirectoryIterator.schedule_event (d : DirWorld) : DirWorld :=
  let d := d.setIt { d.it with m_state := DirIterState.CHECK_NEXT_EVENT }
  d.prependNowNotAlready .iter_event

def DirectoryIterator.requestEntry (d : DirWorld) : DirWorld :=
  DirectoryIterator.schedule_event d

def DirectoryIterator.deinit (d : DirWorld) : DirWorld :=
  let d := d.setIt { d.it with m_dir_block_ref := d.it.m_dir_block_ref.reset }
  let d := DirectoryIterator.chain_deinit d
  d.unset .iter_event

def DirectoryIterator.init (d : DirWorld) (first_cluster : Nat) : DirWorld :=
  let d := DirectoryIterator.chain_init d first_cluster
  let d := d.setIt { d.it with m_dir_block_ref := {} }
  let d := d.setIt { d.it with m_state := DirIterState.WAIT_REQUEST }
  let d := d.setIt { d.it with m_block_in_cluster := d.w.o.blocks_per_cluster }
  let d := d.setIt { d.it with m_block_entry_pos := d.w.DirEntriesPerBlock }
  d.setIt { d.it with m_vfat_seq := -1 }

/-- Modelled from the spec: the C string that a sequence of bytes holds, which ends before
the first NUL. -/
def cstr (str : List Nat) : List Nat := str.takeWhile (fun b => b != 0)

/-- Modelled from the spec: `strcmp` of the C library, as far as its result is zero or not. -/
def strcmp (str1 str2 : List Nat) : Nat := if cstr str1 = cstr str2 then 0 else 1

def Opener.compare_filename_equal (op : Opener) (str1 str2 : List Nat) : Bool :=
  if op.m_case_insens then AsciiCaseInsensStringEqual str1 str2
  else decide (strcmp str1 str2 = 0)

def Opener.dir_iter_handler (d : DirWorld) (op : Opener) (is_error : Bool)
    (name : Option (List Nat)) (entry : FsEntry) : DirWorld :=
  if is_error = true ∨ name = none then
    let d := { d with opener := some { op with m_state := OpenerState.COMPLETED } }
    let d := DirectoryIterator.deinit d
    let status := if is_error then OpenerStatus.ERROR else OpenerStatus.NOT_FOUND
    d.call (.OpenerHandler status {})
  else
  if entry.type ≠ op.m_entry_type ∨
      op.compare_filename_equal (name.getD []) op.m_name = false then
    DirectoryIterator.requestEntry d
  else
  let d := { d with opener := some { op with m_state := OpenerState.COMPLETED } }
  let d := DirectoryIterator.deinit d
  d.call (.OpenerHandler OpenerStatus.SUCCESS entry)

/-- `DirectoryIterator::complete_request`; the handler is that of the `Opener`
that owns the iterator, or the handler that the client gave to the
`DirLister`. -/
def DirectoryIterator.complete_request (d : DirWorld) (error : Bool)
    (name : Option (List Nat)) (entry : FsEntry) : DirWorld :=
  let d := d.setIt { d.it with m_state := DirIterState.WAIT_REQUEST }
  match d.opener with
  | some op => Opener.dir_iter_handler d op error name entry
  | none => d.call (.DirListerHandler error name entry)

/-- The 26 bytes `name_data` that `DirectoryIterator::event_handler` copies out of the VFAT
slot at `entry_ptr`: the bytes 1..10, 14..25 and 28..31 of the slot. -/
def vfat_name_data (buffer : Buffer) (entry_ptr : Nat) : Buffer :=
  memcpy (memcpy (memcpy (fun _ => 0) 0 (bytesOf buffer (entry_ptr + 0x1) 10))
    10 (bytesOf buffer (entry_ptr + 0xE) 12)) 22 (bytesOf buffer (entry_ptr + 0x1C) 4)

/-- The block `// VFAT entry` of `DirectoryIterator::event_handler`, up to its
`return schedule_event(c)`: a run is started when the slot has the start bit, and the slot
is collected or the collection is cancelled. -/
def DirectoryIterator.event_handler_vfat (d : DirWorld) (buffer : Buffer) (entry_ptr : Nat) :
    DirWorld :=
  let first_byte := ReadBinaryInt8 buffer (entry_ptr + 0x0)
  let checksum_byte := ReadBinaryInt8 buffer (entry_ptr + 0xD)
  let entry_vfat_seq : Int := ((first_byte &&& 0x1F : Nat) : Int)
  let d :=
    if first_byte &&& 0x60 = 0x40 then
      let d := d.setIt { d.it with m_vfat_seq := entry_vfat_seq }
      let d := d.setIt { d.it with m_vfat_csum := checksum_byte }
      d.setIt { d.it with m_filename_pos := d.MaxFileNameSize }
    else d
  if entry_vfat_seq > 0 ∧ d.it.m_vfat_seq ≠ -1 ∧ entry_vfat_seq = d.it.m_vfat_seq ∧
      checksum_byte = d.it.m_vfat_csum then
    let name_data := vfat_name_data buffer entry_ptr
    let r := collect_loop name_data d.it.m_filename_pos 13 0 d.it.m_filename 0
    let d := d.setIt { d.it with m_filename := r.1 }
    if r.2.2 then d.setIt { d.it with m_vfat_seq := -1 } else
    let chunk_len := r.2.1
    let filename := memmove d.it.m_filename (d.it.m_filename_pos - chunk_len) 0 chunk_len
    let d := d.setIt { d.it with m_filename := filename }
    let d := d.setIt { d.it with m_filename_pos := d.it.m_filename_pos - chunk_len }
    d.setIt { d.it with m_vfat_seq := d.it.m_vfat_seq - 1 }
  else d.setIt { d.it with m_vfat_seq := -1 }

/-- The `else` branch of the name selection of `DirectoryIterator::event_handler`: the 8.3
name that is stored at the start of `m_filename`, without its terminator. -/
def DirectoryIterator.name_83 (buffer : Buffer) (entry_ptr : Nat) : List Nat :=
  let type_byte := ReadBinaryInt8 buffer (entry_ptr + 0xC)
  let name_temp : Buffer := memcpy (fun _ => 0) 0 (bytesOf buffer (entry_ptr + 0) 8)
  let name_temp : Buffer :=
    if name_temp 0 = 0x5 then memcpy name_temp 0 [0xE5] else name_temp
  let rn := fixup_83_name name_temp 8 (decide (type_byte &&& 0x8 ≠ 0))
  let ext_temp : Buffer := memcpy (fun _ => 0) 0 (bytesOf buffer (entry_ptr + 8) 3)
  let re := fixup_83_name ext_temp 3 (decide (type_byte &&& 0x10 ≠ 0))
  let filename := bytesOf rn.1 0 rn.2
  if re.2 > 0 then filename ++ [0x2E] ++ bytesOf re.1 0 re.2 else filename

/-- The part of `DirectoryIterator::event_handler` that follows the block
guarded by `m_block_entry_pos == DirEntriesPerBlock`: the directory entry at
`m_block_entry_pos` in the pinned block is looked at.  The name handed to the
handler is a `char const *` into `m_filename`, that is a C string: what the handler
gets are the bytes from that pointer up to the first NUL byte (`cstr`), which is the
terminator that the function has written unless the name holds a NUL byte itself. -/
def DirectoryIterator.event_handler_entry (d : DirWorld) : DirWorld :=
  let buffer := d.w.getData d.it.m_dir_block_ref
  let entry_ptr := d.it.m_block_entry_pos * 32
  let first_byte := ReadBinaryInt8 buffer (entry_ptr + 0x0)
  let attrs := ReadBinaryInt8 buffer (entry_ptr + 0xB)
  let type_byte := ReadBinaryInt8 buffer (entry_ptr + 0xC)
  let file_size := ReadBinaryInt32 buffer (entry_ptr + DirEntrySizeOffset)
  if first_byte = 0 then DirectoryIterator.complete_request d false none {} else
  let d := d.setIt { d.it with m_block_entry_pos := d.it.m_block_entry_pos + 1 }
  if first_byte ≠ 0xE5 ∧ attrs = 0xF ∧ type_byte = 0 ∧ file_size ≠ 0 then
    DirectoryIterator.schedule_event (DirectoryIterator.event_handler_vfat d buffer entry_ptr)
  else
  let cur_vfat_seq := d.it.m_vfat_seq
  let d := d.setIt { d.it with m_vfat_seq := -1 }
  if first_byte = 0xE5 then DirectoryIterator.schedule_event d else
  if attrs &&& 0x8 ≠ 0 ∨ attrs &&& 0x40 ≠ 0 then DirectoryIterator.schedule_event d else
  let is_dir : Bool := decide (attrs &&& 0x10 ≠ 0)
  let is_dot_entry : Bool := decide (first_byte = 0x2E)
  let first_cluster := mask_cluster_entry (read_dir_entry_first_cluster buffer entry_ptr)
  let first_cluster :=
    if is_dot_entry = true ∧ first_cluster = 0 then d.w.o.root_cluster else first_cluster
  let r : DirWorld × List Nat :=
    if is_dot_entry = false ∧ cur_vfat_seq = 0 ∧
        vfat_checksum buffer entry_ptr = d.it.m_vfat_csum then
      let filename := bytesOf d.it.m_filename d.it.m_filename_pos
        (d.MaxFileNameSize - d.it.m_filename_pos)
      let d := d.setIt { d.it with m_filename := memcpy d.it.m_filename d.MaxFileNameSize [0] }
      (d, filename)
    else
      let filename := DirectoryIterator.name_83 buffer entry_ptr
      let d := d.setIt { d.it with m_filename := memcpy d.it.m_filename 0 (filename ++ [0]) }
      (d, filename)
  let d := r.1
  let entry : FsEntry :=
    { type := if is_dir then EntryType.DIR else EntryType.FILE,
      file_size := file_size,
      cluster_index := first_cluster,
      dir_entry_block_index :=
        get_cluster_data_block_index d.w d.it.m_chain.m_current_cluster
          (d.it.m_block_in_cluster - 1),
      dir_entry_block_offset := d.it.m_block_entry_pos - 1 }
  DirectoryIterator.complete_request d false (some (cstr r.2)) entry

def DirectoryIterator.event_handler (d : DirWorld) : DirWorld :=
  if d.it.m_block_entry_pos = d.w.DirEntriesPerBlock then
    if d.it.m_block_in_cluster = d.w.o.blocks_per_cluster then
      let d := d.setIt { d.it with m_dir_block_ref := d.it.m_dir_block_ref.reset }
      let d := DirectoryIterator.chain_requestNext d
      d.setIt { d.it with m_state := DirIterState.REQUESTING_CLUSTER }
    else
    if is_cluster_idx_valid_for_data d.w d.it.m_chain.m_current_cluster = false then
      DirectoryIterator.complete_request d true none {}
    else
    let block_idx := get_cluster_data_block_index d.w d.it.m_chain.m_current_cluster
      d.it.m_block_in_cluster
    let r := d.w.requestBlock d.it.m_dir_block_ref (get_abs_block_index d.w block_idx) false
    let d := d.setIt { d.it with m_dir_block_ref := r.1 }
    if r.2 = false then
      d.setIt { d.it with m_state := DirIterState.REQUESTING_BLOCK }
    else
    let d := d.setIt { d.it with m_block_in_cluster := (d.it.m_block_in_cluster + 1) % 2 ^ 16 }
    let d := d.setIt { d.it with m_block_entry_pos := 0 }
    DirectoryIterator.event_handler_entry d
  else DirectoryIterator.event_handler_entry d

def DirectoryIterator.chain_handler (d : DirWorld) (error : Bool)
    (_first_cluster_changed : Bool) : DirWorld :=
  if error = true ∨ d.it.m_chain.m_iter_state = IterState.END then
    DirectoryIterator.complete_request d error none {}
  else
  let d := d.setIt { d.it with m_block_in_cluster := 0 }
  DirectoryIterator.schedule_event d

def DirectoryIterator.dir_block_ref_handler (d : DirWorld) (error : Bool) : DirWorld :=
  if error then DirectoryIterator.complete_request d error none {} else
  DirectoryIterator.schedule_event d

/-- `ClusterChain::complete_request` on the chain of the iterator. -/
def DirectoryIterator.chain_complete_request (d : DirWorld) (error : Bool)
    (first_cluster_changed : Bool) : DirWorld :=
  let c := d.it.m_chain
  let c := { c with m_state := ChainState.IDLE }
  let c := { c with m_fat_cache_ref1 := c.m_fat_cache_ref1.reset }
  let c := { c with m_fat_cache_ref2 := c.m_fat_cache_ref2.reset }
  DirectoryIterator.chain_handler (d.setIt { d.it with m_chain := c }) error
    first_cluster_changed

/-- The part of `ClusterChain::event_handler`, case `NEXT_CHECK`, that follows
the block guarded by `m_iter_state == IterState::CLUSTER`, on the chain of the
iterator. -/
def DirectoryIterator.chain_event_handler_next_check_end (d : DirWorld) : DirWorld :=
  let c := d.it.m_chain
  let iter_state :=
    if is_cluster_idx_normal c.m_current_cluster then IterState.CLUSTER else IterState.END
  let d :=
    if c.m_iter_state ≠ IterState.END then
      d.setIt { d.it with m_chain := { c with m_iter_state := iter_state } }
    else d
  DirectoryIterator.chain_complete_request d false false

/-- `ClusterChain::event_handler` on the chain of the iterator.  The iterator
only asks its chain for the next cluster; the cases of the other requests are
in `ClusterChain.event_handler`. -/
def DirectoryIterator.chain_event_handler (d : DirWorld) : DirWorld :=
  match d.it.m_chain.m_state with
  | .NEXT_CHECK =>
    if d.it.m_chain.m_iter_state = IterState.CLUSTER then
      if is_cluster_idx_valid_for_fat d.w d.it.m_chain.m_current_cluster = false then
        DirectoryIterator.chain_complete_request d true false else
      let r := request_fat_cache_block d.w d.it.m_chain.m_fat_cache_ref1
        d.it.m_chain.m_current_cluster false
      let d := d.setIt { d.it with m_chain := { d.it.m_chain with m_fat_cache_ref1 := r.1 } }
      if r.2 = false then
        d.setIt { d.it with m_chain :=
          { d.it.m_chain with m_state := ChainState.NEXT_REQUESTING_FAT } } else
      let d := d.setIt { d.it with m_chain :=
        { d.it.m_chain with m_prev_cluster := d.it.m_chain.m_current_cluster } }
      let fat_value := read_fat_entry_in_cache_block d.w d.it.m_chain.m_fat_cache_ref1
        d.it.m_chain.m_current_cluster
      let d := d.setIt { d.it with m_chain :=
        { d.it.m_chain with m_current_cluster := fat_value } }
      DirectoryIterator.chain_event_handler_next_check_end d
    else
      DirectoryIterator.chain_event_handler_next_check_end d
  | _ => d

/-- `ClusterChain::fat_cache_ref_handler` on the chain of the iterator. -/
def DirectoryIterator.chain_fat_cache_ref_handler (d : DirWorld) (error : Bool) : DirWorld :=
  match d.it.m_chain.m_state with
  | .NEXT_REQUESTING_FAT =>
    if error then DirectoryIterator.chain_complete_request d true false else
    let d := d.setIt { d.it with m_chain :=
      { d.it.m_chain with m_state := ChainState.NEXT_CHECK } }
    d.prependNowNotAlready .chain_event
  | _ => d

def DirLister.init (d : DirWorld) (dir_entry : FsEntry) : DirWorld :=
  DirectoryIterator.init { d with opener := none } dir_entry.cluster_index

def DirLister.requestEntry (d : DirWorld) : DirWorld :=
  DirectoryIterator.requestEntry d

def Opener.init (d : DirWorld) (dir_entry : FsEntry) (entry_type : EntryType)
    (name : List Nat) (case_insens : Bool) : DirWorld :=
  let op : Opener := { m_entry_type := entry_type, m_name := name,
                       m_case_insens := case_insens,
                       m_state := OpenerState.REQUESTING_ENTRY }
  let d := DirectoryIterator.init { d with opener := some op } dir_entry.cluster_index
  DirectoryIterator.requestEntry d

/-- What reaches a directory iterator from outside: the event loop running the
first queued event, the block cache completing a pin (with its error flag), or
the client calling `DirLister` or `Opener`. -/
inductive DirInput where
  | queued
  | fat_cache_ref (error : Bool)
  | dir_block_ref (error : Bool)
  | DirLister_init (dir_entry : FsEntry)
  | DirLister_requestEntry
  | Opener_init (dir_entry : FsEntry) (entry_type : EntryType) (name : List Nat)
      (case_insens : Bool)
  deriving DecidableEq, Repr, Inhabited

/-- One transition of a directory iterator; `none` means that the input cannot
occur in this state. -/
def dirStep (d : DirWorld) : DirInput → Option DirWorld
  | .queued =>
    match d.queue with
    | [] => none
    | e :: rest =>
      let d := { d with queue := rest }
      match e with
      | .iter_event => some (DirectoryIterator.event_handler d)
      | .chain_event => some (DirectoryIterator.chain_event_handler d)
  | .fat_cache_ref error =>
    if d.it.m_chain.m_fat_cache_ref1.state = CacheRefState.REQUESTING then
      let w := d.w.blockLoaded d.it.m_chain.m_fat_cache_ref1 error
      let r := d.it.m_chain.m_fat_cache_ref1.complete error
      let d := { d with w := w }
      let d := d.setIt { d.it with m_chain := { d.it.m_chain with m_fat_cache_ref1 := r } }
      some (DirectoryIterator.chain_fat_cache_ref_handler d error)
    else none
  | .dir_block_ref error =>
    if d.it.m_dir_block_ref.state = CacheRefState.REQUESTING then
      let w := d.w.blockLoaded d.it.m_dir_block_ref error
      let r := d.it.m_dir_block_ref.complete error
      let d := { d with w := w }
      let d := d.setIt { d.it with m_dir_block_ref := r }
      some (DirectoryIterator.dir_block_ref_handler d error)
    else none
  | .DirLister_init dir_entry =>
    if d.w.o.state = FsState.READY ∧ dir_entry.type = EntryType.DIR then
      some (DirLister.init d dir_entry)
    else none
  | .DirLister_requestEntry =>
    if d.opener = none ∧ d.it.m_state = DirIterState.WAIT_REQUEST then
      some (DirLister.requestEntry d)
    else none
  | .Opener_init dir_entry entry_type name case_insens =>
    if d.w.o.state = FsState.READY ∧ dir_entry.type = EntryType.DIR then
      some (Opener.init d dir_entry entry_type name case_insens)
    else none

/-- The pin of the iterator that the block cache has still to answer, if
any. -/
def dirPending (d : DirWorld) : Option (Bool → DirInput) :=
  if d.it.m_chain.m_fat_cache_ref1.state = CacheRefState.REQUESTING then
    some DirInput.fat_cache_ref
  else if d.it.m_dir_block_ref.state = CacheRefState.REQUESTING then
    some DirInput.dir_block_ref
  else none

/-- Let the event loop and the block cache work until nothing is queued and
nothing is outstanding, as `run` does for files. -/
def dirRun : Nat → List Bool → DirWorld → Option DirWorld
  | 0, _, _ => none
  | fuel + 1, errors, d =>
    if d.queue ≠ [] then (dirStep d .queued).bind (dirRun fuel errors)
    else
      match dirPending d with
      | none => some d
      | some answer => (dirStep d (answer (errors.headD false))).bind (dirRun fuel errors.tail)


/-! ## A sample directory -/

/-- A block of directory slots, each given by its 32 bytes. -/
def slotsBuffer (slots : List (List Nat)) : Buffer :=
  fun k => (slots.getD (k / 32) []).getD (k % 32) 0

/-- A VFAT slot with the given first byte, checksum byte and UTF-16 code units; code units
that are not given are `0xFFFF`. -/
def lfnSlot (first_byte csum : Nat) (units : List Nat) : List Nat :=
  let lo := fun i => units.getD i 0xFFFF % 256
  let hi := fun i => units.getD i 0xFFFF / 256 % 256
  [first_byte, lo 0, hi 0, lo 1, hi 1, lo 2, hi 2, lo 3, hi 3, lo 4, hi 4, 0x0F, 0, csum,
   lo 5, hi 5, lo 6, hi 6, lo 7, hi 7, lo 8, hi 8, lo 9, hi 9, lo 10, hi 10, 0, 0,
   lo 11, hi 11, lo 12, hi 12]

/-- A short slot with the given 11 name bytes, attributes, byte 12, first cluster and
size. -/
def shortSlot (name : List Nat) (attrs byte12 cluster size : Nat) : List Nat :=
  (List.range 11).map (fun i => name.getD i 0x20) ++
  [attrs, byte12, 0, 0, 0, 0, 0, 0, 0, cluster / 65536 % 256, cluster / 16777216 % 256,
   0, 0, 0, 0, cluster % 256, cluster / 256 % 256,
   size % 256, size / 256 % 256, size / 65536 % 256, size / 16777216 % 256]

/-- A free slot. -/
def freeSlot : List Nat := shortSlot [0xE5] 0x20 0 0 0

/-- The first block of the sample directory: a volume label; the VFAT run and short slot of
`Réadme.md`; a free slot; `hi.txt`; the directory `SUB`; a VFAT slot padded with zeros and
its short slot `AB`; a VFAT slot, a volume label and the short slot `CD.E`; the entry `.`;
free slots. -/
def dirSampleBlock0 : List (List Nat) :=
  [ shortSlot [0x53, 0x41, 0x4D, 0x50, 0x4C, 0x45] 0x08 0 0 0,
    lfnSlot 0x41 235 [0x52, 0xE9, 0x61, 0x64, 0x6D, 0x65, 0x2E, 0x6D, 0x64, 0],
    shortSlot [82, 69, 65, 68, 77, 69, 126, 49, 77, 68, 32] 0x20 0 5 10,
    freeSlot,
    shortSlot [72, 73, 32, 32, 32, 32, 32, 32, 84, 88, 84] 0x20 0x18 4 1000,
    shortSlot [0x53, 0x55, 0x42] 0x10 0 6 0,
    lfnSlot 0x41 145 [0x41, 0x62, 0, 0, 0, 0, 0, 0, 0, 0, 0, 0, 0],
    shortSlot [65, 66] 0x20 0 0 0,
    lfnSlot 0x41 91 [0x43, 0x64, 0x2E, 0x65, 0],
    shortSlot [0x4C, 0x41, 0x42, 0x45, 0x4C] 0x08 0 0 0,
    shortSlot [67, 68, 32, 32, 32, 32, 32, 32, 69, 32, 32] 0x20 0 0 0,
    shortSlot [0x2E] 0x10 0 0 0,
    freeSlot, freeSlot, freeSlot, freeSlot ]

/-- The second block of the sample directory: the entry `LAST`, then the end. -/
def dirSampleBlock1 : List (List Nat) :=
  [ shortSlot [0x4C, 0x41, 0x53, 0x54] 0x20 0 0 0 ]

/-- A volume of 100 blocks of 512 bytes with one block per cluster: the FAT in block 32,
the root directory in the clusters 2 and 3 (blocks 34 and 35), the file `hi.txt` in
cluster 4. -/
def dirSampleImage : Nat → Buffer := fun b =>
  if b = 0 then bootBlock 512 1 32 2 0 1 2 1 0x29
  else if b = 1 then fsInfoBuffer 60 4
  else if b = 32 then wordsBuffer [0x0FFFFFF8, 0xFFFFFFFF, 3, 0x0FFFFFFF, 0x0FFFFFFF]
  else if b = 34 then slotsBuffer dirSampleBlock0
  else if b = 35 then slotsBuffer dirSampleBlock1
  else fun _ => 0

/-- The sample directory volume after `init`. -/
def dirSampleReady : World :=
  (run 4 [] (init { data := dirSampleImage } { base := 0, length := 100 })).getD default

/-- A `DirLister` on the root directory of the sample directory volume. -/
def dirSample : DirWorld :=
  (dirStep { w := dirSampleReady } (.DirLister_init (getRootEntry dirSampleReady))).getD default

/-- The client of a `DirLister` asks for the next entry, and the event loop and the block
cache work until nothing is left to do. -/
def listNext (fuel : Nat) (d : DirWorld) : Option DirWorld :=
  (dirStep d .DirLister_requestEntry).bind (dirRun fuel [])

/-- The client of a `DirLister` asks for `n` entries, one after the other. -/
def listN (fuel : Nat) : Nat → DirWorld → Option DirWorld
  | 0, d => some d
  | n + 1, d => (listNext fuel d).bind (listN fuel n)


/-! ## Notions used in the statements about directories -/

/-- The buffer of the block that the iterator has pinned. -/
def DirWorld.buffer (d : DirWorld) : Buffer := d.w.getData d.it.m_dir_block_ref

/-- The offset in the pinned block of the slot that the iterator looks at next. -/
def DirWorld.entry_ptr (d : DirWorld) : Nat := d.it.m_block_entry_pos * 32

/-- The slot at `entry_ptr` marks the end of the directory: its first byte is 0. -/
def slotEnd (buffer : Buffer) (entry_ptr : Nat) : Prop :=
  ReadBinaryInt8 buffer (entry_ptr + 0x0) = 0

/-- The slot at `entry_ptr` is one that `event_handler` takes for a VFAT slot: its first
byte is not the free marker, its attributes are `0x0F`, its byte 12 is 0 and its size field
is not 0. -/
def slotVfat (buffer : Buffer) (entry_ptr : Nat) : Prop :=
  ReadBinaryInt8 buffer (entry_ptr + 0x0) ≠ 0xE5 ∧ ReadBinaryInt8 buffer (entry_ptr + 0xB) = 0xF ∧
  ReadBinaryInt8 buffer (entry_ptr + 0xC) = 0 ∧
  ReadBinaryInt32 buffer (entry_ptr + DirEntrySizeOffset) ≠ 0

/-- The slot at `entry_ptr` is free (first byte `0xE5`) or a volume label or device
(attribute bit 3 or bit 6). -/
def slotIgnored (buffer : Buffer) (entry_ptr : Nat) : Prop :=
  ReadBinaryInt8 buffer (entry_ptr + 0x0) = 0xE5 ∨
  ReadBinaryInt8 buffer (entry_ptr + 0xB) &&& 0x8 ≠ 0 ∨
  ReadBinaryInt8 buffer (entry_ptr + 0xB) &&& 0x40 ≠ 0

/-- The slot at `entry_ptr` is a short entry that is handed out: it is not the end marker,
not free, and neither a volume label nor a device. -/
def slotShort (buffer : Buffer) (entry_ptr : Nat) : Prop :=
  ReadBinaryInt8 buffer (entry_ptr + 0x0) ≠ 0 ∧ ReadBinaryInt8 buffer (entry_ptr + 0x0) ≠ 0xE5 ∧
  ReadBinaryInt8 buffer (entry_ptr + 0xB) &&& 0x8 = 0 ∧
  ReadBinaryInt8 buffer (entry_ptr + 0xB) &&& 0x40 = 0

instance (buffer : Buffer) (entry_ptr : Nat) : Decidable (slotEnd buffer entry_ptr) := by
  unfold slotEnd
  infer_instance

instance (buffer : Buffer) (entry_ptr : Nat) : Decidable (slotVfat buffer entry_ptr) := by
  unfold slotVfat
  infer_instance

instance (buffer : Buffer) (entry_ptr : Nat) : Decidable (slotIgnored buffer entry_ptr) := by
  unfold slotIgnored
  infer_instance

instance (buffer : Buffer) (entry_ptr : Nat) : Decidable (slotShort buffer entry_ptr) := by
  unfold slotShort
  infer_instance

/-- The `FsEntry` that `event_handler` hands out for the short slot that the iterator looks
at. -/
def DirWorld.slot_entry (d : DirWorld) : FsEntry :=
  let first_cluster := mask_cluster_entry (read_dir_entry_first_cluster d.buffer d.entry_ptr)
  { type := if ReadBinaryInt8 d.buffer (d.entry_ptr + 0xB) &&& 0x10 ≠ 0 then EntryType.DIR
            else EntryType.FILE,
    file_size := ReadBinaryInt32 d.buffer (d.entry_ptr + DirEntrySizeOffset),
    cluster_index :=
      if ReadBinaryInt8 d.buffer (d.entry_ptr + 0x0) = 0x2E ∧ first_cluster = 0 then
        d.w.o.root_cluster
      else first_cluster,
    dir_entry_block_index :=
      get_cluster_data_block_index d.w d.it.m_chain.m_current_cluster
        (d.it.m_block_in_cluster - 1),
    dir_entry_block_offset := d.it.m_block_entry_pos }


/-- The VFAT checksum in the words of the specification: the fold of
`csum := (((csum & 1) << 7) + (csum >> 1) + byte) mod 256` over the name bytes, from 0. -/
def checksumFold (bytes : List Nat) : Nat :=
  bytes.foldl (fun csum byte => (((csum &&& 1) <<< 7) + (csum >>> 1) + byte) % 256) 0

/-- A byte with `A`..`Z` made lower case. -/
def lowerAZ (b : Nat) : Nat := if 0x41 ≤ b ∧ b ≤ 0x5A then b + 32 else b

/-- The name bytes with byte 0 rewritten from `0x05` to `0xE5`. -/
def rewriteFirst05 (name : List Nat) : List Nat :=
  match name with
  | [] => []
  | b :: rest => (if b = 0x05 then 0xE5 else b) :: rest

/-- The canonical 8.3 name in the words of the specification, from the 8 name bytes, the 3
extension bytes and byte 12 of the slot: byte 0 of the name is rewritten from `0x05` to
`0xE5`, trailing `0x20` bytes are removed from the name and from the extension, the name is
made lower case when bit 3 of byte 12 is set and the extension when bit 4 is set, and `.`
and the extension follow the name only when the extension is not empty. -/
def canonical83 (name ext : List Nat) (byte12 : Nat) : List Nat :=
  let name := rewriteFirst05 name
  let name := name.rdropWhile (fun b => b == 0x20)
  let name := if byte12 &&& 0x08 ≠ 0 then name.map lowerAZ else name
  let ext := ext.rdropWhile (fun b => b == 0x20)
  let ext := if byte12 &&& 0x10 ≠ 0 then ext.map lowerAZ else ext
  if ext ≠ [] then name ++ [0x2E] ++ ext else name


/-- The inputs `inputs` reach the iterator one after the other. -/
def dirSteps (inputs : List DirInput) (d : DirWorld) : Option DirWorld :=
  inputs.foldl (fun r i => r.bind (fun d => dirStep d i)) (some d)

/-- The sample `DirLister` when it is about to look at the slot of `hi.txt`: one entry has
been handed out, the next has been asked for and the free slot has been passed over. -/
def dirSampleAtHi : DirWorld :=
  ((listN 20 1 dirSample).bind (dirSteps [.DirLister_requestEntry, .queued])).getD default

/-- The sample `DirLister` when it is about to look at the slot of the entry `.`: five
entries have been handed out and the next has been asked for. -/
def dirSampleAtDot : DirWorld :=
  ((listN 20 5 dirSample).bind (dirSteps [.DirLister_requestEntry])).getD default


/-- The 13 UTF-16LE code units of the VFAT slot at `entry_ptr`: the bytes 1..10, 14..25 and
28..31 of the slot. -/
def slotUnits (buffer : Buffer) (entry_ptr : Nat) : List Nat :=
  (List.range 5).map (fun i => ReadBinaryInt16 buffer (entry_ptr + 1 + 2 * i)) ++
  (List.range 6).map (fun i => ReadBinaryInt16 buffer (entry_ptr + 14 + 2 * i)) ++
  (List.range 2).map (fun i => ReadBinaryInt16 buffer (entry_ptr + 28 + 2 * i))

/-- The name fragment of a VFAT slot: the UTF-8 encoding of its code units up to the first
U+0000. -/
def fragmentName (units : List Nat) : List Nat :=
  (units.takeWhile (fun u => u != 0)).flatMap Utf8EncodeChar

/-- The fields of an iterator that hold the VFAT run being collected, with the size of the
name buffer. -/
structure VfatState where
  MaxFileNameSize : Nat
  m_vfat_seq : Int
  m_vfat_csum : Nat
  m_filename_pos : Nat
  m_filename : Buffer

/-- The VFAT run that the iterator is collecting. -/
def DirWorld.vfat (d : DirWorld) : VfatState :=
  { MaxFileNameSize := d.MaxFileNameSize, m_vfat_seq := d.it.m_vfat_seq,
    m_vfat_csum := d.it.m_vfat_csum, m_filename_pos := d.it.m_filename_pos,
    m_filename := d.it.m_filename }

/-- While a VFAT run is being collected, `m_filename_pos` is at most `MaxFileNameSize`, and
the name buffer has room for an 8.3 name (`MaxFileNameSize >= 12`, as the source asserts). -/
def VfatInv (d : DirWorld) : Prop :=
  12 ≤ d.MaxFileNameSize ∧ (d.it.m_vfat_seq ≠ -1 → d.it.m_filename_pos ≤ d.MaxFileNameSize)

/-- The states of a directory iterator that can be reached: after `DirLister::init` or
`Opener::init` (with `MaxFileNameSize >= 12`), by any inputs. -/
inductive DirReachable : DirWorld → Prop where
  | lister (d d2 : DirWorld) (dir_entry : FsEntry) (hmax : 12 ≤ d.MaxFileNameSize)
      (hs : dirStep d (.DirLister_init dir_entry) = some d2) : DirReachable d2
  | opener (d d2 : DirWorld) (dir_entry : FsEntry) (entry_type : EntryType) (name : List Nat)
      (case_insens : Bool) (hmax : 12 ≤ d.MaxFileNameSize)
      (hs : dirStep d (.Opener_init dir_entry entry_type name case_insens) = some d2) :
      DirReachable d2
  | step (d d2 : DirWorld) (input : DirInput) (h : DirReachable d)
      (hs : dirStep d input = some d2) : DirReachable d2


/-- The VFAT slot at `entry_ptr` has the start bit: bit 6 of its first byte is set and bit
5 is clear. -/
def slotStartsRun (buffer : Buffer) (entry_ptr : Nat) : Prop :=
  ReadBinaryInt8 buffer (entry_ptr + 0x0) &&& 0x60 = 0x40

instance (buffer : Buffer) (entry_ptr : Nat) : Decidable (slotStartsRun buffer entry_ptr) := by
  unfold slotStartsRun
  infer_instance

/-- The sequence number of the VFAT slot at `entry_ptr`: the bits 0..4 of its first byte. -/
def slotSeq (buffer : Buffer) (entry_ptr : Nat) : Nat :=
  ReadBinaryInt8 buffer (entry_ptr + 0x0) &&& 0x1F

/-- The checksum byte of the VFAT slot at `entry_ptr`. -/
def slotCsum (buffer : Buffer) (entry_ptr : Nat) : Nat :=
  ReadBinaryInt8 buffer (entry_ptr + 0xD)

/-- The sequence number that the iterator expects when it has looked at the first byte of
the VFAT slot: that of the slot when the slot starts a run. -/
def DirWorld.run_seq (d : DirWorld) (buffer : Buffer) (entry_ptr : Nat) : Int :=
  if slotStartsRun buffer entry_ptr then (slotSeq buffer entry_ptr : Int) else d.it.m_vfat_seq

/-- The checksum of the run, that of the slot when the slot starts a run. -/
def DirWorld.run_csum (d : DirWorld) (buffer : Buffer) (entry_ptr : Nat) : Nat :=
  if slotStartsRun buffer entry_ptr then slotCsum buffer entry_ptr else d.it.m_vfat_csum

/-- The position in the name buffer before which the fragment of the slot is to be placed:
`MaxFileNameSize` when the slot starts a run. -/
def DirWorld.run_pos (d : DirWorld) (buffer : Buffer) (entry_ptr : Nat) : Nat :=
  if slotStartsRun buffer entry_ptr then d.MaxFileNameSize else d.it.m_filename_pos

/-- The VFAT slot at `entry_ptr` is collected: its sequence number is positive and the one
expected, and its checksum byte is that of the run. -/
def DirWorld.collects (d : DirWorld) (buffer : Buffer) (entry_ptr : Nat) : Prop :=
  (slotSeq buffer entry_ptr : Int) > 0 ∧ d.run_seq buffer entry_ptr ≠ -1 ∧
  (slotSeq buffer entry_ptr : Int) = d.run_seq buffer entry_ptr ∧
  slotCsum buffer entry_ptr = d.run_csum buffer entry_ptr


instance (d : DirWorld) (buffer : Buffer) (entry_ptr : Nat) :
    Decidable (d.collects buffer entry_ptr) := by
  unfold DirWorld.collects
  infer_instance


/-! ## The order of the slots of a directory -/

/-- Where a directory iterator reads its next slot: in block `block` of the cluster
`cluster`, the slot number `entry`; or nowhere, because the cluster chain of the directory
has ended, or because an error is met on the way. -/
inductive Seek where
  | slot (cluster block entry : Nat)
  | done
  | failed
  deriving DecidableEq, Repr, Inhabited

/-- The first slot of the cluster `c` of a directory, when `c` is what the chain yields:
a value that is not a normal cluster index ends the directory, and a cluster that is not
valid for data is an error. -/
def seekCluster (w : World) (c : Nat) : Seek :=
  if is_cluster_idx_normal c = false then Seek.done
  else if is_cluster_idx_valid_for_data w c = false then Seek.failed
  else Seek.slot c 0 0

/-- The first slot of the directory that starts at `first_cluster`. -/
def firstSlot (w : World) (first_cluster : Nat) : Seek := seekCluster w first_cluster

/-- The slot that follows the slot `entry` of block `block` of the cluster `cluster`: the
next slot of the block, else the first slot of the next block of the cluster, else the
first slot of the cluster that the FAT gives as the next one. -/
def nextSlot (w : World) (cluster block entry : Nat) : Seek :=
  if entry + 1 ≠ w.DirEntriesPerBlock then Seek.slot cluster block (entry + 1)
  else if block + 1 ≠ w.o.blocks_per_cluster then
    if is_cluster_idx_valid_for_data w cluster = false then Seek.failed
    else Seek.slot cluster (block + 1) 0
  else if is_cluster_idx_valid_for_fat w cluster = false then Seek.failed
  else seekCluster w (fatNext w cluster)

/-- The cached contents of block `block` of the cluster `cluster`. -/
def clusterBlock (w : World) (cluster block : Nat) : Buffer :=
  w.data (get_abs_block_index w (get_cluster_data_block_index w cluster block))

/-- The volume without the record of which blocks the cache holds. -/
def World.volume (w : World) : World := { w with loaded := fun _ => false }

/-- Nothing is going on in the iterator besides what its queue holds: its chain is idle and
no pin is outstanding; and a cluster has between 1 and 65535 blocks. -/
def DirWorld.Quiet (d : DirWorld) : Prop :=
  d.it.m_chain.m_state = ChainState.IDLE ∧
  d.it.m_chain.m_fat_cache_ref1.state ≠ CacheRefState.REQUESTING ∧
  d.it.m_dir_block_ref.state ≠ CacheRefState.REQUESTING ∧
  1 ≤ d.w.o.blocks_per_cluster ∧ d.w.o.blocks_per_cluster < 2 ^ 16

/-- The iterator stands at the slot `entry` of block `block` of the cluster `cluster`: the
block is pinned, the chain is on the cluster, and `m_block_in_cluster` and
`m_block_entry_pos` say so. -/
def DirWorld.At (d : DirWorld) (cluster block entry : Nat) : Prop :=
  d.Quiet ∧
  d.it.m_dir_block_ref = CacheBlockRef.mk CacheRefState.READY
    (get_abs_block_index d.w (get_cluster_data_block_index d.w cluster block)) ∧
  d.it.m_chain.m_iter_state = IterState.CLUSTER ∧
  d.it.m_chain.m_current_cluster = cluster ∧
  d.it.m_block_in_cluster = block + 1 ∧ block < d.w.o.blocks_per_cluster ∧
  d.it.m_block_entry_pos = entry

/-- The iterator stands before the first slot of its directory, as after `init`. -/
def DirWorld.AtStart (d : DirWorld) (first_cluster : Nat) : Prop :=
  d.Quiet ∧ d.it.m_chain.m_iter_state = IterState.START ∧
  d.it.m_chain.m_current_cluster = first_cluster ∧
  d.it.m_block_in_cluster = d.w.o.blocks_per_cluster ∧
  d.it.m_block_entry_pos = d.w.DirEntriesPerBlock

/-- The iterator stands at the end of the cluster chain of its directory. -/
def DirWorld.AtEnd (d : DirWorld) : Prop :=
  d.Quiet ∧ d.it.m_chain.m_iter_state = IterState.END ∧
  d.it.m_block_in_cluster = d.w.o.blocks_per_cluster ∧
  d.it.m_block_entry_pos = d.w.DirEntriesPerBlock

/-- What the steps of an iterator that complete no request leave alone: the volume, the
owner, the calls made so far and the VFAT run. -/
def DirWorld.kept (d : DirWorld) : World × Option Opener × List DirCall × VfatState :=
  (d.w.volume, d.opener, d.calls, d.vfat)


/-- The event loop and the block cache, answering every pin without error, bring the
iterator from `d` to `d2`. -/
def Reaches (d d2 : DirWorld) : Prop :=
  ∃ s, ∀ k, dirRun (k + s) [] d = dirRun k [] d2

/-- The iterator `d` gets to the place `r`: for a slot, `event_handler` comes to look at
that slot, with the block pinned; at the end of the chain and on an error, the request is
completed, without and with the error flag.  In each case the volume, the owner, the calls
and the VFAT run are those of `d`. -/
def Arrives (d : DirWorld) : Seek → Prop
  | Seek.slot c b p =>
    ∃ d2, Reaches d (DirectoryIterator.event_handler_entry d2) ∧ d2.At c b p ∧ d2.queue = [] ∧
      d2.kept = d.kept
  | Seek.done =>
    ∃ d2, Reaches d (DirectoryIterator.complete_request d2 false none {}) ∧ d2.AtEnd ∧
      d2.queue = [] ∧ d2.kept = d.kept
  | Seek.failed =>
    ∃ d2, Reaches d (DirectoryIterator.complete_request d2 true none {}) ∧ d2.Quiet ∧
      d2.queue = [] ∧ d2.kept = d.kept


/-- The slot that `event_handler` looks at next, from the members of the iterator: the next
slot of the pinned block, else the first slot of the next block of the cluster, else the
first slot of the cluster that the chain yields. -/
def DirWorld.seek (d : DirWorld) : Seek :=
  if d.it.m_block_entry_pos ≠ d.w.DirEntriesPerBlock then
    Seek.slot d.it.m_chain.m_current_cluster (d.it.m_block_in_cluster - 1) d.it.m_block_entry_pos
  else if d.it.m_block_in_cluster ≠ d.w.o.blocks_per_cluster then
    if is_cluster_idx_valid_for_data d.w d.it.m_chain.m_current_cluster = false then Seek.failed
    else Seek.slot d.it.m_chain.m_current_cluster d.it.m_block_in_cluster 0
  else if d.it.m_chain.m_iter_state = IterState.END then Seek.done
  else if d.it.m_chain.m_iter_state = IterState.START then
    seekCluster d.w d.it.m_chain.m_current_cluster
  else if is_cluster_idx_valid_for_fat d.w d.it.m_chain.m_current_cluster = false then
    Seek.failed
  else seekCluster d.w (fatNext d.w d.it.m_chain.m_current_cluster)

/-- The members of the iterator fit together: nothing is going on, `m_block_in_cluster` is
at most `blocks_per_cluster`, the chain is on a cluster unless a cluster is to be asked
for, and when a slot of the pinned block is next, the pinned block is block
`m_block_in_cluster - 1` of the current cluster. -/
def DirWorld.Positioned (d : DirWorld) : Prop :=
  d.Quiet ∧ d.it.m_block_in_cluster ≤ d.w.o.blocks_per_cluster ∧
  ((d.it.m_block_entry_pos ≠ d.w.DirEntriesPerBlock ∨
      d.it.m_block_in_cluster ≠ d.w.o.blocks_per_cluster) →
    d.it.m_chain.m_iter_state = IterState.CLUSTER) ∧
  (d.it.m_block_entry_pos ≠ d.w.DirEntriesPerBlock →
    1 ≤ d.it.m_block_in_cluster ∧
    d.it.m_dir_block_ref = CacheBlockRef.mk CacheRefState.READY
      (get_abs_block_index d.w (get_cluster_data_block_index d.w
        d.it.m_chain.m_current_cluster (d.it.m_block_in_cluster - 1))))

/-- What a request for an entry ends with: an entry with its name, the end of the
directory (no error, no name), or an error. -/
inductive Outcome where
  | entry (name : List Nat) (entry : FsEntry)
  | finished
  | error
  deriving DecidableEq, Repr, Inhabited

/-- The error flag that the handler gets. -/
def Outcome.is_error : Outcome → Bool
  | Outcome.error => true
  | _ => false

/-- The name that the handler gets. -/
def Outcome.name : Outcome → Option (List Nat)
  | Outcome.entry n _ => some n
  | _ => none

/-- The entry that the handler gets. -/
def Outcome.fsEntry : Outcome → FsEntry
  | Outcome.entry _ e => e
  | _ => {}

/-- An iterator with the given VFAT run and nothing else. -/
def VfatState.world (v : VfatState) : DirWorld :=
  { MaxFileNameSize := v.MaxFileNameSize,
    it := { m_vfat_seq := v.m_vfat_seq, m_vfat_csum := v.m_vfat_csum,
            m_filename_pos := v.m_filename_pos, m_filename := v.m_filename } }

/-- The VFAT run after the block `// VFAT entry` of `event_handler` has run on the slot at
`entry_ptr`. -/
def VfatState.afterVfat (v : VfatState) (buffer : Buffer) (entry_ptr : Nat) : VfatState :=
  (DirectoryIterator.event_handler_vfat v.world buffer entry_ptr).vfat

/-- The VFAT run after `event_handler` has passed over a free, volume-label or device
slot: the run is forgotten. -/
def VfatState.forget (v : VfatState) : VfatState := { v with m_vfat_seq := -1 }

/-- The short slot at `entry_ptr` gets the long name that has been collected: its first
byte is not `.`, the run is complete and the checksum of the run is that of the slot. -/
def VfatState.hasLongName (v : VfatState) (buffer : Buffer) (entry_ptr : Nat) : Prop :=
  ReadBinaryInt8 buffer (entry_ptr + 0x0) ≠ 0x2E ∧ v.m_vfat_seq = 0 ∧
  vfat_checksum buffer entry_ptr = v.m_vfat_csum

instance (v : VfatState) (buffer : Buffer) (entry_ptr : Nat) :
    Decidable (v.hasLongName buffer entry_ptr) := by
  unfold VfatState.hasLongName
  infer_instance

/-- The name that `event_handler` hands out for the short slot at `entry_ptr`: the C string
that starts at the long name that has been collected, or at the 8.3 name. -/
def VfatState.shortName (v : VfatState) (buffer : Buffer) (entry_ptr : Nat) : List Nat :=
  cstr
    (if v.hasLongName buffer entry_ptr then
      bytesOf v.m_filename v.m_filename_pos (v.MaxFileNameSize - v.m_filename_pos)
    else DirectoryIterator.name_83 buffer entry_ptr)

/-- The VFAT run after `event_handler` has handed out the short slot at `entry_ptr`: the
run is forgotten and the name buffer holds the terminator of the long name, or the 8.3 name
and its terminator. -/
def VfatState.afterShort (v : VfatState) (buffer : Buffer) (entry_ptr : Nat) : VfatState :=
  { v with
    m_vfat_seq := -1,
    m_filename :=
      if v.hasLongName buffer entry_ptr then memcpy v.m_filename v.MaxFileNameSize [0]
      else memcpy v.m_filename 0 (DirectoryIterator.name_83 buffer entry_ptr ++ [0]) }

/-- The `FsEntry` that `event_handler` hands out for the short slot `entry` of block
`block` of the cluster `cluster`. -/
def slotEntry (w : World) (cluster block entry : Nat) : FsEntry :=
  let buffer := clusterBlock w cluster block
  let first_cluster := mask_cluster_entry (read_dir_entry_first_cluster buffer (entry * 32))
  { type := if ReadBinaryInt8 buffer (entry * 32 + 0xB) &&& 0x10 ≠ 0 then EntryType.DIR
            else EntryType.FILE,
    file_size := ReadBinaryInt32 buffer (entry * 32 + DirEntrySizeOffset),
    cluster_index :=
      if ReadBinaryInt8 buffer (entry * 32 + 0x0) = 0x2E ∧ first_cluster = 0 then
        w.o.root_cluster
      else first_cluster,
    dir_entry_block_index := get_cluster_data_block_index w cluster block,
    dir_entry_block_offset := entry }

/-- A request for an entry, as a function of the place where the iterator reads next and of
its VFAT run: VFAT slots are collected, free, volume-label and device slots are passed
over, and the request ends at the end marker, at the end of the chain, at an error or at a
short slot.  The result is what the request ends with, the place where it ends, the place
where the next request reads, and the VFAT run then; `none` when more than `fuel` slots
would have to be looked at. -/
def scan (w : World) : Nat → Seek → VfatState → Option (Outcome × Seek × Seek × VfatState)
  | 0, _, _ => none
  | _ + 1, Seek.done, v => some (Outcome.finished, Seek.done, Seek.done, v)
  | _ + 1, Seek.failed, v => some (Outcome.error, Seek.failed, Seek.failed, v)
  | fuel + 1, Seek.slot c b p, v =>
    if slotEnd (clusterBlock w c b) (p * 32) then
      some (Outcome.finished, Seek.slot c b p, Seek.slot c b p, v)
    else if slotVfat (clusterBlock w c b) (p * 32) then
      scan w fuel (nextSlot w c b p) (v.afterVfat (clusterBlock w c b) (p * 32))
    else if slotIgnored (clusterBlock w c b) (p * 32) then
      scan w fuel (nextSlot w c b p) v.forget
    else
      some (Outcome.entry (v.shortName (clusterBlock w c b) (p * 32)) (slotEntry w c b p),
        Seek.slot c b p, nextSlot w c b p, v.afterShort (clusterBlock w c b) (p * 32))

/-- The place where a request for an entry ends, in the words of the specification: VFAT,
free, volume-label and device slots are skipped; `none` when more than `fuel` slots would
have to be looked at. -/
def skipSlots (w : World) : Nat → Seek → Option Seek
  | 0, _ => none
  | fuel + 1, Seek.slot c b p =>
    if ¬ slotEnd (clusterBlock w c b) (p * 32) ∧
        (slotVfat (clusterBlock w c b) (p * 32) ∨ slotIgnored (clusterBlock w c b) (p * 32)) then
      skipSlots w fuel (nextSlot w c b p)
    else some (Seek.slot c b p)
  | _ + 1, r => some r


instance (d : DirWorld) : Decidable d.Quiet := by
  unfold DirWorld.Quiet
  infer_instance

instance (d : DirWorld) : Decidable d.Positioned := by
  unfold DirWorld.Positioned
  infer_instance

/-- The place `r` is one where a directory ends: the end of the cluster chain, or a slot
whose first byte is 0. -/
def Seek.atEnd (w : World) : Seek → Prop
  | Seek.slot c b p => slotEnd (clusterBlock w c b) (p * 32)
  | Seek.done => True
  | Seek.failed => False

instance (w : World) (r : Seek) : Decidable (r.atEnd w) := by
  cases r <;> unfold Seek.atEnd <;> infer_instance

/-- What `scan` gives without the VFAT run: the result of the request, the place where it
ends and the place where the next request reads. -/
def scanResult (w : World) (fuel : Nat) (r : Seek) (v : VfatState) :
    Option (Outcome × Seek × Seek) :=
  (scan w fuel r v).map (fun x => (x.1, x.2.1, x.2.2.1))

/-- A `DirLister` on a directory in cluster 4 of the sample volume that holds a free slot,
a volume label and a VFAT slot, and then the end marker. -/
def endSample : DirWorld :=
  (dirStep
    { w := { dirSampleReady with
        data := fun b =>
          if b = 36 then
            slotsBuffer [freeSlot, shortSlot [0x4C, 0x41, 0x42, 0x45, 0x4C] 0x08 0 0 0,
              lfnSlot 0x41 91 [0x43, 0x64, 0x2E, 0x65, 0]]
          else dirSampleReady.data b } }
    (.DirLister_init { type := .DIR, cluster_index := 4 })).getD default


/-- An emitted name is the requested name of an `Opener`, in the words of the
specification: the two C strings are equal up to the case of ASCII letters when
`case_insens` is true, and byte for byte otherwise. -/
def sameName (case_insens : Bool) (name requested : List Nat) : Prop :=
  if case_insens = true then (cstr name).map asciiLower = (cstr requested).map asciiLower
  else cstr name = cstr requested

instance (case_insens : Bool) (name requested : List Nat) :
    Decidable (sameName case_insens name requested) := by
  unfold sameName
  infer_instance

/-- What an `Opener` is to find, in the words of the specification: the first entry in
directory order whose type is the requested type and whose emitted name is the requested
name, with `SUCCESS`; `NOT_FOUND` when the end of the directory comes first and `ERROR`
when an error comes first.  The entries are those that `scan` gives, one after the other;
`none` when more than `entries` entries or, for one of them, more than `fuel` slots would
have to be looked at. -/
def openFirst (w : World) (entry_type : EntryType) (requested : List Nat) (case_insens : Bool)
    (fuel : Nat) : Nat → Seek → VfatState → Option (OpenerStatus × FsEntry)
  | 0, _, _ => none
  | entries + 1, r, v =>
    match scan w fuel r v with
    | none => none
    | some (Outcome.error, _, _, _) => some (OpenerStatus.ERROR, {})
    | some (Outcome.finished, _, _, _) => some (OpenerStatus.NOT_FOUND, {})
    | some (Outcome.entry name e, _, next, v2) =>
      if e.type = entry_type ∧ sameName case_insens name requested then
        some (OpenerStatus.SUCCESS, e)
      else openFirst w entry_type requested case_insens fuel entries next v2


/-- The entry of the file `hi.txt` in the root directory of the sample directory volume:
slot 4 of block 34, first cluster 4, 1000 bytes. -/
def sampleHiEntry : FsEntry :=
  { type := EntryType.FILE
    dir_entry_block_offset := 4
    file_size := 1000
    cluster_index := 4
    dir_entry_block_index := 34 }


/-- The place is a slot of the directory. -/
def Seek.isSlot : Seek → Bool
  | Seek.slot _ _ _ => true
  | _ => false

/-- The place that follows the place `r` in directory order. -/
def Seek.next (w : World) : Seek → Seek
  | Seek.slot c b p => nextSlot w c b p
  | r => r

/-- The cached contents of the block of the slot `r`. -/
def Seek.block (w : World) : Seek → Buffer
  | Seek.slot c b _ => clusterBlock w c b
  | _ => fun _ => 0

/-- The offset of the slot `r` in its block. -/
def Seek.ptr : Seek → Nat
  | Seek.slot _ _ p => p * 32
  | _ => 0

/-- The `FsEntry` that `event_handler` hands out for the short slot `r`. -/
def Seek.entry (w : World) : Seek → FsEntry
  | Seek.slot c b p => slotEntry w c b p
  | _ => {}

/-- The place `n` slots after `r` in directory order. -/
def runEnd (w : World) : Nat → Seek → Seek
  | 0, r => r
  | n + 1, r => runEnd w n (r.next w)

/-- A short entry preceded by a VFAT run, in the words of the specification: from the place
`r` on, `n` slots with the sequence numbers `n`, `n - 1`, ..., 1 in their first bytes (the
first of the run with the start bit `0x40` when `first` is true), with the attributes
`0x0F`, byte 12 equal to 0 and the checksum byte `csum`; and then a short entry whose first
byte is not `.` and whose 11 name bytes have the VFAT checksum `csum`. -/
def lfnRun (w : World) (csum : Nat) : Bool → Nat → Seek → Prop
  | _, 0, r =>
    r.isSlot = true ∧ slotShort (r.block w) r.ptr ∧
    ReadBinaryInt8 (r.block w) (r.ptr + 0x0) ≠ 0x2E ∧
    checksumFold (bytesOf (r.block w) r.ptr 11) = csum
  | first, n + 1, r =>
    r.isSlot = true ∧
    ReadBinaryInt8 (r.block w) (r.ptr + 0x0) = (if first = true then 0x40 + (n + 1) else n + 1) ∧
    ReadBinaryInt8 (r.block w) (r.ptr + 0xB) = 0xF ∧
    ReadBinaryInt8 (r.block w) (r.ptr + 0xC) = 0 ∧
    ReadBinaryInt8 (r.block w) (r.ptr + 0xD) = csum ∧
    lfnRun w csum false n (r.next w)

instance lfnRun.instDecidable (w : World) (csum : Nat) :
    ∀ (first : Bool) (n : Nat) (r : Seek), Decidable (lfnRun w csum first n r)
  | _, 0, r =>
    (inferInstance : Decidable (r.isSlot = true ∧ slotShort (r.block w) r.ptr ∧
      ReadBinaryInt8 (r.block w) (r.ptr + 0x0) ≠ 0x2E ∧
      checksumFold (bytesOf (r.block w) r.ptr 11) = csum))
  | first, n + 1, r =>
    have := lfnRun.instDecidable w csum false n (r.next w)
    (inferInstance : Decidable (r.isSlot = true ∧
      ReadBinaryInt8 (r.block w) (r.ptr + 0x0) =
        (if first = true then 0x40 + (n + 1) else n + 1) ∧
      ReadBinaryInt8 (r.block w) (r.ptr + 0xB) = 0xF ∧
      ReadBinaryInt8 (r.block w) (r.ptr + 0xC) = 0 ∧
      ReadBinaryInt8 (r.block w) (r.ptr + 0xD) = csum ∧
      lfnRun w csum false n (r.next w)))

/-- The size field (the bytes 28..31) of each of the `n` slots from `r` on is not 0. -/
def lfnSized (w : World) : Nat → Seek → Prop
  | 0, _ => True
  | n + 1, r =>
    ReadBinaryInt32 (r.block w) (r.ptr + DirEntrySizeOffset) ≠ 0 ∧ lfnSized w n (r.next w)

instance lfnSized.instDecidable (w : World) :
    ∀ (n : Nat) (r : Seek), Decidable (lfnSized w n r)
  | 0, _ => (inferInstance : Decidable True)
  | n + 1, r =>
    have := lfnSized.instDecidable w n (r.next w)
    (inferInstance : Decidable (ReadBinaryInt32 (r.block w) (r.ptr + DirEntrySizeOffset) ≠ 0 ∧
      lfnSized w n (r.next w)))

/-- The long name of the run of `n` VFAT slots from `r` on, in the words of the
specification: the name fragments of the slots, that of the last slot (sequence number 1)
first and that of the first slot last. -/
def lfnName (w : World) : Nat → Seek → List Nat
  | 0, _ => []
  | n + 1, r => lfnName w n (r.next w) ++ fragmentName (slotUnits (r.block w) r.ptr)

/-- The sample `DirLister` when it is about to look at the VFAT slot of `Réadme.md`: the
first entry has been asked for and the volume label has been passed over. -/
def dirSampleAtLfn : DirWorld :=
  (dirSteps [.DirLister_requestEntry, .queued, .queued, .queued, .dir_block_ref false, .queued]
    dirSample).getD default

/-- The sample `DirLister` when it is about to look at the VFAT slot of `Ab`, whose unused
code units are 0: three entries have been handed out and the next has been asked for. -/
def dirSampleAtAb : DirWorld :=
  ((listN 20 3 dirSample).bind (dirSteps [.DirLister_requestEntry])).getD default


/-- The entry of `Réadme.md` in the root directory of the sample directory volume. -/
def sampleReadmeEntry : FsEntry :=
  { type := EntryType.FILE
    dir_entry_block_offset := 2
    file_size := 10
    cluster_index := 5
    dir_entry_block_index := 34 }

/-- The entry of `AB` in the root directory of the sample directory volume. -/
def sampleAbEntry : FsEntry :=
  { type := EntryType.FILE
    dir_entry_block_offset := 7
    file_size := 0
    cluster_index := 0
    dir_entry_block_index := 34 }

/-- The entry of `CD.E` in the root directory of the sample directory volume. -/
def sampleCdEntry : FsEntry :=
  { type := EntryType.FILE
    dir_entry_block_offset := 10
    file_size := 0
    cluster_index := 0
    dir_entry_block_index := 34 }

/-- The sample `DirLister` when it is about to look at the VFAT slot of `Cd.e`, which a
volume label separates from its short slot: four entries have been handed out and the next
has been asked for. -/
def dirSampleAtCd : DirWorld :=
  ((listN 20 4 dirSample).bind (dirSteps [.DirLister_requestEntry])).getD default

/-- The sample `DirLister` when it has collected the VFAT slot of `Cd.e` and is about to
look at the volume label that follows it. -/
def dirSampleAtCdLabel : DirWorld :=
  ((listN 20 4 dirSample).bind (dirSteps [.DirLister_requestEntry, .queued])).getD default


instance (d : DirWorld) (c b p : Nat) : Decidable (d.At c b p) := by
  unfold DirWorld.At
  infer_instance


/-- The number of FAT entries whose value, masked to 28 bits, is not 0, in the cache
contents `data` of the volume of `w`. -/
def nonzeroFatEntries (w : World) (data : Nat → Buffer) : Nat :=
  ((List.range w.o.num_fat_entries).filter (fun y => decide (fatOf w data y ≠ 0))).length


/-- The truncation that the world `W` is in ends within `fuel` transitions, whatever the
answers `errors` of the block cache: the handler of file `i` is called once and the file
and its chain are idle. -/
def TruncateEnds (w : World) (i : Nat) (cs : List HandlerCall) (fuel : Nat)
    (errors : List Bool) (W : World) : Prop :=
  ∃ f2 data2 dirty2 l2 err,
    run fuel errors W =
      some (fileWorld w i f2 w.o data2 dirty2 l2 [] (.FileHandler i err 0 :: cs)) ∧
    f2.m_state = FileState.IDLE ∧ f2.m_chain.m_state = ChainState.IDLE


/-- The file `f` of number `i` is in the loop of its truncation and nothing else of the
world `w` is outstanding; the block of the FS information sector lies before the FAT, as
`init` has checked. -/
def Truncating (w : World) (i : Nat) (f : File) : Prop :=
  i < w.files.length ∧ pendingFiles w.files 0 = none ∧
  w.o.block_ref.state ≠ CacheRefState.REQUESTING ∧
  w.o.fs_info_block_ref.state ≠ CacheRefState.REQUESTING ∧
  w.o.flush_request = false ∧ FsInfoBeforeFat w ∧
  f.m_state = FileState.TRUNC_CHAIN ∧ f.m_chain.m_state = ChainState.TRUNCATE_CHECK ∧
  f.m_dir_entry.m_block_ref.state ≠ CacheRefState.REQUESTING ∧ f.m_block_user.busy = false

instance (w : World) (i : Nat) (f : File) : Decidable (Truncating w i f) := by
  unfold Truncating
  infer_instance


/-- What the world holds apart from file `i`: the number of files and every other file. -/
def World.rest (w : World) (i : Nat) : Nat × (Nat → File) :=
  (w.files.length, fun j => if j = i then default else w.file j)


/-- The links between the iterator of a chain and its clusters: at `START` the current
cluster is the first one and there is no previous cluster; at `CLUSTER` the first and the
current cluster are normal cluster indices; at `END` the current cluster is not normal,
and the first cluster is normal exactly when the previous one is. -/
def IterLinks (c : ClusterChain) : Prop :=
  (c.m_iter_state = IterState.START →
    c.m_prev_cluster = 0 ∧ c.m_current_cluster = c.m_first_cluster) ∧
  (c.m_iter_state = IterState.CLUSTER →
    is_cluster_idx_normal c.m_first_cluster = true ∧
    is_cluster_idx_normal c.m_current_cluster = true) ∧
  (c.m_iter_state = IterState.END →
    is_cluster_idx_normal c.m_current_cluster = false ∧
    is_cluster_idx_normal c.m_first_cluster = is_cluster_idx_normal c.m_prev_cluster)

instance (c : ClusterChain) : Decidable (IterLinks c) := by
  unfold IterLinks
  infer_instance

/-- The chain serves a `requestNew`: it is in one of the states `NEW_CHECK`,
`NEW_REQUESTING_FAT` and `NEW_ALLOCATING`. -/
def ClusterChain.extending (c : ClusterChain) : Prop :=
  c.m_state = ChainState.NEW_CHECK ∨ c.m_state = ChainState.NEW_REQUESTING_FAT ∨
  c.m_state = ChainState.NEW_ALLOCATING

instance (c : ClusterChain) : Decidable c.extending := by
  unfold ClusterChain.extending
  infer_instance

/-- The pin of the block of the directory entry is outstanding only while the file is
being opened for writing. -/
def DirWaits (f : File) : Prop :=
  f.m_dir_entry.m_block_ref.state = CacheRefState.REQUESTING →
    f.m_state = FileState.OPENWR_DIR_ENTRY

instance (f : File) : Decidable (DirWaits f) := by
  unfold DirWaits
  infer_instance

/-- The invariant of a file and its chain: the links of the iterator hold; a chain that
serves a `requestNew` belongs to a file in `WRITE_NEXT_CLUSTER` and its iterator is at
`END`; and the directory entry is only pinned while the file is being opened. -/
def ChainInv (f : File) : Prop :=
  IterLinks f.m_chain ∧
  (f.m_chain.extending → f.m_state = FileState.WRITE_NEXT_CLUSTER ∧
    f.m_chain.m_iter_state = IterState.END) ∧
  DirWaits f

instance (f : File) : Decidable (ChainInv f) := by
  unfold ChainInv
  infer_instance


/-- Every file of the world satisfies `ChainInv`. -/
def ChainsInv (w : World) : Prop := ∀ j, ChainInv (w.file j)


/-- The directory entry of an empty file: no cluster, 0 bytes, in block 40 of the sample
volume (a block of zeros). -/
def emptyFileEntry : FsEntry :=
  { type := .FILE, cluster_index := 0, file_size := 0, dir_entry_block_index := 40,
    dir_entry_block_offset := 0 }

/-- The empty file on the mounted sample volume, opened for writing. -/
def sampleEmptyWritable : World :=
  clientCall (.File_startOpenWritable 0) (clientCall (.File_init emptyFileEntry) sampleMounted)

/-- The first write to the empty file: `startWrite` has been called. -/
def sampleWriteStarted : World :=
  (step sampleEmptyWritable (.File_startWrite 0 512)).getD default

/-- The event of the file has run: the chain has got a `requestNext`. -/
def sampleWriteEvent : World := (step sampleWriteStarted .queued).getD default

/-- The event of the chain has run in `NEXT_CHECK`: the chain is at its end and has got a
`requestNew`. -/
def sampleEndFound : World := (step sampleWriteEvent .queued).getD default

/-- The event of the chain has run in `NEW_CHECK`: the chain waits for the allocator. -/
def sampleAllocating : World := (step sampleEndFound .queued).getD default


/-- The filesystem object as `complete_allocation` leaves it for `allocation_result`: the
allocator starts the next allocation when more chains wait and becomes idle otherwise. -/
def allocNext (o : Object) (more : Bool) : Object :=
  if more = true then
    { o with alloc_state := AllocationState.CHECK_EVENT, alloc_start := o.alloc_position }
  else
    { o with alloc_state := AllocationState.IDLE, block_ref := o.block_ref.reset }

/-- The filesystem object after `complete_allocation` has served the first chain `c` of the
waiting chains `c :: cs`: the chain is off the list. -/
def allocServed (o : Object) (c : Nat) (cs : List Nat) : Object :=
  { allocNext o (!cs.isEmpty) with
    allocating_chains_list := (allocNext o (!cs.isEmpty)).allocating_chains_list.erase c }

/-- The queue after `complete_allocation`: the allocation event is queued again when a
chain still waits. -/
def allocQueue (cs : List Nat) : List QueuedEvent :=
  if (!cs.isEmpty) = true then [.alloc_event] else []


/-- The block of the directory entry of file `c` is not a block of the FAT. -/
def DirEntryApart (w : World) (c : Nat) : Prop :=
  ∀ z, z < w.o.num_fat_entries →
    get_abs_block_index_for_fat_entry w z ≠ (w.file c).m_dir_entry.m_block_ref.block

instance (w : World) (c : Nat) : Decidable (DirEntryApart w c) := by
  unfold DirEntryApart
  infer_instance

/-- The chain of file `c` waits for a cluster on a volume whose FAT is consistent with it:
the file is in `WRITE_NEXT_CLUSTER`; when the chain has a previous cluster, that cluster
has a FAT entry, as `NEW_CHECK` asserts, the entry is in use (not 0), and the first FAT
reference of the chain is on the block of that entry, where `NEW_CHECK` has put it; when it has none, the block of the
directory entry of the file, which gets the first cluster, is not a block of the FAT. -/
def Waiting (w : World) (c : Nat) : Prop :=
  c < w.files.length ∧ (w.file c).m_state = FileState.WRITE_NEXT_CLUSTER ∧
  (is_cluster_idx_normal (w.chain c).m_prev_cluster = true →
    (w.chain c).m_prev_cluster < w.o.num_fat_entries ∧
    (w.chain c).m_fat_cache_ref1.block =
      get_abs_block_index_for_fat_entry w (w.chain c).m_prev_cluster ∧
    fatNext w (w.chain c).m_prev_cluster ≠ 0) ∧
  (is_cluster_idx_normal (w.chain c).m_prev_cluster = false → DirEntryApart w c)

instance (w : World) (c : Nat) : Decidable (Waiting w c) := by
  unfold Waiting
  infer_instance

/-- At least `n` of the valid clusters are free: the positions `fs` are `n` or more
different candidates of the allocator whose FAT entry is 0. -/
def FreeAtLeast (w : World) (n : Nat) : Prop :=
  ∃ fs : List Nat, fs.Nodup ∧ n ≤ fs.length ∧
    ∀ q ∈ fs, q < w.o.num_valid_clusters ∧ fatNext w (2 + q) = 0

/-- The chains `cs` wait for the allocator, in this order, on a volume mounted for
writing whose FAT has an entry for every valid cluster and whose FS information sector
lies before the FAT; an allocation has been started when a chain waits; and at least as
many clusters are free as chains wait; nothing but the allocation event is queued. -/
def Allocating (w : World) (cs : List Nat) : Prop :=
  w.o.state = FsState.READY ∧ w.o.write_mount_state = WriteMountState.MOUNTED ∧
  w.o.num_valid_clusters + 2 ≤ 2 ^ 28 ∧
  w.o.alloc_position < w.o.num_valid_clusters ∧
  2 + w.o.num_valid_clusters ≤ w.o.num_fat_entries ∧ FsInfoBeforeFat w ∧
  w.o.blocks_per_cluster ≠ 0 ∧
  w.o.allocating_chains_list = cs ∧ cs.Nodup ∧ (∀ c ∈ cs, Waiting w c) ∧
  (cs ≠ [] → w.o.alloc_state = AllocationState.CHECK_EVENT ∧
    w.o.alloc_start = w.o.alloc_position) ∧
  FreeAtLeast w cs.length ∧ w.queue = allocQueue cs

/-- The allocator serves the waiting chains `cs` in their order with the clusters `ks`,
from the state `w` in which the allocation event is queued to the state `W`: the scan
that the allocation event starts, with the FAT blocks arriving without error, ends with
the call `complete_allocation(false, k)` in a state `X` in which the first waiting chain
is `c`, whose `allocation_result` this call runs; `k` is a valid cluster that was free
before the scan and whose FAT entry is `0x0FFFFFFF` once the event of the file of the
chain, which `allocation_result` has queued, has run; the chain is then at cluster `k`,
off the list, and the allocator goes on in the same way with the chains that are left. -/
def ServedInOrder : World → List Nat → List Nat → World → Prop
  | w, [], [], W => W = w
  | w, c :: cs, k :: ks, W =>
    ∃ (X W1 : World) (fuel : Nat) (examined : List Nat),
      allocScan fuel { w with queue := [] } [] = some (X, false, k, examined) ∧
      X.o.allocating_chains_list = c :: cs ∧
      step (complete_allocation X false k) .queued = some W1 ∧
      W1.o.allocating_chains_list = cs ∧
      (W1.chain c).m_state = ChainState.IDLE ∧
      (W1.chain c).m_iter_state = IterState.CLUSTER ∧
      (W1.chain c).m_current_cluster = k ∧
      2 ≤ k ∧ k < 2 + w.o.num_valid_clusters ∧
      fatNext w k = 0 ∧ fatNext W1 k = EndOfChainMarker ∧
      ServedInOrder W1 cs ks W
  | _, _, _, _ => False


/-- A block that holds three directory entries, at offsets 0, 1 and 2, each of an empty
file (first cluster 0, size 0). -/
def threeEntriesBuffer : Buffer := fun k =>
  if k < 96 then dirEntryBuffer 0 0 (k % 32) else 0

/-- A volume of 300 blocks of 512 bytes with clusters of one block and two FATs of two
sectors (256 FAT entries, 254 valid clusters): the root directory is cluster 2 (block 36)
and holds the entries of three empty files; every other cluster is free; the FS
information sector names cluster 130 as the last allocated one, so that the allocator
starts in the second sector of the FAT. -/
def threeImage : Nat → Buffer := fun b =>
  if b = 0 then bootBlock 512 1 32 2 0 2 2 1 0x29
  else if b = 1 then fsInfoBuffer 250 130
  else if b = 32 then wordsBuffer [0x0FFFFFF8, 0xFFFFFFFF, 0x0FFFFFFF]
  else if b = 36 then threeEntriesBuffer
  else fun _ => 0

/-- The directory entry of one of the three files as `File::init` gets it. -/
def threeEntry (offset : Nat) : FsEntry :=
  { type := .FILE, cluster_index := 0, file_size := 0, dir_entry_block_index := 36,
    dir_entry_block_offset := offset }

/-- The volume of three files after `init`, `startWriteMount`, `File::init` for the
three files and `startOpenWritable` for the three. -/
def threeOpen : World :=
  let w := (run 4 [] (init { data := threeImage } { base := 0, length := 300 })).getD default
  let w := clientCall .startWriteMount w
  let w := clientCall (.File_init (threeEntry 0)) w
  let w := clientCall (.File_init (threeEntry 1)) w
  let w := clientCall (.File_init (threeEntry 2)) w
  let w := clientCall (.File_startOpenWritable 0) w
  let w := clientCall (.File_startOpenWritable 1) w
  clientCall (.File_startOpenWritable 2) w

/-- The event loop runs `n` queued events. -/
def queuedSteps : Nat → World → World
  | 0, w => w
  | n + 1, w => queuedSteps n ((step w .queued).getD default)

/-- Three chains wait for the allocator: the files 0, 1 and 2 call `startWrite` before the
event loop runs; the event of file 2 runs first and its chain is the first to enter
`NEW_ALLOCATING`, with the allocator idle; the scan that this starts waits for the second
sector of the FAT, and meanwhile the chains of file 1 and of file 0 enter
`NEW_ALLOCATING` (ten queued events in all); then the sector arrives without error, which
queues the allocation event again. -/
def threeWaiting : World :=
  let w := (step threeOpen (.File_startWrite 0 512)).getD default
  let w := (step w (.File_startWrite 1 512)).getD default
  let w := (step w (.File_startWrite 2 512)).getD default
  (step (queuedSteps 10 w) (.block_ref false)).getD default



/-- The volume of scenario S5 with no free cluster: the clusters 2 to 9, which are all
the valid clusters, are in use; the FS information sector counts 0 free clusters. -/
def fullImage : Nat → Buffer := fun b =>
  if b = 0 then bootBlock 512 8 32 2 0 1 2 1 0x29
  else if b = 1 then fsInfoBuffer 0 5
  else if b = 32 then wordsBuffer [0x0FFFFFF8, 0xFFFFFFFF, 0x0FFFFFFF, 0x0FFFFFFF, 0x0FFFFFFF,
    0x0FFFFFFF, 0x0FFFFFFF, 0x0FFFFFFF, 0x0FFFFFFF, 0x0FFFFFFF]
  else if b = 34 then twoEntriesBuffer
  else fun _ => 0

/-- The state in which the allocator starts its scan on the full volume: after `init`,
`startWriteMount`, `File::init` and `startOpenWritable` for the first (empty) file and a
`startWrite`, the event of the file and the two events of its chain have run, and the
allocation event has been taken from the queue. -/
def fullScanStart : World :=
  let w := (run 4 [] (init { data := fullImage } { base := 0, length := 100 })).getD default
  let w := clientCall .startWriteMount w
  let w := clientCall (.File_init (s5Entry 0)) w
  let w := clientCall (.File_startOpenWritable 0) w
  let w := (step w (.File_startWrite 0 512)).getD default
  let w := (step w .queued).getD default
  let w := (step w .queued).getD default
  let w := (step w .queued).getD default
  { w with queue := w.queue.tail }

/-- A volume of clusters of one block (66 valid clusters): the root directory is cluster 2
(block 34) and holds the entry of one file of 512 bytes in cluster 3; the clusters from 4
on are free; the FS information sector names cluster 3 as the last allocated one. -/
def linkImage : Nat → Buffer := fun b =>
  if b = 0 then bootBlock 512 1 32 2 0 1 2 1 0x29
  else if b = 1 then fsInfoBuffer 64 3
  else if b = 32 then wordsBuffer [0x0FFFFFF8, 0xFFFFFFFF, 0x0FFFFFFF, 0x0FFFFFFF]
  else if b = 34 then dirEntryBuffer 3 512
  else fun _ => 0

/-- The directory entry of the file of `linkImage` as `File::init` gets it. -/
def linkEntry : FsEntry :=
  { type := .FILE, cluster_index := 3, file_size := 512, dir_entry_block_index := 34,
    dir_entry_block_offset := 0 }

/-- The state in which the allocator starts its scan for the file of `linkImage`: after
`init`, `startWriteMount`, `File::init`, `startOpenWritable`, a `startRead` that reads
the 512 bytes of the file and a `startWrite`, the event of the file and the two events of
its chain have run (the chain ends at cluster 3), and the allocation event has been taken
from the queue. -/
def linkScanStart : World :=
  let w := (run 4 [] (init { data := linkImage } { base := 0, length := 100 })).getD default
  let w := clientCall .startWriteMount w
  let w := clientCall (.File_init linkEntry) w
  let w := clientCall (.File_startOpenWritable 0) w
  let w := clientCall (.File_startRead 0) w
  let w := (step w (.File_startWrite 0 512)).getD default
  let w := (step w .queued).getD default
  let w := (step w .queued).getD default
  let w := (step w .queued).getD default
  { w with queue := w.queue.tail }

/-- The state after the allocation event has run in `linkScanStart`. -/
def linkAllocated : World :=
  (step { linkScanStart with queue := [.alloc_event] } .queued).getD default


/-- The part of the world that fixes where the FAT lies and which blocks the driver writes
besides the FAT: the block size, the block range of the volume, the number of reserved
blocks, the number of FAT entries, the number of valid clusters, the block of the FS
information sector, whether the allocator position is below the number of valid clusters,
and the blocks of the directory entries of the files. -/
def World.wall (w : World) : Nat × BlockRange × Nat × Nat × Nat × Nat × Bool × List Nat :=
  (w.BlockSize, w.o.block_range, w.o.num_reserved_blocks, w.o.num_fat_entries,
    w.o.num_valid_clusters, w.o.fs_info_block_ref.block,
    decide (w.o.alloc_position < w.o.num_valid_clusters),
    w.files.map (fun f => f.m_dir_entry.m_block_ref.block))

/-- Block `b` holds no FAT entry of the volume. -/
def NoFatEntry (w : World) (b : Nat) : Prop :=
  ∀ z, z < w.o.num_fat_entries → get_abs_block_index_for_fat_entry w z ≠ b

instance (w : World) (b : Nat) : Decidable (NoFatEntry w b) := by
  unfold NoFatEntry
  infer_instance

/-- The layout of a volume that is mounted for writing: the FS information sector, block 0
and the blocks of the directory entries of the files hold no FAT entry, the allocator
position is below the number of valid clusters, and every valid cluster has a normal
cluster index (`init` limits the number of FAT entries to `0x0FFFFFF8`). -/
def FatGuard (w : World) : Prop :=
  NoFatEntry w w.o.fs_info_block_ref.block ∧ NoFatEntry w 0 ∧
  (∀ i, i < w.files.length → NoFatEntry w (w.file i).m_dir_entry.m_block_ref.block) ∧
  w.o.alloc_position < w.o.num_valid_clusters ∧
  w.o.num_valid_clusters + 2 ≤ NormalClusterIndexEnd

instance (w : World) : Decidable (FatGuard w) := by
  unfold FatGuard
  infer_instance

/-- Where the value `v` of a FAT entry can come from, on a volume that started as `w0`: it
is 0 (free), a normal cluster index, the end marker `0x0FFFFFFF`, or a value that a FAT
entry of index at least 2 held in `w0`. -/
def FatOrigin (w0 : World) (v : Nat) : Prop :=
  v = 0 ∨ is_cluster_idx_normal v = true ∨ v = EndOfChainMarker ∨
  ∃ y, 2 ≤ y ∧ y < w0.o.num_fat_entries ∧ v = fatNext w0 y

/-- The world `w` has the layout of `w0`, and every FAT entry of index at least 2 holds a
value with an origin in `w0`. -/
def SafeFrom (w0 w : World) : Prop :=
  w.wall = w0.wall ∧
  ∀ z, 2 ≤ z → z < w0.o.num_fat_entries → FatOrigin w0 (fatOf w0 w.data z)

/-- The steps of allocation, chain extension and truncation: the event loop runs the event
of the allocator or the event of the chain of a file, or the block cache answers the
request of the allocator for a FAT block (on a volume that is mounted for writing) or the
request of a chain for a FAT block. -/
def FatStepInput (w : World) : Input → Bool
  | .queued =>
    match w.queue with
    | .alloc_event :: _ => true
    | .chain_event i :: _ => decide (i < w.files.length)
    | _ => false
  | .block_ref _ =>
    decide (w.o.state = FsState.READY ∧ w.o.write_mount_state = WriteMountState.MOUNTED)
  | .fat_cache_ref1 _ _ => true
  | .fat_cache_ref2 _ _ => true
  | _ => false

/-- A sequence of steps of allocation, chain extension and truncation from `w`; `none` when
an input is not such a step or the driver does not take it. -/
def fatSteps (w : World) : List Input → Option World
  | [] => some w
  | input :: rest =>
    if FatStepInput w input = true then (step w input).bind (fun w2 => fatSteps w2 rest)
    else none

/-- The state of `markerReadOnce` in which the truncation of the file has reached its chain:
`startTruncate` has been called and the event of the file has run, so that the event of the
chain is queued. -/
def markerChainQueued : World :=
  ((step markerReadOnce (.File_startTruncate 0)).bind (fun w => step w .queued)).getD default

/-- The state of `markerChainQueued` after the two events of the chain that carry out the
truncation. -/
def markerUnlinked : World :=
  (fatSteps markerChainQueued [.queued, .queued]).getD default

/-- The state of `linkScanStart` in which the event of the allocator is queued. -/
def linkEventQueued : World := { linkScanStart with queue := [.alloc_event] }

/-- The state of `linkEventQueued` after the event of the allocator. -/
def linkStored : World := (fatSteps linkEventQueued [.queued]).getD default

end FatFs

namespace AIpStack

/-- `IpGenericAddr<AddrType, ElemType, Length>`: the `Length` elements of
`StructIntArray<ElemType, Length>`, each a value of `ElemBits` bits. -/
structure IpGenericAddr where
  data : List Nat
deriving DecidableEq, Repr

/-- `AddrType{}`: every element zero. -/
def ZeroAddr (Length : Nat) : IpGenericAddr := ⟨List.replicate Length 0⟩

/-- `(ElemType)-1`. -/
def allOnesElem (ElemBits : Nat) : Nat := 2 ^ ElemBits - 1

/-- The loop of `AllOnesAddr`: `for (i = 0; i < Length; i++) res_addr.data[i] = (ElemType)-1`. -/
def AllOnesAddr_loop (ElemBits Length : Nat) : Nat → Nat → List Nat → List Nat
  | 0, _, data => data
  | fuel + 1, i, data =>
    if i < Length then AllOnesAddr_loop ElemBits Length fuel (i + 1) (data.set i (allOnesElem ElemBits))
    else data

/-- `IpGenericAddr::AllOnesAddr`. -/
def AllOnesAddr (ElemBits Length : Nat) : IpGenericAddr :=
  ⟨AllOnesAddr_loop ElemBits Length Length 0 (ZeroAddr Length).data⟩

/-- The first loop of `PrefixMask`:
`while (bits_left >= ElemBits) { res_addr.data[elem_idx++] = (ElemType)-1; bits_left -= ElemBits; }`.
The result is `none` when the fuel runs out or an element outside the array is written. -/
def PrefixMask_ones (ElemBits Length : Nat) : Nat → List Nat → Nat → Int → Option (List Nat × Nat × Int)
  | 0, _, _, _ => none
  | fuel + 1, data, elem_idx, bits_left =>
    if bits_left ≥ (ElemBits : Int) then
      if elem_idx < Length then
        PrefixMask_ones ElemBits Length fuel (data.set elem_idx (allOnesElem ElemBits)) (elem_idx + 1)
          (bits_left - ElemBits)
      else none
    else some (data, elem_idx, bits_left)

/-- The last loop of `PrefixMask`: `while (elem_idx < Length) res_addr.data[elem_idx++] = 0`. -/
def PrefixMask_zeros (Length : Nat) : Nat → List Nat → Nat → List Nat
  | 0, data, _ => data
  | fuel + 1, data, elem_idx =>
    if elem_idx < Length then PrefixMask_zeros Length fuel (data.set elem_idx 0) (elem_idx + 1)
    else data

/-- `IpGenericAddr::PrefixMask`. The result is `none` when the assertion `prefix_bits <= Bits`
fails or an element outside the array would be written. The partial element is
`~(((ElemType)1 << (ElemBits - bits_left)) - 1)` in `ElemBits` bits. -/
def PrefixMask (ElemBits Length : Nat) (prefix_bits : Int) : Option IpGenericAddr :=
  if ¬ prefix_bits ≤ ((ElemBits * Length : Nat) : Int) then none
  else
    match PrefixMask_ones ElemBits Length (Length + 1) (List.replicate Length 0) 0 prefix_bits with
    | none => none
    | some (data, elem_idx, bits_left) =>
      if bits_left > 0 then
        if elem_idx < Length then
          let mask := (allOnesElem ElemBits -
            (((1 <<< (ElemBits - bits_left.toNat)) % 2 ^ ElemBits + 2 ^ ElemBits - 1) % 2 ^ ElemBits))
          some ⟨PrefixMask_zeros Length Length (data.set elem_idx mask) (elem_idx + 1)⟩
        else none
      else some ⟨PrefixMask_zeros Length Length data elem_idx⟩

/-- The inner loop of `countLeadingOnes`, from bit `bit_idx` down to bit 0 of `elem`; the
first component tells whether the function returned inside the loop. -/
def countLeadingOnes_bits (elem : Nat) : Nat → Nat → Nat → Bool × Nat
  | 0, _, leading_ones => (false, leading_ones)
  | fuel + 1, bit_idx, leading_ones =>
    if elem &&& (1 <<< bit_idx) = 0 then (true, leading_ones)
    else
      if bit_idx = 0 then (false, leading_ones + 1)
      else countLeadingOnes_bits elem fuel (bit_idx - 1) (leading_ones + 1)

/-- The outer loop of `countLeadingOnes`, over the elements. -/
def countLeadingOnes_elems (ElemBits : Nat) : List Nat → Nat → Nat
  | [], leading_ones => leading_ones
  | elem :: rest, leading_ones =>
    if ElemBits = 0 then countLeadingOnes_elems ElemBits rest leading_ones
    else
      match countLeadingOnes_bits elem ElemBits (ElemBits - 1) leading_ones with
      | (true, r) => r
      | (false, r) => countLeadingOnes_elems ElemBits rest r

/-- `IpGenericAddr::countLeadingOnes`. -/
def IpGenericAddr.countLeadingOnes (ElemBits : Nat) (a : IpGenericAddr) : Nat :=
  countLeadingOnes_elems ElemBits a.data 0

/-- `Ip4Addr` is `IpGenericAddr<Ip4Addr, uint32_t, 1>`. -/
def Ip4Addr.ElemBits : Nat := 32

/-- The number of elements of an `Ip4Addr`. -/
def Ip4Addr.Length : Nat := 1

/-- `Ip4Addr::PrefixMask`. -/
def Ip4Addr.PrefixMask (prefix_bits : Int) : Option IpGenericAddr :=
  AIpStack.PrefixMask Ip4Addr.ElemBits Ip4Addr.Length prefix_bits

/-- `Ip4Addr::ZeroAddr`. -/
def Ip4Addr.ZeroAddr : IpGenericAddr := AIpStack.ZeroAddr Ip4Addr.Length

/-- `Ip4Addr::AllOnesAddr`. -/
def Ip4Addr.AllOnesAddr : IpGenericAddr := AIpStack.AllOnesAddr Ip4Addr.ElemBits Ip4Addr.Length

/-- `Ip4Addr::countLeadingOnes`. -/
def Ip4Addr.countLeadingOnes (a : IpGenericAddr) : Nat :=
  IpGenericAddr.countLeadingOnes Ip4Addr.ElemBits a

end AIpStack

namespace FatFs

/-! ## Binary tools: basic facts -/

theorem ReadBinaryInt8_lt (buffer : Buffer) (off : Nat) : ReadBinaryInt8 buffer off < 256 := by
  unfold ReadBinaryInt8
  omega

theorem ReadBinaryInt16_lt (buffer : Buffer) (off : Nat) :
    ReadBinaryInt16 buffer off < 65536 := by
  unfold ReadBinaryInt16
  omega

theorem ReadBinaryInt32_lt (buffer : Buffer) (off : Nat) :
    ReadBinaryInt32 buffer off < 4294967296 := by
  unfold ReadBinaryInt32
  omega

theorem ReadBinaryInt32_WriteBinaryInt32 (value : Nat) (buffer : Buffer) (off : Nat) :
    ReadBinaryInt32 (WriteBinaryInt32 value buffer off) off = value % 4294967296 := by
  simp only [ReadBinaryInt32, WriteBinaryInt32]
  simp
  omega

theorem WriteBinaryInt32_outside (value : Nat) (buffer : Buffer) (off k : Nat)
    (hk : k < off ∨ off + 4 ≤ k) : WriteBinaryInt32 value buffer off k = buffer k := by
  unfold WriteBinaryInt32
  have h0 : k ≠ off := by omega
  have h1 : k ≠ off + 1 := by omega
  have h2 : k ≠ off + 2 := by omega
  have h3 : k ≠ off + 3 := by omega
  simp [h0, h1, h2, h3]

theorem ReadBinaryInt32_WriteBinaryInt32_disjoint (value : Nat) (buffer : Buffer)
    (off off2 : Nat) (h : off2 + 4 ≤ off ∨ off + 4 ≤ off2) :
    ReadBinaryInt32 (WriteBinaryInt32 value buffer off) off2 = ReadBinaryInt32 buffer off2 := by
  unfold ReadBinaryInt32
  rw [WriteBinaryInt32_outside _ _ _ off2 (by omega),
    WriteBinaryInt32_outside _ _ _ (off2 + 1) (by omega),
    WriteBinaryInt32_outside _ _ _ (off2 + 2) (by omega),
    WriteBinaryInt32_outside _ _ _ (off2 + 3) (by omega)]

/-! ## Bit masks -/

theorem testBit_of_lt_32 (c j : Nat) (hc : c < 4294967296) (hj : 32 ≤ j) :
    c.testBit j = false := by
  apply Nat.testBit_lt_two_pow
  calc c < 2 ^ 32 := hc
    _ ≤ 2 ^ j := Nat.pow_le_pow_right (by norm_num) hj

theorem testBit_low_mask (j : Nat) : (0x0FFFFFFF : Nat).testBit j = decide (j < 28) := by
  have h : (0x0FFFFFFF : Nat) = 2 ^ 28 - 1 := by norm_num
  rw [h, Nat.testBit_two_pow_sub_one]

theorem testBit_high_mask (j : Nat) :
    (0xF0000000 : Nat).testBit j = decide (28 ≤ j ∧ j < 32) := by
  by_cases hj : j < 32
  · interval_cases j <;> rfl
  · rw [testBit_of_lt_32 _ _ (by norm_num) (by omega)]
    simp [hj]

theorem testBit_clean_bit (j : Nat) : Entry1CleanBit.testBit j = decide (j = 27) := by
  have h : Entry1CleanBit = 2 ^ 27 := by norm_num [Entry1CleanBit]
  rw [h, Nat.testBit_two_pow]
  simp [eq_comm]

theorem testBit_not_clean_bit (j : Nat) :
    (0xFFFFFFFF - Entry1CleanBit).testBit j = decide (j < 32 ∧ j ≠ 27) := by
  by_cases hj : j < 32
  · interval_cases j <;> rfl
  · rw [testBit_of_lt_32 _ _ (by norm_num [Entry1CleanBit]) (by omega)]
    simp [hj]

theorem mask_cluster_entry_eq_mod (entry_value : Nat) :
    mask_cluster_entry entry_value = entry_value % 268435456 := by
  unfold mask_cluster_entry
  have h : (0x0FFFFFFF : Nat) = 2 ^ 28 - 1 := by norm_num
  rw [h, Nat.and_pow_two_sub_one_eq_mod]

theorem mask_cluster_entry_lt (entry_value : Nat) :
    mask_cluster_entry entry_value < 268435456 := by
  rw [mask_cluster_entry_eq_mod]
  omega

theorem update_cluster_entry_lt (entry_value new_value : Nat) (hv : new_value < 4294967296) :
    update_cluster_entry entry_value new_value < 4294967296 := by
  unfold update_cluster_entry
  have h1 : entry_value &&& 0xF0000000 < 2 ^ 32 :=
    lt_of_le_of_lt Nat.and_le_right (by norm_num)
  exact Nat.or_lt_two_pow h1 hv

theorem testBit_update_cluster_entry (entry_value new_value j : Nat) :
    (update_cluster_entry entry_value new_value).testBit j =
      ((entry_value.testBit j && decide (28 ≤ j ∧ j < 32)) || new_value.testBit j) := by
  unfold update_cluster_entry
  rw [Nat.testBit_or, Nat.testBit_and, testBit_high_mask]

theorem mask_update_cluster_entry (entry_value new_value : Nat) (hv : new_value < 268435456) :
    mask_cluster_entry (update_cluster_entry entry_value new_value) = new_value := by
  apply Nat.eq_of_testBit_eq
  intro j
  unfold mask_cluster_entry
  rw [Nat.testBit_and, testBit_update_cluster_entry, testBit_low_mask]
  by_cases hj : j < 28
  · have : ¬ (28 ≤ j ∧ j < 32) := by omega
    simp [hj, this]
  · have : new_value.testBit j = false := by
      apply Nat.testBit_lt_two_pow
      calc new_value < 2 ^ 28 := hv
        _ ≤ 2 ^ j := Nat.pow_le_pow_right (by norm_num) (by omega)
    simp [hj, this]

theorem update_cluster_entry_high (entry_value new_value : Nat)
    (hr : entry_value < 4294967296) (hv : new_value < 268435456) :
    update_cluster_entry entry_value new_value / 268435456 = entry_value / 268435456 := by
  apply Nat.eq_of_testBit_eq
  intro j
  have e : (268435456 : Nat) = 2 ^ 28 := by norm_num
  rw [e, ← Nat.shiftRight_eq_div_pow, ← Nat.shiftRight_eq_div_pow, Nat.testBit_shiftRight,
    Nat.testBit_shiftRight, testBit_update_cluster_entry]
  have : new_value.testBit (28 + j) = false := by
    apply Nat.testBit_lt_two_pow
    calc new_value < 2 ^ 28 := hv
      _ ≤ 2 ^ (28 + j) := Nat.pow_le_pow_right (by norm_num) (by omega)
  rw [this]
  by_cases hj : 28 + j < 32
  · simp [hj]
  · rw [testBit_of_lt_32 _ _ hr (by omega)]
    simp

end FatFs

namespace FatFs

/-! ## FAT entries in a cache block -/

/-- The raw 32-bit word of FAT entry `cluster_idx` in the block pinned by
`block_ref`. -/
theorem read_fat_entry_eq (w : World) (block_ref : CacheBlockRef) (cluster_idx : Nat) :
    read_fat_entry_in_cache_block w block_ref cluster_idx =
      mask_cluster_entry
        (ReadBinaryInt32 (w.data block_ref.block) (4 * (cluster_idx % (w.BlockSize / 4)))) := by
  rfl

theorem update_fat_entry_o (w : World) (block_ref : CacheBlockRef) (cluster_idx value : Nat) :
    (update_fat_entry_in_cache_block w block_ref cluster_idx value).o = w.o := by
  rfl

theorem update_fat_entry_data (w : World) (block_ref : CacheBlockRef)
    (cluster_idx value : Nat) (b : Nat) :
    (update_fat_entry_in_cache_block w block_ref cluster_idx value).data b =
      if b = block_ref.block then
        WriteBinaryInt32
          (update_cluster_entry
            (ReadBinaryInt32 (w.data block_ref.block) (4 * (cluster_idx % (w.BlockSize / 4))))
            value)
          (w.data block_ref.block) (4 * (cluster_idx % (w.BlockSize / 4)))
      else w.data b := by
  rfl

theorem update_fat_entry_raw (w : World) (block_ref : CacheBlockRef)
    (cluster_idx value : Nat) (hv : value < 4294967296) :
    ReadBinaryInt32
        ((update_fat_entry_in_cache_block w block_ref cluster_idx value).data block_ref.block)
        (4 * (cluster_idx % (w.BlockSize / 4))) =
      update_cluster_entry
        (ReadBinaryInt32 (w.data block_ref.block) (4 * (cluster_idx % (w.BlockSize / 4))))
        value := by
  rw [update_fat_entry_data, if_pos rfl, ReadBinaryInt32_WriteBinaryInt32]
  exact Nat.mod_eq_of_lt (update_cluster_entry_lt _ _ hv)

/-- C7: in the block pinned by `block_ref`, with `r` the raw little-endian word
of FAT entry `i`, reading the entry gives `r & 0x0FFFFFFF`; updating it with a
value `v` below `2 ^ 28` stores `(r & 0xF0000000) | v`, whose four high bits are
those of `r`; a following read gives `v`; the block is marked dirty; and no
byte outside the four bytes at offset `4 * (i mod FatEntriesPerBlock)`, nor
any other block, changes. -/
theorem fat_entry_read_update (w : World) (block_ref : CacheBlockRef) (i v : Nat)
    (hi : i < w.o.num_fat_entries) (hv : v < 2 ^ 28) :
    let off := 4 * (i % w.FatEntriesPerBlock)
    let r := ReadBinaryInt32 (w.getData block_ref) off
    let w2 := update_fat_entry_in_cache_block w block_ref i v
    is_cluster_idx_valid_for_fat w i = true ∧
    read_fat_entry_in_cache_block w block_ref i = r &&& 0x0FFFFFFF ∧
    ReadBinaryInt32 (w2.getData block_ref) off = (r &&& 0xF0000000) ||| v ∧
    ReadBinaryInt32 (w2.getData block_ref) off / 2 ^ 28 = r / 2 ^ 28 ∧
    read_fat_entry_in_cache_block w2 block_ref i = v ∧
    w2.dirty block_ref.block = true ∧
    (∀ k, k < off ∨ off + 4 ≤ k → w2.getData block_ref k = w.getData block_ref k) ∧
    (∀ b, b ≠ block_ref.block → w2.data b = w.data b) := by
  intro off r w2
  have hv2 : v < 4294967296 := by
    have : (2 : Nat) ^ 28 = 268435456 := by norm_num
    omega
  have hv3 : v < 268435456 := by
    have : (2 : Nat) ^ 28 = 268435456 := by norm_num
    omega
  have hraw : ReadBinaryInt32 (w2.getData block_ref) off = update_cluster_entry r v :=
    update_fat_entry_raw w block_ref i v hv2
  refine ⟨by simp [is_cluster_idx_valid_for_fat, hi], rfl, hraw, ?_, ?_, ?_, ?_, ?_⟩
  · rw [hraw]
    exact update_cluster_entry_high r v (ReadBinaryInt32_lt _ _) hv3
  · have h : read_fat_entry_in_cache_block w2 block_ref i =
        mask_cluster_entry (ReadBinaryInt32 (w2.getData block_ref) off) := rfl
    rw [h, hraw]
    exact mask_update_cluster_entry r v hv3
  · simp [w2, update_fat_entry_in_cache_block, World.markDirty]
  · intro k hk
    show (update_fat_entry_in_cache_block w block_ref i v).data block_ref.block k = _
    rw [update_fat_entry_data, if_pos rfl]
    exact WriteBinaryInt32_outside _ _ _ k hk
  · intro b hb
    show (update_fat_entry_in_cache_block w block_ref i v).data b = _
    rw [update_fat_entry_data, if_neg hb]

end FatFs

namespace FatFs

/-! ## Initialisation -/

theorem init_block_ref_handler_exit_state (w : World) (code : Nat) :
    (init_block_ref_handler_exit w code).o.state =
      if code ≠ 0 then FsState.FAILED else FsState.READY := rfl

theorem init_block_ref_handler_exit_calls (w : World) (code : Nat) :
    (init_block_ref_handler_exit w code).calls = .InitHandler code :: w.calls := rfl

theorem init_block_ref_handler_exit_root (w : World) (code : Nat) :
    (init_block_ref_handler_exit w code).o.root_cluster = w.o.root_cluster := rfl

/-- What `init_block_ref_handler` leaves behind when a check fails with a
non-zero code. -/
theorem init_failed (w w0 : World) (code : Nat) (hcode : code ≠ 0) (P : Prop) (hP : ¬ P)
    (hcalls : w.calls = w0.calls) (root : Nat) :
    ∃ w2, some (init_block_ref_handler_exit w code) = some w2 ∧
      (P → w2.o.state = FsState.READY ∧ w2.calls = .InitHandler 0 :: w0.calls ∧
        getRootEntry w2 = { type := .DIR, cluster_index := root, file_size := 0,
                            dir_entry_block_index := 0, dir_entry_block_offset := 0 }) ∧
      (¬ P → w2.o.state = FsState.FAILED ∧
        ∃ c, c ≠ 0 ∧ w2.calls = .InitHandler c :: w0.calls) := by
  refine ⟨_, rfl, fun h => absurd h hP, fun _ => ⟨?_, code, hcode, ?_⟩⟩
  · rw [init_block_ref_handler_exit_state, if_pos hcode]
  · rw [init_block_ref_handler_exit_calls, hcalls]

/-- Support for C1: when `sectors_per_cluster` is not zero (and the partition
length fits 32 bits), `init_block_ref_handler` ends in `READY` with code 0
exactly under the conditions of the specification, and in `FAILED` with a
non-zero code otherwise. -/
theorem init_block_ref_handler_ready_iff (w : World) (hBS : 512 ≤ w.BlockSize)
    (hspc : ReadBinaryInt8 (w.getData w.o.block_ref) 0xD ≠ 0)
    (hlen : w.o.block_range.length < 2 ^ 32) :
    ∃ w2, init_block_ref_handler w false = some w2 ∧
      (InitConditions w.BlockSize (w.getData w.o.block_ref) w.o.block_range.length →
        w2.o.state = FsState.READY ∧ w2.calls = .InitHandler 0 :: w.calls ∧
        getRootEntry w2 =
          { type := .DIR,
            cluster_index := ReadBinaryInt32 (w.getData w.o.block_ref) 0x2C &&& 0x0FFFFFFF,
            file_size := 0, dir_entry_block_index := 0, dir_entry_block_offset := 0 }) ∧
      (¬ InitConditions w.BlockSize (w.getData w.o.block_ref) w.o.block_range.length →
        w2.o.state = FsState.FAILED ∧
          ∃ code, code ≠ 0 ∧ w2.calls = .InitHandler code :: w.calls) := by
  have h1 := ReadBinaryInt16_lt (w.getData w.o.block_ref) 0xB
  have h2 := ReadBinaryInt8_lt (w.getData w.o.block_ref) 0xD
  have h3 := ReadBinaryInt16_lt (w.getData w.o.block_ref) 0xE
  have h4 := ReadBinaryInt8_lt (w.getData w.o.block_ref) 0x10
  have h5 := ReadBinaryInt16_lt (w.getData w.o.block_ref) 0x11
  have h6 := ReadBinaryInt32_lt (w.getData w.o.block_ref) 0x24
  have h7 := ReadBinaryInt32_lt (w.getData w.o.block_ref) 0x2C
  have h8 := ReadBinaryInt16_lt (w.getData w.o.block_ref) 0x30
  have h9 := ReadBinaryInt8_lt (w.getData w.o.block_ref) 0x42
  unfold InitConditions init_block_ref_handler
  simp only [Bool.false_eq_true, if_false, BlockRange.getLength, UINT16_MAX, UINT32_MAX,
    mask_cluster_entry, NormalClusterIndexEnd]
  generalize ReadBinaryInt16 (w.getData w.o.block_ref) 0xB = ss at *
  generalize ReadBinaryInt8 (w.getData w.o.block_ref) 0xD = spc at *
  generalize ReadBinaryInt16 (w.getData w.o.block_ref) 0xE = rs at *
  generalize ReadBinaryInt8 (w.getData w.o.block_ref) 0x10 = nf at *
  generalize ReadBinaryInt16 (w.getData w.o.block_ref) 0x11 = mr at *
  generalize ReadBinaryInt32 (w.getData w.o.block_ref) 0x24 = spf at *
  generalize ReadBinaryInt32 (w.getData w.o.block_ref) 0x2C = rc at *
  generalize ReadBinaryInt16 (w.getData w.o.block_ref) 0x30 = fis at *
  generalize ReadBinaryInt8 (w.getData w.o.block_ref) 0x42 = sig at *
  generalize w.o.block_range.length = len at *
  generalize hBSeq : w.BlockSize = BS at *
  have e16 : (2 : Nat) ^ 16 = 65536 := by norm_num
  have e32 : (2 : Nat) ^ 32 = 4294967296 := by norm_num
  have e64 : (2 : Nat) ^ 64 = 18446744073709551616 := by norm_num
  rw [e16, e32, e64]
  rw [e32] at hlen
  -- sector size
  by_cases c1 : ss = 0 ∨ ss % BS ≠ 0
  · rw [if_pos c1]
    refine init_failed _ w 22 (by decide) _ ?_ ?_ _
    swap
    · rfl
    omega
  rw [if_neg c1]
  have hssBS : BS ≤ ss := by
    rcases Nat.lt_or_ge ss BS with h | h
    · have := Nat.mod_eq_of_lt h
      omega
    · exact h
  have hbps1 : 1 ≤ ss / BS := Nat.div_pos hssBS (by omega)
  have hbps2 : ss / BS ≤ 127 := by
    have : ss / BS ≤ ss / 512 := Nat.div_le_div_left hBS (by norm_num)
    omega
  generalize ss / BS = bps at *
  have hb : bps % 65536 = bps := Nat.mod_eq_of_lt (by omega)
  rw [hb]
  rw [if_neg (by omega : ¬ bps = 0)]
  -- sectors per cluster
  have hdiv : 65535 / bps < spc ↔ 65535 < spc * bps := Nat.div_lt_iff_lt_mul (by omega)
  by_cases c2 : spc > 65535 / bps
  · rw [if_pos c2]
    refine init_failed _ w 23 (by decide) _ ?_ ?_ _
    swap
    · rfl
    have := hdiv.1 c2
    omega
  rw [if_neg c2]
  have hbpc : spc * bps ≤ 65535 := by
    by_contra hh
    exact c2 (hdiv.2 (by omega))
  have hbpc0 : 0 < spc * bps := Nat.mul_pos (by omega) (by omega)
  rw [Nat.mul_comm bps spc, Nat.mod_eq_of_lt (by omega : spc * bps < 65536)]
  -- reserved area
  have hrs : rs * ss < 4294967296 := by
    have : rs * ss ≤ 65535 * 65535 := Nat.mul_le_mul (by omega) (by omega)
    omega
  rw [Nat.mod_eq_of_lt hrs]
  by_cases c3 : rs * ss < 71
  · rw [if_pos c3]
    refine init_failed _ w 24 (by decide) _ ?_ ?_ _
    swap
    · rfl
    omega
  rw [if_neg c3]
  -- number of FATs, signature, root entries
  by_cases c4 : nf ≠ 1 ∧ nf ≠ 2
  · rw [if_pos c4]
    refine init_failed _ w 25 (by decide) _ ?_ ?_ _
    swap
    · rfl
    omega
  rw [if_neg c4]
  by_cases c5 : sig ≠ 40 ∧ sig ≠ 41
  · rw [if_pos c5]
    refine init_failed _ w 26 (by decide) _ ?_ ?_ _
    swap
    · rfl
    omega
  rw [if_neg c5]
  by_cases c6 : mr ≠ 0
  · rw [if_pos c6]
    refine init_failed _ w 27 (by decide) _ ?_ ?_ _
    swap
    · rfl
    omega
  rw [if_neg c6]
  -- root cluster
  by_cases c7 : rc &&& 268435455 < 2
  · rw [if_pos c7]
    refine init_failed _ w 28 (by decide) _ ?_ ?_ _
    swap
    · rfl
    omega
  rw [if_neg c7]
  -- size of the FAT
  have heps : ss / 4 % 65536 = ss / 4 := Nat.mod_eq_of_lt (by omega)
  rw [heps]
  by_cases c8 : spf = 0
  · rw [if_pos c8]
    refine init_failed _ w 29 (by decide) _ ?_ ?_ _
    swap
    · rfl
    omega
  rw [if_neg c8, if_neg (by omega : ¬ ss / 4 = 0)]
  have hdiv2 : 4294967295 / (ss / 4) < spf ↔ 4294967295 < spf * (ss / 4) :=
    Nat.div_lt_iff_lt_mul (by omega)
  by_cases c9 : spf > 4294967295 / (ss / 4)
  · rw [if_pos c9]
    refine init_failed _ w 29 (by decide) _ ?_ ?_ _
    swap
    · rfl
    have := hdiv2.1 c9
    omega
  rw [if_neg c9]
  have hnfe : spf * (ss / 4) ≤ 4294967295 := by
    by_contra hh
    exact c9 (hdiv2.2 (by omega))
  -- end of the FATs
  have hnf : nf * spf ≤ 2 * 4294967295 := Nat.mul_le_mul (by omega) (by omega)
  rw [Nat.mod_eq_of_lt (by omega : rs + nf * spf < 18446744073709551616)]
  by_cases c10 : rs + nf * spf > len / bps
  · rw [if_pos c10]
    refine init_failed _ w 29 (by decide) _ ?_ ?_ _
    swap
    · rfl
    omega
  rw [if_neg c10]
  -- FS information sector
  have hfis : fis * bps < 4294967296 := by
    have : fis * bps ≤ 65535 * 127 := Nat.mul_le_mul (by omega) (by omega)
    omega
  rw [Nat.mod_eq_of_lt hfis]
  by_cases c11 : fis ≠ 0 ∧ fis ≠ 65535 ∧ fis * bps ≥ rs * bps
  · rw [if_pos c11]
    refine init_failed _ w 31 (by decide) _ ?_ ?_ _
    swap
    · rfl
    omega
  rw [if_neg c11, if_neg (by omega : ¬ spc * bps = 0)]
  -- capacity
  have hcap : (len - (rs + nf * spf) * bps) / (spc * bps) < 4294967296 :=
    lt_of_le_of_lt (Nat.div_le_self _ _) (by omega)
  rw [Nat.mod_eq_of_lt hcap]
  by_cases c12 : (len - (rs + nf * spf) * bps) / (spc * bps) < 1
  · rw [if_pos c12]
    refine init_failed _ w 30 (by decide) _ ?_ ?_ _
    swap
    · rfl
    omega
  rw [if_neg c12]
  refine ⟨_, rfl, fun _ => ⟨rfl, rfl, rfl⟩, fun hn => absurd ?_ hn⟩
  omega

end FatFs

namespace FatFs

/-! ## Running the collaborators: unfolding lemmas -/
theorem run_quiescent (fuel : Nat) (errors : List Bool) (w : World)
    (hq : w.queue = []) (hp : pending w = none) :
    run (fuel + 1) errors w = some w := by
  simp [run, hq, hp]

theorem run_answer (fuel : Nat) (e : Bool) (errors : List Bool) (w w2 : World)
    (answer : Bool → Input)
    (hq : w.queue = []) (hp : pending w = some answer) (hs : step w (answer e) = some w2) :
    run (fuel + 1) (e :: errors) w = run fuel errors w2 := by
  simp [run, hq, hp, hs]

theorem run_queued (fuel : Nat) (errors : List Bool) (w w2 : World)
    (hq : w.queue ≠ []) (hs : step w .queued = some w2) :
    run (fuel + 1) errors w = run fuel errors w2 := by
  simp [run, hq, hs]

theorem pending_none_iff (w : World) : pending w = none ↔
    w.o.block_ref.state ≠ CacheRefState.REQUESTING ∧
    w.o.fs_info_block_ref.state ≠ CacheRefState.REQUESTING ∧
    w.o.flush_request = false ∧ pendingFiles w.files 0 = none := by
  unfold pending
  split_ifs <;> simp_all

theorem clean_bit_test (r : Nat) :
    (mask_cluster_entry r &&& Entry1CleanBit = 0) ↔ r.testBit 27 = false := by
  constructor
  · intro h
    have := congrArg (fun x => Nat.testBit x 27) h
    simpa [mask_cluster_entry, Nat.testBit_and, testBit_low_mask, testBit_clean_bit] using this
  · intro h
    apply Nat.eq_of_testBit_eq
    intro j
    rw [Nat.testBit_and, testBit_clean_bit, Nat.zero_testBit]
    by_cases hj : j = 27
    · subst hj
      simp [mask_cluster_entry, Nat.testBit_and, h]
    · simp [hj]

theorem read_entry1_eq (w : World) (r : CacheBlockRef)
    (hr : r.block = get_abs_block_index_for_fat_entry w FsStatusEntryIndex) :
    read_fat_entry_in_cache_block w r FsStatusEntryIndex = mask_cluster_entry (fatEntry1 w) := by
  simp [read_fat_entry_in_cache_block, fatEntry1, World.getData, hr]

theorem step_startWriteMount_meta_ok (w : World) (hs : w.o.state = .READY)
    (hclean : (fatEntry1 w).testBit 27 = true) (hw : w.writable = true)
    (hfs : w.o.fs_info_block ≠ 0) :
    step (startWriteMount w) (.block_ref false) = some (mountMetaOk w) := by
  have hc : ¬ (mask_cluster_entry (fatEntry1 w) &&& Entry1CleanBit = 0) := by
    rw [clean_bit_test]; simp [hclean]
  have hre : read_fat_entry_in_cache_block
      ((startWriteMount w).answer_block_ref false)
      ((startWriteMount w).answer_block_ref false).o.block_ref FsStatusEntryIndex
        = mask_cluster_entry (fatEntry1 w) := by
    rw [read_entry1_eq]
    · rfl
    · rfl
  have h1 : (startWriteMount w).o.block_ref.state = CacheRefState.REQUESTING := rfl
  have h2 : ((startWriteMount w).answer_block_ref false).o.state = FsState.READY := hs
  have h3 : ((startWriteMount w).answer_block_ref false).o.write_mount_state
      = WriteMountState.MOUNT_META := rfl
  have h4 : ((startWriteMount w).answer_block_ref false).writable = true := hw
  have h5 : ((startWriteMount w).answer_block_ref false).o.fs_info_block ≠ 0 := hfs
  simp only [step, h1, if_true, block_ref_handler, h2, h3, write_mount_metablock_ref_handler,
    hre, hc, h4, h5, if_false, Bool.false_eq_true, reduceCtorEq]
  simp [mountMetaOk, World.answer_block_ref, startWriteMount, World.blockLoaded,
    CacheBlockRef.complete, request_fat_cache_block, World.requestBlock,
    get_abs_block_index_for_fat_entry, get_abs_block_index, World.FatEntriesPerBlock, hs, hw]


/-! ## Write-mount, phase by phase -/

theorem fatEntry1_congr (w w2 : World) (hd : w2.data = w.data)
    (hr : w2.o.block_range = w.o.block_range)
    (hn : w2.o.num_reserved_blocks = w.o.num_reserved_blocks)
    (hb : w2.BlockSize = w.BlockSize) : fatEntry1 w2 = fatEntry1 w := by
  simp [fatEntry1, get_abs_block_index_for_fat_entry, get_abs_block_index,
    get_fat_ptr_in_cache_block, World.FatEntriesPerBlock, hd, hr, hn, hb]

/-- What a failed completion of the write-mount leaves behind. -/
theorem complete_write_mount_request_failed (w w0 : World)
    (hcalls : w.calls = w0.calls) (hq : w.queue = []) (hf : pendingFiles w.files 0 = none)
    (hd : w.data = w0.data) (hr : w.o.block_range = w0.o.block_range)
    (hn : w.o.num_reserved_blocks = w0.o.num_reserved_blocks)
    (hb : w.BlockSize = w0.BlockSize) :
    let w2 := complete_write_mount_request w true
    w2.calls = .WriteMountHandler true :: w0.calls ∧
    w2.o.write_mount_state = WriteMountState.NOT_MOUNTED ∧
    fatEntry1 w2 = fatEntry1 w0 ∧ w2.queue = [] ∧ pending w2 = none := by
  refine ⟨?_, rfl, ?_, hq, ?_⟩
  · simp [complete_write_mount_request, World.call, hcalls]
  · exact fatEntry1_congr _ _ hd hr hn hb
  · rw [pending_none_iff]
    simp [complete_write_mount_request, World.call, CacheBlockRef.reset, hf]

theorem step_startWriteMount_meta_failed (w : World) (e1 : Bool) (hs : w.o.state = .READY)
    (h : ¬ (e1 = false ∧ (fatEntry1 w).testBit 27 = true ∧ w.writable = true ∧
      w.o.fs_info_block ≠ 0)) :
    step (startWriteMount w) (.block_ref e1) =
      some (complete_write_mount_request ((startWriteMount w).answer_block_ref e1) true) := by
  have h1 : (startWriteMount w).o.block_ref.state = CacheRefState.REQUESTING := rfl
  have h2 : ((startWriteMount w).answer_block_ref e1).o.state = FsState.READY := by
    cases e1 <;> exact hs
  have h3 : ((startWriteMount w).answer_block_ref e1).o.write_mount_state
      = WriteMountState.MOUNT_META := by
    cases e1 <;> rfl
  simp only [step, h1, if_true, block_ref_handler, h2, h3, write_mount_metablock_ref_handler]
  cases e1
  · have hre : read_fat_entry_in_cache_block
        ((startWriteMount w).answer_block_ref false)
        ((startWriteMount w).answer_block_ref false).o.block_ref FsStatusEntryIndex
          = mask_cluster_entry (fatEntry1 w) := by
      rw [read_entry1_eq]
      · rfl
      · rfl
    have h4 : ((startWriteMount w).answer_block_ref false).writable = w.writable := rfl
    have h5 : ((startWriteMount w).answer_block_ref false).o.fs_info_block
        = w.o.fs_info_block := rfl
    simp only [hre, h4, h5, clean_bit_test, Bool.false_eq_true, if_false]
    split_ifs <;> first | rfl | (exfalso; simp_all)
  · simp


/-! ## The clean bit -/

theorem fatEntry1_lt (w : World) : fatEntry1 w < 4294967296 :=
  ReadBinaryInt32_lt _ _

theorem fatEntry1_update_fs_clean_bit (w : World) (r : CacheBlockRef) (b : Bool)
    (hr : r.block = get_abs_block_index_for_fat_entry w FsStatusEntryIndex) :
    fatEntry1 (update_fs_clean_bit w r b) =
      update_cluster_entry (fatEntry1 w)
        (if b then mask_cluster_entry (fatEntry1 w) ||| Entry1CleanBit
         else mask_cluster_entry (fatEntry1 w) &&& (0xFFFFFFFF - Entry1CleanBit)) := by
  have hv : (if b then mask_cluster_entry (fatEntry1 w) ||| Entry1CleanBit
         else mask_cluster_entry (fatEntry1 w) &&& (0xFFFFFFFF - Entry1CleanBit))
           < 4294967296 := by
    have hm := mask_cluster_entry_lt (fatEntry1 w)
    cases b
    · exact lt_of_le_of_lt Nat.and_le_left (by omega)
    · have h1 : mask_cluster_entry (fatEntry1 w) < 2 ^ 32 := by
        have : (2 : Nat) ^ 32 = 4294967296 := by norm_num
        omega
      have h2 : Entry1CleanBit < 2 ^ 32 := by norm_num [Entry1CleanBit]
      have := Nat.or_lt_two_pow h1 h2
      simpa using this
  have h := update_fat_entry_raw w r FsStatusEntryIndex _ hv
  have hread : read_fat_entry_in_cache_block w r FsStatusEntryIndex
      = mask_cluster_entry (fatEntry1 w) := read_entry1_eq w r hr
  unfold update_fs_clean_bit
  simp only [hread]
  unfold fatEntry1
  rw [hr] at h
  exact h

/-- The effect of `update_fs_clean_bit` on the raw word of FAT entry #1, bit by
bit: bit 27 becomes the requested value, every other bit is kept. -/
theorem update_fs_clean_bit_testBit (w : World) (r : CacheBlockRef) (b : Bool)
    (hr : r.block = get_abs_block_index_for_fat_entry w FsStatusEntryIndex) (j : Nat) :
    (fatEntry1 (update_fs_clean_bit w r b)).testBit j =
      if j = 27 then b else (fatEntry1 w).testBit j := by
  rw [fatEntry1_update_fs_clean_bit w r b hr, testBit_update_cluster_entry]
  have hlt := fatEntry1_lt w
  generalize fatEntry1 w = raw at *
  by_cases h32 : 32 ≤ j
  · have hraw : raw.testBit j = false := testBit_of_lt_32 raw j hlt h32
    have h27 : j ≠ 27 := by omega
    have h28 : ¬ j < 28 := by omega
    cases b <;>
      simp [hraw, h27, h28, mask_cluster_entry, Nat.testBit_or, Nat.testBit_and,
        testBit_low_mask, testBit_clean_bit, testBit_not_clean_bit]
  · by_cases h27 : j = 27
    · subst h27
      cases b <;>
        simp [mask_cluster_entry, Nat.testBit_or, Nat.testBit_and,
          testBit_low_mask, testBit_clean_bit, testBit_not_clean_bit]
    · by_cases h28 : j < 28
      · have hn : ¬ 28 ≤ j := by omega
        have h32' : j < 32 := by omega
        cases b <;>
          simp [h27, h28, hn, h32', mask_cluster_entry, Nat.testBit_or, Nat.testBit_and,
            testBit_low_mask, testBit_clean_bit, testBit_not_clean_bit]
      · have hn : 28 ≤ j := by omega
        have h32' : j < 32 := by omega
        cases b <;>
          simp [h27, h28, hn, h32', mask_cluster_entry, Nat.testBit_or, Nat.testBit_and,
            testBit_low_mask, testBit_clean_bit, testBit_not_clean_bit]

theorem update_fs_clean_bit_frame (w : World) (r : CacheBlockRef) (b : Bool) :
    (update_fs_clean_bit w r b).o = w.o ∧ (update_fs_clean_bit w r b).BlockSize = w.BlockSize ∧
    (update_fs_clean_bit w r b).files = w.files ∧ (update_fs_clean_bit w r b).queue = w.queue ∧
    (update_fs_clean_bit w r b).calls = w.calls ∧
    (update_fs_clean_bit w r b).writable = w.writable ∧
    (update_fs_clean_bit w r b).SizeBits = w.SizeBits :=
  ⟨rfl, rfl, rfl, rfl, rfl, rfl, rfl⟩

/-- Setting the clean bit of a word that had it cleared by `update_fs_clean_bit`
gives back the word before the clearing, provided the bit was set then. -/
theorem eq_of_testBit_restore (a c raw : Nat) (hraw : raw.testBit 27 = true)
    (h1 : ∀ j, a.testBit j = if j = 27 then false else raw.testBit j)
    (h2 : ∀ j, c.testBit j = if j = 27 then true else a.testBit j) : c = raw := by
  apply Nat.eq_of_testBit_eq
  intro j
  rw [h2 j]
  by_cases h : j = 27
  · simp [h, hraw]
  · simp [h, h1 j]


/-! ## Write-mount: the FS information sector and the flush -/

theorem step_mountMetaOk_failed (w : World) (e2 : Bool)
    (h : ¬ (e2 = false ∧ fsInfoSignaturesOk w)) :
    step (mountMetaOk w) (.fs_info_block_ref e2) =
      some (complete_write_mount_request
        ((mountMetaOk w).answer_fs_info_block_ref e2) true) := by
  have h1 : (mountMetaOk w).o.fs_info_block_ref.state = CacheRefState.REQUESTING := rfl
  simp only [step, h1, if_true, fs_info_block_ref_handler]
  cases e2
  · have hA : ((mountMetaOk w).answer_fs_info_block_ref false).getData
        ((mountMetaOk w).answer_fs_info_block_ref false).o.fs_info_block_ref
          = w.data (get_abs_block_index w w.o.fs_info_block) := rfl
    have h' : ¬ fsInfoSignaturesOk w := fun hh => h ⟨rfl, hh⟩
    unfold fsInfoSignaturesOk at h'
    simp only [hA, FsInfoSig1Offset, FsInfoSig2Offset, FsInfoSig3Offset, Bool.false_eq_true,
      if_false]
    rw [if_pos]
    by_contra hc
    apply h'
    simp only [not_or, not_not] at hc
    exact hc
  · simp

theorem step_mountMetaOk_ok (w : World) :
    step (mountMetaOk w) (.fs_info_block_ref false) = some (mountFsInfoOk w) := by
  have h1 : (mountMetaOk w).o.fs_info_block_ref.state = CacheRefState.REQUESTING := rfl
  simp only [step, h1, if_true, mountFsInfoOk]

theorem mountFsInfoOk_eq (w : World) (hsig : fsInfoSignaturesOk w) :
    ∃ p, mountFsInfoOk w = mountFsInfoWorld w p := by
  have hA : ((mountMetaOk w).answer_fs_info_block_ref false).getData
      ((mountMetaOk w).answer_fs_info_block_ref false).o.fs_info_block_ref
        = w.data (get_abs_block_index w w.o.fs_info_block) := rfl
  obtain ⟨hs1, hs2, hs3⟩ := hsig
  have hno : ¬ (ReadBinaryInt32 (w.data (get_abs_block_index w w.o.fs_info_block)) 0 ≠ 1096897106 ∨
      ReadBinaryInt32 (w.data (get_abs_block_index w w.o.fs_info_block)) 484 ≠ 1631679090 ∨
      ReadBinaryInt32 (w.data (get_abs_block_index w w.o.fs_info_block)) 508 ≠ 2857697280) := by
    simp [hs1, hs2, hs3]
  by_cases hc : ReadBinaryInt32 (w.data (get_abs_block_index w w.o.fs_info_block))
        FsInfoAllocatedClusterOffset ≥ 2 ∧
      ReadBinaryInt32 (w.data (get_abs_block_index w w.o.fs_info_block))
        FsInfoAllocatedClusterOffset < (2 + w.o.num_valid_clusters) % 2 ^ 32
  · refine ⟨ReadBinaryInt32 (w.data (get_abs_block_index w w.o.fs_info_block))
      FsInfoAllocatedClusterOffset - 2, ?_⟩
    have hc2 : ReadBinaryInt32 (w.data (get_abs_block_index w w.o.fs_info_block))
        FsInfoAllocatedClusterOffset ≥ 2 ∧
      ReadBinaryInt32 (w.data (get_abs_block_index w w.o.fs_info_block))
        FsInfoAllocatedClusterOffset <
          (2 + ((mountMetaOk w).answer_fs_info_block_ref false).o.num_valid_clusters) % 2 ^ 32 :=
      hc
    simp only [mountFsInfoOk, fs_info_block_ref_handler, mountFsInfoWorld, hA, FsInfoSig1Offset,
      FsInfoSig2Offset, FsInfoSig3Offset, Bool.false_eq_true, if_false, hno, hc2, and_self,
      if_true]
  · refine ⟨0, ?_⟩
    have hc2 : ¬ (ReadBinaryInt32 (w.data (get_abs_block_index w w.o.fs_info_block))
        FsInfoAllocatedClusterOffset ≥ 2 ∧
      ReadBinaryInt32 (w.data (get_abs_block_index w w.o.fs_info_block))
        FsInfoAllocatedClusterOffset <
          (2 + ((mountMetaOk w).answer_fs_info_block_ref false).o.num_valid_clusters) % 2 ^ 32) :=
      hc
    simp only [mountFsInfoOk, fs_info_block_ref_handler, mountFsInfoWorld, hA, FsInfoSig1Offset,
      FsInfoSig2Offset, FsInfoSig3Offset, Bool.false_eq_true, if_false, hno, hc2]

theorem fatEntry1_mountFsInfoWorld (w : World) (p j : Nat) :
    (fatEntry1 (mountFsInfoWorld w p)).testBit j =
      if j = 27 then false else (fatEntry1 w).testBit j := by
  rw [← update_fs_clean_bit_testBit w
    { state := .READY, block := get_abs_block_index_for_fat_entry w FsStatusEntryIndex }
    false rfl j]
  rfl


theorem complete_write_mount_request_facts (w : World) (error : Bool)
    (hq : w.queue = []) (hf : pendingFiles w.files 0 = none)
    (hfs : error = false → w.o.fs_info_block_ref.state ≠ CacheRefState.REQUESTING) :
    let w2 := complete_write_mount_request w error
    w2.calls = .WriteMountHandler error :: w.calls ∧
    w2.o.write_mount_state =
      (if error then WriteMountState.NOT_MOUNTED else WriteMountState.MOUNTED) ∧
    fatEntry1 w2 = fatEntry1 w ∧ w2.queue = [] ∧ pending w2 = none := by
  cases error
  · refine ⟨rfl, rfl, rfl, hq, ?_⟩
    rw [pending_none_iff]
    exact ⟨by simp [complete_write_mount_request, World.call, CacheBlockRef.reset],
      hfs rfl, rfl, hf⟩
  · refine ⟨rfl, rfl, rfl, hq, ?_⟩
    rw [pending_none_iff]
    exact ⟨by simp [complete_write_mount_request, World.call, CacheBlockRef.reset],
      by simp [complete_write_mount_request, World.call, CacheBlockRef.reset], rfl, hf⟩

theorem flushDone_frame (w : World) (e : Bool) :
    (w.flushDone e).queue = w.queue ∧ (w.flushDone e).files = w.files ∧
    (w.flushDone e).calls = w.calls ∧ (w.flushDone e).data = w.data ∧
    (w.flushDone e).BlockSize = w.BlockSize ∧
    (w.flushDone e).o.block_range = w.o.block_range ∧
    (w.flushDone e).o.num_reserved_blocks = w.o.num_reserved_blocks ∧
    (w.flushDone e).o.block_ref = w.o.block_ref ∧
    (w.flushDone e).o.fs_info_block_ref = w.o.fs_info_block_ref ∧
    (w.flushDone e).o.write_mount_state = w.o.write_mount_state ∧
    (w.flushDone e).o.state = w.o.state ∧ (w.flushDone e).o.flush_request = false := by
  cases e <;> exact ⟨rfl, rfl, rfl, rfl, rfl, rfl, rfl, rfl, rfl, rfl, rfl, rfl⟩

theorem fatEntry1_flushDone (w : World) (e : Bool) : fatEntry1 (w.flushDone e) = fatEntry1 w := by
  cases e <;> rfl

theorem mountFsInfoWorld_frame (w : World) (p : Nat) :
    (mountFsInfoWorld w p).queue = w.queue ∧ (mountFsInfoWorld w p).files = w.files ∧
    (mountFsInfoWorld w p).calls = w.calls ∧ (mountFsInfoWorld w p).o.state = w.o.state ∧
    (mountFsInfoWorld w p).o.write_mount_state = WriteMountState.MOUNT_FLUSH ∧
    (mountFsInfoWorld w p).o.flush_request = true ∧
    (mountFsInfoWorld w p).o.block_ref =
      { state := .READY, block := get_abs_block_index_for_fat_entry w FsStatusEntryIndex } ∧
    (mountFsInfoWorld w p).o.fs_info_block_ref.state = CacheRefState.READY :=
  ⟨rfl, rfl, rfl, rfl, rfl, rfl, rfl, rfl⟩

/-- The whole write-mount: `startWriteMount`, then the answers to the pin of the
FAT block (`e1`), to the pin of the FS information sector (`e2`) and to the
flush (`e3`), as far as they are asked for. -/
theorem write_mount_run (w : World) (n : Nat) (e1 e2 e3 : Bool) (rest : List Bool)
    (hq : w.queue = []) (hp : pending w = none) (hs : w.o.state = FsState.READY) :
    ∃ w2, run (n + 4) (e1 :: e2 :: e3 :: rest) (startWriteMount w) = some w2 ∧
      w2.queue = [] ∧ pending w2 = none ∧
      (MountConditions w e1 e2 e3 →
        w2.calls = .WriteMountHandler false :: w.calls ∧
        w2.o.write_mount_state = WriteMountState.MOUNTED ∧
        ∀ j, (fatEntry1 w2).testBit j = if j = 27 then false else (fatEntry1 w).testBit j) ∧
      (¬ MountConditions w e1 e2 e3 →
        w2.calls = .WriteMountHandler true :: w.calls ∧
        w2.o.write_mount_state = WriteMountState.NOT_MOUNTED ∧
        fatEntry1 w2 = fatEntry1 w) := by
  rw [pending_none_iff] at hp
  obtain ⟨hp1, hp2, hp3, hp4⟩ := hp
  have hq1 : (startWriteMount w).queue = [] := hq
  have hpend1 : pending (startWriteMount w) = some Input.block_ref := by
    simp [pending, startWriteMount, request_fat_cache_block, World.requestBlock]
  by_cases hA : e1 = false ∧ (fatEntry1 w).testBit 27 = true ∧ w.writable = true ∧
      w.o.fs_info_block ≠ 0
  swap
  · -- the FAT block is refused
    have hstep := step_startWriteMount_meta_failed w e1 hs hA
    rw [run_answer (n + 3) e1 _ _ _ Input.block_ref hq1 hpend1 hstep]
    have hfacts := complete_write_mount_request_facts
      ((startWriteMount w).answer_block_ref e1) true (by cases e1 <;> exact hq)
      (by cases e1 <;> exact hp4) (by simp)
    obtain ⟨f1, f2, f3, f4, f5⟩ := hfacts
    refine ⟨_, run_quiescent _ _ _ f4 f5, f4, f5, ?_, ?_⟩
    · intro hm
      exact absurd ⟨hm.1, hm.2.1, hm.2.2.1, hm.2.2.2.1⟩ hA
    · intro _
      refine ⟨?_, f2, ?_⟩
      · rw [f1]; cases e1 <;> rfl
      · rw [f3]; cases e1 <;> rfl
  obtain ⟨he1, hclean, hw, hfs⟩ := hA
  subst he1
  rw [run_answer (n + 3) false _ _ _ Input.block_ref hq1 hpend1
    (step_startWriteMount_meta_ok w hs hclean hw hfs)]
  have hq2 : (mountMetaOk w).queue = [] := hq
  have hpend2 : pending (mountMetaOk w) = some Input.fs_info_block_ref := by
    simp [pending, mountMetaOk]
  by_cases hB : e2 = false ∧ fsInfoSignaturesOk w
  swap
  · -- the FS information sector is refused
    rw [run_answer (n + 2) e2 _ _ _ Input.fs_info_block_ref hq2 hpend2
      (step_mountMetaOk_failed w e2 hB)]
    have hfacts := complete_write_mount_request_facts
      ((mountMetaOk w).answer_fs_info_block_ref e2) true (by cases e2 <;> exact hq)
      (by cases e2 <;> exact hp4) (by simp)
    obtain ⟨f1, f2, f3, f4, f5⟩ := hfacts
    refine ⟨_, run_quiescent _ _ _ f4 f5, f4, f5, ?_, ?_⟩
    · intro hm
      exact absurd ⟨hm.2.2.2.2.1, hm.2.2.2.2.2.1⟩ hB
    · intro _
      refine ⟨?_, f2, ?_⟩
      · rw [f1]; cases e2 <;> rfl
      · rw [f3]; cases e2 <;> rfl
  obtain ⟨he2, hsig⟩ := hB
  subst he2
  rw [run_answer (n + 2) false _ _ _ Input.fs_info_block_ref hq2 hpend2
    (step_mountMetaOk_ok w)]
  obtain ⟨p, hW⟩ := mountFsInfoOk_eq w hsig
  rw [hW]
  obtain ⟨g1, g2, g3, g4, g5, g6, g7, g8⟩ := mountFsInfoWorld_frame w p
  have hq3 : (mountFsInfoWorld w p).queue = [] := g1.trans hq
  have hpend3 : pending (mountFsInfoWorld w p) = some Input.flush_request := by
    unfold pending
    rw [g7, g8, g6]
    simp
  have hbits := fatEntry1_mountFsInfoWorld w p
  have hstep : step (mountFsInfoWorld w p) (.flush_request e3) =
      some (flush_request_handler ((mountFsInfoWorld w p).flushDone e3) e3) := by
    simp only [step, g6, if_true]
  rw [run_answer (n + 1) e3 _ _ _ Input.flush_request hq3 hpend3 hstep]
  obtain ⟨d1, d2, d3, d4, d5, d6, d7, d8, d9, d10, d11, d12⟩ :=
    flushDone_frame (mountFsInfoWorld w p) e3
  generalize hX : (mountFsInfoWorld w p).flushDone e3 = X at *
  have hXe : fatEntry1 X = fatEntry1 (mountFsInfoWorld w p) := by
    rw [← hX]; exact fatEntry1_flushDone _ _
  have hXq : X.queue = [] := d1.trans hq3
  have hXf : pendingFiles X.files 0 = none := by rw [d2, g2]; exact hp4
  have hXc : X.calls = w.calls := d3.trans g3
  have hXs : X.o.fs_info_block_ref.state ≠ CacheRefState.REQUESTING := by
    rw [d9, g8]; simp
  have hXm : X.o.write_mount_state = WriteMountState.MOUNT_FLUSH := d10.trans g5
  have hXb : X.o.block_ref.block = get_abs_block_index_for_fat_entry X FsStatusEntryIndex := by
    rw [d8, g7]
    simp only [get_abs_block_index_for_fat_entry, get_abs_block_index, World.FatEntriesPerBlock,
      d5, d6, d7]
    rfl
  unfold flush_request_handler
  rw [hXm]
  cases e3
  · -- the flush succeeds
    simp only [Bool.false_eq_true, if_false]
    obtain ⟨f1, f2, f3, f4, f5⟩ :=
      complete_write_mount_request_facts X false hXq hXf (fun _ => hXs)
    refine ⟨_, run_quiescent _ _ _ f4 f5, f4, f5, ?_, ?_⟩
    · intro _
      refine ⟨f1.trans (by rw [hXc]), f2, ?_⟩
      intro j
      rw [f3, hXe]
      exact hbits j
    · intro hm
      exact absurd ⟨rfl, hclean, hw, hfs, rfl, hsig, rfl⟩ hm
  · -- the flush fails: the clean bit is set again
    simp only [if_true]
    obtain ⟨u1, u2, u3, u4, u5, u6, u7⟩ := update_fs_clean_bit_frame X X.o.block_ref true
    obtain ⟨f1, f2, f3, f4, f5⟩ :=
      complete_write_mount_request_facts (update_fs_clean_bit X X.o.block_ref true) true
        (u4.trans hXq) (by rw [u3]; exact hXf) (by simp)
    refine ⟨_, run_quiescent _ _ _ f4 f5, f4, f5, ?_, ?_⟩
    · intro hm
      exact absurd hm.2.2.2.2.2.2 (by simp)
    · intro _
      refine ⟨f1.trans (by rw [u5, hXc]), f2, ?_⟩
      rw [f3]
      have hset := update_fs_clean_bit_testBit X X.o.block_ref true hXb
      rw [hXe] at hset
      exact eq_of_testBit_restore _ _ _ hclean hbits hset

end FatFs

namespace FatFs

/-! ## Write-unmount, phase by phase -/

theorem complete_write_unmount_request_facts (w : World) (error : Bool)
    (hq : w.queue = []) (hf : pendingFiles w.files 0 = none)
    (hfs : error = true → w.o.fs_info_block_ref.state ≠ CacheRefState.REQUESTING) :
    let w2 := complete_write_unmount_request w error
    w2.calls = .WriteMountHandler error :: w.calls ∧
    w2.o.write_mount_state =
      (if error then WriteMountState.MOUNTED else WriteMountState.NOT_MOUNTED) ∧
    fatEntry1 w2 = fatEntry1 w ∧ w2.queue = [] ∧ pending w2 = none := by
  cases error
  · refine ⟨rfl, rfl, rfl, hq, ?_⟩
    rw [pending_none_iff]
    exact ⟨by simp [complete_write_unmount_request, World.call, CacheBlockRef.reset],
      by simp [complete_write_unmount_request, World.call, CacheBlockRef.reset], rfl, hf⟩
  · refine ⟨rfl, rfl, rfl, hq, ?_⟩
    rw [pending_none_iff]
    exact ⟨by simp [complete_write_unmount_request, World.call, CacheBlockRef.reset],
      hfs rfl, rfl, hf⟩

theorem unmountFlush1Ok_frame (w : World) :
    (unmountFlush1Ok w).queue = w.queue ∧ (unmountFlush1Ok w).files = w.files ∧
    (unmountFlush1Ok w).calls = w.calls ∧ (unmountFlush1Ok w).o.state = w.o.state ∧
    (unmountFlush1Ok w).o.write_mount_state = WriteMountState.UMOUNT_META ∧
    (unmountFlush1Ok w).o.flush_request = false ∧
    (unmountFlush1Ok w).o.block_ref =
      { state := .REQUESTING, block := get_abs_block_index_for_fat_entry w FsStatusEntryIndex } ∧
    (unmountFlush1Ok w).o.fs_info_block_ref = w.o.fs_info_block_ref ∧
    fatEntry1 (unmountFlush1Ok w) = fatEntry1 w :=
  ⟨rfl, rfl, rfl, rfl, rfl, rfl, rfl, rfl, rfl⟩

theorem answer_block_ref_frame (w : World) (e : Bool) :
    (w.answer_block_ref e).queue = w.queue ∧ (w.answer_block_ref e).files = w.files ∧
    (w.answer_block_ref e).calls = w.calls ∧ (w.answer_block_ref e).o.state = w.o.state ∧
    (w.answer_block_ref e).o.write_mount_state = w.o.write_mount_state ∧
    (w.answer_block_ref e).o.flush_request = w.o.flush_request ∧
    (w.answer_block_ref e).o.block_ref = w.o.block_ref.complete e ∧
    (w.answer_block_ref e).o.fs_info_block_ref = w.o.fs_info_block_ref ∧
    fatEntry1 (w.answer_block_ref e) = fatEntry1 w ∧
    get_abs_block_index_for_fat_entry (w.answer_block_ref e) FsStatusEntryIndex =
      get_abs_block_index_for_fat_entry w FsStatusEntryIndex := by
  cases e <;> exact ⟨rfl, rfl, rfl, rfl, rfl, rfl, rfl, rfl, rfl, rfl⟩

/-- The whole write-unmount: `startWriteUnmount`, then the answers to the first
flush (`e1`), to the pin of the FAT block (`e2`) and to the second flush
(`e3`), as far as they are asked for. -/
theorem write_unmount_run (w : World) (n : Nat) (e1 e2 e3 : Bool) (rest : List Bool)
    (hq : w.queue = []) (hp : pending w = none) (hs : w.o.state = FsState.READY) :
    ∃ w2, run (n + 4) (e1 :: e2 :: e3 :: rest) (startWriteUnmount w) = some w2 ∧
      w2.queue = [] ∧ pending w2 = none ∧
      (UnmountConditions w e1 e2 e3 →
        w2.calls = .WriteMountHandler false :: w.calls ∧
        w2.o.write_mount_state = WriteMountState.NOT_MOUNTED) ∧
      (¬ UnmountConditions w e1 e2 e3 →
        w2.calls = .WriteMountHandler true :: w.calls ∧
        w2.o.write_mount_state = WriteMountState.MOUNTED) ∧
      ((e1 = false ∧ e2 = false ∧ (fatEntry1 w).testBit 27 = false) →
        ∀ j, (fatEntry1 w2).testBit j = if j = 27 then true else (fatEntry1 w).testBit j) ∧
      (¬ (e1 = false ∧ e2 = false ∧ (fatEntry1 w).testBit 27 = false) →
        fatEntry1 w2 = fatEntry1 w) := by
  rw [pending_none_iff] at hp
  obtain ⟨hp1, hp2, hp3, hp4⟩ := hp
  have hq1 : (startWriteUnmount w).queue = [] := hq
  have hpend1 : pending (startWriteUnmount w) = some Input.flush_request := by
    unfold pending
    have a1 : (startWriteUnmount w).o.block_ref = w.o.block_ref := rfl
    have a2 : (startWriteUnmount w).o.fs_info_block_ref = w.o.fs_info_block_ref := rfl
    have a3 : (startWriteUnmount w).o.flush_request = true := rfl
    rw [a1, a2, a3, if_neg hp1, if_neg hp2, if_pos rfl]
  have hstep1 : step (startWriteUnmount w) (.flush_request e1) =
      some (flush_request_handler ((startWriteUnmount w).flushDone e1) e1) := rfl
  rw [run_answer (n + 3) e1 _ _ _ Input.flush_request hq1 hpend1 hstep1]
  cases e1
  swap
  · -- the first flush fails
    have hh : flush_request_handler ((startWriteUnmount w).flushDone true) true =
        complete_write_unmount_request ((startWriteUnmount w).flushDone true) true := rfl
    rw [hh]
    obtain ⟨f1, f2, f3, f4, f5⟩ := complete_write_unmount_request_facts
      ((startWriteUnmount w).flushDone true) true hq hp4 (fun _ => hp2)
    refine ⟨_, run_quiescent _ _ _ f4 f5, f4, f5, ?_, ?_, ?_, ?_⟩
    · intro hm; exact absurd hm.1 (by simp)
    · intro _; exact ⟨f1, f2⟩
    · intro hm; exact absurd hm.1 (by simp)
    · intro _; exact f3
  have hh : flush_request_handler ((startWriteUnmount w).flushDone false) false =
      unmountFlush1Ok w := rfl
  rw [hh]
  obtain ⟨g1, g2, g3, g4, g5, g6, g7, g8, g9⟩ := unmountFlush1Ok_frame w
  have hq2 : (unmountFlush1Ok w).queue = [] := g1.trans hq
  have hpend2 : pending (unmountFlush1Ok w) = some Input.block_ref := by
    unfold pending
    rw [g7]
    simp
  obtain ⟨a1, a2, a3, a4, a5, a6, a7, a8, a9, a10⟩ :=
    answer_block_ref_frame (unmountFlush1Ok w) e2
  have hstep2 : step (unmountFlush1Ok w) (.block_ref e2) =
      some (write_unmount_metablock_ref_handler ((unmountFlush1Ok w).answer_block_ref e2) e2) := by
    simp only [step, g7, if_true, block_ref_handler, a4, g4, hs, a5, g5, reduceCtorEq, if_false]
  rw [run_answer (n + 2) e2 _ _ _ Input.block_ref hq2 hpend2 hstep2]
  generalize hY : (unmountFlush1Ok w).answer_block_ref e2 = Y at *
  have hYq : Y.queue = [] := a1.trans hq2
  have hYf : pendingFiles Y.files 0 = none := by rw [a2, g2]; exact hp4
  have hYc : Y.calls = w.calls := a3.trans g3
  have hYi : Y.o.fs_info_block_ref.state ≠ CacheRefState.REQUESTING := by
    rw [a8, g8]; exact hp2
  have hYe : fatEntry1 Y = fatEntry1 w := a9.trans g9
  by_cases hB : e2 = false ∧ (fatEntry1 w).testBit 27 = false
  swap
  · -- the FAT block is refused
    have hfail : write_unmount_metablock_ref_handler Y e2 =
        complete_write_unmount_request Y true := by
      unfold write_unmount_metablock_ref_handler
      cases e2
      · have hb : Y.o.block_ref.block = get_abs_block_index_for_fat_entry Y FsStatusEntryIndex := by
          rw [a7, g7, a10]; rfl
        have hbit : ¬ (fatEntry1 w).testBit 27 = false := fun h => hB ⟨rfl, h⟩
        simp only [Bool.false_eq_true, if_false]
        rw [read_entry1_eq Y _ hb, hYe, if_pos]
        rw [ne_eq, clean_bit_test]
        exact hbit
      · simp
    rw [hfail]
    obtain ⟨f1, f2, f3, f4, f5⟩ :=
      complete_write_unmount_request_facts Y true hYq hYf (fun _ => hYi)
    refine ⟨_, run_quiescent _ _ _ f4 f5, f4, f5, ?_, ?_, ?_, ?_⟩
    · intro hm; exact absurd ⟨hm.2.1, hm.2.2.1⟩ hB
    · intro _; exact ⟨f1.trans (by rw [hYc]), f2⟩
    · intro hm; exact absurd ⟨hm.2.1, hm.2.2⟩ hB
    · intro _; rw [f3]; exact hYe
  obtain ⟨he2, hbit⟩ := hB
  subst he2
  have hb : Y.o.block_ref.block = get_abs_block_index_for_fat_entry Y FsStatusEntryIndex := by
    rw [a7, g7, a10]; rfl
  have hok : write_unmount_metablock_ref_handler Y false = unmountMetaOk w := by
    rw [← hY]; rfl
  have hokeq : write_unmount_metablock_ref_handler Y false =
      unmountMetaWorld (update_fs_clean_bit Y Y.o.block_ref true) := by
    unfold write_unmount_metablock_ref_handler
    simp only [Bool.false_eq_true, if_false]
    rw [read_entry1_eq Y _ hb, hYe,
      if_neg (by rw [ne_eq, not_not, clean_bit_test]; exact hbit)]
    rfl
  rw [hokeq]
  obtain ⟨u1, u2, u3, u4, u5, u6, u7⟩ := update_fs_clean_bit_frame Y Y.o.block_ref true
  have hbits := update_fs_clean_bit_testBit Y Y.o.block_ref true hb
  rw [hYe] at hbits
  generalize hZ : update_fs_clean_bit Y Y.o.block_ref true = Z at *
  have hZi : Z.o.fs_info_block_ref.state ≠ CacheRefState.REQUESTING := by rw [u1]; exact hYi
  have hZb : Z.o.block_ref.state ≠ CacheRefState.REQUESTING := by
    rw [u1, a7, g7]; simp [CacheBlockRef.complete]
  have hq3 : (unmountMetaWorld Z).queue = [] := u4.trans hYq
  have hpend3 : pending (unmountMetaWorld Z)
        = some Input.flush_request := by
    have b1 : (unmountMetaWorld Z).o.block_ref = Z.o.block_ref := rfl
    have b2 : (unmountMetaWorld Z).o.fs_info_block_ref = Z.o.fs_info_block_ref := rfl
    have b3 : (unmountMetaWorld Z).o.flush_request = true := rfl
    unfold pending
    rw [b1, b2, b3, if_neg hZb, if_neg hZi, if_pos rfl]
  have hstep3 : step (unmountMetaWorld Z)
        (.flush_request e3) =
      some (complete_write_unmount_request ((unmountMetaWorld Z).flushDone e3) e3) := by
    cases e3 <;> rfl
  rw [run_answer (n + 1) e3 _ _ _ Input.flush_request hq3 hpend3 hstep3]
  obtain ⟨f1, f2, f3, f4, f5⟩ := complete_write_unmount_request_facts
    ((unmountMetaWorld Z).flushDone e3) e3
    (by cases e3 <;> exact hq3) (by cases e3 <;> (show pendingFiles Z.files 0 = none) <;>
      (rw [u3]; exact hYf))
    (fun _ => by cases e3 <;> exact hZi)
  have hfin : fatEntry1 ((unmountMetaWorld Z).flushDone e3) = fatEntry1 Z := by
    cases e3 <;> rfl
  have hcalls : ((unmountMetaWorld Z).flushDone e3).calls = w.calls := by
    have : ((unmountMetaWorld Z).flushDone e3).calls = Z.calls := by cases e3 <;> rfl
    rw [this, u5, hYc]
  refine ⟨_, run_quiescent _ _ _ f4 f5, f4, f5, ?_, ?_, ?_, ?_⟩
  · intro hm
    have he3 : e3 = false := hm.2.2.2
    subst he3
    exact ⟨f1.trans (by rw [hcalls]), f2⟩
  · intro hm
    have he3 : e3 = true := by
      cases e3
      · exact absurd ⟨rfl, rfl, hbit, rfl⟩ hm
      · rfl
    subst he3
    exact ⟨f1.trans (by rw [hcalls]), f2⟩
  · intro _ j
    rw [f3, hfin]
    exact hbits j
  · intro hm
    exact absurd ⟨rfl, rfl, hbit⟩ hm

end FatFs

namespace FatFs

/-- C1 (defect of the code): on a boot block that passes every earlier check but
has `sectors_per_cluster = 0`, the specification expects `init` to end in
`FAILED` (its conditions do not hold), whereas the handler reaches the
division `(length - fat_end_blocks) / blocks_per_cluster` with a zero divisor:
the transition has no defined result. -/
theorem init_zero_sectors_per_cluster :
    ¬ InitConditions 512 (bootBlock 512 0 32 2 0 1 2 1 0x29) 100 ∧
    (initWorld (bootBlock 512 0 32 2 0 1 2 1 0x29) 100).o.state = FsState.INIT ∧
    step (initWorld (bootBlock 512 0 32 2 0 1 2 1 0x29) 100) (.block_ref false) = none := by
  refine ⟨by decide, rfl, rfl⟩

/-- Witness of `fat_entry_read_update` on the sample volume: entry 3 of the FAT
block, updated to 5. -/
theorem fat_entry_read_update_witness :
    (3 < sampleReady.o.num_fat_entries ∧ 5 < 2 ^ 28) ∧
    read_fat_entry_in_cache_block
      (update_fat_entry_in_cache_block sampleReady { state := .READY, block := 32 } 3 5)
      { state := .READY, block := 32 } 3 = 5 :=
  ⟨⟨by decide, by decide⟩,
    (fat_entry_read_update sampleReady { state := .READY, block := 32 } 3 5
      (by decide) (by decide)).2.2.2.2.1⟩

end FatFs

namespace FatFs

theorem quiescent_iff (w : World) : quiescent w ↔ w.queue = [] ∧ pending w = none := by
  unfold quiescent
  rw [Option.isNone_iff_eq_none]

/-- C2: a write-mount started in `NOT_MOUNTED` calls `WriteMountHandler` with
`error = false` and ends in `MOUNTED` exactly when, in the order of the
protocol, the FAT block with entry #1 is pinned without error, bit 27 of that
entry is set, the device is writable, `fs_info_block` is not 0, the FS
information sector is pinned without error, its three signatures are the
expected ones and the flush succeeds; in every other case the handler is
called with `error = true` and the state is `NOT_MOUNTED` again. -/
theorem startWriteMount_succeeds_iff (w : World) (fuel : Nat) (e1 e2 e3 : Bool)
    (rest : List Bool) (hq : quiescent w) (hs : w.o.state = FsState.READY)
    (hm : w.o.write_mount_state = WriteMountState.NOT_MOUNTED) (hfuel : 4 ≤ fuel) :
    ∃ w2, (step w .startWriteMount).bind (run fuel (e1 :: e2 :: e3 :: rest)) = some w2 ∧
      ((w2.calls = .WriteMountHandler false :: w.calls ∧
          w2.o.write_mount_state = WriteMountState.MOUNTED) ↔ MountConditions w e1 e2 e3) ∧
      (¬ MountConditions w e1 e2 e3 →
        w2.calls = .WriteMountHandler true :: w.calls ∧
          w2.o.write_mount_state = WriteMountState.NOT_MOUNTED) := by
  obtain ⟨n, rfl⟩ : ∃ n, fuel = n + 4 := ⟨fuel - 4, by omega⟩
  rw [quiescent_iff] at hq
  obtain ⟨w2, hrun, _, _, hok, hfail⟩ := write_mount_run w n e1 e2 e3 rest hq.1 hq.2 hs
  have hstep : step w .startWriteMount = some (startWriteMount w) := by
    simp [step, hs, hm]
  refine ⟨w2, by rw [hstep]; exact hrun, ⟨?_, fun h => ⟨(hok h).1, (hok h).2.1⟩⟩,
    fun h => ⟨(hfail h).1, (hfail h).2.1⟩⟩
  intro h
  by_contra hn
  have := (hfail hn).1
  rw [h.1] at this
  simp at this

/-- Witness of `startWriteMount_succeeds_iff`: the sample volume is mounted for
writing when every request succeeds. -/
theorem startWriteMount_succeeds_iff_witness :
    (quiescent sampleReady ∧ sampleReady.o.state = FsState.READY ∧
      sampleReady.o.write_mount_state = WriteMountState.NOT_MOUNTED ∧ 4 ≤ 4) ∧
    MountConditions sampleReady false false false ∧
    ∃ w2, (step sampleReady .startWriteMount).bind (run 4 [false, false, false]) = some w2 ∧
      ((w2.calls = .WriteMountHandler false :: sampleReady.calls ∧
          w2.o.write_mount_state = WriteMountState.MOUNTED) ↔
        MountConditions sampleReady false false false) ∧
      (¬ MountConditions sampleReady false false false →
        w2.calls = .WriteMountHandler true :: sampleReady.calls ∧
          w2.o.write_mount_state = WriteMountState.NOT_MOUNTED) :=
  ⟨⟨by decide, by decide, by decide, by decide⟩, by decide,
    startWriteMount_succeeds_iff sampleReady 4 false false false [] (by decide) (by decide)
      (by decide) (by decide)⟩

/-- C3: clean-bit discipline.  For every raw value of FAT entry #1: after a
write-mount that completes without error the cached entry has bit 27 equal
to 0, after a write-unmount that completes without error it has bit 27 equal
to 1, and in both cases each of the other bits is the one before the
operation; `update_fs_clean_bit` itself gives bit 27 the requested value and
keeps every other bit. -/
theorem clean_bit_discipline (w : World) (fuel : Nat) (e1 e2 e3 : Bool) (rest : List Bool)
    (hq : quiescent w) (hs : w.o.state = FsState.READY) (hfuel : 4 ≤ fuel) :
    (w.o.write_mount_state = WriteMountState.NOT_MOUNTED →
      ∃ w2, (step w .startWriteMount).bind (run fuel (e1 :: e2 :: e3 :: rest)) = some w2 ∧
        (w2.calls = .WriteMountHandler false :: w.calls →
          (fatEntry1 w2).testBit 27 = false ∧
          ∀ j, j ≠ 27 → (fatEntry1 w2).testBit j = (fatEntry1 w).testBit j)) ∧
    (w.o.write_mount_state = WriteMountState.MOUNTED → w.o.num_write_references = 0 →
      ∃ w2, (step w .startWriteUnmount).bind (run fuel (e1 :: e2 :: e3 :: rest)) = some w2 ∧
        (w2.calls = .WriteMountHandler false :: w.calls →
          (fatEntry1 w2).testBit 27 = true ∧
          ∀ j, j ≠ 27 → (fatEntry1 w2).testBit j = (fatEntry1 w).testBit j)) ∧
    (∀ (block_ref : CacheBlockRef) (set_else_clear : Bool),
      block_ref.block = get_abs_block_index_for_fat_entry w FsStatusEntryIndex →
        (fatEntry1 (update_fs_clean_bit w block_ref set_else_clear)).testBit 27
          = set_else_clear ∧
        ∀ j, j ≠ 27 →
          (fatEntry1 (update_fs_clean_bit w block_ref set_else_clear)).testBit j
            = (fatEntry1 w).testBit j) := by
  obtain ⟨n, rfl⟩ : ∃ n, fuel = n + 4 := ⟨fuel - 4, by omega⟩
  rw [quiescent_iff] at hq
  refine ⟨?_, ?_, ?_⟩
  · intro hm
    obtain ⟨w2, hrun, _, _, hok, hfail⟩ := write_mount_run w n e1 e2 e3 rest hq.1 hq.2 hs
    have hstep : step w .startWriteMount = some (startWriteMount w) := by
      simp [step, hs, hm]
    refine ⟨w2, by rw [hstep]; exact hrun, ?_⟩
    intro hc
    by_cases hmc : MountConditions w e1 e2 e3
    · have hb := (hok hmc).2.2
      refine ⟨by simpa using hb 27, fun j hj => ?_⟩
      rw [hb j, if_neg hj]
    · have := (hfail hmc).1
      rw [hc] at this
      simp at this
  · intro hm hn
    obtain ⟨w2, hrun, _, _, hok, hfail, hbits, _⟩ :=
      write_unmount_run w n e1 e2 e3 rest hq.1 hq.2 hs
    have hstep : step w .startWriteUnmount = some (startWriteUnmount w) := by
      simp [step, hs, hm, hn]
    refine ⟨w2, by rw [hstep]; exact hrun, ?_⟩
    intro hc
    by_cases hmc : UnmountConditions w e1 e2 e3
    · have hb := hbits ⟨hmc.1, hmc.2.1, hmc.2.2.1⟩
      refine ⟨by simpa using hb 27, fun j hj => ?_⟩
      rw [hb j, if_neg hj]
    · have := (hfail hmc).1
      rw [hc] at this
      simp at this
  · intro block_ref b hr
    have hb := update_fs_clean_bit_testBit w block_ref b hr
    refine ⟨by simpa using hb 27, fun j hj => ?_⟩
    rw [hb j, if_neg hj]

/-- Witness of `clean_bit_discipline`: on the sample volume the entry
`0xFFFFFFFF` becomes `0xF7FFFFFF` by the write-mount. -/
theorem clean_bit_discipline_witness :
    (quiescent sampleReady ∧ sampleReady.o.state = FsState.READY ∧ 4 ≤ 4) ∧
    fatEntry1 sampleReady = 0xFFFFFFFF ∧ fatEntry1 sampleMounted = 0xF7FFFFFF ∧
    (sampleReady.o.write_mount_state = WriteMountState.NOT_MOUNTED →
      ∃ w2, (step sampleReady .startWriteMount).bind (run 4 [false, false, false]) = some w2 ∧
        (w2.calls = .WriteMountHandler false :: sampleReady.calls →
          (fatEntry1 w2).testBit 27 = false ∧
          ∀ j, j ≠ 27 → (fatEntry1 w2).testBit j = (fatEntry1 sampleReady).testBit j)) :=
  ⟨⟨by decide, by decide, by decide⟩, by decide, by decide,
    (clean_bit_discipline sampleReady 4 false false false [] (by decide) (by decide)
      (by decide)).1⟩

/-- C4: a write-unmount started in `MOUNTED` with no write reference calls
`WriteMountHandler` with `error = false` and ends in `NOT_MOUNTED` exactly
when the first flush succeeds, the FAT block with entry #1 is then pinned
without error, the clean bit of the entry is found clear and the second flush
succeeds; in every other case the handler is called with `error = true` and
the state is `MOUNTED` again. -/
theorem startWriteUnmount_succeeds_iff (w : World) (fuel : Nat) (e1 e2 e3 : Bool)
    (rest : List Bool) (hq : quiescent w) (hs : w.o.state = FsState.READY)
    (hm : w.o.write_mount_state = WriteMountState.MOUNTED)
    (hn : w.o.num_write_references = 0) (hfuel : 4 ≤ fuel) :
    ∃ w2, (step w .startWriteUnmount).bind (run fuel (e1 :: e2 :: e3 :: rest)) = some w2 ∧
      ((w2.calls = .WriteMountHandler false :: w.calls ∧
          w2.o.write_mount_state = WriteMountState.NOT_MOUNTED) ↔
        UnmountConditions w e1 e2 e3) ∧
      (UnmountConditions w e1 e2 e3 → (fatEntry1 w2).testBit 27 = true) ∧
      (¬ UnmountConditions w e1 e2 e3 →
        w2.calls = .WriteMountHandler true :: w.calls ∧
          w2.o.write_mount_state = WriteMountState.MOUNTED) := by
  obtain ⟨n, rfl⟩ : ∃ n, fuel = n + 4 := ⟨fuel - 4, by omega⟩
  rw [quiescent_iff] at hq
  obtain ⟨w2, hrun, _, _, hok, hfail, hbits, _⟩ :=
    write_unmount_run w n e1 e2 e3 rest hq.1 hq.2 hs
  have hstep : step w .startWriteUnmount = some (startWriteUnmount w) := by
    simp [step, hs, hm, hn]
  refine ⟨w2, by rw [hstep]; exact hrun, ⟨?_, hok⟩, ?_, hfail⟩
  · intro h
    by_contra hmc
    have := (hfail hmc).1
    rw [h.1] at this
    simp at this
  · intro hmc
    simpa using hbits ⟨hmc.1, hmc.2.1, hmc.2.2.1⟩ 27

/-- Witness of `startWriteUnmount_succeeds_iff`: the mounted sample volume is
unmounted when every request succeeds. -/
theorem startWriteUnmount_succeeds_iff_witness :
    (quiescent sampleMounted ∧ sampleMounted.o.state = FsState.READY ∧
      sampleMounted.o.write_mount_state = WriteMountState.MOUNTED ∧
      sampleMounted.o.num_write_references = 0 ∧ 4 ≤ 4) ∧
    UnmountConditions sampleMounted false false false ∧
    ∃ w2, (step sampleMounted .startWriteUnmount).bind (run 4 [false, false, false])
        = some w2 ∧
      ((w2.calls = .WriteMountHandler false :: sampleMounted.calls ∧
          w2.o.write_mount_state = WriteMountState.NOT_MOUNTED) ↔
        UnmountConditions sampleMounted false false false) ∧
      (UnmountConditions sampleMounted false false false →
        (fatEntry1 w2).testBit 27 = true) ∧
      (¬ UnmountConditions sampleMounted false false false →
        w2.calls = .WriteMountHandler true :: sampleMounted.calls ∧
          w2.o.write_mount_state = WriteMountState.MOUNTED) :=
  ⟨⟨by decide, by decide, by decide, by decide, by decide⟩, by decide,
    startWriteUnmount_succeeds_iff sampleMounted 4 false false false [] (by decide)
      (by decide) (by decide) (by decide) (by decide)⟩

/-- C5: when the flush issued in `MOUNT_FLUSH` fails (the FAT block and the FS
information sector having been accepted before), `WriteMountHandler` is called
with `error = true`, the state is `NOT_MOUNTED`, and the cached FAT entry #1
has its clean bit set again: its raw value is the one it had before
`startWriteMount` was called. -/
theorem mount_flush_failure_restores_clean_bit (w : World) (fuel : Nat) (rest : List Bool)
    (hq : quiescent w) (hs : w.o.state = FsState.READY)
    (hm : w.o.write_mount_state = WriteMountState.NOT_MOUNTED) (hfuel : 4 ≤ fuel)
    (hcond : MountConditions w false false false) :
    ∃ w2, (step w .startWriteMount).bind (run fuel (false :: false :: true :: rest))
        = some w2 ∧
      w2.calls = .WriteMountHandler true :: w.calls ∧
      w2.o.write_mount_state = WriteMountState.NOT_MOUNTED ∧
      (fatEntry1 w2).testBit 27 = true ∧ fatEntry1 w2 = fatEntry1 w := by
  obtain ⟨n, rfl⟩ : ∃ n, fuel = n + 4 := ⟨fuel - 4, by omega⟩
  rw [quiescent_iff] at hq
  obtain ⟨w2, hrun, _, _, _, hfail⟩ := write_mount_run w n false false true rest hq.1 hq.2 hs
  have hstep : step w .startWriteMount = some (startWriteMount w) := by
    simp [step, hs, hm]
  have hno : ¬ MountConditions w false false true := fun h => by
    have := h.2.2.2.2.2.2
    simp at this
  obtain ⟨f1, f2, f3⟩ := hfail hno
  refine ⟨w2, by rw [hstep]; exact hrun, f1, f2, ?_, f3⟩
  rw [f3]
  exact hcond.2.1

/-- Witness of `mount_flush_failure_restores_clean_bit` on the sample volume. -/
theorem mount_flush_failure_restores_clean_bit_witness :
    (quiescent sampleReady ∧ sampleReady.o.state = FsState.READY ∧
      sampleReady.o.write_mount_state = WriteMountState.NOT_MOUNTED ∧ 4 ≤ 4 ∧
      MountConditions sampleReady false false false) ∧
    ∃ w2, (step sampleReady .startWriteMount).bind (run 4 [false, false, true]) = some w2 ∧
      w2.calls = .WriteMountHandler true :: sampleReady.calls ∧
      w2.o.write_mount_state = WriteMountState.NOT_MOUNTED ∧
      (fatEntry1 w2).testBit 27 = true ∧ fatEntry1 w2 = fatEntry1 sampleReady :=
  ⟨⟨by decide, by decide, by decide, by decide, by decide⟩,
    mount_flush_failure_restores_clean_bit sampleReady 4 [] (by decide) (by decide)
      (by decide) (by decide) (by decide)⟩

end FatFs

namespace FatFs

/-! ## Counting the taken references -/

theorem takenCount_le (fs : List File) : takenCount fs ≤ fs.length :=
  List.countP_le_length _

theorem takenCount_append_untaken (fs : List File) (f : File)
    (hf : f.m_write_ref.m_taken = false) : takenCount (fs ++ [f]) = takenCount fs := by
  simp [takenCount, List.countP_append, hf]

theorem takenCount_set (fs : List File) (i : Nat) (f : File) (hi : i < fs.length) :
    takenCount (fs.set i f) + (if (fs.getD i default).m_write_ref.m_taken then 1 else 0) =
      takenCount fs + (if f.m_write_ref.m_taken then 1 else 0) := by
  induction fs generalizing i with
  | nil => simp at hi
  | cons g gs ih =>
    cases i with
    | zero =>
      simp only [List.set_cons_zero, takenCount, List.countP_cons, List.getD_cons_zero]
      omega
    | succ k =>
      have hk : k < gs.length := by simpa using hi
      have := ih k hk
      simp only [List.set_cons_succ, takenCount, List.countP_cons, List.getD_cons_succ] at this ⊢
      omega

theorem takenCount_set_same (fs : List File) (i : Nat) (f : File)
    (hf : f.m_write_ref.m_taken = (fs.getD i default).m_write_ref.m_taken) :
    takenCount (fs.set i f) = takenCount fs := by
  by_cases hi : i < fs.length
  · have := takenCount_set fs i f hi
    rw [hf] at this
    omega
  · rw [List.set_eq_of_length_le (by omega)]

/-! ## The invariant of the write-mount state -/

theorem SameRefs.refl (w : World) : SameRefs w w := ⟨rfl, rfl, rfl, rfl, rfl⟩

theorem SameRefs.trans {a b c : World} (h1 : SameRefs a b) (h2 : SameRefs b c) :
    SameRefs a c :=
  ⟨h2.1.trans h1.1, h2.2.1.trans h1.2.1, h2.2.2.1.trans h1.2.2.1,
    h2.2.2.2.1.trans h1.2.2.2.1, h2.2.2.2.2.trans h1.2.2.2.2⟩

theorem SameRefs_answer_block_ref (w : World) (e : Bool) : SameRefs w (w.answer_block_ref e) := by
  cases e <;> exact ⟨rfl, rfl, rfl, rfl, rfl⟩

theorem SameRefs_answer_fs_info_block_ref (w : World) (e : Bool) :
    SameRefs w (w.answer_fs_info_block_ref e) := by
  cases e <;> exact ⟨rfl, rfl, rfl, rfl, rfl⟩

theorem SameRefs_flushDone (w : World) (e : Bool) : SameRefs w (w.flushDone e) := by
  cases e <;> exact ⟨rfl, rfl, rfl, rfl, rfl⟩

theorem SameRefs_update_fs_clean_bit (w : World) (r : CacheBlockRef) (b : Bool) :
    SameRefs w (update_fs_clean_bit w r b) := ⟨rfl, rfl, rfl, rfl, rfl⟩

theorem SameRefs_complete_write_mount_request (w : World) (e : Bool) :
    SameRefs w (complete_write_mount_request w e) := by
  cases e <;> exact ⟨rfl, rfl, rfl, rfl, rfl⟩

theorem SameRefs_complete_write_unmount_request (w : World) (e : Bool) :
    SameRefs w (complete_write_unmount_request w e) := by
  cases e <;> exact ⟨rfl, rfl, rfl, rfl, rfl⟩

/-- The write-mount state and the state of the FS information reference after
`complete_write_mount_request`. -/
theorem complete_write_mount_request_state (w : World) (e : Bool) :
    ((complete_write_mount_request w e).o.write_mount_state =
        WriteMountState.NOT_MOUNTED ∧
      (complete_write_mount_request w e).o.fs_info_block_ref.state = CacheRefState.INVALID) ∨
    ((complete_write_mount_request w e).o.write_mount_state = WriteMountState.MOUNTED ∧
      (complete_write_mount_request w e).o.fs_info_block_ref = w.o.fs_info_block_ref) := by
  cases e
  · exact Or.inr ⟨rfl, rfl⟩
  · exact Or.inl ⟨rfl, rfl⟩

theorem complete_write_unmount_request_state (w : World) (e : Bool) :
    ((complete_write_unmount_request w e).o.write_mount_state =
        WriteMountState.NOT_MOUNTED ∧
      (complete_write_unmount_request w e).o.fs_info_block_ref.state
        = CacheRefState.INVALID) ∨
    ((complete_write_unmount_request w e).o.write_mount_state = WriteMountState.MOUNTED ∧
      (complete_write_unmount_request w e).o.fs_info_block_ref = w.o.fs_info_block_ref) := by
  cases e
  · exact Or.inl ⟨rfl, rfl⟩
  · exact Or.inr ⟨rfl, rfl⟩

/-- A world that counts as `w` does, has no reference taken, and whose FS
information reference is only pending in `MOUNT_FSINFO`, satisfies the
invariant. -/
theorem MountInv_of_SameRefs {w w2 : World} (h : MountInv w) (hs : SameRefs w w2)
    (hc : w2.o.write_mount_state ≠ WriteMountState.MOUNTED → takenCount w.files = 0)
    (hf : w2.o.fs_info_block_ref.state = CacheRefState.REQUESTING →
      w2.o.write_mount_state = WriteMountState.MOUNT_FSINFO) : MountInv w2 := by
  obtain ⟨h1, h2, h3, h4, h5, h6⟩ := h
  obtain ⟨s1, s2, s3, s4, s5⟩ := hs
  refine ⟨s3.trans h1, s4.trans h2, ?_, ?_, ?_, hf⟩
  · rw [s5, s1]; exact h3
  · rw [s1, s2]; exact h4
  · rw [s1]; exact hc

theorem write_mount_metablock_ref_handler_refs (w : World) (e : Bool) :
    SameRefs w (write_mount_metablock_ref_handler w e) ∧
    (write_mount_metablock_ref_handler w e).o.write_mount_state ≠ WriteMountState.MOUNTED ∧
    ((write_mount_metablock_ref_handler w e).o.fs_info_block_ref.state
        = CacheRefState.REQUESTING →
      (write_mount_metablock_ref_handler w e).o.write_mount_state
        = WriteMountState.MOUNT_FSINFO) := by
  unfold write_mount_metablock_ref_handler
  simp only
  split_ifs
  all_goals exact ⟨⟨rfl, rfl, rfl, rfl, rfl⟩,
    by simp [complete_write_mount_request, World.call],
    by simp [complete_write_mount_request, World.call, CacheBlockRef.reset]⟩

theorem write_unmount_metablock_ref_handler_refs (w : World) (e : Bool) :
    SameRefs w (write_unmount_metablock_ref_handler w e) ∧
    (write_unmount_metablock_ref_handler w e).o.fs_info_block_ref = w.o.fs_info_block_ref ∧
    ((write_unmount_metablock_ref_handler w e).o.write_mount_state = WriteMountState.MOUNTED ∨
      (write_unmount_metablock_ref_handler w e).o.write_mount_state
        = WriteMountState.UMOUNT_FLUSH2) := by
  unfold write_unmount_metablock_ref_handler
  simp only
  split_ifs
  all_goals first
    | exact ⟨SameRefs_complete_write_unmount_request w true, rfl, Or.inl rfl⟩
    | exact ⟨⟨rfl, rfl, rfl, rfl, rfl⟩, rfl, Or.inr rfl⟩

theorem fs_info_block_ref_handler_refs (w : World) (e : Bool) :
    SameRefs w (fs_info_block_ref_handler w e) ∧
    (fs_info_block_ref_handler w e).o.write_mount_state ≠ WriteMountState.MOUNTED ∧
    ((fs_info_block_ref_handler w e).o.fs_info_block_ref.state = CacheRefState.INVALID ∨
      (fs_info_block_ref_handler w e).o.fs_info_block_ref = w.o.fs_info_block_ref) := by
  unfold fs_info_block_ref_handler
  simp only
  split_ifs
  all_goals first
    | exact ⟨SameRefs_complete_write_mount_request w true, by
        simp [complete_write_mount_request, World.call], Or.inl rfl⟩
    | exact ⟨⟨rfl, rfl, rfl, rfl, rfl⟩, by simp, Or.inr rfl⟩

theorem flush_request_handler_refs (w : World) (e : Bool) :
    SameRefs w (flush_request_handler w e) ∧
    (((flush_request_handler w e).o.write_mount_state = w.o.write_mount_state ∧
        (flush_request_handler w e).o.fs_info_block_ref = w.o.fs_info_block_ref) ∨
      (w.o.write_mount_state ≠ WriteMountState.MOUNTED ∧
        w.o.write_mount_state ≠ WriteMountState.MOUNT_FSINFO ∧
        ((flush_request_handler w e).o.fs_info_block_ref.state = CacheRefState.INVALID ∨
          (flush_request_handler w e).o.fs_info_block_ref = w.o.fs_info_block_ref))) := by
  unfold flush_request_handler
  split
  · rename_i hw
    cases e
    · exact ⟨SameRefs_complete_write_mount_request w false,
        Or.inr ⟨by simp [hw], by simp [hw], Or.inr rfl⟩⟩
    · exact ⟨(SameRefs_update_fs_clean_bit w _ true).trans
          (SameRefs_complete_write_mount_request _ true),
        Or.inr ⟨by simp [hw], by simp [hw], Or.inl rfl⟩⟩
  · rename_i hw
    cases e
    · exact ⟨⟨rfl, rfl, rfl, rfl, rfl⟩, Or.inr ⟨by simp [hw], by simp [hw], Or.inr rfl⟩⟩
    · exact ⟨SameRefs_complete_write_unmount_request w true,
        Or.inr ⟨by simp [hw], by simp [hw], Or.inr rfl⟩⟩
  · rename_i hw
    cases e
    · exact ⟨SameRefs_complete_write_unmount_request w false,
        Or.inr ⟨by simp [hw], by simp [hw], Or.inl rfl⟩⟩
    · exact ⟨SameRefs_complete_write_unmount_request w true,
        Or.inr ⟨by simp [hw], by simp [hw], Or.inr rfl⟩⟩
  · exact ⟨SameRefs.refl w, Or.inl ⟨rfl, rfl⟩⟩

theorem ite_elim {α : Type} (P : α → Prop) (c : Prop) [Decidable c] (a b : α)
    (ha : c → P a) (hb : ¬ c → P b) : P (if c then a else b) := by
  split
  · exact ha ‹_›
  · exact hb ‹_›

theorem init_block_ref_handler_ready (w w2 : World) :
    init_block_ref_handler w false = some w2 → w2.o.state = FsState.READY →
    w2.files = w.files ∧ w2.SizeBits = w.SizeBits ∧
    w2.o.alloc_state = AllocationState.IDLE ∧ w2.o.num_write_references = 0 ∧
    w2.o.write_mount_state = WriteMountState.NOT_MOUNTED ∧
    w2.o.fs_info_block_ref = w.o.fs_info_block_ref := by
  have hx : ∀ (w1 : World) (code : Nat), code ≠ 0 →
      some (init_block_ref_handler_exit w1 code) = some w2 → w2.o.state = FsState.READY →
      w2.files = w.files ∧ w2.SizeBits = w.SizeBits ∧
      w2.o.alloc_state = AllocationState.IDLE ∧ w2.o.num_write_references = 0 ∧
      w2.o.write_mount_state = WriteMountState.NOT_MOUNTED ∧
      w2.o.fs_info_block_ref = w.o.fs_info_block_ref := by
    intro w1 code hcode h hr
    simp only [Option.some.injEq] at h
    subst h
    rw [init_block_ref_handler_exit_state, if_pos hcode] at hr
    exact absurd hr (by simp)
  have hn : (none : Option World) = some w2 → w2.o.state = FsState.READY →
      w2.files = w.files ∧ w2.SizeBits = w.SizeBits ∧
      w2.o.alloc_state = AllocationState.IDLE ∧ w2.o.num_write_references = 0 ∧
      w2.o.write_mount_state = WriteMountState.NOT_MOUNTED ∧
      w2.o.fs_info_block_ref = w.o.fs_info_block_ref := fun h => absurd h (by simp)
  unfold init_block_ref_handler
  rw [if_neg (by decide : ¬ (false = true))]
  intro h
  refine ite_elim (fun r => r = some w2 → _) _ _ _ (fun _ => hx _ 22 (by decide)) (fun _ => ?_) h
  refine ite_elim (fun r => r = some w2 → _) _ _ _ (fun _ => hn) (fun _ => ?_)
  refine ite_elim (fun r => r = some w2 → _) _ _ _ (fun _ => hx _ 23 (by decide)) (fun _ => ?_)
  refine ite_elim (fun r => r = some w2 → _) _ _ _ (fun _ => hx _ 24 (by decide)) (fun _ => ?_)
  refine ite_elim (fun r => r = some w2 → _) _ _ _ (fun _ => hx _ 25 (by decide)) (fun _ => ?_)
  refine ite_elim (fun r => r = some w2 → _) _ _ _ (fun _ => hx _ 26 (by decide)) (fun _ => ?_)
  refine ite_elim (fun r => r = some w2 → _) _ _ _ (fun _ => hx _ 27 (by decide)) (fun _ => ?_)
  refine ite_elim (fun r => r = some w2 → _) _ _ _ (fun _ => hx _ 28 (by decide)) (fun _ => ?_)
  refine ite_elim (fun r => r = some w2 → _) _ _ _ (fun _ => hx _ 29 (by decide)) (fun _ => ?_)
  refine ite_elim (fun r => r = some w2 → _) _ _ _ (fun _ => hn) (fun _ => ?_)
  refine ite_elim (fun r => r = some w2 → _) _ _ _ (fun _ => hx _ 29 (by decide)) (fun _ => ?_)
  refine ite_elim (fun r => r = some w2 → _) _ _ _ (fun _ => hx _ 29 (by decide)) (fun _ => ?_)
  refine ite_elim (fun r => r = some w2 → _) _ _ _ (fun _ => hx _ 31 (by decide)) (fun _ => ?_)
  refine ite_elim (fun r => r = some w2 → _) _ _ _ (fun _ => hn) (fun _ => ?_)
  refine ite_elim (fun r => r = some w2 → _) _ _ _ (fun _ => hx _ 30 (by decide)) (fun _ => ?_)
  intro h hr
  simp only [Option.some.injEq] at h
  subst h
  exact ⟨rfl, rfl, rfl, rfl, rfl, rfl⟩

theorem MountInv_init (w0 w : World) (block_range : BlockRange)
    (h : step (init w0 block_range) (.block_ref false) = some w)
    (hr : w.o.state = FsState.READY) : MountInv w := by
  have h1 : step (init w0 block_range) (.block_ref false) =
      init_block_ref_handler ((init w0 block_range).answer_block_ref false) false := rfl
  rw [h1] at h
  obtain ⟨f1, f2, f3, f4, f5, f6⟩ := init_block_ref_handler_ready _ _ h hr
  refine ⟨hr, f3, ?_, ?_, ?_, ?_⟩
  · rw [f4, f1]; rfl
  · rw [f1]
    exact Nat.pos_pow_of_pos _ (by norm_num)
  · intro _
    rw [f1]; rfl
  · intro hq
    rw [f6] at hq
    exact absurd hq (by simp [init, World.answer_block_ref, World.blockLoaded])


theorem set_append_singleton {α : Type} (fs : List α) (a g : α) :
    (fs ++ [a]).set fs.length g = fs ++ [g] := by
  induction fs with
  | nil => rfl
  | cons x xs ih => simp [ih]

theorem getD_append_length (fs : List File) (a : File) :
    (fs ++ [a]).getD fs.length default = a := by
  induction fs with
  | nil => rfl
  | cons x xs ih => simp [ih]

theorem File_init_files (w : World) (file_entry : FsEntry) :
    (File.init w file_entry).o = w.o ∧ (File.init w file_entry).SizeBits = w.SizeBits ∧
    ∃ f : File, f.m_write_ref.m_taken = false ∧
      (File.init w file_entry).files = w.files ++ [f] := by
  refine ⟨rfl, rfl, ?_⟩
  simp only [File.init, ClusterChain.init, ClusterChain.rewind_internal, World.setChain,
    World.setFile, World.file, World.chain, set_append_singleton, getD_append_length]
  exact ⟨_, rfl, rfl⟩

theorem takenCount_set_take (fs : List File) (i : Nat) (f : File) (hi : i < fs.length)
    (h1 : (fs.getD i default).m_write_ref.m_taken = false)
    (h2 : f.m_write_ref.m_taken = true) : takenCount (fs.set i f) = takenCount fs + 1 := by
  have := takenCount_set fs i f hi
  rw [h1, h2] at this
  simpa using this

theorem takenCount_set_release (fs : List File) (i : Nat) (f : File) (hi : i < fs.length)
    (h1 : (fs.getD i default).m_write_ref.m_taken = true)
    (h2 : f.m_write_ref.m_taken = false) : takenCount (fs.set i f) + 1 = takenCount fs := by
  have := takenCount_set fs i f hi
  rw [h1, h2] at this
  simpa using this

theorem MountInv_take (w : World) (i : Nat) (hi : i < w.files.length) (h : MountInv w) :
    MountInv (WriteReference.take w i).1 := by
  obtain ⟨h1, h2, h3, h4, h5, h6⟩ := h
  unfold WriteReference.take
  by_cases ht : (w.file i).m_write_ref.m_taken = false
  · rw [if_pos ht]
    by_cases hm : w.o.write_mount_state ≠ WriteMountState.MOUNTED
    · rw [if_pos hm]
      exact ⟨h1, h2, h3, h4, h5, h6⟩
    · rw [if_neg hm]
      have hc := takenCount_set_take w.files i
        { w.file i with m_write_ref.m_taken := true } hi ht rfl
      have hle := takenCount_le (w.files.set i { w.file i with m_write_ref.m_taken := true })
      rw [List.length_set] at hle
      refine ⟨h1, h2, ?_, ?_, ?_, ?_⟩
      · show (w.o.num_write_references + 1) % 2 ^ w.SizeBits =
          takenCount (w.files.set i { w.file i with m_write_ref.m_taken := true })
        rw [Nat.mod_eq_of_lt (by omega)]
        omega
      · show (w.files.set i _).length < 2 ^ w.SizeBits
        rw [List.length_set]
        exact h4
      · intro hn
        exact absurd (show w.o.write_mount_state ≠ WriteMountState.MOUNTED from hn) hm
      · exact h6
  · rw [if_neg ht]
    exact ⟨h1, h2, h3, h4, h5, h6⟩

theorem MountInv_release (w : World) (i : Nat) (hi : i < w.files.length) (h : MountInv w) :
    MountInv (WriteReference.release w i) := by
  obtain ⟨h1, h2, h3, h4, h5, h6⟩ := h
  unfold WriteReference.release
  by_cases ht : (w.file i).m_write_ref.m_taken = true
  · rw [if_pos ht]
    have hc := takenCount_set_release w.files i
      { w.file i with m_write_ref.m_taken := false } hi ht rfl
    have hle := takenCount_le w.files
    have hpos : 0 < 2 ^ w.SizeBits := Nat.pos_pow_of_pos _ (by norm_num)
    refine ⟨h1, h2, ?_, ?_, ?_, h6⟩
    · show (w.o.num_write_references + 2 ^ w.SizeBits - 1) % 2 ^ w.SizeBits =
        takenCount (w.files.set i { w.file i with m_write_ref.m_taken := false })
      have e : w.o.num_write_references + 2 ^ w.SizeBits - 1 =
          takenCount (w.files.set i { w.file i with m_write_ref.m_taken := false }) +
            2 ^ w.SizeBits := by omega
      rw [e, Nat.add_mod_right, Nat.mod_eq_of_lt (by omega)]
    · show (w.files.set i _).length < 2 ^ w.SizeBits
      rw [List.length_set]
      exact h4
    · intro hn
      have := h5 hn
      omega
  · rw [if_neg ht]
    exact ⟨h1, h2, h3, h4, h5, h6⟩

theorem MountInv_step {w w2 : World} (h : MountInv w) (s : MountStep w w2) : MountInv w2 := by
  have h0 := h
  obtain ⟨h1, h2, h3, h4, h5, h6⟩ := h
  cases s with
  | startWriteMount hs =>
    simp only [step] at hs
    split_ifs at hs with hc
    simp only [Option.some.injEq] at hs
    subst hs
    refine MountInv_of_SameRefs h0 ⟨rfl, rfl, rfl, rfl, rfl⟩ (fun _ => h5 (by simp [hc.2])) ?_
    intro hr
    have := h6 hr
    rw [hc.2] at this
    exact absurd this (by simp)
  | startWriteUnmount _ hs =>
    simp only [step] at hs
    split_ifs at hs with hc
    simp only [Option.some.injEq] at hs
    subst hs
    refine MountInv_of_SameRefs h0 ⟨rfl, rfl, rfl, rfl, rfl⟩ (fun _ => ?_) ?_
    · rw [← h3]; exact hc.2.2
    · intro hr
      have := h6 hr
      rw [hc.2.1] at this
      exact absurd this (by simp)
  | block_ref e hs =>
    simp only [step] at hs
    split_ifs at hs with hc
    obtain ⟨_, _, _, a4, a5, _, _, a8, _, _⟩ := answer_block_ref_frame w e
    have hsr := SameRefs_answer_block_ref w e
    unfold block_ref_handler at hs
    rw [a4, h1, if_neg (by simp), if_pos rfl, a5, hsr.2.2.2.1, h2] at hs
    by_cases m1 : w.o.write_mount_state = WriteMountState.MOUNT_META
    · rw [if_pos m1] at hs
      simp only [Option.some.injEq] at hs
      subst hs
      obtain ⟨r1, r2, r3⟩ := write_mount_metablock_ref_handler_refs (w.answer_block_ref e) e
      exact MountInv_of_SameRefs h0 (hsr.trans r1) (fun _ => h5 (by simp [m1])) r3
    rw [if_neg m1] at hs
    by_cases m2 : w.o.write_mount_state = WriteMountState.UMOUNT_META
    · rw [if_pos m2] at hs
      simp only [Option.some.injEq] at hs
      subst hs
      obtain ⟨r1, r2, r3⟩ := write_unmount_metablock_ref_handler_refs (w.answer_block_ref e) e
      refine MountInv_of_SameRefs h0 (hsr.trans r1) (fun _ => h5 (by simp [m2])) ?_
      intro hr
      rw [r2, a8] at hr
      have := h6 hr
      rw [m2] at this
      exact absurd this (by simp)
    rw [if_neg m2, if_neg (by simp)] at hs
    simp only [Option.some.injEq] at hs
    subst hs
    refine MountInv_of_SameRefs h0 hsr (fun hn => h5 (by rw [← a5]; exact hn)) ?_
    intro hr
    rw [a8] at hr
    rw [a5]
    exact h6 hr
  | fs_info_block_ref e hs =>
    simp only [step] at hs
    split_ifs at hs with hc
    simp only [Option.some.injEq] at hs
    subst hs
    have hm := h6 hc
    obtain ⟨r1, r2, r3⟩ := fs_info_block_ref_handler_refs (w.answer_fs_info_block_ref e) e
    refine MountInv_of_SameRefs h0 ((SameRefs_answer_fs_info_block_ref w e).trans r1)
      (fun _ => h5 (by simp [hm])) ?_
    intro hr
    rcases r3 with r3 | r3
    · rw [r3] at hr
      exact absurd hr (by simp)
    · rw [r3] at hr
      exact absurd hr (by cases e <;> simp [World.answer_fs_info_block_ref,
        CacheBlockRef.complete, CacheBlockRef.reset, World.blockLoaded])
  | flush_request e hs =>
    simp only [step] at hs
    split_ifs at hs with hc
    simp only [Option.some.injEq] at hs
    subst hs
    have f1 : (w.flushDone e).o.write_mount_state = w.o.write_mount_state := by
      cases e <;> rfl
    have f2 : (w.flushDone e).o.fs_info_block_ref = w.o.fs_info_block_ref := by
      cases e <;> rfl
    obtain ⟨r1, r2⟩ := flush_request_handler_refs (w.flushDone e) e
    rcases r2 with ⟨r2, r3⟩ | ⟨r2, r3, r4⟩
    · refine MountInv_of_SameRefs h0 ((SameRefs_flushDone w e).trans r1)
        (fun hn => h5 (by rw [← f1, ← r2]; exact hn)) ?_
      intro hr
      rw [r3, f2] at hr
      rw [r2, f1]
      exact h6 hr
    · rw [f1] at r2 r3
      refine MountInv_of_SameRefs h0 ((SameRefs_flushDone w e).trans r1)
        (fun _ => h5 r2) ?_
      intro hr
      rcases r4 with r4 | r4
      · rw [r4] at hr
        exact absurd hr (by simp)
      · rw [r4, f2] at hr
        exact absurd (h6 hr) r3
  | File_init file_entry hlen hs =>
    simp only [step] at hs
    split_ifs at hs with hc
    simp only [Option.some.injEq] at hs
    subst hs
    obtain ⟨e1, e2, f, ef, e3⟩ := File_init_files w file_entry
    have hcnt : takenCount (File.init w file_entry).files = takenCount w.files := by
      rw [e3]; exact takenCount_append_untaken _ _ ef
    refine ⟨?_, ?_, ?_, ?_, ?_, ?_⟩
    · rw [e1]; exact h1
    · rw [e1]; exact h2
    · rw [e1, hcnt]; exact h3
    · rw [e3, e2]; simpa using hlen
    · rw [e1, hcnt]; exact h5
    · rw [e1]; exact h6
  | take i hi => exact MountInv_take w i hi h0
  | release i hi => exact MountInv_release w i hi h0

theorem MountInv_reachable {w : World} (h : MountReachable w) : MountInv w := by
  induction h with
  | init w0 block_range hs hr => exact MountInv_init w0 _ block_range hs hr
  | step _ s ih => exact MountInv_step ih s

/-- C6: in every state reached from a successful `init` by `startWriteMount`,
`startWriteUnmount` (when `canStartWriteUnmount` allows it), their completion
events, the creation of files and `take` and `release` on their write
references, `num_write_references` is 0 unless the write-mount state is
`MOUNTED`; and `take` on an untaken reference returns false and changes
nothing unless the state is `MOUNTED`. -/
theorem write_references_zero_unless_mounted (w : World) (h : MountReachable w) :
    (w.o.write_mount_state ≠ WriteMountState.MOUNTED → w.o.num_write_references = 0) ∧
    ∀ i, WriteReference.isTaken w i = false →
      w.o.write_mount_state ≠ WriteMountState.MOUNTED →
      WriteReference.take w i = (w, false) := by
  obtain ⟨_, _, h3, _, h5, _⟩ := MountInv_reachable h
  refine ⟨fun hn => by rw [h3]; exact h5 hn, fun i ht hn => ?_⟩
  have ht2 : (w.file i).m_write_ref.m_taken = false := ht
  unfold WriteReference.take
  rw [if_pos ht2, if_pos hn]

theorem write_references_zero_unless_mounted_witness :
    MountReachable sampleReady ∧
    (sampleReady.o.write_mount_state ≠ WriteMountState.MOUNTED →
      sampleReady.o.num_write_references = 0) ∧
    ∀ i, WriteReference.isTaken sampleReady i = false →
      sampleReady.o.write_mount_state ≠ WriteMountState.MOUNTED →
      WriteReference.take sampleReady i = (sampleReady, false) :=
  ⟨MountReachable.init { data := sampleImage } { base := 0, length := 100 } rfl
      (by decide),
    write_references_zero_unless_mounted sampleReady
      (MountReachable.init { data := sampleImage } { base := 0, length := 100 } rfl
        (by decide))⟩

end FatFs

namespace FatFs

/-! ## Worlds seen from one file: basic facts -/

theorem getD_set_self (fs : List File) (i : Nat) (f : File) (hi : i < fs.length) :
    (fs.set i f).getD i default = f := by
  rw [List.getD_eq_getElem _ _ (by rw [List.length_set]; exact hi)]
  exact List.getElem_set_self _

theorem set_getD_self (fs : List File) (i : Nat) : fs.set i (fs.getD i default) = fs := by
  induction fs generalizing i with
  | nil => rfl
  | cons x xs ih =>
    cases i with
    | zero => rfl
    | succ k =>
      have := ih k
      simp only [List.getD_cons_succ, List.set_cons_succ]
      rw [this]

theorem fileWorld_self (w : World) (i : Nat) :
    fileWorld w i (w.file i) w.o w.data w.dirty w.loaded w.queue w.calls = w := by
  unfold fileWorld World.file
  rw [set_getD_self]

section
variable (w : World) (i : Nat) (f : File) (o : Object) (data : Nat → Buffer)
  (dirty loaded : Nat → Bool) (queue : List QueuedEvent) (calls : List HandlerCall)

@[simp]
theorem fileWorld_BlockSize :
    (fileWorld w i f o data dirty loaded queue calls).BlockSize = w.BlockSize := rfl
@[simp]
theorem fileWorld_SizeBits :
    (fileWorld w i f o data dirty loaded queue calls).SizeBits = w.SizeBits := rfl
@[simp]
theorem fileWorld_writable :
    (fileWorld w i f o data dirty loaded queue calls).writable = w.writable := rfl
@[simp]
theorem fileWorld_o : (fileWorld w i f o data dirty loaded queue calls).o = o := rfl
@[simp]
theorem fileWorld_data :
    (fileWorld w i f o data dirty loaded queue calls).data = data := rfl
@[simp]
theorem fileWorld_dirty :
    (fileWorld w i f o data dirty loaded queue calls).dirty = dirty := rfl
@[simp]
theorem fileWorld_loaded :
    (fileWorld w i f o data dirty loaded queue calls).loaded = loaded := rfl
@[simp]
theorem fileWorld_queue :
    (fileWorld w i f o data dirty loaded queue calls).queue = queue := rfl
@[simp]
theorem fileWorld_calls :
    (fileWorld w i f o data dirty loaded queue calls).calls = calls := rfl
@[simp]
theorem fileWorld_length :
    (fileWorld w i f o data dirty loaded queue calls).files.length = w.files.length := by
  simp [fileWorld]

theorem fileWorld_file (hi : i < w.files.length) :
    (fileWorld w i f o data dirty loaded queue calls).file i = f :=
  getD_set_self _ _ _ hi

theorem fileWorld_chain (hi : i < w.files.length) :
    (fileWorld w i f o data dirty loaded queue calls).chain i = f.m_chain := by
  rw [World.chain, fileWorld_file _ _ _ _ _ _ _ _ _ hi]

@[simp]
theorem fileWorld_setFile (g : File) :
    (fileWorld w i f o data dirty loaded queue calls).setFile i g =
      fileWorld w i g o data dirty loaded queue calls := by
  simp [fileWorld, World.setFile, List.set_set]

@[simp]
theorem fileWorld_prepend (e : QueuedEvent) :
    (fileWorld w i f o data dirty loaded queue calls).prependNowNotAlready e =
      fileWorld w i f o data dirty loaded (e :: queue) calls := rfl

@[simp]
theorem fileWorld_call (c : HandlerCall) :
    (fileWorld w i f o data dirty loaded queue calls).call c =
      fileWorld w i f o data dirty loaded queue (c :: calls) := rfl

@[simp]
theorem fileWorld_blockLoaded (r : CacheBlockRef) :
    (fileWorld w i f o data dirty loaded queue calls).blockLoaded r false =
      fileWorld w i f o data dirty (fun b => if b = r.block then true else loaded b)
        queue calls := rfl

@[simp]
theorem fileWorld_getData (r : CacheBlockRef) :
    (fileWorld w i f o data dirty loaded queue calls).getData r = data r.block := rfl

@[simp]
theorem fileWorld_get_abs_block_index (b : Nat) :
    get_abs_block_index (fileWorld w i f o data dirty loaded queue calls) b =
      o.block_range.getAbsBlockIndex b := rfl

@[simp]
theorem fileWorld_get_cluster_data_block_index (a b : Nat) :
    get_cluster_data_block_index (fileWorld w i f o data dirty loaded queue calls) a b =
      o.fat_end_blocks + (a - 2) * o.blocks_per_cluster + b := rfl

@[simp]
theorem fileWorld_read_fat_entry (r : CacheBlockRef) (x : Nat) :
    read_fat_entry_in_cache_block (fileWorld w i f o data dirty loaded queue calls) r x =
      mask_cluster_entry (ReadBinaryInt32 (data r.block) (4 * (x % w.FatEntriesPerBlock))) :=
  rfl

@[simp]
theorem fileWorld_get_abs_block_index_for_fat_entry (x : Nat) :
    get_abs_block_index_for_fat_entry (fileWorld w i f o data dirty loaded queue calls) x =
      o.block_range.getAbsBlockIndex (o.num_reserved_blocks + x / w.FatEntriesPerBlock) := rfl

@[simp]
theorem fileWorld_FatEntriesPerBlock :
    (fileWorld w i f o data dirty loaded queue calls).FatEntriesPerBlock =
      w.FatEntriesPerBlock := rfl

end

/-- The request that `pendingFiles` finds when all files but one have none. -/
theorem pendingFiles_set (fs : List File) (i j : Nat) (g : File) (hi : i < fs.length)
    (h : pendingFiles fs j = none) : pendingFiles (fs.set i g) j = g.pending (j + i) := by
  induction fs generalizing i j with
  | nil => simp at hi
  | cons x xs ih =>
    have hx : x.pending j = none := by
      unfold pendingFiles at h
      cases hxp : x.pending j with
      | none => rfl
      | some p => rw [hxp] at h; simp at h
    have hxs : pendingFiles xs (j + 1) = none := by
      unfold pendingFiles at h
      rw [hx] at h
      exact h
    cases i with
    | zero =>
      simp only [List.set_cons_zero, pendingFiles, Nat.add_zero]
      cases hg : g.pending j with
      | none => exact hxs
      | some p => rfl
    | succ k =>
      have hk : k < xs.length := by simpa using hi
      simp only [List.set_cons_succ, pendingFiles, hx]
      rw [ih k (j + 1) hk hxs]
      congr 1
      omega

/-- The pending request of a world seen from one file, when the filesystem
object has none and no other file has one. -/
theorem pending_fileWorld (w : World) (i : Nat) (f : File) (o : Object)
    (data : Nat → Buffer) (dirty loaded : Nat → Bool) (queue : List QueuedEvent)
    (calls : List HandlerCall) (hi : i < w.files.length) (hp : pendingFiles w.files 0 = none)
    (h1 : o.block_ref.state ≠ CacheRefState.REQUESTING)
    (h2 : o.fs_info_block_ref.state ≠ CacheRefState.REQUESTING)
    (h3 : o.flush_request = false) :
    pending (fileWorld w i f o data dirty loaded queue calls) = f.pending i := by
  unfold pending
  simp only [fileWorld_o, if_neg h1, if_neg h2, h3, Bool.false_eq_true, if_false]
  show pendingFiles (w.files.set i f) 0 = _
  rw [pendingFiles_set _ _ _ _ hi hp, Nat.zero_add]

theorem run_answer_nil (fuel : Nat) (w w2 : World) (answer : Bool → Input)
    (hq : w.queue = []) (hp : pending w = some answer)
    (hs : step w (answer false) = some w2) :
    run (fuel + 1) [] w = run fuel [] w2 := by
  simp [run, hq, hp, hs]


section
variable (w : World) (i : Nat) (f : File) (o : Object) (data : Nat → Buffer)
  (dirty loaded : Nat → Bool) (queue : List QueuedEvent) (calls : List HandlerCall)

theorem run_file_event (n : Nat) (errors : List Bool) (j : Nat) :
    run (n + 1) errors (fileWorld w i f o data dirty loaded (.file_event j :: queue) calls) =
      run n errors (File.event_handler (fileWorld w i f o data dirty loaded queue calls) j) :=
  run_queued _ _ (fileWorld w i f o data dirty loaded (.file_event j :: queue) calls) _
    (by simp) rfl

theorem run_chain_event (n : Nat) (errors : List Bool) (j : Nat) :
    run (n + 1) errors (fileWorld w i f o data dirty loaded (.chain_event j :: queue) calls) =
      run n errors
        (ClusterChain.event_handler (fileWorld w i f o data dirty loaded queue calls) j) :=
  run_queued _ _ (fileWorld w i f o data dirty loaded (.chain_event j :: queue) calls) _
    (by simp) rfl

/-- With nothing queued and nothing outstanding the run is over. -/
theorem run_fileWorld_done (n : Nat) (errors : List Bool) (hi : i < w.files.length)
    (hp : pendingFiles w.files 0 = none)
    (h1 : o.block_ref.state ≠ CacheRefState.REQUESTING)
    (h2 : o.fs_info_block_ref.state ≠ CacheRefState.REQUESTING)
    (h3 : o.flush_request = false) (hf : f.pending i = none) :
    run (n + 1) errors (fileWorld w i f o data dirty loaded [] calls) =
      some (fileWorld w i f o data dirty loaded [] calls) :=
  run_quiescent _ _ _ rfl
    (by rw [pending_fileWorld _ _ _ _ _ _ _ _ _ hi hp h1 h2 h3]; exact hf)

/-- With nothing queued, the request of file `i` is answered. -/
theorem run_fileWorld_answer (n : Nat) (e : Bool) (errors : List Bool)
    (hi : i < w.files.length) (hp : pendingFiles w.files 0 = none)
    (h1 : o.block_ref.state ≠ CacheRefState.REQUESTING)
    (h2 : o.fs_info_block_ref.state ≠ CacheRefState.REQUESTING)
    (h3 : o.flush_request = false) (answer : Bool → Input) (hf : f.pending i = some answer) :
    run (n + 1) (e :: errors) (fileWorld w i f o data dirty loaded [] calls) =
      (step (fileWorld w i f o data dirty loaded [] calls) (answer e)).bind
        (run n errors) := by
  have hp2 := pending_fileWorld w i f o data dirty loaded [] calls hi hp h1 h2 h3
  rw [hf] at hp2
  simp [run, hp2]

theorem run_fileWorld_answer_nil (n : Nat)
    (hi : i < w.files.length) (hp : pendingFiles w.files 0 = none)
    (h1 : o.block_ref.state ≠ CacheRefState.REQUESTING)
    (h2 : o.fs_info_block_ref.state ≠ CacheRefState.REQUESTING)
    (h3 : o.flush_request = false) (answer : Bool → Input) (hf : f.pending i = some answer) :
    run (n + 1) [] (fileWorld w i f o data dirty loaded [] calls) =
      (step (fileWorld w i f o data dirty loaded [] calls) (answer false)).bind
        (run n []) := by
  have hp2 := pending_fileWorld w i f o data dirty loaded [] calls hi hp h1 h2 h3
  rw [hf] at hp2
  simp [run, hp2]

end

end FatFs

namespace FatFs

/-- The end of a read: from `READ_EVENT` inside a cluster, the block is read
and the request completes with the bytes that are left, at most one block. -/
theorem read_tail (w : World) (i : Nat) (hi : i < w.files.length)
    (hpf : pendingFiles w.files 0 = none)
    (hb1 : w.o.block_ref.state ≠ CacheRefState.REQUESTING)
    (hb2 : w.o.fs_info_block_ref.state ≠ CacheRefState.REQUESTING)
    (hb3 : w.o.flush_request = false)
    (hBS : w.BlockSize < 2 ^ 32) (hbpc : w.o.blocks_per_cluster < 2 ^ 16)
    (n : Nat) (f : File) (l : Nat → Bool) (c : List HandlerCall)
    (hst : f.m_state = FileState.READ_EVENT) (hpos : f.m_file_pos < f.m_file_size)
    (hsz : f.m_file_size < 2 ^ 32)
    (hbic : f.m_block_in_cluster < w.o.blocks_per_cluster)
    (hval : is_cluster_idx_valid_for_data w f.m_chain.m_current_cluster = true)
    (hr1 : f.m_chain.m_fat_cache_ref1.state ≠ CacheRefState.REQUESTING)
    (hr2 : f.m_chain.m_fat_cache_ref2.state ≠ CacheRefState.REQUESTING)
    (hr3 : f.m_dir_entry.m_block_ref.state ≠ CacheRefState.REQUESTING)
    (len : Nat) (hlen : min w.BlockSize (f.m_file_size - f.m_file_pos) = len) :
    ∃ u : BlockAccessUser, u.busy = false ∧
    run (n + 3) [] (fileWorld w i f w.o w.data w.dirty l [.file_event i] c) =
      some (fileWorld w i
        { f with m_state := FileState.IDLE,
                 m_file_pos := f.m_file_pos + len,
                 m_block_in_cluster := f.m_block_in_cluster + 1,
                 m_block_user := u }
        w.o w.data w.dirty l []
        (.FileHandler i false len :: c)) := by
  subst hlen
  have hfile := fun g o d dd l q c => fileWorld_file w i g o d dd l q c hi
  have hv : is_cluster_idx_valid_for_data
      (fileWorld w i f w.o w.data w.dirty l [] c) f.m_chain.m_current_cluster = true := hval
  rw [run_file_event]
  simp only [File.event_handler, hfile, hst, ge_iff_le, if_neg (Nat.not_le.2 hpos),
    fileWorld_o, if_neg (Nat.ne_of_lt hbic), ClusterChain.getCurrentCluster, World.chain, hv,
    Bool.true_eq_false, if_false, fileWorld_setFile, BlockAccessUser.startRead]
  rw [run_fileWorld_answer_nil _ _ _ _ _ _ _ _ _ hi hpf hb1 hb2 hb3 (Input.block_user i)
    (by simp [File.pending, hr1, hr2, hr3])]
  simp only [step, fileWorld_length, hi, hfile, true_and, if_true, Option.bind_some,
    World.answer_block_user, fileWorld_setFile, File.block_user_handler, Bool.false_eq_true,
    if_false, fileWorld_BlockSize, File.complete_request, fileWorld_call]
  have e1 : w.BlockSize % 2 ^ 32 = w.BlockSize := Nat.mod_eq_of_lt hBS
  have e2 : (f.m_file_size + 2 ^ 32 - f.m_file_pos) % 2 ^ 32 =
      f.m_file_size - f.m_file_pos := by
    have : f.m_file_size + 2 ^ 32 - f.m_file_pos =
        (f.m_file_size - f.m_file_pos) + 2 ^ 32 := by omega
    rw [this, Nat.add_mod_right, Nat.mod_eq_of_lt (by omega)]
  have e3 : (f.m_file_pos + min w.BlockSize (f.m_file_size - f.m_file_pos)) % 2 ^ 32 =
      f.m_file_pos + min w.BlockSize (f.m_file_size - f.m_file_pos) :=
    Nat.mod_eq_of_lt (by omega)
  have e4 : (f.m_block_in_cluster + 1) % 2 ^ 16 = f.m_block_in_cluster + 1 :=
    Nat.mod_eq_of_lt (by omega)
  rw [e1, e2, e3, e4, Option.some_bind,
    run_fileWorld_done _ _ _ _ _ _ _ _ _ _ hi hpf hb1 hb2 hb3
      (by simp [File.pending, hr1, hr2, hr3])]
  exact ⟨_, rfl, rfl⟩


/-- The first read after `init` or `rewind`: the chain leaves `START` for its
first cluster, without looking at the FAT. -/
theorem read_cross_start (w : World) (i : Nat) (hi : i < w.files.length)
    (n : Nat) (f : File) (l : Nat → Bool) (c : List HandlerCall)
    (hst : f.m_state = FileState.READ_EVENT) (hpos : f.m_file_pos < f.m_file_size)
    (hbic : f.m_block_in_cluster = w.o.blocks_per_cluster)
    (hit : f.m_chain.m_iter_state = IterState.START)
    (hnorm : is_cluster_idx_normal f.m_chain.m_current_cluster = true) :
    run (n + 2) [] (fileWorld w i f w.o w.data w.dirty l [.file_event i] c) =
      run n [] (fileWorld w i
        { f with m_state := FileState.READ_EVENT,
                 m_block_in_cluster := 0,
                 m_chain := { f.m_chain with m_state := ChainState.IDLE,
                                             m_iter_state := IterState.CLUSTER,
                                             m_fat_cache_ref1 := f.m_chain.m_fat_cache_ref1.reset,
                                             m_fat_cache_ref2 := f.m_chain.m_fat_cache_ref2.reset } }
        w.o w.data w.dirty l [.file_event i] c) := by
  have hfile := fun g o d dd l q c => fileWorld_file w i g o d dd l q c hi
  rw [run_file_event]
  simp only [↓reduceIte, File.event_handler, hfile, hst, ge_iff_le, if_neg (Nat.not_le.2 hpos),
    fileWorld_o, hbic, if_true, fileWorld_setFile, ClusterChain.requestNext, World.setChain,
    World.chain, fileWorld_prepend]
  rw [run_chain_event]
  simp only [↓reduceIte, ClusterChain.event_handler, World.chain, hfile, hit,
    ClusterChain.event_handler_next_check_end, World.setChain, fileWorld_setFile, hnorm,
    if_true, ClusterChain.complete_request, File.chain_handler, Bool.false_eq_true, if_false,
    ClusterChain.endReached, ne_eq, not_false_eq_true, decide_False, or_self,
    fileWorld_prepend, reduceCtorEq]


/-- A read at the end of a cluster asks the chain for the next cluster. -/
theorem read_to_chain (w : World) (i : Nat) (hi : i < w.files.length)
    (n : Nat) (f : File) (l : Nat → Bool) (c : List HandlerCall)
    (hst : f.m_state = FileState.READ_EVENT) (hpos : f.m_file_pos < f.m_file_size)
    (hbic : f.m_block_in_cluster = w.o.blocks_per_cluster) :
    run (n + 1) [] (fileWorld w i f w.o w.data w.dirty l [.file_event i] c) =
      run n [] (fileWorld w i
        { f with m_state := FileState.READ_NEXT_CLUSTER,
                 m_chain := { f.m_chain with m_state := ChainState.NEXT_CHECK } }
        w.o w.data w.dirty l [.chain_event i] c) := by
  have hfile := fun g o d dd l q c => fileWorld_file w i g o d dd l q c hi
  rw [run_file_event]
  simp only [File.event_handler, hfile, hst, ge_iff_le, if_neg (Nat.not_le.2 hpos),
    fileWorld_o, hbic, if_true, fileWorld_setFile, ClusterChain.requestNext, World.setChain,
    World.chain, fileWorld_prepend]

/-- Passing to the next cluster when the FAT block is at hand: the FAT entry of
the current cluster becomes the current cluster, and the read goes on. -/
theorem chain_next_immediate (w : World) (i : Nat) (hi : i < w.files.length)
    (n : Nat) (f : File) (l : Nat → Bool) (c : List HandlerCall)
    (hst : f.m_state = FileState.READ_NEXT_CLUSTER)
    (hcs : f.m_chain.m_state = ChainState.NEXT_CHECK)
    (hit : f.m_chain.m_iter_state = IterState.CLUSTER)
    (hfat : is_cluster_idx_valid_for_fat w f.m_chain.m_current_cluster = true)
    (hnorm : is_cluster_idx_normal (fatNext w f.m_chain.m_current_cluster) = true)
    (hc : (f.m_chain.m_fat_cache_ref1.state = CacheRefState.READY ∧
        f.m_chain.m_fat_cache_ref1.block =
          get_abs_block_index_for_fat_entry w f.m_chain.m_current_cluster) ∨
      l (get_abs_block_index_for_fat_entry w f.m_chain.m_current_cluster) = true) :
    run (n + 1) [] (fileWorld w i f w.o w.data w.dirty l [.chain_event i] c) =
      run n [] (fileWorld w i
        { f with m_state := FileState.READ_EVENT,
                 m_block_in_cluster := 0,
                 m_chain := { f.m_chain with m_state := ChainState.IDLE,
                                             m_iter_state := IterState.CLUSTER,
                                             m_current_cluster :=
                                               fatNext w f.m_chain.m_current_cluster,
                                             m_prev_cluster := f.m_chain.m_current_cluster,
                                             m_fat_cache_ref1 := CacheBlockRef.reset {},
                                             m_fat_cache_ref2 := CacheBlockRef.reset {} } }
        w.o w.data w.dirty l [.file_event i] c) := by
  have hfile := fun g o d dd l q c => fileWorld_file w i g o d dd l q c hi
  have hfat2 : ∀ g q, is_cluster_idx_valid_for_fat (fileWorld w i g w.o w.data w.dirty l q c)
      f.m_chain.m_current_cluster = true := fun _ _ => hfat
  have hnorm2 : is_cluster_idx_normal (mask_cluster_entry (ReadBinaryInt32
      (w.data (w.o.block_range.getAbsBlockIndex (w.o.num_reserved_blocks +
        f.m_chain.m_current_cluster / w.FatEntriesPerBlock)))
      (4 * (f.m_chain.m_current_cluster % w.FatEntriesPerBlock)))) = true := hnorm
  have hc2 : (f.m_chain.m_fat_cache_ref1.state = CacheRefState.READY ∧
        f.m_chain.m_fat_cache_ref1.block =
          w.o.block_range.getAbsBlockIndex (w.o.num_reserved_blocks +
            f.m_chain.m_current_cluster / w.FatEntriesPerBlock)) ∨
      l (w.o.block_range.getAbsBlockIndex (w.o.num_reserved_blocks +
            f.m_chain.m_current_cluster / w.FatEntriesPerBlock)) = true := hc
  rw [run_chain_event]
  simp only [↓reduceIte, ClusterChain.event_handler, World.chain, hfile, hit, hfat2, hcs, hst,
    request_fat_cache_block, World.requestBlock, fileWorld_loaded,
    fileWorld_get_abs_block_index_for_fat_entry, hc2, and_self, true_and,
    ClusterChain.event_handler_next_check_end, World.setChain, fileWorld_setFile,
    fileWorld_read_fat_entry, hnorm2,
    if_true, ClusterChain.complete_request, File.chain_handler, Bool.false_eq_true, if_false,
    ClusterChain.endReached, ne_eq, not_false_eq_true, decide_False, or_self,
    fileWorld_prepend, reduceCtorEq, Bool.true_eq_false]
  rfl

/-- Passing to the next cluster when the FAT block has to be fetched: the pin
is answered and the chain looks again. -/
theorem chain_next_pending (w : World) (i : Nat) (hi : i < w.files.length)
    (hpf : pendingFiles w.files 0 = none)
    (hb1 : w.o.block_ref.state ≠ CacheRefState.REQUESTING)
    (hb2 : w.o.fs_info_block_ref.state ≠ CacheRefState.REQUESTING)
    (hb3 : w.o.flush_request = false)
    (n : Nat) (f : File) (l : Nat → Bool) (c : List HandlerCall)
    (hcs : f.m_chain.m_state = ChainState.NEXT_CHECK)
    (hit : f.m_chain.m_iter_state = IterState.CLUSTER)
    (hfat : is_cluster_idx_valid_for_fat w f.m_chain.m_current_cluster = true)
    (hc : ¬ ((f.m_chain.m_fat_cache_ref1.state = CacheRefState.READY ∧
        f.m_chain.m_fat_cache_ref1.block =
          get_abs_block_index_for_fat_entry w f.m_chain.m_current_cluster) ∨
      l (get_abs_block_index_for_fat_entry w f.m_chain.m_current_cluster) = true)) :
    run (n + 2) [] (fileWorld w i f w.o w.data w.dirty l [.chain_event i] c) =
      run n [] (fileWorld w i
        { f with m_chain := { f.m_chain with
            m_state := ChainState.NEXT_CHECK,
            m_fat_cache_ref1 :=
              { state := .READY,
                block := get_abs_block_index_for_fat_entry w f.m_chain.m_current_cluster } } }
        w.o w.data w.dirty
        (fun b => if b = get_abs_block_index_for_fat_entry w f.m_chain.m_current_cluster
          then true else l b)
        [.chain_event i] c) := by
  have hfile := fun g o d dd l q c => fileWorld_file w i g o d dd l q c hi
  have hfat2 : ∀ g q, is_cluster_idx_valid_for_fat (fileWorld w i g w.o w.data w.dirty l q c)
      f.m_chain.m_current_cluster = true := fun _ _ => hfat
  have hc2 : ¬ ((f.m_chain.m_fat_cache_ref1.state = CacheRefState.READY ∧
        f.m_chain.m_fat_cache_ref1.block =
          w.o.block_range.getAbsBlockIndex (w.o.num_reserved_blocks +
            f.m_chain.m_current_cluster / w.FatEntriesPerBlock)) ∨
      l (w.o.block_range.getAbsBlockIndex (w.o.num_reserved_blocks +
            f.m_chain.m_current_cluster / w.FatEntriesPerBlock)) = true) := hc
  rw [run_chain_event]
  simp only [ClusterChain.event_handler, World.chain, hfile, hit, hfat2, hcs,
    request_fat_cache_block, World.requestBlock, fileWorld_loaded,
    fileWorld_get_abs_block_index_for_fat_entry, hc2, and_false, and_self, true_and,
    World.setChain, fileWorld_setFile, if_true, Bool.false_eq_true, if_false,
    Bool.true_eq_false]
  rw [run_fileWorld_answer_nil _ _ _ _ _ _ _ _ _ hi hpf hb1 hb2 hb3 (Input.fat_cache_ref1 i)
    (by simp [File.pending])]
  simp only [step, fileWorld_length, hi, World.chain, hfile, true_and, if_true,
    Option.some_bind, World.answer_fat_cache_ref1, fileWorld_blockLoaded, World.setChain,
    fileWorld_setFile, CacheBlockRef.complete, Bool.false_eq_true, if_false,
    ClusterChain.fat_cache_ref_handler, fileWorld_prepend, and_self]
  rfl

end FatFs

namespace FatFs

theorem succ_div_mod_lt (m b : Nat) (h : m % b + 1 < b) :
    (m + 1) % b = m % b + 1 ∧ (m + 1) / b = m / b := by
  have hb : 0 < b := by omega
  have hm := Nat.div_add_mod m b
  have e : m + 1 = (m % b + 1) + b * (m / b) := by omega
  constructor
  · rw [e, Nat.add_mul_mod_self_left, Nat.mod_eq_of_lt h]
  · rw [e, Nat.add_mul_div_left _ _ hb, Nat.div_eq_of_lt h, Nat.zero_add]

theorem succ_div_mod_eq (m b : Nat) (hb : 0 < b) (h : m % b + 1 = b) :
    (m + 1) % b = 0 ∧ (m + 1) / b = m / b + 1 := by
  have hm := Nat.div_add_mod m b
  have e : m + 1 = 0 + b * (m / b + 1) := by
    rw [Nat.mul_add, Nat.mul_one]
    omega
  constructor
  · rw [e, Nat.add_mul_mod_self_left, Nat.zero_mod]
  · rw [e, Nat.add_mul_div_left _ _ hb, Nat.zero_div, Nat.zero_add]

/-- The cluster that holds block `k` of a file is one of the first `nc`
clusters when the file fits in `nc` clusters. -/
theorem cluster_index_lt (k BS bpc S nc : Nat) (hk : k * BS < S)
    (hS : S ≤ nc * (BS * bpc)) : k / bpc < nc := by
  by_contra hcon
  have h1 : nc ≤ k / bpc := Nat.le_of_not_lt hcon
  have h2 : k / bpc * bpc ≤ k := Nat.div_mul_le_self k bpc
  have h3 : nc * bpc ≤ k := Nat.le_trans (Nat.mul_le_mul_right bpc h1) h2
  have h4 : nc * bpc * BS ≤ k * BS := Nat.mul_le_mul_right BS h3
  have h5 : nc * (BS * bpc) = nc * bpc * BS := by
    rw [Nat.mul_comm BS bpc, Nat.mul_assoc]
  omega

theorem valid_for_data_fat (w : World) (x : Nat)
    (hw : w.o.num_valid_clusters + 2 ≤ w.o.num_fat_entries)
    (h : is_cluster_idx_valid_for_data w x = true) :
    is_cluster_idx_valid_for_fat w x = true := by
  simp only [is_cluster_idx_valid_for_data, is_cluster_idx_valid_for_fat,
    decide_eq_true_eq] at h ⊢
  omega

theorem valid_for_data_normal (w : World) (x : Nat)
    (hw : w.o.num_valid_clusters + 2 ≤ NormalClusterIndexEnd)
    (h : is_cluster_idx_valid_for_data w x = true) : is_cluster_idx_normal x = true := by
  simp only [is_cluster_idx_valid_for_data, is_cluster_idx_normal,
    decide_eq_true_eq] at h ⊢
  omega

/-- One read before the end of the file: it completes without error with the
bytes that are left, at most one block, and leaves the file ready for the next
read. -/
theorem read_step (w : World) (i : Nat) (hi : i < w.files.length)
    (hpf : pendingFiles w.files 0 = none)
    (hb1 : w.o.block_ref.state ≠ CacheRefState.REQUESTING)
    (hb2 : w.o.fs_info_block_ref.state ≠ CacheRefState.REQUESTING)
    (hb3 : w.o.flush_request = false)
    (hBS : w.BlockSize < 2 ^ 32)
    (hbpc0 : 0 < w.o.blocks_per_cluster) (hbpc : w.o.blocks_per_cluster < 2 ^ 16)
    (hwf : w.o.num_valid_clusters + 2 ≤ w.o.num_fat_entries)
    (hwn : w.o.num_valid_clusters + 2 ≤ NormalClusterIndexEnd)
    (S first nc : Nat) (hS32 : S < 2 ^ 32)
    (hS : S ≤ nc * (w.BlockSize * w.o.blocks_per_cluster))
    (hchain : ∀ k, k < nc → is_cluster_idx_valid_for_data w (chainCluster w first k) = true)
    (n k : Nat) (f : File) (l : Nat → Bool) (c : List HandlerCall)
    (hf : ReadState w S first k f) (hk : k * w.BlockSize < S) :
    ∃ f2 l2, run (n + 7) []
        (fileWorld w i { f with m_state := FileState.READ_EVENT } w.o w.data w.dirty l
          [.file_event i] c) =
      some (fileWorld w i f2 w.o w.data w.dirty l2 []
        (.FileHandler i false (readLength w.BlockSize S k) :: c)) ∧
      ReadState w S first (k + 1) f2 := by
  obtain ⟨s1, s2, s3, s4, s5, s6, s7, s8, s9⟩ := hf
  have hposk : f.m_file_pos = k * w.BlockSize := by
    rw [s4]; exact Nat.min_eq_right (Nat.le_of_lt hk)
  have hpos : f.m_file_pos < f.m_file_size := by rw [hposk, s3]; exact hk
  have hq := cluster_index_lt k w.BlockSize w.o.blocks_per_cluster S nc hk hS
  have hnew : min S ((k + 1) * w.BlockSize) =
      k * w.BlockSize + min w.BlockSize (S - k * w.BlockSize) := by
    rw [Nat.succ_mul]; omega
  have hlen : min w.BlockSize (f.m_file_size - f.m_file_pos) = readLength w.BlockSize S k := by
    rw [s3, hposk]; rfl
  rcases s9 with ⟨k0, t1, t2, t3⟩ | ⟨k0, t1, t2, t3⟩
  · -- the first read
    subst k0
    have hv := hchain 0 (by simpa using hq)
    have hv0 : is_cluster_idx_valid_for_data w f.m_chain.m_current_cluster = true := by
      rw [t3]; exact hv
    rw [show n + 7 = (n + 5) + 2 from rfl,
      read_cross_start w i hi (n + 5) { f with m_state := FileState.READ_EVENT } l c rfl
        hpos t1 t2
        (valid_for_data_normal w _ hwn hv0)]
    obtain ⟨u, hu, hrun⟩ := read_tail w i hi hpf hb1 hb2 hb3 hBS hbpc (n + 2)
      { f with m_state := FileState.READ_EVENT,
               m_block_in_cluster := 0,
               m_chain := { f.m_chain with m_state := ChainState.IDLE,
                                           m_iter_state := IterState.CLUSTER,
                                           m_fat_cache_ref1 := f.m_chain.m_fat_cache_ref1.reset,
                                           m_fat_cache_ref2 := f.m_chain.m_fat_cache_ref2.reset } }
      l c rfl hpos (by rw [s3]; exact hS32) hbpc0 hv0 (by simp [CacheBlockRef.reset])
      (by simp [CacheBlockRef.reset]) s7 (readLength w.BlockSize S 0) hlen
    refine ⟨_, l, hrun, ?_⟩
    refine ⟨rfl, rfl, s3, ?_, by simp [CacheBlockRef.reset], by simp [CacheBlockRef.reset],
      s7, hu, Or.inr ⟨Nat.succ_pos _, ?_, rfl, ?_⟩⟩
    · show f.m_file_pos + readLength w.BlockSize S 0 = _
      rw [hnew, hposk]; rfl
    · show 0 + 1 = (0 + 1 - 1) % w.o.blocks_per_cluster + 1
      simp
    · show f.m_chain.m_current_cluster = _
      rw [t3]
      simp [chainCluster]
  · -- a later read
    obtain ⟨m, rfl⟩ : ∃ m, k = m + 1 := ⟨k - 1, by omega⟩
    simp only [Nat.add_sub_cancel] at t1 t3
    have hm : m * w.BlockSize < S := by
      have : m * w.BlockSize ≤ (m + 1) * w.BlockSize :=
        Nat.mul_le_mul_right _ (Nat.le_succ m)
      omega
    have hqm := cluster_index_lt m w.BlockSize w.o.blocks_per_cluster S nc hm hS
    have hvm := hchain _ hqm
    have hmod := Nat.mod_lt m hbpc0
    by_cases hcr : f.m_block_in_cluster < w.o.blocks_per_cluster
    · -- inside the cluster
      obtain ⟨e1, e2⟩ := succ_div_mod_lt m w.o.blocks_per_cluster (by omega)
      have hv0 : is_cluster_idx_valid_for_data w f.m_chain.m_current_cluster = true := by
        rw [t3]; exact hvm
      obtain ⟨u, hu, hrun⟩ := read_tail w i hi hpf hb1 hb2 hb3 hBS hbpc (n + 4)
        { f with m_state := FileState.READ_EVENT }
        l c rfl hpos (by rw [s3]; exact hS32) hcr hv0 s5 s6 s7
        (readLength w.BlockSize S (m + 1)) hlen
      refine ⟨_, l, hrun, ?_⟩
      refine ⟨rfl, s2, s3, ?_, s5, s6, s7, hu, Or.inr ⟨Nat.succ_pos _, ?_, t2, ?_⟩⟩
      · show f.m_file_pos + readLength w.BlockSize S (m + 1) = _
        rw [hnew, hposk]; rfl
      · show f.m_block_in_cluster + 1 = (m + 1 + 1 - 1) % w.o.blocks_per_cluster + 1
        rw [Nat.add_sub_cancel, e1, t1]
      · show f.m_chain.m_current_cluster = _
        rw [Nat.add_sub_cancel, e2, t3]
    · -- at the end of the cluster
      have hbic : f.m_block_in_cluster = w.o.blocks_per_cluster := by omega
      obtain ⟨e1, e2⟩ := succ_div_mod_eq m w.o.blocks_per_cluster hbpc0 (by omega)
      have hvq := hchain _ hq
      rw [e2] at hvq
      have hfat : is_cluster_idx_valid_for_fat w f.m_chain.m_current_cluster = true := by
        rw [t3]; exact valid_for_data_fat w _ hwf hvm
      have hvn : is_cluster_idx_valid_for_data w (fatNext w f.m_chain.m_current_cluster)
          = true := by
        rw [t3]; exact hvq
      have hnorm := valid_for_data_normal w _ hwn hvn
      rw [show n + 7 = (n + 6) + 1 from rfl,
        read_to_chain w i hi (n + 6) { f with m_state := FileState.READ_EVENT } l c rfl
          hpos hbic]
      have tail := fun n2 l2 => read_tail w i hi hpf hb1 hb2 hb3 hBS hbpc n2
        { f with m_state := FileState.READ_EVENT,
                 m_block_in_cluster := 0,
                 m_chain := { f.m_chain with
                   m_state := ChainState.IDLE,
                   m_iter_state := IterState.CLUSTER,
                   m_current_cluster := fatNext w f.m_chain.m_current_cluster,
                   m_prev_cluster := f.m_chain.m_current_cluster,
                   m_fat_cache_ref1 := CacheBlockRef.reset {},
                   m_fat_cache_ref2 := CacheBlockRef.reset {} } }
        l2 c rfl hpos (by rw [s3]; exact hS32) hbpc0 hvn (by simp [CacheBlockRef.reset])
        (by simp [CacheBlockRef.reset]) s7 (readLength w.BlockSize S (m + 1)) hlen
      have post : ∀ u : BlockAccessUser, u.busy = false →
          ReadState w S first (m + 1 + 1)
            { f with m_state := FileState.IDLE,
                     m_file_pos := f.m_file_pos + readLength w.BlockSize S (m + 1),
                     m_block_in_cluster := 0 + 1,
                     m_block_user := u,
                     m_chain := { f.m_chain with
                       m_state := ChainState.IDLE,
                       m_iter_state := IterState.CLUSTER,
                       m_current_cluster := fatNext w f.m_chain.m_current_cluster,
                       m_prev_cluster := f.m_chain.m_current_cluster,
                       m_fat_cache_ref1 := CacheBlockRef.reset {},
                       m_fat_cache_ref2 := CacheBlockRef.reset {} } } := by
        intro u hu
        refine ⟨rfl, rfl, s3, ?_, by simp [CacheBlockRef.reset], by simp [CacheBlockRef.reset],
          s7, hu, Or.inr ⟨Nat.succ_pos _, ?_, rfl, ?_⟩⟩
        · show f.m_file_pos + readLength w.BlockSize S (m + 1) = _
          rw [hnew, hposk]; rfl
        · show 0 + 1 = (m + 1 + 1 - 1) % w.o.blocks_per_cluster + 1
          rw [Nat.add_sub_cancel, e1]
        · show fatNext w f.m_chain.m_current_cluster = _
          rw [Nat.add_sub_cancel, e2, t3]; rfl
      by_cases hc : (f.m_chain.m_fat_cache_ref1.state = CacheRefState.READY ∧
          f.m_chain.m_fat_cache_ref1.block =
            get_abs_block_index_for_fat_entry w f.m_chain.m_current_cluster) ∨
          l (get_abs_block_index_for_fat_entry w f.m_chain.m_current_cluster) = true
      · obtain ⟨u, hu, hrun⟩ := tail (n + 2) l
        refine ⟨_, l, ?_, post u hu⟩
        rw [show n + 6 = (n + 5) + 1 from rfl,
          chain_next_immediate w i hi (n + 5)
            { f with m_state := FileState.READ_NEXT_CLUSTER,
                     m_chain := { f.m_chain with m_state := ChainState.NEXT_CHECK } }
            l c rfl rfl t2 hfat hnorm hc]
        exact hrun
      · obtain ⟨u, hu, hrun⟩ := tail (n + 0)
          (fun b => if b = get_abs_block_index_for_fat_entry w f.m_chain.m_current_cluster
            then true else l b)
        refine ⟨_, (fun b =>
          if b = get_abs_block_index_for_fat_entry w f.m_chain.m_current_cluster
            then true else l b), ?_, post u hu⟩
        rw [show n + 6 = (n + 4) + 2 from rfl,
          chain_next_pending w i hi hpf hb1 hb2 hb3 (n + 4)
            { f with m_state := FileState.READ_NEXT_CLUSTER,
                     m_chain := { f.m_chain with m_state := ChainState.NEXT_CHECK } }
            l c rfl t2 hfat hc]
        rw [show n + 4 = (n + 3) + 1 from rfl,
          chain_next_immediate w i hi (n + 3)
            { f with
              m_state := FileState.READ_NEXT_CLUSTER,
              m_chain := { f.m_chain with
                m_state := ChainState.NEXT_CHECK,
                m_fat_cache_ref1 :=
                  { state := .READY,
                    block := get_abs_block_index_for_fat_entry w
                      f.m_chain.m_current_cluster } } }
            (fun b => if b = get_abs_block_index_for_fat_entry w f.m_chain.m_current_cluster
              then true else l b)
            c rfl rfl t2 hfat hnorm (Or.inl ⟨rfl, rfl⟩)]
        exact hrun

end FatFs

namespace FatFs

/-- A read at the end of the file completes with length 0 and leaves the file
as it was. -/
theorem read_eof (w : World) (i : Nat) (hi : i < w.files.length)
    (hpf : pendingFiles w.files 0 = none)
    (hb1 : w.o.block_ref.state ≠ CacheRefState.REQUESTING)
    (hb2 : w.o.fs_info_block_ref.state ≠ CacheRefState.REQUESTING)
    (hb3 : w.o.flush_request = false)
    (S first : Nat) (n k : Nat) (f : File) (l : Nat → Bool) (c : List HandlerCall)
    (hf : ReadState w S first k f) (hk : S ≤ k * w.BlockSize) :
    run (n + 2) []
        (fileWorld w i { f with m_state := FileState.READ_EVENT } w.o w.data w.dirty l
          [.file_event i] c) =
      some (fileWorld w i f w.o w.data w.dirty l [] (.FileHandler i false 0 :: c)) := by
  obtain ⟨s1, s2, s3, s4, s5, s6, s7, s8, s9⟩ := hf
  have hfile := fun g o d dd l q c => fileWorld_file w i g o d dd l q c hi
  have hpos : f.m_file_size ≤ f.m_file_pos := by
    rw [s4, s3, Nat.min_eq_left hk]
  have hfe : { f with m_state := FileState.IDLE } = f := by
    cases f
    simp only at s1
    simp [s1]
  rw [run_file_event]
  simp only [File.event_handler, hfile, ge_iff_le, hpos, if_true, File.complete_request,
    fileWorld_setFile, fileWorld_call, hfe]
  exact run_fileWorld_done _ _ _ _ _ _ _ _ _ _ hi hpf hb1 hb2 hb3
    (by simp [File.pending, s5, s6, s7, s8])

theorem readOnce_fileWorld (w : World) (i : Nat) (hi : i < w.files.length) (fuel : Nat)
    (f : File) (o : Object) (data : Nat → Buffer) (dirty l : Nat → Bool)
    (c : List HandlerCall) (hs : f.m_state = FileState.IDLE) :
    readOnce fuel i (fileWorld w i f o data dirty l [] c) =
      run fuel [] (fileWorld w i { f with m_state := FileState.READ_EVENT } o data dirty l
        [.file_event i] c) := by
  have hfile := fun g o d dd l q c => fileWorld_file w i g o d dd l q c hi
  simp only [readOnce, step, fileWorld_length, hi, hfile, hs, and_self, if_true,
    Option.some_bind, File.startRead, fileWorld_setFile, fileWorld_prepend]

theorem pendingFiles_none_getD (fs : List File) (i j : Nat) (hi : i < fs.length)
    (h : pendingFiles fs j = none) : (fs.getD i default).pending (j + i) = none := by
  induction fs generalizing i j with
  | nil => simp at hi
  | cons x xs ih =>
    have hx : x.pending j = none := by
      unfold pendingFiles at h
      cases hxp : x.pending j with
      | none => rfl
      | some p => rw [hxp] at h; simp at h
    have hxs : pendingFiles xs (j + 1) = none := by
      unfold pendingFiles at h
      rw [hx] at h
      exact h
    cases i with
    | zero => exact hx
    | succ k =>
      have hk : k < xs.length := by simpa using hi
      have := ih k (j + 1) hk hxs
      rw [show j + (k + 1) = j + 1 + k by omega]
      simpa using this

theorem File_pending_none (f : File) (i : Nat) (h : f.pending i = none) :
    f.m_chain.m_fat_cache_ref1.state ≠ CacheRefState.REQUESTING ∧
    f.m_chain.m_fat_cache_ref2.state ≠ CacheRefState.REQUESTING ∧
    f.m_dir_entry.m_block_ref.state ≠ CacheRefState.REQUESTING ∧
    f.m_block_user.busy = false := by
  unfold File.pending at h
  split_ifs at h with h1 h2 h3 h4
  exact ⟨h1, h2, h3, by simpa using h4⟩

theorem readLength_sum (BS S n : Nat) :
    ((List.range n).map (readLength BS S)).sum = min S (n * BS) := by
  induction n with
  | zero => simp
  | succ n ih =>
    rw [List.range_succ, List.map_append, List.sum_append, ih, Nat.succ_mul]
    simp only [List.map_cons, List.map_nil, List.sum_cons, List.sum_nil, readLength]
    omega


/-- The world after `n` successive reads, as seen from the file. -/
theorem reads_fileWorld (w : World) (i : Nat) (hi : i < w.files.length)
    (hq : w.queue = []) (hp : pending w = none)
    (hBS : w.BlockSize < 2 ^ 32)
    (hbpc0 : 0 < w.o.blocks_per_cluster) (hbpc : w.o.blocks_per_cluster < 2 ^ 16)
    (hwf : w.o.num_valid_clusters + 2 ≤ w.o.num_fat_entries)
    (hwn : w.o.num_valid_clusters + 2 ≤ NormalClusterIndexEnd)
    (hstart : AtStart w i) (nc : Nat) (hS32 : (w.file i).m_file_size < 2 ^ 32)
    (hS : (w.file i).m_file_size ≤ nc * (w.BlockSize * w.o.blocks_per_cluster))
    (hchain : ∀ k, k < nc →
      is_cluster_idx_valid_for_data w (chainCluster w (w.chain i).m_first_cluster k) = true)
    (fuel : Nat) (n : Nat) :
    ∃ f l k, reads (fuel + 7) i n w = some (fileWorld w i f w.o w.data w.dirty l []
        (((List.range n).reverse.map fun j =>
          HandlerCall.FileHandler i false
            (readLength w.BlockSize (w.file i).m_file_size j)) ++ w.calls)) ∧
      ReadState w (w.file i).m_file_size (w.chain i).m_first_cluster k f ∧ k ≤ n ∧
      (k = n ∨ (w.file i).m_file_size ≤ k * w.BlockSize) := by
  obtain ⟨hb1, hb2, hb3, hpf⟩ := (pending_none_iff w).1 hp
  induction n with
  | zero =>
    refine ⟨w.file i, w.loaded, 0, ?_, ?_, Nat.le_refl 0, Or.inl rfl⟩
    · have := fileWorld_self w i
      rw [hq] at this
      simp only [reads, List.range_zero, List.reverse_nil, List.map_nil, List.nil_append]
      rw [this]
    · obtain ⟨a1, a2, a3, a4, a5, a6⟩ := hstart
      have hpn := pendingFiles_none_getD w.files i 0 hi hpf
      obtain ⟨p1, p2, p3, p4⟩ := File_pending_none _ _ hpn
      exact ⟨a1, a2, rfl, by rw [a3]; simp, p1, p2, p3, p4, Or.inl ⟨rfl, a4, a5, a6⟩⟩
  | succ n ih =>
    obtain ⟨f, l, k, hr, hf, hkn, hk⟩ := ih
    have hidle : f.m_state = FileState.IDLE := hf.1
    simp only [reads]
    rw [hr, Option.some_bind, readOnce_fileWorld w i hi _ f _ _ _ _ _ hidle,
      List.range_succ, List.reverse_append, List.reverse_singleton, List.map_append,
      List.map_singleton, List.singleton_append, List.cons_append]
    by_cases hlt : k * w.BlockSize < (w.file i).m_file_size
    · have hkeq : k = n := by
        rcases hk with h | h
        · exact h
        · omega
      subst hkeq
      obtain ⟨f2, l2, hrun, hf2⟩ := read_step w i hi hpf hb1 hb2 hb3 hBS hbpc0 hbpc hwf hwn
        (w.file i).m_file_size (w.chain i).m_first_cluster nc hS32 hS hchain fuel k f l
        (((List.range k).reverse.map fun j =>
          HandlerCall.FileHandler i false
            (readLength w.BlockSize (w.file i).m_file_size j)) ++ w.calls) hf hlt
      exact ⟨f2, l2, k + 1, hrun, hf2, Nat.le_refl _, Or.inl rfl⟩
    · have hge : (w.file i).m_file_size ≤ k * w.BlockSize := Nat.le_of_not_lt hlt
      have hkn2 : k * w.BlockSize ≤ n * w.BlockSize := Nat.mul_le_mul_right _ hkn
      have hz : readLength w.BlockSize (w.file i).m_file_size n = 0 := by
        unfold readLength
        rw [Nat.sub_eq_zero_of_le (Nat.le_trans hge hkn2)]
        exact Nat.min_zero _
      rw [hz]
      refine ⟨f, l, k, ?_, hf, Nat.le_succ_of_le hkn, Or.inr hge⟩
      exact read_eof w i hi hpf hb1 hb2 hb3 _ _ (fuel + 5) k f l _ hf hge

end FatFs

namespace FatFs

/-- C8: sequential read.  For a file of `S` bytes at its start (after `init`
or `rewind`) whose chain has `nc` clusters valid for data that hold `S` bytes,
on a quiescent volume and without block or FAT read errors, the first `n`
`startRead` calls all complete with `error = false`, read number `k` with
length `min(BlockSize, S - k * BlockSize)` (the bytes left, at most a block);
the file position is then `min(S, n * BlockSize)`; once the position is `S` a
further read completes with length 0 and `error = false` and leaves the chain
as it is; and the lengths returned before a read of length 0 add up to `S`. -/
theorem sequential_read (w : World) (i fuel nc n : Nat)
    (hq : quiescent w) (hi : i < w.files.length) (hstart : AtStart w i)
    (hBS : w.BlockSize < 2 ^ 32)
    (hbpc0 : 0 < w.o.blocks_per_cluster) (hbpc : w.o.blocks_per_cluster < 2 ^ 16)
    (hwf : w.o.num_valid_clusters + 2 ≤ w.o.num_fat_entries)
    (hwn : w.o.num_valid_clusters + 2 ≤ NormalClusterIndexEnd)
    (hS32 : (w.file i).m_file_size < 2 ^ 32)
    (hS : (w.file i).m_file_size ≤ nc * (w.BlockSize * w.o.blocks_per_cluster))
    (hchain : ∀ k, k < nc →
      is_cluster_idx_valid_for_data w (chainCluster w (w.chain i).m_first_cluster k) = true)
    (hfuel : 7 ≤ fuel) :
    ∃ wn, reads fuel i n w = some wn ∧ quiescent wn ∧
      wn.calls = ((List.range n).reverse.map fun k =>
        HandlerCall.FileHandler i false
          (readLength w.BlockSize (w.file i).m_file_size k)) ++ w.calls ∧
      (wn.file i).m_file_pos = min (w.file i).m_file_size (n * w.BlockSize) ∧
      ((w.file i).m_file_size ≤ n * w.BlockSize →
        ∃ w2, readOnce fuel i wn = some w2 ∧
          w2.calls = .FileHandler i false 0 :: wn.calls ∧ w2.chain i = wn.chain i ∧
          (w2.file i).m_file_pos = (w.file i).m_file_size) ∧
      ∀ N, readLength w.BlockSize (w.file i).m_file_size N = 0 →
        ((List.range N).map (readLength w.BlockSize (w.file i).m_file_size)).sum =
          (w.file i).m_file_size := by
  obtain ⟨fuel, rfl⟩ : ∃ m, fuel = m + 7 := ⟨fuel - 7, by omega⟩
  rw [quiescent_iff] at hq
  obtain ⟨hq1, hp⟩ := hq
  obtain ⟨hb1, hb2, hb3, hpf⟩ := (pending_none_iff w).1 hp
  obtain ⟨f, l, k, hr, hf, hkn, hk⟩ := reads_fileWorld w i hi hq1 hp hBS hbpc0 hbpc hwf hwn
    hstart nc hS32 hS hchain fuel n
  have hf0 := hf
  obtain ⟨s1, s2, s3, s4, s5, s6, s7, s8, s9⟩ := hf
  have hfile := fun g o d dd l q c => fileWorld_file w i g o d dd l q c hi
  have hpos : f.m_file_pos = min (w.file i).m_file_size (n * w.BlockSize) := by
    rw [s4]
    rcases hk with h | h
    · rw [h]
    · have : k * w.BlockSize ≤ n * w.BlockSize := Nat.mul_le_mul_right _ hkn
      omega
  refine ⟨_, hr, ?_, rfl, ?_, ?_, ?_⟩
  · rw [quiescent_iff]
    refine ⟨rfl, ?_⟩
    rw [pending_fileWorld _ _ _ _ _ _ _ _ _ hi hpf hb1 hb2 hb3]
    simp [File.pending, s5, s6, s7, s8]
  · rw [hfile]
    exact hpos
  · intro hn
    have hge : (w.file i).m_file_size ≤ k * w.BlockSize := by
      rcases hk with h | h
      · rw [h]; exact hn
      · exact h
    rw [readOnce_fileWorld w i hi _ f _ _ _ _ _ s1,
      read_eof w i hi hpf hb1 hb2 hb3 _ _ (fuel + 5) k f l _ hf0 hge]
    refine ⟨_, rfl, rfl, ?_, ?_⟩
    · rw [World.chain, World.chain, hfile, hfile]
    · rw [hfile, hpos]
      exact Nat.min_eq_left hn
  · intro N hN
    rw [readLength_sum]
    unfold readLength at hN
    by_cases h0 : w.BlockSize = 0
    · rw [h0] at hS
      simp at hS
      omega
    · omega

end FatFs

namespace FatFs

/-- `File::init` leaves the new file at its start. -/
theorem AtStart_init (w : World) (file_entry : FsEntry) :
    AtStart (File.init w file_entry) w.files.length := by
  simp only [AtStart, File.init, ClusterChain.init, ClusterChain.rewind_internal,
    World.setChain, World.setFile, World.file, World.chain, set_append_singleton,
    getD_append_length, and_self]

/-- `File::rewind` on an idle file leaves it at its start. -/
theorem AtStart_rewind (w : World) (i : Nat) (hi : i < w.files.length)
    (hs : (w.file i).m_state = FileState.IDLE)
    (hc : (w.chain i).m_state = ChainState.IDLE) : AtStart (File.rewind w i) i := by
  have h := getD_set_self w.files i
  simp only [AtStart, File.rewind, ClusterChain.rewind, ClusterChain.rewind_internal,
    World.setChain, World.setFile, World.file, World.chain, List.set_set, h _ hi, and_self,
    and_true]
  exact ⟨hs, hc⟩

theorem sequential_read_witness :
    ∃ wn, reads 7 0 3 sampleOpen = some wn ∧
      wn.calls = [.FileHandler 0 false 0, .FileHandler 0 false 488,
        .FileHandler 0 false 512, .InitHandler 0] ∧
      (wn.file 0).m_file_pos = 1000 := by
  obtain ⟨wn, h1, _, h3, h4, _⟩ := sequential_read sampleOpen 0 7 1 3 (by decide) (by decide)
    (by decide) (by decide) (by decide) (by decide) (by decide) (by decide) (by decide)
    (by decide) (by decide) (by decide)
  exact ⟨wn, h1, by rw [h3]; decide, by rw [h4]; decide⟩

end FatFs

namespace FatFs

/-! ## Worlds seen from one file: the cached data -/

section
variable (w : World) (i : Nat) (f : File) (o : Object) (data : Nat → Buffer)
  (dirty loaded : Nat → Bool) (queue : List QueuedEvent) (calls : List HandlerCall)

@[simp]
theorem fileWorld_setData (b : Nat) (buffer : Buffer) :
    (fileWorld w i f o data dirty loaded queue calls).setData b buffer =
      fileWorld w i f o (fun x => if x = b then buffer else data x) dirty loaded queue
        calls := rfl

@[simp]
theorem fileWorld_markDirty (r : CacheBlockRef) :
    (fileWorld w i f o data dirty loaded queue calls).markDirty r =
      fileWorld w i f o data (fun x => if x = r.block then true else dirty x) loaded queue
        calls := rfl

theorem fileWorld_get_entry_ptr (hi : i < w.files.length) :
    DirEntryRef.get_entry_ptr (fileWorld w i f o data dirty loaded queue calls) i =
      f.m_dir_entry.m_block_offset * 32 := by
  rw [DirEntryRef.get_entry_ptr, fileWorld_file _ _ _ _ _ _ _ _ _ hi]

@[simp]
theorem fileWorld_is_cluster_idx_valid_for_data (x : Nat) :
    is_cluster_idx_valid_for_data (fileWorld w i f o data dirty loaded queue calls) x =
      decide (x ≥ 2 ∧ x - 2 < o.num_valid_clusters) := rfl

end

/-- A write inside a cluster, as the code performs it: the block is written,
`file_pos` advances by `bytes_in_block` in 32-bit arithmetic, `file_size`
follows `file_pos` when it is smaller, in which case the size field of the
directory entry is rewritten, and the request completes without error. -/
theorem write_in_cluster (w : World) (i : Nat) (hi : i < w.files.length)
    (hpf : pendingFiles w.files 0 = none) (o : Object)
    (hb1 : o.block_ref.state ≠ CacheRefState.REQUESTING)
    (hb2 : o.fs_info_block_ref.state ≠ CacheRefState.REQUESTING)
    (hb3 : o.flush_request = false)
    (hbpc : o.blocks_per_cluster < 2 ^ 16)
    (n : Nat) (f : File) (data : Nat → Buffer) (dirty l : Nat → Bool) (c : List HandlerCall)
    (bytes : Nat) (hbytes : 0 < bytes ∧ bytes ≤ w.BlockSize)
    (halign : f.m_file_pos % w.BlockSize = 0)
    (hst : f.m_state = FileState.IDLE) (htaken : f.m_write_ref.m_taken = true)
    (hbic : f.m_block_in_cluster < o.blocks_per_cluster)
    (hval : f.m_chain.m_current_cluster ≥ 2 ∧
      f.m_chain.m_current_cluster - 2 < o.num_valid_clusters)
    (hr1 : f.m_chain.m_fat_cache_ref1.state ≠ CacheRefState.REQUESTING)
    (hr2 : f.m_chain.m_fat_cache_ref2.state ≠ CacheRefState.REQUESTING)
    (hr3 : f.m_dir_entry.m_block_ref.state ≠ CacheRefState.REQUESTING) :
    ∃ u : BlockAccessUser, u.busy = false ∧
    (step (fileWorld w i f o data dirty l [] c) (.File_startWrite i bytes)).bind
        (run (n + 3) []) =
      some (fileWorld w i
        { f with m_state := FileState.IDLE,
                 m_write_bytes_in_block := bytes,
                 m_file_pos := (f.m_file_pos + bytes) % 2 ^ 32,
                 m_file_size := if f.m_file_size < (f.m_file_pos + bytes) % 2 ^ 32
                   then (f.m_file_pos + bytes) % 2 ^ 32 else f.m_file_size,
                 m_block_in_cluster := f.m_block_in_cluster + 1,
                 m_block_user := u }
        o
        (if f.m_file_size < (f.m_file_pos + bytes) % 2 ^ 32 then
          fun x => if x = f.m_dir_entry.m_block_ref.block then
            WriteBinaryInt32 ((f.m_file_pos + bytes) % 2 ^ 32)
              (data f.m_dir_entry.m_block_ref.block)
              (f.m_dir_entry.m_block_offset * 32 + DirEntrySizeOffset)
          else data x
        else data)
        (if f.m_file_size < (f.m_file_pos + bytes) % 2 ^ 32 then
          fun x => if x = f.m_dir_entry.m_block_ref.block then true else dirty x
        else dirty)
        l [] (.FileHandler i false 0 :: c)) := by
  have hfile := fun g o d dd l q c => fileWorld_file w i g o d dd l q c hi
  have hptr := fun g o d dd l q c => fileWorld_get_entry_ptr w i g o d dd l q c hi
  have e4 : (f.m_block_in_cluster + 1) % 2 ^ 16 = f.m_block_in_cluster + 1 :=
    Nat.mod_eq_of_lt (by omega)
  simp only [step, fileWorld_length, hi, hfile, hst, hbytes, halign, gt_iff_lt, and_self,
    if_true, Option.some_bind, File.startWrite, fileWorld_setFile, fileWorld_prepend,
    fileWorld_BlockSize]
  rw [run_file_event]
  simp only [File.event_handler, hfile, WriteReference.isTaken, htaken, Bool.true_eq_false,
    if_false, fileWorld_o, if_neg (Nat.ne_of_lt hbic), ClusterChain.getCurrentCluster,
    World.chain, fileWorld_is_cluster_idx_valid_for_data, hval, decide_True,
    fileWorld_setFile, BlockAccessUser.startWrite, and_self]
  rw [run_fileWorld_answer_nil _ _ _ _ _ _ _ _ _ hi hpf hb1 hb2 hb3 (Input.block_user i)
    (by simp [File.pending, hr1, hr2, hr3])]
  simp only [step, fileWorld_length, hi, hfile, true_and, if_true, Option.some_bind,
    World.answer_block_user, fileWorld_setFile, File.block_user_handler, Bool.false_eq_true,
    if_false, File.complete_request, fileWorld_call]
  by_cases hg : f.m_file_size < (f.m_file_pos + bytes) % 2 ^ 32
  · simp only [hg, if_true, fileWorld_setFile, DirEntryRef.setFileSize, hfile, hptr,
      fileWorld_getData, fileWorld_setData, fileWorld_markDirty, fileWorld_call]
    rw [e4, run_fileWorld_done _ _ _ _ _ _ _ _ _ _ hi hpf hb1 hb2 hb3
      (by simp [File.pending, hr1, hr2, hr3])]
    exact ⟨_, rfl, rfl⟩
  · simp only [hg, if_false, fileWorld_setFile, hfile, fileWorld_call]
    rw [e4, run_fileWorld_done _ _ _ _ _ _ _ _ _ _ hi hpf hb1 hb2 hb3
      (by simp [File.pending, hr1, hr2, hr3])]
    exact ⟨_, rfl, rfl⟩


/-- A write on a file whose write reference is not taken completes with an
error and leaves the file position and size as they are. -/
theorem startWrite_not_taken (w : World) (i fuel bytes : Nat) (hq : quiescent w)
    (hi : i < w.files.length) (hst : (w.file i).m_state = FileState.IDLE)
    (hbytes : 0 < bytes ∧ bytes ≤ w.BlockSize)
    (halign : (w.file i).m_file_pos % w.BlockSize = 0)
    (hnot : (w.file i).m_write_ref.m_taken = false) (hfuel : 2 ≤ fuel) :
    ∃ w2, (step w (.File_startWrite i bytes)).bind (run fuel []) = some w2 ∧
      w2.calls = .FileHandler i true 0 :: w.calls ∧
      (w2.file i).m_file_pos = (w.file i).m_file_pos ∧
      (w2.file i).m_file_size = (w.file i).m_file_size := by
  obtain ⟨n, rfl⟩ : ∃ n, fuel = n + 2 := ⟨fuel - 2, by omega⟩
  rw [quiescent_iff] at hq
  obtain ⟨hq1, hp⟩ := hq
  obtain ⟨hb1, hb2, hb3, hpf⟩ := (pending_none_iff w).1 hp
  have hfile := fun g o d dd l q c => fileWorld_file w i g o d dd l q c hi
  obtain ⟨p1, p2, p3, p4⟩ := File_pending_none _ _ (pendingFiles_none_getD w.files i 0 hi hpf)
  have hw := fileWorld_self w i
  rw [hq1] at hw
  have hp1 : (w.file i).m_chain.m_fat_cache_ref1.state ≠ CacheRefState.REQUESTING := p1
  have hp2 : (w.file i).m_chain.m_fat_cache_ref2.state ≠ CacheRefState.REQUESTING := p2
  have hp3 : (w.file i).m_dir_entry.m_block_ref.state ≠ CacheRefState.REQUESTING := p3
  have hp4 : (w.file i).m_block_user.busy = false := p4
  have hgoal : ∃ w2, (step (fileWorld w i (w.file i) w.o w.data w.dirty w.loaded [] w.calls)
        (.File_startWrite i bytes)).bind (run (n + 2) []) = some w2 ∧
      w2.calls = .FileHandler i true 0 :: w.calls ∧
      (w2.file i).m_file_pos = (w.file i).m_file_pos ∧
      (w2.file i).m_file_size = (w.file i).m_file_size := by
    simp only [step, fileWorld_length, hi, hfile, hst, hbytes, halign, gt_iff_lt, and_self,
      if_true, Option.some_bind, File.startWrite, fileWorld_setFile, fileWorld_prepend,
      fileWorld_BlockSize]
    rw [run_file_event]
    simp only [File.event_handler, hfile, WriteReference.isTaken, hnot, if_true,
      File.complete_request, fileWorld_setFile, fileWorld_call]
    rw [run_fileWorld_done _ _ _ _ _ _ _ _ _ _ hi hpf hb1 hb2 hb3
      (by simp [File.pending, hp1, hp2, hp3, hp4])]
    refine ⟨_, rfl, rfl, ?_, ?_⟩
    · rw [hfile]
    · rw [hfile]
  rw [hw] at hgoal
  exact hgoal

/-- C9, the case that fails: a write that takes `file_pos` to `2 ^ 32` (for
`BlockSize` 512, `file_pos = 0xFFFFFE00` and `bytes_in_block = 512`) completes
without error, but `file_pos` is 0 afterwards, not `file_pos + bytes_in_block`,
and `file_size` has not grown: `m_file_pos += m_write_bytes_in_block` is done
in 32 bits. -/
theorem startWrite_wraps_file_pos (w : World) (i fuel bytes : Nat) (hq : quiescent w)
    (hi : i < w.files.length) (hst : (w.file i).m_state = FileState.IDLE)
    (hbytes : 0 < bytes ∧ bytes ≤ w.BlockSize)
    (halign : (w.file i).m_file_pos % w.BlockSize = 0)
    (htaken : (w.file i).m_write_ref.m_taken = true)
    (hbpc : w.o.blocks_per_cluster < 2 ^ 16)
    (hbic : (w.file i).m_block_in_cluster < w.o.blocks_per_cluster)
    (hval : is_cluster_idx_valid_for_data w (w.chain i).m_current_cluster = true)
    (hover : (w.file i).m_file_pos + bytes = 2 ^ 32) (hfuel : 3 ≤ fuel) :
    ∃ w2, (step w (.File_startWrite i bytes)).bind (run fuel []) = some w2 ∧
      w2.calls = .FileHandler i false 0 :: w.calls ∧
      (w2.file i).m_file_pos = 0 ∧
      (w2.file i).m_file_size = (w.file i).m_file_size := by
  obtain ⟨n, rfl⟩ : ∃ n, fuel = n + 3 := ⟨fuel - 3, by omega⟩
  rw [quiescent_iff] at hq
  obtain ⟨hq1, hp⟩ := hq
  obtain ⟨hb1, hb2, hb3, hpf⟩ := (pending_none_iff w).1 hp
  have hfile := fun g o d dd l q c => fileWorld_file w i g o d dd l q c hi
  obtain ⟨p1, p2, p3, p4⟩ := File_pending_none _ _ (pendingFiles_none_getD w.files i 0 hi hpf)
  have hv : (w.file i).m_chain.m_current_cluster ≥ 2 ∧
      (w.file i).m_chain.m_current_cluster - 2 < w.o.num_valid_clusters := by
    simpa [is_cluster_idx_valid_for_data, World.chain] using hval
  obtain ⟨u, hu, hrun⟩ := write_in_cluster w i hi hpf w.o hb1 hb2 hb3 hbpc n (w.file i)
    w.data w.dirty w.loaded w.calls bytes hbytes halign hst htaken hbic hv p1 p2 p3
  have hw := fileWorld_self w i
  rw [hq1] at hw
  rw [hw] at hrun
  have h0 : ((w.file i).m_file_pos + bytes) % 2 ^ 32 = 0 := by
    rw [hover, Nat.mod_self]
  refine ⟨_, hrun, rfl, ?_, ?_⟩
  · rw [hfile]
    exact h0
  · rw [hfile]
    show (if (w.file i).m_file_size < ((w.file i).m_file_pos + bytes) % 2 ^ 32 then _
      else _) = _
    rw [h0, if_neg (Nat.not_lt_zero _)]

/-- A write inside a cluster that keeps `file_pos` below `2 ^ 32` does what
C9 says: `file_pos` advances by `bytes_in_block`, `file_size` becomes the
larger of its old value and the new `file_pos`, and the size field of the
directory entry is rewritten to the new size exactly when the size grew. -/
theorem startWrite_in_cluster (w : World) (i fuel bytes : Nat) (hq : quiescent w)
    (hi : i < w.files.length) (hst : (w.file i).m_state = FileState.IDLE)
    (hbytes : 0 < bytes ∧ bytes ≤ w.BlockSize)
    (halign : (w.file i).m_file_pos % w.BlockSize = 0)
    (htaken : (w.file i).m_write_ref.m_taken = true)
    (hbpc : w.o.blocks_per_cluster < 2 ^ 16)
    (hbic : (w.file i).m_block_in_cluster < w.o.blocks_per_cluster)
    (hval : is_cluster_idx_valid_for_data w (w.chain i).m_current_cluster = true)
    (hno : (w.file i).m_file_pos + bytes < 2 ^ 32) (hfuel : 3 ≤ fuel) :
    ∃ w2, (step w (.File_startWrite i bytes)).bind (run fuel []) = some w2 ∧
      w2.calls = .FileHandler i false 0 :: w.calls ∧
      (w2.file i).m_file_pos = (w.file i).m_file_pos + bytes ∧
      (w2.file i).m_file_size = max (w.file i).m_file_size ((w2.file i).m_file_pos) ∧
      (w2.file i).m_dir_entry = (w.file i).m_dir_entry ∧
      ((w.file i).m_file_size < (w2.file i).m_file_size →
        DirEntryRef.getFileSize w2 i = (w2.file i).m_file_size) ∧
      (¬ (w.file i).m_file_size < (w2.file i).m_file_size → w2.data = w.data) := by
  obtain ⟨n, rfl⟩ : ∃ n, fuel = n + 3 := ⟨fuel - 3, by omega⟩
  rw [quiescent_iff] at hq
  obtain ⟨hq1, hp⟩ := hq
  obtain ⟨hb1, hb2, hb3, hpf⟩ := (pending_none_iff w).1 hp
  have hfile := fun g o d dd l q c => fileWorld_file w i g o d dd l q c hi
  obtain ⟨p1, p2, p3, p4⟩ := File_pending_none _ _ (pendingFiles_none_getD w.files i 0 hi hpf)
  have hv : (w.file i).m_chain.m_current_cluster ≥ 2 ∧
      (w.file i).m_chain.m_current_cluster - 2 < w.o.num_valid_clusters := by
    simpa [is_cluster_idx_valid_for_data, World.chain] using hval
  obtain ⟨u, hu, hrun⟩ := write_in_cluster w i hi hpf w.o hb1 hb2 hb3 hbpc n (w.file i)
    w.data w.dirty w.loaded w.calls bytes hbytes halign hst htaken hbic hv p1 p2 p3
  have hw := fileWorld_self w i
  rw [hq1] at hw
  rw [hw] at hrun
  have h0 : ((w.file i).m_file_pos + bytes) % 2 ^ 32 = (w.file i).m_file_pos + bytes :=
    Nat.mod_eq_of_lt hno
  rw [h0] at hrun
  by_cases hg : (w.file i).m_file_size < (w.file i).m_file_pos + bytes
  · simp only [hg, if_true] at hrun
    refine ⟨_, hrun, rfl, ?_, ?_, ?_, ?_, ?_⟩
    · rw [hfile]
    · rw [hfile]
      exact (Nat.max_eq_right (Nat.le_of_lt hg)).symm
    · rw [hfile]
    · intro _
      unfold DirEntryRef.getFileSize
      rw [fileWorld_get_entry_ptr _ _ _ _ _ _ _ _ _ hi, hfile, fileWorld_getData]
      simp only [if_true]
      rw [ReadBinaryInt32_WriteBinaryInt32]
      exact Nat.mod_eq_of_lt hno
    · rw [hfile]
      intro hcon
      exact absurd hg hcon
  · simp only [hg, if_false] at hrun
    refine ⟨_, hrun, rfl, ?_, ?_, ?_, ?_, ?_⟩
    · rw [hfile]
    · rw [hfile]
      exact (Nat.max_eq_left (Nat.le_of_not_lt hg)).symm
    · rw [hfile]
    · rw [hfile]
      intro hcon
      exact absurd hcon (Nat.lt_irrefl _)
    · intro _
      rfl

end FatFs

namespace FatFs

theorem startWrite_wraps_file_pos_witness :
    ∃ w2, (step sampleAtLimit (.File_startWrite 0 512)).bind (run 3 []) = some w2 ∧
      w2.calls = .FileHandler 0 false 0 :: sampleAtLimit.calls ∧
      (w2.file 0).m_file_pos = 0 ∧
      (w2.file 0).m_file_size = 0xFFFFFE00 :=
  startWrite_wraps_file_pos sampleAtLimit 0 3 512 (by decide) (by decide) (by decide)
    (by decide) (by decide) (by decide) (by decide) (by decide) (by decide) (by decide)
    (by decide)

end FatFs

namespace FatFs

/-! ## Opening a file for writing: proofs -/

section
variable (w : World) (i : Nat) (f : File) (o : Object) (data : Nat → Buffer)
  (dirty loaded : Nat → Bool) (queue : List QueuedEvent) (calls : List HandlerCall)

theorem fileWorld_take (hi : i < w.files.length) (ht : f.m_write_ref.m_taken = false)
    (hm : o.write_mount_state = WriteMountState.MOUNTED) :
    WriteReference.take (fileWorld w i f o data dirty loaded queue calls) i =
      (fileWorld w i { f with m_write_ref := { m_taken := true } }
        { o with num_write_references := (o.num_write_references + 1) % 2 ^ w.SizeBits }
        data dirty loaded queue calls, true) := by
  unfold WriteReference.take
  rw [fileWorld_file _ _ _ _ _ _ _ _ _ hi, if_pos ht, fileWorld_o, if_neg (by simp [hm])]
  simp only [fileWorld, World.setFile, World.file, List.set_set,
    getD_set_self _ _ _ hi]

theorem fileWorld_take_not_mounted (hi : i < w.files.length)
    (ht : f.m_write_ref.m_taken = false)
    (hm : o.write_mount_state ≠ WriteMountState.MOUNTED) :
    WriteReference.take (fileWorld w i f o data dirty loaded queue calls) i =
      (fileWorld w i f o data dirty loaded queue calls, false) := by
  unfold WriteReference.take
  rw [fileWorld_file _ _ _ _ _ _ _ _ _ hi, if_pos ht, fileWorld_o, if_pos hm]

theorem fileWorld_release (hi : i < w.files.length) (ht : f.m_write_ref.m_taken = true) :
    WriteReference.release (fileWorld w i f o data dirty loaded queue calls) i =
      fileWorld w i { f with m_write_ref := { m_taken := false } }
        { o with num_write_references :=
            (o.num_write_references + 2 ^ w.SizeBits - 1) % 2 ^ w.SizeBits }
        data dirty loaded queue calls := by
  unfold WriteReference.release
  rw [fileWorld_file _ _ _ _ _ _ _ _ _ hi, if_pos ht]
  simp only [fileWorld, World.setFile, World.file, List.set_set,
    getD_set_self _ _ _ hi]

theorem fileWorld_release_untaken (hi : i < w.files.length)
    (ht : f.m_write_ref.m_taken = false) :
    WriteReference.release (fileWorld w i f o data dirty loaded queue calls) i =
      fileWorld w i f o data dirty loaded queue calls := by
  unfold WriteReference.release
  rw [fileWorld_file _ _ _ _ _ _ _ _ _ hi, if_neg (by simp [ht])]

end

end FatFs

namespace FatFs

/-- `startOpenWritable` when the volume is not `MOUNTED`: the request
completes with an error at once. -/
theorem open_writable_not_mounted (w : World) (i : Nat) (hi : i < w.files.length)
    (hpf : pendingFiles w.files 0 = none) (o : Object)
    (hb1 : o.block_ref.state ≠ CacheRefState.REQUESTING)
    (hb2 : o.fs_info_block_ref.state ≠ CacheRefState.REQUESTING)
    (hb3 : o.flush_request = false)
    (n : Nat) (errors : List Bool) (f : File) (data : Nat → Buffer) (dirty l : Nat → Bool)
    (c : List HandlerCall)
    (hst : f.m_state = FileState.IDLE) (ht : f.m_write_ref.m_taken = false)
    (hm : o.write_mount_state ≠ WriteMountState.MOUNTED)
    (hr1 : f.m_chain.m_fat_cache_ref1.state ≠ CacheRefState.REQUESTING)
    (hr2 : f.m_chain.m_fat_cache_ref2.state ≠ CacheRefState.REQUESTING)
    (hr4 : f.m_block_user.busy = false) :
    (step (fileWorld w i f o data dirty l [] c) (.File_startOpenWritable i)).bind
        (run (n + 2) errors) =
      some (fileWorld w i
        { f with m_state := FileState.IDLE,
                 m_dir_entry := { f.m_dir_entry with m_block_ref := CacheBlockRef.reset {},
                                                     m_state := DirEntryRefState.INVALID } }
        o data dirty l [] (.FileHandler i true 0 :: c)) := by
  have hfile := fun g o d dd l q c => fileWorld_file w i g o d dd l q c hi
  have htake := fun g d dd l q c hg =>
    fileWorld_take_not_mounted w i g o d dd l q c hi hg hm
  have hrel := fun g o d dd l q c hg => fileWorld_release_untaken w i g o d dd l q c hi hg
  simp only [step, fileWorld_length, hi, hfile, hst, WriteReference.isTaken, ht, and_self,
    if_true, Option.some_bind, File.startOpenWritable, fileWorld_setFile, fileWorld_prepend]
  rw [run_file_event]
  simp only [File.event_handler, hfile, htake, ht, if_true,
    File.complete_open_writable_request, File.clean_up_writability, hrel,
    DirEntryRef.reset, hfile,
    fileWorld_setFile, File.complete_request, fileWorld_call]
  rw [run_fileWorld_done _ _ _ _ _ _ _ _ _ _ hi hpf hb1 hb2 hb3
    (by simp [File.pending, hr1, hr2, hr4, CacheBlockRef.reset])]
  rfl


/-- `startOpenWritable` on a `MOUNTED` volume: the write reference is taken,
the block of the directory entry is pinned, and the request succeeds when
the pin succeeds and the entry agrees with the `File`; otherwise the
reference is released again and the directory entry reference is reset. -/
theorem open_writable_mounted (w : World) (i : Nat) (hi : i < w.files.length)
    (hpf : pendingFiles w.files 0 = none) (o : Object)
    (hb1 : o.block_ref.state ≠ CacheRefState.REQUESTING)
    (hb2 : o.fs_info_block_ref.state ≠ CacheRefState.REQUESTING)
    (hb3 : o.flush_request = false)
    (n : Nat) (e : Bool) (errors : List Bool) (f : File) (data : Nat → Buffer)
    (dirty l : Nat → Bool) (c : List HandlerCall)
    (hst : f.m_state = FileState.IDLE) (ht : f.m_write_ref.m_taken = false)
    (hm : o.write_mount_state = WriteMountState.MOUNTED)
    (hr1 : f.m_chain.m_fat_cache_ref1.state ≠ CacheRefState.REQUESTING)
    (hr2 : f.m_chain.m_fat_cache_ref2.state ≠ CacheRefState.REQUESTING)
    (hr4 : f.m_block_user.busy = false) :
    ∃ f2 o2 l2 err,
      (step (fileWorld w i f o data dirty l [] c) (.File_startOpenWritable i)).bind
          (run (n + 3) (e :: errors)) =
        some (fileWorld w i f2 o2 data dirty l2 [] (.FileHandler i err 0 :: c)) ∧
      (err = false ↔ (e = false ∧
        mask_cluster_entry (read_dir_entry_first_cluster
            (data (o.block_range.getAbsBlockIndex f.m_dir_entry_block_index))
            (f.m_dir_entry_block_offset * 32)) = f.m_chain.m_first_cluster ∧
        ReadBinaryInt32 (data (o.block_range.getAbsBlockIndex f.m_dir_entry_block_index))
            (f.m_dir_entry_block_offset * 32 + DirEntrySizeOffset) = f.m_file_size)) ∧
      (err = false → f2.m_write_ref.m_taken = true ∧
        o2.num_write_references = (o.num_write_references + 1) % 2 ^ w.SizeBits ∧
        f2.m_dir_entry.m_state = DirEntryRefState.READY) ∧
      (err = true → f2.m_write_ref.m_taken = false ∧
        o2.num_write_references =
          ((o.num_write_references + 1) % 2 ^ w.SizeBits + 2 ^ w.SizeBits - 1)
            % 2 ^ w.SizeBits ∧
        f2.m_dir_entry.m_state = DirEntryRefState.INVALID ∧
        f2.m_dir_entry.m_block_ref.state = CacheRefState.INVALID) := by
  have hfile := fun g o d dd l q c => fileWorld_file w i g o d dd l q c hi
  have hptr := fun g o d dd l q c => fileWorld_get_entry_ptr w i g o d dd l q c hi
  have htake := fun g d dd l q c hg => fileWorld_take w i g o d dd l q c hi hg hm
  have hrel := fun g o d dd l q c hg => fileWorld_release w i g o d dd l q c hi hg
  simp only [step, fileWorld_length, hi, hfile, hst, WriteReference.isTaken, ht, and_self,
    if_true, Option.some_bind, File.startOpenWritable, fileWorld_setFile, fileWorld_prepend]
  rw [run_file_event]
  simp only [File.event_handler, hfile, htake, ht, Bool.true_eq_false, if_false,
    fileWorld_setFile, DirEntryRef.requestEntryRef, World.requestBlock, false_and,
    fileWorld_get_abs_block_index, fileWorld_o]
  rw [run_fileWorld_answer _ _ _ _ _ _ _ _ _ _ _ hi hpf (by simpa using hb1)
    (by simpa using hb2) (by simpa using hb3) (Input.dir_entry_block_ref i)
    (by simp [File.pending, hr1, hr2])]
  cases e with
  | true =>
    simp only [step, fileWorld_length, hi, hfile, true_and, if_true, Option.some_bind,
      World.answer_dir_entry_block_ref, World.blockLoaded, fileWorld_setFile,
      CacheBlockRef.complete, DirEntryRef.block_ref_handler, File.dir_entry_handler,
      File.complete_open_writable_request, File.clean_up_writability, hrel,
      DirEntryRef.reset, File.complete_request, fileWorld_call]
    rw [run_fileWorld_done _ _ _ _ _ _ _ _ _ _ hi hpf (by simpa using hb1)
      (by simpa using hb2) (by simpa using hb3)
      (by simp [File.pending, hr1, hr2, hr4, CacheBlockRef.reset])]
    exact ⟨_, _, _, true, rfl, by simp, by simp, fun _ => ⟨rfl, rfl, rfl, rfl⟩⟩
  | false =>
    simp only [step, fileWorld_length, hi, hfile, true_and, if_true, Option.some_bind,
      World.answer_dir_entry_block_ref, fileWorld_blockLoaded, fileWorld_setFile,
      CacheBlockRef.complete, DirEntryRef.block_ref_handler, File.dir_entry_handler,
      Bool.false_eq_true, if_false, DirEntryRef.getFirstCluster, DirEntryRef.getFileSize,
      ClusterChain.getFirstCluster, World.chain, hptr, fileWorld_getData]
    by_cases h1 : mask_cluster_entry (read_dir_entry_first_cluster
        (data (o.block_range.getAbsBlockIndex f.m_dir_entry_block_index))
        (f.m_dir_entry_block_offset * 32)) = f.m_chain.m_first_cluster
    · by_cases h2 : ReadBinaryInt32
          (data (o.block_range.getAbsBlockIndex f.m_dir_entry_block_index))
          (f.m_dir_entry_block_offset * 32 + DirEntrySizeOffset) = f.m_file_size
      · simp only [h1, h2, ne_eq, not_true_eq_false, if_false,
          File.complete_open_writable_request, Bool.false_eq_true, File.complete_request,
          hfile, fileWorld_setFile, fileWorld_call]
        rw [run_fileWorld_done _ _ _ _ _ _ _ _ _ _ hi hpf (by simpa using hb1)
          (by simpa using hb2) (by simpa using hb3)
          (by simp [File.pending, hr1, hr2, hr4])]
        exact ⟨_, _, _, false, rfl, by simp [h1, h2], fun _ => ⟨rfl, rfl, rfl⟩, by simp⟩
      · simp only [h1, h2, ne_eq, not_true_eq_false, not_false_eq_true, if_false, if_true,
          File.complete_open_writable_request, File.clean_up_writability, hrel,
          DirEntryRef.reset, hfile, File.complete_request, fileWorld_setFile, fileWorld_call]
        rw [run_fileWorld_done _ _ _ _ _ _ _ _ _ _ hi hpf (by simpa using hb1)
          (by simpa using hb2) (by simpa using hb3)
          (by simp [File.pending, hr1, hr2, hr4, CacheBlockRef.reset])]
        exact ⟨_, _, _, true, rfl, by simp [h2], by simp, fun _ => ⟨rfl, rfl, rfl, rfl⟩⟩
    · simp only [h1, ne_eq, not_false_eq_true, if_true,
        File.complete_open_writable_request, File.clean_up_writability, hrel,
        DirEntryRef.reset, hfile, File.complete_request, fileWorld_setFile, fileWorld_call]
      rw [run_fileWorld_done _ _ _ _ _ _ _ _ _ _ hi hpf (by simpa using hb1)
        (by simpa using hb2) (by simpa using hb3)
        (by simp [File.pending, hr1, hr2, hr4, CacheBlockRef.reset])]
      exact ⟨_, _, _, true, rfl, by simp [h1], by simp, fun _ => ⟨rfl, rfl, rfl, rfl⟩⟩


theorem succ_pred_mod (x M : Nat) (h : x < M) : ((x + 1) % M + M - 1) % M = x := by
  by_cases hx : x + 1 = M
  · rw [hx, Nat.mod_self, Nat.zero_add, Nat.mod_eq_of_lt (by omega)]
    omega
  · rw [Nat.mod_eq_of_lt (by omega : x + 1 < M)]
    have : x + 1 + M - 1 = x + M := by omega
    rw [this, Nat.add_mod_right, Nat.mod_eq_of_lt h]

/-- C10: `startOpenWritable` on an idle file without write reference completes
with `error = false` exactly when the volume is `MOUNTED`, the block of the
directory entry is pinned without error, the first cluster of the entry
(masked to 28 bits) is the first cluster of the chain and the size field of
the entry is `file_size`.  When it completes with `error = true` the file
holds no write reference, `num_write_references` is what it was before the
call, and the directory entry reference is `INVALID` and unpinned; when it
succeeds the reference is taken and the directory entry is `READY`. -/
theorem startOpenWritable_succeeds_iff (w : World) (i fuel : Nat) (e : Bool)
    (rest : List Bool) (hq : quiescent w) (hi : i < w.files.length)
    (hst : (w.file i).m_state = FileState.IDLE)
    (ht : WriteReference.isTaken w i = false)
    (hnum : w.o.num_write_references < 2 ^ w.SizeBits) (hfuel : 3 ≤ fuel) :
    ∃ w2 err, (step w (.File_startOpenWritable i)).bind (run fuel (e :: rest)) = some w2 ∧
      w2.calls = .FileHandler i err 0 :: w.calls ∧
      (err = false ↔ OpenConditions w i e) ∧
      (err = true → WriteReference.isTaken w2 i = false ∧
        w2.o.num_write_references = w.o.num_write_references ∧
        (w2.file i).m_dir_entry.m_state = DirEntryRefState.INVALID ∧
        (w2.file i).m_dir_entry.m_block_ref.state = CacheRefState.INVALID) ∧
      (err = false → WriteReference.isTaken w2 i = true ∧
        w2.o.num_write_references = (w.o.num_write_references + 1) % 2 ^ w.SizeBits ∧
        (w2.file i).m_dir_entry.m_state = DirEntryRefState.READY) := by
  obtain ⟨n, rfl⟩ : ∃ n, fuel = n + 3 := ⟨fuel - 3, by omega⟩
  rw [quiescent_iff] at hq
  obtain ⟨hq1, hp⟩ := hq
  obtain ⟨hb1, hb2, hb3, hpf⟩ := (pending_none_iff w).1 hp
  have hfile := fun g o d dd l q c => fileWorld_file w i g o d dd l q c hi
  obtain ⟨p1, p2, p3, p4⟩ := File_pending_none _ _ (pendingFiles_none_getD w.files i 0 hi hpf)
  have hw := fileWorld_self w i
  rw [hq1] at hw
  by_cases hm : w.o.write_mount_state = WriteMountState.MOUNTED
  · obtain ⟨f2, o2, l2, err, hrun, hiff, hok, herr⟩ := open_writable_mounted w i hi hpf w.o
      hb1 hb2 hb3 n e rest (w.file i) w.data w.dirty w.loaded w.calls hst ht hm p1 p2 p4
    rw [hw] at hrun
    refine ⟨_, err, hrun, rfl, ?_, ?_, ?_⟩
    · rw [hiff]
      unfold OpenConditions
      simp only [hm, true_and]
      rfl
    · intro h
      obtain ⟨a1, a2, a3, a4⟩ := herr h
      refine ⟨?_, ?_, ?_, ?_⟩
      · rw [WriteReference.isTaken, hfile]; exact a1
      · show o2.num_write_references = _
        rw [a2]; exact succ_pred_mod _ _ hnum
      · rw [hfile]; exact a3
      · rw [hfile]; exact a4
    · intro h
      obtain ⟨a1, a2, a3⟩ := hok h
      refine ⟨?_, a2, ?_⟩
      · rw [WriteReference.isTaken, hfile]; exact a1
      · rw [hfile]; exact a3
  · have hrun := open_writable_not_mounted w i hi hpf w.o hb1 hb2 hb3 (n + 1) (e :: rest)
      (w.file i) w.data w.dirty w.loaded w.calls hst ht hm p1 p2 p4
    rw [hw] at hrun
    refine ⟨_, true, hrun, rfl, ?_, ?_, ?_⟩
    · constructor
      · intro h; exact absurd h (by simp)
      · intro h; exact absurd h.1 hm
    · intro _
      refine ⟨?_, rfl, ?_, ?_⟩
      · rw [WriteReference.isTaken, hfile]; exact ht
      · rw [hfile]
      · rw [hfile]; rfl
    · intro h; exact absurd h (by simp)

end FatFs

namespace FatFs

theorem startOpenWritable_succeeds_iff_witness :
    OpenConditions sampleDirOpen 0 false ∧
    ∃ w2, (step sampleDirOpen (.File_startOpenWritable 0)).bind (run 3 [false]) = some w2 ∧
      w2.calls = .FileHandler 0 false 0 :: sampleDirOpen.calls ∧
      WriteReference.isTaken w2 0 = true := by
  obtain ⟨w2, err, h1, h2, h3, _, h5⟩ := startOpenWritable_succeeds_iff sampleDirOpen 0 3 false []
    (by decide) (by decide) (by decide) (by decide) (by decide) (by decide)
  have hc : OpenConditions sampleDirOpen 0 false := by decide
  have he : err = false := h3.2 hc
  subst he
  exact ⟨hc, w2, h1, h2, (h5 rfl).1⟩

end FatFs

namespace FatFs

theorem ReadBinaryInt16_WriteBinaryInt16 (value : Nat) (buffer : Buffer) (off : Nat) :
    ReadBinaryInt16 (WriteBinaryInt16 value buffer off) off = value % 65536 := by
  simp only [ReadBinaryInt16, WriteBinaryInt16]
  simp
  omega

theorem ReadBinaryInt16_WriteBinaryInt16_disjoint (value : Nat) (buffer : Buffer)
    (off off2 : Nat) (h : off2 + 2 ≤ off ∨ off + 2 ≤ off2) :
    ReadBinaryInt16 (WriteBinaryInt16 value buffer off) off2 = ReadBinaryInt16 buffer off2 := by
  simp only [ReadBinaryInt16, WriteBinaryInt16]
  have h1 : off2 ≠ off := by omega
  have h2 : off2 ≠ off + 1 := by omega
  have h3 : off2 + 1 ≠ off := by omega
  have h4 : off2 + 1 ≠ off + 1 := by omega
  simp [h1, h2, h3, h4]

/-- What `write_dir_entry_first_cluster` stores is what
`read_dir_entry_first_cluster` reads. -/
theorem read_write_dir_entry_first_cluster (value : Nat) (buffer : Buffer) (p : Nat)
    (hv : value < 2 ^ 32) :
    read_dir_entry_first_cluster (write_dir_entry_first_cluster value buffer p) p = value := by
  unfold read_dir_entry_first_cluster write_dir_entry_first_cluster
  rw [ReadBinaryInt16_WriteBinaryInt16,
    ReadBinaryInt16_WriteBinaryInt16_disjoint _ _ _ _ (by omega),
    ReadBinaryInt16_WriteBinaryInt16]
  simp only [Nat.shiftRight_zero, Nat.shiftLeft_zero, Nat.shiftRight_eq_div_pow]
  have h16 : (2 : Nat) ^ 16 = 65536 := by norm_num
  have h32 : (2 : Nat) ^ 32 = 4294967296 := by norm_num
  rw [h16]
  rw [h32] at hv
  have hlt : value % 65536 < 2 ^ 16 := by rw [h16]; omega
  simp only [Nat.pow_zero, Nat.div_one]
  rw [Nat.shiftLeft_eq, Nat.mul_comm, Nat.lor_comm, ← Nat.mul_add_lt_is_or hlt, h16]
  omega

/-- After `setFirstCluster(value)` the directory entry reads back `value`
(for a 28-bit `value`): no value is translated on the way. -/
theorem getFirstCluster_setFirstCluster (w : World) (i value : Nat) (hv : value < 2 ^ 28) :
    DirEntryRef.getFirstCluster (DirEntryRef.setFirstCluster w i value) i = value := by
  have h28 : (2 : Nat) ^ 28 = 268435456 := by norm_num
  rw [h28] at hv
  have hfile : (DirEntryRef.setFirstCluster w i value).file i = w.file i := rfl
  unfold DirEntryRef.getFirstCluster
  rw [hfile]
  have hptr : DirEntryRef.get_entry_ptr (DirEntryRef.setFirstCluster w i value) i =
      DirEntryRef.get_entry_ptr w i := rfl
  rw [hptr]
  have hdata : (DirEntryRef.setFirstCluster w i value).getData (w.file i).m_dir_entry.m_block_ref
      = write_dir_entry_first_cluster
          (update_cluster_entry
            (read_dir_entry_first_cluster (w.getData (w.file i).m_dir_entry.m_block_ref)
              (DirEntryRef.get_entry_ptr w i)) value)
          (w.getData (w.file i).m_dir_entry.m_block_ref) (DirEntryRef.get_entry_ptr w i) := by
    simp [DirEntryRef.setFirstCluster, World.getData, World.setData, World.markDirty]
  rw [hdata, read_write_dir_entry_first_cluster _ _ _
    (by
      have := update_cluster_entry_lt
        (read_dir_entry_first_cluster (w.getData (w.file i).m_dir_entry.m_block_ref)
          (DirEntryRef.get_entry_ptr w i)) value (by omega)
      have h32 : (2 : Nat) ^ 32 = 4294967296 := by norm_num
      omega)]
  exact mask_update_cluster_entry _ _ hv

/-- C12, the failing case on the sample volume: the sample file (chain 3, 4)
is opened for writing and truncated at its start; the truncate completes
without error and frees both clusters, and the first cluster stored in the
directory entry is then `0x0FFFFFFF` (`EndOfChainMarker`), not 0. -/
theorem truncate_at_start_stores_end_marker :
    sampleTruncated.calls.head? = some (.FileHandler 0 false 0) ∧
    fatNext sampleTruncated 3 = 0 ∧ fatNext sampleTruncated 4 = 0 ∧
    (sampleTruncated.chain 0).m_first_cluster = EndOfChainMarker ∧
    DirEntryRef.getFirstCluster sampleTruncated 0 = 0x0FFFFFFF := by
  decide

end FatFs

namespace FatFs

/-- C13 as stated fails: in scenario S4 the file size after the truncate is
not 1024, the first cluster has no second cluster after it, and the free
cluster count of the FS information sector is not one higher than before the
truncate. -/
theorem scenario_S4_as_claimed_fails :
    s4Truncated.calls = [.FileHandler 0 false 0, .FileHandler 0 false 0, .FileHandler 0 false 0,
      .FileHandler 0 false 0, .FileHandler 0 false 0, .WriteMountHandler false,
      .InitHandler 0] ∧
    (s4Truncated.file 0).m_file_size ≠ 1024 ∧
    is_cluster_idx_normal (fatNext s4Truncated (s4Truncated.chain 0).m_first_cluster) = false ∧
    fsInfoFreeClusters s4Truncated ≠ fsInfoFreeClusters s4Written + 1 := by
  decide

/-- C13, amended: in scenario S4 (clusters of 8 blocks of 512 bytes, the chain
of the file starts at cluster 2) all of `startOpenWritable`, the three
`startWrite` calls of 512 bytes and the `startTruncate` complete without
error; the three blocks lie in the first cluster, so that the truncate is at
position 1536: the file size is 1536, the chain is still cluster 2 followed by
`0x0FFFFFFF`, the FAT entries of the clusters 4 to 9 are 0 as before, and the
free cluster count of the FS information sector is what it was before the
truncate. -/
theorem scenario_S4 :
    s4Truncated.calls = [.FileHandler 0 false 0, .FileHandler 0 false 0, .FileHandler 0 false 0,
      .FileHandler 0 false 0, .FileHandler 0 false 0, .WriteMountHandler false,
      .InitHandler 0] ∧
    (s4Written.file 0).m_file_pos = 1536 ∧
    (s4Truncated.file 0).m_file_size = 1536 ∧
    DirEntryRef.getFileSize s4Truncated 0 = 1536 ∧
    (s4Truncated.chain 0).m_first_cluster = 2 ∧
    fatNext s4Truncated 2 = 0x0FFFFFFF ∧
    (∀ c, c < 10 → 4 ≤ c → fatNext s4Truncated c = 0) ∧
    (∀ c, c < 10 → fatNext s4Truncated c = fatNext s4Written c) ∧
    fsInfoFreeClusters s4Truncated = fsInfoFreeClusters s4Written ∧
    fsInfoFreeClusters s4Written = 6 := by
  decide

end FatFs

namespace FatFs

/-- C22, the failing case: two boot blocks that fail at different validation
checks get the same error code.  `bootNoFat` fails the check
`sectors_per_fat == 0 || sectors_per_fat > UINT32_MAX / entries_per_sector`;
`bootFatBeyondEnd` passes it (its `sectors_per_fat` is 1000, and
`entries_per_sector` is 128) and fails the following check
`fat_end_sectors_calc > length / blocks_per_sector`; both reach
`InitHandler` with code 29. -/
theorem init_error_code_29_twice :
    ReadBinaryInt32 bootNoFat 0x24 = 0 ∧
    initCode bootNoFat = some [.InitHandler 29] ∧
    ReadBinaryInt32 bootFatBeyondEnd 0x24 = 1000 ∧
    ReadBinaryInt16 bootFatBeyondEnd 0xB / 4 = 128 ∧
    ¬ (1000 = 0 ∨ 1000 > UINT32_MAX / 128) ∧
    ReadBinaryInt16 bootFatBeyondEnd 0xE + ReadBinaryInt8 bootFatBeyondEnd 0x10 * 1000 > 100 ∧
    initCode bootFatBeyondEnd = some [.InitHandler 29] := by
  decide

end FatFs

namespace FatFs

/-! ## FAT entries under updates -/

theorem fatNext_eq_fatOf (w : World) (y : Nat) : fatNext w y = fatOf w w.data y := rfl

theorem fat_ptr_disjoint (w : World) (y z : Nat)
    (hb : get_abs_block_index_for_fat_entry w z = get_abs_block_index_for_fat_entry w y)
    (hne : z ≠ y) :
    get_fat_ptr_in_cache_block w z + 4 ≤ get_fat_ptr_in_cache_block w y ∨
      get_fat_ptr_in_cache_block w y + 4 ≤ get_fat_ptr_in_cache_block w z := by
  simp only [get_abs_block_index_for_fat_entry, get_abs_block_index,
    BlockRange.getAbsBlockIndex] at hb
  have hdiv : z / w.FatEntriesPerBlock = y / w.FatEntriesPerBlock := by omega
  have hmod : z % w.FatEntriesPerBlock ≠ y % w.FatEntriesPerBlock := by
    intro h
    apply hne
    rw [← Nat.div_add_mod z w.FatEntriesPerBlock, ← Nat.div_add_mod y w.FatEntriesPerBlock,
      hdiv, h]
  unfold get_fat_ptr_in_cache_block
  omega

theorem fatOf_fatWrite_self (w : World) (data : Nat → Buffer) (y v : Nat)
    (hv : v < 268435456) : fatOf w (fatWrite w data y v) y = v := by
  unfold fatOf fatWrite
  rw [if_pos rfl, ReadBinaryInt32_WriteBinaryInt32,
    Nat.mod_eq_of_lt (update_cluster_entry_lt _ _ (by omega))]
  exact mask_update_cluster_entry _ _ hv

theorem fatOf_fatWrite_other (w : World) (data : Nat → Buffer) (y v z : Nat)
    (hne : z ≠ y) :
    fatOf w (fatWrite w data y v) z = fatOf w data z := by
  unfold fatOf fatWrite
  by_cases hb : get_abs_block_index_for_fat_entry w z = get_abs_block_index_for_fat_entry w y
  · rw [if_pos hb, ReadBinaryInt32_WriteBinaryInt32_disjoint _ _ _ _
      (fat_ptr_disjoint w y z hb hne), hb]
  · rw [if_neg hb]

theorem fatOf_fsInfoUpdate (w : World) (data : Nat → Buffer) (b : Bool) (z : Nat)
    (hz : get_abs_block_index_for_fat_entry w z ≠ w.o.fs_info_block_ref.block) :
    fatOf w (fsInfoUpdate w data b) z = fatOf w data z := by
  unfold fatOf fsInfoUpdate
  split_ifs with h <;> simp only [if_neg hz]

theorem fatOf_dirEntryFirst (w : World) (f : File) (data : Nat → Buffer) (v z : Nat)
    (hz : get_abs_block_index_for_fat_entry w z ≠ f.m_dir_entry.m_block_ref.block) :
    fatOf w (dirEntryFirst f data v) z = fatOf w data z := by
  unfold fatOf dirEntryFirst
  simp only [if_neg hz]

theorem fatOf_setData_other (w : World) (data : Nat → Buffer) (b : Nat) (buffer : Buffer)
    (z : Nat) (hz : get_abs_block_index_for_fat_entry w z ≠ b) :
    fatOf w (fun x => if x = b then buffer else data x) z = fatOf w data z := by
  unfold fatOf
  simp only [if_neg hz]

/-! ## Chains -/

theorem chainFrom_congr (fat fat2 : Nat → Nat) (start : Nat) (ds : List Nat) (t : Nat)
    (h : ∀ d ∈ ds, fat2 d = fat d) (hc : chainFrom fat start ds t) :
    chainFrom fat2 start ds t := by
  induction ds generalizing start with
  | nil => exact hc
  | cons d ds ih =>
    obtain ⟨h1, h2⟩ := hc
    refine ⟨h1, ?_⟩
    rw [h d (List.mem_cons_self _ _)]
    exact ih _ (fun x hx => h x (List.mem_cons_of_mem _ hx)) h2

/-- A chain split at one of its clusters: the part up to `c`, and the part
after it. -/
theorem chainFrom_split (fat : Nat → Nat) (start : Nat) (pre : List Nat) (c : Nat)
    (xs : List Nat) (t : Nat) (hc : chainFrom fat start (pre ++ c :: xs) t) :
    chainFrom fat (fat c) xs t ∧
      ∀ fat2 : Nat → Nat, (∀ d ∈ pre, fat2 d = fat d) → ∀ t2, fat2 c = t2 →
        chainFrom fat2 start (pre ++ [c]) t2 := by
  induction pre generalizing start with
  | nil =>
    obtain ⟨h1, h2⟩ := hc
    exact ⟨h2, fun fat2 _ t2 h => ⟨h1, h⟩⟩
  | cons d pre ih =>
    obtain ⟨h1, h2⟩ := hc
    obtain ⟨a, b⟩ := ih _ h2
    refine ⟨a, fun fat2 hf t2 h => ⟨h1, ?_⟩⟩
    rw [hf d (List.mem_cons_self _ _)]
    exact b fat2 (fun x hx => hf x (List.mem_cons_of_mem _ hx)) t2 h

end FatFs

namespace FatFs

/-! ## The truncation of a chain, step by step -/

theorem fileWorld_update_fat (w : World) (i : Nat) (f : File) (data : Nat → Buffer)
    (dirty loaded : Nat → Bool) (queue : List QueuedEvent) (calls : List HandlerCall)
    (y v : Nat) :
    update_fat_entry_in_cache_block (fileWorld w i f w.o data dirty loaded queue calls)
        { state := .READY, block := get_abs_block_index_for_fat_entry w y } y v =
      fileWorld w i f w.o (fatWrite w data y v)
        (fun x => if x = get_abs_block_index_for_fat_entry w y then true else dirty x)
        loaded queue calls := rfl

theorem fileWorld_update_fs_info (w : World) (i : Nat) (f : File) (data : Nat → Buffer)
    (dirty loaded : Nat → Bool) (queue : List QueuedEvent) (calls : List HandlerCall)
    (b : Bool) :
    update_fs_info_free_clusters (fileWorld w i f w.o data dirty loaded queue calls) b =
      fileWorld w i f w.o (fsInfoUpdate w data b) (fsInfoDirty w data dirty) loaded queue
        calls := by
  unfold update_fs_info_free_clusters fsInfoUpdate fsInfoDirty
  simp only [fileWorld_getData, fileWorld_o]
  split_ifs with h <;> rfl

theorem fileWorld_setFirstCluster (w : World) (i : Nat) (hi : i < w.files.length) (f : File)
    (o : Object) (data : Nat → Buffer) (dirty loaded : Nat → Bool)
    (queue : List QueuedEvent) (calls : List HandlerCall) (value : Nat) :
    DirEntryRef.setFirstCluster (fileWorld w i f o data dirty loaded queue calls) i value =
      fileWorld w i f o (dirEntryFirst f data value)
        (fun x => if x = f.m_dir_entry.m_block_ref.block then true else dirty x)
        loaded queue calls := by
  have hfile := fun g o d dd l q c => fileWorld_file w i g o d dd l q c hi
  have hptr := fun g o d dd l q c => fileWorld_get_entry_ptr w i g o d dd l q c hi
  unfold DirEntryRef.setFirstCluster dirEntryFirst
  simp only [hfile, hptr, fileWorld_getData, fileWorld_setData, fileWorld_markDirty]

/-- The FAT block of the current cluster is fetched when it is not at hand. -/
theorem truncate_pin1 (w : World) (i : Nat) (hi : i < w.files.length)
    (hpf : pendingFiles w.files 0 = none)
    (hb1 : w.o.block_ref.state ≠ CacheRefState.REQUESTING)
    (hb2 : w.o.fs_info_block_ref.state ≠ CacheRefState.REQUESTING)
    (hb3 : w.o.flush_request = false)
    (f : File) (hcs : f.m_chain.m_state = ChainState.TRUNCATE_CHECK)
    (hnorm : is_cluster_idx_normal f.m_chain.m_current_cluster = true)
    (hfat : is_cluster_idx_valid_for_fat w f.m_chain.m_current_cluster = true)
    (k : Nat) (r1 r2 : CacheBlockRef) (data : Nat → Buffer) (dirty l : Nat → Bool)
    (cs : List HandlerCall)
    (himm : ¬ Immediate l r1 (get_abs_block_index_for_fat_entry w f.m_chain.m_current_cluster)) :
    run (k + 2) [] (chainWorld w i f r1 r2 data dirty l cs) =
      run k [] (chainWorld w i f
        { state := .READY,
          block := get_abs_block_index_for_fat_entry w f.m_chain.m_current_cluster }
        r2 data dirty
        (fun b => if b = get_abs_block_index_for_fat_entry w f.m_chain.m_current_cluster
          then true else l b) cs) := by
  have hfile := fun g o d dd l q c => fileWorld_file w i g o d dd l q c hi
  have hfat2 : ∀ g d dd l q c, is_cluster_idx_valid_for_fat (fileWorld w i g w.o d dd l q c)
      f.m_chain.m_current_cluster = true := fun _ _ _ _ _ _ => hfat
  have hc2 : ¬ ((r1.state = CacheRefState.READY ∧
        r1.block = w.o.block_range.getAbsBlockIndex (w.o.num_reserved_blocks +
            f.m_chain.m_current_cluster / w.FatEntriesPerBlock)) ∨
      l (w.o.block_range.getAbsBlockIndex (w.o.num_reserved_blocks +
            f.m_chain.m_current_cluster / w.FatEntriesPerBlock)) = true) := himm
  unfold chainWorld
  rw [run_chain_event]
  simp only [↓reduceIte, ClusterChain.event_handler, World.chain, hfile, hcs, hnorm, hfat2,
    request_fat_cache_block, World.requestBlock, fileWorld_loaded,
    fileWorld_get_abs_block_index_for_fat_entry, hc2, and_false, and_self, true_and,
    World.setChain, fileWorld_setFile, if_true, Bool.false_eq_true, if_false,
    Bool.true_eq_false]
  rw [run_fileWorld_answer_nil _ _ _ _ _ _ _ _ _ hi hpf hb1 hb2 hb3 (Input.fat_cache_ref1 i)
    (by simp [File.pending])]
  simp only [↓reduceIte, step, fileWorld_length, hi, World.chain, hfile, true_and, if_true,
    Option.some_bind, World.answer_fat_cache_ref1, fileWorld_blockLoaded, World.setChain,
    fileWorld_setFile, CacheBlockRef.complete, Bool.false_eq_true, if_false,
    ClusterChain.fat_cache_ref_handler, fileWorld_prepend, and_self]
  rfl


theorem truncate_event_not_normal (w : World) (i : Nat) (hi : i < w.files.length)
    (f : File) (hst : f.m_state = FileState.TRUNC_CHAIN)
    (hcs : f.m_chain.m_state = ChainState.TRUNCATE_CHECK)
    (r1 r2 : CacheBlockRef) (data : Nat → Buffer) (dirty l : Nat → Bool)
    (cs : List HandlerCall)
    (hnorm : is_cluster_idx_normal f.m_chain.m_current_cluster = false) :
    ClusterChain.event_handler (fileWorld w i
          { f with m_chain := { f.m_chain with m_fat_cache_ref1 := r1,
                                               m_fat_cache_ref2 := r2 } }
          w.o data dirty l [] cs) i =
      fileWorld w i
        { f with
          m_state := FileState.IDLE,
          m_chain :=
            { f.m_chain with
              m_state := ChainState.IDLE,
              m_fat_cache_ref1 := CacheBlockRef.reset {},
              m_fat_cache_ref2 := CacheBlockRef.reset {} } }
        w.o data dirty l [] (.FileHandler i false 0 :: cs) := by
  have hfile := fun g o d dd l q c => fileWorld_file w i g o d dd l q c hi
  have hfat2 : ∀ g d dd l q c y, is_cluster_idx_valid_for_fat (fileWorld w i g w.o d dd l q c)
      y = is_cluster_idx_valid_for_fat w y := fun _ _ _ _ _ _ _ => rfl
  have hF : ∀ y, mask_cluster_entry (ReadBinaryInt32
      (data (get_abs_block_index_for_fat_entry w y))
      (4 * (y % w.FatEntriesPerBlock))) = fatOf w data y := fun _ => rfl
  have hB : ∀ y, w.o.block_range.getAbsBlockIndex (w.o.num_reserved_blocks +
      y / w.FatEntriesPerBlock) = get_abs_block_index_for_fat_entry w y := fun _ => rfl
  simp only [↓reduceIte, ClusterChain.event_handler, World.chain, hfile, hcs, hnorm, hfat2,
    World.setChain, fileWorld_setFile, if_true, Bool.false_eq_true, if_false,
    Bool.true_eq_false, ClusterChain.complete_request, File.chain_handler, hst,
    File.complete_request, fileWorld_call]
  rfl

theorem truncate_event_free (w : World) (i : Nat) (hi : i < w.files.length)
    (f : File) (hst : f.m_state = FileState.TRUNC_CHAIN)
    (hcs : f.m_chain.m_state = ChainState.TRUNCATE_CHECK)
    (r1 r2 : CacheBlockRef) (data : Nat → Buffer) (dirty l : Nat → Bool)
    (cs : List HandlerCall)
    (hnorm : is_cluster_idx_normal f.m_chain.m_current_cluster = true)
    (hfat : is_cluster_idx_valid_for_fat w f.m_chain.m_current_cluster = true)
    (himm : Immediate l r1 (get_abs_block_index_for_fat_entry w f.m_chain.m_current_cluster))
    (hnext : is_cluster_idx_normal (fatOf w data f.m_chain.m_current_cluster) = false)
    (hit : f.m_chain.m_iter_state = IterState.START) :
    ∃ dirty2,
    ClusterChain.event_handler (fileWorld w i
          { f with m_chain := { f.m_chain with m_fat_cache_ref1 := r1,
                                               m_fat_cache_ref2 := r2 } }
          w.o data dirty l [] cs) i =
      fileWorld w i
        { f with
          m_state := FileState.IDLE,
          m_chain :=
            { f.m_chain with
              m_state := ChainState.IDLE,
              m_first_cluster := EndOfChainMarker,
              m_current_cluster := EndOfChainMarker,
              m_fat_cache_ref1 := CacheBlockRef.reset {},
              m_fat_cache_ref2 := CacheBlockRef.reset {} } }
        w.o (dirEntryFirst f
          (fsInfoUpdate w (fatWrite w data f.m_chain.m_current_cluster 0) true)
          EndOfChainMarker) dirty2 l [] (.FileHandler i false 0 :: cs) := by
  have hfile := fun g o d dd l q c => fileWorld_file w i g o d dd l q c hi
  have hfat2 : ∀ g d dd l q c y, is_cluster_idx_valid_for_fat (fileWorld w i g w.o d dd l q c)
      y = is_cluster_idx_valid_for_fat w y := fun _ _ _ _ _ _ _ => rfl
  have hF : ∀ y, mask_cluster_entry (ReadBinaryInt32
      (data (get_abs_block_index_for_fat_entry w y))
      (4 * (y % w.FatEntriesPerBlock))) = fatOf w data y := fun _ => rfl
  have hB : ∀ y, w.o.block_range.getAbsBlockIndex (w.o.num_reserved_blocks +
      y / w.FatEntriesPerBlock) = get_abs_block_index_for_fat_entry w y := fun _ => rfl
  have hc2 : (r1.state = CacheRefState.READY ∧
        r1.block = get_abs_block_index_for_fat_entry w f.m_chain.m_current_cluster) ∨
      l (get_abs_block_index_for_fat_entry w f.m_chain.m_current_cluster) = true := himm
  have hupd := fun g d dd l q c y v => fileWorld_update_fat w i g d dd l q c y v
  have hfsi := fun g d dd l q c b => fileWorld_update_fs_info w i g d dd l q c b
  have hsfc := fun g o d dd l q c v => fileWorld_setFirstCluster w i hi g o d dd l q c v
  simp only [↓reduceIte, ClusterChain.event_handler, World.chain, hfile, hcs, hnorm, hfat2,
    World.setChain, fileWorld_setFile, if_true, Bool.false_eq_true, if_false,
    Bool.true_eq_false, ClusterChain.complete_request, File.chain_handler, hst,
    File.complete_request, fileWorld_call, hfat,
    request_fat_cache_block, World.requestBlock, fileWorld_loaded,
    fileWorld_get_abs_block_index_for_fat_entry, hB, hc2, and_self, true_and,
    fileWorld_read_fat_entry, hF, hnext, hit, hupd,
    FreeClusterMarker, hfsi, ClusterChain.getFirstCluster, hsfc]
  exact ⟨_, rfl⟩

theorem truncate_event_keep (w : World) (i : Nat) (hi : i < w.files.length)
    (f : File) (hst : f.m_state = FileState.TRUNC_CHAIN)
    (hcs : f.m_chain.m_state = ChainState.TRUNCATE_CHECK)
    (r1 r2 : CacheBlockRef) (data : Nat → Buffer) (dirty l : Nat → Bool)
    (cs : List HandlerCall)
    (hnorm : is_cluster_idx_normal f.m_chain.m_current_cluster = true)
    (hfat : is_cluster_idx_valid_for_fat w f.m_chain.m_current_cluster = true)
    (himm : Immediate l r1 (get_abs_block_index_for_fat_entry w f.m_chain.m_current_cluster))
    (hnext : is_cluster_idx_normal (fatOf w data f.m_chain.m_current_cluster) = false)
    (hit : f.m_chain.m_iter_state ≠ IterState.START) :
    ClusterChain.event_handler (fileWorld w i
          { f with m_chain := { f.m_chain with m_fat_cache_ref1 := r1,
                                               m_fat_cache_ref2 := r2 } }
          w.o data dirty l [] cs) i =
      fileWorld w i
        { f with
          m_state := FileState.IDLE,
          m_chain :=
            { f.m_chain with
              m_state := ChainState.IDLE,
              m_fat_cache_ref1 := CacheBlockRef.reset {},
              m_fat_cache_ref2 := CacheBlockRef.reset {} } }
        w.o data dirty l [] (.FileHandler i false 0 :: cs) := by
  have hfile := fun g o d dd l q c => fileWorld_file w i g o d dd l q c hi
  have hfat2 : ∀ g d dd l q c y, is_cluster_idx_valid_for_fat (fileWorld w i g w.o d dd l q c)
      y = is_cluster_idx_valid_for_fat w y := fun _ _ _ _ _ _ _ => rfl
  have hF : ∀ y, mask_cluster_entry (ReadBinaryInt32
      (data (get_abs_block_index_for_fat_entry w y))
      (4 * (y % w.FatEntriesPerBlock))) = fatOf w data y := fun _ => rfl
  have hB : ∀ y, w.o.block_range.getAbsBlockIndex (w.o.num_reserved_blocks +
      y / w.FatEntriesPerBlock) = get_abs_block_index_for_fat_entry w y := fun _ => rfl
  have hc2 : (r1.state = CacheRefState.READY ∧
        r1.block = get_abs_block_index_for_fat_entry w f.m_chain.m_current_cluster) ∨
      l (get_abs_block_index_for_fat_entry w f.m_chain.m_current_cluster) = true := himm
  simp only [↓reduceIte, ClusterChain.event_handler, World.chain, hfile, hcs, hnorm, hfat2,
    World.setChain, fileWorld_setFile, if_true, Bool.false_eq_true, if_false,
    Bool.true_eq_false, ClusterChain.complete_request, File.chain_handler, hst,
    File.complete_request, fileWorld_call, hfat,
    request_fat_cache_block, World.requestBlock, fileWorld_loaded,
    fileWorld_get_abs_block_index_for_fat_entry, hB, hc2, and_self, true_and,
    fileWorld_read_fat_entry, hF, hnext, hit]
  rfl

/-- The end of a truncation with the iterator on a cluster: the FAT entry of
the current cluster is not normal, nothing is changed and the request
completes. -/
theorem truncate_end_keep (w : World) (i : Nat) (hi : i < w.files.length)
    (hpf : pendingFiles w.files 0 = none)
    (hb1 : w.o.block_ref.state ≠ CacheRefState.REQUESTING)
    (hb2 : w.o.fs_info_block_ref.state ≠ CacheRefState.REQUESTING)
    (hb3 : w.o.flush_request = false)
    (f : File) (hst : f.m_state = FileState.TRUNC_CHAIN)
    (hcs : f.m_chain.m_state = ChainState.TRUNCATE_CHECK)
    (hnorm : is_cluster_idx_normal f.m_chain.m_current_cluster = true)
    (hfat : is_cluster_idx_valid_for_fat w f.m_chain.m_current_cluster = true)
    (hit : f.m_chain.m_iter_state ≠ IterState.START)
    (hd : f.m_dir_entry.m_block_ref.state ≠ CacheRefState.REQUESTING)
    (hu : f.m_block_user.busy = false)
    (k : Nat) (r1 r2 : CacheBlockRef) (data : Nat → Buffer) (dirty l : Nat → Bool)
    (cs : List HandlerCall)
    (himm : Immediate l r1 (get_abs_block_index_for_fat_entry w f.m_chain.m_current_cluster))
    (hend : is_cluster_idx_normal (fatOf w data f.m_chain.m_current_cluster) = false) :
    run (k + 2) [] (chainWorld w i f r1 r2 data dirty l cs) =
      some (fileWorld w i
        { f with m_state := FileState.IDLE,
                 m_chain := { f.m_chain with m_state := ChainState.IDLE,
                                             m_fat_cache_ref1 := CacheBlockRef.reset {},
                                             m_fat_cache_ref2 := CacheBlockRef.reset {} } }
        w.o data dirty l [] (.FileHandler i false 0 :: cs)) := by
  unfold chainWorld
  rw [run_chain_event,
    truncate_event_keep w i hi f hst hcs r1 r2 data dirty l cs hnorm hfat himm hend hit,
    run_fileWorld_done _ _ _ _ _ _ _ _ _ _ hi hpf hb1 hb2 hb3
      (by simp [File.pending, CacheBlockRef.reset, hd, hu])]

end FatFs

namespace FatFs

/-- The end of a truncation with the iterator at `START`: the FAT entry of the
current cluster is not normal; the cluster is freed, the chain becomes empty
and the new first cluster is written to the directory entry. -/
theorem truncate_end_free (w : World) (i : Nat) (hi : i < w.files.length)
    (hpf : pendingFiles w.files 0 = none)
    (hb1 : w.o.block_ref.state ≠ CacheRefState.REQUESTING)
    (hb2 : w.o.fs_info_block_ref.state ≠ CacheRefState.REQUESTING)
    (hb3 : w.o.flush_request = false)
    (f : File) (hst : f.m_state = FileState.TRUNC_CHAIN)
    (hcs : f.m_chain.m_state = ChainState.TRUNCATE_CHECK)
    (hnorm : is_cluster_idx_normal f.m_chain.m_current_cluster = true)
    (hfat : is_cluster_idx_valid_for_fat w f.m_chain.m_current_cluster = true)
    (hit : f.m_chain.m_iter_state = IterState.START)
    (hd : f.m_dir_entry.m_block_ref.state ≠ CacheRefState.REQUESTING)
    (hu : f.m_block_user.busy = false)
    (k : Nat) (r1 r2 : CacheBlockRef) (data : Nat → Buffer) (dirty l : Nat → Bool)
    (cs : List HandlerCall)
    (himm : Immediate l r1 (get_abs_block_index_for_fat_entry w f.m_chain.m_current_cluster))
    (hend : is_cluster_idx_normal (fatOf w data f.m_chain.m_current_cluster) = false) :
    ∃ dirty2,
    run (k + 2) [] (chainWorld w i f r1 r2 data dirty l cs) =
      some (fileWorld w i
        { f with m_state := FileState.IDLE,
                 m_chain := { f.m_chain with m_state := ChainState.IDLE,
                                             m_first_cluster := EndOfChainMarker,
                                             m_current_cluster := EndOfChainMarker,
                                             m_fat_cache_ref1 := CacheBlockRef.reset {},
                                             m_fat_cache_ref2 := CacheBlockRef.reset {} } }
        w.o
        (dirEntryFirst f
          (fsInfoUpdate w (fatWrite w data f.m_chain.m_current_cluster 0) true)
          EndOfChainMarker)
        dirty2 l [] (.FileHandler i false 0 :: cs)) := by
  obtain ⟨dirty2, h2⟩ :=
    truncate_event_free w i hi f hst hcs r1 r2 data dirty l cs hnorm hfat himm hend hit
  refine ⟨dirty2, ?_⟩
  unfold chainWorld
  rw [run_chain_event, h2,
    run_fileWorld_done _ _ _ _ _ _ _ _ _ _ hi hpf hb1 hb2 hb3
      (by simp [File.pending, CacheBlockRef.reset, hd, hu])]

end FatFs

namespace FatFs

/-- The FAT block of the next cluster is fetched when it is not at hand. -/
theorem truncate_pin2 (w : World) (i : Nat) (hi : i < w.files.length)
    (hpf : pendingFiles w.files 0 = none)
    (hb1 : w.o.block_ref.state ≠ CacheRefState.REQUESTING)
    (hb2 : w.o.fs_info_block_ref.state ≠ CacheRefState.REQUESTING)
    (hb3 : w.o.flush_request = false)
    (f : File) (hcs : f.m_chain.m_state = ChainState.TRUNCATE_CHECK)
    (hnorm : is_cluster_idx_normal f.m_chain.m_current_cluster = true)
    (hfat : is_cluster_idx_valid_for_fat w f.m_chain.m_current_cluster = true)
    (k : Nat) (r1 r2 : CacheBlockRef) (data : Nat → Buffer) (dirty l : Nat → Bool)
    (cs : List HandlerCall)
    (himm : Immediate l r1 (get_abs_block_index_for_fat_entry w f.m_chain.m_current_cluster))
    (hnext : is_cluster_idx_normal (fatOf w data f.m_chain.m_current_cluster) = true)
    (hnfat : is_cluster_idx_valid_for_fat w (fatOf w data f.m_chain.m_current_cluster) = true)
    (himm2 : ¬ Immediate l r2
      (get_abs_block_index_for_fat_entry w (fatOf w data f.m_chain.m_current_cluster))) :
    run (k + 2) [] (chainWorld w i f r1 r2 data dirty l cs) =
      run k [] (chainWorld w i f
        { state := .READY,
          block := get_abs_block_index_for_fat_entry w f.m_chain.m_current_cluster }
        { state := .READY,
          block := get_abs_block_index_for_fat_entry w
            (fatOf w data f.m_chain.m_current_cluster) }
        data dirty
        (fun b => if b = get_abs_block_index_for_fat_entry w
            (fatOf w data f.m_chain.m_current_cluster) then true else l b) cs) := by
  have hfile := fun g o d dd l q c => fileWorld_file w i g o d dd l q c hi
  have hfat2 : ∀ g d dd l q c y, is_cluster_idx_valid_for_fat (fileWorld w i g w.o d dd l q c)
      y = is_cluster_idx_valid_for_fat w y := fun _ _ _ _ _ _ _ => rfl
  have hc2 : (r1.state = CacheRefState.READY ∧
        r1.block = get_abs_block_index_for_fat_entry w f.m_chain.m_current_cluster) ∨
      l (get_abs_block_index_for_fat_entry w f.m_chain.m_current_cluster) = true := himm
  have hF : ∀ y, mask_cluster_entry (ReadBinaryInt32
      (data (get_abs_block_index_for_fat_entry w y))
      (4 * (y % w.FatEntriesPerBlock))) = fatOf w data y := fun _ => rfl
  have hc3 : ¬ ((r2.state = CacheRefState.READY ∧
        r2.block = get_abs_block_index_for_fat_entry w
          (fatOf w data f.m_chain.m_current_cluster)) ∨
      l (get_abs_block_index_for_fat_entry w
          (fatOf w data f.m_chain.m_current_cluster)) = true) := himm2
  have hB : ∀ y, w.o.block_range.getAbsBlockIndex (w.o.num_reserved_blocks +
      y / w.FatEntriesPerBlock) = get_abs_block_index_for_fat_entry w y := fun _ => rfl
  unfold chainWorld
  rw [run_chain_event]
  simp only [↓reduceIte, ClusterChain.event_handler, World.chain, hfile, hcs, hnorm, hfat2, hfat,
    request_fat_cache_block, World.requestBlock, fileWorld_loaded,
    fileWorld_get_abs_block_index_for_fat_entry, hc2, and_self, true_and,
    World.setChain, fileWorld_setFile, if_true, Bool.false_eq_true, if_false,
    Bool.true_eq_false, fileWorld_read_fat_entry, hB, hF, hnext, hnfat, hc3]
  rw [run_fileWorld_answer_nil _ _ _ _ _ _ _ _ _ hi hpf hb1 hb2 hb3 (Input.fat_cache_ref2 i)
    (by simp [File.pending])]
  simp only [↓reduceIte, step, fileWorld_length, hi, World.chain, hfile, true_and, if_true,
    Option.some_bind, World.answer_fat_cache_ref2, fileWorld_blockLoaded, World.setChain,
    fileWorld_setFile, CacheBlockRef.complete, Bool.false_eq_true, if_false,
    ClusterChain.fat_cache_ref_handler, fileWorld_prepend, and_self]

/-- One step of a truncation: the cluster after the current one is unlinked
and freed. -/
theorem truncate_step (w : World) (i : Nat) (hi : i < w.files.length)
    (f : File) (hcs : f.m_chain.m_state = ChainState.TRUNCATE_CHECK)
    (hnorm : is_cluster_idx_normal f.m_chain.m_current_cluster = true)
    (hfat : is_cluster_idx_valid_for_fat w f.m_chain.m_current_cluster = true)
    (k : Nat) (r1 r2 : CacheBlockRef) (data : Nat → Buffer) (dirty l : Nat → Bool)
    (cs : List HandlerCall)
    (himm : Immediate l r1 (get_abs_block_index_for_fat_entry w f.m_chain.m_current_cluster))
    (hnext : is_cluster_idx_normal (fatOf w data f.m_chain.m_current_cluster) = true)
    (hnfat : is_cluster_idx_valid_for_fat w (fatOf w data f.m_chain.m_current_cluster) = true)
    (himm2 : Immediate l r2
      (get_abs_block_index_for_fat_entry w (fatOf w data f.m_chain.m_current_cluster))) :
    run (k + 1) [] (chainWorld w i f r1 r2 data dirty l cs) =
      run k [] (chainWorld w i f
        { state := .READY,
          block := get_abs_block_index_for_fat_entry w f.m_chain.m_current_cluster }
        { state := .READY,
          block := get_abs_block_index_for_fat_entry w
            (fatOf w data f.m_chain.m_current_cluster) }
        (fsInfoUpdate w
          (fatWrite w
            (fatWrite w data f.m_chain.m_current_cluster
              (fatOf w data (fatOf w data f.m_chain.m_current_cluster)))
            (fatOf w data f.m_chain.m_current_cluster) 0) true)
        (fsInfoDirty w
          (fatWrite w
            (fatWrite w data f.m_chain.m_current_cluster
              (fatOf w data (fatOf w data f.m_chain.m_current_cluster)))
            (fatOf w data f.m_chain.m_current_cluster) 0)
          (fun x =>
            if x = get_abs_block_index_for_fat_entry w
                (fatOf w data f.m_chain.m_current_cluster) then true
            else if x = get_abs_block_index_for_fat_entry w f.m_chain.m_current_cluster
              then true else dirty x))
        l cs) := by
  have hfile := fun g o d dd l q c => fileWorld_file w i g o d dd l q c hi
  have hfat2 : ∀ g d dd l q c y, is_cluster_idx_valid_for_fat (fileWorld w i g w.o d dd l q c)
      y = is_cluster_idx_valid_for_fat w y := fun _ _ _ _ _ _ _ => rfl
  have hc2 : (r1.state = CacheRefState.READY ∧
        r1.block = get_abs_block_index_for_fat_entry w f.m_chain.m_current_cluster) ∨
      l (get_abs_block_index_for_fat_entry w f.m_chain.m_current_cluster) = true := himm
  have hF : ∀ y, mask_cluster_entry (ReadBinaryInt32
      (data (get_abs_block_index_for_fat_entry w y))
      (4 * (y % w.FatEntriesPerBlock))) = fatOf w data y := fun _ => rfl
  have hc3 : (r2.state = CacheRefState.READY ∧
        r2.block = get_abs_block_index_for_fat_entry w
          (fatOf w data f.m_chain.m_current_cluster)) ∨
      l (get_abs_block_index_for_fat_entry w
          (fatOf w data f.m_chain.m_current_cluster)) = true := himm2
  have hB : ∀ y, w.o.block_range.getAbsBlockIndex (w.o.num_reserved_blocks +
      y / w.FatEntriesPerBlock) = get_abs_block_index_for_fat_entry w y := fun _ => rfl
  have hupd := fun g d dd l q c y v => fileWorld_update_fat w i g d dd l q c y v
  have hfsi := fun g d dd l q c b => fileWorld_update_fs_info w i g d dd l q c b
  unfold chainWorld
  rw [run_chain_event]
  simp only [↓reduceIte, ClusterChain.event_handler, World.chain, hfile, hcs, hnorm, hfat2, hfat,
    request_fat_cache_block, World.requestBlock, fileWorld_loaded,
    fileWorld_get_abs_block_index_for_fat_entry, hc2, and_self, true_and,
    World.setChain, fileWorld_setFile, if_true, Bool.false_eq_true, if_false,
    Bool.true_eq_false, fileWorld_read_fat_entry, hB, hF, hnext, hnfat, hc3,
    hupd, FreeClusterMarker, hfsi, fileWorld_prepend]

end FatFs

namespace FatFs

theorem fatOf_lt (w : World) (data : Nat → Buffer) (y : Nat) : fatOf w data y < 268435456 :=
  mask_cluster_entry_lt _

/-- The FAT after one step of a truncation, entry by entry. -/
theorem fatOf_truncate_step (w : World) (data : Nat → Buffer) (c x : Nat) (hx : x ≠ c)
    (hc : get_abs_block_index_for_fat_entry w c ≠ w.o.fs_info_block_ref.block)
    (hxb : get_abs_block_index_for_fat_entry w x ≠ w.o.fs_info_block_ref.block) :
    fatOf w (fsInfoUpdate w (fatWrite w (fatWrite w data c (fatOf w data x)) x 0) true) c =
        fatOf w data x ∧
      fatOf w (fsInfoUpdate w (fatWrite w (fatWrite w data c (fatOf w data x)) x 0) true) x =
        0 ∧
      ∀ z, z ≠ c → z ≠ x →
        get_abs_block_index_for_fat_entry w z ≠ w.o.fs_info_block_ref.block →
        fatOf w (fsInfoUpdate w (fatWrite w (fatWrite w data c (fatOf w data x)) x 0) true) z =
          fatOf w data z := by
  refine ⟨?_, ?_, ?_⟩
  · rw [fatOf_fsInfoUpdate _ _ _ _ hc, fatOf_fatWrite_other _ _ _ _ _ (Ne.symm hx),
      fatOf_fatWrite_self _ _ _ _ (fatOf_lt _ _ _)]
  · rw [fatOf_fsInfoUpdate _ _ _ _ hxb, fatOf_fatWrite_self _ _ _ _ (by norm_num)]
  · intro z hzc hzx hzb
    rw [fatOf_fsInfoUpdate _ _ _ _ hzb, fatOf_fatWrite_other _ _ _ _ _ hzx,
      fatOf_fatWrite_other _ _ _ _ _ hzc]

/-- The FAT block of the current cluster is at hand after at most two steps. -/
theorem truncate_pin1_any (w : World) (i : Nat) (hi : i < w.files.length)
    (hpf : pendingFiles w.files 0 = none)
    (hb1 : w.o.block_ref.state ≠ CacheRefState.REQUESTING)
    (hb2 : w.o.fs_info_block_ref.state ≠ CacheRefState.REQUESTING)
    (hb3 : w.o.flush_request = false)
    (f : File) (hcs : f.m_chain.m_state = ChainState.TRUNCATE_CHECK)
    (hnorm : is_cluster_idx_normal f.m_chain.m_current_cluster = true)
    (hfat : is_cluster_idx_valid_for_fat w f.m_chain.m_current_cluster = true)
    (r1 r2 : CacheBlockRef) (data : Nat → Buffer) (dirty l : Nat → Bool)
    (cs : List HandlerCall) :
    ∃ s r1a la, s ≤ 2 ∧
      Immediate la r1a (get_abs_block_index_for_fat_entry w f.m_chain.m_current_cluster) ∧
      ∀ k, run (k + s) [] (chainWorld w i f r1 r2 data dirty l cs) =
        run k [] (chainWorld w i f r1a r2 data dirty la cs) := by
  by_cases himm : Immediate l r1
      (get_abs_block_index_for_fat_entry w f.m_chain.m_current_cluster)
  · exact ⟨0, r1, l, by omega, himm, fun k => rfl⟩
  · exact ⟨2, _, _, le_refl _, Or.inl ⟨rfl, rfl⟩, fun k =>
      truncate_pin1 w i hi hpf hb1 hb2 hb3 f hcs hnorm hfat k r1 r2 data dirty l cs himm⟩

/-- The FAT blocks of the current and of the next cluster are at hand after at
most four steps. -/
theorem truncate_pin2_any (w : World) (i : Nat) (hi : i < w.files.length)
    (hpf : pendingFiles w.files 0 = none)
    (hb1 : w.o.block_ref.state ≠ CacheRefState.REQUESTING)
    (hb2 : w.o.fs_info_block_ref.state ≠ CacheRefState.REQUESTING)
    (hb3 : w.o.flush_request = false)
    (f : File) (hcs : f.m_chain.m_state = ChainState.TRUNCATE_CHECK)
    (hnorm : is_cluster_idx_normal f.m_chain.m_current_cluster = true)
    (hfat : is_cluster_idx_valid_for_fat w f.m_chain.m_current_cluster = true)
    (r1 r2 : CacheBlockRef) (data : Nat → Buffer) (dirty l : Nat → Bool)
    (cs : List HandlerCall)
    (hnext : is_cluster_idx_normal (fatOf w data f.m_chain.m_current_cluster) = true)
    (hnfat : is_cluster_idx_valid_for_fat w (fatOf w data f.m_chain.m_current_cluster) = true) :
    ∃ s r1a r2a la, s ≤ 4 ∧
      Immediate la r1a (get_abs_block_index_for_fat_entry w f.m_chain.m_current_cluster) ∧
      Immediate la r2a
        (get_abs_block_index_for_fat_entry w (fatOf w data f.m_chain.m_current_cluster)) ∧
      ∀ k, run (k + s) [] (chainWorld w i f r1 r2 data dirty l cs) =
        run k [] (chainWorld w i f r1a r2a data dirty la cs) := by
  obtain ⟨s1, r1a, la, hs1, h1, hrun1⟩ :=
    truncate_pin1_any w i hi hpf hb1 hb2 hb3 f hcs hnorm hfat r1 r2 data dirty l cs
  by_cases himm2 : Immediate la r2
      (get_abs_block_index_for_fat_entry w (fatOf w data f.m_chain.m_current_cluster))
  · exact ⟨s1, r1a, r2, la, by omega, h1, himm2, hrun1⟩
  · refine ⟨2 + s1,
      { state := .READY,
        block := get_abs_block_index_for_fat_entry w f.m_chain.m_current_cluster },
      { state := .READY,
        block := get_abs_block_index_for_fat_entry w
          (fatOf w data f.m_chain.m_current_cluster) },
      (fun b => if b = get_abs_block_index_for_fat_entry w
            (fatOf w data f.m_chain.m_current_cluster) then true else la b), by omega,
      Or.inl ⟨rfl, rfl⟩, Or.inl ⟨rfl, rfl⟩, fun k => ?_⟩
    rw [← Nat.add_assoc, hrun1]
    exact truncate_pin2 w i hi hpf hb1 hb2 hb3 f hcs hnorm hfat k r1a r2 data dirty la cs
      h1 hnext hnfat himm2

/-- The loop of a truncation: the clusters `xs` that follow the current cluster
are unlinked and freed one after the other, until the FAT entry of the current
cluster is the entry `t` that ended the chain. -/
theorem truncate_loop (w : World) (i : Nat) (hi : i < w.files.length)
    (hpf : pendingFiles w.files 0 = none)
    (hb1 : w.o.block_ref.state ≠ CacheRefState.REQUESTING)
    (hb2 : w.o.fs_info_block_ref.state ≠ CacheRefState.REQUESTING)
    (hb3 : w.o.flush_request = false)
    (f : File) (hcs : f.m_chain.m_state = ChainState.TRUNCATE_CHECK)
    (hnorm : is_cluster_idx_normal f.m_chain.m_current_cluster = true)
    (hfat : is_cluster_idx_valid_for_fat w f.m_chain.m_current_cluster = true)
    (cs : List HandlerCall) (t : Nat) (xs : List Nat) :
    ∀ (r1 r2 : CacheBlockRef) (data : Nat → Buffer) (dirty l : Nat → Bool),
      chainFrom (fatOf w data) (fatOf w data f.m_chain.m_current_cluster) xs t →
      (f.m_chain.m_current_cluster :: xs).Nodup →
      (∀ d ∈ xs, is_cluster_idx_normal d = true ∧ is_cluster_idx_valid_for_fat w d = true) →
      (∀ d ∈ f.m_chain.m_current_cluster :: xs,
        get_abs_block_index_for_fat_entry w d ≠ w.o.fs_info_block_ref.block) →
      ∃ s r1a r2a data2 dirty2 l2, s ≤ 5 * xs.length + 2 ∧
        Immediate l2 r1a (get_abs_block_index_for_fat_entry w f.m_chain.m_current_cluster) ∧
        (∀ k, run (k + s) [] (chainWorld w i f r1 r2 data dirty l cs) =
          run k [] (chainWorld w i f r1a r2a data2 dirty2 l2 cs)) ∧
        fatOf w data2 f.m_chain.m_current_cluster = t ∧
        (∀ d ∈ xs, fatOf w data2 d = 0) ∧
        (∀ z, z ≠ f.m_chain.m_current_cluster → z ∉ xs →
          get_abs_block_index_for_fat_entry w z ≠ w.o.fs_info_block_ref.block →
          fatOf w data2 z = fatOf w data z) := by
  induction xs with
  | nil =>
    intro r1 r2 data dirty l hch _ _ _
    obtain ⟨s1, r1a, la, hs1, h1, hrun1⟩ :=
      truncate_pin1_any w i hi hpf hb1 hb2 hb3 f hcs hnorm hfat r1 r2 data dirty l cs
    exact ⟨s1, r1a, r2, data, dirty, la, by simpa using hs1, h1, hrun1, hch,
      fun d hd => absurd hd (List.not_mem_nil d), fun _ _ _ _ => rfl⟩
  | cons x xs ih =>
    intro r1 r2 data dirty l hch hnd hall hapart
    obtain ⟨hx, hch2⟩ := hch
    have hxn := hall x (List.mem_cons_self _ _)
    have hcx : x ≠ f.m_chain.m_current_cluster := by
      intro h
      have := (List.nodup_cons.mp hnd).1
      exact this (h ▸ List.mem_cons_self _ _)
    have hnd2 := (List.nodup_cons.mp hnd).2
    have hxs : x ∉ xs := (List.nodup_cons.mp hnd2).1
    have hcxs : f.m_chain.m_current_cluster ∉ xs := fun h =>
      (List.nodup_cons.mp hnd).1 (List.mem_cons_of_mem _ h)
    have hca := hapart _ (List.mem_cons_self _ _)
    have hxa := hapart x (List.mem_cons_of_mem _ (List.mem_cons_self _ _))
    obtain ⟨s1, r1a, r2a, la, hs1, h1, h2, hrun1⟩ :=
      truncate_pin2_any w i hi hpf hb1 hb2 hb3 f hcs hnorm hfat r1 r2 data dirty l cs
        (by rw [hx]; exact hxn.1) (by rw [hx]; exact hxn.2)
    have hrun2 := fun k => truncate_step w i hi f hcs hnorm hfat k r1a r2a data dirty la cs
      h1 (by rw [hx]; exact hxn.1) (by rw [hx]; exact hxn.2) h2
    simp only [hx] at hrun2
    obtain ⟨e1, e2, e3⟩ := fatOf_truncate_step w data f.m_chain.m_current_cluster x hcx hca hxa
    obtain ⟨s3, r1b, r2b, data2, dirty2, l2, hs3, h3, hrun3, hf1, hf2, hf3⟩ :=
      ih { state := .READY,
           block := get_abs_block_index_for_fat_entry w f.m_chain.m_current_cluster }
        { state := .READY, block := get_abs_block_index_for_fat_entry w x }
        (fsInfoUpdate w (fatWrite w (fatWrite w data f.m_chain.m_current_cluster
          (fatOf w data x)) x 0) true)
        (fsInfoDirty w (fatWrite w (fatWrite w data f.m_chain.m_current_cluster
          (fatOf w data x)) x 0)
          (fun y => if y = get_abs_block_index_for_fat_entry w x then true
            else if y = get_abs_block_index_for_fat_entry w f.m_chain.m_current_cluster
              then true else dirty y)) la
        (by
          rw [e1]
          refine chainFrom_congr _ _ _ _ _ (fun d hd => ?_) hch2
          exact e3 d (fun h => hcxs (h ▸ hd)) (fun h => hxs (h ▸ hd))
            (hapart d (List.mem_cons_of_mem _ (List.mem_cons_of_mem _ hd))))
        (List.nodup_cons.mpr ⟨hcxs, (List.nodup_cons.mp hnd2).2⟩)
        (fun d hd => hall d (List.mem_cons_of_mem _ hd))
        (fun d hd => by
          rcases List.mem_cons.mp hd with h | h
          · rw [h]; exact hca
          · exact hapart d (List.mem_cons_of_mem _ (List.mem_cons_of_mem _ h)))
    refine ⟨s3 + 1 + s1, r1b, r2b, data2, dirty2, l2, ?_, h3, fun k => ?_, hf1, ?_, ?_⟩
    · simp only [List.length_cons]; omega
    · rw [← Nat.add_assoc, hrun1, ← Nat.add_assoc, hrun2, hrun3]
    · intro d hd
      rcases List.mem_cons.mp hd with h | h
      · rw [h, hf3 x hcx hxs hxa]; exact e2
      · exact hf2 d h
    · intro z hzc hzx hzb
      rw [hf3 z hzc (fun h => hzx (List.mem_cons_of_mem _ h)) hzb]
      exact e3 z hzc (fun h => hzx (h ▸ List.mem_cons_self _ _)) hzb

end FatFs

namespace FatFs

theorem fatOf_dirEntrySize (w : World) (f : File) (data : Nat → Buffer) (v z : Nat)
    (hz : get_abs_block_index_for_fat_entry w z ≠ f.m_dir_entry.m_block_ref.block) :
    fatOf w (dirEntrySize f data v) z = fatOf w data z := by
  unfold fatOf dirEntrySize
  simp only [if_neg hz]

/-- A truncation of a chain whose current cluster is not normal changes
nothing. -/
theorem truncate_end_empty (w : World) (i : Nat) (hi : i < w.files.length)
    (hpf : pendingFiles w.files 0 = none)
    (hb1 : w.o.block_ref.state ≠ CacheRefState.REQUESTING)
    (hb2 : w.o.fs_info_block_ref.state ≠ CacheRefState.REQUESTING)
    (hb3 : w.o.flush_request = false)
    (f : File) (hst : f.m_state = FileState.TRUNC_CHAIN)
    (hcs : f.m_chain.m_state = ChainState.TRUNCATE_CHECK)
    (hnorm : is_cluster_idx_normal f.m_chain.m_current_cluster = false)
    (hd : f.m_dir_entry.m_block_ref.state ≠ CacheRefState.REQUESTING)
    (hu : f.m_block_user.busy = false)
    (k : Nat) (r1 r2 : CacheBlockRef) (data : Nat → Buffer) (dirty l : Nat → Bool)
    (cs : List HandlerCall) :
    run (k + 2) [] (chainWorld w i f r1 r2 data dirty l cs) =
      some (fileWorld w i
        { f with m_state := FileState.IDLE,
                 m_chain := { f.m_chain with m_state := ChainState.IDLE,
                                             m_fat_cache_ref1 := CacheBlockRef.reset {},
                                             m_fat_cache_ref2 := CacheBlockRef.reset {} } }
        w.o data dirty l [] (.FileHandler i false 0 :: cs)) := by
  unfold chainWorld
  rw [run_chain_event,
    truncate_event_not_normal w i hi f hst hcs r1 r2 data dirty l cs hnorm,
    run_fileWorld_done _ _ _ _ _ _ _ _ _ _ hi hpf hb1 hb2 hb3
      (by simp [File.pending, CacheBlockRef.reset, hd, hu])]

/-- The start of a truncation: the file size is cut to the file position and
the chain is told to truncate. -/
theorem truncate_start (w : World) (i : Nat) (hi : i < w.files.length) (f : File)
    (hs : f.m_state = FileState.IDLE) (ht : f.m_write_ref.m_taken = true)
    (n : Nat) (data : Nat → Buffer) (dirty l : Nat → Bool) (cs : List HandlerCall) :
    truncateOnce (n + 1) i (fileWorld w i f w.o data dirty l [] cs) =
      run n [] (chainWorld w i
        { f with m_state := FileState.TRUNC_CHAIN,
                 m_file_size := min f.m_file_size f.m_file_pos,
                 m_chain := { f.m_chain with m_state := ChainState.TRUNCATE_CHECK } }
        f.m_chain.m_fat_cache_ref1 f.m_chain.m_fat_cache_ref2
        (if f.m_file_size > f.m_file_pos then dirEntrySize f data f.m_file_pos else data)
        (if f.m_file_size > f.m_file_pos then
          fun x => if x = f.m_dir_entry.m_block_ref.block then true else dirty x
         else dirty) l cs) := by
  have hfile := fun g o d dd l q c => fileWorld_file w i g o d dd l q c hi
  have hptr := fun g o d dd l q c => fileWorld_get_entry_ptr w i g o d dd l q c hi
  simp only [truncateOnce, step, fileWorld_length, hi, hfile, hs, and_self, if_true,
    Option.some_bind, File.startTruncate, fileWorld_setFile, fileWorld_prepend]
  rw [run_file_event]
  by_cases hg : f.m_file_size > f.m_file_pos
  · simp only [File.event_handler, hfile, WriteReference.isTaken, ht, Bool.true_eq_false,
      if_false, hg, if_true, fileWorld_setFile, DirEntryRef.setFileSize, hptr,
      fileWorld_getData, fileWorld_setData, fileWorld_markDirty, ClusterChain.startTruncate,
      World.chain, World.setChain, fileWorld_prepend, chainWorld,
      min_eq_right (le_of_lt hg)]
    rfl
  · simp only [File.event_handler, hfile, WriteReference.isTaken, ht, Bool.true_eq_false,
      if_false, hg, fileWorld_setFile, ClusterChain.startTruncate,
      World.chain, World.setChain, fileWorld_prepend, chainWorld,
      min_eq_left (not_lt.mp hg)]

end FatFs

namespace FatFs

/-- A truncation with the iterator on the cluster `c` of the chain
`pre ++ c :: xs`: the clusters `xs` are freed and `c` ends the chain. -/
theorem truncate_keep (w : World) (i : Nat) (hi : i < w.files.length)
    (hpf : pendingFiles w.files 0 = none)
    (hb1 : w.o.block_ref.state ≠ CacheRefState.REQUESTING)
    (hb2 : w.o.fs_info_block_ref.state ≠ CacheRefState.REQUESTING)
    (hb3 : w.o.flush_request = false)
    (f : File) (hst : f.m_state = FileState.TRUNC_CHAIN)
    (hcs : f.m_chain.m_state = ChainState.TRUNCATE_CHECK)
    (hit : f.m_chain.m_iter_state ≠ IterState.START)
    (hd : f.m_dir_entry.m_block_ref.state ≠ CacheRefState.REQUESTING)
    (hu : f.m_block_user.busy = false)
    (cs : List HandlerCall) (t : Nat) (pre xs : List Nat)
    (r1 r2 : CacheBlockRef) (data : Nat → Buffer) (dirty l : Nat → Bool)
    (hch : chainFrom (fatOf w data) f.m_chain.m_first_cluster
      (pre ++ f.m_chain.m_current_cluster :: xs) t)
    (hnd : (pre ++ f.m_chain.m_current_cluster :: xs).Nodup)
    (hall : ∀ d ∈ pre ++ f.m_chain.m_current_cluster :: xs,
      is_cluster_idx_normal d = true ∧ is_cluster_idx_valid_for_fat w d = true)
    (hap : ∀ d ∈ pre ++ f.m_chain.m_current_cluster :: xs,
      get_abs_block_index_for_fat_entry w d ≠ w.o.fs_info_block_ref.block)
    (ht : is_cluster_idx_normal t = false)
    (k : Nat) (hk : 5 * xs.length + 4 ≤ k) :
    ∃ data2 dirty2 l2,
      run k [] (chainWorld w i f r1 r2 data dirty l cs) =
        some (fileWorld w i
          { f with m_state := FileState.IDLE,
                   m_chain := { f.m_chain with m_state := ChainState.IDLE,
                                               m_fat_cache_ref1 := CacheBlockRef.reset {},
                                               m_fat_cache_ref2 := CacheBlockRef.reset {} } }
          w.o data2 dirty2 l2 [] (.FileHandler i false 0 :: cs)) ∧
      chainFrom (fatOf w data2) f.m_chain.m_first_cluster
        (pre ++ [f.m_chain.m_current_cluster]) t ∧
      ∀ d ∈ xs, fatOf w data2 d = 0 := by
  have hc := hall _ (List.mem_append_right _ (List.mem_cons_self _ _))
  obtain ⟨hnd1, hnd2, hdis⟩ := List.nodup_append.mp hnd
  obtain ⟨hsp1, hsp2⟩ := chainFrom_split _ _ _ _ _ _ hch
  obtain ⟨s, r1a, r2a, data2, dirty2, l2, hs, h1, hrun, hf1, hf2, hf3⟩ :=
    truncate_loop w i hi hpf hb1 hb2 hb3 f hcs hc.1 hc.2 cs t xs r1 r2 data dirty l hsp1 hnd2
      (fun d hd => hall d (List.mem_append_right _ (List.mem_cons_of_mem _ hd)))
      (fun d hd => hap d (List.mem_append_right _ hd))
  obtain ⟨k2, rfl⟩ : ∃ k2, k = k2 + 2 + s := ⟨k - 2 - s, by omega⟩
  refine ⟨data2, dirty2, l2, ?_, ?_, hf2⟩
  · rw [hrun]
    exact truncate_end_keep w i hi hpf hb1 hb2 hb3 f hst hcs hc.1 hc.2 hit hd hu k2 r1a r2a
      data2 dirty2 l2 cs h1 (by rw [hf1]; exact ht)
  · refine hsp2 (fatOf w data2) (fun d hd => ?_) t hf1
    have hdc : d ≠ f.m_chain.m_current_cluster := fun h =>
      hdis hd (h ▸ List.mem_cons_self _ _)
    exact hf3 d hdc (fun h => hdis hd (List.mem_cons_of_mem _ h))
      (hap d (List.mem_append_left _ hd))

/-- A truncation with the iterator at `START` on the chain `c :: xs`: all its
clusters are freed and the chain becomes empty. -/
theorem truncate_free (w : World) (i : Nat) (hi : i < w.files.length)
    (hpf : pendingFiles w.files 0 = none)
    (hb1 : w.o.block_ref.state ≠ CacheRefState.REQUESTING)
    (hb2 : w.o.fs_info_block_ref.state ≠ CacheRefState.REQUESTING)
    (hb3 : w.o.flush_request = false)
    (f : File) (hst : f.m_state = FileState.TRUNC_CHAIN)
    (hcs : f.m_chain.m_state = ChainState.TRUNCATE_CHECK)
    (hit : f.m_chain.m_iter_state = IterState.START)
    (hd : f.m_dir_entry.m_block_ref.state ≠ CacheRefState.REQUESTING)
    (hu : f.m_block_user.busy = false)
    (cs : List HandlerCall) (t : Nat) (xs : List Nat)
    (r1 r2 : CacheBlockRef) (data : Nat → Buffer) (dirty l : Nat → Bool)
    (hch : chainFrom (fatOf w data) (fatOf w data f.m_chain.m_current_cluster) xs t)
    (hnd : (f.m_chain.m_current_cluster :: xs).Nodup)
    (hall : ∀ d ∈ f.m_chain.m_current_cluster :: xs,
      is_cluster_idx_normal d = true ∧ is_cluster_idx_valid_for_fat w d = true)
    (hap : ∀ d ∈ f.m_chain.m_current_cluster :: xs,
      get_abs_block_index_for_fat_entry w d ≠ w.o.fs_info_block_ref.block ∧
      get_abs_block_index_for_fat_entry w d ≠ f.m_dir_entry.m_block_ref.block)
    (ht : is_cluster_idx_normal t = false)
    (k : Nat) (hk : 5 * xs.length + 4 ≤ k) :
    ∃ data2 dirty2 l2,
      run k [] (chainWorld w i f r1 r2 data dirty l cs) =
        some (fileWorld w i
          { f with m_state := FileState.IDLE,
                   m_chain := { f.m_chain with m_state := ChainState.IDLE,
                                               m_first_cluster := EndOfChainMarker,
                                               m_current_cluster := EndOfChainMarker,
                                               m_fat_cache_ref1 := CacheBlockRef.reset {},
                                               m_fat_cache_ref2 := CacheBlockRef.reset {} } }
          w.o data2 dirty2 l2 [] (.FileHandler i false 0 :: cs)) ∧
      ∀ d ∈ f.m_chain.m_current_cluster :: xs, fatOf w data2 d = 0 := by
  have hc := hall _ (List.mem_cons_self _ _)
  have hca := hap _ (List.mem_cons_self _ _)
  obtain ⟨s, r1a, r2a, data2, dirty2, l2, hs, h1, hrun, hf1, hf2, hf3⟩ :=
    truncate_loop w i hi hpf hb1 hb2 hb3 f hcs hc.1 hc.2 cs t xs r1 r2 data dirty l hch hnd
      (fun d hd => hall d (List.mem_cons_of_mem _ hd)) (fun d hd => (hap d hd).1)
  obtain ⟨k2, rfl⟩ : ∃ k2, k = k2 + 2 + s := ⟨k - 2 - s, by omega⟩
  obtain ⟨dirty3, hend⟩ := truncate_end_free w i hi hpf hb1 hb2 hb3 f hst hcs hc.1 hc.2 hit hd
    hu k2 r1a r2a data2 dirty2 l2 cs h1 (by rw [hf1]; exact ht)
  refine ⟨dirEntryFirst f
      (fsInfoUpdate w (fatWrite w data2 f.m_chain.m_current_cluster 0) true)
      EndOfChainMarker, dirty3, l2, ?_, ?_⟩
  · rw [hrun]
    exact hend
  · intro d hd
    rw [fatOf_dirEntryFirst _ _ _ _ _ (hap d hd).2, fatOf_fsInfoUpdate _ _ _ _ (hap d hd).1]
    rcases List.mem_cons.mp hd with h | h
    · rw [h, fatOf_fatWrite_self _ _ _ _ (by norm_num)]
    · have hne : d ≠ f.m_chain.m_current_cluster := fun e =>
        (List.nodup_cons.mp hnd).1 (e ▸ h)
      rw [fatOf_fatWrite_other _ _ _ _ _ hne]
      exact hf2 d h

end FatFs

namespace FatFs

theorem list_split_at (ds : List Nat) (m : Nat) (hn : m < ds.length) :
    ds = ds.take m ++ ds.getD m 0 :: ds.drop (m + 1) ∧
      ds.take (m + 1) = ds.take m ++ [ds.getD m 0] := by
  induction ds generalizing m with
  | nil => simp at hn
  | cons d ds ih =>
    cases m with
    | zero => simp
    | succ m =>
      have h := ih m (by simpa using hn)
      simp only [List.take_succ_cons, List.drop_succ_cons, List.getD_cons_succ,
        List.cons_append, List.cons.injEq, true_and]
      exact h

theorem clustersFor_zero (K : Nat) : clustersFor 0 K = 0 := by
  unfold clustersFor
  rcases Nat.eq_zero_or_pos K with h | h
  · rw [h]
  · rw [Nat.zero_add]
    exact Nat.div_eq_of_lt (by omega)

/-- C11, amended: truncate correctness for a file whose chain iterator stands
where the file position is.  For a writable file (its write reference taken)
in a quiescent world, on a well-formed chain `ds` ended by the entry `t`, with
the iterator at `START` for position 0 or on the last of the
`ceil(P / (BlockSize * blocks_per_cluster))` clusters that the position `P`
takes, and with the FAT blocks of the chain apart from the FS information
block and from the block of the directory entry: `startTruncate` completes
without error, and afterwards the FAT leads from the first cluster of the file
through exactly the first `ceil(P / (BlockSize * blocks_per_cluster))` clusters
of `ds` to an entry that is not normal, and every later cluster of `ds` has FAT
entry 0. -/
theorem truncate_at_iterator (w : World) (i fuel : Nat) (ds : List Nat) (t : Nat)
    (hq : quiescent w) (hi : i < w.files.length)
    (hst : (w.file i).m_state = FileState.IDLE)
    (htaken : (w.file i).m_write_ref.m_taken = true)
    (hwf : WellFormedChain w (w.chain i).m_first_cluster ds t)
    (hat : TruncateAt w i ds) (hap : FatApart w i ds)
    (hfuel : 5 * ds.length + 5 ≤ fuel) :
    ∃ w2 t2, truncateOnce fuel i w = some w2 ∧
      w2.calls = .FileHandler i false 0 :: w.calls ∧
      chainFrom (fatNext w2) (w2.chain i).m_first_cluster
        (ds.take (clustersFor (w.file i).m_file_pos (w.BlockSize * w.o.blocks_per_cluster)))
        t2 ∧
      is_cluster_idx_normal t2 = false ∧
      ∀ d ∈ ds.drop (clustersFor (w.file i).m_file_pos (w.BlockSize * w.o.blocks_per_cluster)),
        fatNext w2 d = 0 := by
  obtain ⟨n, rfl⟩ : ∃ n, fuel = n + 1 := ⟨fuel - 1, by omega⟩
  rw [quiescent_iff] at hq
  obtain ⟨hq1, hp⟩ := hq
  obtain ⟨hb1, hb2, hb3, hpf⟩ := (pending_none_iff w).1 hp
  have hfile := fun g o d dd l q c => fileWorld_file w i g o d dd l q c hi
  obtain ⟨p1, p2, p3, p4⟩ := File_pending_none _ _ (pendingFiles_none_getD w.files i 0 hi hpf)
  have hw := fileWorld_self w i
  rw [hq1] at hw
  have hstart := truncate_start w i hi (w.file i) hst htaken n w.data w.dirty w.loaded w.calls
  rw [hw] at hstart
  rw [hstart]
  obtain ⟨hch, hnd, hall, ht⟩ := hwf
  have hdata : ∀ d ∈ ds, fatOf w (if (w.file i).m_file_size > (w.file i).m_file_pos then
      dirEntrySize (w.file i) w.data (w.file i).m_file_pos else w.data) d = fatNext w d := by
    intro d hd
    split_ifs
    · exact fatOf_dirEntrySize _ _ _ _ _ (hap d hd).2
    · rfl
  have hch2 := chainFrom_congr _ _ _ _ _ hdata hch
  obtain ⟨hn, hcase⟩ := hat
  rcases hcase with ⟨hit, hpos, hcur⟩ | ⟨hit, hn0, hcur⟩
  · -- the iterator at `START`
    have hcl : clustersFor (w.file i).m_file_pos (w.BlockSize * w.o.blocks_per_cluster) = 0 := by
      rw [hpos]
      exact clustersFor_zero _
    rw [hcl, List.take_zero, List.drop_zero]
    cases ds with
    | nil =>
      obtain ⟨k, rfl⟩ : ∃ k, n = k + 2 := ⟨n - 2, by simp at hfuel; omega⟩
      have hnorm : is_cluster_idx_normal (w.file i).m_chain.m_current_cluster = false := by
        have h1 : (w.chain i).m_first_cluster = t := hch
        have h2 : (w.file i).m_chain.m_current_cluster = (w.chain i).m_first_cluster := hcur
        rw [h2, h1]
        exact ht
      have hrun := truncate_end_empty w i hi hpf hb1 hb2 hb3
        { (w.file i) with
            m_state := FileState.TRUNC_CHAIN,
            m_file_size := min (w.file i).m_file_size (w.file i).m_file_pos,
            m_chain := { (w.file i).m_chain with m_state := ChainState.TRUNCATE_CHECK } }
        rfl rfl hnorm p3 p4 k (w.file i).m_chain.m_fat_cache_ref1
        (w.file i).m_chain.m_fat_cache_ref2
        (if (w.file i).m_file_size > (w.file i).m_file_pos then
          dirEntrySize (w.file i) w.data (w.file i).m_file_pos else w.data)
        (if (w.file i).m_file_size > (w.file i).m_file_pos then
          fun x => if x = (w.file i).m_dir_entry.m_block_ref.block then true else w.dirty x
         else w.dirty) w.loaded w.calls
      refine ⟨_, t, hrun, rfl, ?_, ht, fun d hd => absurd hd (List.not_mem_nil d)⟩
      show (World.chain (fileWorld _ _ _ _ _ _ _ _ _) i).m_first_cluster = t
      rw [World.chain, hfile]
      exact hch
    | cons c xs =>
      have hfc : (w.file i).m_chain.m_first_cluster = c := hch.1
      have hcc : (w.file i).m_chain.m_current_cluster = c := by
        have h2 : (w.file i).m_chain.m_current_cluster = (w.chain i).m_first_cluster := hcur
        rw [h2]
        exact hfc
      have hit2 : (w.file i).m_chain.m_iter_state = IterState.START := hit
      obtain ⟨data2, dirty2, l2, hrun, hfree⟩ := truncate_free w i hi hpf hb1 hb2 hb3
        { (w.file i) with
            m_state := FileState.TRUNC_CHAIN,
            m_file_size := min (w.file i).m_file_size (w.file i).m_file_pos,
            m_chain := { (w.file i).m_chain with m_state := ChainState.TRUNCATE_CHECK } }
        rfl rfl hit2 p3 p4 w.calls t xs (w.file i).m_chain.m_fat_cache_ref1
        (w.file i).m_chain.m_fat_cache_ref2
        (if (w.file i).m_file_size > (w.file i).m_file_pos then
          dirEntrySize (w.file i) w.data (w.file i).m_file_pos else w.data)
        (if (w.file i).m_file_size > (w.file i).m_file_pos then
          fun x => if x = (w.file i).m_dir_entry.m_block_ref.block then true else w.dirty x
         else w.dirty) w.loaded
        (by
          show chainFrom _ (fatOf w _ (w.file i).m_chain.m_current_cluster) xs t
          rw [hcc]
          exact hch2.2)
        (by
          show ((w.file i).m_chain.m_current_cluster :: xs).Nodup
          rw [hcc]
          exact hnd)
        (by
          show ∀ d ∈ (w.file i).m_chain.m_current_cluster :: xs, _
          rw [hcc]
          exact hall)
        (by
          show ∀ d ∈ (w.file i).m_chain.m_current_cluster :: xs, _
          rw [hcc]
          exact hap)
        ht n (by simp at hfuel; omega)
      refine ⟨_, EndOfChainMarker, hrun, rfl, ?_, by decide, fun d hd => ?_⟩
      · show (World.chain (fileWorld _ _ _ _ _ _ _ _ _) i).m_first_cluster = EndOfChainMarker
        rw [World.chain, hfile]
      · have h := hfree d (by
          show d ∈ (w.file i).m_chain.m_current_cluster :: xs
          rw [hcc]
          exact hd)
        exact h
  · -- the iterator on a cluster
    obtain ⟨m, hm⟩ : ∃ m, clustersFor (w.file i).m_file_pos
        (w.BlockSize * w.o.blocks_per_cluster) = m + 1 := ⟨_, (Nat.succ_pred_eq_of_pos hn0).symm⟩
    rw [hm] at hn hcur ⊢
    rw [Nat.add_sub_cancel] at hcur
    obtain ⟨hsplit, htake⟩ := list_split_at ds m (by omega)
    have hcc : ds.getD m 0 = (w.file i).m_chain.m_current_cluster := hcur.symm
    rw [hcc] at hsplit htake
    have hit2 : (w.file i).m_chain.m_iter_state ≠ IterState.START := by
      have h : (w.file i).m_chain.m_iter_state = IterState.CLUSTER := hit
      rw [h]
      decide
    have hlen : (ds.drop (m + 1)).length ≤ ds.length := by
      rw [List.length_drop]
      omega
    obtain ⟨data2, dirty2, l2, hrun, hchain, hfree⟩ := truncate_keep w i hi hpf hb1 hb2 hb3
      { (w.file i) with
          m_state := FileState.TRUNC_CHAIN,
          m_file_size := min (w.file i).m_file_size (w.file i).m_file_pos,
          m_chain := { (w.file i).m_chain with m_state := ChainState.TRUNCATE_CHECK } }
      rfl rfl hit2 p3 p4 w.calls t (ds.take m) (ds.drop (m + 1))
      (w.file i).m_chain.m_fat_cache_ref1 (w.file i).m_chain.m_fat_cache_ref2
      (if (w.file i).m_file_size > (w.file i).m_file_pos then
        dirEntrySize (w.file i) w.data (w.file i).m_file_pos else w.data)
      (if (w.file i).m_file_size > (w.file i).m_file_pos then
        fun x => if x = (w.file i).m_dir_entry.m_block_ref.block then true else w.dirty x
       else w.dirty) w.loaded
      (by
        show chainFrom _ (w.file i).m_chain.m_first_cluster
          (ds.take m ++ (w.file i).m_chain.m_current_cluster :: ds.drop (m + 1)) t
        rw [← hsplit]
        exact hch2)
      (by
        show (ds.take m ++ (w.file i).m_chain.m_current_cluster :: ds.drop (m + 1)).Nodup
        rw [← hsplit]
        exact hnd)
      (by
        show ∀ d ∈ ds.take m ++ (w.file i).m_chain.m_current_cluster :: ds.drop (m + 1), _
        rw [← hsplit]
        exact hall)
      (by
        show ∀ d ∈ ds.take m ++ (w.file i).m_chain.m_current_cluster :: ds.drop (m + 1), _
        rw [← hsplit]
        exact fun d hd => (hap d hd).1)
      ht n (by omega)
    refine ⟨_, t, hrun, rfl, ?_, ht, hfree⟩
    rw [htake]
    show chainFrom _ (World.chain (fileWorld _ _ _ _ _ _ _ _ _) i).m_first_cluster _ _
    rw [World.chain, hfile]
    exact hchain

end FatFs

namespace FatFs

theorem truncate_at_iterator_witness :
    ∃ w2 t2, truncateOnce 15 0 sampleReadOnce = some w2 ∧
      w2.calls = .FileHandler 0 false 0 :: sampleReadOnce.calls ∧
      chainFrom (fatNext w2) (w2.chain 0).m_first_cluster
        ([3, 4].take (clustersFor (sampleReadOnce.file 0).m_file_pos
          (sampleReadOnce.BlockSize * sampleReadOnce.o.blocks_per_cluster))) t2 ∧
      is_cluster_idx_normal t2 = false ∧
      ∀ d ∈ [3, 4].drop (clustersFor (sampleReadOnce.file 0).m_file_pos
          (sampleReadOnce.BlockSize * sampleReadOnce.o.blocks_per_cluster)),
        fatNext w2 d = 0 :=
  truncate_at_iterator sampleReadOnce 0 15 [3, 4] EndOfChainMarker (by decide) (by decide)
    (by decide) (by decide) (by decide) (by decide) (by decide) (by decide)

/-- C11 as claimed fails: the truncation is made at the chain iterator, not at
the file position.  The sample file (chain 3, 4, clusters of 4096 bytes) is
opened for writing and read once, and the block transfer of the read fails:
the file position is still 0 while the iterator is on cluster 3.  The
`startTruncate` that follows completes without error at position 0, for which
`ceil(0 / 4096)` is 0 clusters, but the chain of the file still holds one
normal cluster: the first cluster is 3 and its FAT entry is `0x0FFFFFFF`;
only cluster 4 was freed. -/
theorem truncate_after_failed_read_keeps_a_cluster :
    sampleFailedRead.calls.head? = some (.FileHandler 0 true 0) ∧
    quiescent sampleFailedRead ∧
    (sampleFailedRead.file 0).m_state = FileState.IDLE ∧
    (sampleFailedRead.file 0).m_write_ref.m_taken = true ∧
    WellFormedChain sampleFailedRead (sampleFailedRead.chain 0).m_first_cluster [3, 4]
      EndOfChainMarker ∧
    (sampleFailedRead.file 0).m_file_pos = 0 ∧
    clustersFor (sampleFailedRead.file 0).m_file_pos
      (sampleFailedRead.BlockSize * sampleFailedRead.o.blocks_per_cluster) = 0 ∧
    (truncateOnce 20 0 sampleFailedRead).isSome = true ∧
    sampleFailedReadTruncated.calls = .FileHandler 0 false 0 :: sampleFailedRead.calls ∧
    (sampleFailedReadTruncated.chain 0).m_first_cluster = 3 ∧
    is_cluster_idx_normal (sampleFailedReadTruncated.chain 0).m_first_cluster = true ∧
    chainFrom (fatNext sampleFailedReadTruncated)
      (sampleFailedReadTruncated.chain 0).m_first_cluster [3] EndOfChainMarker ∧
    fatNext sampleFailedReadTruncated 4 = 0 := by
  decide

end FatFs

namespace FatFs

/-- The loop of `alloc_event_handler` is `alloc_scan_loop` followed by the
call of `complete_allocation` that the latter returns. -/
theorem alloc_event_handler_loop_eq (fuel : Nat) (w : World) (examined : List Nat) :
    alloc_event_handler_loop fuel w =
      (alloc_scan_loop fuel w examined).map (fun x =>
        match x.2.1 with
        | none => x.1
        | some (error, cluster_index) => complete_allocation x.1 error cluster_index) := by
  induction fuel generalizing w examined with
  | zero => rfl
  | succ n ih =>
    unfold alloc_event_handler_loop alloc_scan_loop
    simp only
    split_ifs with h1 h2 h3 h4 h5
    all_goals first
      | rfl
      | exact ih _ _

theorem next_position (pos nvc : Nat) (hp : pos < nvc) (hn : nvc < 2 ^ 32) :
    (if (pos + 1) % 2 ^ 32 = nvc then 0 else (pos + 1) % 2 ^ 32) = (pos + 1) % nvc := by
  rw [Nat.mod_eq_of_lt (by omega)]
  split_ifs with h
  · rw [h, Nat.mod_self]
  · rw [Nat.mod_eq_of_lt (by omega)]

end FatFs

namespace FatFs

/-- One turn of the loop of `alloc_event_handler`, for the candidate at
position `pos`. -/
theorem alloc_scan_loop_succ (w : World) (pos : Nat) (r : CacheBlockRef) (l : Nat → Bool)
    (F : Nat) (ex : List Nat)
    (hp : pos < w.o.num_valid_clusters) (hn : w.o.num_valid_clusters + 2 ≤ 2 ^ 32) :
    alloc_scan_loop (F + 1) (allocWorld w pos r l) ex =
      if Immediate l r (get_abs_block_index_for_fat_entry w (2 + pos)) then
        if fatNext w (2 + pos) = 0 then
          some (allocFound w pos l, some (false, 2 + pos), ex ++ [2 + pos])
        else if (pos + 1) % w.o.num_valid_clusters = w.o.alloc_start then
          some (allocWorld w ((pos + 1) % w.o.num_valid_clusters)
            { state := .READY, block := get_abs_block_index_for_fat_entry w (2 + pos) } l,
            some (true, 0), ex ++ [2 + pos])
        else
          alloc_scan_loop F
            (allocWorld w ((pos + 1) % w.o.num_valid_clusters)
              { state := .READY, block := get_abs_block_index_for_fat_entry w (2 + pos) } l)
            (ex ++ [2 + pos])
      else some (allocWaiting w pos l, none, ex) := by
  have h2 : (2 + pos) % 2 ^ 32 = 2 + pos := Nat.mod_eq_of_lt (by omega)
  have hnp := next_position pos w.o.num_valid_clusters hp (by omega)
  rw [alloc_scan_loop]
  by_cases himm : Immediate l r (get_abs_block_index_for_fat_entry w (2 + pos))
  · rw [if_pos himm]
    have himm2 : (r.state = CacheRefState.READY ∧
        r.block = w.o.block_range.getAbsBlockIndex
          (w.o.num_reserved_blocks + (2 + pos) / (w.BlockSize / 4))) ∨
      l (w.o.block_range.getAbsBlockIndex
          (w.o.num_reserved_blocks + (2 + pos) / (w.BlockSize / 4))) = true := himm
    have hs : True := trivial
    have hs2 : True := trivial
    by_cases hc : (pos + 1) % 2 ^ 32 = w.o.num_valid_clusters
    · have hq : (pos + 1) % w.o.num_valid_clusters = 0 := by rw [← hnp, if_pos hc]
      by_cases hfat : fatNext w (2 + pos) = 0
      · rw [if_pos hfat]
        have hfat2 : mask_cluster_entry (ReadBinaryInt32
          (w.data (w.o.block_range.getAbsBlockIndex
              (w.o.num_reserved_blocks + (2 + pos) / (w.BlockSize / 4))))
          (4 * ((2 + pos) % (w.BlockSize / 4)))) = 0 := hfat
        simp only [allocWorld, h2, request_fat_cache_block, World.requestBlock,
          get_abs_block_index_for_fat_entry, get_abs_block_index, World.FatEntriesPerBlock,
          himm2, and_self, if_true, Bool.true_eq_false, if_false,
          read_fat_entry_in_cache_block, World.getData, get_fat_ptr_in_cache_block, hfat2, hc,
          allocFound, hq, hs, hs2]
      · rw [if_neg hfat, hq]
        have hfat2 : ¬ mask_cluster_entry (ReadBinaryInt32
          (w.data (w.o.block_range.getAbsBlockIndex
              (w.o.num_reserved_blocks + (2 + pos) / (w.BlockSize / 4))))
          (4 * ((2 + pos) % (w.BlockSize / 4)))) = 0 := hfat
        by_cases hs : w.o.alloc_start = 0
        · rw [if_pos hs.symm]
          simp only [allocWorld, h2, request_fat_cache_block, World.requestBlock,
          get_abs_block_index_for_fat_entry, get_abs_block_index, World.FatEntriesPerBlock,
          himm2, and_self, if_true, Bool.true_eq_false, if_false,
          read_fat_entry_in_cache_block, World.getData, get_fat_ptr_in_cache_block, hfat2, hc,
          allocFound, hq, hs, hs2]
        · have hs2 : ¬ 0 = w.o.alloc_start := fun h => hs h.symm
          rw [if_neg hs2]
          simp only [allocWorld, h2, request_fat_cache_block, World.requestBlock,
          get_abs_block_index_for_fat_entry, get_abs_block_index, World.FatEntriesPerBlock,
          himm2, and_self, if_true, Bool.true_eq_false, if_false,
          read_fat_entry_in_cache_block, World.getData, get_fat_ptr_in_cache_block, hfat2, hc,
          allocFound, hq, hs, hs2]
    · have hq : (pos + 1) % w.o.num_valid_clusters = (pos + 1) % 2 ^ 32 := by
        rw [← hnp, if_neg hc]
      by_cases hfat : fatNext w (2 + pos) = 0
      · rw [if_pos hfat]
        have hfat2 : mask_cluster_entry (ReadBinaryInt32
          (w.data (w.o.block_range.getAbsBlockIndex
              (w.o.num_reserved_blocks + (2 + pos) / (w.BlockSize / 4))))
          (4 * ((2 + pos) % (w.BlockSize / 4)))) = 0 := hfat
        simp only [allocWorld, h2, request_fat_cache_block, World.requestBlock,
          get_abs_block_index_for_fat_entry, get_abs_block_index, World.FatEntriesPerBlock,
          himm2, and_self, if_true, Bool.true_eq_false, if_false,
          read_fat_entry_in_cache_block, World.getData, get_fat_ptr_in_cache_block, hfat2, hc,
          allocFound, hq, hs, hs2]
      · rw [if_neg hfat, hq]
        have hfat2 : ¬ mask_cluster_entry (ReadBinaryInt32
          (w.data (w.o.block_range.getAbsBlockIndex
              (w.o.num_reserved_blocks + (2 + pos) / (w.BlockSize / 4))))
          (4 * ((2 + pos) % (w.BlockSize / 4)))) = 0 := hfat
        by_cases hs : w.o.alloc_start = (pos + 1) % 2 ^ 32
        · rw [if_pos hs.symm]
          simp only [allocWorld, h2, request_fat_cache_block, World.requestBlock,
          get_abs_block_index_for_fat_entry, get_abs_block_index, World.FatEntriesPerBlock,
          himm2, and_self, if_true, Bool.true_eq_false, if_false,
          read_fat_entry_in_cache_block, World.getData, get_fat_ptr_in_cache_block, hfat2, hc,
          allocFound, hq, hs, hs2]
        · have hs2 : ¬ (pos + 1) % 2 ^ 32 = w.o.alloc_start := fun h => hs h.symm
          rw [if_neg hs2]
          simp only [allocWorld, h2, request_fat_cache_block, World.requestBlock,
          get_abs_block_index_for_fat_entry, get_abs_block_index, World.FatEntriesPerBlock,
          himm2, and_self, if_true, Bool.true_eq_false, if_false,
          read_fat_entry_in_cache_block, World.getData, get_fat_ptr_in_cache_block, hfat2, hc,
          allocFound, hq, hs, hs2]
  · rw [if_neg himm]
    have himm2 : ¬ ((r.state = CacheRefState.READY ∧
        r.block = w.o.block_range.getAbsBlockIndex
          (w.o.num_reserved_blocks + (2 + pos) / (w.BlockSize / 4))) ∨
      l (w.o.block_range.getAbsBlockIndex
          (w.o.num_reserved_blocks + (2 + pos) / (w.BlockSize / 4))) = true) := himm
    simp only [allocWorld, h2, request_fat_cache_block, World.requestBlock,
      get_abs_block_index_for_fat_entry, get_abs_block_index, World.FatEntriesPerBlock,
      himm2, and_false, if_false, if_true, allocWaiting]

end FatFs

namespace FatFs

/-- The FAT block that a scan waits for arrives: the allocation event is queued
again. -/
theorem alloc_wait_answer (w : World) (pos : Nat) (l : Nat → Bool)
    (hs : w.o.state = FsState.READY)
    (hm : w.o.write_mount_state = WriteMountState.MOUNTED) :
    step (allocWaiting w pos l) (.block_ref false) =
      some { allocWorld w pos
              { state := .READY, block := get_abs_block_index_for_fat_entry w (2 + pos) }
              (fun b => if b = get_abs_block_index_for_fat_entry w (2 + pos) then true
                else l b) with
             queue := [.alloc_event] } := by
  simp only [step, allocWaiting, if_true, World.answer_block_ref, World.blockLoaded,
    Bool.false_eq_true, if_false, CacheBlockRef.complete, block_ref_handler, hs, hm,
    alloc_block_ref_handler, World.prependNowNotAlready, allocWorld]
  rfl

section
variable (w : World) (pos : Nat) (r : CacheBlockRef) (l : Nat → Bool) (F : Nat)
  (ex : List Nat) (next : World → List Nat → Option (World × Bool × Nat × List Nat))
  (hp : pos < w.o.num_valid_clusters) (hn : w.o.num_valid_clusters + 2 ≤ 2 ^ 32)
include hp hn

theorem allocScanStep_continue
    (himm : Immediate l r (get_abs_block_index_for_fat_entry w (2 + pos)))
    (hfat : fatNext w (2 + pos) ≠ 0)
    (hnext : (pos + 1) % w.o.num_valid_clusters ≠ w.o.alloc_start) :
    allocScanStep next (F + 1) (allocWorld w pos r l) ex =
      allocScanStep next F
        (allocWorld w ((pos + 1) % w.o.num_valid_clusters)
          { state := .READY, block := get_abs_block_index_for_fat_entry w (2 + pos) } l)
        (ex ++ [2 + pos]) := by
  unfold allocScanStep
  rw [alloc_scan_loop_succ w pos r l F ex hp hn, if_pos himm, if_neg hfat, if_neg hnext]

theorem allocScanStep_found
    (himm : Immediate l r (get_abs_block_index_for_fat_entry w (2 + pos)))
    (hfat : fatNext w (2 + pos) = 0) :
    allocScanStep next (F + 1) (allocWorld w pos r l) ex =
      some (allocFound w pos l, false, 2 + pos, ex ++ [2 + pos]) := by
  unfold allocScanStep
  rw [alloc_scan_loop_succ w pos r l F ex hp hn, if_pos himm, if_pos hfat]

theorem allocScanStep_full
    (himm : Immediate l r (get_abs_block_index_for_fat_entry w (2 + pos)))
    (hfat : fatNext w (2 + pos) ≠ 0)
    (hnext : (pos + 1) % w.o.num_valid_clusters = w.o.alloc_start) :
    allocScanStep next (F + 1) (allocWorld w pos r l) ex =
      some (allocWorld w ((pos + 1) % w.o.num_valid_clusters)
          { state := .READY, block := get_abs_block_index_for_fat_entry w (2 + pos) } l,
        true, 0, ex ++ [2 + pos]) := by
  unfold allocScanStep
  rw [alloc_scan_loop_succ w pos r l F ex hp hn, if_pos himm, if_neg hfat, if_pos hnext]

theorem allocScanStep_wait (hs : w.o.state = FsState.READY)
    (hm : w.o.write_mount_state = WriteMountState.MOUNTED)
    (himm : ¬ Immediate l r (get_abs_block_index_for_fat_entry w (2 + pos))) :
    allocScanStep next (F + 1) (allocWorld w pos r l) ex =
      next (allocWorld w pos
          { state := .READY, block := get_abs_block_index_for_fat_entry w (2 + pos) }
          (fun b => if b = get_abs_block_index_for_fat_entry w (2 + pos) then true
            else l b)) ex := by
  unfold allocScanStep
  rw [alloc_scan_loop_succ w pos r l F ex hp hn, if_neg himm]
  simp only [alloc_wait_answer w pos l hs hm]
  rfl

end

end FatFs

namespace FatFs

theorem cyclic_ne_start (n start d : Nat) (hs : start < n) (h0 : 0 < d) (hd : d < n) :
    (start + d) % n ≠ start := by
  rcases Nat.lt_or_ge (start + d) n with h | h
  · rw [Nat.mod_eq_of_lt h]
    omega
  · rw [Nat.mod_eq_sub_mod h, Nat.mod_eq_of_lt (by omega)]
    omega

theorem cyclic_succ (n start j : Nat) :
    ((start + j) % n + 1) % n = (start + (j + 1)) % n := by
  rw [Nat.mod_add_mod, Nat.add_assoc]

theorem run_queued_bind (fuel : Nat) (errors : List Bool) (w : World) (hq : w.queue ≠ []) :
    run (fuel + 1) errors w = (step w .queued).bind (run fuel errors) := by
  simp [run, hq]

theorem examinedAfter_succ (n start j : Nat) :
    examinedAfter n start (j + 1) = examinedAfter n start j ++ [2 + (start + j) % n] := by
  unfold examinedAfter
  rw [List.range_succ, List.map_append]
  rfl

section
variable (w : World) (pos : Nat) (r : CacheBlockRef) (l : Nat → Bool) (F : Nat)
  (hp : pos < w.o.num_valid_clusters) (hn : w.o.num_valid_clusters + 2 ≤ 2 ^ 32)
include hp hn

theorem alloc_loop_continue
    (himm : Immediate l r (get_abs_block_index_for_fat_entry w (2 + pos)))
    (hfat : fatNext w (2 + pos) ≠ 0)
    (hnext : (pos + 1) % w.o.num_valid_clusters ≠ w.o.alloc_start) :
    alloc_event_handler_loop (F + 1) (allocWorld w pos r l) =
      alloc_event_handler_loop F
        (allocWorld w ((pos + 1) % w.o.num_valid_clusters)
          { state := .READY, block := get_abs_block_index_for_fat_entry w (2 + pos) } l) := by
  rw [alloc_event_handler_loop_eq _ _ [], alloc_scan_loop_succ w pos r l F [] hp hn,
    if_pos himm, if_neg hfat, if_neg hnext, ← alloc_event_handler_loop_eq]

theorem alloc_loop_found
    (himm : Immediate l r (get_abs_block_index_for_fat_entry w (2 + pos)))
    (hfat : fatNext w (2 + pos) = 0) :
    alloc_event_handler_loop (F + 1) (allocWorld w pos r l) =
      some (complete_allocation (allocFound w pos l) false (2 + pos)) := by
  rw [alloc_event_handler_loop_eq _ _ [], alloc_scan_loop_succ w pos r l F [] hp hn,
    if_pos himm, if_pos hfat]
  rfl

theorem alloc_loop_full
    (himm : Immediate l r (get_abs_block_index_for_fat_entry w (2 + pos)))
    (hfat : fatNext w (2 + pos) ≠ 0)
    (hnext : (pos + 1) % w.o.num_valid_clusters = w.o.alloc_start) :
    alloc_event_handler_loop (F + 1) (allocWorld w pos r l) =
      some (complete_allocation (allocWorld w ((pos + 1) % w.o.num_valid_clusters)
          { state := .READY, block := get_abs_block_index_for_fat_entry w (2 + pos) } l)
        true 0) := by
  rw [alloc_event_handler_loop_eq _ _ [], alloc_scan_loop_succ w pos r l F [] hp hn,
    if_pos himm, if_neg hfat, if_pos hnext]
  rfl

theorem alloc_loop_wait (hs : w.o.state = FsState.READY)
    (hm : w.o.write_mount_state = WriteMountState.MOUNTED)
    (himm : ¬ Immediate l r (get_abs_block_index_for_fat_entry w (2 + pos))) (k : Nat) :
    (alloc_event_handler_loop (F + 1) (allocWorld w pos r l)).bind (run (k + 2) []) =
      (alloc_event_handler_loop (2 ^ 32 + w.o.num_valid_clusters + 1)
        (allocWorld w pos
          { state := .READY, block := get_abs_block_index_for_fat_entry w (2 + pos) }
          (fun b => if b = get_abs_block_index_for_fat_entry w (2 + pos) then true
            else l b))).bind (run k []) := by
  rw [alloc_event_handler_loop_eq _ _ [], alloc_scan_loop_succ w pos r l F [] hp hn,
    if_neg himm]
  show run (k + 2) [] (allocWaiting w pos l) = _
  rw [run_answer_nil (k + 1) (allocWaiting w pos l) _ Input.block_ref rfl
    (by simp [pending, allocWaiting]) (alloc_wait_answer w pos l hs hm)]
  rw [run_queued_bind k [] _ (by simp)]
  rfl

end

end FatFs

namespace FatFs

/-- A scan that finds the first `j` candidates taken reaches candidate `j`. -/
theorem allocScan_prefix (w : World) (hs : w.o.state = FsState.READY)
    (hm : w.o.write_mount_state = WriteMountState.MOUNTED)
    (hn : w.o.num_valid_clusters + 2 ≤ 2 ^ 32)
    (hst : w.o.alloc_start < w.o.num_valid_clusters) (j : Nat) :
    j < w.o.num_valid_clusters →
    (∀ t, t < j → fatNext w (2 + (w.o.alloc_start + t) % w.o.num_valid_clusters) ≠ 0) →
    ∀ (m n F : Nat) (r : CacheBlockRef) (l : Nat → Bool), j + m ≤ n →
      w.o.num_valid_clusters ≤ F →
      ∃ (n2 F2 : Nat) (r2 : CacheBlockRef) (l2 : Nat → Bool) (s : Nat),
        m ≤ n2 ∧ w.o.num_valid_clusters ≤ F2 + j ∧ s ≤ 2 * j ∧
        allocScanStep (allocScan n) F (allocWorld w w.o.alloc_start r l) [] =
          allocScanStep (allocScan n2) F2
            (allocWorld w ((w.o.alloc_start + j) % w.o.num_valid_clusters) r2 l2)
            (examinedAfter w.o.num_valid_clusters w.o.alloc_start j) ∧
        ∀ k, (alloc_event_handler_loop F (allocWorld w w.o.alloc_start r l)).bind
              (run (k + s) []) =
            (alloc_event_handler_loop F2
              (allocWorld w ((w.o.alloc_start + j) % w.o.num_valid_clusters) r2 l2)).bind
              (run k []) := by
  induction j with
  | zero =>
    intro _ _ m n F r l hmn hF
    refine ⟨n, F, r, l, 0, by omega, by omega, by omega, ?_, fun k => ?_⟩
    · rw [Nat.add_zero, Nat.mod_eq_of_lt hst]
      rfl
    · simp only [Nat.add_zero, Nat.mod_eq_of_lt hst]
  | succ j ih =>
    intro hj hfree m n F r l hmn hF
    obtain ⟨n2, F2, r2, l2, s, h1, h2, h3, h4, h5⟩ :=
      ih (by omega) (fun t ht => hfree t (by omega)) (m + 1) n F r l (by omega) hF
    obtain ⟨F3, rfl⟩ : ∃ F3, F2 = F3 + 1 := ⟨F2 - 1, by omega⟩
    obtain ⟨n3, rfl⟩ : ∃ n3, n2 = n3 + 1 := ⟨n2 - 1, by omega⟩
    have hp : (w.o.alloc_start + j) % w.o.num_valid_clusters < w.o.num_valid_clusters :=
      Nat.mod_lt _ (by omega)
    have hfat := hfree j (by omega)
    have hnext : ((w.o.alloc_start + j) % w.o.num_valid_clusters + 1) %
        w.o.num_valid_clusters ≠ w.o.alloc_start := by
      rw [cyclic_succ]
      exact cyclic_ne_start _ _ _ hst (by omega) hj
    by_cases himm : Immediate l2 r2 (get_abs_block_index_for_fat_entry w
        (2 + (w.o.alloc_start + j) % w.o.num_valid_clusters))
    · refine ⟨n3 + 1, F3, (CacheBlockRef.mk .READY (get_abs_block_index_for_fat_entry w
          (2 + (w.o.alloc_start + j) % w.o.num_valid_clusters))), l2, s, by omega, by omega,
        by omega, ?_, fun k => ?_⟩
      · rw [h4, allocScanStep_continue w _ r2 l2 F3 _ _ hp hn himm hfat hnext, cyclic_succ,
          examinedAfter_succ]
      · rw [h5, alloc_loop_continue w _ r2 l2 F3 hp hn himm hfat hnext, cyclic_succ]
    · refine ⟨n3, 2 ^ 32 + w.o.num_valid_clusters, (CacheBlockRef.mk .READY (get_abs_block_index_for_fat_entry w
          (2 + (w.o.alloc_start + j) % w.o.num_valid_clusters))),
        (fun b => if b = get_abs_block_index_for_fat_entry w
          (2 + (w.o.alloc_start + j) % w.o.num_valid_clusters) then true else l2 b),
        s + 2, by omega, by omega, by omega, ?_, fun k => ?_⟩
      · rw [h4, allocScanStep_wait w _ r2 l2 F3 _ _ hp hn hs hm himm]
        show allocScanStep (allocScan n3) (2 ^ 32 + w.o.num_valid_clusters + 1) _ _ = _
        rw [allocScanStep_continue w _ _ _ _ _ _ hp hn (Or.inl ⟨rfl, rfl⟩) hfat hnext,
          cyclic_succ, examinedAfter_succ]
      · rw [show k + (s + 2) = (k + 2) + s by omega, h5, alloc_loop_wait w _ r2 l2 F3 hp hn hs hm himm,
          alloc_loop_continue w _ _ _ _ hp hn (Or.inl ⟨rfl, rfl⟩) hfat hnext, cyclic_succ]

end FatFs

namespace FatFs

theorem cyclic_val (n start t : Nat) (hs : start < n) (ht : t < n) :
    (start + t) % n = if start + t < n then start + t else start + t - n := by
  split_ifs with h
  · exact Nat.mod_eq_of_lt h
  · rw [Nat.mod_eq_sub_mod (by omega), Nat.mod_eq_of_lt (by omega)]

theorem cyclic_inj (n start t1 t2 : Nat) (hs : start < n) (h1 : t1 < n) (h2 : t2 < n)
    (h : (start + t1) % n = (start + t2) % n) : t1 = t2 := by
  rw [cyclic_val n start t1 hs h1, cyclic_val n start t2 hs h2] at h
  split_ifs at h <;> omega

theorem cyclic_surj (n start p : Nat) (hs : start < n) (hp : p < n) :
    ∃ t, t < n ∧ (start + t) % n = p := by
  rcases Nat.lt_or_ge p start with h | h
  · refine ⟨p + n - start, by omega, ?_⟩
    rw [cyclic_val n start _ hs (by omega)]
    split_ifs <;> omega
  · refine ⟨p - start, by omega, ?_⟩
    rw [cyclic_val n start _ hs (by omega)]
    split_ifs <;> omega

theorem examinedAfter_length (n start j : Nat) : (examinedAfter n start j).length = j := by
  simp [examinedAfter]

theorem examinedAfter_nodup (n start j : Nat) (hs : start < n) (hj : j ≤ n) :
    (examinedAfter n start j).Nodup := by
  unfold examinedAfter
  refine List.Nodup.map_on (fun x hx y hy h => ?_) (List.nodup_range j)
  rw [List.mem_range] at hx hy
  exact cyclic_inj n start x y hs (by omega) (by omega) (by omega)

theorem mem_examinedAfter (n start c : Nat) (hs : start < n) :
    c ∈ examinedAfter n start n ↔ 2 ≤ c ∧ c < 2 + n := by
  unfold examinedAfter
  rw [List.mem_map]
  constructor
  · rintro ⟨t, _, rfl⟩
    have := Nat.mod_lt (start + t) (show 0 < n by omega)
    omega
  · rintro ⟨h1, h2⟩
    obtain ⟨t, ht, he⟩ := cyclic_surj n start (c - 2) hs (by omega)
    exact ⟨t, List.mem_range.mpr ht, by omega⟩

theorem firstFree_none (fat : Nat → Nat) (n start : Nat) :
    firstFree fat n start = none ↔ ∀ t, t < n → fat (2 + (start + t) % n) ≠ 0 := by
  unfold firstFree
  rw [List.find?_eq_none]
  simp only [List.mem_map, List.mem_range, decide_eq_true_eq, forall_exists_index, and_imp]
  constructor
  · intro h t ht
    exact h _ t ht rfl
  · intro h x t ht hx
    rw [← hx]
    exact h t ht

theorem firstFree_some_of (fat : Nat → Nat) (n start j : Nat) (hj : j < n)
    (hbefore : ∀ t, t < j → fat (2 + (start + t) % n) ≠ 0)
    (hfree : fat (2 + (start + j) % n) = 0) :
    firstFree fat n start = some ((start + j) % n) := by
  unfold firstFree
  obtain ⟨d, rfl⟩ : ∃ d, n = j + 1 + d := ⟨n - j - 1, by omega⟩
  rw [List.range_add, List.map_append, List.find?_append, List.range_succ, List.map_append,
    List.find?_append]
  have h1 : ((List.range j).map (fun t => (start + t) % (j + 1 + d))).find?
      (fun p => decide (fat (2 + p) = 0)) = none := by
    rw [List.find?_eq_none]
    simp only [List.mem_map, List.mem_range, decide_eq_true_eq, forall_exists_index, and_imp]
    intro x t ht hx
    rw [← hx]
    exact hbefore t ht
  rw [h1]
  simp [hfree]

theorem firstFree_some (fat : Nat → Nat) (n start p : Nat)
    (h : firstFree fat n start = some p) :
    ∃ j, j < n ∧ p = (start + j) % n ∧ fat (2 + p) = 0 ∧
      ∀ t, t < j → fat (2 + (start + t) % n) ≠ 0 := by
  have hex : ∃ j, j < n ∧ fat (2 + (start + j) % n) = 0 := by
    by_contra hno
    have : firstFree fat n start = none := by
      rw [firstFree_none]
      intro t ht h0
      exact hno ⟨t, ht, h0⟩
    rw [this] at h
    exact Option.noConfusion h
  classical
  obtain ⟨hj, hfree⟩ := Nat.find_spec hex
  have hbefore : ∀ t, t < Nat.find hex → fat (2 + (start + t) % n) ≠ 0 := by
    intro t ht h0
    exact Nat.find_min hex ht ⟨by omega, h0⟩
  have := firstFree_some_of fat n start _ hj hbefore hfree
  rw [this] at h
  have hp : (start + Nat.find hex) % n = p := Option.some.inj h
  exact ⟨_, hj, hp.symm, hp ▸ hfree, hbefore⟩

end FatFs

namespace FatFs

theorem fsInfo_apart (w : World) (h : FsInfoBeforeFat w) (z : Nat) :
    get_abs_block_index_for_fat_entry w z ≠ w.o.fs_info_block_ref.block := by
  have h2 : w.o.fs_info_block_ref.block < w.o.block_range.base + w.o.num_reserved_blocks := h
  show w.o.block_range.base + (w.o.num_reserved_blocks + z / w.FatEntriesPerBlock) ≠ _
  generalize z / w.FatEntriesPerBlock = c
  omega

theorem ScanStart_eq (w : World) (h : ScanStart w) :
    w = allocWorld w w.o.alloc_start w.o.block_ref w.loaded := by
  obtain ⟨_, _, h3, h4, _, h6, _, _⟩ := h
  cases w with
  | mk BlockSize SizeBits writable o data dirty loaded files queue calls =>
    cases o
    simp only at h3 h4 h6
    subst h3 h4 h6
    rfl

theorem update_fs_info_free_clusters_o (w : World) (b : Bool) :
    (update_fs_info_free_clusters w b).o = w.o := by
  unfold update_fs_info_free_clusters
  simp only
  split_ifs <;> rfl

theorem update_fs_info_free_clusters_data (w : World) (b : Bool) :
    (update_fs_info_free_clusters w b).data = fsInfoUpdate w w.data b := by
  unfold update_fs_info_free_clusters fsInfoUpdate World.getData
  simp only
  split_ifs <;> rfl

theorem allocFound_o (w : World) (pos : Nat) (l : Nat → Bool) :
    (allocFound w pos l).o =
      (allocWorld w ((pos + 1) % w.o.num_valid_clusters)
        { state := .READY, block := get_abs_block_index_for_fat_entry w (2 + pos) } l).o := by
  unfold allocFound update_fs_info_allocated_cluster
  simp only [World.markDirty, World.setData]
  rw [update_fs_info_free_clusters_o, update_fat_entry_o]

theorem allocFound_data (w : World) (pos : Nat) (l : Nat → Bool) :
    (allocFound w pos l).data = fun b =>
      if b = w.o.fs_info_block_ref.block then
        WriteBinaryInt32 ((2 + (pos + 1) % w.o.num_valid_clusters) % 2 ^ 32)
          (fsInfoUpdate w (fatWrite w w.data (2 + pos) EndOfChainMarker) false
            w.o.fs_info_block_ref.block) FsInfoAllocatedClusterOffset
      else fsInfoUpdate w (fatWrite w w.data (2 + pos) EndOfChainMarker) false b := by
  unfold allocFound update_fs_info_allocated_cluster
  simp only [World.markDirty, World.setData, World.getData]
  rw [update_fs_info_free_clusters_o, update_fat_entry_o, update_fs_info_free_clusters_data]
  rfl

theorem allocFound_fat (w : World) (pos : Nat) (l : Nat → Bool) (h : FsInfoBeforeFat w)
    (z : Nat) :
    fatNext (allocFound w pos l) z =
      if z = 2 + pos then EndOfChainMarker else fatNext w z := by
  have e : fatNext (allocFound w pos l) z = fatOf w (allocFound w pos l).data z := by
    unfold fatNext fatOf read_fat_entry_in_cache_block World.getData
      get_abs_block_index_for_fat_entry get_abs_block_index get_fat_ptr_in_cache_block
      World.FatEntriesPerBlock
    have ho := allocFound_o w pos l
    have hb : (allocFound w pos l).BlockSize = w.BlockSize := by
      unfold allocFound update_fs_info_allocated_cluster update_fs_info_free_clusters
      simp only [World.markDirty, World.setData]
      split_ifs <;> rfl
    simp only [ho, hb]
    rfl
  rw [e, allocFound_data, fatOf_setData_other _ _ _ _ _ (fsInfo_apart w h z),
    fatOf_fsInfoUpdate _ _ _ _ (fsInfo_apart w h z)]
  split_ifs with hz
  · rw [hz, fatOf_fatWrite_self _ _ _ _ (by decide)]
  · rw [fatOf_fatWrite_other _ _ _ _ _ hz]
    rfl

theorem allocFound_last_allocated (w : World) (pos : Nat) (l : Nat → Bool)
    (hn : w.o.num_valid_clusters + 2 ≤ 2 ^ 32) (hp : pos < w.o.num_valid_clusters) :
    ReadBinaryInt32 ((allocFound w pos l).getData (allocFound w pos l).o.fs_info_block_ref)
        FsInfoAllocatedClusterOffset = 2 + (allocFound w pos l).o.alloc_position := by
  unfold World.getData
  rw [allocFound_o, allocFound_data]
  show ReadBinaryInt32 (if w.o.fs_info_block_ref.block = w.o.fs_info_block_ref.block then _
    else _) _ = 2 + (pos + 1) % w.o.num_valid_clusters
  have := Nat.mod_lt (pos + 1) (show 0 < w.o.num_valid_clusters by omega)
  have e : (2 + (pos + 1) % w.o.num_valid_clusters) % 2 ^ 32 =
      2 + (pos + 1) % w.o.num_valid_clusters := Nat.mod_eq_of_lt (by omega)
  rw [if_pos rfl, ReadBinaryInt32_WriteBinaryInt32, e]
  exact Nat.mod_eq_of_lt (by omega)

end FatFs

namespace FatFs

section
variable (w : World) (hs : w.o.state = FsState.READY)
  (hm : w.o.write_mount_state = WriteMountState.MOUNTED)
  (hn : w.o.num_valid_clusters + 2 ≤ 2 ^ 32)
  (hst : w.o.alloc_start < w.o.num_valid_clusters)
include hs hm hn hst

/-- A scan whose first free candidate is number `j` in the cyclic order ends
with that cluster. -/
theorem allocScan_found (j : Nat) (hj : j < w.o.num_valid_clusters)
    (hbefore : ∀ t, t < j →
      fatNext w (2 + (w.o.alloc_start + t) % w.o.num_valid_clusters) ≠ 0)
    (hfree : fatNext w (2 + (w.o.alloc_start + j) % w.o.num_valid_clusters) = 0)
    (n F : Nat) (r : CacheBlockRef) (l : Nat → Bool) (hjn : j + 1 ≤ n)
    (hF : w.o.num_valid_clusters ≤ F) :
    ∃ (l2 : Nat → Bool) (s : Nat),
      allocScanStep (allocScan n) F (allocWorld w w.o.alloc_start r l) [] =
        some (allocFound w ((w.o.alloc_start + j) % w.o.num_valid_clusters) l2, false,
          2 + (w.o.alloc_start + j) % w.o.num_valid_clusters,
          examinedAfter w.o.num_valid_clusters w.o.alloc_start (j + 1)) ∧
      ∀ k, (alloc_event_handler_loop F (allocWorld w w.o.alloc_start r l)).bind
            (run (k + s) []) =
          run k [] (complete_allocation
            (allocFound w ((w.o.alloc_start + j) % w.o.num_valid_clusters) l2) false
            (2 + (w.o.alloc_start + j) % w.o.num_valid_clusters)) := by
  obtain ⟨n2, F2, r2, l2, s, h1, h2, h3, h4, h5⟩ :=
    allocScan_prefix w hs hm hn hst j hj hbefore 1 n F r l hjn hF
  obtain ⟨F3, rfl⟩ : ∃ F3, F2 = F3 + 1 := ⟨F2 - 1, by omega⟩
  obtain ⟨n3, rfl⟩ : ∃ n3, n2 = n3 + 1 := ⟨n2 - 1, by omega⟩
  have hp : (w.o.alloc_start + j) % w.o.num_valid_clusters < w.o.num_valid_clusters :=
    Nat.mod_lt _ (by omega)
  by_cases himm : Immediate l2 r2 (get_abs_block_index_for_fat_entry w
      (2 + (w.o.alloc_start + j) % w.o.num_valid_clusters))
  · refine ⟨l2, s, ?_, fun k => ?_⟩
    · rw [h4, allocScanStep_found w _ r2 l2 F3 _ _ hp hn himm hfree, examinedAfter_succ]
    · rw [h5, alloc_loop_found w _ r2 l2 F3 hp hn himm hfree]
      rfl
  · refine ⟨(fun b => if b = get_abs_block_index_for_fat_entry w
        (2 + (w.o.alloc_start + j) % w.o.num_valid_clusters) then true else l2 b), s + 2, ?_,
      fun k => ?_⟩
    · rw [h4, allocScanStep_wait w _ r2 l2 F3 _ _ hp hn hs hm himm]
      show allocScanStep (allocScan n3) (2 ^ 32 + w.o.num_valid_clusters + 1) _ _ = _
      rw [allocScanStep_found w _ _ _ _ _ _ hp hn (Or.inl ⟨rfl, rfl⟩) hfree,
        examinedAfter_succ]
    · rw [show k + (s + 2) = (k + 2) + s by omega, h5,
        alloc_loop_wait w _ r2 l2 F3 hp hn hs hm himm,
        alloc_loop_found w _ _ _ _ hp hn (Or.inl ⟨rfl, rfl⟩) hfree]
      rfl

/-- A scan that finds no free candidate ends with an error after it has
examined all of them. -/
theorem allocScan_full
    (hnone : ∀ t, t < w.o.num_valid_clusters →
      fatNext w (2 + (w.o.alloc_start + t) % w.o.num_valid_clusters) ≠ 0)
    (n F : Nat) (r : CacheBlockRef) (l : Nat → Bool) (hjn : w.o.num_valid_clusters ≤ n)
    (hF : w.o.num_valid_clusters ≤ F) :
    ∃ (r2 : CacheBlockRef) (l2 : Nat → Bool) (s : Nat),
      allocScanStep (allocScan n) F (allocWorld w w.o.alloc_start r l) [] =
        some (allocWorld w w.o.alloc_start r2 l2, true, 0,
          examinedAfter w.o.num_valid_clusters w.o.alloc_start w.o.num_valid_clusters) ∧
      ∀ k, (alloc_event_handler_loop F (allocWorld w w.o.alloc_start r l)).bind
            (run (k + s) []) =
          run k [] (complete_allocation (allocWorld w w.o.alloc_start r2 l2) true 0) := by
  obtain ⟨j, hj⟩ : ∃ j, w.o.num_valid_clusters = j + 1 :=
    ⟨w.o.num_valid_clusters - 1, by omega⟩
  obtain ⟨n2, F2, r2, l2, s, h1, h2, h3, h4, h5⟩ :=
    allocScan_prefix w hs hm hn hst j (by omega) (fun t ht => hnone t (by omega)) 1 n F r l
      (by omega) hF
  obtain ⟨F3, rfl⟩ : ∃ F3, F2 = F3 + 1 := ⟨F2 - 1, by omega⟩
  obtain ⟨n3, rfl⟩ : ∃ n3, n2 = n3 + 1 := ⟨n2 - 1, by omega⟩
  have hp : (w.o.alloc_start + j) % w.o.num_valid_clusters < w.o.num_valid_clusters :=
    Nat.mod_lt _ (by omega)
  have hfat := hnone j (by omega)
  have hnext : ((w.o.alloc_start + j) % w.o.num_valid_clusters + 1) %
      w.o.num_valid_clusters = w.o.alloc_start := by
    rw [cyclic_succ, ← hj, Nat.add_mod_right, Nat.mod_eq_of_lt hst]
  have hex : examinedAfter w.o.num_valid_clusters w.o.alloc_start w.o.num_valid_clusters =
      examinedAfter w.o.num_valid_clusters w.o.alloc_start j ++
        [2 + (w.o.alloc_start + j) % w.o.num_valid_clusters] := by
    rw [← examinedAfter_succ, ← hj]
  by_cases himm : Immediate l2 r2 (get_abs_block_index_for_fat_entry w
      (2 + (w.o.alloc_start + j) % w.o.num_valid_clusters))
  · refine ⟨(CacheBlockRef.mk .READY (get_abs_block_index_for_fat_entry w
        (2 + (w.o.alloc_start + j) % w.o.num_valid_clusters))), l2, s, ?_, fun k => ?_⟩
    · rw [h4, allocScanStep_full w _ r2 l2 F3 _ _ hp hn himm hfat hnext, hnext, hex]
    · rw [h5, alloc_loop_full w _ r2 l2 F3 hp hn himm hfat hnext, hnext]
      rfl
  · refine ⟨(CacheBlockRef.mk .READY (get_abs_block_index_for_fat_entry w
        (2 + (w.o.alloc_start + j) % w.o.num_valid_clusters))),
      (fun b => if b = get_abs_block_index_for_fat_entry w
        (2 + (w.o.alloc_start + j) % w.o.num_valid_clusters) then true else l2 b), s + 2, ?_,
      fun k => ?_⟩
    · rw [h4, allocScanStep_wait w _ r2 l2 F3 _ _ hp hn hs hm himm]
      show allocScanStep (allocScan n3) (2 ^ 32 + w.o.num_valid_clusters + 1) _ _ = _
      rw [allocScanStep_full w _ _ _ _ _ _ hp hn (Or.inl ⟨rfl, rfl⟩) hfat hnext, hnext, hex]
    · rw [show k + (s + 2) = (k + 2) + s by omega, h5,
        alloc_loop_wait w _ r2 l2 F3 hp hn hs hm himm,
        alloc_loop_full w _ _ _ _ hp hn (Or.inl ⟨rfl, rfl⟩) hfat hnext, hnext]
      rfl

end

end FatFs

namespace FatFs

theorem allocScan_start (w : World) (h : ScanStart w) (n : Nat) :
    allocScan (n + 1) w [] =
      allocScanStep (allocScan n) (2 ^ 32 + w.o.num_valid_clusters + 1)
        (allocWorld w w.o.alloc_start w.o.block_ref w.loaded) [] := by
  rw [← ScanStart_eq w h]
  rfl

theorem run_scan_start (w : World) (h : ScanStart w) (k : Nat) :
    run (k + 1) [] { w with queue := [.alloc_event] } =
      (alloc_event_handler_loop (2 ^ 32 + w.o.num_valid_clusters + 1)
        (allocWorld w w.o.alloc_start w.o.block_ref w.loaded)).bind (run k []) := by
  rw [run_queued_bind k [] _ (by simp), ← ScanStart_eq w h]
  obtain ⟨_, _, _, h4, _⟩ := h
  cases w with
  | mk BlockSize SizeBits writable o data dirty loaded files queue calls =>
    simp only at h4
    subst h4
    rfl

end FatFs

namespace FatFs

end FatFs

namespace FatFs

end FatFs

namespace FatFs

/-- One step of a truncation, as a change of the world: the handler of the
chain event unlinks and frees the cluster after the current one and queues the
chain event again. -/
theorem truncate_step_world (w : World) (i : Nat) (hi : i < w.files.length)
    (f : File) (hcs : f.m_chain.m_state = ChainState.TRUNCATE_CHECK)
    (hnorm : is_cluster_idx_normal f.m_chain.m_current_cluster = true)
    (hfat : is_cluster_idx_valid_for_fat w f.m_chain.m_current_cluster = true)
    (r1 r2 : CacheBlockRef) (data : Nat → Buffer) (dirty l : Nat → Bool)
    (cs : List HandlerCall)
    (himm : Immediate l r1 (get_abs_block_index_for_fat_entry w f.m_chain.m_current_cluster))
    (hnext : is_cluster_idx_normal (fatOf w data f.m_chain.m_current_cluster) = true)
    (hnfat : is_cluster_idx_valid_for_fat w (fatOf w data f.m_chain.m_current_cluster) = true)
    (himm2 : Immediate l r2
      (get_abs_block_index_for_fat_entry w (fatOf w data f.m_chain.m_current_cluster))) :
    ClusterChain.event_handler
        (fileWorld w i
          { f with m_chain := { f.m_chain with m_fat_cache_ref1 := r1,
                                               m_fat_cache_ref2 := r2 } }
          w.o data dirty l [] cs) i =
      chainWorld w i f
        { state := .READY,
          block := get_abs_block_index_for_fat_entry w f.m_chain.m_current_cluster }
        { state := .READY,
          block := get_abs_block_index_for_fat_entry w
            (fatOf w data f.m_chain.m_current_cluster) }
        (fsInfoUpdate w
          (fatWrite w
            (fatWrite w data f.m_chain.m_current_cluster
              (fatOf w data (fatOf w data f.m_chain.m_current_cluster)))
            (fatOf w data f.m_chain.m_current_cluster) 0) true)
        (fsInfoDirty w
          (fatWrite w
            (fatWrite w data f.m_chain.m_current_cluster
              (fatOf w data (fatOf w data f.m_chain.m_current_cluster)))
            (fatOf w data f.m_chain.m_current_cluster) 0)
          (fun x =>
            if x = get_abs_block_index_for_fat_entry w
                (fatOf w data f.m_chain.m_current_cluster) then true
            else if x = get_abs_block_index_for_fat_entry w f.m_chain.m_current_cluster
              then true else dirty x))
        l cs := by
  have hfile := fun g o d dd l q c => fileWorld_file w i g o d dd l q c hi
  have hfat2 : ∀ g d dd l q c y, is_cluster_idx_valid_for_fat (fileWorld w i g w.o d dd l q c)
      y = is_cluster_idx_valid_for_fat w y := fun _ _ _ _ _ _ _ => rfl
  have hc2 : (r1.state = CacheRefState.READY ∧
        r1.block = get_abs_block_index_for_fat_entry w f.m_chain.m_current_cluster) ∨
      l (get_abs_block_index_for_fat_entry w f.m_chain.m_current_cluster) = true := himm
  have hF : ∀ y, mask_cluster_entry (ReadBinaryInt32
      (data (get_abs_block_index_for_fat_entry w y))
      (4 * (y % w.FatEntriesPerBlock))) = fatOf w data y := fun _ => rfl
  have hc3 : (r2.state = CacheRefState.READY ∧
        r2.block = get_abs_block_index_for_fat_entry w
          (fatOf w data f.m_chain.m_current_cluster)) ∨
      l (get_abs_block_index_for_fat_entry w
          (fatOf w data f.m_chain.m_current_cluster)) = true := himm2
  have hB : ∀ y, w.o.block_range.getAbsBlockIndex (w.o.num_reserved_blocks +
      y / w.FatEntriesPerBlock) = get_abs_block_index_for_fat_entry w y := fun _ => rfl
  have hupd := fun g d dd l q c y v => fileWorld_update_fat w i g d dd l q c y v
  have hfsi := fun g d dd l q c b => fileWorld_update_fs_info w i g d dd l q c b
  unfold chainWorld
  simp only [↓reduceIte, ClusterChain.event_handler, World.chain, hfile, hcs, hnorm, hfat2, hfat,
    request_fat_cache_block, World.requestBlock, fileWorld_loaded,
    fileWorld_get_abs_block_index_for_fat_entry, hc2, and_self, true_and,
    World.setChain, fileWorld_setFile, if_true, Bool.false_eq_true, if_false,
    Bool.true_eq_false, fileWorld_read_fat_entry, hB, hF, hnext, hnfat, hc3,
    hupd, FreeClusterMarker, hfsi, fileWorld_prepend]

end FatFs

namespace FatFs

/-- The geometry that a successful `init` computes.  When
`init_block_ref_handler` ends in `READY` (for a block size of at least 512, as
the source asserts, and a partition of fewer than `2 ^ 32` blocks),
`num_fat_entries` is `sectors_per_fat * (sector_size / 4)`, `fat_end_blocks` is
`(reserved_sectors + num_fats * sectors_per_fat) * blocks_per_sector`,
`blocks_per_cluster` is `sectors_per_cluster * blocks_per_sector`, and
`num_valid_clusters` is the least of
`(length - fat_end_blocks) / blocks_per_cluster`, `num_fat_entries - 2` and
`0x0FFFFFF8 - 2`; it is at least 1, and `2 + num_valid_clusters` is at most
`num_fat_entries`. -/
theorem init_geometry (w w2 : World) (hBS : 512 ≤ w.BlockSize)
    (hlen : w.o.block_range.length < 2 ^ 32)
    (h : init_block_ref_handler w false = some w2) (hr : w2.o.state = FsState.READY) :
    w2.o.num_fat_entries =
      ReadBinaryInt32 (w.getData w.o.block_ref) 0x24 *
        (ReadBinaryInt16 (w.getData w.o.block_ref) 0xB / 4) ∧
    w2.o.fat_end_blocks =
      (ReadBinaryInt16 (w.getData w.o.block_ref) 0xE +
          ReadBinaryInt8 (w.getData w.o.block_ref) 0x10 *
            ReadBinaryInt32 (w.getData w.o.block_ref) 0x24) *
        (ReadBinaryInt16 (w.getData w.o.block_ref) 0xB / w.BlockSize) ∧
    w2.o.blocks_per_cluster =
      ReadBinaryInt8 (w.getData w.o.block_ref) 0xD *
        (ReadBinaryInt16 (w.getData w.o.block_ref) 0xB / w.BlockSize) ∧
    w2.o.num_valid_clusters =
      min ((w.o.block_range.length - w2.o.fat_end_blocks) / w2.o.blocks_per_cluster)
        (min (w2.o.num_fat_entries - 2) (0x0FFFFFF8 - 2)) ∧
    1 ≤ w2.o.num_valid_clusters ∧
    2 + w2.o.num_valid_clusters ≤ w2.o.num_fat_entries := by
  have h1 := ReadBinaryInt16_lt (w.getData w.o.block_ref) 0xB
  have h2 := ReadBinaryInt8_lt (w.getData w.o.block_ref) 0xD
  have h3 := ReadBinaryInt16_lt (w.getData w.o.block_ref) 0xE
  have h4 := ReadBinaryInt8_lt (w.getData w.o.block_ref) 0x10
  have h6 := ReadBinaryInt32_lt (w.getData w.o.block_ref) 0x24
  have h8 := ReadBinaryInt16_lt (w.getData w.o.block_ref) 0x30
  have hx : ∀ (w1 : World) (code : Nat) (Q : Prop), code ≠ 0 →
      some (init_block_ref_handler_exit w1 code) = some w2 → w2.o.state = FsState.READY →
      Q := by
    intro w1 code Q hcode h hr
    simp only [Option.some.injEq] at h
    subst h
    rw [init_block_ref_handler_exit_state, if_pos hcode] at hr
    exact absurd hr (by simp)
  revert h hr
  unfold init_block_ref_handler
  simp only [Bool.false_eq_true, if_false, BlockRange.getLength, UINT16_MAX, UINT32_MAX,
    mask_cluster_entry, NormalClusterIndexEnd]
  generalize ReadBinaryInt16 (w.getData w.o.block_ref) 0xB = ss at *
  generalize ReadBinaryInt8 (w.getData w.o.block_ref) 0xD = spc at *
  generalize ReadBinaryInt16 (w.getData w.o.block_ref) 0xE = rs at *
  generalize ReadBinaryInt8 (w.getData w.o.block_ref) 0x10 = nf at *
  generalize ReadBinaryInt16 (w.getData w.o.block_ref) 0x11 = mr at *
  generalize ReadBinaryInt32 (w.getData w.o.block_ref) 0x24 = spf at *
  generalize ReadBinaryInt32 (w.getData w.o.block_ref) 0x2C = rc at *
  generalize ReadBinaryInt16 (w.getData w.o.block_ref) 0x30 = fis at *
  generalize ReadBinaryInt8 (w.getData w.o.block_ref) 0x42 = sig at *
  generalize hlenEq : w.o.block_range.length = len at *
  generalize hBSeq : w.BlockSize = BS at *
  have e16 : (2 : Nat) ^ 16 = 65536 := by norm_num
  have e32 : (2 : Nat) ^ 32 = 4294967296 := by norm_num
  have e64 : (2 : Nat) ^ 64 = 18446744073709551616 := by norm_num
  rw [e16, e32, e64]
  rw [e32] at hlen
  by_cases c1 : ss = 0 ∨ ss % BS ≠ 0
  · rw [if_pos c1]
    exact hx _ 22 _ (by decide)
  rw [if_neg c1]
  have hssBS : BS ≤ ss := by
    rcases Nat.lt_or_ge ss BS with h | h
    · have := Nat.mod_eq_of_lt h
      omega
    · exact h
  have hbps1 : 1 ≤ ss / BS := Nat.div_pos hssBS (by omega)
  have hbps2 : ss / BS ≤ 127 := by
    have : ss / BS ≤ ss / 512 := Nat.div_le_div_left hBS (by norm_num)
    omega
  generalize ss / BS = bps at *
  have hb : bps % 65536 = bps := Nat.mod_eq_of_lt (by omega)
  rw [hb]
  rw [if_neg (by omega : ¬ bps = 0)]
  have hdiv : 65535 / bps < spc ↔ 65535 < spc * bps := Nat.div_lt_iff_lt_mul (by omega)
  by_cases c2 : spc > 65535 / bps
  · rw [if_pos c2]
    exact hx _ 23 _ (by decide)
  rw [if_neg c2]
  have hbpc : spc * bps ≤ 65535 := by
    by_contra hh
    exact c2 (hdiv.2 (by omega))
  rw [Nat.mul_comm bps spc, Nat.mod_eq_of_lt (by omega : spc * bps < 65536)]
  by_cases c3 : rs * ss % 4294967296 < 71
  · rw [if_pos c3]
    exact hx _ 24 _ (by decide)
  rw [if_neg c3]
  by_cases c4 : nf ≠ 1 ∧ nf ≠ 2
  · rw [if_pos c4]
    exact hx _ 25 _ (by decide)
  rw [if_neg c4]
  by_cases c5 : sig ≠ 40 ∧ sig ≠ 41
  · rw [if_pos c5]
    exact hx _ 26 _ (by decide)
  rw [if_neg c5]
  by_cases c6 : mr ≠ 0
  · rw [if_pos c6]
    exact hx _ 27 _ (by decide)
  rw [if_neg c6]
  by_cases c7 : rc &&& 268435455 < 2
  · rw [if_pos c7]
    exact hx _ 28 _ (by decide)
  rw [if_neg c7]
  have heps : ss / 4 % 65536 = ss / 4 := Nat.mod_eq_of_lt (by omega)
  rw [heps]
  by_cases c8 : spf = 0
  · rw [if_pos c8]
    exact hx _ 29 _ (by decide)
  rw [if_neg c8, if_neg (by omega : ¬ ss / 4 = 0)]
  have hdiv2 : 4294967295 / (ss / 4) < spf ↔ 4294967295 < spf * (ss / 4) :=
    Nat.div_lt_iff_lt_mul (by omega)
  by_cases c9 : spf > 4294967295 / (ss / 4)
  · rw [if_pos c9]
    exact hx _ 29 _ (by decide)
  rw [if_neg c9]
  have hnfe : spf * (ss / 4) ≤ 4294967295 := by
    by_contra hh
    exact c9 (hdiv2.2 (by omega))
  have hnfe2 : 128 ≤ spf * (ss / 4) := by
    have : 1 * 128 ≤ spf * (ss / 4) := Nat.mul_le_mul (by omega) (by omega)
    omega
  have hnf : nf * spf ≤ 2 * 4294967295 := Nat.mul_le_mul (by omega) (by omega)
  rw [Nat.mod_eq_of_lt (by omega : rs + nf * spf < 18446744073709551616)]
  by_cases c10 : rs + nf * spf > len / bps
  · rw [if_pos c10]
    exact hx _ 29 _ (by decide)
  rw [if_neg c10]
  by_cases c11 : fis ≠ 0 ∧ fis ≠ 65535 ∧ fis * bps % 4294967296 ≥ rs * bps
  · rw [if_pos c11]
    exact hx _ 31 _ (by decide)
  rw [if_neg c11]
  by_cases c13 : spc * bps = 0
  · rw [if_pos c13]
    intro h
    exact Option.noConfusion h
  rw [if_neg c13]
  have hcap : (len - (rs + nf * spf) * bps) / (spc * bps) < 4294967296 :=
    lt_of_le_of_lt (Nat.div_le_self _ _) (by omega)
  rw [Nat.mod_eq_of_lt hcap]
  by_cases c12 : (len - (rs + nf * spf) * bps) / (spc * bps) < 1
  · rw [if_pos c12]
    exact hx _ 30 _ (by decide)
  rw [if_neg c12]
  rw [Nat.mod_eq_of_lt (by omega : spf * (ss / 4) < 4294967296)]
  rw [show (spf * (ss / 4) + 4294967296 - 2) % 4294967296 = spf * (ss / 4) - 2 by omega]
  intro h hr
  simp only [Option.some.injEq] at h
  subst h
  refine ⟨rfl, rfl, rfl, rfl, ?_, ?_⟩
  · show 1 ≤ min _ (min _ _)
    omega
  · show 2 + min _ (min (spf * (ss / 4) - 2) _) ≤ spf * (ss / 4)
    omega

/-- C30: the number of valid clusters after a successful `init`.  When
`init_block_ref_handler` ends in `READY` (for a block size of at least 512, as
the source asserts, and a partition of fewer than `2 ^ 32` blocks),
`num_fat_entries` is `sectors_per_fat * (sector_size / 4)`, `fat_end_blocks` is
`(reserved_sectors + num_fats * sectors_per_fat) * blocks_per_sector`,
`blocks_per_cluster` is `sectors_per_cluster * blocks_per_sector`, and
`num_valid_clusters` is the least of
`(length - fat_end_blocks) / blocks_per_cluster`, `num_fat_entries - 2` and
`0x0FFFFFF8 - 2`; it is at least 1, and `2 + num_valid_clusters` is at most
`num_fat_entries`. -/
theorem init_num_valid_clusters (w w2 : World) (hBS : 512 ≤ w.BlockSize)
    (hlen : w.o.block_range.length < 2 ^ 32)
    (h : init_block_ref_handler w false = some w2) (hr : w2.o.state = FsState.READY) :
    w2.o.num_fat_entries =
      ReadBinaryInt32 (w.getData w.o.block_ref) 0x24 *
        (ReadBinaryInt16 (w.getData w.o.block_ref) 0xB / 4) ∧
    w2.o.fat_end_blocks =
      (ReadBinaryInt16 (w.getData w.o.block_ref) 0xE +
          ReadBinaryInt8 (w.getData w.o.block_ref) 0x10 *
            ReadBinaryInt32 (w.getData w.o.block_ref) 0x24) *
        (ReadBinaryInt16 (w.getData w.o.block_ref) 0xB / w.BlockSize) ∧
    w2.o.blocks_per_cluster =
      ReadBinaryInt8 (w.getData w.o.block_ref) 0xD *
        (ReadBinaryInt16 (w.getData w.o.block_ref) 0xB / w.BlockSize) ∧
    w2.o.num_valid_clusters =
      min ((w.o.block_range.length - w2.o.fat_end_blocks) / w2.o.blocks_per_cluster)
        (min (w2.o.num_fat_entries - 2) (0x0FFFFFF8 - 2)) ∧
    1 ≤ w2.o.num_valid_clusters ∧
    2 + w2.o.num_valid_clusters ≤ w2.o.num_fat_entries :=
  init_geometry w w2 hBS hlen h hr

theorem init_num_valid_clusters_witness :
    sampleReady.o.num_fat_entries =
      ReadBinaryInt32 (sampleInit.getData sampleInit.o.block_ref) 0x24 *
        (ReadBinaryInt16 (sampleInit.getData sampleInit.o.block_ref) 0xB / 4) ∧
    sampleReady.o.fat_end_blocks =
      (ReadBinaryInt16 (sampleInit.getData sampleInit.o.block_ref) 0xE +
          ReadBinaryInt8 (sampleInit.getData sampleInit.o.block_ref) 0x10 *
            ReadBinaryInt32 (sampleInit.getData sampleInit.o.block_ref) 0x24) *
        (ReadBinaryInt16 (sampleInit.getData sampleInit.o.block_ref) 0xB /
          sampleInit.BlockSize) ∧
    sampleReady.o.blocks_per_cluster =
      ReadBinaryInt8 (sampleInit.getData sampleInit.o.block_ref) 0xD *
        (ReadBinaryInt16 (sampleInit.getData sampleInit.o.block_ref) 0xB /
          sampleInit.BlockSize) ∧
    sampleReady.o.num_valid_clusters =
      min ((sampleInit.o.block_range.length - sampleReady.o.fat_end_blocks) /
          sampleReady.o.blocks_per_cluster)
        (min (sampleReady.o.num_fat_entries - 2) (0x0FFFFFF8 - 2)) ∧
    1 ≤ sampleReady.o.num_valid_clusters ∧
    2 + sampleReady.o.num_valid_clusters ≤ sampleReady.o.num_fat_entries :=
  init_num_valid_clusters sampleInit sampleReady (by decide) (by decide) rfl (by decide)

end FatFs

namespace FatFs

theorem setChain_chain (w : World) (i : Nat) (c : ClusterChain) (hi : i < w.files.length) :
    (w.setChain i c).chain i = c := by
  unfold World.setChain World.chain World.setFile World.file
  simp only [getD_set_self _ _ _ hi]

theorem setChain_setChain (w : World) (i : Nat) (c c2 : ClusterChain)
    (hi : i < w.files.length) :
    (w.setChain i c).setChain i c2 = w.setChain i c2 := by
  unfold World.setChain World.setFile World.file
  simp only [getD_set_self _ _ _ hi, List.set_set]

theorem setChain_files_length (w : World) (i : Nat) (c : ClusterChain) :
    (w.setChain i c).files.length = w.files.length := by
  unfold World.setChain World.setFile
  simp only [List.length_set]

theorem update_fat_entry_files_length (w : World) (r : CacheBlockRef) (y v : Nat) :
    (update_fat_entry_in_cache_block w r y v).files.length = w.files.length := rfl

theorem allocation_result_error (w : World) (i n : Nat) :
    ClusterChain.allocation_result w i true n =
      File.chain_handler (chainCompleted (stopWaiting w i) i (w.chain i)) i true false := by
  unfold ClusterChain.allocation_result ClusterChain.complete_request chainCompleted stopWaiting
  simp only [if_true]
  rfl

theorem allocation_result_first (w : World) (i n : Nat) (hi : i < w.files.length)
    (hprev : is_cluster_idx_normal (w.chain i).m_prev_cluster = false) :
    ClusterChain.allocation_result w i false n =
      File.chain_handler
        (chainCompleted (stopWaiting w i) i
          { w.chain i with m_current_cluster := n, m_first_cluster := n,
                           m_iter_state := IterState.CLUSTER }) i false true := by
  have h0 : ({ w with o.allocating_chains_list := w.o.allocating_chains_list.erase i } :
      World).chain i = w.chain i := rfl
  unfold ClusterChain.allocation_result ClusterChain.complete_request chainCompleted stopWaiting
  simp only [Bool.false_eq_true, if_false, h0, setChain_chain, setChain_setChain,
    setChain_files_length, hi, hprev, Bool.not_false, if_true]
  rfl

theorem allocation_result_link (w : World) (i n : Nat) (hi : i < w.files.length)
    (hprev : is_cluster_idx_normal (w.chain i).m_prev_cluster = true) :
    ClusterChain.allocation_result w i false n =
      File.chain_handler
        (chainCompleted
          (update_fat_entry_in_cache_block (stopWaiting w i) (w.chain i).m_fat_cache_ref1
            (w.chain i).m_prev_cluster n) i
          { w.chain i with m_current_cluster := n, m_iter_state := IterState.CLUSTER })
        i false false := by
  have h0 : ({ w with o.allocating_chains_list := w.o.allocating_chains_list.erase i } :
      World).chain i = w.chain i := rfl
  have hu : ∀ (W : World) (c : ClusterChain) (r : CacheBlockRef) (y v : Nat),
      update_fat_entry_in_cache_block (W.setChain i c) r y v =
        (update_fat_entry_in_cache_block W r y v).setChain i c := fun _ _ _ _ _ => rfl
  unfold ClusterChain.allocation_result ClusterChain.complete_request chainCompleted stopWaiting
  simp only [Bool.false_eq_true, if_false, h0, setChain_chain, setChain_setChain,
    setChain_files_length, update_fat_entry_files_length, hi, hprev, Bool.not_true, hu]
  rfl

theorem fatNext_of_geometry (W w : World) (h1 : W.BlockSize = w.BlockSize)
    (h2 : W.o.block_range = w.o.block_range)
    (h3 : W.o.num_reserved_blocks = w.o.num_reserved_blocks) (z : Nat) :
    fatNext W z = fatOf w W.data z := by
  unfold fatNext fatOf read_fat_entry_in_cache_block World.getData
    get_abs_block_index_for_fat_entry get_abs_block_index get_fat_ptr_in_cache_block
    World.FatEntriesPerBlock
  simp only [h1, h2, h3]

theorem update_fat_entry_fatWrite (w : World) (r : CacheBlockRef) (y v : Nat)
    (hr : r.block = get_abs_block_index_for_fat_entry w y) :
    (update_fat_entry_in_cache_block w r y v).data = fatWrite w w.data y v := by
  funext b
  rw [update_fat_entry_data, hr]
  rfl

/-- C29: chain extension.  When the allocator answers the `requestNew` of the
chain of file `i` with the cluster `n` (a value below `2 ^ 28`) and no error:
if `prev_cluster` is not normal, the handler of the chain is called with
`first_cluster_changed = true` in a state in which `first_cluster` and
`current_cluster` are `n`, the iterator is at `CLUSTER` and the cache contents
are untouched; otherwise (with the first FAT reference of the chain on the block
of the entry of `prev_cluster`, where `NEW_CHECK` has put it) the handler is
called with `first_cluster_changed = false` in a state in which the FAT entry of
`prev_cluster` reads `n` with its four high bits as before, no other FAT entry
has changed, `first_cluster` is unchanged, `current_cluster` is `n` and the
iterator is at `CLUSTER`.  When the allocator answers with an error, the
handler is called with `error = true` in a state in which `first_cluster`,
`current_cluster`, `prev_cluster`, the iterator and the cache contents are
unchanged. -/
theorem chain_extension (w : World) (i n : Nat) (hi : i < w.files.length)
    (hn : n < 2 ^ 28) :
    (is_cluster_idx_normal (w.chain i).m_prev_cluster = false →
      ∃ W, ClusterChain.allocation_result w i false n = File.chain_handler W i false true ∧
        W = chainCompleted (stopWaiting w i) i
          { w.chain i with m_current_cluster := n, m_first_cluster := n,
                           m_iter_state := IterState.CLUSTER } ∧
        (W.chain i).m_first_cluster = n ∧ (W.chain i).m_current_cluster = n ∧
        (W.chain i).m_iter_state = IterState.CLUSTER ∧
        (W.chain i).m_prev_cluster = (w.chain i).m_prev_cluster ∧ W.data = w.data) ∧
    (is_cluster_idx_normal (w.chain i).m_prev_cluster = true →
      (w.chain i).m_fat_cache_ref1.block =
        get_abs_block_index_for_fat_entry w (w.chain i).m_prev_cluster →
      ∃ W, ClusterChain.allocation_result w i false n = File.chain_handler W i false false ∧
        W = chainCompleted
          (update_fat_entry_in_cache_block (stopWaiting w i) (w.chain i).m_fat_cache_ref1
            (w.chain i).m_prev_cluster n) i
          { w.chain i with m_current_cluster := n, m_iter_state := IterState.CLUSTER } ∧
        (W.chain i).m_first_cluster = (w.chain i).m_first_cluster ∧
        (W.chain i).m_current_cluster = n ∧
        (W.chain i).m_iter_state = IterState.CLUSTER ∧
        (W.chain i).m_prev_cluster = (w.chain i).m_prev_cluster ∧
        fatNext W (w.chain i).m_prev_cluster = n ∧
        ReadBinaryInt32
            (W.data (get_abs_block_index_for_fat_entry w (w.chain i).m_prev_cluster))
            (get_fat_ptr_in_cache_block w (w.chain i).m_prev_cluster) / 2 ^ 28 =
          ReadBinaryInt32
            (w.data (get_abs_block_index_for_fat_entry w (w.chain i).m_prev_cluster))
            (get_fat_ptr_in_cache_block w (w.chain i).m_prev_cluster) / 2 ^ 28 ∧
        ∀ z, z ≠ (w.chain i).m_prev_cluster → fatNext W z = fatNext w z) ∧
    (∃ W, ClusterChain.allocation_result w i true n = File.chain_handler W i true false ∧
        W = chainCompleted (stopWaiting w i) i (w.chain i) ∧
        (W.chain i).m_first_cluster = (w.chain i).m_first_cluster ∧
        (W.chain i).m_current_cluster = (w.chain i).m_current_cluster ∧
        (W.chain i).m_iter_state = (w.chain i).m_iter_state ∧
        (W.chain i).m_prev_cluster = (w.chain i).m_prev_cluster ∧ W.data = w.data) := by
  have hc : ∀ (W : World) (c : ClusterChain), i < W.files.length →
      (chainCompleted W i c).chain i =
        { c with m_state := ChainState.IDLE, m_fat_cache_ref1 := CacheBlockRef.reset {},
                 m_fat_cache_ref2 := CacheBlockRef.reset {} } :=
    fun W c hW => setChain_chain W i _ hW
  have h1 := hc (stopWaiting w i) (w.chain i) hi
  have h2 := hc (stopWaiting w i)
    { w.chain i with m_current_cluster := n, m_first_cluster := n,
                     m_iter_state := IterState.CLUSTER } hi
  have h3 := hc (update_fat_entry_in_cache_block (stopWaiting w i) (w.chain i).m_fat_cache_ref1
      (w.chain i).m_prev_cluster n)
    { w.chain i with m_current_cluster := n, m_iter_state := IterState.CLUSTER } hi
  have hdata0 := update_fat_entry_fatWrite (stopWaiting w i) (w.chain i).m_fat_cache_ref1
    (w.chain i).m_prev_cluster n
  refine ⟨fun hprev => ⟨_, allocation_result_first w i n hi hprev, rfl, ?_, ?_, ?_, ?_, rfl⟩,
    fun hprev href => ?_,
    ⟨_, allocation_result_error w i n, rfl, ?_, ?_, ?_, ?_, rfl⟩⟩
  · rw [h2]
  · rw [h2]
  · rw [h2]
  · rw [h2]
  · have hdata : (chainCompleted
        (update_fat_entry_in_cache_block (stopWaiting w i) (w.chain i).m_fat_cache_ref1
          (w.chain i).m_prev_cluster n) i
        { w.chain i with m_current_cluster := n, m_iter_state := IterState.CLUSTER }).data =
        fatWrite w w.data (w.chain i).m_prev_cluster n := hdata0 href
    have hfn := fatNext_of_geometry (chainCompleted
        (update_fat_entry_in_cache_block (stopWaiting w i) (w.chain i).m_fat_cache_ref1
          (w.chain i).m_prev_cluster n) i
        { w.chain i with m_current_cluster := n, m_iter_state := IterState.CLUSTER })
      w rfl rfl rfl
    refine ⟨_, allocation_result_link w i n hi hprev, rfl, ?_, ?_, ?_, ?_, ?_, ?_, ?_⟩
    · rw [h3]
    · rw [h3]
    · rw [h3]
    · rw [h3]
    · rw [hfn, hdata]
      exact fatOf_fatWrite_self w w.data _ n hn
    · rw [hdata]
      unfold fatWrite
      rw [if_pos rfl, ReadBinaryInt32_WriteBinaryInt32,
        Nat.mod_eq_of_lt (update_cluster_entry_lt _ _ (by omega))]
      exact update_cluster_entry_high _ _ (ReadBinaryInt32_lt _ _) hn
    · intro z hz
      rw [hfn, hdata]
      exact fatOf_fatWrite_other w w.data _ n z hz
  · rw [h1]
  · rw [h1]
  · rw [h1]
  · rw [h1]

theorem chain_extension_witness :
    ∃ W, ClusterChain.allocation_result sampleScanStart 0 false 5 =
        File.chain_handler W 0 false true ∧
      (W.chain 0).m_first_cluster = 5 ∧ (W.chain 0).m_current_cluster = 5 ∧
      (W.chain 0).m_iter_state = IterState.CLUSTER ∧ W.data = sampleScanStart.data := by
  obtain ⟨W, h1, _, h3, h4, h5, _, h7⟩ :=
    (chain_extension sampleScanStart 0 5 (by decide) (by decide)).1 (by decide)
  exact ⟨W, h1, h3, h4, h5, h7⟩

end FatFs

namespace FatFs

/-- A chain on a cluster passes to the next cluster when the FAT block is at
hand. -/
theorem chain_next_immediate_idle (w : World) (i : Nat) (hi : i < w.files.length)
    (hpf : pendingFiles w.files 0 = none)
    (hb1 : w.o.block_ref.state ≠ CacheRefState.REQUESTING)
    (hb2 : w.o.fs_info_block_ref.state ≠ CacheRefState.REQUESTING)
    (hb3 : w.o.flush_request = false)
    (g : File) (hst : g.m_state = FileState.IDLE)
    (hcs : g.m_chain.m_state = ChainState.NEXT_CHECK)
    (hit : g.m_chain.m_iter_state = IterState.CLUSTER)
    (hd : g.m_dir_entry.m_block_ref.state ≠ CacheRefState.REQUESTING)
    (hu : g.m_block_user.busy = false)
    (hfat : is_cluster_idx_valid_for_fat w g.m_chain.m_current_cluster = true)
    (l : Nat → Bool) (cs : List HandlerCall) (m : Nat)
    (hc : Immediate l g.m_chain.m_fat_cache_ref1
      (get_abs_block_index_for_fat_entry w g.m_chain.m_current_cluster)) :
    run (m + 2) [] (fileWorld w i g w.o w.data w.dirty l [.chain_event i] cs) =
      some (fileWorld w i { g with m_chain := nextChain (fatNext w) g.m_chain }
        w.o w.data w.dirty l [] cs) := by
  have hfile := fun g o d dd l q c => fileWorld_file w i g o d dd l q c hi
  have hfat2 : ∀ g q, is_cluster_idx_valid_for_fat (fileWorld w i g w.o w.data w.dirty l q cs)
      g.m_chain.m_current_cluster = is_cluster_idx_valid_for_fat w g.m_chain.m_current_cluster :=
    fun _ _ => rfl
  have hc2 : (g.m_chain.m_fat_cache_ref1.state = CacheRefState.READY ∧
        g.m_chain.m_fat_cache_ref1.block =
          w.o.block_range.getAbsBlockIndex (w.o.num_reserved_blocks +
            g.m_chain.m_current_cluster / w.FatEntriesPerBlock)) ∨
      l (w.o.block_range.getAbsBlockIndex (w.o.num_reserved_blocks +
            g.m_chain.m_current_cluster / w.FatEntriesPerBlock)) = true := hc
  have hF : fatNext w g.m_chain.m_current_cluster = mask_cluster_entry (ReadBinaryInt32
      (w.data (w.o.block_range.getAbsBlockIndex (w.o.num_reserved_blocks +
        g.m_chain.m_current_cluster / w.FatEntriesPerBlock)))
      (4 * (g.m_chain.m_current_cluster % w.FatEntriesPerBlock))) := rfl
  rw [run_chain_event]
  simp only [↓reduceIte, ClusterChain.event_handler, World.chain, hfile, hit, hfat2, hfat, hcs, hst,
    request_fat_cache_block, World.requestBlock, fileWorld_loaded,
    fileWorld_get_abs_block_index_for_fat_entry, hc2, and_self, true_and,
    ClusterChain.event_handler_next_check_end, World.setChain, fileWorld_setFile,
    fileWorld_read_fat_entry, ne_eq, reduceCtorEq, not_false_eq_true,
    if_true, ClusterChain.complete_request, File.chain_handler, Bool.false_eq_true, if_false,
    Bool.true_eq_false]
  rw [run_fileWorld_done _ _ _ _ _ _ _ _ _ _ hi hpf hb1 hb2 hb3
    (by simp [File.pending, CacheBlockRef.reset, hd, hu])]
  simp only [↓reduceIte, nextChain, hit, if_true, ne_eq, reduceCtorEq, not_false_eq_true, hF]
  rfl

/-- One `requestNext` on the chain of an idle file. -/
theorem chainNext_fileWorld (w : World) (i : Nat) (hi : i < w.files.length)
    (hpf : pendingFiles w.files 0 = none)
    (hb1 : w.o.block_ref.state ≠ CacheRefState.REQUESTING)
    (hb2 : w.o.fs_info_block_ref.state ≠ CacheRefState.REQUESTING)
    (hb3 : w.o.flush_request = false)
    (f : File) (hst : f.m_state = FileState.IDLE)
    (hd : f.m_dir_entry.m_block_ref.state ≠ CacheRefState.REQUESTING)
    (hu : f.m_block_user.busy = false)
    (hv : f.m_chain.m_iter_state = IterState.CLUSTER →
      is_cluster_idx_valid_for_fat w f.m_chain.m_current_cluster = true)
    (l : Nat → Bool) (cs : List HandlerCall) (n : Nat) :
    ∃ l2, chainNext (n + 4) i (fileWorld w i f w.o w.data w.dirty l [] cs) =
        some (fileWorld w i { f with m_chain := nextChain (fatNext w) f.m_chain }
          w.o w.data w.dirty l2 [] cs) ∧
      (f.m_chain.m_iter_state ≠ IterState.CLUSTER → l2 = l) := by
  have hfile := fun g o d dd l q c => fileWorld_file w i g o d dd l q c hi
  have hstart : chainNext (n + 4) i (fileWorld w i f w.o w.data w.dirty l [] cs) =
      run (n + 4) [] (fileWorld w i
        { f with m_chain := { f.m_chain with m_state := ChainState.NEXT_CHECK } }
        w.o w.data w.dirty l [.chain_event i] cs) := by
    simp only [↓reduceIte, chainNext, ClusterChain.requestNext, World.setChain, World.chain, hfile,
      fileWorld_setFile, fileWorld_prepend]
  rw [hstart]
  by_cases hit : f.m_chain.m_iter_state = IterState.CLUSTER
  · have hfat := hv hit
    by_cases hc : Immediate l f.m_chain.m_fat_cache_ref1
        (get_abs_block_index_for_fat_entry w f.m_chain.m_current_cluster)
    · refine ⟨l, ?_, fun h => absurd hit h⟩
      have h := chain_next_immediate_idle w i hi hpf hb1 hb2 hb3
        { f with m_chain := { f.m_chain with m_state := ChainState.NEXT_CHECK } }
        hst rfl hit hd hu hfat l cs (n + 2) hc
      rw [h]
      simp only [↓reduceIte, nextChain, hit, if_true]
      rfl
    · have h1 := chain_next_pending w i hi hpf hb1 hb2 hb3 (n + 2)
        { f with m_chain := { f.m_chain with m_state := ChainState.NEXT_CHECK } }
        l cs rfl hit hfat hc
      have h2 := chain_next_immediate_idle w i hi hpf hb1 hb2 hb3
        { f with m_chain := { f.m_chain with
            m_state := ChainState.NEXT_CHECK,
            m_fat_cache_ref1 :=
              { state := .READY,
                block := get_abs_block_index_for_fat_entry w f.m_chain.m_current_cluster } } }
        hst rfl hit hd hu hfat
        (fun b => if b = get_abs_block_index_for_fat_entry w f.m_chain.m_current_cluster
          then true else l b) cs n (Or.inl ⟨rfl, rfl⟩)
      refine ⟨(fun b => if b = get_abs_block_index_for_fat_entry w
          f.m_chain.m_current_cluster then true else l b), ?_, fun h => absurd hit h⟩
      rw [h1, h2]
      simp only [↓reduceIte, nextChain, hit, if_true]
      rfl
  · refine ⟨l, ?_, fun _ => rfl⟩
    rw [run_chain_event]
    by_cases hend : f.m_chain.m_iter_state = IterState.END
    · simp only [↓reduceIte, ClusterChain.event_handler, World.chain, hfile, hit, hend, ne_eq,
        not_true_eq_false, reduceCtorEq,
        ClusterChain.event_handler_next_check_end, World.setChain, fileWorld_setFile,
        if_false, ClusterChain.complete_request, File.chain_handler, hst, Bool.false_eq_true]
      rw [run_fileWorld_done _ _ _ _ _ _ _ _ _ _ hi hpf hb1 hb2 hb3
        (by simp [File.pending, CacheBlockRef.reset, hd, hu])]
      simp only [↓reduceIte, nextChain, hend, reduceCtorEq, if_false, ne_eq, not_true_eq_false]
      rfl
    · simp only [↓reduceIte, ClusterChain.event_handler, World.chain, hfile, hit, hend, ne_eq,
        not_false_eq_true, if_true,
        ClusterChain.event_handler_next_check_end, World.setChain, fileWorld_setFile,
        if_false, ClusterChain.complete_request, File.chain_handler, hst, Bool.false_eq_true]
      rw [run_fileWorld_done _ _ _ _ _ _ _ _ _ _ hi hpf hb1 hb2 hb3
        (by simp [File.pending, CacheBlockRef.reset, hd, hu])]
      simp only [↓reduceIte, nextChain, hit, hend, if_false, ne_eq, not_false_eq_true, if_true]
      rfl

end FatFs

namespace FatFs

theorem chainFrom_getD (fat : Nat → Nat) (first : Nat) (ds : List Nat) (e : Nat)
    (h : chainFrom fat first ds e) :
    (ds = [] → first = e) ∧ (0 < ds.length → ds.getD 0 0 = first) ∧
    ∀ j, j < ds.length →
      fat (ds.getD j 0) = if j + 1 < ds.length then ds.getD (j + 1) 0 else e := by
  induction ds generalizing first with
  | nil =>
    exact ⟨fun _ => h, fun h0 => absurd h0 (by simp), fun j hj => absurd hj (by simp)⟩
  | cons d ds ih =>
    obtain ⟨h1, h2⟩ := h
    obtain ⟨i1, i2, i3⟩ := ih _ h2
    refine ⟨fun h0 => List.noConfusion h0, fun _ => h1.symm, fun j hj => ?_⟩
    cases j with
    | zero =>
      simp only [List.getD_cons_zero, List.length_cons, Nat.zero_add]
      cases ds with
      | nil => simpa using i1 rfl
      | cons x xs =>
        have := i2 (by simp)
        simp only [List.getD_cons_zero] at this
        simp [this]
    | succ j =>
      have hj2 : j < ds.length := by simpa using hj
      simp only [List.getD_cons_succ, List.length_cons, Nat.add_lt_add_iff_right]
      exact i3 j hj2

/-- The chain after `k + 1` calls of `requestNext` that follow a `rewind`, on a
chain of the clusters `ds` ended by `e`. -/
theorem nextChainN_rewound (fat : Nat → Nat) (c : ClusterChain) (ds : List Nat) (e : Nat)
    (hch : chainFrom fat c.m_first_cluster ds e)
    (hall : ∀ d ∈ ds, is_cluster_idx_normal d = true)
    (he : is_cluster_idx_normal e = false) (k : Nat) :
    (k < ds.length →
      (nextChainN fat (k + 1) (rewound c)).m_iter_state = IterState.CLUSTER ∧
      (nextChainN fat (k + 1) (rewound c)).m_current_cluster = ds.getD k 0 ∧
      (nextChainN fat (k + 1) (rewound c)).m_prev_cluster =
        (if k = 0 then 0 else ds.getD (k - 1) 0)) ∧
    (ds.length ≤ k →
      (nextChainN fat (k + 1) (rewound c)).m_iter_state = IterState.END ∧
      (nextChainN fat (k + 1) (rewound c)).m_current_cluster = e ∧
      (nextChainN fat (k + 1) (rewound c)).m_prev_cluster =
        (if ds.length = 0 then 0 else ds.getD (ds.length - 1) 0)) := by
  obtain ⟨g1, g2, g3⟩ := chainFrom_getD fat _ ds e hch
  have hmem : ∀ j, j < ds.length → is_cluster_idx_normal (ds.getD j 0) = true := by
    intro j hj
    rw [List.getD_eq_getElem _ _ hj]
    exact hall _ (List.getElem_mem hj)
  induction k with
  | zero =>
    constructor
    · intro h0
      have hn := hmem 0 h0
      rw [g2 h0] at hn
      simp only [nextChainN, nextChain, rewound, reduceCtorEq, if_false, ne_eq,
        not_false_eq_true, if_true, hn, g2 h0, and_self]
    · intro h0
      have hnil : ds = [] := List.length_eq_zero.mp (by omega)
      have hn : is_cluster_idx_normal c.m_first_cluster = false := by rw [g1 hnil]; exact he
      simp only [nextChainN, nextChain, rewound, reduceCtorEq, if_false, ne_eq,
        not_false_eq_true, if_true, hn, he, Bool.false_eq_true, g1 hnil, hnil, List.length_nil,
        and_self]
  | succ k ih =>
    obtain ⟨ih1, ih2⟩ := ih
    constructor
    · intro hk
      obtain ⟨a1, a2, a3⟩ := ih1 (by omega)
      have hf := g3 k (by omega)
      rw [if_pos hk] at hf
      have hn := hmem (k + 1) hk
      show (nextChain fat (nextChainN fat (k + 1) (rewound c))).m_iter_state = _ ∧
        (nextChain fat (nextChainN fat (k + 1) (rewound c))).m_current_cluster = _ ∧
        (nextChain fat (nextChainN fat (k + 1) (rewound c))).m_prev_cluster = _
      simp only [nextChain, a1, a2, if_true, hf, hn, ne_eq, reduceCtorEq, not_false_eq_true,
        Nat.add_sub_cancel, Nat.add_one_ne_zero, if_false, and_self]
    · intro hk
      show (nextChain fat (nextChainN fat (k + 1) (rewound c))).m_iter_state = _ ∧
        (nextChain fat (nextChainN fat (k + 1) (rewound c))).m_current_cluster = _ ∧
        (nextChain fat (nextChainN fat (k + 1) (rewound c))).m_prev_cluster = _
      rcases Nat.lt_or_ge k ds.length with hlt | hge
      · obtain ⟨a1, a2, a3⟩ := ih1 hlt
        have hf := g3 k hlt
        rw [if_neg (by omega)] at hf
        have hkk : ds.length - 1 = k := by omega
        have hne : ¬ ds.length = 0 := by omega
        simp only [nextChain, a1, a2, if_true, hf, he, ne_eq, reduceCtorEq,
          not_false_eq_true, Bool.false_eq_true, if_false, hkk, hne, and_self]
      · obtain ⟨a1, a2, a3⟩ := ih2 hge
        simp only [nextChain, a1, a2, a3, reduceCtorEq, if_false, ne_eq, not_true_eq_false,
          and_self]

end FatFs

namespace FatFs

theorem nextChain_first (fat : Nat → Nat) (c : ClusterChain) :
    (nextChain fat c).m_first_cluster = c.m_first_cluster := by
  simp only [nextChain]
  split_ifs <;> rfl

theorem nextChain_state (fat : Nat → Nat) (c : ClusterChain) :
    (nextChain fat c).m_state = ChainState.IDLE := rfl

theorem nextChainN_first (fat : Nat → Nat) (k : Nat) (c : ClusterChain) :
    (nextChainN fat k c).m_first_cluster = c.m_first_cluster := by
  induction k with
  | zero => rfl
  | succ k ih => rw [nextChainN, nextChain_first, ih]

theorem rewind_fileWorld (w : World) (i : Nat) (hq : w.queue = []) :
    ClusterChain.rewind w i =
      fileWorld w i { w.file i with m_chain := rewound (w.chain i) }
        w.o w.data w.dirty w.loaded [] w.calls := by
  unfold ClusterChain.rewind ClusterChain.rewind_internal World.setChain World.setFile
    fileWorld rewound
  rw [← hq]

/-- The world after `k` calls of `requestNext`, each run to completion, that
follow a `rewind` of the chain of an idle file. -/
theorem chainNexts_rewind (w : World) (i : Nat) (ds : List Nat) (e : Nat) (m : Nat)
    (hq : quiescent w) (hi : i < w.files.length)
    (hst : (w.file i).m_state = FileState.IDLE)
    (hch : chainFrom (fatNext w) (w.chain i).m_first_cluster ds e)
    (hall : ∀ d ∈ ds,
      is_cluster_idx_normal d = true ∧ is_cluster_idx_valid_for_fat w d = true)
    (he : is_cluster_idx_normal e = false) (k : Nat) :
    ∃ l, chainNexts (m + 4) i k (ClusterChain.rewind w i) =
        some (fileWorld w i
          { w.file i with m_chain := nextChainN (fatNext w) k (rewound (w.chain i)) }
          w.o w.data w.dirty l [] w.calls) ∧
      (k ≤ 1 → l = w.loaded) := by
  obtain ⟨hq1, hq2⟩ := (quiescent_iff w).1 hq
  obtain ⟨hb1, hb2, hb3, hpf⟩ := (pending_none_iff w).1 hq2
  have hfp : (w.file i).pending (0 + i) = none := pendingFiles_none_getD w.files i 0 hi hpf
  obtain ⟨_, _, hd, hu⟩ := File_pending_none _ _ hfp
  induction k with
  | zero =>
    refine ⟨w.loaded, ?_, fun _ => rfl⟩
    rw [rewind_fileWorld w i hq1]
    rfl
  | succ k ih =>
    obtain ⟨l, h1, h2⟩ := ih
    have hv : (nextChainN (fatNext w) k (rewound (w.chain i))).m_iter_state =
        IterState.CLUSTER →
        is_cluster_idx_valid_for_fat w
          (nextChainN (fatNext w) k (rewound (w.chain i))).m_current_cluster = true := by
      cases k with
      | zero => intro h; exact absurd h (by simp [nextChainN, rewound])
      | succ j =>
        intro h
        obtain ⟨p1, p2⟩ := nextChainN_rewound (fatNext w) (w.chain i) ds e hch
          (fun d hd => (hall d hd).1) he j
        rcases Nat.lt_or_ge j ds.length with hlt | hge
        · rw [(p1 hlt).2.1, List.getD_eq_getElem _ _ hlt]
          exact (hall _ (List.getElem_mem hlt)).2
        · rw [(p2 hge).1] at h
          exact absurd h (by simp)
    obtain ⟨l2, h3, h4⟩ := chainNext_fileWorld w i hi hpf hb1 hb2 hb3
      { w.file i with m_chain := nextChainN (fatNext w) k (rewound (w.chain i)) }
      hst hd hu hv l w.calls m
    refine ⟨l2, ?_, ?_⟩
    · show (chainNexts (m + 4) i k (ClusterChain.rewind w i)).bind (chainNext (m + 4) i) = _
      rw [h1, Option.some_bind, h3]
      rfl
    · intro hk
      have hk0 : k = 0 := by omega
      subst hk0
      rw [h4 (by simp [nextChainN, rewound]), h2 (by omega)]

/-- C28: chain traversal.  The chain is the one of file `i`, driven directly
while the file is idle, so that its handler leaves the result of a request as
the chain produced it.  On a quiescent volume, let the FAT hold, from the
first cluster of the chain, the chain of the clusters
`ds`, all normal and valid for the FAT, ended by an entry `e` that is not a
normal cluster index (`ds` may be empty).  After `rewind` and `k + 1` calls of
`requestNext`, each of which is run to completion (fuel 4 is enough for each),
the event queue is empty again, and: the first call leaves the set of loaded
cache blocks and the cached data as they were, and with `k < ds.length` the
end is not reached, `getCurrentCluster` is cluster number `k` of the chain and
the previous cluster is cluster number `k - 1` (0 when `k = 0`); with
`ds.length ≤ k` the end is reached, the current cluster is `e` and the
previous cluster is the last cluster of the chain (0 when the chain is empty),
whatever the number of further calls. -/
theorem chain_traversal (w : World) (i fuel : Nat) (ds : List Nat) (e : Nat) (k : Nat)
    (hq : quiescent w) (hi : i < w.files.length)
    (hst : (w.file i).m_state = FileState.IDLE)
    (hch : chainFrom (fatNext w) (w.chain i).m_first_cluster ds e)
    (hall : ∀ d ∈ ds,
      is_cluster_idx_normal d = true ∧ is_cluster_idx_valid_for_fat w d = true)
    (he : is_cluster_idx_normal e = false) (hfuel : 4 ≤ fuel) :
    ∃ W, chainNexts fuel i (k + 1) (ClusterChain.rewind w i) = some W ∧
      W.queue = [] ∧ W.data = w.data ∧ W.calls = w.calls ∧
      (W.chain i).m_state = ChainState.IDLE ∧
      (W.chain i).m_first_cluster = (w.chain i).m_first_cluster ∧
      (k = 0 → W.loaded = w.loaded) ∧
      (k < ds.length →
        ClusterChain.endReached W i = false ∧
        (W.chain i).m_iter_state = IterState.CLUSTER ∧
        ClusterChain.getCurrentCluster W i = ds.getD k 0 ∧
        (W.chain i).m_prev_cluster = (if k = 0 then 0 else ds.getD (k - 1) 0)) ∧
      (ds.length ≤ k →
        ClusterChain.endReached W i = true ∧
        ClusterChain.getCurrentCluster W i = e ∧
        (W.chain i).m_prev_cluster =
          (if ds.length = 0 then 0 else ds.getD (ds.length - 1) 0)) := by
  obtain ⟨m, rfl⟩ : ∃ m, fuel = m + 4 := ⟨fuel - 4, by omega⟩
  obtain ⟨l, h1, h2⟩ := chainNexts_rewind w i ds e m hq hi hst hch hall he (k + 1)
  obtain ⟨p1, p2⟩ := nextChainN_rewound (fatNext w) (w.chain i) ds e hch
    (fun d hd => (hall d hd).1) he k
  have hfile := fileWorld_file w i
    { w.file i with m_chain := nextChainN (fatNext w) (k + 1) (rewound (w.chain i)) }
    w.o w.data w.dirty l [] w.calls hi
  refine ⟨_, h1, rfl, rfl, rfl, ?_, ?_, ?_, ?_, ?_⟩
  · rw [World.chain, hfile]
    exact nextChain_state _ _
  · rw [World.chain, hfile]
    exact nextChainN_first _ _ _
  · intro hk
    exact h2 (by omega)
  · intro hk
    obtain ⟨a1, a2, a3⟩ := p1 hk
    rw [ClusterChain.endReached, ClusterChain.getCurrentCluster, World.chain, hfile]
    exact ⟨by simp [a1], a1, a2, a3⟩
  · intro hk
    obtain ⟨a1, a2, a3⟩ := p2 hk
    rw [ClusterChain.endReached, ClusterChain.getCurrentCluster, World.chain, hfile]
    exact ⟨by simp [a1], a2, a3⟩

theorem chain_traversal_witness :
    ∃ W, chainNexts 4 0 (1 + 1) (ClusterChain.rewind sampleOpen 0) = some W ∧
      W.queue = [] ∧ W.data = sampleOpen.data ∧ W.calls = sampleOpen.calls ∧
      (W.chain 0).m_state = ChainState.IDLE ∧
      (W.chain 0).m_first_cluster = (sampleOpen.chain 0).m_first_cluster ∧
      (1 = 0 → W.loaded = sampleOpen.loaded) ∧
      (1 < [3, 4].length →
        ClusterChain.endReached W 0 = false ∧
        (W.chain 0).m_iter_state = IterState.CLUSTER ∧
        ClusterChain.getCurrentCluster W 0 = [3, 4].getD 1 0 ∧
        (W.chain 0).m_prev_cluster = (if 1 = 0 then 0 else [3, 4].getD (1 - 1) 0)) ∧
      ([3, 4].length ≤ 1 →
        ClusterChain.endReached W 0 = true ∧
        ClusterChain.getCurrentCluster W 0 = EndOfChainMarker ∧
        (W.chain 0).m_prev_cluster =
          (if [3, 4].length = 0 then 0 else [3, 4].getD ([3, 4].length - 1) 0)) :=
  chain_traversal sampleOpen 0 4 [3, 4] EndOfChainMarker 1 (by decide) (by decide)
    (by decide) (by decide) (by decide) (by decide) (by decide)

end FatFs

namespace FatFs

/-- C23 as claimed fails: a truncation copies the end marker that the FAT
holds.  On the sample volume with the chain 3, 4 of the sample file ended by
`0x0FFFFFF8`, the file is opened for writing, read once (position 512, iterator
on cluster 3) and truncated.  The truncation completes without error and
leaves `0x0FFFFFF8` in the FAT entry of cluster 3, a value in
`0x0FFFFFF8..0x0FFFFFFE` that is neither 0, nor a normal cluster index, nor
`0x0FFFFFFF`; before the truncation that entry was 4. -/
theorem truncate_copies_end_marker :
    quiescent markerReadOnce ∧
    (markerReadOnce.file 0).m_file_pos = 512 ∧
    fatNext markerReadOnce 3 = 4 ∧ fatNext markerReadOnce 4 = 0x0FFFFFF8 ∧
    markerTruncated.calls.head? = some (.FileHandler 0 false 0) ∧
    fatNext markerTruncated 3 = 0x0FFFFFF8 ∧ fatNext markerTruncated 4 = 0 ∧
    fatNext markerTruncated 3 ≠ 0 ∧ is_cluster_idx_normal (fatNext markerTruncated 3) = false ∧
    fatNext markerTruncated 3 ≠ EndOfChainMarker := by
  decide

end FatFs

namespace FatFs

theorem map_set_same (l : List File) (i : Nat) (g : File)
    (h : iterOf g = iterOf (l.getD i default)) :
    (l.set i g).map iterOf = l.map iterOf := by
  rw [List.map_set, h]
  apply List.ext_getElem
  · simp
  · intro n h1 h2
    simp only [List.getElem_set, List.getElem_map]
    split_ifs with hn
    · subst hn
      rw [List.getD_eq_getElem _ _ (by simpa using h2)]
    · rfl

@[simp]
theorem core_setFile (w : World) (i : Nat) (g : File) (h : iterOf g = iterOf (w.file i)) :
    (w.setFile i g).core = w.core := by
  unfold World.core World.setFile
  simp only [map_set_same w.files i g h]

@[simp]
theorem core_setChain (w : World) (i : Nat) (c : ClusterChain)
    (h : (c.m_iter_state, c.m_first_cluster, c.m_current_cluster) = iterOf (w.file i)) :
    (w.setChain i c).core = w.core :=
  core_setFile w i _ h

@[simp]
theorem core_prependNowNotAlready (w : World) (e : QueuedEvent) :
    (w.prependNowNotAlready e).core = w.core := rfl

@[simp]
theorem core_unset (w : World) (e : QueuedEvent) : (w.unset e).core = w.core := rfl

@[simp]
theorem core_call (w : World) (c : HandlerCall) : (w.call c).core = w.core := rfl

@[simp]
theorem core_setData (w : World) (b : Nat) (buffer : Buffer) :
    (w.setData b buffer).core = w.core := rfl

@[simp]
theorem core_markDirty (w : World) (r : CacheBlockRef) : (w.markDirty r).core = w.core := rfl

theorem core_mk (bs sb : Nat) (wr : Bool) (o : Object) (d : Nat → Buffer)
    (dd l : Nat → Bool) (fs : List File) (q : List QueuedEvent) (cs : List HandlerCall) :
    World.core ⟨bs, sb, wr, o, d, dd, l, fs, q, cs⟩ =
      (o.state, o.num_valid_clusters, o.num_fat_entries, o.alloc_position,
        fs.map iterOf) := rfl

theorem core_eta (w : World) :
    (w.o.state, w.o.num_valid_clusters, w.o.num_fat_entries, w.o.alloc_position,
      w.files.map iterOf) = w.core := rfl

@[simp]
theorem core_update_fat_entry_in_cache_block (w : World) (r : CacheBlockRef) (y v : Nat) :
    (update_fat_entry_in_cache_block w r y v).core = w.core := rfl

@[simp]
theorem core_update_fs_clean_bit (w : World) (r : CacheBlockRef) (b : Bool) :
    (update_fs_clean_bit w r b).core = w.core := rfl

@[simp]
theorem core_update_fs_info_allocated_cluster (w : World) :
    (update_fs_info_allocated_cluster w).core = w.core := rfl

@[simp]
theorem core_update_fs_info_free_clusters (w : World) (b : Bool) :
    (update_fs_info_free_clusters w b).core = w.core := by
  unfold update_fs_info_free_clusters
  dsimp only
  split_ifs <;> rfl

@[simp]
theorem core_startWriteMount (w : World) : (startWriteMount w).core = w.core := rfl

@[simp]
theorem core_startWriteUnmount (w : World) : (startWriteUnmount w).core = w.core := rfl

@[simp]
theorem core_complete_write_mount_request (w : World) (e : Bool) :
    (complete_write_mount_request w e).core = w.core := by
  unfold complete_write_mount_request
  dsimp only
  split_ifs <;> rfl

@[simp]
theorem core_complete_write_unmount_request (w : World) (e : Bool) :
    (complete_write_unmount_request w e).core = w.core := by
  unfold complete_write_unmount_request
  dsimp only
  split_ifs <;> rfl

@[simp]
theorem core_write_mount_metablock_ref_handler (w : World) (e : Bool) :
    (write_mount_metablock_ref_handler w e).core = w.core := by
  unfold write_mount_metablock_ref_handler
  dsimp only
  split_ifs <;> rfl

@[simp]
theorem core_write_unmount_metablock_ref_handler (w : World) (e : Bool) :
    (write_unmount_metablock_ref_handler w e).core = w.core := by
  unfold write_unmount_metablock_ref_handler
  dsimp only
  split_ifs <;> rfl

@[simp]
theorem core_flush_request_handler (w : World) (e : Bool) :
    (flush_request_handler w e).core = w.core := by
  unfold flush_request_handler
  dsimp only
  split <;> (try split_ifs) <;>
    first
    | rfl
    | exact core_complete_write_unmount_request _ _

@[simp]
theorem core_take (w : World) (i : Nat) : (WriteReference.take w i).1.core = w.core := by
  unfold WriteReference.take
  split_ifs
  · rfl
  · dsimp only
    refine (core_setFile _ _ _ ?_).trans ?_ <;> rfl
  · rfl

@[simp]
theorem core_release (w : World) (i : Nat) : (WriteReference.release w i).core = w.core := by
  unfold WriteReference.release
  split_ifs
  · dsimp only
    refine (core_setFile _ _ _ ?_).trans ?_ <;> rfl
  · rfl

@[simp]
theorem core_DirEntryRef_reset (w : World) (i : Nat) : (DirEntryRef.reset w i).core = w.core :=
  core_setFile _ _ _ rfl

@[simp]
theorem core_requestEntryRef (w : World) (i a b : Nat) :
    (DirEntryRef.requestEntryRef w i a b).core = w.core :=
  core_setFile _ _ _ rfl

@[simp]
theorem core_setFirstCluster (w : World) (i v : Nat) :
    (DirEntryRef.setFirstCluster w i v).core = w.core := rfl

@[simp]
theorem core_setFileSize (w : World) (i v : Nat) :
    (DirEntryRef.setFileSize w i v).core = w.core := rfl

@[simp]
theorem core_requestNext (w : World) (i : Nat) : (ClusterChain.requestNext w i).core = w.core := by
  unfold ClusterChain.requestNext
  dsimp only
  refine (core_prependNowNotAlready _ _).trans (core_setChain _ _ _ ?_)
  rfl

@[simp]
theorem core_requestNew (w : World) (i : Nat) : (ClusterChain.requestNew w i).core = w.core := by
  unfold ClusterChain.requestNew
  dsimp only
  refine (core_prependNowNotAlready _ _).trans (core_setChain _ _ _ ?_)
  rfl

@[simp]
theorem core_startTruncate (w : World) (i : Nat) :
    (ClusterChain.startTruncate w i).core = w.core := by
  unfold ClusterChain.startTruncate
  dsimp only
  refine (core_prependNowNotAlready _ _).trans (core_setChain _ _ _ ?_)
  rfl

@[simp]
theorem core_BlockAccessUser_startRead (w : World) (i b : Nat) :
    (BlockAccessUser.startRead w i b).core = w.core :=
  core_setFile _ _ _ rfl

@[simp]
theorem core_BlockAccessUser_startWrite (w : World) (i b : Nat) :
    (BlockAccessUser.startWrite w i b).core = w.core :=
  core_setFile _ _ _ rfl

end FatFs

namespace FatFs

@[simp]
theorem core_File_complete_request (w : World) (i : Nat) (e : Bool) (n : Nat) :
    (File.complete_request w i e n).core = w.core := by
  unfold File.complete_request
  dsimp only
  simp only [core_call, core_setFile, iterOf]

@[simp]
theorem core_File_startRead (w : World) (i : Nat) : (File.startRead w i).core = w.core := by
  unfold File.startRead
  dsimp only
  simp only [core_prependNowNotAlready, core_setFile, iterOf]

@[simp]
theorem core_File_startOpenWritable (w : World) (i : Nat) :
    (File.startOpenWritable w i).core = w.core := by
  unfold File.startOpenWritable
  dsimp only
  simp only [core_prependNowNotAlready, core_setFile, iterOf]

@[simp]
theorem core_File_startWrite (w : World) (i n : Nat) :
    (File.startWrite w i n).core = w.core := by
  unfold File.startWrite
  dsimp only
  simp only [core_prependNowNotAlready, core_setFile, iterOf]

@[simp]
theorem core_File_startTruncate (w : World) (i : Nat) :
    (File.startTruncate w i).core = w.core := by
  unfold File.startTruncate
  dsimp only
  simp only [core_prependNowNotAlready, core_setFile, iterOf]

@[simp]
theorem core_File_clean_up_writability (w : World) (i : Nat) :
    (File.clean_up_writability w i).core = w.core := by
  unfold File.clean_up_writability
  dsimp only
  simp only [core_DirEntryRef_reset, core_release]

@[simp]
theorem core_File_complete_open_writable_request (w : World) (i : Nat) (e : Bool) :
    (File.complete_open_writable_request w i e).core = w.core := by
  unfold File.complete_open_writable_request
  dsimp only
  split_ifs <;> simp only [core_File_complete_request, core_File_clean_up_writability]

@[simp]
theorem core_File_closeWritable (w : World) (i : Nat) :
    (File.closeWritable w i).core = w.core :=
  core_File_clean_up_writability w i

@[simp]
theorem core_File_event_handler (w : World) (i : Nat) :
    (File.event_handler w i).core = w.core := by
  unfold File.event_handler
  dsimp only
  split <;> (try split_ifs) <;>
    simp only [core_File_complete_request, core_requestNext, core_startTruncate,
      core_BlockAccessUser_startRead, core_BlockAccessUser_startWrite, core_requestEntryRef,
      core_File_complete_open_writable_request, core_take, core_setFileSize,
      core_setFile, iterOf]

@[simp]
theorem core_File_chain_handler (w : World) (i : Nat) (e b : Bool) :
    (File.chain_handler w i e b).core = w.core := by
  unfold File.chain_handler
  dsimp only
  split <;> (try split_ifs) <;>
    simp only [core_File_complete_request, core_requestNew, core_setFirstCluster,
      core_prependNowNotAlready, core_setFile, iterOf]

@[simp]
theorem core_File_block_user_handler (w : World) (i : Nat) (e : Bool) :
    (File.block_user_handler w i e).core = w.core := by
  unfold File.block_user_handler
  dsimp only
  split <;> (try split_ifs) <;>
    simp only [core_File_complete_request, core_setFileSize, core_setFile, iterOf]

@[simp]
theorem core_File_dir_entry_handler (w : World) (i : Nat) (e : Bool) :
    (File.dir_entry_handler w i e).core = w.core := by
  unfold File.dir_entry_handler
  split_ifs <;> simp only [core_File_complete_open_writable_request]

@[simp]
theorem core_DirEntryRef_block_ref_handler (w : World) (i : Nat) (e : Bool) :
    (DirEntryRef.block_ref_handler w i e).core = w.core := by
  unfold DirEntryRef.block_ref_handler
  dsimp only
  simp only [core_File_dir_entry_handler, core_setFile, iterOf]

@[simp]
theorem core_ClusterChain_complete_request (w : World) (i : Nat) (e b : Bool) :
    (ClusterChain.complete_request w i e b).core = w.core := by
  unfold ClusterChain.complete_request
  dsimp only
  simp only [core_File_chain_handler, core_setChain, iterOf, World.chain]

@[simp]
theorem core_start_new_allocation (w : World) : (start_new_allocation w).core = w.core := rfl

@[simp]
theorem core_allocation_request_added (w : World) :
    (allocation_request_added w).core = w.core := by
  unfold allocation_request_added
  split_ifs <;> rfl

@[simp]
theorem core_allocation_request_removed (w : World) :
    (allocation_request_removed w).core = w.core := by
  unfold allocation_request_removed
  split_ifs <;> rfl

@[simp]
theorem core_fat_cache_ref_handler (w : World) (i : Nat) (e : Bool) :
    (ClusterChain.fat_cache_ref_handler w i e).core = w.core := by
  unfold ClusterChain.fat_cache_ref_handler
  dsimp only
  split <;> (try split_ifs) <;>
    simp only [core_ClusterChain_complete_request, core_prependNowNotAlready, core_setChain,
      iterOf, World.chain]

@[simp]
theorem core_ClusterChain_deinit (w : World) (i : Nat) :
    (ClusterChain.deinit w i).core = w.core := by
  unfold ClusterChain.deinit
  dsimp only
  split_ifs <;>
    simp only [core_unset, core_setChain, iterOf, World.chain, World.setChain, World.file,
      core_setFile, core_allocation_request_removed, core_mk, core_eta]

@[simp]
theorem core_File_deinit (w : World) (i : Nat) : (File.deinit w i).core = w.core := by
  unfold File.deinit
  dsimp only
  simp only [core_unset, core_ClusterChain_deinit, core_setFile, iterOf, core_DirEntryRef_reset,
    core_release]

@[simp]
theorem core_blockLoaded (w : World) (r : CacheBlockRef) (e : Bool) :
    (w.blockLoaded r e).core = w.core := by
  unfold World.blockLoaded
  split_ifs <;> rfl

@[simp]
theorem core_flushDone (w : World) (e : Bool) : (w.flushDone e).core = w.core := by
  unfold World.flushDone
  dsimp only
  split_ifs <;> rfl

@[simp]
theorem core_answer_block_ref (w : World) (e : Bool) :
    (w.answer_block_ref e).core = w.core := by
  unfold World.answer_block_ref World.blockLoaded
  dsimp only
  split_ifs <;> rfl

@[simp]
theorem core_answer_fs_info_block_ref (w : World) (e : Bool) :
    (w.answer_fs_info_block_ref e).core = w.core := by
  unfold World.answer_fs_info_block_ref World.blockLoaded
  dsimp only
  split_ifs <;> rfl

@[simp]
theorem core_answer_fat_cache_ref1 (w : World) (i : Nat) (e : Bool) :
    (w.answer_fat_cache_ref1 i e).core = w.core := by
  unfold World.answer_fat_cache_ref1
  dsimp only
  simp only [core_blockLoaded, core_setChain, iterOf, World.chain]

@[simp]
theorem core_answer_fat_cache_ref2 (w : World) (i : Nat) (e : Bool) :
    (w.answer_fat_cache_ref2 i e).core = w.core := by
  unfold World.answer_fat_cache_ref2
  dsimp only
  simp only [core_blockLoaded, core_setChain, iterOf, World.chain]

@[simp]
theorem core_answer_dir_entry_block_ref (w : World) (i : Nat) (e : Bool) :
    (w.answer_dir_entry_block_ref i e).core = w.core := by
  unfold World.answer_dir_entry_block_ref
  dsimp only
  simp only [core_blockLoaded, core_setFile, iterOf]

@[simp]
theorem core_answer_block_user (w : World) (i : Nat) :
    (w.answer_block_user i).core = w.core := by
  unfold World.answer_block_user
  dsimp only
  simp only [core_setFile, iterOf]

end FatFs

namespace FatFs

theorem IterInv_iff (c : ClusterChain) :
    IterInv c ↔
      (c.m_iter_state = IterState.CLUSTER → is_cluster_idx_normal c.m_current_cluster = true) ∧
      (c.m_iter_state = IterState.END → is_cluster_idx_normal c.m_current_cluster = false) ∧
      (c.m_iter_state = IterState.START → c.m_current_cluster = c.m_first_cluster) := Iff.rfl

theorem IterInv_default : IterInv (default : File).m_chain := by decide

theorem IterInv_of_iterOf (f g : File) (h : iterOf g = iterOf f) (hf : IterInv f.m_chain) :
    IterInv g.m_chain := by
  unfold iterOf at h
  simp only [Prod.mk.injEq] at h
  obtain ⟨h1, h2, h3⟩ := h
  unfold IterInv at *
  rw [h1, h2, h3]
  exact hf

theorem iterOf_file_of_core (w w2 : World) (h : w2.core = w.core) (j : Nat) :
    iterOf (w2.file j) = iterOf (w.file j) := by
  unfold World.core at h
  simp only [Prod.mk.injEq] at h
  obtain ⟨_, _, _, _, h5⟩ := h
  have hl : w2.files.length = w.files.length := by
    have := congrArg List.length h5
    simpa using this
  unfold World.file
  by_cases hj : j < w.files.length
  · have hj2 : j < w2.files.length := hl ▸ hj
    rw [List.getD_eq_getElem _ _ hj, List.getD_eq_getElem _ _ hj2]
    have := congrArg (fun l => l[j]?) h5
    simpa [List.getElem?_map, List.getElem?_eq_getElem hj, List.getElem?_eq_getElem hj2]
      using this
  · have hj2 : ¬ j < w2.files.length := hl ▸ hj
    rw [List.getD_eq_default _ _ (by omega), List.getD_eq_default _ _ (by omega)]

theorem ReadyInv_congr (w w2 : World) (hc : w2.core = w.core) (h : ReadyInv w) :
    ReadyInv w2 := by
  have hi := iterOf_file_of_core w w2 hc
  unfold World.core at hc
  simp only [Prod.mk.injEq] at hc
  obtain ⟨h1, h2, h3, h4, _⟩ := hc
  obtain ⟨g1, g2, g3, g4, g5⟩ := h
  refine ⟨h1 ▸ g1, h2 ▸ g2, ?_, ?_, fun j => IterInv_of_iterOf _ _ (hi j) (g5 j)⟩
  · rw [h2, h3]; exact g3
  · rw [h2, h4]; exact g4

theorem ReadyInvExcept_congr (i : Nat) (w w2 : World) (hc : w2.core = w.core)
    (h : ReadyInvExcept i w) : ReadyInvExcept i w2 := by
  have hi := iterOf_file_of_core w w2 hc
  unfold World.core at hc
  simp only [Prod.mk.injEq] at hc
  obtain ⟨h1, h2, h3, h4, _⟩ := hc
  obtain ⟨g1, g2, g3, g4, g5⟩ := h
  refine ⟨h1 ▸ g1, h2 ▸ g2, ?_, ?_, fun j hj => IterInv_of_iterOf _ _ (hi j) (g5 j hj)⟩
  · rw [h2, h3]; exact g3
  · rw [h2, h4]; exact g4

theorem ReadyInv_toExcept (w : World) (i : Nat) (h : ReadyInv w) : ReadyInvExcept i w :=
  ⟨h.1, h.2.1, h.2.2.1, h.2.2.2.1, fun j _ => h.2.2.2.2 j⟩

theorem setChain_chain_ne (w : World) (i j : Nat) (c : ClusterChain) (hj : j ≠ i) :
    (w.setChain i c).chain j = w.chain j := by
  unfold World.setChain World.chain World.setFile World.file
  simp only [List.getD_eq_getElem?_getD, List.getElem?_set]
  rw [if_neg (fun h => hj h.symm)]

theorem chain_out_of_range (w : World) (i : Nat) (hi : ¬ i < w.files.length) :
    w.chain i = (default : File).m_chain := by
  unfold World.chain World.file
  rw [List.getD_eq_default _ _ (by omega)]

theorem ReadyInvExcept_setChain (i : Nat) (w : World) (c : ClusterChain)
    (h : ReadyInvExcept i w) : ReadyInvExcept i (w.setChain i c) :=
  ⟨h.1, h.2.1, h.2.2.1, h.2.2.2.1, fun j hj => by
    rw [setChain_chain_ne w i j c hj]; exact h.2.2.2.2 j hj⟩

theorem ReadyInvExcept_close (i : Nat) (w : World) (h : ReadyInvExcept i w)
    (hc : i < w.files.length → IterInv (w.chain i)) : ReadyInv w := by
  refine ⟨h.1, h.2.1, h.2.2.1, h.2.2.2.1, fun j => ?_⟩
  by_cases hj : j = i
  · subst hj
    by_cases hi : j < w.files.length
    · exact hc hi
    · rw [chain_out_of_range w j hi]
      exact IterInv_default
  · exact h.2.2.2.2 j hj

theorem ReadyInv_setChain_close (i : Nat) (w : World) (c : ClusterChain)
    (h : ReadyInvExcept i w) (hc : i < w.files.length → IterInv c) :
    ReadyInv (w.setChain i c) := by
  refine ReadyInvExcept_close i _ (ReadyInvExcept_setChain i w c h) (fun hi => ?_)
  rw [setChain_files_length] at hi
  rw [setChain_chain w i c hi]
  exact hc hi

end FatFs

namespace FatFs

theorem update_fat_entry_chain (w : World) (r : CacheBlockRef) (y v i : Nat) :
    (update_fat_entry_in_cache_block w r y v).chain i = w.chain i := rfl

theorem update_fs_info_free_clusters_chain (w : World) (b : Bool) (i : Nat) :
    (update_fs_info_free_clusters w b).chain i = w.chain i := by
  unfold update_fs_info_free_clusters
  dsimp only
  split_ifs <;> rfl

theorem update_fs_info_free_clusters_files_length (w : World) (b : Bool) :
    (update_fs_info_free_clusters w b).files.length = w.files.length := by
  unfold update_fs_info_free_clusters
  dsimp only
  split_ifs <;> rfl

theorem rewind_internal_ready (w : World) (i : Nat) (h : ReadyInvExcept i w) :
    ReadyInv (ClusterChain.rewind_internal w i) := by
  unfold ClusterChain.rewind_internal
  dsimp only
  refine ReadyInv_setChain_close i w _ h (fun _ => ?_)
  refine ⟨fun h1 => ?_, fun h1 => ?_, fun _ => rfl⟩
  · exact absurd h1 (by simp)
  · exact absurd h1 (by simp)

theorem ClusterChain_init_ready (w : World) (i n : Nat) (h : ReadyInv w) :
    ReadyInv (ClusterChain.init w i n) := by
  unfold ClusterChain.init
  dsimp only
  exact rewind_internal_ready _ i (ReadyInvExcept_setChain i w _ (ReadyInv_toExcept w i h))

theorem File_rewind_ready (w : World) (i : Nat) (h : ReadyInv w) :
    ReadyInv (File.rewind w i) := by
  unfold File.rewind ClusterChain.rewind
  dsimp only
  refine ReadyInv_congr (ClusterChain.rewind_internal w i) _ ?_
    (rewind_internal_ready w i (ReadyInv_toExcept w i h))
  simp only [core_setFile, iterOf]

theorem chain_append_default (w : World) (j : Nat) :
    ({ w with files := w.files ++ [default] } : World).chain j = w.chain j := by
  unfold World.chain World.file
  dsimp only
  simp only [List.getD_eq_getElem?_getD]
  by_cases hj : j < w.files.length
  · rw [List.getElem?_append_left hj]
  · rw [List.getElem?_append_right (by omega), List.getElem?_eq_none (l := w.files) (by omega)]
    cases j - w.files.length <;> rfl

theorem File_init_ready (w : World) (e : FsEntry) (h : ReadyInv w) :
    ReadyInv (File.init w e) := by
  unfold File.init
  dsimp only
  have h1 : ReadyInv ({ w with files := w.files ++ [default] } : World) :=
    ⟨h.1, h.2.1, h.2.2.1, h.2.2.2.1, fun j => by rw [chain_append_default]; exact h.2.2.2.2 j⟩
  refine ReadyInv_congr _ _ ?_ (ClusterChain_init_ready _ w.files.length e.cluster_index h1)
  simp only [core_setFile, iterOf]

theorem next_check_end_ready (w : World) (i : Nat) (h : ReadyInvExcept i w)
    (hend : i < w.files.length → (w.chain i).m_iter_state = IterState.END →
      is_cluster_idx_normal (w.chain i).m_current_cluster = false) :
    ReadyInv (ClusterChain.event_handler_next_check_end w i) := by
  unfold ClusterChain.event_handler_next_check_end
  dsimp only
  refine ReadyInv_congr _ _ (core_ClusterChain_complete_request _ _ _ _) ?_
  split_ifs with h1 h2
  · refine ReadyInv_setChain_close i w _ h (fun _ => ?_)
    exact ⟨fun _ => h2, fun h3 => absurd h3 (by simp), fun h3 => absurd h3 (by simp)⟩
  · refine ReadyInv_setChain_close i w _ h (fun _ => ?_)
    exact ⟨fun h3 => absurd h3 (by simp), fun _ => by simpa using h2,
      fun h3 => absurd h3 (by simp)⟩
  · have h3 : (w.chain i).m_iter_state = IterState.END := by simpa using h1
    refine ReadyInvExcept_close i w h (fun hi => ?_)
    exact ⟨fun h4 => by rw [h3] at h4; exact absurd h4 (by simp), fun _ => hend hi h3,
      fun h4 => by rw [h3] at h4; exact absurd h4 (by simp)⟩

end FatFs

namespace FatFs

theorem event_handler_ready (w : World) (i : Nat) (h : ReadyInv w) :
    ReadyInv (ClusterChain.event_handler w i) := by
  unfold ClusterChain.event_handler
  dsimp only
  split
  · -- NEXT_CHECK
    split_ifs with hC hv hr
    · exact ReadyInv_congr w _ (core_ClusterChain_complete_request _ _ _ _) h
    · refine ReadyInv_congr w _ ?_ h
      simp only [core_setChain, iterOf, World.chain]
    · refine next_check_end_ready _ i ?_ ?_
      · exact ReadyInvExcept_setChain _ _ _ (ReadyInvExcept_setChain _ _ _
          (ReadyInvExcept_setChain _ _ _ (ReadyInv_toExcept w i h)))
      · intro hi hE
        simp only [setChain_files_length] at hi
        simp only [setChain_chain, setChain_files_length, hi, hC] at hE
        exact absurd hE (by simp)
    · exact next_check_end_ready w i (ReadyInv_toExcept w i h) (fun _ hE => (h.2.2.2.2 i).2.1 hE)
  · -- NEW_CHECK
    split_ifs <;>
    · refine ReadyInv_congr w _ ?_ h
      simp only [core_setChain, iterOf, World.chain, core_allocation_request_added, core_mk,
        core_eta]
  · -- TRUNCATE_CHECK
    split_ifs with hn hv hr hnn hS hnv hr2
    · exact ReadyInv_congr w _ (core_ClusterChain_complete_request _ _ _ _) h
    · exact ReadyInv_congr w _ (core_ClusterChain_complete_request _ _ _ _) h
    · refine ReadyInv_congr w _ ?_ h
      simp only [core_setChain, iterOf, World.chain]
    · refine ReadyInv_congr _ _ (core_ClusterChain_complete_request _ _ _ _) ?_
      refine ReadyInv_setChain_close i _ _ ?_ (fun hi => ?_)
      · refine ReadyInvExcept_setChain _ _ _ ?_
        refine ReadyInvExcept_congr i w _ ?_ (ReadyInv_toExcept w i h)
        simp only [core_update_fs_info_free_clusters, core_update_fat_entry_in_cache_block,
          core_setChain, iterOf, World.chain]
      · simp only [setChain_files_length, update_fs_info_free_clusters_files_length,
          update_fat_entry_files_length] at hi
        simp only [setChain_chain, setChain_files_length, hi] at hS
        simp only [setChain_chain, setChain_files_length, hi,
          update_fs_info_free_clusters_files_length, update_fat_entry_files_length,
          update_fs_info_free_clusters_chain, update_fat_entry_chain]
        exact ⟨fun h3 => by rw [hS] at h3; exact absurd h3 (by simp),
          fun h3 => by rw [hS] at h3; exact absurd h3 (by simp), fun _ => rfl⟩
    · refine ReadyInv_congr w _ ?_ h
      simp only [core_ClusterChain_complete_request, core_setChain, iterOf, World.chain]
    · refine ReadyInv_congr w _ ?_ h
      simp only [core_ClusterChain_complete_request, core_setChain, iterOf, World.chain]
    · refine ReadyInv_congr w _ ?_ h
      simp only [core_setChain, iterOf, World.chain]
    · refine ReadyInv_congr w _ ?_ h
      simp only [core_prependNowNotAlready, core_update_fs_info_free_clusters,
        core_update_fat_entry_in_cache_block, core_setChain, iterOf, World.chain]
  · exact h

end FatFs

namespace FatFs

theorem ReadyInv_of_o (w W : World) (h : ReadyInv w) (hf : W.files = w.files)
    (hs : W.o.state = w.o.state)
    (hv : W.o.num_valid_clusters = w.o.num_valid_clusters)
    (hn : W.o.num_fat_entries = w.o.num_fat_entries)
    (hp : W.o.alloc_position < w.o.num_valid_clusters) : ReadyInv W := by
  obtain ⟨g1, g2, g3, g4, g5⟩ := h
  refine ⟨hs ▸ g1, hv ▸ g2, ?_, hv ▸ hp, fun j => ?_⟩
  · rw [hv, hn]; exact g3
  · have : W.chain j = w.chain j := by
      unfold World.chain World.file
      rw [hf]
    rw [this]
    exact g5 j

theorem allocation_result_ready (w : World) (i : Nat) (error : Bool) (n : Nat)
    (hn : error = false → is_cluster_idx_normal n = true) (h : ReadyInv w) :
    ReadyInv (ClusterChain.allocation_result w i error n) := by
  unfold ClusterChain.allocation_result
  dsimp only
  have h0 : ReadyInv ({ w with o.allocating_chains_list :=
      w.o.allocating_chains_list.erase i } : World) := ReadyInv_congr w _ rfl h
  have hlen : ∀ l, ({ w with o.allocating_chains_list := l } : World).files.length =
      w.files.length := fun _ => rfl
  split_ifs with he hp
  · exact ReadyInv_congr _ _ (core_ClusterChain_complete_request _ _ _ _) h0
  · refine ReadyInv_congr _ _ (core_ClusterChain_complete_request _ _ _ _) ?_
    refine ReadyInv_setChain_close i _ _ ?_ (fun hi => ?_)
    · exact ReadyInvExcept_setChain _ _ _ (ReadyInvExcept_setChain _ _ _ (ReadyInv_toExcept _ i h0))
    · simp only [setChain_files_length, hlen] at hi
      simp only [setChain_chain, setChain_files_length, hlen, hi]
      exact ⟨fun _ => hn (by simpa using he), fun h3 => absurd h3 (by simp),
        fun h3 => absurd h3 (by simp)⟩
  · refine ReadyInv_congr _ _ (core_ClusterChain_complete_request _ _ _ _) ?_
    refine ReadyInv_setChain_close i _ _ ?_ (fun hi => ?_)
    · refine ReadyInvExcept_congr i _ _ (core_update_fat_entry_in_cache_block _ _ _ _) ?_
      exact ReadyInvExcept_setChain _ _ _ (ReadyInv_toExcept _ i h0)
    · simp only [setChain_files_length, hlen, update_fat_entry_files_length] at hi
      simp only [setChain_chain, setChain_files_length, hlen, hi, update_fat_entry_chain,
        update_fat_entry_files_length]
      exact ⟨fun _ => hn (by simpa using he), fun h3 => absurd h3 (by simp),
        fun h3 => absurd h3 (by simp)⟩

theorem complete_allocation_ready (w : World) (error : Bool) (n : Nat)
    (hn : error = false → is_cluster_idx_normal n = true) (h : ReadyInv w) :
    ReadyInv (complete_allocation w error n) := by
  unfold complete_allocation
  split
  · exact h
  · dsimp only
    refine allocation_result_ready _ _ error n hn ?_
    split_ifs
    · exact ReadyInv_congr w _ (core_start_new_allocation w) h
    · exact ReadyInv_congr w _ rfl h

theorem alloc_event_handler_loop_ready (fuel : Nat) (w w2 : World) (h : ReadyInv w)
    (hr : alloc_event_handler_loop fuel w = some w2) : ReadyInv w2 := by
  induction fuel generalizing w with
  | zero => exact absurd hr (by simp [alloc_event_handler_loop])
  | succ fuel ih =>
    obtain ⟨g1, g2, g3, g4, g5⟩ := h
    have hpos : (2 + w.o.alloc_position) % 2 ^ 32 = 2 + w.o.alloc_position :=
      Nat.mod_eq_of_lt (by omega)
    have hnorm : is_cluster_idx_normal ((2 + w.o.alloc_position) % 2 ^ 32) = true := by
      rw [hpos]
      unfold is_cluster_idx_normal NormalClusterIndexEnd
      simp only [decide_eq_true_eq]
      omega
    have e : (w.o.alloc_position + 1) % 2 ^ 32 = w.o.alloc_position + 1 :=
      Nat.mod_eq_of_lt (by omega)
    have h : ReadyInv w := ⟨g1, g2, g3, g4, g5⟩
    unfold alloc_event_handler_loop at hr
    dsimp only at hr
    split_ifs at hr with hreq hadv hfree hstart hfree hstart
    · simp only [Option.some.injEq] at hr
      subst hr
      exact h
    · simp only [Option.some.injEq] at hr
      subst hr
      refine complete_allocation_ready _ false _ (fun _ => hnorm) ?_
      refine ReadyInv_congr _ _ (core_update_fs_info_allocated_cluster _) ?_
      refine ReadyInv_congr _ _ (core_update_fs_info_free_clusters _ _) ?_
      refine ReadyInv_congr _ _ (core_update_fat_entry_in_cache_block _ _ _ _) ?_
      refine ReadyInv_of_o w _ h ?_ ?_ ?_ ?_ ?_
      · rfl
      · rfl
      · rfl
      · rfl
      · show 0 < w.o.num_valid_clusters
        omega
    · simp only [Option.some.injEq] at hr
      subst hr
      refine complete_allocation_ready _ true _ (fun e => absurd e (by simp)) ?_
      refine ReadyInv_of_o w _ h ?_ ?_ ?_ ?_ ?_
      · rfl
      · rfl
      · rfl
      · rfl
      · show 0 < w.o.num_valid_clusters
        omega
    · refine ih _ ?_ hr
      refine ReadyInv_of_o w _ h ?_ ?_ ?_ ?_ ?_
      · rfl
      · rfl
      · rfl
      · rfl
      · show 0 < w.o.num_valid_clusters
        omega
    · simp only [Option.some.injEq] at hr
      subst hr
      refine complete_allocation_ready _ false _ (fun _ => hnorm) ?_
      refine ReadyInv_congr _ _ (core_update_fs_info_allocated_cluster _) ?_
      refine ReadyInv_congr _ _ (core_update_fs_info_free_clusters _ _) ?_
      refine ReadyInv_congr _ _ (core_update_fat_entry_in_cache_block _ _ _ _) ?_
      refine ReadyInv_of_o w _ h ?_ ?_ ?_ ?_ ?_
      · rfl
      · rfl
      · rfl
      · rfl
      · have hc2 : (w.o.alloc_position + 1) % 2 ^ 32 ≠ w.o.num_valid_clusters := hadv
        show (w.o.alloc_position + 1) % 2 ^ 32 < w.o.num_valid_clusters
        omega
    · simp only [Option.some.injEq] at hr
      subst hr
      refine complete_allocation_ready _ true _ (fun e => absurd e (by simp)) ?_
      refine ReadyInv_of_o w _ h ?_ ?_ ?_ ?_ ?_
      · rfl
      · rfl
      · rfl
      · rfl
      · have hc2 : (w.o.alloc_position + 1) % 2 ^ 32 ≠ w.o.num_valid_clusters := hadv
        show (w.o.alloc_position + 1) % 2 ^ 32 < w.o.num_valid_clusters
        omega
    · refine ih _ ?_ hr
      refine ReadyInv_of_o w _ h ?_ ?_ ?_ ?_ ?_
      · rfl
      · rfl
      · rfl
      · rfl
      · have hc2 : (w.o.alloc_position + 1) % 2 ^ 32 ≠ w.o.num_valid_clusters := hadv
        show (w.o.alloc_position + 1) % 2 ^ 32 < w.o.num_valid_clusters
        omega

theorem alloc_event_handler_ready (w w2 : World) (h : ReadyInv w)
    (hr : alloc_event_handler w = some w2) : ReadyInv w2 :=
  alloc_event_handler_loop_ready _ w w2 h hr

theorem alloc_block_ref_handler_ready (w : World) (e : Bool) (h : ReadyInv w) :
    ReadyInv (alloc_block_ref_handler w e) := by
  unfold alloc_block_ref_handler
  split_ifs with he
  · exact complete_allocation_ready w true 0 (fun e => absurd e (by simp)) h
  · exact ReadyInv_congr w _ rfl h

theorem fs_info_block_ref_handler_ready (w : World) (e : Bool) (h : ReadyInv w) :
    ReadyInv (fs_info_block_ref_handler w e) := by
  obtain ⟨g1, g2, g3, g4, g5⟩ := h
  unfold fs_info_block_ref_handler
  dsimp only
  split_ifs with he hs ha
  · exact ReadyInv_congr w _ (core_complete_write_mount_request w true) ⟨g1, g2, g3, g4, g5⟩
  · exact ReadyInv_congr w _ (core_complete_write_mount_request w true) ⟨g1, g2, g3, g4, g5⟩
  · refine ⟨g1, g2, g3, ?_, g5⟩
    have e2 : (2 + w.o.num_valid_clusters) % 2 ^ 32 = 2 + w.o.num_valid_clusters :=
      Nat.mod_eq_of_lt (by omega)
    have ha2 : ReadBinaryInt32 (w.getData w.o.fs_info_block_ref) FsInfoAllocatedClusterOffset ≥ 2 ∧
        ReadBinaryInt32 (w.getData w.o.fs_info_block_ref) FsInfoAllocatedClusterOffset <
          (2 + w.o.num_valid_clusters) % 2 ^ 32 := ha
    rw [e2] at ha2
    show ReadBinaryInt32 (w.getData w.o.fs_info_block_ref) FsInfoAllocatedClusterOffset - 2 <
      w.o.num_valid_clusters
    omega
  · exact ⟨g1, g2, g3, by show 0 < w.o.num_valid_clusters; omega, g5⟩

end FatFs

namespace FatFs

theorem init_geometry_facts (w w2 : World) (hBS : 512 ≤ w.BlockSize)
    (hlen : w.o.block_range.length < 2 ^ 32)
    (h : init_block_ref_handler w false = some w2) (hr : w2.o.state = FsState.READY) :
    w2.o.num_valid_clusters =
      min ((w.o.block_range.length - w2.o.fat_end_blocks) / w2.o.blocks_per_cluster)
        (min (w2.o.num_fat_entries - 2) (0x0FFFFFF8 - 2)) ∧
    1 ≤ w2.o.num_valid_clusters ∧
    2 + w2.o.num_valid_clusters ≤ w2.o.num_fat_entries :=
  (init_geometry w w2 hBS hlen h hr).2.2.2

theorem InitFrame_ite (w w2 : World) (c : Prop) [Decidable c] (a b : Option World)
    (ha : InitFrame w w2 a) (hb : InitFrame w w2 b) : InitFrame w w2 (if c then a else b) := by
  split_ifs
  · exact ha
  · exact hb

theorem init_block_ref_handler_frame (w w2 : World) (e : Bool) :
    InitFrame w w2 (init_block_ref_handler w e) := by
  unfold init_block_ref_handler
  simp only []
  repeat' refine InitFrame_ite _ _ _ _ _ ?_ ?_
  all_goals
    first
    | (intro h; exact Option.noConfusion h)
    | (intro h
       simp only [Option.some.injEq] at h
       subst h
       first
       | exact ⟨rfl, rfl, rfl, rfl, rfl, rfl, rfl, fun h => h⟩
       | exact ⟨rfl, rfl, rfl, rfl, rfl, rfl, rfl, fun _ => rfl⟩)

theorem init_block_ref_handler_error (w w2 : World)
    (h : init_block_ref_handler w true = some w2) : w2.o.state = FsState.FAILED := by
  unfold init_block_ref_handler at h
  simp only [if_true, Option.some.injEq] at h
  subst h
  rfl

theorem init_block_ref_handler_inv (w w2 : World) (e : Bool) (h : Unready w)
    (hs : init_block_ref_handler w e = some w2) : Inv w2 := by
  obtain ⟨u1, u2, u3, u4, u5, u6, u7, u8, u9⟩ := h
  obtain ⟨f1, f2, f3, f4, f5, f6, f7, f8⟩ := init_block_ref_handler_frame w w2 e hs
  by_cases hr : w2.o.state = FsState.READY
  · left
    cases e with
    | true =>
      rw [init_block_ref_handler_error w w2 hs] at hr
      exact absurd hr (by simp)
    | false =>
      obtain ⟨g1, g2, g3⟩ := init_geometry_facts w w2 u7 u8 hs hr
      refine ⟨hr, ?_, g3, ?_, fun j => ?_⟩
      · rw [g1]
        exact le_trans (min_le_right _ _) (min_le_right _ _)
      · rw [f5, u6]
        omega
      · have : w2.chain j = (default : File).m_chain := by
          unfold World.chain World.file
          rw [f1, u2]
          rfl
        rw [this]
        exact IterInv_default
  · right
    exact ⟨hr, f1 ▸ u2, f2 ▸ u3, f3 ▸ u4, f4 ▸ u5, f5 ▸ u6, f6 ▸ u7, f7 ▸ u8, f8 u9⟩

theorem init_inv (w : World) (block_range : BlockRange) (hBS : 512 ≤ w.BlockSize)
    (hlen : block_range.length < 2 ^ 32) : Inv (init w block_range) := by
  right
  refine ⟨?_, rfl, rfl, ?_, rfl, rfl, hBS, hlen, rfl⟩
  · show FsState.INIT ≠ FsState.READY
    simp
  · show CacheRefState.INVALID ≠ CacheRefState.REQUESTING
    simp

end FatFs

namespace FatFs

theorem block_ref_handler_ready (w w2 : World) (e : Bool) (h : ReadyInv w)
    (hs : block_ref_handler w e = some w2) : ReadyInv w2 := by
  unfold block_ref_handler at hs
  rw [if_neg (by rw [h.1]; simp), if_pos h.1] at hs
  split_ifs at hs <;> simp only [Option.some.injEq] at hs <;> subst hs
  · exact ReadyInv_congr w _ (core_write_mount_metablock_ref_handler w e) h
  · exact ReadyInv_congr w _ (core_write_unmount_metablock_ref_handler w e) h
  · exact alloc_block_ref_handler_ready w e h
  · exact h

theorem step_ready (w w2 : World) (input : Input) (h : ReadyInv w)
    (hs : step w input = some w2) : ReadyInv w2 := by
  cases input with
  | queued =>
    simp only [step] at hs
    split at hs
    · exact absurd hs (by simp)
    · rename_i e rest hq
      have h0 : ReadyInv ({ w with queue := rest } : World) := ReadyInv_congr w _ rfl h
      split at hs
      · exact alloc_event_handler_ready _ w2 h0 hs
      · simp only [Option.some.injEq] at hs
        subst hs
        exact ReadyInv_congr _ _ (core_File_event_handler _ _) h0
      · simp only [Option.some.injEq] at hs
        subst hs
        exact event_handler_ready _ _ h0
  | block_ref error =>
    simp only [step] at hs
    split_ifs at hs
    exact block_ref_handler_ready _ w2 error
      (ReadyInv_congr w _ (core_answer_block_ref w error) h) hs
  | fs_info_block_ref error =>
    simp only [step] at hs
    split_ifs at hs
    simp only [Option.some.injEq] at hs
    subst hs
    exact fs_info_block_ref_handler_ready _ error
      (ReadyInv_congr w _ (core_answer_fs_info_block_ref w error) h)
  | flush_request error =>
    simp only [step] at hs
    split_ifs at hs
    simp only [Option.some.injEq] at hs
    subst hs
    refine ReadyInv_congr w _ ?_ h
    rw [core_flush_request_handler, core_flushDone]
  | fat_cache_ref1 i error =>
    simp only [step] at hs
    split_ifs at hs
    simp only [Option.some.injEq] at hs
    subst hs
    refine ReadyInv_congr w _ ?_ h
    rw [core_fat_cache_ref_handler, core_answer_fat_cache_ref1]
  | fat_cache_ref2 i error =>
    simp only [step] at hs
    split_ifs at hs
    simp only [Option.some.injEq] at hs
    subst hs
    refine ReadyInv_congr w _ ?_ h
    rw [core_fat_cache_ref_handler, core_answer_fat_cache_ref2]
  | dir_entry_block_ref i error =>
    simp only [step] at hs
    split_ifs at hs
    simp only [Option.some.injEq] at hs
    subst hs
    refine ReadyInv_congr w _ ?_ h
    rw [core_DirEntryRef_block_ref_handler, core_answer_dir_entry_block_ref]
  | block_user i error =>
    simp only [step] at hs
    split_ifs at hs
    simp only [Option.some.injEq] at hs
    subst hs
    refine ReadyInv_congr w _ ?_ h
    rw [core_File_block_user_handler, core_answer_block_user]
  | startWriteMount =>
    simp only [step] at hs
    split_ifs at hs
    simp only [Option.some.injEq] at hs
    subst hs
    exact ReadyInv_congr w _ (core_startWriteMount w) h
  | startWriteUnmount =>
    simp only [step] at hs
    split_ifs at hs
    simp only [Option.some.injEq] at hs
    subst hs
    exact ReadyInv_congr w _ (core_startWriteUnmount w) h
  | File_init file_entry =>
    simp only [step] at hs
    split_ifs at hs
    simp only [Option.some.injEq] at hs
    subst hs
    exact File_init_ready w file_entry h
  | File_deinit i =>
    simp only [step] at hs
    split_ifs at hs
    simp only [Option.some.injEq] at hs
    subst hs
    exact ReadyInv_congr w _ (core_File_deinit w i) h
  | File_rewind i =>
    simp only [step] at hs
    split_ifs at hs
    simp only [Option.some.injEq] at hs
    subst hs
    exact File_rewind_ready w i h
  | File_startRead i =>
    simp only [step] at hs
    split_ifs at hs
    simp only [Option.some.injEq] at hs
    subst hs
    exact ReadyInv_congr w _ (core_File_startRead w i) h
  | File_startOpenWritable i =>
    simp only [step] at hs
    split_ifs at hs
    simp only [Option.some.injEq] at hs
    subst hs
    exact ReadyInv_congr w _ (core_File_startOpenWritable w i) h
  | File_closeWritable i =>
    simp only [step] at hs
    split_ifs at hs
    simp only [Option.some.injEq] at hs
    subst hs
    exact ReadyInv_congr w _ (core_File_closeWritable w i) h
  | File_startWrite i bytes_in_block =>
    simp only [step] at hs
    split_ifs at hs
    simp only [Option.some.injEq] at hs
    subst hs
    exact ReadyInv_congr w _ (core_File_startWrite w i bytes_in_block) h
  | File_startTruncate i =>
    simp only [step] at hs
    split_ifs at hs
    simp only [Option.some.injEq] at hs
    subst hs
    exact ReadyInv_congr w _ (core_File_startTruncate w i) h

theorem step_unready (w w2 : World) (input : Input) (h : Unready w)
    (hs : step w input = some w2) : Inv w2 := by
  obtain ⟨u1, u2, u3, u4, u5, u6, u7, u8, u9⟩ := h
  cases input with
  | queued =>
    simp only [step, u3] at hs
    exact absurd hs (by simp)
  | block_ref error =>
    simp only [step] at hs
    split_ifs at hs with hreq
    have hU : Unready (w.answer_block_ref error) := by
      unfold World.answer_block_ref World.blockLoaded
      dsimp only
      split_ifs <;> exact ⟨u1, u2, u3, u4, u5, u6, u7, u8, u9⟩
    unfold block_ref_handler at hs
    by_cases h1 : (w.answer_block_ref error).o.state = FsState.INIT
    · rw [if_pos h1] at hs
      exact init_block_ref_handler_inv _ w2 error hU hs
    · rw [if_neg h1, if_neg hU.1] at hs
      simp only [Option.some.injEq] at hs
      subst hs
      exact Or.inr hU
  | fs_info_block_ref error =>
    simp only [step, if_neg u4] at hs
    exact absurd hs (by simp)
  | flush_request error =>
    simp only [step, u5] at hs
    exact absurd hs (by simp)
  | fat_cache_ref1 i error =>
    simp only [step, u2, List.length_nil, Nat.not_lt_zero, false_and, if_false] at hs
    exact absurd hs (by simp)
  | fat_cache_ref2 i error =>
    simp only [step, u2, List.length_nil, Nat.not_lt_zero, false_and, if_false] at hs
    exact absurd hs (by simp)
  | dir_entry_block_ref i error =>
    simp only [step, u2, List.length_nil, Nat.not_lt_zero, false_and, if_false] at hs
    exact absurd hs (by simp)
  | block_user i error =>
    simp only [step, u2, List.length_nil, Nat.not_lt_zero, false_and, if_false] at hs
    exact absurd hs (by simp)
  | startWriteMount =>
    simp only [step, u1, false_and, if_false] at hs
    exact absurd hs (by simp)
  | startWriteUnmount =>
    simp only [step, u1, false_and, if_false] at hs
    exact absurd hs (by simp)
  | File_init file_entry =>
    simp only [step, u1, false_and, if_false] at hs
    exact absurd hs (by simp)
  | File_deinit i =>
    simp only [step, u2, List.length_nil, Nat.not_lt_zero, false_and, if_false] at hs
    exact absurd hs (by simp)
  | File_rewind i =>
    simp only [step, u2, List.length_nil, Nat.not_lt_zero, false_and, if_false] at hs
    exact absurd hs (by simp)
  | File_startRead i =>
    simp only [step, u2, List.length_nil, Nat.not_lt_zero, false_and, if_false] at hs
    exact absurd hs (by simp)
  | File_startOpenWritable i =>
    simp only [step, u2, List.length_nil, Nat.not_lt_zero, false_and, if_false] at hs
    exact absurd hs (by simp)
  | File_closeWritable i =>
    simp only [step, u2, List.length_nil, Nat.not_lt_zero, false_and, if_false] at hs
    exact absurd hs (by simp)
  | File_startWrite i bytes_in_block =>
    simp only [step, u2, List.length_nil, Nat.not_lt_zero, false_and, if_false] at hs
    exact absurd hs (by simp)
  | File_startTruncate i =>
    simp only [step, u2, List.length_nil, Nat.not_lt_zero, false_and, if_false] at hs
    exact absurd hs (by simp)

theorem step_inv (w w2 : World) (input : Input) (h : Inv w)
    (hs : step w input = some w2) : Inv w2 := by
  rcases h with h | h
  · exact Or.inl (step_ready w w2 input h hs)
  · exact step_unready w w2 input h hs

theorem reachable_inv (w : World) (h : Reachable w) : Inv w := by
  induction h with
  | init w block_range hBS hlen => exact init_inv w block_range hBS hlen
  | step w w2 input _ hs ih => exact step_inv w w2 input ih hs

theorem reachable_run (fuel : Nat) (errors : List Bool) (w w2 : World) (h : Reachable w)
    (hr : run fuel errors w = some w2) : Reachable w2 := by
  induction fuel generalizing w errors with
  | zero => exact absurd hr (by simp [run])
  | succ fuel ih =>
    unfold run at hr
    split_ifs at hr with hq
    · cases hs : step w .queued with
      | none => rw [hs] at hr; exact absurd hr (by simp)
      | some w1 =>
        rw [hs, Option.some_bind] at hr
        exact ih _ _ (Reachable.step w w1 _ h hs) hr
    · split at hr
      · simp only [Option.some.injEq] at hr
        subst hr
        exact h
      · rename_i answer _
        cases hs : step w (answer (errors.headD false)) with
        | none => rw [hs] at hr; exact absurd hr (by simp)
        | some w1 =>
          rw [hs, Option.some_bind] at hr
          exact ih _ _ (Reachable.step w w1 _ h hs) hr

theorem reachable_call (fuel : Nat) (errors : List Bool) (w w2 : World) (input : Input)
    (h : Reachable w) (hr : (step w input).bind (run fuel errors) = some w2) :
    Reachable w2 := by
  cases hs : step w input with
  | none => rw [hs] at hr; exact absurd hr (by simp)
  | some w1 =>
    rw [hs, Option.some_bind] at hr
    exact reachable_run fuel errors w1 w2 (Reachable.step w w1 input h hs) hr

theorem reachable_sampleReady : Reachable sampleReady :=
  reachable_run 4 [] _ _ (Reachable.init { data := sampleImage } { base := 0, length := 100 }
    (by decide) (by decide)) rfl

theorem reachable_sampleMounted : Reachable sampleMounted :=
  reachable_call 4 [false, false, false] sampleReady _ .startWriteMount reachable_sampleReady rfl

theorem reachable_sampleOpen : Reachable sampleOpen :=
  Reachable.step sampleReady _ (.File_init sampleFileEntry) reachable_sampleReady rfl

end FatFs

namespace FatFs

theorem reachable_sampleDirOpen : Reachable sampleDirOpen :=
  Reachable.step _ _ (.File_init sampleFileEntry)
    (reachable_call 4 [false, false, false] _ _ .startWriteMount
      (reachable_run 4 [] _ _
        (Reachable.init { data := sampleDirImage } { base := 0, length := 100 }
          (by decide) (by decide)) rfl) rfl) rfl

theorem reachable_sampleReadOnce : Reachable sampleReadOnce :=
  reachable_call 20 [] sampleWritable _ (.File_startRead 0)
    (reachable_call 20 [] sampleDirOpen _ (.File_startOpenWritable 0)
      reachable_sampleDirOpen rfl) rfl

/-- C27: the invariant of the iterator of a cluster chain.  In every state
that the driver reaches from `init` (on a device of blocks of at least 512
bytes and a partition of fewer than `2 ^ 32` blocks, through any sequence of
client calls, queued events and answers of the collaborators, with or without
errors), the chain of every file satisfies: at `CLUSTER` the current cluster is
a normal cluster index (`2 ≤ c < 0x0FFFFFF8`), at `END` it is not, and at
`START` it is the first cluster.  This holds in every state of the chain, in
particular whenever the chain is `IDLE`. -/
theorem chain_iterator_invariant (w : World) (h : Reachable w) (i : Nat) :
    ((w.chain i).m_iter_state = IterState.CLUSTER →
      2 ≤ (w.chain i).m_current_cluster ∧ (w.chain i).m_current_cluster < 0x0FFFFFF8 ∧
      is_cluster_idx_normal (w.chain i).m_current_cluster = true) ∧
    ((w.chain i).m_iter_state = IterState.END →
      is_cluster_idx_normal (w.chain i).m_current_cluster = false) ∧
    ((w.chain i).m_iter_state = IterState.START →
      (w.chain i).m_current_cluster = (w.chain i).m_first_cluster) := by
  have hI : IterInv (w.chain i) := by
    rcases reachable_inv w h with hr | hu
    · exact hr.2.2.2.2 i
    · have : w.chain i = (default : File).m_chain := by
        unfold World.chain World.file
        rw [hu.2.1]
        rfl
      rw [this]
      exact IterInv_default
  refine ⟨fun hc => ?_, hI.2.1, hI.2.2⟩
  have hn := hI.1 hc
  have hn2 := hn
  unfold is_cluster_idx_normal NormalClusterIndexEnd at hn2
  simp only [decide_eq_true_eq] at hn2
  exact ⟨hn2.1, hn2.2, hn⟩

theorem chain_iterator_invariant_witness :
    (sampleReadOnce.chain 0).m_iter_state = IterState.CLUSTER ∧
    (sampleReadOnce.chain 0).m_state = ChainState.IDLE ∧
    2 ≤ (sampleReadOnce.chain 0).m_current_cluster ∧
    (sampleReadOnce.chain 0).m_current_cluster < 0x0FFFFFF8 :=
  ⟨by decide, by decide,
    ((chain_iterator_invariant sampleReadOnce reachable_sampleReadOnce 0).1 (by decide)).1,
    ((chain_iterator_invariant sampleReadOnce reachable_sampleReadOnce 0).1 (by decide)).2.1⟩

/-- C25: the allocator position stays in range.  In every state that the
driver reaches from `init` (on a device of blocks of at least 512 bytes and a
partition of fewer than `2 ^ 32` blocks) in which the volume is mounted for
writing, the filesystem is `READY`, `alloc_position` is below
`num_valid_clusters`, and the candidate cluster `2 + alloc_position` of the
allocator is a normal cluster index, valid for data and valid for the FAT.
In every reachable state in which the filesystem is `READY`, the handler of
the FS information sector, when the sector is read without error and carries
the three signatures, seeds `alloc_position` with the last-allocated field
minus 2 if that field lies in `[2, 2 + num_valid_clusters)` and with 0
otherwise. -/
theorem alloc_position_in_range (w : World) (h : Reachable w) :
    (w.o.write_mount_state = WriteMountState.MOUNTED →
      w.o.state = FsState.READY ∧
      w.o.alloc_position < w.o.num_valid_clusters ∧
      is_cluster_idx_normal (2 + w.o.alloc_position) = true ∧
      is_cluster_idx_valid_for_data w (2 + w.o.alloc_position) = true ∧
      is_cluster_idx_valid_for_fat w (2 + w.o.alloc_position) = true) ∧
    (w.o.state = FsState.READY →
      ReadBinaryInt32 (w.getData w.o.fs_info_block_ref) FsInfoSig1Offset = 0x41615252 →
      ReadBinaryInt32 (w.getData w.o.fs_info_block_ref) FsInfoSig2Offset = 0x61417272 →
      ReadBinaryInt32 (w.getData w.o.fs_info_block_ref) FsInfoSig3Offset = 0xAA550000 →
      (fs_info_block_ref_handler w false).o.alloc_position =
        if 2 ≤ ReadBinaryInt32 (w.getData w.o.fs_info_block_ref) FsInfoAllocatedClusterOffset ∧
            ReadBinaryInt32 (w.getData w.o.fs_info_block_ref) FsInfoAllocatedClusterOffset <
              2 + w.o.num_valid_clusters
        then ReadBinaryInt32 (w.getData w.o.fs_info_block_ref) FsInfoAllocatedClusterOffset - 2
        else 0) := by
  have hR : w.o.state = FsState.READY → ReadyInv w := by
    intro hs
    rcases reachable_inv w h with hr | hu
    · exact hr
    · exact absurd hs hu.1
  refine ⟨fun hm => ?_, fun hs s1 s2 s3 => ?_⟩
  · have hr : ReadyInv w := by
      rcases reachable_inv w h with hr | hu
      · exact hr
      · rw [hu.2.2.2.2.2.2.2.2] at hm
        exact absurd hm (by simp)
    obtain ⟨g1, g2, g3, g4, _⟩ := hr
    refine ⟨g1, g4, ?_, ?_, ?_⟩
    · unfold is_cluster_idx_normal NormalClusterIndexEnd
      simp only [decide_eq_true_eq]
      omega
    · unfold is_cluster_idx_valid_for_data
      simp only [decide_eq_true_eq]
      omega
    · unfold is_cluster_idx_valid_for_fat
      simp only [decide_eq_true_eq]
      omega
  · obtain ⟨_, g2, _, _, _⟩ := hR hs
    have e2 : (2 + w.o.num_valid_clusters) % 2 ^ 32 = 2 + w.o.num_valid_clusters :=
      Nat.mod_eq_of_lt (by omega)
    unfold fs_info_block_ref_handler
    simp only [Bool.false_eq_true, if_false, s1, s2, s3, ne_eq, not_true_eq_false, or_self,
      e2, ge_iff_le]
    split_ifs <;> rfl

theorem alloc_position_in_range_witness :
    sampleMounted.o.write_mount_state = WriteMountState.MOUNTED ∧
    sampleMounted.o.alloc_position < sampleMounted.o.num_valid_clusters ∧
    is_cluster_idx_valid_for_fat sampleMounted (2 + sampleMounted.o.alloc_position) = true :=
  ⟨by decide,
    ((alloc_position_in_range sampleMounted reachable_sampleMounted).1 (by decide)).2.1,
    ((alloc_position_in_range sampleMounted reachable_sampleMounted).1 (by decide)).2.2.2.2⟩

end FatFs

namespace AIpStack

/-- The prefix mask of every length up to 32, as a table over the lengths. -/
theorem ip4_prefix_mask_nat (m : Nat) (h : m ≤ 32) :
    Ip4Addr.PrefixMask (m : Int) = some ⟨[2 ^ 32 - 2 ^ (32 - m)]⟩ ∧
    Ip4Addr.countLeadingOnes ⟨[2 ^ 32 - 2 ^ (32 - m)]⟩ = m := by
  interval_cases m <;> exact ⟨by decide, by decide⟩

/-- C40: for every prefix length `0 ≤ n ≤ 32`, `Ip4Addr::PrefixMask(n)` returns the address
whose 32-bit value is `2^32 - 2^(32-n)`, `countLeadingOnes` of it is `n`, and the masks of
lengths 0 and 32 are `ZeroAddr()` and `AllOnesAddr()`. -/
theorem ip4_prefix_mask (n : Int) (h0 : 0 ≤ n) (h32 : n ≤ 32) :
    ∃ a, Ip4Addr.PrefixMask n = some a ∧ a.data = [2 ^ 32 - 2 ^ (32 - n.toNat)] ∧
      (Ip4Addr.countLeadingOnes a : Int) = n ∧
      (n = 0 → a = Ip4Addr.ZeroAddr) ∧ (n = 32 → a = Ip4Addr.AllOnesAddr) := by
  obtain ⟨m, rfl⟩ := Int.eq_ofNat_of_zero_le h0
  have hm : m ≤ 32 := by omega
  obtain ⟨h1, h2⟩ := ip4_prefix_mask_nat m hm
  refine ⟨_, h1, by simp, by rw [h2], ?_, ?_⟩
  · intro h
    have : m = 0 := by omega
    subst this
    decide
  · intro h
    have : m = 32 := by omega
    subst this
    decide

/-- C40 at the prefix length 24: the mask is 255.255.255.0. -/
theorem ip4_prefix_mask_witness :
    ∃ a, Ip4Addr.PrefixMask 24 = some a ∧ a.data = [2 ^ 32 - 2 ^ (32 - (24 : Int).toNat)] ∧
      (Ip4Addr.countLeadingOnes a : Int) = 24 ∧
      ((24 : Int) = 0 → a = Ip4Addr.ZeroAddr) ∧ ((24 : Int) = 32 → a = Ip4Addr.AllOnesAddr) :=
  ip4_prefix_mask 24 (by decide) (by decide)

end AIpStack

namespace FatFs

/-- What a successful `init` has checked and computed, in terms of the fields of the boot
block: `ss` the sector size, `spc` the sectors per cluster, `rs` the reserved sectors, `nf`
the number of FATs, `spf` the sectors per FAT, `rc` the root cluster field and `bps` the
blocks per sector. -/
theorem init_success (w w2 : World) (hBS : 512 ≤ w.BlockSize)
    (hlen : w.o.block_range.length < 2 ^ 32)
    (h : init_block_ref_handler w false = some w2) (hr : w2.o.state = FsState.READY) :
    ∃ ss spc rs nf spf rc bps : Nat,
      ReadBinaryInt16 (w.getData w.o.block_ref) 0xB = ss ∧
      ReadBinaryInt8 (w.getData w.o.block_ref) 0xD = spc ∧
      ReadBinaryInt16 (w.getData w.o.block_ref) 0xE = rs ∧
      ReadBinaryInt8 (w.getData w.o.block_ref) 0x10 = nf ∧
      ReadBinaryInt32 (w.getData w.o.block_ref) 0x24 = spf ∧
      ReadBinaryInt32 (w.getData w.o.block_ref) 0x2C = rc ∧
      ss = bps * w.BlockSize ∧ 1 ≤ bps ∧ spc * bps ≠ 0 ∧ spc * bps ≤ 65535 ∧
      (nf = 1 ∨ nf = 2) ∧ spf ≠ 0 ∧ spf * (ss / 4) ≤ 4294967295 ∧
      (rs + nf * spf) * bps ≤ w.o.block_range.length ∧
      1 ≤ (w.o.block_range.length - (rs + nf * spf) * bps) / (spc * bps) ∧
      w2.o.num_fats = nf ∧ w2.o.num_reserved_blocks = rs * bps ∧
      w2.o.fat_end_blocks = (rs + nf * spf) * bps ∧
      w2.o.blocks_per_cluster = spc * bps ∧
      w2.o.num_fat_entries = spf * (ss / 4) ∧
      w2.o.root_cluster = rc &&& 0x0FFFFFFF ∧ 2 ≤ w2.o.root_cluster ∧
      w2.o.num_valid_clusters =
        min ((w.o.block_range.length - (rs + nf * spf) * bps) / (spc * bps))
          (min (spf * (ss / 4) - 2) (0x0FFFFFF8 - 2)) ∧
      w2.o.block_range = w.o.block_range ∧ w2.BlockSize = w.BlockSize := by
  have h1 := ReadBinaryInt16_lt (w.getData w.o.block_ref) 0xB
  have h2 := ReadBinaryInt8_lt (w.getData w.o.block_ref) 0xD
  have h3 := ReadBinaryInt16_lt (w.getData w.o.block_ref) 0xE
  have h4 := ReadBinaryInt8_lt (w.getData w.o.block_ref) 0x10
  have h6 := ReadBinaryInt32_lt (w.getData w.o.block_ref) 0x24
  have h8 := ReadBinaryInt16_lt (w.getData w.o.block_ref) 0x30
  have hx : ∀ (w1 : World) (code : Nat) (Q : Prop), code ≠ 0 →
      some (init_block_ref_handler_exit w1 code) = some w2 → w2.o.state = FsState.READY →
      Q := by
    intro w1 code Q hcode h hr
    simp only [↓reduceIte, Option.some.injEq] at h
    subst h
    rw [init_block_ref_handler_exit_state, if_pos hcode] at hr
    exact absurd hr (by simp)
  revert h hr
  unfold init_block_ref_handler
  simp only [↓reduceIte, Bool.false_eq_true, if_false, BlockRange.getLength, UINT16_MAX, UINT32_MAX,
    mask_cluster_entry, NormalClusterIndexEnd]
  generalize hss : ReadBinaryInt16 (w.getData w.o.block_ref) 0xB = ss at *
  generalize hspc : ReadBinaryInt8 (w.getData w.o.block_ref) 0xD = spc at *
  generalize hrs : ReadBinaryInt16 (w.getData w.o.block_ref) 0xE = rs at *
  generalize hnfq : ReadBinaryInt8 (w.getData w.o.block_ref) 0x10 = nf at *
  generalize ReadBinaryInt16 (w.getData w.o.block_ref) 0x11 = mr at *
  generalize hspf : ReadBinaryInt32 (w.getData w.o.block_ref) 0x24 = spf at *
  generalize hrc : ReadBinaryInt32 (w.getData w.o.block_ref) 0x2C = rc at *
  generalize ReadBinaryInt16 (w.getData w.o.block_ref) 0x30 = fis at *
  generalize ReadBinaryInt8 (w.getData w.o.block_ref) 0x42 = sig at *
  generalize hlenEq : w.o.block_range.length = len at *
  generalize hBSeq : w.BlockSize = BS at *
  have e16 : (2 : Nat) ^ 16 = 65536 := by norm_num
  have e32 : (2 : Nat) ^ 32 = 4294967296 := by norm_num
  have e64 : (2 : Nat) ^ 64 = 18446744073709551616 := by norm_num
  rw [e16, e32, e64]
  rw [e32] at hlen
  by_cases c1 : ss = 0 ∨ ss % BS ≠ 0
  · rw [if_pos c1]
    exact hx _ 22 _ (by decide)
  rw [if_neg c1]
  have hssBS : BS ≤ ss := by
    rcases Nat.lt_or_ge ss BS with h | h
    · have := Nat.mod_eq_of_lt h
      omega
    · exact h
  have hbps1 : 1 ≤ ss / BS := Nat.div_pos hssBS (by omega)
  have hbps2 : ss / BS ≤ 127 := by
    have : ss / BS ≤ ss / 512 := Nat.div_le_div_left hBS (by norm_num)
    omega
  have hssq : ss = ss / BS * BS := (Nat.div_mul_cancel (Nat.dvd_of_mod_eq_zero (by omega))).symm
  generalize ss / BS = bps at *
  have hb : bps % 65536 = bps := Nat.mod_eq_of_lt (by omega)
  rw [hb]
  rw [if_neg (by omega : ¬ bps = 0)]
  have hdiv : 65535 / bps < spc ↔ 65535 < spc * bps := Nat.div_lt_iff_lt_mul (by omega)
  by_cases c2 : spc > 65535 / bps
  · rw [if_pos c2]
    exact hx _ 23 _ (by decide)
  rw [if_neg c2]
  have hbpc : spc * bps ≤ 65535 := by
    by_contra hh
    exact c2 (hdiv.2 (by omega))
  rw [Nat.mul_comm bps spc, Nat.mod_eq_of_lt (by omega : spc * bps < 65536)]
  by_cases c3 : rs * ss % 4294967296 < 71
  · rw [if_pos c3]
    exact hx _ 24 _ (by decide)
  rw [if_neg c3]
  by_cases c4 : nf ≠ 1 ∧ nf ≠ 2
  · rw [if_pos c4]
    exact hx _ 25 _ (by decide)
  rw [if_neg c4]
  by_cases c5 : sig ≠ 40 ∧ sig ≠ 41
  · rw [if_pos c5]
    exact hx _ 26 _ (by decide)
  rw [if_neg c5]
  by_cases c6 : mr ≠ 0
  · rw [if_pos c6]
    exact hx _ 27 _ (by decide)
  rw [if_neg c6]
  by_cases c7 : rc &&& 268435455 < 2
  · rw [if_pos c7]
    exact hx _ 28 _ (by decide)
  rw [if_neg c7]
  have heps : ss / 4 % 65536 = ss / 4 := Nat.mod_eq_of_lt (by omega)
  rw [heps]
  by_cases c8 : spf = 0
  · rw [if_pos c8]
    exact hx _ 29 _ (by decide)
  rw [if_neg c8, if_neg (by omega : ¬ ss / 4 = 0)]
  have hdiv2 : 4294967295 / (ss / 4) < spf ↔ 4294967295 < spf * (ss / 4) :=
    Nat.div_lt_iff_lt_mul (by omega)
  by_cases c9 : spf > 4294967295 / (ss / 4)
  · rw [if_pos c9]
    exact hx _ 29 _ (by decide)
  rw [if_neg c9]
  have hnfe : spf * (ss / 4) ≤ 4294967295 := by
    by_contra hh
    exact c9 (hdiv2.2 (by omega))
  have hnfe2 : 128 ≤ spf * (ss / 4) := by
    have : 1 * 128 ≤ spf * (ss / 4) := Nat.mul_le_mul (by omega) (by omega)
    omega
  have hnf : nf * spf ≤ 2 * 4294967295 := Nat.mul_le_mul (by omega) (by omega)
  rw [Nat.mod_eq_of_lt (by omega : rs + nf * spf < 18446744073709551616)]
  by_cases c10 : rs + nf * spf > len / bps
  · rw [if_pos c10]
    exact hx _ 29 _ (by decide)
  rw [if_neg c10]
  by_cases c11 : fis ≠ 0 ∧ fis ≠ 65535 ∧ fis * bps % 4294967296 ≥ rs * bps
  · rw [if_pos c11]
    exact hx _ 31 _ (by decide)
  rw [if_neg c11]
  by_cases c13 : spc * bps = 0
  · rw [if_pos c13]
    intro h
    exact Option.noConfusion h
  rw [if_neg c13]
  have hcap : (len - (rs + nf * spf) * bps) / (spc * bps) < 4294967296 :=
    lt_of_le_of_lt (Nat.div_le_self _ _) (by omega)
  rw [Nat.mod_eq_of_lt hcap]
  by_cases c12 : (len - (rs + nf * spf) * bps) / (spc * bps) < 1
  · rw [if_pos c12]
    exact hx _ 30 _ (by decide)
  rw [if_neg c12]
  rw [Nat.mod_eq_of_lt (by omega : spf * (ss / 4) < 4294967296)]
  rw [show (spf * (ss / 4) + 4294967296 - 2) % 4294967296 = spf * (ss / 4) - 2 by omega]
  intro h hr
  simp only [↓reduceIte, Option.some.injEq] at h
  subst h
  have hfe : (rs + nf * spf) * bps ≤ len := by
    have h1 : rs + nf * spf ≤ len / bps := by omega
    exact (Nat.le_div_iff_mul_le (by omega)).1 h1
  refine ⟨ss, spc, rs, nf, spf, rc, bps, rfl, rfl, rfl, rfl, rfl, rfl, hssq, hbps1, c13, hbpc,
    by omega, c8, hnfe, hfe, by omega, rfl, rfl, rfl, rfl, rfl, rfl, ?_, rfl, rfl, rfl⟩
  show 2 ≤ rc &&& 268435455
  omega

/-- C34 (defect of the code): `init_block_ref_handler` can divide by zero.  The divisions by
`blocks_per_sector` and `entries_per_sector` are reached with a non-zero divisor only, and the
handler has a result for every boot block with `sectors_per_cluster ≠ 0`; but a boot block
with `sectors_per_cluster = 0` that passes the other checks reaches
`(length - fat_end_blocks) / blocks_per_cluster` with `blocks_per_cluster = 0`. -/
theorem init_division_by_zero :
    (∀ w : World, 512 ≤ w.BlockSize → w.o.block_range.length < 2 ^ 32 →
      init_block_ref_handler w false = none →
      ReadBinaryInt8 (w.getData w.o.block_ref) 0xD = 0) ∧
    ReadBinaryInt8 (bootBlock 512 0 32 2 0 1 2 1 0x29) 0xD = 0 ∧
    ReadBinaryInt16 (bootBlock 512 0 32 2 0 1 2 1 0x29) 0xB / 512 % 2 ^ 16 *
      ReadBinaryInt8 (bootBlock 512 0 32 2 0 1 2 1 0x29) 0xD % 2 ^ 16 = 0 ∧
    init_block_ref_handler (initWorld (bootBlock 512 0 32 2 0 1 2 1 0x29) 100) false = none := by
  refine ⟨?_, by decide, by decide, rfl⟩
  intro w hBS hlen h
  by_contra hspc
  obtain ⟨w2, h2, _⟩ := init_block_ref_handler_ready_iff w hBS hspc hlen
  rw [h] at h2
  exact Option.noConfusion h2

/-- C31 (as stated, refuted): `init` accepts a boot block whose root cluster, 50, is not
valid for data on a volume of 8 clusters; the cluster that `getRootEntry` returns is then not
valid for data. -/
theorem init_accepts_far_root_cluster :
    step farRootWorld (.block_ref false) = some farRootReady ∧
    farRootReady.o.state = FsState.READY ∧
    farRootReady.calls = [.InitHandler 0] ∧
    farRootReady.o.num_valid_clusters = 8 ∧
    (getRootEntry farRootReady).cluster_index = 50 ∧
    ¬ (farRootReady.o.root_cluster - 2 < farRootReady.o.num_valid_clusters) ∧
    is_cluster_idx_valid_for_data farRootReady (getRootEntry farRootReady).cluster_index = false := by
  refine ⟨rfl, ?_, ?_, ?_, ?_, ?_, ?_⟩ <;> decide

/-- C31 (amended): after a successful `init` the committed `root_cluster` is the root cluster
field of the boot block masked to 28 bits, it is at least 2 and below `2 ^ 28`, and it is the
cluster of `getRootEntry`; it is valid for data exactly when it lies below
`2 + num_valid_clusters`, which `init` does not check. -/
theorem init_root_cluster (w w2 : World) (hBS : 512 ≤ w.BlockSize)
    (hlen : w.o.block_range.length < 2 ^ 32)
    (h : init_block_ref_handler w false = some w2) (hr : w2.o.state = FsState.READY) :
    w2.o.root_cluster = ReadBinaryInt32 (w.getData w.o.block_ref) 0x2C &&& 0x0FFFFFFF ∧
    2 ≤ w2.o.root_cluster ∧ w2.o.root_cluster < 2 ^ 28 ∧
    (getRootEntry w2).cluster_index = w2.o.root_cluster ∧
    (is_cluster_idx_valid_for_data w2 (getRootEntry w2).cluster_index = true ↔
      w2.o.root_cluster < 2 + w2.o.num_valid_clusters) := by
  obtain ⟨ss, spc, rs, nf, spf, rc, bps, -, -, -, -, -, e6, -, -, -, -, -, -, -, -, -, -, -, -, -,
    -, hroot, h2, -⟩ := init_success w w2 hBS hlen h hr
  have hm := mask_cluster_entry_lt rc
  rw [mask_cluster_entry] at hm
  refine ⟨by rw [hroot, e6], h2, by rw [hroot]; exact hm, rfl, ?_⟩
  show is_cluster_idx_valid_for_data w2 w2.o.root_cluster = true ↔ _
  simp only [is_cluster_idx_valid_for_data, decide_eq_true_eq]
  omega

/-- Witness of `init_root_cluster`: the boot block with root cluster 50 on a volume of 8
clusters. -/
theorem init_root_cluster_witness :
    farRootReady.o.root_cluster =
      ReadBinaryInt32 (farRootInit.getData farRootInit.o.block_ref) 0x2C &&& 0x0FFFFFFF ∧
    2 ≤ farRootReady.o.root_cluster ∧ farRootReady.o.root_cluster < 2 ^ 28 ∧
    (getRootEntry farRootReady).cluster_index = farRootReady.o.root_cluster ∧
    (is_cluster_idx_valid_for_data farRootReady (getRootEntry farRootReady).cluster_index = true ↔
      farRootReady.o.root_cluster < 2 + farRootReady.o.num_valid_clusters) :=
  init_root_cluster farRootInit farRootReady (by decide) (by decide) rfl (by decide)

/-- C35: block indices stay inside their regions.  After a successful `init` (block size a
multiple of 32 and at least 512, as the source asserts): (a) the block of every copy `k` of
every FAT entry `i` lies in the FAT region; (b) every block of every cluster that is valid
for data lies at or after `fat_end_blocks` and inside the partition; (c)
`get_cluster_data_block_index` is injective on such pairs; and no data block is a FAT
block. -/
theorem block_indices_in_regions (w w2 : World) (hBS : 512 ≤ w.BlockSize)
    (hBS32 : w.BlockSize % 32 = 0) (hlen : w.o.block_range.length < 2 ^ 32)
    (h : init_block_ref_handler w false = some w2) (hr : w2.o.state = FsState.READY) :
    (∀ i k, i < w2.o.num_fat_entries → k < w2.o.num_fats →
      w2.o.num_reserved_blocks ≤
        w2.o.num_reserved_blocks + i / w2.FatEntriesPerBlock +
          k * (w2.o.num_fat_entries / w2.FatEntriesPerBlock) ∧
      w2.o.num_reserved_blocks + i / w2.FatEntriesPerBlock +
          k * (w2.o.num_fat_entries / w2.FatEntriesPerBlock) < w2.o.fat_end_blocks) ∧
    (∀ c b, is_cluster_idx_valid_for_data w2 c = true → b < w2.o.blocks_per_cluster →
      w2.o.fat_end_blocks ≤ get_cluster_data_block_index w2 c b ∧
      get_cluster_data_block_index w2 c b < w2.o.block_range.getLength) ∧
    (∀ c b c2 b2, is_cluster_idx_valid_for_data w2 c = true → b < w2.o.blocks_per_cluster →
      is_cluster_idx_valid_for_data w2 c2 = true → b2 < w2.o.blocks_per_cluster →
      get_cluster_data_block_index w2 c b = get_cluster_data_block_index w2 c2 b2 →
      c = c2 ∧ b = b2) ∧
    (∀ i k c b, i < w2.o.num_fat_entries → k < w2.o.num_fats →
      is_cluster_idx_valid_for_data w2 c = true → b < w2.o.blocks_per_cluster →
      w2.o.num_reserved_blocks + i / w2.FatEntriesPerBlock +
          k * (w2.o.num_fat_entries / w2.FatEntriesPerBlock) ≠
        get_cluster_data_block_index w2 c b) := by
  obtain ⟨ss, spc, rs, nf, spf, rc, bps, -, -, -, -, -, -, hss, hbps, hbpc0, -, hnf, -, -, hfe,
    -, e1, e2, e3, e4, e5, -, -, e6, e7, e8⟩ := init_success w w2 hBS hlen h hr
  have hF : w.BlockSize = 4 * (w.BlockSize / 4) := by omega
  have hFpos : 0 < w.BlockSize / 4 := by omega
  have hss4 : ss / 4 = bps * (w.BlockSize / 4) := by
    rw [hss]
    conv_lhs => rw [hF]
    rw [show bps * (4 * (w.BlockSize / 4)) = 4 * (bps * (w.BlockSize / 4)) by ring]
    exact Nat.mul_div_cancel_left _ (by norm_num)
  have hA : ∀ i k, i < w2.o.num_fat_entries → k < w2.o.num_fats →
      w2.o.num_reserved_blocks + i / w2.FatEntriesPerBlock +
          k * (w2.o.num_fat_entries / w2.FatEntriesPerBlock) < w2.o.fat_end_blocks := by
    intro i k hi hk
    rw [e5, hss4] at hi
    rw [e1] at hk
    rw [e2, e3, e5, hss4, World.FatEntriesPerBlock, e8]
    have h1 : spf * (bps * (w.BlockSize / 4)) / (w.BlockSize / 4) = spf * bps := by
      rw [← Nat.mul_assoc]
      exact Nat.mul_div_cancel _ hFpos
    rw [h1]
    have h2 : i / (w.BlockSize / 4) < spf * bps := by
      rw [Nat.div_lt_iff_lt_mul hFpos]
      calc i < spf * (bps * (w.BlockSize / 4)) := hi
        _ = spf * bps * (w.BlockSize / 4) := by ring
    have h3 : (k + 1) * (spf * bps) ≤ nf * (spf * bps) := Nat.mul_le_mul_right _ (by omega)
    have h4 : (k + 1) * (spf * bps) = k * (spf * bps) + spf * bps := by ring
    have h5 : (rs + nf * spf) * bps = rs * bps + nf * (spf * bps) := by ring
    omega
  have hB : ∀ c b, is_cluster_idx_valid_for_data w2 c = true → b < w2.o.blocks_per_cluster →
      w2.o.fat_end_blocks ≤ get_cluster_data_block_index w2 c b ∧
      get_cluster_data_block_index w2 c b < w2.o.block_range.getLength := by
    intro c b hc hb
    simp only [is_cluster_idx_valid_for_data, decide_eq_true_eq] at hc
    rw [e6] at hc
    rw [e4] at hb
    rw [get_cluster_data_block_index, e3, e4, e7, BlockRange.getLength]
    have h1 : c - 2 < (w.o.block_range.length - (rs + nf * spf) * bps) / (spc * bps) :=
      lt_of_lt_of_le hc.2 (Nat.min_le_left _ _)
    have h2 : (c - 2 + 1) * (spc * bps) ≤ w.o.block_range.length - (rs + nf * spf) * bps :=
      (Nat.le_div_iff_mul_le (by omega)).1 h1
    have h3 : (c - 2 + 1) * (spc * bps) = (c - 2) * (spc * bps) + spc * bps := by ring
    omega
  refine ⟨fun i k hi hk => ⟨by rw [Nat.add_assoc]; exact Nat.le_add_right _ _, hA i k hi hk⟩,
    hB, ?_, ?_⟩
  · intro c b c2 b2 hc hb hc2 hb2 heq
    simp only [is_cluster_idx_valid_for_data, decide_eq_true_eq] at hc hc2
    rw [get_cluster_data_block_index, get_cluster_data_block_index] at heq
    have hpos : 0 < w2.o.blocks_per_cluster := by omega
    have heq2 : b + w2.o.blocks_per_cluster * (c - 2) = b2 + w2.o.blocks_per_cluster * (c2 - 2) := by
      rw [Nat.mul_comm _ (c - 2), Nat.mul_comm _ (c2 - 2)]
      omega
    have hd := congrArg (fun x => x / w2.o.blocks_per_cluster) heq2
    have hm := congrArg (fun x => x % w2.o.blocks_per_cluster) heq2
    simp only [Nat.add_mul_div_left _ _ hpos, Nat.add_mul_mod_self_left, Nat.div_eq_of_lt hb,
      Nat.div_eq_of_lt hb2, Nat.mod_eq_of_lt hb, Nat.mod_eq_of_lt hb2] at hd hm
    exact ⟨by omega, hm⟩
  · intro i k c b hi hk hc hb
    have h1 := hA i k hi hk
    have h2 := (hB c b hc hb).1
    omega

/-- Witness of `block_indices_in_regions` on the sample volume. -/
theorem block_indices_in_regions_witness :
    (∀ i k, i < sampleReady.o.num_fat_entries → k < sampleReady.o.num_fats →
      sampleReady.o.num_reserved_blocks ≤
        sampleReady.o.num_reserved_blocks + i / sampleReady.FatEntriesPerBlock +
          k * (sampleReady.o.num_fat_entries / sampleReady.FatEntriesPerBlock) ∧
      sampleReady.o.num_reserved_blocks + i / sampleReady.FatEntriesPerBlock +
          k * (sampleReady.o.num_fat_entries / sampleReady.FatEntriesPerBlock) <
        sampleReady.o.fat_end_blocks) ∧
    (∀ c b, is_cluster_idx_valid_for_data sampleReady c = true →
      b < sampleReady.o.blocks_per_cluster →
      sampleReady.o.fat_end_blocks ≤ get_cluster_data_block_index sampleReady c b ∧
      get_cluster_data_block_index sampleReady c b < sampleReady.o.block_range.getLength) ∧
    (∀ c b c2 b2, is_cluster_idx_valid_for_data sampleReady c = true →
      b < sampleReady.o.blocks_per_cluster →
      is_cluster_idx_valid_for_data sampleReady c2 = true →
      b2 < sampleReady.o.blocks_per_cluster →
      get_cluster_data_block_index sampleReady c b =
        get_cluster_data_block_index sampleReady c2 b2 →
      c = c2 ∧ b = b2) ∧
    (∀ i k c b, i < sampleReady.o.num_fat_entries → k < sampleReady.o.num_fats →
      is_cluster_idx_valid_for_data sampleReady c = true →
      b < sampleReady.o.blocks_per_cluster →
      sampleReady.o.num_reserved_blocks + i / sampleReady.FatEntriesPerBlock +
          k * (sampleReady.o.num_fat_entries / sampleReady.FatEntriesPerBlock) ≠
        get_cluster_data_block_index sampleReady c b) :=
  block_indices_in_regions sampleInit sampleReady (by decide) (by decide) (by decide) rfl
    (by decide)

end FatFs

namespace FatFs

/-- C36 (defect of the code): a write-unmount that fails at the second flush leaves the
clean bit set.  When the first flush and the pin of the FAT block succeed and the clean bit
is found clear, the handler sets the bit before the second flush; when that flush fails,
`WriteMountHandler` is called with `error = true` and the state is `MOUNTED` again, but the
cached FAT entry #1 has its clean bit set and differs from its value at the call.  At the
three earlier failure points the entry is unchanged. -/
theorem unmount_second_flush_failure_keeps_clean_bit (w : World) (fuel : Nat)
    (rest : List Bool) (hq : quiescent w) (hs : w.o.state = FsState.READY)
    (hm : w.o.write_mount_state = WriteMountState.MOUNTED)
    (hn : w.o.num_write_references = 0) (hfuel : 4 ≤ fuel) :
    ((fatEntry1 w).testBit 27 = false →
      ∃ w2, (step w .startWriteUnmount).bind (run fuel (false :: false :: true :: rest))
          = some w2 ∧
        w2.calls = .WriteMountHandler true :: w.calls ∧
        w2.o.write_mount_state = WriteMountState.MOUNTED ∧ quiescent w2 ∧
        (fatEntry1 w2).testBit 27 = true ∧ fatEntry1 w2 ≠ fatEntry1 w) ∧
    (∀ e1 e2 e3 : Bool, ¬ (e1 = false ∧ e2 = false ∧ (fatEntry1 w).testBit 27 = false) →
      ∃ w2, (step w .startWriteUnmount).bind (run fuel (e1 :: e2 :: e3 :: rest)) = some w2 ∧
        w2.calls = .WriteMountHandler true :: w.calls ∧
        w2.o.write_mount_state = WriteMountState.MOUNTED ∧ fatEntry1 w2 = fatEntry1 w) := by
  obtain ⟨n, rfl⟩ : ∃ n, fuel = n + 4 := ⟨fuel - 4, by omega⟩
  rw [quiescent_iff] at hq
  have hstep : step w .startWriteUnmount = some (startWriteUnmount w) := by
    simp [step, hs, hm, hn]
  constructor
  · intro hbit
    obtain ⟨w2, hrun, q1, q2, _, hfail, hbits, _⟩ :=
      write_unmount_run w n false false true rest hq.1 hq.2 hs
    have hno : ¬ UnmountConditions w false false true := fun h => by
      have := h.2.2.2
      simp at this
    obtain ⟨f1, f2⟩ := hfail hno
    have hb : (fatEntry1 w2).testBit 27 = true := by
      simpa using hbits ⟨rfl, rfl, hbit⟩ 27
    refine ⟨w2, by rw [hstep]; exact hrun, f1, f2, (quiescent_iff w2).2 ⟨q1, q2⟩, hb, ?_⟩
    intro heq
    rw [heq, hbit] at hb
    exact Bool.noConfusion hb
  · intro e1 e2 e3 hc
    obtain ⟨w2, hrun, _, _, _, hfail, _, hsame⟩ :=
      write_unmount_run w n e1 e2 e3 rest hq.1 hq.2 hs
    have hno : ¬ UnmountConditions w e1 e2 e3 := fun h => hc ⟨h.1, h.2.1, h.2.2.1⟩
    obtain ⟨f1, f2⟩ := hfail hno
    exact ⟨w2, by rw [hstep]; exact hrun, f1, f2, hsame hc⟩

/-- Witness of `unmount_second_flush_failure_keeps_clean_bit` on the mounted sample volume,
whose clean bit is clear. -/
theorem unmount_second_flush_failure_keeps_clean_bit_witness :
    (fatEntry1 sampleMounted).testBit 27 = false ∧
    (((fatEntry1 sampleMounted).testBit 27 = false →
      ∃ w2, (step sampleMounted .startWriteUnmount).bind (run 4 (false :: false :: true :: []))
          = some w2 ∧
        w2.calls = .WriteMountHandler true :: sampleMounted.calls ∧
        w2.o.write_mount_state = WriteMountState.MOUNTED ∧ quiescent w2 ∧
        (fatEntry1 w2).testBit 27 = true ∧ fatEntry1 w2 ≠ fatEntry1 sampleMounted) ∧
    (∀ e1 e2 e3 : Bool,
      ¬ (e1 = false ∧ e2 = false ∧ (fatEntry1 sampleMounted).testBit 27 = false) →
      ∃ w2, (step sampleMounted .startWriteUnmount).bind (run 4 (e1 :: e2 :: e3 :: []))
          = some w2 ∧
        w2.calls = .WriteMountHandler true :: sampleMounted.calls ∧
        w2.o.write_mount_state = WriteMountState.MOUNTED ∧
        fatEntry1 w2 = fatEntry1 sampleMounted)) :=
  ⟨by decide, unmount_second_flush_failure_keeps_clean_bit sampleMounted 4 [] (by decide)
    (by decide) (by decide) (by decide) (by decide)⟩

/-- After the failed second flush on the sample volume the state is `MOUNTED` with the clean
bit set, and every later write-unmount fails at the clean-bit check. -/
theorem unmount_after_failed_second_flush :
    sampleUnmountFailed.o.write_mount_state = WriteMountState.MOUNTED ∧
    sampleUnmountFailed.calls.head? = some (.WriteMountHandler true) ∧
    (fatEntry1 sampleMounted).testBit 27 = false ∧
    (fatEntry1 sampleUnmountFailed).testBit 27 = true ∧
    ∀ e1 e2 e3 : Bool,
      ∃ w3, (step sampleUnmountFailed .startWriteUnmount).bind (run 4 [e1, e2, e3]) = some w3 ∧
        w3.calls.head? = some (.WriteMountHandler true) ∧
        w3.o.write_mount_state = WriteMountState.MOUNTED := by
  refine ⟨by decide, by decide, by decide, by decide, ?_⟩
  intro e1 e2 e3
  cases e1 <;> cases e2 <;> cases e3 <;> exact ⟨_, rfl, by decide, by decide⟩

end FatFs

namespace FatFs



end FatFs

namespace FatFs

theorem cstr_eq_self (l : List Nat) (h : ∀ b ∈ l, b ≠ 0) : cstr l = l := by
  unfold cstr
  rw [List.takeWhile_eq_self_iff]
  intro b hb
  simpa using h b hb

theorem bytesOf_append (buffer : Buffer) (off m n : Nat) :
    bytesOf buffer off (m + n) = bytesOf buffer off m ++ bytesOf buffer (off + m) n := by
  unfold bytesOf
  rw [List.range_add, List.map_append, List.map_map]
  congr 1
  apply List.map_congr_left
  intro k _
  simp only [Function.comp, Nat.add_assoc]

theorem lowerAZ_ne_zero (b : Nat) (h : b ≠ 0) : lowerAZ b ≠ 0 := by
  unfold lowerAZ
  split_ifs <;> omega

theorem rewriteFirst05_ne_zero (name : List Nat) (hn : ∀ b ∈ name, b ≠ 0) :
    ∀ b ∈ rewriteFirst05 name, b ≠ 0 := by
  cases name with
  | nil => intro b hb; cases hb
  | cons a rest =>
    intro b hb
    simp only [rewriteFirst05, List.mem_cons] at hb
    rcases hb with hb | hb
    · rw [hb]
      split_ifs
      · decide
      · exact hn a (List.mem_cons_self _ _)
    · exact hn b (List.mem_cons_of_mem _ hb)

theorem canonical83_ne_zero (name ext : List Nat) (byte12 : Nat) (hn : ∀ b ∈ name, b ≠ 0)
    (he : ∀ b ∈ ext, b ≠ 0) : ∀ b ∈ canonical83 name ext byte12, b ≠ 0 := by
  have h1 : ∀ b ∈ (rewriteFirst05 name).rdropWhile (fun b => b == 0x20), b ≠ 0 :=
    fun b hb => rewriteFirst05_ne_zero name hn b ((List.rdropWhile_prefix _ _).subset hb)
  have h2 : ∀ b ∈ ext.rdropWhile (fun b => b == 0x20), b ≠ 0 :=
    fun b hb => he b ((List.rdropWhile_prefix _ _).subset hb)
  have hm : ∀ l : List Nat, (∀ b ∈ l, b ≠ 0) → ∀ b ∈ l.map lowerAZ, b ≠ 0 := by
    intro l hl b hb
    obtain ⟨a, ha, rfl⟩ := List.mem_map.1 hb
    exact lowerAZ_ne_zero a (hl a ha)
  have h3 : ∀ b ∈ (if byte12 &&& 0x08 ≠ 0 then
      ((rewriteFirst05 name).rdropWhile (fun b => b == 0x20)).map lowerAZ
      else (rewriteFirst05 name).rdropWhile (fun b => b == 0x20)), b ≠ 0 := by
    split_ifs
    · exact hm _ h1
    · exact h1
  have h4 : ∀ b ∈ (if byte12 &&& 0x10 ≠ 0 then
      (ext.rdropWhile (fun b => b == 0x20)).map lowerAZ
      else ext.rdropWhile (fun b => b == 0x20)), b ≠ 0 := by
    split_ifs
    · exact hm _ h2
    · exact h2
  unfold canonical83
  dsimp only
  generalize (if byte12 &&& 0x08 ≠ 0 then
      ((rewriteFirst05 name).rdropWhile (fun b => b == 0x20)).map lowerAZ
      else (rewriteFirst05 name).rdropWhile (fun b => b == 0x20)) = N at h3 ⊢
  generalize (if byte12 &&& 0x10 ≠ 0 then
      (ext.rdropWhile (fun b => b == 0x20)).map lowerAZ
      else ext.rdropWhile (fun b => b == 0x20)) = E at h4 ⊢
  intro b hb
  split_ifs at hb
  · simp only [List.append_assoc, List.mem_append, List.mem_cons, List.mem_singleton,
      List.not_mem_nil, or_false] at hb
    rcases hb with hb | hb | hb
    · exact h3 b hb
    · rw [hb]; decide
    · exact h4 b hb
  · exact h3 b hb

theorem Utf8EncodeChar_ne_zero (ch : Nat) (h : ch ≠ 0) : ∀ b ∈ Utf8EncodeChar ch, b ≠ 0 := by
  have hor : ∀ a x : Nat, a ≠ 0 → a ||| x ≠ 0 := by
    intro a x ha e
    apply ha
    apply Nat.eq_of_testBit_eq
    intro i
    have h := congrArg (fun n => n.testBit i) e
    simp only [Nat.testBit_or, Nat.zero_testBit, Bool.or_eq_false_iff] at h
    rw [h.1, Nat.zero_testBit]
  unfold Utf8EncodeChar
  intro b hb
  split_ifs at hb
  · simp only [List.mem_singleton] at hb
    rw [hb]; exact h
  · simp only [List.mem_cons, List.mem_singleton, List.not_mem_nil, or_false] at hb
    rcases hb with hb | hb <;> rw [hb] <;> exact hor _ _ (by decide)
  · simp only [List.mem_cons, List.mem_singleton, List.not_mem_nil, or_false] at hb
    rcases hb with hb | hb | hb <;> rw [hb] <;> exact hor _ _ (by decide)

theorem fragmentName_ne_zero (units : List Nat) : ∀ b ∈ fragmentName units, b ≠ 0 := by
  unfold fragmentName
  intro b hb
  rw [List.mem_flatMap] at hb
  obtain ⟨u, hu, hb⟩ := hb
  have := List.mem_takeWhile_imp hu
  exact Utf8EncodeChar_ne_zero u (by simpa using this) b hb

theorem lfnName_ne_zero (w : World) : ∀ (n : Nat) (r : Seek), ∀ b ∈ lfnName w n r, b ≠ 0 := by
  intro n
  induction n with
  | zero => intro r b hb; cases hb
  | succ n ih =>
    intro r b hb
    simp only [lfnName, List.mem_append] at hb
    rcases hb with hb | hb
    · exact ih _ b hb
    · exact fragmentName_ne_zero _ b hb

/-- The canonical 8.3 name of a slot none of whose 11 name bytes is 0 holds no NUL byte: as
a C string it is itself. -/
theorem cstr_canonical83 (buffer : Buffer) (entry_ptr byte12 : Nat)
    (hz : ∀ b ∈ bytesOf buffer entry_ptr 11, b ≠ 0) :
    cstr (canonical83 (bytesOf buffer entry_ptr 8) (bytesOf buffer (entry_ptr + 8) 3) byte12) =
      canonical83 (bytesOf buffer entry_ptr 8) (bytesOf buffer (entry_ptr + 8) 3) byte12 := by
  have h11 := bytesOf_append buffer entry_ptr 8 3
  exact cstr_eq_self _ (canonical83_ne_zero _ _ _
    (fun b hb => hz b (by
      show b ∈ bytesOf buffer entry_ptr (8 + 3)
      rw [h11]
      exact List.mem_append_left _ hb))
    (fun b hb => hz b (by
      show b ∈ bytesOf buffer entry_ptr (8 + 3)
      rw [h11]
      exact List.mem_append_right _ hb)))

theorem slotShort_not_vfat (buffer : Buffer) (entry_ptr : Nat) (h : slotShort buffer entry_ptr) :
    ¬ slotVfat buffer entry_ptr := by
  intro hv
  have h1 := h.2.2.1
  rw [hv.2.1] at h1
  exact absurd h1 (by decide)

/-- `event_handler` on the end marker: the request completes without a name. -/
theorem event_handler_entry_end (d : DirWorld) (h : slotEnd d.buffer d.entry_ptr) :
    DirectoryIterator.event_handler_entry d =
      DirectoryIterator.complete_request d false none {} := by
  unfold slotEnd DirWorld.buffer DirWorld.entry_ptr at h
  unfold DirectoryIterator.event_handler_entry
  simp only [h, if_true]

/-- `event_handler` on a free, volume-label or device slot: the slot is passed over and the
VFAT run is forgotten. -/
theorem event_handler_entry_ignored (d : DirWorld) (h0 : ¬ slotEnd d.buffer d.entry_ptr)
    (hv : ¬ slotVfat d.buffer d.entry_ptr) (h : slotIgnored d.buffer d.entry_ptr) :
    DirectoryIterator.event_handler_entry d =
      DirectoryIterator.schedule_event
        { d with it := { d.it with m_block_entry_pos := d.it.m_block_entry_pos + 1,
                                   m_vfat_seq := -1 } } := by
  unfold slotEnd DirWorld.buffer DirWorld.entry_ptr at h0
  unfold slotVfat DirWorld.buffer DirWorld.entry_ptr at hv
  unfold slotIgnored DirWorld.buffer DirWorld.entry_ptr at h
  unfold DirectoryIterator.event_handler_entry
  simp only [DirWorld.setIt]
  rw [if_neg h0, if_neg hv]
  by_cases h1 : ReadBinaryInt8 (d.w.getData d.it.m_dir_block_ref)
      (d.it.m_block_entry_pos * 32 + 0x0) = 0xE5
  · rw [if_pos h1]
  · rw [if_neg h1, if_pos (h.resolve_left h1)]

/-- `event_handler` on a VFAT slot: the slot is passed over after the block `// VFAT entry`
has run. -/
theorem event_handler_entry_vfat (d : DirWorld) (h0 : ¬ slotEnd d.buffer d.entry_ptr)
    (hv : slotVfat d.buffer d.entry_ptr) :
    DirectoryIterator.event_handler_entry d =
      DirectoryIterator.schedule_event
        (DirectoryIterator.event_handler_vfat
          { d with it := { d.it with m_block_entry_pos := d.it.m_block_entry_pos + 1 } }
          d.buffer d.entry_ptr) := by
  unfold slotEnd DirWorld.buffer DirWorld.entry_ptr at h0
  unfold slotVfat DirWorld.buffer DirWorld.entry_ptr at hv
  unfold DirectoryIterator.event_handler_entry
  simp only [DirWorld.setIt]
  rw [if_neg h0, if_pos hv]
  rfl

/-- `event_handler` on a short slot that gets the collected long name. -/
theorem event_handler_entry_long (d : DirWorld) (h : slotShort d.buffer d.entry_ptr)
    (hdot : ReadBinaryInt8 d.buffer (d.entry_ptr + 0x0) ≠ 0x2E) (hseq : d.it.m_vfat_seq = 0)
    (hsum : vfat_checksum d.buffer d.entry_ptr = d.it.m_vfat_csum) :
    DirectoryIterator.event_handler_entry d =
      DirectoryIterator.complete_request
        { d with it := { d.it with
            m_block_entry_pos := d.it.m_block_entry_pos + 1,
            m_vfat_seq := -1,
            m_filename := memcpy d.it.m_filename d.MaxFileNameSize [0] } }
        false
        (some (cstr (bytesOf d.it.m_filename d.it.m_filename_pos
          (d.MaxFileNameSize - d.it.m_filename_pos))))
        d.slot_entry := by
  have hv := slotShort_not_vfat _ _ h
  unfold slotVfat DirWorld.buffer DirWorld.entry_ptr at hv
  unfold slotShort DirWorld.buffer DirWorld.entry_ptr at h
  unfold DirWorld.buffer DirWorld.entry_ptr at hdot hsum
  obtain ⟨h0, hfree, ha1, ha2⟩ := h
  unfold DirectoryIterator.event_handler_entry
  simp only [DirWorld.setIt]
  rw [if_neg h0, if_neg hv, if_neg hfree, if_neg (by rw [ha1, ha2]; simp)]
  rw [if_pos ⟨by simpa using hdot, hseq, hsum⟩]
  simp only [DirWorld.slot_entry, DirWorld.buffer, DirWorld.entry_ptr, hdot, decide_False,
    Bool.false_eq_true, false_and, if_false, Nat.add_sub_cancel, decide_eq_true_eq]

/-- `event_handler` on a short slot that gets its 8.3 name. -/
theorem event_handler_entry_83 (d : DirWorld) (h : slotShort d.buffer d.entry_ptr)
    (hc : ReadBinaryInt8 d.buffer (d.entry_ptr + 0x0) = 0x2E ∨ d.it.m_vfat_seq ≠ 0 ∨
      vfat_checksum d.buffer d.entry_ptr ≠ d.it.m_vfat_csum) :
    DirectoryIterator.event_handler_entry d =
      DirectoryIterator.complete_request
        { d with it := { d.it with
            m_block_entry_pos := d.it.m_block_entry_pos + 1,
            m_vfat_seq := -1,
            m_filename := memcpy d.it.m_filename 0
              (DirectoryIterator.name_83 d.buffer d.entry_ptr ++ [0]) } }
        false
        (some (cstr (DirectoryIterator.name_83 d.buffer d.entry_ptr)))
        d.slot_entry := by
  have hv := slotShort_not_vfat _ _ h
  unfold slotVfat DirWorld.buffer DirWorld.entry_ptr at hv
  unfold slotShort DirWorld.buffer DirWorld.entry_ptr at h
  unfold DirWorld.buffer DirWorld.entry_ptr at hc
  obtain ⟨h0, hfree, ha1, ha2⟩ := h
  unfold DirectoryIterator.event_handler_entry
  simp only [DirWorld.setIt]
  rw [if_neg h0, if_neg hv, if_neg hfree, if_neg (by rw [ha1, ha2]; simp)]
  rw [if_neg (by
    rintro ⟨a, b, c⟩
    rcases hc with hc | hc | hc
    · simp only [decide_eq_false_iff_not] at a
      exact a hc
    · exact hc b
    · exact hc c)]
  simp only [DirWorld.slot_entry, DirWorld.buffer, DirWorld.entry_ptr, Nat.add_sub_cancel,
    decide_eq_true_eq]

end FatFs

namespace FatFs

theorem bytesOf_succ (buffer : Buffer) (off n : Nat) :
    bytesOf buffer off (n + 1) = bytesOf buffer off n ++ [buffer (off + n) % 256] := by
  simp [bytesOf, List.range_succ]

theorem bytesOf_length (buffer : Buffer) (off n : Nat) : (bytesOf buffer off n).length = n := by
  simp [bytesOf]

theorem bytesOf_lt (buffer : Buffer) (off n : Nat) : ∀ b ∈ bytesOf buffer off n, b < 256 := by
  intro b hb
  simp only [bytesOf, List.mem_map, List.mem_range] at hb
  obtain ⟨k, _, rfl⟩ := hb
  exact Nat.mod_lt _ (by norm_num)

theorem bytesOf_congr (f g : Buffer) (off n : Nat) (h : ∀ k, k < n → f (off + k) = g (off + k)) :
    bytesOf f off n = bytesOf g off n := by
  unfold bytesOf
  apply List.map_congr_left
  intro k hk
  rw [h k (List.mem_range.1 hk)]

theorem vfat_checksum_loop_succ (buffer : Buffer) (entry_ptr n : Nat) :
    vfat_checksum_loop buffer entry_ptr (n + 1) =
      ((((vfat_checksum_loop buffer entry_ptr n &&& 1) <<< 7) % 256 +
        (vfat_checksum_loop buffer entry_ptr n >>> 1)) % 256 +
        buffer (entry_ptr + n) % 256) % 256 := rfl

/-- The checksum loop of the source computes the fold of the specification. -/
theorem vfat_checksum_loop_eq (buffer : Buffer) (entry_ptr : Nat) (n : Nat) :
    vfat_checksum_loop buffer entry_ptr n = checksumFold (bytesOf buffer entry_ptr n) ∧
    vfat_checksum_loop buffer entry_ptr n < 256 := by
  induction n with
  | zero => exact ⟨rfl, Nat.zero_lt_succ _⟩
  | succ n ih =>
    obtain ⟨ih1, ih2⟩ := ih
    have hlt : vfat_checksum_loop buffer entry_ptr (n + 1) < 256 := by
      rw [vfat_checksum_loop_succ]
      exact Nat.mod_lt _ (by norm_num)
    refine ⟨?_, hlt⟩
    rw [bytesOf_succ, checksumFold, List.foldl_append]
    simp only [List.foldl_cons, List.foldl_nil]
    rw [← checksumFold, ← ih1, vfat_checksum_loop_succ]
    generalize vfat_checksum_loop buffer entry_ptr n = c at ih2 ⊢
    have h1 : (c &&& 1) <<< 7 ≤ 128 := by
      have : c &&& 1 ≤ 1 := Nat.and_le_right
      interval_cases (c &&& 1) <;> simp
    have h2 : c >>> 1 ≤ 127 := by
      rw [Nat.shiftRight_eq_div_pow]
      omega
    rw [Nat.mod_eq_of_lt (by omega : (c &&& 1) <<< 7 < 256)]
    omega

theorem vfat_checksum_eq (buffer : Buffer) (entry_ptr : Nat) :
    vfat_checksum buffer entry_ptr = checksumFold (bytesOf buffer entry_ptr 11) :=
  (vfat_checksum_loop_eq buffer entry_ptr 11).1

theorem bytesOf_getElem (buffer : Buffer) (off n i : Nat) (h : i < (bytesOf buffer off n).length) :
    (bytesOf buffer off n)[i] = buffer (off + i) % 256 := by
  simp [bytesOf]

theorem bytesOf_eq_of_getD (f : Buffer) (l : List Nat) (off : Nat) (hl : ∀ b ∈ l, b < 256)
    (h : ∀ i, i < l.length → f (off + i) = l.getD i 0) : bytesOf f off l.length = l := by
  apply List.ext_getElem (bytesOf_length _ _ _)
  intro i h1 h2
  rw [bytesOf_getElem, h i h2, List.getD_eq_getElem _ _ h2]
  exact Nat.mod_eq_of_lt (hl _ (List.getElem_mem _))

theorem memcpy_inside (dst : Buffer) (off : Nat) (src : List Nat) (i : Nat) (h : i < src.length) :
    memcpy dst off src (off + i) = src.getD i 0 := by
  unfold memcpy
  rw [if_pos ⟨Nat.le_add_right _ _, by omega⟩, Nat.add_sub_cancel_left]

theorem memcpy_outside (dst : Buffer) (off : Nat) (src : List Nat) (k : Nat)
    (h : k < off ∨ off + src.length ≤ k) : memcpy dst off src k = dst k := by
  unfold memcpy
  rw [if_neg (by omega)]

theorem fixup_83_name_length_le (data : Buffer) (n : Nat) : fixup_83_name_length data n ≤ n := by
  induction n with
  | zero => exact Nat.le_refl _
  | succ n ih =>
    unfold fixup_83_name_length
    split_ifs
    · omega
    · exact Nat.le_refl _

/-- The trimming loop of `fixup_83_name` removes the trailing spaces. -/
theorem bytesOf_fixup_83_name_length (data : Buffer) (hlt : ∀ k, data k < 256) (n : Nat) :
    bytesOf data 0 (fixup_83_name_length data n) =
      (bytesOf data 0 n).rdropWhile (fun b => b == 0x20) := by
  induction n with
  | zero => rfl
  | succ n ih =>
    rw [bytesOf_succ, List.rdropWhile_concat, Nat.zero_add, Nat.mod_eq_of_lt (hlt n)]
    unfold fixup_83_name_length
    by_cases h : data n = 0x20
    · rw [if_pos h, if_pos (by simp [h]), ih]
    · rw [if_neg h, if_neg (by simpa using h), bytesOf_succ, Nat.zero_add,
        Nat.mod_eq_of_lt (hlt n)]

theorem lowerAZ_lt (b : Nat) (h : b < 256) : lowerAZ b < 256 := by
  unfold lowerAZ
  split_ifs <;> omega

/-- `fixup_83_name` in terms of lists: trailing spaces removed, then lower case if asked
for. -/
theorem bytesOf_fixup_83_name (data : Buffer) (hlt : ∀ k, data k < 256) (n : Nat) (lc : Bool) :
    bytesOf (fixup_83_name data n lc).1 0 (fixup_83_name data n lc).2 =
      if lc then ((bytesOf data 0 n).rdropWhile (fun b => b == 0x20)).map lowerAZ
      else (bytesOf data 0 n).rdropWhile (fun b => b == 0x20) := by
  rw [← bytesOf_fixup_83_name_length data hlt n]
  unfold fixup_83_name
  simp only []
  cases lc
  · simp
  · simp only [if_true]
    apply List.ext_getElem (by simp [bytesOf_length])
    intro i h1 h2
    rw [bytesOf_length] at h1
    rw [bytesOf_getElem, List.getElem_map, bytesOf_getElem, Nat.zero_add,
      Nat.mod_eq_of_lt (hlt i)]
    unfold lowerAZ
    by_cases hc : 65 ≤ data i ∧ data i ≤ 90
    · rw [if_pos ⟨h1, hc.1, hc.2⟩, if_pos hc]
      have := hlt i
      omega
    · rw [if_neg (fun h => hc ⟨h.2.1, h.2.2⟩), if_neg hc, Nat.mod_eq_of_lt (hlt i)]

theorem memcpy_zero_lt (l : List Nat) (hl : ∀ b ∈ l, b < 256) (k : Nat) :
    memcpy (fun _ => 0) 0 l k < 256 := by
  unfold memcpy
  split_ifs with h
  · rw [List.getD_eq_getElem _ _ (by omega)]
    exact hl _ (List.getElem_mem _)
  · norm_num

theorem bytesOf_memcpy_zero (l : List Nat) (hl : ∀ b ∈ l, b < 256) :
    bytesOf (memcpy (fun _ => 0) 0 l) 0 l.length = l :=
  bytesOf_eq_of_getD _ l 0 hl (fun i hi => memcpy_inside _ 0 l i hi)

/-- `fixup_83_name` on a copy of the bytes `l`. -/
theorem fixup_83_name_list (M : Buffer) (l : List Nat) (n : Nat) (hM : ∀ k, M k < 256)
    (hl : bytesOf M 0 n = l) (lc : Bool) :
    bytesOf (fixup_83_name M n lc).1 0 (fixup_83_name M n lc).2 =
      (if lc then (l.rdropWhile (fun b => b == 0x20)).map lowerAZ
        else l.rdropWhile (fun b => b == 0x20)) ∧
    (fixup_83_name M n lc).2 = (l.rdropWhile (fun b => b == 0x20)).length := by
  have h1 := bytesOf_fixup_83_name M hM n lc
  rw [hl] at h1
  refine ⟨h1, ?_⟩
  have h2 := congrArg List.length h1
  rw [bytesOf_length] at h2
  rw [h2]
  cases lc
  · rfl
  · simp only [if_true, List.length_map]

/-- The copy `name_temp` of the 8 name bytes, after byte 0 has been rewritten from `0x05`
to `0xE5`. -/
theorem name_temp_list (N : List Nat) (hn : ∀ b ∈ N, b < 256) (hnl : N.length = 8) :
    bytesOf (if memcpy (fun _ => 0) 0 N 0 = 0x5 then
        memcpy (memcpy (fun _ => 0) 0 N) 0 [0xE5] else memcpy (fun _ => 0) 0 N) 0 8 =
      rewriteFirst05 N ∧
      ∀ k, (if memcpy (fun _ => 0) 0 N 0 = 0x5 then
        memcpy (memcpy (fun _ => 0) 0 N) 0 [0xE5] else memcpy (fun _ => 0) 0 N) k < 256 := by
  rcases N with _ | ⟨b, rest⟩
  · exact absurd hnl (by simp)
  have h0 : memcpy (fun _ => 0) 0 (b :: rest) 0 = b := by simp [memcpy]
  rw [h0]
  have hrw : rewriteFirst05 (b :: rest) = (if b = 0x05 then 0xE5 else b) :: rest := rfl
  rw [hrw]
  by_cases hb : b = 5
  · subst hb
    rw [if_pos rfl, if_pos rfl]
    constructor
    · have h2 : ∀ b ∈ (0xE5 :: rest), b < 256 := by
        intro x hx
        rcases List.mem_cons.1 hx with rfl | hx
        · norm_num
        · exact hn x (List.mem_cons_of_mem _ hx)
      have h3 := bytesOf_eq_of_getD (memcpy (memcpy (fun _ => 0) 0 (5 :: rest)) 0 [0xE5])
        (0xE5 :: rest) 0 h2 (by
          intro i hi
          rcases i with _ | i
          · simp [memcpy]
          · rw [memcpy_outside _ _ _ _ (by simp), memcpy_inside _ 0 _ _ (by simpa using hi)]
            simp)
      simp only [List.length_cons] at h3 hnl
      rw [hnl] at h3
      exact h3
    · intro k
      unfold memcpy
      split_ifs with h4 h5
      · simp only [List.length_singleton] at h4
        have : k = 0 := by omega
        subst this
        norm_num
      · rw [List.getD_eq_getElem _ _ (by omega)]
        exact hn _ (List.getElem_mem _)
      · norm_num
  · rw [if_neg hb, if_neg hb]
    constructor
    · have := bytesOf_memcpy_zero (b :: rest) hn
      rw [hnl] at this
      exact this
    · exact memcpy_zero_lt _ hn

/-- The 8.3 name that the source builds is the canonical 8.3 name of the specification. -/
theorem name_83_eq (buffer : Buffer) (entry_ptr : Nat) :
    DirectoryIterator.name_83 buffer entry_ptr =
      canonical83 (bytesOf buffer entry_ptr 8) (bytesOf buffer (entry_ptr + 8) 3)
        (ReadBinaryInt8 buffer (entry_ptr + 0xC)) := by
  have hn := bytesOf_lt buffer (entry_ptr + 0) 8
  have he := bytesOf_lt buffer (entry_ptr + 8) 3
  have hnl := bytesOf_length buffer (entry_ptr + 0) 8
  have hel := bytesOf_length buffer (entry_ptr + 8) 3
  unfold DirectoryIterator.name_83 canonical83
  simp only [Nat.add_zero] at hn hnl ⊢
  generalize bytesOf buffer entry_ptr 8 = N at hn hnl ⊢
  generalize bytesOf buffer (entry_ptr + 8) 3 = E at he hel ⊢
  generalize ReadBinaryInt8 buffer (entry_ptr + 0xC) = t
  obtain ⟨hM1, hM2⟩ := name_temp_list N hn hnl
  have hE0 : bytesOf (memcpy (fun _ => 0) 0 E) 0 3 = E := by
    have := bytesOf_memcpy_zero E he
    rw [hel] at this
    exact this
  obtain ⟨e1, e2⟩ := fixup_83_name_list _ E 3 (memcpy_zero_lt E he) hE0 (decide (t &&& 0x10 ≠ 0))
  obtain ⟨n1, -⟩ := fixup_83_name_list _ _ 8 hM2 hM1 (decide (t &&& 0x8 ≠ 0))
  rw [n1, e1, e2]
  simp only [decide_eq_true_eq, gt_iff_lt, List.length_pos]
  by_cases h10 : t &&& 16 ≠ 0
  · simp [h10]
  · simp [h10]

theorem rdropWhile_length_le (p : Nat → Bool) (l : List Nat) :
    (l.rdropWhile p).length ≤ l.length := by
  unfold List.rdropWhile
  rw [List.length_reverse]
  exact (List.Sublist.length_le (List.dropWhile_sublist p)).trans (by simp)

theorem rewriteFirst05_length (name : List Nat) : (rewriteFirst05 name).length = name.length := by
  cases name <;> rfl

/-- The canonical 8.3 name of 8 name bytes and 3 extension bytes has at most 12 bytes. -/
theorem canonical83_length_le (name ext : List Nat) (byte12 : Nat) (hn : name.length = 8)
    (he : ext.length = 3) : (canonical83 name ext byte12).length ≤ 12 := by
  unfold canonical83
  simp only []
  have a0 := rewriteFirst05_length name
  have a1 := rdropWhile_length_le (fun b => b == 0x20) (rewriteFirst05 name)
  have a2 := rdropWhile_length_le (fun b => b == 0x20) ext
  split_ifs <;>
    first
    | (simp only [List.length_append, List.length_singleton, List.length_map]; omega)
    | omega

end FatFs

namespace FatFs

/-- `complete_request` of an iterator that a `DirLister` owns calls the handler of the
client. -/
theorem complete_request_lister (d : DirWorld) (hop : d.opener = none) (error : Bool)
    (name : Option (List Nat)) (entry : FsEntry) :
    DirectoryIterator.complete_request d error name entry =
      { d with it := { d.it with m_state := DirIterState.WAIT_REQUEST },
               calls := .DirListerHandler error name entry :: d.calls } := by
  unfold DirectoryIterator.complete_request
  simp only [DirWorld.setIt, hop, DirWorld.call]

/-- C19: the fields of an emitted short entry.  For every short slot that is handed out,
the `FsEntry` has type `DIR` exactly when bit 4 of the attributes is set and `FILE`
otherwise, its size is the 32-bit field at offset `0x1C`, and its cluster index is the
28-bit value made of the 16-bit fields at `0x14` (high) and `0x1A` (low), except that for
an entry whose first byte is `.` and whose first cluster is 0 it is `root_cluster`. -/
theorem short_entry_fields (d : DirWorld) (hop : d.opener = none)
    (h : slotShort d.buffer d.entry_ptr) :
    ∃ name entry,
      (DirectoryIterator.event_handler_entry d).calls =
        .DirListerHandler false (some name) entry :: d.calls ∧
      (entry.type = EntryType.DIR ↔ ReadBinaryInt8 d.buffer (d.entry_ptr + 0xB) &&& 0x10 ≠ 0) ∧
      (entry.type = EntryType.FILE ↔ ReadBinaryInt8 d.buffer (d.entry_ptr + 0xB) &&& 0x10 = 0) ∧
      entry.file_size = ReadBinaryInt32 d.buffer (d.entry_ptr + 0x1C) ∧
      entry.cluster_index =
        if ReadBinaryInt8 d.buffer (d.entry_ptr + 0x0) = 0x2E ∧
            ((ReadBinaryInt16 d.buffer (d.entry_ptr + 0x14) <<< 16 |||
              ReadBinaryInt16 d.buffer (d.entry_ptr + 0x1A)) &&& 0x0FFFFFFF) = 0 then
          d.w.o.root_cluster
        else
          (ReadBinaryInt16 d.buffer (d.entry_ptr + 0x14) <<< 16 |||
            ReadBinaryInt16 d.buffer (d.entry_ptr + 0x1A)) &&& 0x0FFFFFFF := by
  have hcalls : ∃ name, (DirectoryIterator.event_handler_entry d).calls =
      .DirListerHandler false (some name) d.slot_entry :: d.calls := by
    by_cases hc : ReadBinaryInt8 d.buffer (d.entry_ptr + 0x0) = 0x2E ∨ d.it.m_vfat_seq ≠ 0 ∨
        vfat_checksum d.buffer d.entry_ptr ≠ d.it.m_vfat_csum
    · refine ⟨cstr (DirectoryIterator.name_83 d.buffer d.entry_ptr), ?_⟩
      rw [event_handler_entry_83 d h hc, complete_request_lister]
      exact hop
    · have h1 : ReadBinaryInt8 d.buffer (d.entry_ptr + 0x0) ≠ 0x2E := fun e => hc (Or.inl e)
      have h2 : d.it.m_vfat_seq = 0 := by
        by_contra e
        exact hc (Or.inr (Or.inl e))
      have h3 : vfat_checksum d.buffer d.entry_ptr = d.it.m_vfat_csum := by
        by_contra e
        exact hc (Or.inr (Or.inr e))
      refine ⟨cstr (bytesOf d.it.m_filename d.it.m_filename_pos
        (d.MaxFileNameSize - d.it.m_filename_pos)), ?_⟩
      rw [event_handler_entry_long d h h1 h2 h3, complete_request_lister]
      exact hop
  obtain ⟨name, hn⟩ := hcalls
  have hV : mask_cluster_entry (read_dir_entry_first_cluster d.buffer d.entry_ptr) =
      (ReadBinaryInt16 d.buffer (d.entry_ptr + 0x14) <<< 16 |||
        ReadBinaryInt16 d.buffer (d.entry_ptr + 0x1A)) &&& 0x0FFFFFFF := by
    unfold mask_cluster_entry read_dir_entry_first_cluster
    rw [Nat.shiftLeft_zero, Nat.lor_comm]
  refine ⟨name, d.slot_entry, hn, ?_, ?_, rfl, ?_⟩
  · unfold DirWorld.slot_entry
    simp only []
    split_ifs with h1
    · exact ⟨fun _ => h1, fun _ => rfl⟩
    · exact ⟨fun e => by simp at e, fun e => absurd e h1⟩
  · unfold DirWorld.slot_entry
    simp only []
    split_ifs with h1
    · exact ⟨fun e => by simp at e, fun e => absurd e h1⟩
    · exact ⟨fun _ => not_not.1 h1, fun _ => rfl⟩
  · unfold DirWorld.slot_entry
    simp only []
    rw [hV]

/-- Witness of `short_entry_fields`: the slot of the entry `.` of the sample directory,
a directory whose first cluster 0 is replaced by the root cluster 2. -/
theorem short_entry_fields_witness :
    (ReadBinaryInt8 dirSampleAtDot.buffer (dirSampleAtDot.entry_ptr + 0x0) = 0x2E ∧
      dirSampleAtDot.w.o.root_cluster = 2) ∧
    ∃ name entry,
      (DirectoryIterator.event_handler_entry dirSampleAtDot).calls =
        .DirListerHandler false (some name) entry :: dirSampleAtDot.calls ∧
      (entry.type = EntryType.DIR ↔
        ReadBinaryInt8 dirSampleAtDot.buffer (dirSampleAtDot.entry_ptr + 0xB) &&& 0x10 ≠ 0) ∧
      (entry.type = EntryType.FILE ↔
        ReadBinaryInt8 dirSampleAtDot.buffer (dirSampleAtDot.entry_ptr + 0xB) &&& 0x10 = 0) ∧
      entry.file_size = ReadBinaryInt32 dirSampleAtDot.buffer (dirSampleAtDot.entry_ptr + 0x1C) ∧
      entry.cluster_index =
        if ReadBinaryInt8 dirSampleAtDot.buffer (dirSampleAtDot.entry_ptr + 0x0) = 0x2E ∧
            ((ReadBinaryInt16 dirSampleAtDot.buffer (dirSampleAtDot.entry_ptr + 0x14) <<< 16 |||
              ReadBinaryInt16 dirSampleAtDot.buffer (dirSampleAtDot.entry_ptr + 0x1A)) &&&
                0x0FFFFFFF) = 0 then
          dirSampleAtDot.w.o.root_cluster
        else
          (ReadBinaryInt16 dirSampleAtDot.buffer (dirSampleAtDot.entry_ptr + 0x14) <<< 16 |||
            ReadBinaryInt16 dirSampleAtDot.buffer (dirSampleAtDot.entry_ptr + 0x1A)) &&&
              0x0FFFFFFF :=
  ⟨by decide, short_entry_fields dirSampleAtDot (by decide) (by decide)⟩

end FatFs

namespace FatFs

theorem memcpy_nil (f : Buffer) (off : Nat) : memcpy f off [] = f := by
  funext k
  unfold memcpy
  rw [if_neg (by simp)]

theorem memcpy_append (f : Buffer) (off : Nat) (a b : List Nat) :
    memcpy (memcpy f off a) (off + a.length) b = memcpy f off (a ++ b) := by
  funext k
  unfold memcpy
  simp only [List.length_append]
  by_cases h1 : off + a.length ≤ k ∧ k < off + a.length + b.length
  · rw [if_pos h1, if_pos (by omega)]
    rw [List.getD_append_right _ _ _ _ (by omega)]
    congr 1
    omega
  · rw [if_neg h1]
    by_cases h2 : off ≤ k ∧ k < off + a.length
    · rw [if_pos h2, if_pos (by omega), List.getD_append _ _ _ _ (by omega)]
    · rw [if_neg h2, if_neg (by omega)]

theorem Utf8EncodeChar_length_pos (ch : Nat) : 0 < (Utf8EncodeChar ch).length := by
  unfold Utf8EncodeChar
  split_ifs <;> simp

theorem Utf8EncodeChar_lt (ch : Nat) (h : ch < 65536) : ∀ b ∈ Utf8EncodeChar ch, b < 256 := by
  have e8 : (256 : Nat) = 2 ^ 8 := by norm_num
  have hand : ∀ x : Nat, 0x80 ||| (x &&& 0x3F) < 256 := by
    intro x
    rw [e8]
    exact Nat.or_lt_two_pow (by norm_num) (lt_of_le_of_lt Nat.and_le_right (by norm_num))
  intro b hb
  unfold Utf8EncodeChar at hb
  split_ifs at hb with h1 h2
  · simp only [List.mem_singleton] at hb
    omega
  · simp only [List.mem_cons, List.mem_singleton, List.not_mem_nil, or_false] at hb
    rcases hb with rfl | rfl
    · rw [e8]
      refine Nat.or_lt_two_pow (by norm_num) ?_
      rw [Nat.shiftRight_eq_div_pow]
      omega
    · exact hand _
  · simp only [List.mem_cons, List.mem_singleton, List.not_mem_nil, or_false] at hb
    rcases hb with rfl | rfl | rfl
    · rw [e8]
      refine Nat.or_lt_two_pow (by norm_num) ?_
      rw [Nat.shiftRight_eq_div_pow]
      omega
    · exact hand _
    · exact hand _

/-- The code units that the loop of `event_handler` still has to look at. -/
theorem collect_loop_units (nd : Buffer) (n i : Nat) :
    (List.range (n + 1)).map (fun j => ReadBinaryInt16 nd (2 * (i + j))) =
      ReadBinaryInt16 nd (2 * i) ::
        (List.range n).map (fun j => ReadBinaryInt16 nd (2 * (i + 1 + j))) := by
  rw [List.range_succ_eq_map, List.map_cons, List.map_map]
  refine congrArg₂ _ rfl (List.map_congr_left ?_)
  intro j _
  simp only [Function.comp, Nat.succ_eq_add_one]
  congr 2
  omega

theorem fragmentName_cons_zero (rest : List Nat) : fragmentName (0 :: rest) = [] := by
  simp [fragmentName]

theorem fragmentName_cons (ch : Nat) (rest : List Nat) (h : ch ≠ 0) :
    fragmentName (ch :: rest) = Utf8EncodeChar ch ++ fragmentName rest := by
  simp [fragmentName, List.takeWhile_cons, h]

/-- The loop of `event_handler` over the code units of a VFAT slot writes only below
`m_filename_pos`, and only from `chunk_len` on. -/
theorem collect_loop_frame (nd : Buffer) (pos : Nat) (n : Nat) :
    ∀ (i : Nat) (f : Buffer) (c : Nat), c ≤ pos →
      c ≤ (collect_loop nd pos n i f c).2.1 ∧ (collect_loop nd pos n i f c).2.1 ≤ pos ∧
      ∀ k, (k < c ∨ pos ≤ k) → (collect_loop nd pos n i f c).1 k = f k := by
  induction n with
  | zero =>
    intro i f c hc
    exact ⟨Nat.le_refl _, hc, fun _ _ => rfl⟩
  | succ n ih =>
    intro i f c hc
    unfold collect_loop
    simp only []
    split_ifs with h1 h2
    · exact ⟨Nat.le_refl _, hc, fun _ _ => rfl⟩
    · exact ⟨Nat.le_refl _, hc, fun _ _ => rfl⟩
    · obtain ⟨a1, a2, a3⟩ := ih (i + 1) (memcpy f c (Utf8EncodeChar (ReadBinaryInt16 nd (2 * i))))
        (c + (Utf8EncodeChar (ReadBinaryInt16 nd (2 * i))).length) (by omega)
      refine ⟨by omega, a2, ?_⟩
      intro k hk
      rw [a3 k (by omega), memcpy_outside _ _ _ _ (by omega)]

/-- The loop of `event_handler` over the code units of a VFAT slot stores the name fragment
of the code units when it fits below `m_filename_pos`, and leaves by `cancel_vfat`
otherwise. -/
theorem collect_loop_eq (nd : Buffer) (pos : Nat) (n : Nat) :
    ∀ (i : Nat) (f : Buffer) (c : Nat), c ≤ pos →
      (c + (fragmentName ((List.range n).map (fun j => ReadBinaryInt16 nd (2 * (i + j))))).length
          ≤ pos →
        collect_loop nd pos n i f c =
          (memcpy f c (fragmentName ((List.range n).map
            (fun j => ReadBinaryInt16 nd (2 * (i + j))))),
           c + (fragmentName ((List.range n).map
            (fun j => ReadBinaryInt16 nd (2 * (i + j))))).length, false)) ∧
      (¬ c + (fragmentName ((List.range n).map
          (fun j => ReadBinaryInt16 nd (2 * (i + j))))).length ≤ pos →
        (collect_loop nd pos n i f c).2.2 = true) := by
  induction n with
  | zero =>
    intro i f c hc
    constructor
    · intro _
      simp [collect_loop, fragmentName, memcpy_nil]
    · intro h
      simp [fragmentName] at h
      omega
  | succ n ih =>
    intro i f c hc
    rw [collect_loop_units]
    unfold collect_loop
    simp only []
    by_cases h1 : ReadBinaryInt16 nd (2 * i) = 0
    · rw [if_pos h1, h1, fragmentName_cons_zero]
      constructor
      · intro _
        rw [memcpy_nil]
        rfl
      · intro h
        simp at h
        omega
    · rw [if_neg h1, fragmentName_cons _ _ h1, List.length_append]
      by_cases h2 : (Utf8EncodeChar (ReadBinaryInt16 nd (2 * i))).length > pos - c
      · rw [if_pos h2]
        constructor
        · intro h
          omega
        · intro _
          rfl
      · rw [if_neg h2]
        obtain ⟨b1, b2⟩ := ih (i + 1)
          (memcpy f c (Utf8EncodeChar (ReadBinaryInt16 nd (2 * i))))
          (c + (Utf8EncodeChar (ReadBinaryInt16 nd (2 * i))).length) (by omega)
        constructor
        · intro h
          rw [b1 (by omega), memcpy_append, Nat.add_assoc]
        · intro h
          exact b2 (by omega)

end FatFs

namespace FatFs

theorem bytesOf_getD (buffer : Buffer) (off n i : Nat) (h : i < n) :
    (bytesOf buffer off n).getD i 0 = buffer (off + i) % 256 := by
  rw [List.getD_eq_getElem _ _ (by rw [bytesOf_length]; exact h), bytesOf_getElem]

/-- The bytes of `name_data`. -/
theorem vfat_name_data_at (buffer : Buffer) (entry_ptr k : Nat) :
    (k < 10 → vfat_name_data buffer entry_ptr k = buffer (entry_ptr + 1 + k) % 256) ∧
    (10 ≤ k → k < 22 → vfat_name_data buffer entry_ptr k = buffer (entry_ptr + 14 + (k - 10)) % 256) ∧
    (22 ≤ k → k < 26 → vfat_name_data buffer entry_ptr k = buffer (entry_ptr + 28 + (k - 22)) % 256) := by
  unfold vfat_name_data
  refine ⟨?_, ?_, ?_⟩
  · intro h
    rw [memcpy_outside _ _ _ _ (Or.inl (by omega)), memcpy_outside _ _ _ _ (Or.inl (by omega))]
    have := memcpy_inside (fun _ => 0) 0 (bytesOf buffer (entry_ptr + 0x1) 10) k
      (by rw [bytesOf_length]; exact h)
    rw [Nat.zero_add] at this
    rw [this, bytesOf_getD _ _ _ _ h]
  · intro h1 h2
    rw [memcpy_outside _ _ _ _ (Or.inl (by omega))]
    have := memcpy_inside (memcpy (fun _ => 0) 0 (bytesOf buffer (entry_ptr + 0x1) 10)) 10
      (bytesOf buffer (entry_ptr + 0xE) 12) (k - 10) (by rw [bytesOf_length]; omega)
    rw [show 10 + (k - 10) = k by omega] at this
    rw [this, bytesOf_getD _ _ _ _ (by omega)]
  · intro h1 h2
    have := memcpy_inside (memcpy (memcpy (fun _ => 0) 0 (bytesOf buffer (entry_ptr + 0x1) 10)) 10
      (bytesOf buffer (entry_ptr + 0xE) 12)) 22
      (bytesOf buffer (entry_ptr + 0x1C) 4) (k - 22) (by rw [bytesOf_length]; omega)
    rw [show 22 + (k - 22) = k by omega] at this
    rw [this, bytesOf_getD _ _ _ _ (by omega)]

theorem slotUnits_length (buffer : Buffer) (entry_ptr : Nat) :
    (slotUnits buffer entry_ptr).length = 13 := by
  simp [slotUnits]

/-- The code units that the loop reads from `name_data` are the 13 code units of the slot. -/
theorem vfat_name_data_units (buffer : Buffer) (entry_ptr : Nat) :
    (List.range 13).map (fun j => ReadBinaryInt16 (vfat_name_data buffer entry_ptr) (2 * (0 + j))) =
      slotUnits buffer entry_ptr := by
  apply List.ext_getElem (by simp [slotUnits])
  intro i h1 h2
  simp only [List.length_map, List.length_range] at h1
  rw [List.getElem_map, List.getElem_range, Nat.zero_add]
  unfold ReadBinaryInt16
  obtain ⟨a1, a2, a3⟩ := vfat_name_data_at buffer entry_ptr (2 * i)
  obtain ⟨b1, b2, b3⟩ := vfat_name_data_at buffer entry_ptr (2 * i + 1)
  unfold slotUnits
  by_cases c1 : i < 5
  · rw [List.getElem_append_left (by simp; omega), List.getElem_append_left (by simp; omega),
      List.getElem_map, List.getElem_range, a1 (by omega), b1 (by omega), Nat.mod_mod, Nat.mod_mod]
    simp only [ReadBinaryInt16]
    rw [show entry_ptr + 1 + (2 * i + 1) = entry_ptr + 1 + 2 * i + 1 by omega]
  · by_cases c2 : i < 11
    · rw [List.getElem_append_left (by simp; omega), List.getElem_append_right (by simp; omega),
        List.getElem_map, List.getElem_range, a2 (by omega) (by omega), b2 (by omega) (by omega),
        Nat.mod_mod, Nat.mod_mod]
      simp only [ReadBinaryInt16, List.length_map, List.length_range]
      rw [show entry_ptr + 14 + (2 * i - 10) = entry_ptr + 14 + 2 * (i - 5) by omega,
        show entry_ptr + 14 + (2 * i + 1 - 10) = entry_ptr + 14 + 2 * (i - 5) + 1 by omega]
    · rw [List.getElem_append_right (by simp; omega),
        List.getElem_map, List.getElem_range, a3 (by omega) (by omega), b3 (by omega) (by omega),
        Nat.mod_mod, Nat.mod_mod]
      simp only [ReadBinaryInt16, List.length_map, List.length_range, List.length_append]
      rw [show entry_ptr + 28 + (2 * i - 22) = entry_ptr + 28 + 2 * (i - (5 + 6)) by omega,
        show entry_ptr + 28 + (2 * i + 1 - 22) = entry_ptr + 28 + 2 * (i - (5 + 6)) + 1 by omega]

/-- The block `// VFAT entry` in terms of the run that is in effect for the slot. -/
theorem event_handler_vfat_eq (d : DirWorld) (buffer : Buffer) (entry_ptr : Nat) :
    DirectoryIterator.event_handler_vfat d buffer entry_ptr =
      if d.collects buffer entry_ptr then
        if (collect_loop (vfat_name_data buffer entry_ptr) (d.run_pos buffer entry_ptr) 13 0
            d.it.m_filename 0).2.2 = true then
          { d with it := { d.it with
              m_vfat_seq := -1,
              m_vfat_csum := d.run_csum buffer entry_ptr,
              m_filename_pos := d.run_pos buffer entry_ptr,
              m_filename := (collect_loop (vfat_name_data buffer entry_ptr)
                (d.run_pos buffer entry_ptr) 13 0 d.it.m_filename 0).1 } }
        else
          { d with it := { d.it with
              m_vfat_seq := d.run_seq buffer entry_ptr - 1,
              m_vfat_csum := d.run_csum buffer entry_ptr,
              m_filename_pos := d.run_pos buffer entry_ptr -
                (collect_loop (vfat_name_data buffer entry_ptr) (d.run_pos buffer entry_ptr) 13 0
                  d.it.m_filename 0).2.1,
              m_filename := memmove (collect_loop (vfat_name_data buffer entry_ptr)
                  (d.run_pos buffer entry_ptr) 13 0 d.it.m_filename 0).1
                (d.run_pos buffer entry_ptr -
                  (collect_loop (vfat_name_data buffer entry_ptr) (d.run_pos buffer entry_ptr) 13 0
                    d.it.m_filename 0).2.1) 0
                (collect_loop (vfat_name_data buffer entry_ptr) (d.run_pos buffer entry_ptr) 13 0
                  d.it.m_filename 0).2.1 } }
      else
        { d with it := { d.it with
            m_vfat_seq := -1,
            m_vfat_csum := d.run_csum buffer entry_ptr,
            m_filename_pos := d.run_pos buffer entry_ptr } } := by
  unfold DirWorld.collects DirWorld.run_seq DirWorld.run_csum DirWorld.run_pos slotSeq slotCsum
    slotStartsRun
  unfold DirectoryIterator.event_handler_vfat
  simp only [↓reduceIte, DirWorld.setIt]
  by_cases hs : ReadBinaryInt8 buffer (entry_ptr + 0x0) &&& 0x60 = 0x40
  · rw [if_pos hs, if_pos hs, if_pos hs, if_pos hs]
  · rw [if_neg hs, if_neg hs, if_neg hs, if_neg hs]

theorem event_handler_vfat_collect (d : DirWorld) (buffer : Buffer) (entry_ptr : Nat)
    (hc : d.collects buffer entry_ptr)
    (hfit : (fragmentName (slotUnits buffer entry_ptr)).length ≤ d.run_pos buffer entry_ptr) :
    DirectoryIterator.event_handler_vfat d buffer entry_ptr =
      { d with it := { d.it with
          m_vfat_seq := d.run_seq buffer entry_ptr - 1,
          m_vfat_csum := d.run_csum buffer entry_ptr,
          m_filename_pos := d.run_pos buffer entry_ptr -
            (fragmentName (slotUnits buffer entry_ptr)).length,
          m_filename := memmove (memcpy d.it.m_filename 0 (fragmentName (slotUnits buffer entry_ptr)))
            (d.run_pos buffer entry_ptr - (fragmentName (slotUnits buffer entry_ptr)).length) 0
            (fragmentName (slotUnits buffer entry_ptr)).length } } := by
  obtain ⟨e1, _⟩ := collect_loop_eq (vfat_name_data buffer entry_ptr) (d.run_pos buffer entry_ptr)
    13 0 d.it.m_filename 0 (Nat.zero_le _)
  rw [vfat_name_data_units, Nat.zero_add] at e1
  rw [event_handler_vfat_eq, if_pos hc, e1 hfit]
  simp only [Bool.false_eq_true, if_false]

theorem event_handler_vfat_cancel (d : DirWorld) (buffer : Buffer) (entry_ptr : Nat)
    (hc : ¬ d.collects buffer entry_ptr ∨
      ¬ (fragmentName (slotUnits buffer entry_ptr)).length ≤ d.run_pos buffer entry_ptr) :
    ∃ F : Buffer,
      DirectoryIterator.event_handler_vfat d buffer entry_ptr =
        { d with it := { d.it with
            m_vfat_seq := -1,
            m_vfat_csum := d.run_csum buffer entry_ptr,
            m_filename_pos := d.run_pos buffer entry_ptr,
            m_filename := F } } ∧
      (∀ k, d.run_pos buffer entry_ptr ≤ k → F k = d.it.m_filename k) ∧
      (¬ d.collects buffer entry_ptr → F = d.it.m_filename) := by
  rw [event_handler_vfat_eq]
  by_cases hcol : d.collects buffer entry_ptr
  · have hnf := hc.resolve_left (not_not.2 hcol)
    obtain ⟨_, e1⟩ := collect_loop_eq (vfat_name_data buffer entry_ptr)
      (d.run_pos buffer entry_ptr) 13 0 d.it.m_filename 0 (Nat.zero_le _)
    rw [vfat_name_data_units, Nat.zero_add] at e1
    obtain ⟨_, _, e3⟩ := collect_loop_frame (vfat_name_data buffer entry_ptr)
      (d.run_pos buffer entry_ptr) 13 0 d.it.m_filename 0 (Nat.zero_le _)
    rw [if_pos hcol, if_pos (e1 hnf)]
    exact ⟨_, rfl, fun k hk => e3 k (Or.inr hk), fun h => absurd hcol h⟩
  · rw [if_neg hcol]
    exact ⟨_, rfl, fun _ _ => rfl, fun _ => rfl⟩

end FatFs

namespace FatFs

theorem vfat_schedule_event (d : DirWorld) :
    (DirectoryIterator.schedule_event d).vfat = d.vfat := rfl

theorem vfat_requestEntry (d : DirWorld) :
    (DirectoryIterator.requestEntry d).vfat = d.vfat := rfl

theorem vfat_deinit (d : DirWorld) : (DirectoryIterator.deinit d).vfat = d.vfat := rfl

theorem vfat_chain_requestNext (d : DirWorld) :
    (DirectoryIterator.chain_requestNext d).vfat = d.vfat := rfl

theorem vfat_dir_iter_handler (d : DirWorld) (op : Opener) (is_error : Bool)
    (name : Option (List Nat)) (entry : FsEntry) :
    (Opener.dir_iter_handler d op is_error name entry).vfat = d.vfat := by
  unfold Opener.dir_iter_handler
  split_ifs <;> rfl

theorem vfat_complete_request (d : DirWorld) (error : Bool) (name : Option (List Nat))
    (entry : FsEntry) : (DirectoryIterator.complete_request d error name entry).vfat = d.vfat := by
  unfold DirectoryIterator.complete_request
  simp only []
  split
  · rw [vfat_dir_iter_handler]
    rfl
  · rfl

theorem vfat_chain_handler (d : DirWorld) (error fcc : Bool) :
    (DirectoryIterator.chain_handler d error fcc).vfat = d.vfat := by
  unfold DirectoryIterator.chain_handler
  split_ifs
  · exact vfat_complete_request _ _ _ _
  · rfl

theorem vfat_dir_block_ref_handler (d : DirWorld) (error : Bool) :
    (DirectoryIterator.dir_block_ref_handler d error).vfat = d.vfat := by
  unfold DirectoryIterator.dir_block_ref_handler
  split_ifs
  · exact vfat_complete_request _ _ _ _
  · rfl

theorem vfat_chain_complete_request (d : DirWorld) (error fcc : Bool) :
    (DirectoryIterator.chain_complete_request d error fcc).vfat = d.vfat := by
  unfold DirectoryIterator.chain_complete_request
  exact vfat_chain_handler _ _ _

theorem vfat_chain_event_handler_next_check_end (d : DirWorld) :
    (DirectoryIterator.chain_event_handler_next_check_end d).vfat = d.vfat := by
  unfold DirectoryIterator.chain_event_handler_next_check_end
  simp only []
  rw [vfat_chain_complete_request]
  split_ifs <;> rfl

theorem vfat_chain_event_handler (d : DirWorld) :
    (DirectoryIterator.chain_event_handler d).vfat = d.vfat := by
  unfold DirectoryIterator.chain_event_handler
  split
  · simp only []
    split_ifs
    all_goals
      first
      | rfl
      | exact vfat_chain_complete_request _ _ _
      | exact vfat_chain_event_handler_next_check_end _
  · rfl

theorem vfat_chain_fat_cache_ref_handler (d : DirWorld) (error : Bool) :
    (DirectoryIterator.chain_fat_cache_ref_handler d error).vfat = d.vfat := by
  unfold DirectoryIterator.chain_fat_cache_ref_handler
  split
  · split_ifs
    · exact vfat_chain_complete_request _ _ _
    · rfl
  · rfl

theorem VfatInv_of_vfat (d d2 : DirWorld) (h : d2.vfat = d.vfat) (hi : VfatInv d) :
    VfatInv d2 := by
  unfold DirWorld.vfat at h
  simp only [VfatState.mk.injEq] at h
  obtain ⟨h1, h2, _, h4, _⟩ := h
  unfold VfatInv
  rw [h1, h2, h4]
  exact hi

/-- A slot is the end marker, a VFAT slot, an ignored slot or a short slot. -/
theorem slot_cases (buffer : Buffer) (entry_ptr : Nat) :
    slotEnd buffer entry_ptr ∨ (¬ slotEnd buffer entry_ptr ∧ slotVfat buffer entry_ptr) ∨
    (¬ slotEnd buffer entry_ptr ∧ ¬ slotVfat buffer entry_ptr ∧ slotIgnored buffer entry_ptr) ∨
    slotShort buffer entry_ptr := by
  by_cases h0 : slotEnd buffer entry_ptr
  · exact Or.inl h0
  by_cases hv : slotVfat buffer entry_ptr
  · exact Or.inr (Or.inl ⟨h0, hv⟩)
  by_cases hi : slotIgnored buffer entry_ptr
  · exact Or.inr (Or.inr (Or.inl ⟨h0, hv, hi⟩))
  refine Or.inr (Or.inr (Or.inr ?_))
  unfold slotIgnored at hi
  unfold slotEnd at h0
  unfold slotShort
  push_neg at hi
  exact ⟨h0, hi.1, hi.2.1, hi.2.2⟩

theorem name_83_length_le (buffer : Buffer) (entry_ptr : Nat) :
    (DirectoryIterator.name_83 buffer entry_ptr).length ≤ 12 := by
  rw [name_83_eq]
  exact canonical83_length_le _ _ _ (bytesOf_length _ _ _) (bytesOf_length _ _ _)

theorem filename_complete_request (d : DirWorld) (error : Bool) (name : Option (List Nat))
    (entry : FsEntry) :
    (DirectoryIterator.complete_request d error name entry).it.m_filename = d.it.m_filename ∧
    (DirectoryIterator.complete_request d error name entry).it.m_filename_pos =
      d.it.m_filename_pos ∧
    (DirectoryIterator.complete_request d error name entry).it.m_vfat_seq = d.it.m_vfat_seq ∧
    (DirectoryIterator.complete_request d error name entry).MaxFileNameSize =
      d.MaxFileNameSize := by
  have h := vfat_complete_request d error name entry
  unfold DirWorld.vfat at h
  simp only [VfatState.mk.injEq] at h
  exact ⟨h.2.2.2.2, h.2.2.2.1, h.2.1, h.1⟩

theorem memmove_outside (buffer : Buffer) (dst src n k : Nat) (h : k < dst ∨ dst + n ≤ k) :
    memmove buffer dst src n k = buffer k := by
  unfold memmove
  rw [if_neg (by omega)]

theorem memmove_inside (buffer : Buffer) (dst src n i : Nat) (h : i < n) :
    memmove buffer dst src n (dst + i) = buffer (src + i) := by
  unfold memmove
  rw [if_pos ⟨Nat.le_add_right _ _, by omega⟩, Nat.add_sub_cancel_left]

/-- What `event_handler` does to the name buffer on a VFAT slot. -/
theorem event_handler_entry_vfat_buffer (d : DirWorld) (hi : VfatInv d)
    (h0 : ¬ slotEnd d.buffer d.entry_ptr) (hv : slotVfat d.buffer d.entry_ptr) :
    VfatInv (DirectoryIterator.event_handler_entry d) ∧
    (∀ k, d.run_pos d.buffer d.entry_ptr ≤ k →
      (DirectoryIterator.event_handler_entry d).it.m_filename k = d.it.m_filename k) ∧
    ((DirectoryIterator.event_handler_entry d).it.m_vfat_seq ≠ -1 →
      d.run_pos d.buffer d.entry_ptr ≤ d.MaxFileNameSize ∧
      (DirectoryIterator.event_handler_entry d).it.m_filename_pos +
        (fragmentName (slotUnits d.buffer d.entry_ptr)).length = d.run_pos d.buffer d.entry_ptr ∧
      ∀ i, i < (fragmentName (slotUnits d.buffer d.entry_ptr)).length →
        (DirectoryIterator.event_handler_entry d).it.m_filename
          ((DirectoryIterator.event_handler_entry d).it.m_filename_pos + i) =
        (fragmentName (slotUnits d.buffer d.entry_ptr)).getD i 0) ∧
    (¬ (fragmentName (slotUnits d.buffer d.entry_ptr)).length ≤ d.run_pos d.buffer d.entry_ptr →
      (DirectoryIterator.event_handler_entry d).it.m_vfat_seq = -1) := by
  rw [event_handler_entry_vfat d h0 hv]
  generalize hd1 : ({ d with it := { d.it with
      m_block_entry_pos := d.it.m_block_entry_pos + 1 } } : DirWorld) = d1
  have r1 : d1.run_pos d.buffer d.entry_ptr = d.run_pos d.buffer d.entry_ptr := by
    rw [← hd1]; rfl
  have r2 : d1.run_seq d.buffer d.entry_ptr = d.run_seq d.buffer d.entry_ptr := by
    rw [← hd1]; rfl
  have r3 : d1.it.m_filename = d.it.m_filename := by rw [← hd1]
  have r4 : d1.MaxFileNameSize = d.MaxFileNameSize := by rw [← hd1]
  have hP : d.run_seq d.buffer d.entry_ptr ≠ -1 →
      d.run_pos d.buffer d.entry_ptr ≤ d.MaxFileNameSize := by
    unfold DirWorld.run_seq DirWorld.run_pos
    split_ifs
    · exact fun _ => Nat.le_refl _
    · exact hi.2
  by_cases hc : d1.collects d.buffer d.entry_ptr ∧
      (fragmentName (slotUnits d.buffer d.entry_ptr)).length ≤ d1.run_pos d.buffer d.entry_ptr
  · rw [event_handler_vfat_collect d1 _ _ hc.1 hc.2]
    have hfit := hc.2
    rw [r1] at hfit
    have hne : d.run_seq d.buffer d.entry_ptr ≠ -1 := by
      have := hc.1.2.1
      rw [r2] at this
      exact this
    have hPm := hP hne
    refine ⟨⟨?_, ?_⟩, ?_, ?_, ?_⟩
    · show 12 ≤ d1.MaxFileNameSize
      rw [r4]
      exact hi.1
    · intro _
      show d1.run_pos d.buffer d.entry_ptr - _ ≤ d1.MaxFileNameSize
      rw [r1, r4]
      omega
    · intro k hk
      show memmove _ _ _ _ k = _
      rw [r1, r3, memmove_outside _ _ _ _ _ (by omega), memcpy_outside _ _ _ _ (by omega)]
    · intro _
      refine ⟨hPm, ?_, ?_⟩
      · show d1.run_pos d.buffer d.entry_ptr - _ + _ = _
        rw [r1]
        omega
      · intro i hlt
        show memmove _ _ _ _ (d1.run_pos d.buffer d.entry_ptr - _ + i) = _
        rw [memmove_inside _ _ _ _ _ hlt, memcpy_inside _ _ _ _ hlt]
    · intro hnf
      exact absurd hfit hnf
  · obtain ⟨F, e, f1, _⟩ := event_handler_vfat_cancel d1 d.buffer d.entry_ptr (by
      by_cases hcc : d1.collects d.buffer d.entry_ptr
      · exact Or.inr (fun h => hc ⟨hcc, h⟩)
      · exact Or.inl hcc)
    rw [e]
    refine ⟨⟨?_, ?_⟩, ?_, ?_, ?_⟩
    · show 12 ≤ d1.MaxFileNameSize
      rw [r4]
      exact hi.1
    · intro h
      exact absurd rfl h
    · intro k hk
      show F k = _
      rw [f1 k (by rw [r1]; exact hk), r3]
    · intro h
      exact absurd rfl h
    · intro _
      rfl

/-- `event_handler` keeps `VfatInv` and writes no byte of the name buffer above
`MaxFileNameSize`, whatever the slot is. -/
theorem VfatInv_event_handler_entry (d : DirWorld) (hi : VfatInv d) :
    VfatInv (DirectoryIterator.event_handler_entry d) ∧
    ∀ k, d.MaxFileNameSize < k →
      (DirectoryIterator.event_handler_entry d).it.m_filename k = d.it.m_filename k := by
  rcases slot_cases d.buffer d.entry_ptr with h | ⟨h0, hv⟩ | ⟨h0, hv, hg⟩ | hs
  · rw [event_handler_entry_end d h]
    exact ⟨VfatInv_of_vfat _ _ (vfat_complete_request _ _ _ _) hi,
      fun k _ => by rw [(filename_complete_request _ _ _ _).1]⟩
  · obtain ⟨a1, a2, a3, _⟩ := event_handler_entry_vfat_buffer d hi h0 hv
    refine ⟨a1, fun k hk => ?_⟩
    by_cases hc : (DirectoryIterator.event_handler_entry d).it.m_vfat_seq ≠ -1
    · exact a2 k (by have := (a3 hc).1; omega)
    · -- the run was cancelled or not collected: nothing at or above the position is written
      have hc2 : (DirectoryIterator.event_handler_entry d).it.m_vfat_seq = -1 := not_not.1 hc
      rw [event_handler_entry_vfat d h0 hv] at hc2 ⊢
      generalize hd1 : ({ d with it := { d.it with
          m_block_entry_pos := d.it.m_block_entry_pos + 1 } } : DirWorld) = d1 at hc2 ⊢
      have r3 : d1.it.m_filename = d.it.m_filename := by rw [← hd1]
      have r4 : d1.MaxFileNameSize = d.MaxFileNameSize := by rw [← hd1]
      have r5 : d1.it.m_filename_pos = d.it.m_filename_pos := by rw [← hd1]
      have r6 : d1.it.m_vfat_seq = d.it.m_vfat_seq := by rw [← hd1]
      by_cases hcol : d1.collects d.buffer d.entry_ptr
      · have hP : d1.run_pos d.buffer d.entry_ptr ≤ d.MaxFileNameSize := by
          have h1 := hcol.2.1
          unfold DirWorld.run_seq at h1
          unfold DirWorld.run_pos
          split_ifs at h1 ⊢ with hst
          · rw [r4]
          · rw [r5]
            exact hi.2 (by rw [← r6]; exact h1)
        by_cases hfit : (fragmentName (slotUnits d.buffer d.entry_ptr)).length ≤
            d1.run_pos d.buffer d.entry_ptr
        · rw [event_handler_vfat_collect d1 _ _ hcol hfit]
          show memmove _ _ _ _ k = _
          rw [memmove_outside _ _ _ _ _ (by omega), memcpy_outside _ _ _ _ (by omega), r3]
        · obtain ⟨F, e, f1, _⟩ := event_handler_vfat_cancel d1 d.buffer d.entry_ptr (Or.inr hfit)
          rw [e]
          show F k = _
          rw [f1 k (by omega), r3]
      · obtain ⟨F, e, _, f2⟩ := event_handler_vfat_cancel d1 d.buffer d.entry_ptr (Or.inl hcol)
        rw [e]
        show F k = _
        rw [f2 hcol, r3]
  · rw [event_handler_entry_ignored d h0 hv hg]
    exact ⟨⟨hi.1, fun h => absurd rfl h⟩, fun _ _ => rfl⟩
  · by_cases hc : ReadBinaryInt8 d.buffer (d.entry_ptr + 0x0) = 0x2E ∨ d.it.m_vfat_seq ≠ 0 ∨
        vfat_checksum d.buffer d.entry_ptr ≠ d.it.m_vfat_csum
    · rw [event_handler_entry_83 d hs hc]
      refine ⟨VfatInv_of_vfat _ _ (vfat_complete_request _ _ _ _) ⟨hi.1, fun h => absurd rfl h⟩,
        fun k hk => ?_⟩
      rw [(filename_complete_request _ _ _ _).1]
      show memcpy _ _ _ k = _
      have := name_83_length_le d.buffer d.entry_ptr
      have h12 := hi.1
      rw [memcpy_outside _ _ _ _ (by
        right
        rw [List.length_append, List.length_singleton]
        omega)]
    · have h1 : ReadBinaryInt8 d.buffer (d.entry_ptr + 0x0) ≠ 0x2E := fun e => hc (Or.inl e)
      have h2 : d.it.m_vfat_seq = 0 := by
        by_contra e
        exact hc (Or.inr (Or.inl e))
      have h3 : vfat_checksum d.buffer d.entry_ptr = d.it.m_vfat_csum := by
        by_contra e
        exact hc (Or.inr (Or.inr e))
      rw [event_handler_entry_long d hs h1 h2 h3]
      refine ⟨VfatInv_of_vfat _ _ (vfat_complete_request _ _ _ _) ⟨hi.1, fun h => absurd rfl h⟩,
        fun k hk => ?_⟩
      rw [(filename_complete_request _ _ _ _).1]
      show memcpy _ _ _ k = _
      rw [memcpy_outside _ _ _ _ (by
        right
        rw [List.length_singleton]
        omega)]

theorem VfatInv_event_handler (d : DirWorld) (hi : VfatInv d) :
    VfatInv (DirectoryIterator.event_handler d) := by
  unfold DirectoryIterator.event_handler
  simp only []
  split_ifs
  · exact VfatInv_of_vfat d _ rfl hi
  · exact VfatInv_of_vfat d _ (vfat_complete_request _ _ _ _) hi
  · exact VfatInv_of_vfat d _ rfl hi
  · refine (VfatInv_event_handler_entry _ ?_).1
    exact VfatInv_of_vfat d _ rfl hi
  · exact (VfatInv_event_handler_entry _ hi).1

theorem VfatInv_init (d : DirWorld) (first_cluster : Nat) (h : 12 ≤ d.MaxFileNameSize) :
    VfatInv (DirectoryIterator.init d first_cluster) :=
  ⟨h, fun h => absurd rfl h⟩

theorem VfatInv_dirStep (d d2 : DirWorld) (input : DirInput) (hi : VfatInv d)
    (hs : dirStep d input = some d2) : VfatInv d2 := by
  cases input with
  | queued =>
    unfold dirStep at hs
    simp only [] at hs
    split at hs
    · exact Option.noConfusion hs
    · rename_i e rest hq
      cases e
      · simp only [Option.some.injEq] at hs
        subst hs
        refine VfatInv_event_handler _ ?_
        exact VfatInv_of_vfat d _ rfl hi
      · simp only [Option.some.injEq] at hs
        subst hs
        exact VfatInv_of_vfat d _ ((vfat_chain_event_handler _).trans rfl) hi
  | fat_cache_ref error =>
    unfold dirStep at hs
    simp only [] at hs
    split_ifs at hs
    simp only [Option.some.injEq] at hs
    subst hs
    exact VfatInv_of_vfat d _ ((vfat_chain_fat_cache_ref_handler _ _).trans rfl) hi
  | dir_block_ref error =>
    unfold dirStep at hs
    simp only [] at hs
    split_ifs at hs
    simp only [Option.some.injEq] at hs
    subst hs
    exact VfatInv_of_vfat d _ ((vfat_dir_block_ref_handler _ _).trans rfl) hi
  | DirLister_init dir_entry =>
    unfold dirStep at hs
    simp only [] at hs
    split_ifs at hs
    simp only [Option.some.injEq] at hs
    subst hs
    exact VfatInv_init _ _ hi.1
  | DirLister_requestEntry =>
    unfold dirStep at hs
    simp only [] at hs
    split_ifs at hs
    simp only [Option.some.injEq] at hs
    subst hs
    exact VfatInv_of_vfat d _ rfl hi
  | Opener_init dir_entry entry_type name case_insens =>
    unfold dirStep at hs
    simp only [] at hs
    split_ifs at hs
    simp only [Option.some.injEq] at hs
    subst hs
    exact VfatInv_of_vfat _ _ (vfat_requestEntry _) (VfatInv_init _ _ hi.1)

theorem VfatInv_reachable (d : DirWorld) (h : DirReachable d) : VfatInv d := by
  induction h with
  | lister d d2 dir_entry hmax hs =>
    unfold dirStep at hs
    simp only [] at hs
    split_ifs at hs
    simp only [Option.some.injEq] at hs
    subst hs
    exact VfatInv_init _ _ hmax
  | opener d d2 dir_entry entry_type name case_insens hmax hs =>
    unfold dirStep at hs
    simp only [] at hs
    split_ifs at hs
    simp only [Option.some.injEq] at hs
    subst hs
    exact VfatInv_of_vfat _ _ (vfat_requestEntry _) (VfatInv_init _ _ hmax)
  | step d d2 input _ hs ih => exact VfatInv_dirStep d d2 input ih hs

end FatFs

namespace FatFs

/-- The sample `DirLister` is a reachable iterator. -/
theorem reachable_dirSample : DirReachable dirSample :=
  DirReachable.lister { w := dirSampleReady } dirSample (getRootEntry dirSampleReady)
    (by decide) rfl

/-- C33: safety of the name buffer.  In every reachable state of a directory iterator,
`m_filename_pos` is at most `MaxFileNameSize` while a VFAT run is being collected.  In such
a state, whatever slot `event_handler` looks at: the same holds afterwards, and no byte of
the name buffer above index `MaxFileNameSize` is written (by a fragment, by a long name's
terminator or by an 8.3 name and its terminator).  On a VFAT slot, the bytes from the
previous `m_filename_pos` on (`MaxFileNameSize` for a slot that starts a run) are unchanged;
when the run goes on, the new `m_filename_pos` is the previous one minus the length of the
fragment and the fragment stands immediately before the previous position; and a fragment
that does not fit below the previous position cancels the run.  A short slot that is looked
at with no run in effect gets its 8.3 name. -/
theorem lfn_buffer_safety (d : DirWorld) :
    (DirReachable d → VfatInv d) ∧
    (VfatInv d →
      VfatInv (DirectoryIterator.event_handler_entry d) ∧
      (∀ k, d.MaxFileNameSize < k →
        (DirectoryIterator.event_handler_entry d).it.m_filename k = d.it.m_filename k) ∧
      (¬ slotEnd d.buffer d.entry_ptr → slotVfat d.buffer d.entry_ptr →
        (∀ k, d.run_pos d.buffer d.entry_ptr ≤ k →
          (DirectoryIterator.event_handler_entry d).it.m_filename k = d.it.m_filename k) ∧
        ((DirectoryIterator.event_handler_entry d).it.m_vfat_seq ≠ -1 →
          d.run_pos d.buffer d.entry_ptr ≤ d.MaxFileNameSize ∧
          (DirectoryIterator.event_handler_entry d).it.m_filename_pos +
            (fragmentName (slotUnits d.buffer d.entry_ptr)).length =
              d.run_pos d.buffer d.entry_ptr ∧
          ∀ i, i < (fragmentName (slotUnits d.buffer d.entry_ptr)).length →
            (DirectoryIterator.event_handler_entry d).it.m_filename
              ((DirectoryIterator.event_handler_entry d).it.m_filename_pos + i) =
            (fragmentName (slotUnits d.buffer d.entry_ptr)).getD i 0) ∧
        (¬ (fragmentName (slotUnits d.buffer d.entry_ptr)).length ≤
            d.run_pos d.buffer d.entry_ptr →
          (DirectoryIterator.event_handler_entry d).it.m_vfat_seq = -1)) ∧
      (slotShort d.buffer d.entry_ptr → d.it.m_vfat_seq = -1 → d.opener = none →
        (DirectoryIterator.event_handler_entry d).calls =
          .DirListerHandler false
            (some (cstr (canonical83 (bytesOf d.buffer d.entry_ptr 8)
              (bytesOf d.buffer (d.entry_ptr + 8) 3)
              (ReadBinaryInt8 d.buffer (d.entry_ptr + 0xC)))))
            d.slot_entry :: d.calls ∧
        ((∀ b ∈ bytesOf d.buffer d.entry_ptr 11, b ≠ 0) →
          cstr (canonical83 (bytesOf d.buffer d.entry_ptr 8)
            (bytesOf d.buffer (d.entry_ptr + 8) 3)
            (ReadBinaryInt8 d.buffer (d.entry_ptr + 0xC))) =
          canonical83 (bytesOf d.buffer d.entry_ptr 8)
            (bytesOf d.buffer (d.entry_ptr + 8) 3)
            (ReadBinaryInt8 d.buffer (d.entry_ptr + 0xC))))) := by
  refine ⟨VfatInv_reachable d, fun hi => ?_⟩
  obtain ⟨a1, a2⟩ := VfatInv_event_handler_entry d hi
  refine ⟨a1, a2, fun h0 hv => ?_, fun hs hseq hop => ?_⟩
  · exact (event_handler_entry_vfat_buffer d hi h0 hv).2
  · refine ⟨?_, cstr_canonical83 _ _ _⟩
    rw [event_handler_entry_83 d hs (Or.inr (Or.inl (by rw [hseq]; decide))),
      complete_request_lister, name_83_eq]
    exact hop

end FatFs

namespace FatFs

theorem Reaches_refl (d : DirWorld) : Reaches d d := ⟨0, fun _ => rfl⟩

theorem Reaches_trans (d1 d2 d3 : DirWorld) (h1 : Reaches d1 d2) (h2 : Reaches d2 d3) :
    Reaches d1 d3 := by
  obtain ⟨s1, e1⟩ := h1
  obtain ⟨s2, e2⟩ := h2
  refine ⟨s2 + s1, fun k => ?_⟩
  rw [← Nat.add_assoc, e1, e2]

theorem Reaches_iter_event (d : DirWorld) (hq : d.queue = [.iter_event]) :
    Reaches d (DirectoryIterator.event_handler { d with queue := [] }) := by
  refine ⟨1, fun k => ?_⟩
  cases k with
  | zero => simp [dirRun, dirStep, hq]
  | succ k => simp [dirRun, dirStep, hq]

theorem Reaches_chain_event (d : DirWorld) (hq : d.queue = [.chain_event]) :
    Reaches d (DirectoryIterator.chain_event_handler { d with queue := [] }) := by
  refine ⟨1, fun k => ?_⟩
  cases k with
  | zero => simp [dirRun, dirStep, hq]
  | succ k => simp [dirRun, dirStep, hq]

theorem Reaches_fat_ref (d : DirWorld) (hq : d.queue = [])
    (h : d.it.m_chain.m_fat_cache_ref1.state = CacheRefState.REQUESTING) :
    Reaches d (DirectoryIterator.chain_fat_cache_ref_handler
      { d with w := d.w.blockLoaded d.it.m_chain.m_fat_cache_ref1 false,
               it := { d.it with m_chain := { d.it.m_chain with
                 m_fat_cache_ref1 := d.it.m_chain.m_fat_cache_ref1.complete false } } } false) := by
  refine ⟨1, fun k => ?_⟩
  cases k with
  | zero => simp [dirRun, dirStep, hq, dirPending, h, DirWorld.setIt]
  | succ k => simp [dirRun, dirStep, hq, dirPending, h, DirWorld.setIt]

theorem Reaches_dir_ref (d : DirWorld) (hq : d.queue = [])
    (h1 : d.it.m_chain.m_fat_cache_ref1.state ≠ CacheRefState.REQUESTING)
    (h : d.it.m_dir_block_ref.state = CacheRefState.REQUESTING) :
    Reaches d (DirectoryIterator.dir_block_ref_handler
      { d with w := d.w.blockLoaded d.it.m_dir_block_ref false,
               it := { d.it with m_dir_block_ref := d.it.m_dir_block_ref.complete false } }
      false) := by
  refine ⟨1, fun k => ?_⟩
  cases k with
  | zero => simp [dirRun, dirStep, hq, dirPending, h, h1, DirWorld.setIt]
  | succ k => simp [dirRun, dirStep, hq, dirPending, h, h1, DirWorld.setIt]

theorem dirRun_quiet (d : DirWorld) (k : Nat) (hq : d.queue = [])
    (h1 : d.it.m_chain.m_fat_cache_ref1.state ≠ CacheRefState.REQUESTING)
    (h2 : d.it.m_dir_block_ref.state ≠ CacheRefState.REQUESTING) :
    dirRun (k + 1) [] d = some d := by
  simp [dirRun, hq, dirPending, h1, h2]

theorem event_handler_in_block (d : DirWorld)
    (h : d.it.m_block_entry_pos ≠ d.w.DirEntriesPerBlock) :
    DirectoryIterator.event_handler d = DirectoryIterator.event_handler_entry d := by
  unfold DirectoryIterator.event_handler
  rw [if_neg h]

theorem event_handler_next_cluster (d : DirWorld)
    (h : d.it.m_block_entry_pos = d.w.DirEntriesPerBlock)
    (h2 : d.it.m_block_in_cluster = d.w.o.blocks_per_cluster) :
    DirectoryIterator.event_handler d =
      { d with queue := .chain_event :: d.queue,
               it := { d.it with
                 m_dir_block_ref := d.it.m_dir_block_ref.reset,
                 m_chain := { d.it.m_chain with m_state := ChainState.NEXT_CHECK },
                 m_state := DirIterState.REQUESTING_CLUSTER } } := by
  unfold DirectoryIterator.event_handler
  rw [if_pos h, if_pos h2]
  rfl

theorem event_handler_invalid (d : DirWorld)
    (h : d.it.m_block_entry_pos = d.w.DirEntriesPerBlock)
    (h2 : d.it.m_block_in_cluster ≠ d.w.o.blocks_per_cluster)
    (h3 : is_cluster_idx_valid_for_data d.w d.it.m_chain.m_current_cluster = false) :
    DirectoryIterator.event_handler d = DirectoryIterator.complete_request d true none {} := by
  unfold DirectoryIterator.event_handler
  rw [if_pos h, if_neg h2, if_pos h3]

theorem event_handler_fetch_now (d : DirWorld)
    (h : d.it.m_block_entry_pos = d.w.DirEntriesPerBlock)
    (h2 : d.it.m_block_in_cluster ≠ d.w.o.blocks_per_cluster)
    (h3 : is_cluster_idx_valid_for_data d.w d.it.m_chain.m_current_cluster = true)
    (h4 : Immediate d.w.loaded d.it.m_dir_block_ref
      (get_abs_block_index d.w (get_cluster_data_block_index d.w d.it.m_chain.m_current_cluster
        d.it.m_block_in_cluster))) :
    DirectoryIterator.event_handler d =
      DirectoryIterator.event_handler_entry
        { d with it := { d.it with
            m_dir_block_ref := CacheBlockRef.mk CacheRefState.READY
              (get_abs_block_index d.w (get_cluster_data_block_index d.w
                d.it.m_chain.m_current_cluster d.it.m_block_in_cluster)),
            m_block_in_cluster := (d.it.m_block_in_cluster + 1) % 2 ^ 16,
            m_block_entry_pos := 0 } } := by
  unfold DirectoryIterator.event_handler
  rw [if_pos h, if_neg h2, if_neg (by rw [h3]; simp)]
  unfold Immediate at h4
  simp only [World.requestBlock, true_and, h4, if_true, DirWorld.setIt, Bool.true_eq_false,
    if_false]

theorem event_handler_fetch_later (d : DirWorld)
    (h : d.it.m_block_entry_pos = d.w.DirEntriesPerBlock)
    (h2 : d.it.m_block_in_cluster ≠ d.w.o.blocks_per_cluster)
    (h3 : is_cluster_idx_valid_for_data d.w d.it.m_chain.m_current_cluster = true)
    (h4 : ¬ Immediate d.w.loaded d.it.m_dir_block_ref
      (get_abs_block_index d.w (get_cluster_data_block_index d.w d.it.m_chain.m_current_cluster
        d.it.m_block_in_cluster))) :
    DirectoryIterator.event_handler d =
      { d with it := { d.it with
          m_dir_block_ref := CacheBlockRef.mk CacheRefState.REQUESTING
            (get_abs_block_index d.w (get_cluster_data_block_index d.w
              d.it.m_chain.m_current_cluster d.it.m_block_in_cluster)),
          m_state := DirIterState.REQUESTING_BLOCK } } := by
  unfold DirectoryIterator.event_handler
  rw [if_pos h, if_neg h2, if_neg (by rw [h3]; simp)]
  unfold Immediate at h4
  simp only [World.requestBlock, true_and, h4, if_false, DirWorld.setIt, if_true]

theorem volume_blockLoaded (w : World) (r : CacheBlockRef) (e : Bool) :
    (w.blockLoaded r e).volume = w.volume := by
  cases e <;> rfl

/-- The block fetch of `event_handler`: from a block boundary inside a cluster, the
iterator comes to the first slot of the next block of the cluster. -/
theorem arrives_fetch (d : DirWorld) (hq : d.queue = [.iter_event]) (hQ : d.Quiet)
    (hpos : d.it.m_block_entry_pos = d.w.DirEntriesPerBlock)
    (hbic : d.it.m_block_in_cluster < d.w.o.blocks_per_cluster)
    (hiter : d.it.m_chain.m_iter_state = IterState.CLUSTER)
    (hval : is_cluster_idx_valid_for_data d.w d.it.m_chain.m_current_cluster = true) :
    Arrives d (Seek.slot d.it.m_chain.m_current_cluster d.it.m_block_in_cluster 0) := by
  obtain ⟨q1, q2, q3, q4, q5⟩ := hQ
  have hmod : (d.it.m_block_in_cluster + 1) % 2 ^ 16 = d.it.m_block_in_cluster + 1 :=
    Nat.mod_eq_of_lt (by omega)
  have key : ∀ d0 : DirWorld, d0.queue = [] → d0.Quiet → d0.kept = d.kept →
      d0.it.m_block_entry_pos = d0.w.DirEntriesPerBlock →
      d0.it.m_block_in_cluster = d.it.m_block_in_cluster →
      d0.it.m_chain.m_iter_state = IterState.CLUSTER →
      d0.it.m_chain.m_current_cluster = d.it.m_chain.m_current_cluster →
      d0.w.o = d.w.o →
      is_cluster_idx_valid_for_data d0.w d0.it.m_chain.m_current_cluster = true →
      Immediate d0.w.loaded d0.it.m_dir_block_ref
        (get_abs_block_index d0.w (get_cluster_data_block_index d0.w
          d0.it.m_chain.m_current_cluster d0.it.m_block_in_cluster)) →
      ∃ d2, DirectoryIterator.event_handler d0 = DirectoryIterator.event_handler_entry d2 ∧
        d2.At d.it.m_chain.m_current_cluster d.it.m_block_in_cluster 0 ∧ d2.queue = [] ∧
        d2.kept = d.kept := by
    intro d0 e1 e2 e3 e4 e5 e6 e7 e8 e9 e10
    obtain ⟨p1, p2, p3, p4, p5⟩ := e2
    refine ⟨_, event_handler_fetch_now d0 e4 (by rw [e5, e8]; omega) e9 e10, ?_, e1, e3⟩
    refine ⟨⟨p1, p2, by simp, p4, p5⟩, ?_, e6, e7, ?_, ?_, rfl⟩
    · show CacheBlockRef.mk _ _ = CacheBlockRef.mk _ _
      rw [e7, e5]
    · show (d0.it.m_block_in_cluster + 1) % 2 ^ 16 = _
      rw [e5, hmod]
    · show d.it.m_block_in_cluster < d0.w.o.blocks_per_cluster
      rw [e8]
      exact hbic
  by_cases him : Immediate d.w.loaded d.it.m_dir_block_ref
      (get_abs_block_index d.w (get_cluster_data_block_index d.w
        d.it.m_chain.m_current_cluster d.it.m_block_in_cluster))
  · obtain ⟨d2, a1, a2, a3, a4⟩ := key { d with queue := [] } rfl ⟨q1, q2, q3, q4, q5⟩ rfl hpos
      rfl hiter rfl rfl hval him
    refine ⟨d2, ?_, a2, a3, a4⟩
    rw [← a1]
    exact Reaches_iter_event d hq
  · -- the block is not there yet: the cache answers, the event runs again
    have hne : d.it.m_block_in_cluster ≠ d.w.o.blocks_per_cluster := by omega
    have s1 := Reaches_iter_event d hq
    rw [event_handler_fetch_later { d with queue := [] } hpos hne hval him] at s1
    have s2 := Reaches_dir_ref
      ({ d with queue := [], it := { d.it with
          m_dir_block_ref := CacheBlockRef.mk CacheRefState.REQUESTING
            (get_abs_block_index d.w (get_cluster_data_block_index d.w
              d.it.m_chain.m_current_cluster d.it.m_block_in_cluster)),
          m_state := DirIterState.REQUESTING_BLOCK } } : DirWorld) rfl q2 rfl
    have s3 := Reaches_iter_event
      (DirectoryIterator.dir_block_ref_handler
        { w := d.w.blockLoaded (CacheBlockRef.mk CacheRefState.REQUESTING
            (get_abs_block_index d.w (get_cluster_data_block_index d.w
              d.it.m_chain.m_current_cluster d.it.m_block_in_cluster))) false,
          MaxFileNameSize := d.MaxFileNameSize, opener := d.opener,
          it := { d.it with
            m_dir_block_ref := (CacheBlockRef.mk CacheRefState.REQUESTING
              (get_abs_block_index d.w (get_cluster_data_block_index d.w
                d.it.m_chain.m_current_cluster d.it.m_block_in_cluster))).complete false,
            m_state := DirIterState.REQUESTING_BLOCK },
          queue := [], calls := d.calls } false) rfl
    obtain ⟨d2, a1, a2, a3, a4⟩ := key
      { w := d.w.blockLoaded (CacheBlockRef.mk CacheRefState.REQUESTING
            (get_abs_block_index d.w (get_cluster_data_block_index d.w
              d.it.m_chain.m_current_cluster d.it.m_block_in_cluster))) false,
        MaxFileNameSize := d.MaxFileNameSize, opener := d.opener,
        it := { d.it with
          m_dir_block_ref := CacheBlockRef.mk CacheRefState.READY
            (get_abs_block_index d.w (get_cluster_data_block_index d.w
              d.it.m_chain.m_current_cluster d.it.m_block_in_cluster)),
          m_state := DirIterState.CHECK_NEXT_EVENT },
        queue := [], calls := d.calls }
      rfl ⟨q1, q2, by simp, q4, q5⟩ rfl hpos rfl hiter rfl rfl hval (Or.inl ⟨rfl, rfl⟩)
    refine ⟨d2, ?_, a2, a3, a4⟩
    rw [← a1]
    exact Reaches_trans _ _ _ s1 (Reaches_trans _ _ _ s2 s3)

end FatFs

namespace FatFs

theorem Arrives_of_Reaches (d d1 : DirWorld) (r : Seek) (h : Reaches d d1)
    (hk : d1.kept = d.kept) (ha : Arrives d1 r) : Arrives d r := by
  cases r with
  | slot c b p =>
    obtain ⟨d2, a1, a2, a3, a4⟩ := ha
    exact ⟨d2, Reaches_trans _ _ _ h a1, a2, a3, a4.trans hk⟩
  | done =>
    obtain ⟨d2, a1, a2, a3, a4⟩ := ha
    exact ⟨d2, Reaches_trans _ _ _ h a1, a2, a3, a4.trans hk⟩
  | failed =>
    obtain ⟨d2, a1, a2, a3, a4⟩ := ha
    exact ⟨d2, Reaches_trans _ _ _ h a1, a2, a3, a4.trans hk⟩

/-- After the chain has moved to a normal cluster, with `m_block_in_cluster = 0`, the
iterator comes to the first slot of that cluster, or fails when the cluster is not valid
for data. -/
theorem arrives_cluster (d : DirWorld) (hq : d.queue = [.iter_event]) (hQ : d.Quiet)
    (hpos : d.it.m_block_entry_pos = d.w.DirEntriesPerBlock)
    (hbic : d.it.m_block_in_cluster = 0)
    (hiter : d.it.m_chain.m_iter_state = IterState.CLUSTER)
    (hn : is_cluster_idx_normal d.it.m_chain.m_current_cluster = true) :
    Arrives d (seekCluster d.w d.it.m_chain.m_current_cluster) := by
  unfold seekCluster
  rw [if_neg (by rw [hn]; simp)]
  by_cases hv : is_cluster_idx_valid_for_data d.w d.it.m_chain.m_current_cluster = true
  · rw [if_neg (by rw [hv]; simp)]
    have := arrives_fetch d hq hQ hpos (by rw [hbic]; exact hQ.2.2.2.1) hiter hv
    rw [hbic] at this
    exact this
  · rw [if_pos (by simpa using hv)]
    have s1 := Reaches_iter_event d hq
    rw [event_handler_invalid { d with queue := [] } hpos (by
      show d.it.m_block_in_cluster ≠ d.w.o.blocks_per_cluster
      have := hQ.2.2.2.1
      omega) (by simpa using hv)] at s1
    exact ⟨_, s1, hQ, rfl, rfl⟩

/-- The end of `ClusterChain::event_handler`, case `NEXT_CHECK`, with the handler of the
iterator: the request of the iterator is completed at the end of the chain, and the event
of the iterator is queued otherwise. -/
theorem chain_event_handler_next_check_end_eq (d : DirWorld) :
    DirectoryIterator.chain_event_handler_next_check_end d =
      if d.it.m_chain.m_iter_state = IterState.END ∨
          is_cluster_idx_normal d.it.m_chain.m_current_cluster = false then
        DirectoryIterator.complete_request
          { d with it := { d.it with m_chain := { d.it.m_chain with
              m_state := ChainState.IDLE,
              m_fat_cache_ref1 := d.it.m_chain.m_fat_cache_ref1.reset,
              m_fat_cache_ref2 := d.it.m_chain.m_fat_cache_ref2.reset,
              m_iter_state := IterState.END } } } false none {}
      else
        { d with queue := .iter_event :: d.queue,
                 it := { d.it with
                   m_chain := { d.it.m_chain with
                     m_state := ChainState.IDLE,
                     m_fat_cache_ref1 := d.it.m_chain.m_fat_cache_ref1.reset,
                     m_fat_cache_ref2 := d.it.m_chain.m_fat_cache_ref2.reset,
                     m_iter_state := IterState.CLUSTER },
                   m_block_in_cluster := 0,
                   m_state := DirIterState.CHECK_NEXT_EVENT } } := by
  unfold DirectoryIterator.chain_event_handler_next_check_end
    DirectoryIterator.chain_complete_request DirectoryIterator.chain_handler
  simp only [DirWorld.setIt]
  by_cases h1 : d.it.m_chain.m_iter_state = IterState.END
  · simp [h1]
  · by_cases h2 : is_cluster_idx_normal d.it.m_chain.m_current_cluster = true
    · simp [h1, h2, DirectoryIterator.schedule_event, DirWorld.setIt,
        DirWorld.prependNowNotAlready]
    · have h3 : is_cluster_idx_normal d.it.m_chain.m_current_cluster = false := by
        simpa using h2
      simp [h1, h3]

theorem reset_state_ne (r : CacheBlockRef) : r.reset.state ≠ CacheRefState.REQUESTING := by
  simp [CacheBlockRef.reset]

theorem arrives_next_check_end (d0 X : DirWorld)
    (hR : Reaches d0 (DirectoryIterator.chain_event_handler_next_check_end X))
    (hk : X.kept = d0.kept) (hq : X.queue = [])
    (hdref : X.it.m_dir_block_ref.state ≠ CacheRefState.REQUESTING)
    (hgeo : 1 ≤ X.w.o.blocks_per_cluster ∧ X.w.o.blocks_per_cluster < 2 ^ 16)
    (hpos : X.it.m_block_entry_pos = X.w.DirEntriesPerBlock)
    (hbic : X.it.m_block_in_cluster = X.w.o.blocks_per_cluster) :
    Arrives d0 (if X.it.m_chain.m_iter_state = IterState.END then Seek.done
      else seekCluster X.w X.it.m_chain.m_current_cluster) := by
  rw [chain_event_handler_next_check_end_eq] at hR
  by_cases h1 : X.it.m_chain.m_iter_state = IterState.END ∨
      is_cluster_idx_normal X.it.m_chain.m_current_cluster = false
  · rw [if_pos h1] at hR
    have hr : (if X.it.m_chain.m_iter_state = IterState.END then Seek.done
        else seekCluster X.w X.it.m_chain.m_current_cluster) = Seek.done := by
      split_ifs with h2
      · rfl
      · unfold seekCluster
        rw [if_pos (h1.resolve_left h2)]
    rw [hr]
    refine ⟨_, hR, ?_, hq, hk⟩
    exact ⟨⟨rfl, reset_state_ne X.it.m_chain.m_fat_cache_ref1, hdref, hgeo⟩, rfl, hbic, hpos⟩
  · rw [if_neg h1] at hR
    push_neg at h1
    rw [if_neg h1.1]
    have hn : is_cluster_idx_normal X.it.m_chain.m_current_cluster = true := by
      simpa using h1.2
    refine Arrives_of_Reaches d0 _ _ hR hk ?_
    refine arrives_cluster _ ?_ ⟨rfl, reset_state_ne X.it.m_chain.m_fat_cache_ref1, hdref, hgeo⟩
      hpos rfl rfl hn
    show DirEvent.iter_event :: X.queue = _
    rw [hq]

theorem chain_event_handler_eq (d : DirWorld)
    (hs : d.it.m_chain.m_state = ChainState.NEXT_CHECK) :
    DirectoryIterator.chain_event_handler d =
      if d.it.m_chain.m_iter_state = IterState.CLUSTER then
        if is_cluster_idx_valid_for_fat d.w d.it.m_chain.m_current_cluster = false then
          DirectoryIterator.chain_complete_request d true false
        else if Immediate d.w.loaded d.it.m_chain.m_fat_cache_ref1
            (get_abs_block_index_for_fat_entry d.w d.it.m_chain.m_current_cluster) then
          DirectoryIterator.chain_event_handler_next_check_end
            { d with it := { d.it with m_chain := { d.it.m_chain with
                m_fat_cache_ref1 := CacheBlockRef.mk CacheRefState.READY
                  (get_abs_block_index_for_fat_entry d.w d.it.m_chain.m_current_cluster),
                m_prev_cluster := d.it.m_chain.m_current_cluster,
                m_current_cluster := fatNext d.w d.it.m_chain.m_current_cluster } } }
        else
          { d with it := { d.it with m_chain := { d.it.m_chain with
              m_fat_cache_ref1 := CacheBlockRef.mk CacheRefState.REQUESTING
                (get_abs_block_index_for_fat_entry d.w d.it.m_chain.m_current_cluster),
              m_state := ChainState.NEXT_REQUESTING_FAT } } }
      else DirectoryIterator.chain_event_handler_next_check_end d := by
  unfold DirectoryIterator.chain_event_handler
  rw [hs]
  simp only []
  by_cases h1 : d.it.m_chain.m_iter_state = IterState.CLUSTER
  · rw [if_pos h1, if_pos h1]
    by_cases h2 : is_cluster_idx_valid_for_fat d.w d.it.m_chain.m_current_cluster = false
    · rw [if_pos h2, if_pos h2]
    · rw [if_neg h2, if_neg h2]
      by_cases h3 : Immediate d.w.loaded d.it.m_chain.m_fat_cache_ref1
          (get_abs_block_index_for_fat_entry d.w d.it.m_chain.m_current_cluster)
      · rw [if_pos h3]
        unfold Immediate at h3
        simp only [request_fat_cache_block, World.requestBlock, true_and, h3, if_true,
          DirWorld.setIt, Bool.true_eq_false, if_false]
        rfl
      · rw [if_neg h3]
        unfold Immediate at h3
        simp only [request_fat_cache_block, World.requestBlock, true_and, h3, if_false,
          DirWorld.setIt, if_true]
  · rw [if_neg h1, if_neg h1]

theorem chain_complete_request_error (d : DirWorld) :
    DirectoryIterator.chain_complete_request d true false =
      DirectoryIterator.complete_request
        { d with it := { d.it with m_chain := { d.it.m_chain with
            m_state := ChainState.IDLE,
            m_fat_cache_ref1 := d.it.m_chain.m_fat_cache_ref1.reset,
            m_fat_cache_ref2 := d.it.m_chain.m_fat_cache_ref2.reset } } } true none {} := by
  unfold DirectoryIterator.chain_complete_request DirectoryIterator.chain_handler
  simp [DirWorld.setIt]

theorem kept_volume (d d2 : DirWorld) (h : d2.kept = d.kept) : d2.w.volume = d.w.volume := by
  unfold DirWorld.kept at h
  exact (Prod.mk.inj h).1

theorem seekCluster_volume (w w2 : World) (h : w2.volume = w.volume) (c : Nat) :
    seekCluster w2 c = seekCluster w c := by
  show seekCluster w2.volume c = seekCluster w.volume c
  rw [h]

theorem fatNext_volume (w w2 : World) (h : w2.volume = w.volume) (c : Nat) :
    fatNext w2 c = fatNext w c := by
  show fatNext w2.volume c = fatNext w.volume c
  rw [h]

/-- The chain step of the iterator with the FAT block at hand. -/
theorem arrives_chain_now (d X : DirWorld) (c : Nat) (hR : Reaches d X) (hk : X.kept = d.kept)
    (hc : X.it.m_chain.m_current_cluster = c)
    (hq : X.queue = [.chain_event]) (hs : X.it.m_chain.m_state = ChainState.NEXT_CHECK)
    (hi : X.it.m_chain.m_iter_state = IterState.CLUSTER)
    (hv : is_cluster_idx_valid_for_fat X.w X.it.m_chain.m_current_cluster = true)
    (him : Immediate X.w.loaded X.it.m_chain.m_fat_cache_ref1
      (get_abs_block_index_for_fat_entry X.w X.it.m_chain.m_current_cluster))
    (hdref : X.it.m_dir_block_ref.state ≠ CacheRefState.REQUESTING)
    (hgeo : 1 ≤ X.w.o.blocks_per_cluster ∧ X.w.o.blocks_per_cluster < 2 ^ 16)
    (hpos : X.it.m_block_entry_pos = X.w.DirEntriesPerBlock)
    (hbic : X.it.m_block_in_cluster = X.w.o.blocks_per_cluster) :
    Arrives d (seekCluster d.w (fatNext d.w c)) := by
  subst hc
  have s1 := Reaches_chain_event X hq
  rw [chain_event_handler_eq { X with queue := [] } hs] at s1
  simp only [] at s1
  rw [if_pos hi, if_neg (by rw [hv]; simp), if_pos him] at s1
  have := arrives_next_check_end d _ (Reaches_trans _ _ _ hR s1) hk rfl hdref hgeo hpos hbic
  rw [if_neg (by
    show X.it.m_chain.m_iter_state ≠ IterState.END
    rw [hi]
    simp)] at this
  have e : seekCluster d.w (fatNext d.w X.it.m_chain.m_current_cluster) =
      seekCluster X.w (fatNext X.w X.it.m_chain.m_current_cluster) := by
    rw [seekCluster_volume d.w X.w (kept_volume _ _ hk), fatNext_volume d.w X.w (kept_volume _ _ hk)]
  rw [e]
  exact this

/-- The chain step of the iterator: at the end of a cluster (or before the first one), the
iterator asks its chain for the next cluster and comes to the first slot of it, to the end
of the directory, or to an error. -/
theorem arrives_advance (d : DirWorld) (hq : d.queue = [.iter_event]) (hQ : d.Quiet)
    (hpos : d.it.m_block_entry_pos = d.w.DirEntriesPerBlock)
    (hbic : d.it.m_block_in_cluster = d.w.o.blocks_per_cluster) :
    Arrives d (if d.it.m_chain.m_iter_state = IterState.END then Seek.done
      else if d.it.m_chain.m_iter_state = IterState.START then
        seekCluster d.w d.it.m_chain.m_current_cluster
      else if is_cluster_idx_valid_for_fat d.w d.it.m_chain.m_current_cluster = false then
        Seek.failed
      else seekCluster d.w (fatNext d.w d.it.m_chain.m_current_cluster)) := by
  obtain ⟨q1, q2, q3, q4, q5⟩ := hQ
  have s1 := Reaches_iter_event d hq
  rw [event_handler_next_cluster { d with queue := [] } hpos hbic] at s1
  have hreset : (d.it.m_dir_block_ref.reset).state ≠ CacheRefState.REQUESTING :=
    reset_state_ne _
  by_cases h1 : d.it.m_chain.m_iter_state = IterState.CLUSTER
  · rw [if_neg (by rw [h1]; simp), if_neg (by rw [h1]; simp)]
    by_cases h2 : is_cluster_idx_valid_for_fat d.w d.it.m_chain.m_current_cluster = false
    · rw [if_pos h2]
      have s2 := Reaches_chain_event
        ({ d with queue := [.chain_event],
                  it := { d.it with
                    m_dir_block_ref := d.it.m_dir_block_ref.reset,
                    m_chain := { d.it.m_chain with m_state := ChainState.NEXT_CHECK },
                    m_state := DirIterState.REQUESTING_CLUSTER } } : DirWorld) rfl
      have s12 := Reaches_trans _ _ _ s1 s2
      rw [chain_event_handler_eq _ rfl] at s12
      simp only [] at s12
      rw [if_pos h1, if_pos h2, chain_complete_request_error] at s12
      refine ⟨_, s12, ?_, rfl, rfl⟩
      exact ⟨rfl, reset_state_ne d.it.m_chain.m_fat_cache_ref1, hreset, q4, q5⟩
    · rw [if_neg h2]
      have hv : is_cluster_idx_valid_for_fat d.w d.it.m_chain.m_current_cluster = true := by
        simpa using h2
      by_cases h3 : Immediate d.w.loaded d.it.m_chain.m_fat_cache_ref1
          (get_abs_block_index_for_fat_entry d.w d.it.m_chain.m_current_cluster)
      · exact arrives_chain_now d _ _ s1 rfl rfl rfl rfl h1 hv h3 hreset ⟨q4, q5⟩ hpos hbic
      · have s2 := Reaches_chain_event
          ({ d with queue := [.chain_event],
                    it := { d.it with
                      m_dir_block_ref := d.it.m_dir_block_ref.reset,
                      m_chain := { d.it.m_chain with m_state := ChainState.NEXT_CHECK },
                      m_state := DirIterState.REQUESTING_CLUSTER } } : DirWorld) rfl
        have s12 := Reaches_trans _ _ _ s1 s2
        rw [chain_event_handler_eq _ rfl] at s12
        simp only [] at s12
        rw [if_pos h1, if_neg h2, if_neg h3] at s12
        have s3 := Reaches_fat_ref
          ({ d with queue := [],
                    it := { d.it with
                      m_dir_block_ref := d.it.m_dir_block_ref.reset,
                      m_chain := { d.it.m_chain with
                        m_fat_cache_ref1 := CacheBlockRef.mk CacheRefState.REQUESTING
                          (get_abs_block_index_for_fat_entry d.w d.it.m_chain.m_current_cluster),
                        m_state := ChainState.NEXT_REQUESTING_FAT },
                      m_state := DirIterState.REQUESTING_CLUSTER } } : DirWorld) rfl rfl
        have s123 := Reaches_trans _ _ _ s12 s3
        exact arrives_chain_now d _ _ s123 rfl rfl rfl rfl h1 hv (Or.inl ⟨rfl, rfl⟩) hreset
          ⟨q4, q5⟩ hpos hbic
  · have s2 := Reaches_chain_event
      ({ d with queue := [.chain_event],
                it := { d.it with
                  m_dir_block_ref := d.it.m_dir_block_ref.reset,
                  m_chain := { d.it.m_chain with m_state := ChainState.NEXT_CHECK },
                  m_state := DirIterState.REQUESTING_CLUSTER } } : DirWorld) rfl
    have s12 := Reaches_trans _ _ _ s1 s2
    rw [chain_event_handler_eq _ rfl] at s12
    simp only [] at s12
    rw [if_neg h1] at s12
    have := arrives_next_check_end d _ s12 rfl rfl hreset ⟨q4, q5⟩ hpos hbic
    by_cases h2 : d.it.m_chain.m_iter_state = IterState.END
    · rw [if_pos h2]
      rw [if_pos (show (_ : DirWorld).it.m_chain.m_iter_state = _ from h2)] at this
      exact this
    · rw [if_neg h2]
      rw [if_neg (show ¬ (_ : DirWorld).it.m_chain.m_iter_state = _ from h2)] at this
      have h3 : d.it.m_chain.m_iter_state = IterState.START := by
        cases h : d.it.m_chain.m_iter_state
        · rfl
        · exact absurd h h1
        · exact absurd h h2
      rw [if_pos h3]
      exact this

end FatFs

namespace FatFs

/-- From a state whose members fit together, the event of the iterator brings it to the
place that `seek` tells. -/
theorem positioned_arrives (d : DirWorld) (hq : d.queue = [.iter_event]) (hP : d.Positioned) :
    Arrives d d.seek := by
  obtain ⟨hQ, hle, hcl, hpin⟩ := hP
  unfold DirWorld.seek
  by_cases h1 : d.it.m_block_entry_pos ≠ d.w.DirEntriesPerBlock
  · rw [if_pos h1]
    obtain ⟨p1, p2⟩ := hpin h1
    have s1 := Reaches_iter_event d hq
    rw [event_handler_in_block { d with queue := [] } h1] at s1
    refine ⟨_, s1, ?_, rfl, rfl⟩
    refine ⟨hQ, p2, hcl (Or.inl h1), rfl, ?_, ?_, rfl⟩
    · show d.it.m_block_in_cluster = d.it.m_block_in_cluster - 1 + 1
      omega
    · show d.it.m_block_in_cluster - 1 < d.w.o.blocks_per_cluster
      omega
  · rw [if_neg h1]
    have hpos : d.it.m_block_entry_pos = d.w.DirEntriesPerBlock := not_not.1 h1
    by_cases h2 : d.it.m_block_in_cluster ≠ d.w.o.blocks_per_cluster
    · rw [if_pos h2]
      by_cases h3 : is_cluster_idx_valid_for_data d.w d.it.m_chain.m_current_cluster = false
      · rw [if_pos h3]
        have s1 := Reaches_iter_event d hq
        rw [event_handler_invalid { d with queue := [] } hpos h2 h3] at s1
        exact ⟨_, s1, hQ, rfl, rfl⟩
      · rw [if_neg h3]
        exact arrives_fetch d hq hQ hpos (by omega) (hcl (Or.inr h2)) (by simpa using h3)
    · rw [if_neg h2]
      exact arrives_advance d hq hQ hpos (not_not.1 h2)

theorem clusterBlock_volume (w w2 : World) (h : w2.volume = w.volume) (c b : Nat) :
    clusterBlock w2 c b = clusterBlock w c b := by
  show clusterBlock w2.volume c b = clusterBlock w.volume c b
  rw [h]

theorem nextSlot_volume (w w2 : World) (h : w2.volume = w.volume) (c b p : Nat) :
    nextSlot w2 c b p = nextSlot w c b p := by
  show nextSlot w2.volume c b p = nextSlot w.volume c b p
  rw [h]

theorem slotEntry_volume (w w2 : World) (h : w2.volume = w.volume) (c b p : Nat) :
    slotEntry w2 c b p = slotEntry w c b p := by
  show slotEntry w2.volume c b p = slotEntry w.volume c b p
  rw [h]

theorem scan_volume (w w2 : World) (h : w2.volume = w.volume) (n : Nat) :
    ∀ (s : Seek) (v : VfatState), scan w2 n s v = scan w n s v := by
  induction n with
  | zero =>
    intro s v
    rfl
  | succ n ih =>
    intro s v
    cases s with
    | slot c b p =>
      unfold scan
      rw [clusterBlock_volume w w2 h, nextSlot_volume w w2 h, slotEntry_volume w w2 h, ih, ih]
    | done => rfl
    | failed => rfl

/-- The block `// VFAT entry` changes the VFAT run and nothing else, and what it does
depends on the VFAT run only. -/
theorem event_handler_vfat_pure (d : DirWorld) (buffer : Buffer) (entry_ptr : Nat) :
    DirectoryIterator.event_handler_vfat d buffer entry_ptr =
      { d with it := { d.it with
          m_vfat_seq := (d.vfat.afterVfat buffer entry_ptr).m_vfat_seq,
          m_vfat_csum := (d.vfat.afterVfat buffer entry_ptr).m_vfat_csum,
          m_filename_pos := (d.vfat.afterVfat buffer entry_ptr).m_filename_pos,
          m_filename := (d.vfat.afterVfat buffer entry_ptr).m_filename } } ∧
    (d.vfat.afterVfat buffer entry_ptr).MaxFileNameSize = d.MaxFileNameSize := by
  unfold VfatState.afterVfat
  rw [event_handler_vfat_eq d.vfat.world, event_handler_vfat_eq d]
  have e1 : d.vfat.world.collects buffer entry_ptr ↔ d.collects buffer entry_ptr := Iff.rfl
  have e2 : d.vfat.world.run_pos buffer entry_ptr = d.run_pos buffer entry_ptr := rfl
  have e3 : d.vfat.world.run_seq buffer entry_ptr = d.run_seq buffer entry_ptr := rfl
  have e4 : d.vfat.world.run_csum buffer entry_ptr = d.run_csum buffer entry_ptr := rfl
  have e5 : d.vfat.world.it.m_filename = d.it.m_filename := rfl
  by_cases hc : d.collects buffer entry_ptr
  · rw [if_pos hc, if_pos (e1.2 hc), e2, e3, e4, e5]
    by_cases hx : (collect_loop (vfat_name_data buffer entry_ptr) (d.run_pos buffer entry_ptr) 13
        0 d.it.m_filename 0).2.2 = true
    · rw [if_pos hx, if_pos hx]
      exact ⟨rfl, rfl⟩
    · rw [if_neg hx, if_neg hx]
      exact ⟨rfl, rfl⟩
  · rw [if_neg hc, if_neg (fun h => hc (e1.1 h)), e2, e4]
    exact ⟨rfl, rfl⟩

end FatFs

namespace FatFs

theorem at_buffer (d : DirWorld) (c b p : Nat) (hA : d.At c b p) :
    d.buffer = clusterBlock d.w c b ∧ d.entry_ptr = p * 32 := by
  obtain ⟨_, h2, _, _, _, _, h7⟩ := hA
  unfold DirWorld.buffer DirWorld.entry_ptr World.getData
  rw [h2, h7]
  exact ⟨rfl, rfl⟩

/-- After the slot `p` of a pinned block has been looked at, the members of the iterator
fit together and the next slot is the one that follows in the directory. -/
theorem positioned_after (d d3 : DirWorld) (c b p : Nat) (hA : d.At c b p)
    (hw : d3.w = d.w) (hchain : d3.it.m_chain = d.it.m_chain)
    (hdref : d3.it.m_dir_block_ref = d.it.m_dir_block_ref)
    (hbic : d3.it.m_block_in_cluster = d.it.m_block_in_cluster)
    (hpos : d3.it.m_block_entry_pos = p + 1) :
    d3.Positioned ∧ d3.seek = nextSlot d.w c b p := by
  obtain ⟨⟨q1, q2, q3, q4, q5⟩, h2, h3, h4, h5, h6, h7⟩ := hA
  constructor
  · refine ⟨⟨?_, ?_, ?_, ?_, ?_⟩, ?_, ?_, ?_⟩
    · rw [hchain]; exact q1
    · rw [hchain]; exact q2
    · rw [hdref]; exact q3
    · rw [hw]; exact q4
    · rw [hw]; exact q5
    · rw [hbic, hw, h5]; omega
    · intro _
      rw [hchain]
      exact h3
    · intro _
      rw [hbic, hdref, hchain, hw, h5, h4, h2]
      exact ⟨by omega, rfl⟩
  · unfold DirWorld.seek nextSlot
    rw [hpos, hbic, hchain, hw, h5, h4, h3]
    simp only [Nat.add_sub_cancel, reduceCtorEq, if_false]

theorem at_end (d : DirWorld) (c b p : Nat) (hA : d.At c b p)
    (h : slotEnd (clusterBlock d.w c b) (p * 32)) :
    DirectoryIterator.event_handler_entry d =
      DirectoryIterator.complete_request d false none {} := by
  obtain ⟨e1, e2⟩ := at_buffer d c b p hA
  exact event_handler_entry_end d (by rw [e1, e2]; exact h)

theorem at_vfat (d : DirWorld) (c b p : Nat) (hA : d.At c b p) (hq : d.queue = [])
    (h0 : ¬ slotEnd (clusterBlock d.w c b) (p * 32))
    (hv : slotVfat (clusterBlock d.w c b) (p * 32)) :
    (DirectoryIterator.event_handler_entry d).queue = [.iter_event] ∧
    (DirectoryIterator.event_handler_entry d).Positioned ∧
    (DirectoryIterator.event_handler_entry d).seek = nextSlot d.w c b p ∧
    (DirectoryIterator.event_handler_entry d).vfat =
      d.vfat.afterVfat (clusterBlock d.w c b) (p * 32) ∧
    (DirectoryIterator.event_handler_entry d).w = d.w ∧
    (DirectoryIterator.event_handler_entry d).opener = d.opener ∧
    (DirectoryIterator.event_handler_entry d).calls = d.calls := by
  obtain ⟨e1, e2⟩ := at_buffer d c b p hA
  rw [event_handler_entry_vfat d (by rw [e1, e2]; exact h0) (by rw [e1, e2]; exact hv)]
  rw [(event_handler_vfat_pure _ _ _).1, e1, e2]
  have hp := (event_handler_vfat_pure
    { d with it := { d.it with m_block_entry_pos := d.it.m_block_entry_pos + 1 } }
    (clusterBlock d.w c b) (p * 32)).2
  obtain ⟨a1, a2⟩ := positioned_after d
    (DirectoryIterator.schedule_event
      { d with it := { d.it with
          m_block_entry_pos := d.it.m_block_entry_pos + 1,
          m_vfat_seq := (d.vfat.afterVfat (clusterBlock d.w c b) (p * 32)).m_vfat_seq,
          m_vfat_csum := (d.vfat.afterVfat (clusterBlock d.w c b) (p * 32)).m_vfat_csum,
          m_filename_pos := (d.vfat.afterVfat (clusterBlock d.w c b) (p * 32)).m_filename_pos,
          m_filename := (d.vfat.afterVfat (clusterBlock d.w c b) (p * 32)).m_filename } })
    c b p hA rfl rfl rfl rfl (by
      show d.it.m_block_entry_pos + 1 = p + 1
      rw [hA.2.2.2.2.2.2])
  refine ⟨?_, a1, a2, ?_, rfl, rfl, rfl⟩
  · show DirEvent.iter_event :: d.queue = _
    rw [hq]
  · have hx : ∀ X : VfatState, X.MaxFileNameSize = d.MaxFileNameSize →
        VfatState.mk d.MaxFileNameSize X.m_vfat_seq X.m_vfat_csum X.m_filename_pos
          X.m_filename = X := by
      intro X hX
      cases X
      simp only [VfatState.mk.injEq, and_true]
      exact hX.symm
    exact hx _ hp

theorem at_ignored (d : DirWorld) (c b p : Nat) (hA : d.At c b p) (hq : d.queue = [])
    (h0 : ¬ slotEnd (clusterBlock d.w c b) (p * 32))
    (hv : ¬ slotVfat (clusterBlock d.w c b) (p * 32))
    (hi : slotIgnored (clusterBlock d.w c b) (p * 32)) :
    (DirectoryIterator.event_handler_entry d).queue = [.iter_event] ∧
    (DirectoryIterator.event_handler_entry d).Positioned ∧
    (DirectoryIterator.event_handler_entry d).seek = nextSlot d.w c b p ∧
    (DirectoryIterator.event_handler_entry d).vfat = d.vfat.forget ∧
    (DirectoryIterator.event_handler_entry d).w = d.w ∧
    (DirectoryIterator.event_handler_entry d).opener = d.opener ∧
    (DirectoryIterator.event_handler_entry d).calls = d.calls := by
  obtain ⟨e1, e2⟩ := at_buffer d c b p hA
  rw [event_handler_entry_ignored d (by rw [e1, e2]; exact h0) (by rw [e1, e2]; exact hv)
    (by rw [e1, e2]; exact hi)]
  obtain ⟨a1, a2⟩ := positioned_after d
    (DirectoryIterator.schedule_event
      { d with it := { d.it with m_block_entry_pos := d.it.m_block_entry_pos + 1,
                                 m_vfat_seq := -1 } })
    c b p hA rfl rfl rfl rfl (by
      show d.it.m_block_entry_pos + 1 = p + 1
      rw [hA.2.2.2.2.2.2])
  refine ⟨?_, a1, a2, rfl, rfl, rfl, rfl⟩
  show DirEvent.iter_event :: d.queue = _
  rw [hq]

theorem slot_entry_at (d : DirWorld) (c b p : Nat) (hA : d.At c b p) :
    d.slot_entry = slotEntry d.w c b p := by
  obtain ⟨e1, e2⟩ := at_buffer d c b p hA
  obtain ⟨_, h2, h3, h4, h5, h6, h7⟩ := hA
  unfold DirWorld.slot_entry slotEntry
  rw [e1, e2, h4, h5, h7]
  rfl

/-- `event_handler` on a short slot of a pinned block: the request is completed with the
name and the entry of the slot. -/
theorem at_short (d : DirWorld) (c b p : Nat) (hA : d.At c b p) (hq : d.queue = [])
    (hs : slotShort (clusterBlock d.w c b) (p * 32)) :
    ∃ d3, DirectoryIterator.event_handler_entry d =
        DirectoryIterator.complete_request d3 false
          (some (d.vfat.shortName (clusterBlock d.w c b) (p * 32))) (slotEntry d.w c b p) ∧
      d3.queue = [] ∧ d3.Positioned ∧ d3.seek = nextSlot d.w c b p ∧
      d3.vfat = d.vfat.afterShort (clusterBlock d.w c b) (p * 32) ∧
      d3.w = d.w ∧ d3.opener = d.opener ∧ d3.calls = d.calls := by
  obtain ⟨e1, e2⟩ := at_buffer d c b p hA
  have hs2 : slotShort d.buffer d.entry_ptr := by rw [e1, e2]; exact hs
  have hpos : d.it.m_block_entry_pos = p := hA.2.2.2.2.2.2
  by_cases hl : d.vfat.hasLongName (clusterBlock d.w c b) (p * 32)
  · have hl2 := hl
    unfold VfatState.hasLongName at hl2
    rw [← e1, ← e2] at hl2
    obtain ⟨a1, a2⟩ := positioned_after d
      { d with it := { d.it with
          m_block_entry_pos := d.it.m_block_entry_pos + 1,
          m_vfat_seq := -1,
          m_filename := memcpy d.it.m_filename d.MaxFileNameSize [0] } }
      c b p hA rfl rfl rfl rfl (by
        show d.it.m_block_entry_pos + 1 = p + 1
        rw [hpos])
    refine ⟨{ d with it := { d.it with
          m_block_entry_pos := d.it.m_block_entry_pos + 1,
          m_vfat_seq := -1,
          m_filename := memcpy d.it.m_filename d.MaxFileNameSize [0] } }, ?_, hq, a1, a2, ?_,
      rfl, rfl, rfl⟩
    · rw [event_handler_entry_long d hs2 hl2.1 hl2.2.1 hl2.2.2, slot_entry_at d c b p hA]
      unfold VfatState.shortName
      rw [if_pos hl]
      rfl
    · unfold VfatState.afterShort
      rw [if_pos hl]
      rfl
  · have hl2 : ReadBinaryInt8 d.buffer (d.entry_ptr + 0x0) = 0x2E ∨ d.it.m_vfat_seq ≠ 0 ∨
        vfat_checksum d.buffer d.entry_ptr ≠ d.it.m_vfat_csum := by
      rw [e1, e2]
      unfold VfatState.hasLongName at hl
      by_contra hc
      push_neg at hc
      exact hl ⟨hc.1, hc.2.1, hc.2.2⟩
    obtain ⟨a1, a2⟩ := positioned_after d
      { d with it := { d.it with
          m_block_entry_pos := d.it.m_block_entry_pos + 1,
          m_vfat_seq := -1,
          m_filename := memcpy d.it.m_filename 0
            (DirectoryIterator.name_83 d.buffer d.entry_ptr ++ [0]) } }
      c b p hA rfl rfl rfl rfl (by
        show d.it.m_block_entry_pos + 1 = p + 1
        rw [hpos])
    refine ⟨{ d with it := { d.it with
          m_block_entry_pos := d.it.m_block_entry_pos + 1,
          m_vfat_seq := -1,
          m_filename := memcpy d.it.m_filename 0
            (DirectoryIterator.name_83 d.buffer d.entry_ptr ++ [0]) } }, ?_, hq, a1, a2, ?_,
      rfl, rfl, rfl⟩
    · rw [event_handler_entry_83 d hs2 hl2, slot_entry_at d c b p hA]
      unfold VfatState.shortName
      rw [if_neg hl, e1, e2]
    · unfold VfatState.afterShort
      rw [if_neg hl, e1, e2]
      rfl

end FatFs

namespace FatFs

theorem DirEntriesPerBlock_volume (w w2 : World) (h : w2.volume = w.volume) :
    w2.DirEntriesPerBlock = w.DirEntriesPerBlock := by
  show w2.volume.DirEntriesPerBlock = w.volume.DirEntriesPerBlock
  rw [h]

theorem seekCluster_slot (w : World) (x c b p : Nat) (h : seekCluster w x = Seek.slot c b p) :
    p = 0 := by
  unfold seekCluster at h
  split_ifs at h
  injection h with _ _ h3
  exact h3.symm

/-- The slot that an iterator reads next is a slot of a block. -/
theorem seek_slot_ne (d : DirWorld) (hB : d.w.DirEntriesPerBlock ≠ 0) (c b p : Nat)
    (h : d.seek = Seek.slot c b p) : p ≠ d.w.DirEntriesPerBlock := by
  unfold DirWorld.seek at h
  split_ifs at h with h1 h2 h3 h4 h5 h6
  · injection h with _ _ h3
    rw [← h3]
    exact h1
  · injection h with _ _ h3
    rw [← h3]
    exact fun e => hB e.symm
  · rw [seekCluster_slot _ _ _ _ _ h]
    exact fun e => hB e.symm
  · rw [seekCluster_slot _ _ _ _ _ h]
    exact fun e => hB e.symm

/-- At a slot of a block, the members of the iterator fit together and the slot is the one
that is read next. -/
theorem positioned_at (d : DirWorld) (c b p : Nat) (hA : d.At c b p)
    (hp : p ≠ d.w.DirEntriesPerBlock) : d.Positioned ∧ d.seek = Seek.slot c b p := by
  obtain ⟨hQ, h2, h3, h4, h5, h6, h7⟩ := hA
  constructor
  · refine ⟨hQ, ?_, fun _ => h3, fun _ => ⟨?_, ?_⟩⟩
    · rw [h5]; omega
    · rw [h5]; omega
    · rw [h2, h4, h5]
      rfl
  · unfold DirWorld.seek
    rw [if_pos (by rw [h7]; exact hp), h4, h5, h7]
    rfl

theorem positioned_atEnd (d : DirWorld) (hA : d.AtEnd) : d.Positioned ∧ d.seek = Seek.done := by
  obtain ⟨hQ, h2, h3, h4⟩ := hA
  constructor
  · refine ⟨hQ, ?_, ?_, ?_⟩
    · rw [h3]
    · intro h
      rcases h with h | h
      · exact absurd h4 h
      · exact absurd h3 h
    · intro h
      exact absurd h4 h
  · unfold DirWorld.seek
    rw [if_neg (fun h => h h4), if_neg (fun h => h h3), if_pos h2]

theorem kept_parts (d d2 : DirWorld) (h : d2.kept = d.kept) :
    d2.w.volume = d.w.volume ∧ d2.opener = d.opener ∧ d2.calls = d.calls ∧ d2.vfat = d.vfat := by
  unfold DirWorld.kept at h
  obtain ⟨a, h⟩ := Prod.mk.inj h
  obtain ⟨b, h⟩ := Prod.mk.inj h
  obtain ⟨c, e⟩ := Prod.mk.inj h
  exact ⟨a, b, c, e⟩

/-- A request for an entry does what `scan` says: when `scan` gives a result for the place
where the iterator reads next, the event loop and the block cache bring the iterator to the
completion of the request with that result, at the place and with the VFAT run that `scan`
gives. -/
theorem scan_refines (n : Nat) : ∀ (d : DirWorld), d.queue = [.iter_event] → d.Positioned →
    d.w.DirEntriesPerBlock ≠ 0 →
    ∀ (out : Outcome) (stop next : Seek) (v : VfatState),
    scan d.w n d.seek d.vfat = some (out, stop, next, v) →
    ∃ d2, Reaches d (DirectoryIterator.complete_request d2 out.is_error out.name out.fsEntry) ∧
      d2.queue = [] ∧ d2.Quiet ∧ (out ≠ Outcome.error → d2.Positioned ∧ d2.seek = next) ∧
      d2.vfat = v ∧ d2.w.volume = d.w.volume ∧ d2.opener = d.opener ∧ d2.calls = d.calls := by
  induction n with
  | zero =>
    intro d _ _ _ out stop next v h
    exact absurd h (by simp [scan])
  | succ n ih =>
    intro d hq hP hB out stop next v h
    have hA := positioned_arrives d hq hP
    have hne := seek_slot_ne d hB
    generalize d.seek = r at hA h hne
    cases r with
    | done =>
      obtain ⟨d2, a1, a2, a3, a4⟩ := hA
      obtain ⟨k1, k2, k3, k4⟩ := kept_parts d d2 a4
      simp only [scan, Option.some.injEq, Prod.mk.injEq] at h
      obtain ⟨rfl, rfl, rfl, rfl⟩ := h
      exact ⟨d2, a1, a3, a2.1, fun _ => positioned_atEnd d2 a2, k4, k1, k2, k3⟩
    | failed =>
      obtain ⟨d2, a1, a2, a3, a4⟩ := hA
      obtain ⟨k1, k2, k3, k4⟩ := kept_parts d d2 a4
      simp only [scan, Option.some.injEq, Prod.mk.injEq] at h
      obtain ⟨rfl, rfl, rfl, rfl⟩ := h
      exact ⟨d2, a1, a3, a2, fun hx => absurd rfl hx, k4, k1, k2, k3⟩
    | slot c b p =>
      obtain ⟨d2, a1, a2, a3, a4⟩ := hA
      obtain ⟨k1, k2, k3, k4⟩ := kept_parts d d2 a4
      have hcb : clusterBlock d2.w c b = clusterBlock d.w c b := clusterBlock_volume _ _ k1 c b
      have hns : nextSlot d2.w c b p = nextSlot d.w c b p := nextSlot_volume _ _ k1 c b p
      have hde : d2.w.DirEntriesPerBlock = d.w.DirEntriesPerBlock :=
        DirEntriesPerBlock_volume _ _ k1
      have hp : p ≠ d2.w.DirEntriesPerBlock := by
        rw [hde]
        exact hne c b p rfl
      simp only [scan] at h
      by_cases h0 : slotEnd (clusterBlock d.w c b) (p * 32)
      · rw [if_pos h0] at h
        simp only [Option.some.injEq, Prod.mk.injEq] at h
        obtain ⟨rfl, rfl, rfl, rfl⟩ := h
        refine ⟨d2, ?_, a3, a2.1, fun _ => positioned_at d2 c b p a2 hp, k4, k1, k2, k3⟩
        rw [at_end d2 c b p a2 (by rw [hcb]; exact h0)] at a1
        exact a1
      · rw [if_neg h0] at h
        by_cases hv : slotVfat (clusterBlock d.w c b) (p * 32)
        · rw [if_pos hv] at h
          obtain ⟨b1, b2, b3, b4, b5, b6, b7⟩ := at_vfat d2 c b p a2 a3
            (by rw [hcb]; exact h0) (by rw [hcb]; exact hv)
          have hvol : (DirectoryIterator.event_handler_entry d2).w.volume = d.w.volume := by
            rw [b5]; exact k1
          obtain ⟨d4, e1, e2, e3, e4, e5, e6, e7, e8⟩ := ih
            (DirectoryIterator.event_handler_entry d2) b1 b2
            (by rw [b5, hde]; exact hB) out stop next v
            (by rw [scan_volume _ _ hvol, b3, b4, hns, hcb, k4]; exact h)
          exact ⟨d4, Reaches_trans _ _ _ a1 e1, e2, e3, e4, e5, e6.trans hvol,
            (e7.trans b6).trans k2, (e8.trans b7).trans k3⟩
        · rw [if_neg hv] at h
          by_cases hi : slotIgnored (clusterBlock d.w c b) (p * 32)
          · rw [if_pos hi] at h
            obtain ⟨b1, b2, b3, b4, b5, b6, b7⟩ := at_ignored d2 c b p a2 a3
              (by rw [hcb]; exact h0) (by rw [hcb]; exact hv) (by rw [hcb]; exact hi)
            have hvol : (DirectoryIterator.event_handler_entry d2).w.volume = d.w.volume := by
              rw [b5]; exact k1
            obtain ⟨d4, e1, e2, e3, e4, e5, e6, e7, e8⟩ := ih
              (DirectoryIterator.event_handler_entry d2) b1 b2
              (by rw [b5, hde]; exact hB) out stop next v
              (by rw [scan_volume _ _ hvol, b3, b4, hns, k4]; exact h)
            exact ⟨d4, Reaches_trans _ _ _ a1 e1, e2, e3, e4, e5, e6.trans hvol,
              (e7.trans b6).trans k2, (e8.trans b7).trans k3⟩
          · rw [if_neg hi] at h
            simp only [Option.some.injEq, Prod.mk.injEq] at h
            obtain ⟨rfl, rfl, rfl, rfl⟩ := h
            have hsh : slotShort (clusterBlock d.w c b) (p * 32) := by
              unfold slotIgnored at hi
              unfold slotEnd at h0
              unfold slotShort
              push_neg at hi
              exact ⟨h0, hi.1, hi.2.1, hi.2.2⟩
            obtain ⟨d3, c1, c2, c3, c4, c5, c6, c7, c8⟩ := at_short d2 c b p a2 a3
              (by rw [hcb]; exact hsh)
            rw [c1, hcb, slotEntry_volume _ _ k1, k4] at a1
            refine ⟨d3, a1, c2, c3.1, fun _ => ⟨c3, by rw [c4, hns]⟩, ?_, ?_, c7.trans k2,
              c8.trans k3⟩
            · rw [c5, hcb, k4]
            · rw [c6]; exact k1

end FatFs

namespace FatFs

/-- `scan` ends where the specification says: after the VFAT, free, volume-label and device
slots; with the end of the directory exactly at the end of the chain or at an end marker,
and with an error exactly where the way to the next slot fails. -/
theorem scan_stop (w : World) (n : Nat) : ∀ (s : Seek) (v : VfatState) (out : Outcome)
    (stop next : Seek) (v2 : VfatState), scan w n s v = some (out, stop, next, v2) →
    skipSlots w n s = some stop ∧ (out = Outcome.finished ↔ stop.atEnd w) ∧
    (out = Outcome.finished → next = stop) ∧ (out = Outcome.error ↔ stop = Seek.failed) := by
  induction n with
  | zero =>
    intro s v out stop next v2 h
    exact absurd h (by simp [scan])
  | succ n ih =>
    intro s v out stop next v2 h
    cases s with
    | done =>
      simp only [scan, Option.some.injEq, Prod.mk.injEq] at h
      obtain ⟨rfl, rfl, rfl, rfl⟩ := h
      simp [skipSlots, Seek.atEnd]
    | failed =>
      simp only [scan, Option.some.injEq, Prod.mk.injEq] at h
      obtain ⟨rfl, rfl, rfl, rfl⟩ := h
      simp [skipSlots, Seek.atEnd]
    | slot c b p =>
      simp only [scan] at h
      simp only [skipSlots]
      by_cases h0 : slotEnd (clusterBlock w c b) (p * 32)
      · rw [if_pos h0] at h
        simp only [Option.some.injEq, Prod.mk.injEq] at h
        obtain ⟨rfl, rfl, rfl, rfl⟩ := h
        rw [if_neg (fun x => x.1 h0)]
        simp [Seek.atEnd, h0]
      · rw [if_neg h0] at h
        by_cases hv : slotVfat (clusterBlock w c b) (p * 32)
        · rw [if_pos hv] at h
          rw [if_pos ⟨h0, Or.inl hv⟩]
          exact ih _ _ _ _ _ _ h
        · rw [if_neg hv] at h
          by_cases hi : slotIgnored (clusterBlock w c b) (p * 32)
          · rw [if_pos hi] at h
            rw [if_pos ⟨h0, Or.inr hi⟩]
            exact ih _ _ _ _ _ _ h
          · rw [if_neg hi] at h
            simp only [Option.some.injEq, Prod.mk.injEq] at h
            obtain ⟨rfl, rfl, rfl, rfl⟩ := h
            rw [if_neg (fun x => x.2.elim hv hi)]
            simp [Seek.atEnd, h0]

theorem atEnd_volume (w w2 : World) (h : w2.volume = w.volume) (r : Seek) :
    r.atEnd w2 ↔ r.atEnd w := by
  cases r with
  | slot c b p =>
    simp only [Seek.atEnd]
    rw [clusterBlock_volume _ _ h]
  | done => exact Iff.rfl
  | failed => exact Iff.rfl

/-- A request of the client of a `DirLister`: when `scan` gives a result, the handler of
the client is called once, with that result, and the iterator waits for the next request
at the place that `scan` gives. -/
theorem lister_request (n : Nat) (d : DirWorld) (hq : d.queue = [])
    (hst : d.it.m_state = DirIterState.WAIT_REQUEST) (hop : d.opener = none)
    (hP : d.Positioned) (hB : d.w.DirEntriesPerBlock ≠ 0)
    (out : Outcome) (stop next : Seek) (v : VfatState)
    (h : scan d.w n d.seek d.vfat = some (out, stop, next, v)) :
    ∃ d2 F, (∀ fuel, F ≤ fuel → listNext fuel d = some d2) ∧
      d2.calls = .DirListerHandler out.is_error out.name out.fsEntry :: d.calls ∧
      d2.queue = [] ∧ d2.it.m_state = DirIterState.WAIT_REQUEST ∧ d2.opener = none ∧
      d2.Quiet ∧ (out ≠ Outcome.error → d2.Positioned ∧ d2.seek = next) ∧ d2.vfat = v ∧
      d2.w.volume = d.w.volume := by
  have hl : ∀ fuel, listNext fuel d =
      dirRun fuel [] { d with it := { d.it with m_state := DirIterState.CHECK_NEXT_EVENT },
                              queue := [.iter_event] } := by
    intro fuel
    unfold listNext dirStep
    rw [if_pos ⟨hop, hst⟩]
    simp only [Option.some_bind, DirLister.requestEntry, DirectoryIterator.requestEntry,
      DirectoryIterator.schedule_event, DirWorld.setIt, DirWorld.prependNowNotAlready, hq]
  obtain ⟨d2, ⟨s, hs⟩, e2, e3, e4, e5, e6, e7, e8⟩ := scan_refines n
    { d with it := { d.it with m_state := DirIterState.CHECK_NEXT_EVENT },
             queue := [.iter_event] } rfl hP hB out stop next v h
  have hop2 : d2.opener = none := e7.trans hop
  rw [complete_request_lister d2 hop2] at hs
  refine ⟨{ d2 with it := { d2.it with m_state := DirIterState.WAIT_REQUEST },
                     calls := .DirListerHandler out.is_error out.name out.fsEntry :: d2.calls },
    s + 1, fun fuel hf => ?_, ?_, e2, rfl, hop2, e3, e4, e5, e6⟩
  · rw [hl, show fuel = (fuel - s - 1 + 1) + s by omega, hs]
    exact dirRun_quiet _ _ e2 e3.2.1 e3.2.2.1
  · show _ :: d2.calls = _
    rw [e8]

/-- Once the end of the directory has been reported, every further request reports it
again. -/
theorem lister_end_again (m : Nat) : ∀ (d : DirWorld), d.queue = [] →
    d.it.m_state = DirIterState.WAIT_REQUEST → d.opener = none → d.Positioned →
    d.w.DirEntriesPerBlock ≠ 0 → d.seek.atEnd d.w →
    ∃ d3 F, (∀ fuel, F ≤ fuel → listN fuel m d = some d3) ∧
      d3.calls = List.replicate m (.DirListerHandler false none {}) ++ d.calls := by
  induction m with
  | zero =>
    intro d _ _ _ _ _ _
    exact ⟨d, 0, fun _ _ => rfl, rfl⟩
  | succ m ih =>
    intro d hq hst hop hP hB hE
    have hsc : scan d.w 1 d.seek d.vfat = some (Outcome.finished, d.seek, d.seek, d.vfat) := by
      generalize d.seek = r at hE
      cases r with
      | slot c b p =>
        simp only [Seek.atEnd] at hE
        simp only [scan]
        rw [if_pos hE]
      | done => rfl
      | failed => exact absurd hE (by simp [Seek.atEnd])
    obtain ⟨d2, F, a1, a2, a3, a4, a5, a6, a7, a8, a9⟩ :=
      lister_request 1 d hq hst hop hP hB _ _ _ _ hsc
    obtain ⟨b1, b2⟩ := a7 (by simp)
    have hE2 : d2.seek.atEnd d2.w := by
      rw [b2]
      exact (atEnd_volume _ _ a9 _).2 hE
    obtain ⟨d3, F2, c1, c2⟩ := ih d2 a3 a4 a5 b1
      (by rw [DirEntriesPerBlock_volume _ _ a9]; exact hB) hE2
    refine ⟨d3, max F F2, fun fuel hf => ?_, ?_⟩
    · show (listNext fuel d).bind (listN fuel m) = some d3
      rw [a1 fuel (le_trans (le_max_left _ _) hf)]
      exact c1 fuel (le_trans (le_max_right _ _) hf)
    · rw [c2, a2, List.replicate_succ']
      simp [Outcome.is_error, Outcome.name, Outcome.fsEntry]

/-- C20: the end of a directory.  A request of the client of a `DirLister` whose scan of
the slots ends within `n` slots is completed by one call of the handler; the call has
`error = false` and no name exactly when the place where the skipping of VFAT, free,
volume-label and device slots ends is a slot with first byte 0 or the end of the cluster
chain; and after such a call every further request is completed in the same way: `m`
further requests give `m` further calls with `error = false` and no name. -/
theorem end_of_directory (n : Nat) (d : DirWorld) (hq : d.queue = [])
    (hst : d.it.m_state = DirIterState.WAIT_REQUEST) (hop : d.opener = none)
    (hP : d.Positioned) (hB : d.w.DirEntriesPerBlock ≠ 0)
    (out : Outcome) (stop next : Seek)
    (h : scanResult d.w n d.seek d.vfat = some (out, stop, next)) :
    ∃ fuel d2, listNext fuel d = some d2 ∧
      d2.calls = .DirListerHandler out.is_error out.name out.fsEntry :: d.calls ∧
      skipSlots d.w n d.seek = some stop ∧
      ((out.is_error = false ∧ out.name = none) ↔ stop.atEnd d.w) ∧
      ((out.is_error = false ∧ out.name = none) →
        ∀ m, ∃ fuel2 d3, listN fuel2 m d2 = some d3 ∧
          d3.calls = List.replicate m (.DirListerHandler false none {}) ++ d2.calls) := by
  unfold scanResult at h
  cases hs : scan d.w n d.seek d.vfat with
  | none =>
    rw [hs] at h
    exact absurd h (by simp)
  | some x =>
    obtain ⟨o, s1, s2, v⟩ := x
    rw [hs] at h
    simp only [Option.map_some', Option.some.injEq, Prod.mk.injEq] at h
    obtain ⟨rfl, rfl, rfl⟩ := h
    obtain ⟨d2, F, a1, a2, a3, a4, a5, a6, a7, a8, a9⟩ :=
      lister_request n d hq hst hop hP hB _ _ _ _ hs
    obtain ⟨k1, k2, k3, k4⟩ := scan_stop d.w n _ _ _ _ _ _ hs
    have hfin : (o.is_error = false ∧ o.name = none) ↔ o = Outcome.finished := by
      cases o <;> simp [Outcome.is_error, Outcome.name]
    refine ⟨F, d2, a1 F (le_refl _), a2, k1, hfin.trans k2, fun hx m => ?_⟩
    have ho := hfin.1 hx
    obtain ⟨b1, b2⟩ := a7 (by rw [ho]; simp)
    have hE2 : d2.seek.atEnd d2.w := by
      rw [b2, k3 ho]
      exact (atEnd_volume _ _ a9 _).2 (k2.1 ho)
    obtain ⟨d3, F2, c1, c2⟩ := lister_end_again m d2 a3 a4 a5 b1
      (by rw [DirEntriesPerBlock_volume _ _ a9]; exact hB) hE2
    exact ⟨F2, d3, c1 F2 (le_refl _), c2⟩

/-- Witness of `end_of_directory`: a directory with a free slot, a volume label and a VFAT
slot; the request ends at the fourth slot, whose first byte is 0. -/
theorem end_of_directory_witness :
    scanResult endSample.w 4 endSample.seek endSample.vfat =
      some (Outcome.finished, Seek.slot 4 0 3, Seek.slot 4 0 3) ∧
    ∃ fuel d2, listNext fuel endSample = some d2 ∧
      d2.calls = .DirListerHandler false none {} :: endSample.calls ∧
      skipSlots endSample.w 4 endSample.seek = some (Seek.slot 4 0 3) ∧
      ((false = false ∧ (none : Option (List Nat)) = none) ↔
        (Seek.slot 4 0 3).atEnd endSample.w) ∧
      ((false = false ∧ (none : Option (List Nat)) = none) →
        ∀ m, ∃ fuel2 d3, listN fuel2 m d2 = some d3 ∧
          d3.calls = List.replicate m (.DirListerHandler false none {}) ++ d2.calls) :=
  ⟨by decide, end_of_directory 4 endSample (by decide) (by decide) (by decide)
    (by decide) (by decide) Outcome.finished (Seek.slot 4 0 3) (Seek.slot 4 0 3) (by decide)⟩

end FatFs

namespace FatFs

theorem compare_filename_equal_iff (op : Opener) (str1 str2 : List Nat) :
    op.compare_filename_equal str1 str2 = true ↔ sameName op.m_case_insens str1 str2 := by
  unfold Opener.compare_filename_equal sameName AsciiCaseInsensStringEqual strcmp cstr
  by_cases hc : op.m_case_insens = true
  · rw [if_pos hc, if_pos hc]
    exact decide_eq_true_iff
  · rw [if_neg hc, if_neg hc]
    rw [decide_eq_true_iff]
    split_ifs with h
    · exact ⟨fun _ => h, fun _ => rfl⟩
    · exact ⟨fun e => absurd e (by decide), fun e => absurd e h⟩

theorem openFirst_volume (w w2 : World) (h : w2.volume = w.volume) (entry_type : EntryType)
    (requested : List Nat) (case_insens : Bool) (fuel : Nat) (k : Nat) :
    ∀ (r : Seek) (v : VfatState),
      openFirst w2 entry_type requested case_insens fuel k r v =
        openFirst w entry_type requested case_insens fuel k r v := by
  induction k with
  | zero =>
    intro r v
    rfl
  | succ k ih =>
    intro r v
    unfold openFirst
    rw [scan_volume _ _ h]
    cases scan w fuel r v with
    | none => rfl
    | some x =>
      obtain ⟨o, s1, s2, v2⟩ := x
      cases o with
      | error => rfl
      | finished => rfl
      | entry nm e =>
        simp only []
        rw [ih]

/-- The end of the search of an `Opener`: `deinit` of the iterator and the call of the
handler of the client. -/
theorem opener_done (d : DirWorld) (op : Opener) (hq : d.queue = []) (status : OpenerStatus)
    (e : FsEntry) :
    (((DirectoryIterator.deinit
        { d with opener := some { op with m_state := OpenerState.COMPLETED } }).call
          (.OpenerHandler status e)).queue = [] ∧
      ((DirectoryIterator.deinit
        { d with opener := some { op with m_state := OpenerState.COMPLETED } }).call
          (.OpenerHandler status e)).it.m_chain.m_fat_cache_ref1.state ≠
            CacheRefState.REQUESTING ∧
      ((DirectoryIterator.deinit
        { d with opener := some { op with m_state := OpenerState.COMPLETED } }).call
          (.OpenerHandler status e)).it.m_dir_block_ref.state ≠ CacheRefState.REQUESTING) ∧
      ((DirectoryIterator.deinit
        { d with opener := some { op with m_state := OpenerState.COMPLETED } }).call
          (.OpenerHandler status e)).calls = .OpenerHandler status e :: d.calls := by
  refine ⟨⟨?_, ?_, ?_⟩, rfl⟩
  · show (List.filter _ (List.filter _ d.queue)) = []
    rw [hq]
    rfl
  · show CacheRefState.INVALID ≠ _
    decide
  · show CacheRefState.INVALID ≠ _
    decide

theorem dir_iter_handler_stop (D : DirWorld) (op : Opener) (err : Bool)
    (nm : Option (List Nat)) (en : FsEntry) (h : err = true ∨ nm = none) :
    Opener.dir_iter_handler D op err nm en =
      (DirectoryIterator.deinit
        { D with opener := some { op with m_state := OpenerState.COMPLETED } }).call
          (.OpenerHandler (if err = true then OpenerStatus.ERROR else OpenerStatus.NOT_FOUND)
            {}) := by
  unfold Opener.dir_iter_handler
  rw [if_pos h]

theorem dir_iter_handler_match (D : DirWorld) (op : Opener) (nm : List Nat) (en : FsEntry)
    (ht : en.type = op.m_entry_type) (hn : sameName op.m_case_insens nm op.m_name) :
    Opener.dir_iter_handler D op false (some nm) en =
      (DirectoryIterator.deinit
        { D with opener := some { op with m_state := OpenerState.COMPLETED } }).call
          (.OpenerHandler OpenerStatus.SUCCESS en) := by
  unfold Opener.dir_iter_handler
  rw [if_neg (by simp), if_neg]
  intro hc
  rcases hc with hc | hc
  · exact hc ht
  · have := (compare_filename_equal_iff op nm op.m_name).2 hn
    simp only [Option.getD_some] at hc
    rw [this] at hc
    exact absurd hc (by decide)

theorem dir_iter_handler_next (D : DirWorld) (op : Opener) (nm : List Nat) (en : FsEntry)
    (h : ¬ (en.type = op.m_entry_type ∧ sameName op.m_case_insens nm op.m_name)) :
    Opener.dir_iter_handler D op false (some nm) en = DirectoryIterator.requestEntry D := by
  unfold Opener.dir_iter_handler
  rw [if_neg (by simp), if_pos]
  by_cases ht : en.type = op.m_entry_type
  · right
    simp only [Option.getD_some]
    cases hb : op.compare_filename_equal nm op.m_name with
    | false => rfl
    | true => exact absurd ⟨ht, (compare_filename_equal_iff op nm op.m_name).1 hb⟩ h
  · left
    exact ht

/-- The search of an `Opener` does what `openFirst` says. -/
theorem opener_refines (n : Nat) (k : Nat) : ∀ (d : DirWorld) (op : Opener),
    d.queue = [.iter_event] → d.opener = some op →
    d.Positioned → d.w.DirEntriesPerBlock ≠ 0 →
    ∀ (status : OpenerStatus) (e : FsEntry),
    openFirst d.w op.m_entry_type op.m_name op.m_case_insens n k d.seek d.vfat =
      some (status, e) →
    ∃ X, Reaches d X ∧ (X.queue = [] ∧
      X.it.m_chain.m_fat_cache_ref1.state ≠ CacheRefState.REQUESTING ∧
      X.it.m_dir_block_ref.state ≠ CacheRefState.REQUESTING) ∧
      X.calls = .OpenerHandler status e :: d.calls := by
  induction k with
  | zero =>
    intro d op _ _ _ _ status e h
    exact absurd h (by simp [openFirst])
  | succ k ih =>
    intro d op hq hop hP hB status e h
    unfold openFirst at h
    cases hs : scan d.w n d.seek d.vfat with
    | none =>
      rw [hs] at h
      exact absurd h (by simp)
    | some x =>
      obtain ⟨o, s1, s2, v2⟩ := x
      rw [hs] at h
      obtain ⟨d2, a1, a2, a3, a4, a5, a6, a7, a8⟩ := scan_refines n d hq hP hB _ _ _ _ hs
      have hop2 := a7.trans hop
      have hcr : ∀ (err : Bool) (nm : Option (List Nat)) (en : FsEntry),
          DirectoryIterator.complete_request d2 err nm en =
            Opener.dir_iter_handler
              { d2 with it := { d2.it with m_state := DirIterState.WAIT_REQUEST } }
              op err nm en := by
        intro err nm en
        unfold DirectoryIterator.complete_request
        simp only [DirWorld.setIt, hop2]
      rw [hcr] at a1
      cases o with
      | error =>
        simp only [Option.some.injEq, Prod.mk.injEq] at h
        obtain ⟨rfl, rfl⟩ := h
        obtain ⟨b1, b2⟩ := opener_done
          { d2 with it := { d2.it with m_state := DirIterState.WAIT_REQUEST } }
          op a2 OpenerStatus.ERROR {}
        simp only [Outcome.is_error, Outcome.name, Outcome.fsEntry] at a1
        rw [dir_iter_handler_stop _ _ _ _ _ (Or.inl rfl)] at a1
        refine ⟨_, a1, b1, ?_⟩
        rw [← a8]
        exact b2
      | finished =>
        simp only [Option.some.injEq, Prod.mk.injEq] at h
        obtain ⟨rfl, rfl⟩ := h
        obtain ⟨b1, b2⟩ := opener_done
          { d2 with it := { d2.it with m_state := DirIterState.WAIT_REQUEST } }
          op a2 OpenerStatus.NOT_FOUND {}
        simp only [Outcome.is_error, Outcome.name, Outcome.fsEntry] at a1
        rw [dir_iter_handler_stop _ _ _ _ _ (Or.inr rfl)] at a1
        refine ⟨_, a1, b1, ?_⟩
        rw [← a8]
        exact b2
      | entry nm en =>
        simp only [] at h
        by_cases hm : en.type = op.m_entry_type ∧ sameName op.m_case_insens nm op.m_name
        · rw [if_pos hm] at h
          simp only [Option.some.injEq, Prod.mk.injEq] at h
          obtain ⟨rfl, rfl⟩ := h
          obtain ⟨b1, b2⟩ := opener_done
            { d2 with it := { d2.it with m_state := DirIterState.WAIT_REQUEST } }
            op a2 OpenerStatus.SUCCESS en
          simp only [Outcome.is_error, Outcome.name, Outcome.fsEntry] at a1
          rw [dir_iter_handler_match _ _ _ _ hm.1 hm.2] at a1
          refine ⟨_, a1, b1, ?_⟩
          rw [← a8]
          exact b2
        · rw [if_neg hm] at h
          obtain ⟨p1, p2⟩ := a4 (by simp)
          simp only [Outcome.is_error, Outcome.name, Outcome.fsEntry] at a1
          rw [dir_iter_handler_next _ _ _ _ hm] at a1
          obtain ⟨X, c1, c2, c3⟩ := ih
            (DirectoryIterator.requestEntry
              { d2 with it := { d2.it with m_state := DirIterState.WAIT_REQUEST } }) op
            (by
              show DirEvent.iter_event :: d2.queue = _
              rw [a2])
            hop2 p1
            (by
              show d2.w.DirEntriesPerBlock ≠ 0
              rw [DirEntriesPerBlock_volume _ _ a6]; exact hB) status e
            (by
              show openFirst d2.w op.m_entry_type op.m_name op.m_case_insens n k d2.seek
                d2.vfat = _
              rw [openFirst_volume _ _ a6, p2, a5]
              exact h)
          refine ⟨X, Reaches_trans _ _ _ a1 c1, c2, ?_⟩
          rw [c3]
          show _ :: d2.calls = _
          rw [a8]

end FatFs

namespace FatFs

/-- C21: the search of an `Opener`.  On a mounted volume, for every directory entry,
requested type, requested name and case flag: when the first entry in directory order whose
type is the requested type and whose emitted name is the requested name (up to the case of
ASCII letters when `case_insens` is true, byte for byte otherwise) is `e`, the `Opener`
calls its handler once, with `SUCCESS` and `e`; when the end of the directory comes before
such an entry, with `NOT_FOUND`; and when an error of the iterator comes first, with
`ERROR`.  (`openFirst` gives the three cases; `k` and `n` bound the entries and the slots
that are looked at.) -/
theorem opener_finds_first_match (d : DirWorld) (dir_entry : FsEntry) (entry_type : EntryType)
    (name : List Nat) (case_insens : Bool) (n k : Nat) (status : OpenerStatus) (e : FsEntry)
    (hq : d.queue = []) (hr : d.w.o.state = FsState.READY)
    (hd : dir_entry.type = EntryType.DIR)
    (hbpc : 1 ≤ d.w.o.blocks_per_cluster ∧ d.w.o.blocks_per_cluster < 2 ^ 16)
    (hB : d.w.DirEntriesPerBlock ≠ 0)
    (h : openFirst d.w entry_type name case_insens n k
      (firstSlot d.w dir_entry.cluster_index) d.vfat.forget = some (status, e)) :
    ∃ fuel d2,
      (dirStep d (.Opener_init dir_entry entry_type name case_insens)).bind (dirRun fuel []) =
        some d2 ∧
      d2.calls = .OpenerHandler status e :: d.calls := by
  have hstep : dirStep d (.Opener_init dir_entry entry_type name case_insens) =
      some (Opener.init d dir_entry entry_type name case_insens) := by
    show (if d.w.o.state = FsState.READY ∧ dir_entry.type = EntryType.DIR then
      some (Opener.init d dir_entry entry_type name case_insens) else none) = _
    rw [if_pos ⟨hr, hd⟩]
  have hq2 : (Opener.init d dir_entry entry_type name case_insens).queue = [.iter_event] := by
    show DirEvent.iter_event :: d.queue = _
    rw [hq]
  have hP : (Opener.init d dir_entry entry_type name case_insens).Positioned := by
    refine ⟨⟨rfl, ?_, ?_, hbpc.1, hbpc.2⟩, le_refl _, ?_, ?_⟩
    · show CacheRefState.INVALID ≠ _
      decide
    · show CacheRefState.INVALID ≠ _
      decide
    · intro hx
      rcases hx with hx | hx
      · exact absurd rfl hx
      · exact absurd rfl hx
    · intro hx
      exact absurd rfl hx
  have hseek : (Opener.init d dir_entry entry_type name case_insens).seek =
      firstSlot d.w dir_entry.cluster_index := by
    unfold DirWorld.seek
    rw [if_neg (fun hx => hx rfl), if_neg (fun hx => hx rfl), if_neg, if_pos]
    · rfl
    · rfl
    · show IterState.START ≠ IterState.END
      decide
  obtain ⟨X, ⟨s, hs⟩, ⟨c1, c2, c3⟩, c4⟩ := opener_refines n k
    (Opener.init d dir_entry entry_type name case_insens)
    { m_entry_type := entry_type, m_name := name, m_case_insens := case_insens,
      m_state := OpenerState.REQUESTING_ENTRY } hq2 rfl hP hB status e
    (by rw [hseek]; exact h)
  refine ⟨1 + s, X, ?_, c4⟩
  rw [hstep, Option.some_bind, hs]
  exact dirRun_quiet _ _ c1 c2 c3

/-- Witness of `opener_finds_first_match`: on the sample volume, the `Opener` for the file
`HI.TXT` in the root directory, without regard to case, finds the entry of `hi.txt`. -/
theorem opener_finds_first_match_witness :
    openFirst dirSampleReady EntryType.FILE [0x48, 0x49, 0x2E, 0x54, 0x58, 0x54] true 4 2
      (firstSlot dirSampleReady (getRootEntry dirSampleReady).cluster_index)
      (VfatState.forget (DirWorld.vfat { w := dirSampleReady })) =
        some (OpenerStatus.SUCCESS, sampleHiEntry) ∧
    ∃ fuel d2,
      (dirStep { w := dirSampleReady } (.Opener_init (getRootEntry dirSampleReady)
        EntryType.FILE [0x48, 0x49, 0x2E, 0x54, 0x58, 0x54] true)).bind (dirRun fuel []) =
        some d2 ∧
      d2.calls = [.OpenerHandler OpenerStatus.SUCCESS sampleHiEntry] :=
  ⟨by decide, opener_finds_first_match { w := dirSampleReady } (getRootEntry dirSampleReady)
    EntryType.FILE [0x48, 0x49, 0x2E, 0x54, 0x58, 0x54] true 4 2 OpenerStatus.SUCCESS
    sampleHiEntry
    (by decide) (by decide) (by decide) (by decide) (by decide) (by decide)⟩

end FatFs

namespace FatFs

theorem slotUnits_lt (buffer : Buffer) (entry_ptr : Nat) :
    ∀ u ∈ slotUnits buffer entry_ptr, u < 65536 := by
  intro u hu
  unfold slotUnits at hu
  simp only [List.mem_append, List.mem_map, List.mem_range] at hu
  rcases hu with (⟨i, _, rfl⟩ | ⟨i, _, rfl⟩) | ⟨i, _, rfl⟩
  all_goals exact ReadBinaryInt16_lt _ _

theorem fragmentName_lt (units : List Nat) (h : ∀ u ∈ units, u < 65536) :
    ∀ b ∈ fragmentName units, b < 256 := by
  intro b hb
  unfold fragmentName at hb
  rw [List.mem_flatMap] at hb
  obtain ⟨u, hu, hb⟩ := hb
  exact Utf8EncodeChar_lt u (h u ((List.takeWhile_prefix _).subset hu)) b hb

/-- The collected part of the name buffer after a fragment has been placed before it. -/
theorem tail_after_collect (f : Buffer) (frag : List Nat) (P M : Nat)
    (hfrag : ∀ b ∈ frag, b < 256) (hfit : frag.length ≤ P) (hP : P ≤ M) :
    bytesOf (memmove (memcpy f 0 frag) (P - frag.length) 0 frag.length) (P - frag.length)
      (M - (P - frag.length)) = frag ++ bytesOf f P (M - P) := by
  apply List.ext_getElem
  · rw [List.length_append, bytesOf_length, bytesOf_length]
    omega
  · intro i h1 h2
    rw [bytesOf_getElem]
    by_cases hi : i < frag.length
    · rw [memmove_inside _ _ _ _ _ hi, List.getElem_append_left hi]
      have := memcpy_inside f 0 frag i hi
      rw [this, List.getD_eq_getElem _ _ hi]
      exact Nat.mod_eq_of_lt (hfrag _ (List.getElem_mem _))
    · rw [memmove_outside _ _ _ _ _ (Or.inr (by omega)),
        memcpy_outside _ _ _ _ (Or.inr (by omega)),
        List.getElem_append_right (by omega), bytesOf_getElem]
      congr 2
      omega

theorem seq_bits : ∀ s < 32, (0x40 + s) &&& 0x60 = 0x40 ∧ (0x40 + s) &&& 0x1F = s ∧
    s &&& 0x60 = 0 ∧ s &&& 0x1F = s := by
  decide

theorem afterVfat_collect (v : VfatState) (buffer : Buffer) (entry_ptr : Nat)
    (hc : v.world.collects buffer entry_ptr)
    (hfit : (fragmentName (slotUnits buffer entry_ptr)).length ≤
      v.world.run_pos buffer entry_ptr) :
    v.afterVfat buffer entry_ptr =
      { MaxFileNameSize := v.MaxFileNameSize,
        m_vfat_seq := v.world.run_seq buffer entry_ptr - 1,
        m_vfat_csum := v.world.run_csum buffer entry_ptr,
        m_filename_pos := v.world.run_pos buffer entry_ptr -
          (fragmentName (slotUnits buffer entry_ptr)).length,
        m_filename := memmove (memcpy v.m_filename 0 (fragmentName (slotUnits buffer entry_ptr)))
          (v.world.run_pos buffer entry_ptr - (fragmentName (slotUnits buffer entry_ptr)).length)
          0 (fragmentName (slotUnits buffer entry_ptr)).length } := by
  unfold VfatState.afterVfat
  rw [event_handler_vfat_collect _ _ _ hc hfit]
  rfl

/-- One VFAT slot of a well-formed run is collected: the expected sequence number goes down
by one and the fragment of the slot is placed before what has been collected. -/
theorem vfat_step (v : VfatState) (buffer : Buffer) (entry_ptr : Nat) (first : Bool)
    (s C : Nat) (hs1 : 1 ≤ s) (hs2 : s ≤ 31)
    (h0 : ReadBinaryInt8 buffer (entry_ptr + 0x0) = (if first = true then 0x40 + s else s))
    (hC : ReadBinaryInt8 buffer (entry_ptr + 0xD) = C)
    (hst : first = false → v.m_vfat_seq = (s : Int) ∧ v.m_vfat_csum = C)
    (P : Nat) (hP : P = if first = true then v.MaxFileNameSize else v.m_filename_pos)
    (hPM : P ≤ v.MaxFileNameSize)
    (hfit : (fragmentName (slotUnits buffer entry_ptr)).length ≤ P) :
    (v.afterVfat buffer entry_ptr).MaxFileNameSize = v.MaxFileNameSize ∧
    (v.afterVfat buffer entry_ptr).m_vfat_seq = ((s - 1 : Nat) : Int) ∧
    (v.afterVfat buffer entry_ptr).m_vfat_csum = C ∧
    (v.afterVfat buffer entry_ptr).m_filename_pos =
      P - (fragmentName (slotUnits buffer entry_ptr)).length ∧
    bytesOf (v.afterVfat buffer entry_ptr).m_filename
        (P - (fragmentName (slotUnits buffer entry_ptr)).length)
        (v.MaxFileNameSize - (P - (fragmentName (slotUnits buffer entry_ptr)).length)) =
      fragmentName (slotUnits buffer entry_ptr) ++
        bytesOf v.m_filename P (v.MaxFileNameSize - P) := by
  obtain ⟨b1, b2, b3, b4⟩ := seq_bits s (by omega)
  have hfacts : v.world.run_seq buffer entry_ptr = (s : Int) ∧
      v.world.run_csum buffer entry_ptr = C ∧ v.world.run_pos buffer entry_ptr = P ∧
      slotSeq buffer entry_ptr = s := by
    unfold DirWorld.run_seq DirWorld.run_csum DirWorld.run_pos slotStartsRun slotSeq slotCsum
    cases first with
    | true =>
      rw [if_pos rfl] at h0 hP
      have hstart : ReadBinaryInt8 buffer (entry_ptr + 0x0) &&& 0x60 = 0x40 := by
        rw [h0]; exact b1
      rw [if_pos hstart, if_pos hstart, if_pos hstart, h0, b2, hP]
      exact ⟨rfl, hC, rfl, rfl⟩
    | false =>
      simp only [Bool.false_eq_true, if_false] at h0 hP
      have hstart : ¬ ReadBinaryInt8 buffer (entry_ptr + 0x0) &&& 0x60 = 0x40 := by
        rw [h0, b3]; decide
      rw [if_neg hstart, if_neg hstart, if_neg hstart, h0, b4, hP]
      exact ⟨(hst rfl).1, (hst rfl).2, rfl, rfl⟩
  obtain ⟨hseq, hcsum, hpos, hslot⟩ := hfacts
  have hcol : v.world.collects buffer entry_ptr := by
    unfold DirWorld.collects
    rw [hseq, hcsum, hslot]
    refine ⟨?_, ?_, rfl, hC⟩
    · exact_mod_cast hs1
    · intro e
      have : (0 : Int) ≤ (s : Int) := Int.ofNat_nonneg s
      omega
  rw [afterVfat_collect v buffer entry_ptr hcol (by rw [hpos]; exact hfit), hseq, hcsum, hpos]
  refine ⟨rfl, ?_, rfl, rfl, ?_⟩
  · show (s : Int) - 1 = ((s - 1 : Nat) : Int)
    omega
  · exact tail_after_collect _ _ _ _ (fragmentName_lt _ (slotUnits_lt _ _)) hfit hPM

/-- A request for an entry that comes to a well-formed VFAT run collects the run and ends
at the short slot, with the long name. -/
theorem scan_run (w : World) (C : Nat) : ∀ (n : Nat) (first : Bool) (r : Seek) (v : VfatState)
    (P : Nat), n ≤ 31 → lfnRun w C first n r → lfnSized w n r →
    (first = false → v.m_vfat_seq = (n : Int) ∧ v.m_vfat_csum = C) → (first = true → 1 ≤ n) →
    P = (if first = true then v.MaxFileNameSize else v.m_filename_pos) →
    P ≤ v.MaxFileNameSize → (lfnName w n r).length ≤ P →
    ∃ v2, scan w (n + 1) r v =
      some (Outcome.entry
        (cstr (lfnName w n r ++ bytesOf v.m_filename P (v.MaxFileNameSize - P)))
        (Seek.entry w (runEnd w n r)), runEnd w n r, (runEnd w n r).next w, v2) := by
  intro n
  induction n with
  | zero =>
    intro first r v P _ hrun _ hst hn1 hP hPM _
    cases first with
    | true => exact absurd (hn1 rfl) (by decide)
    | false =>
      simp only [Bool.false_eq_true, if_false] at hP
      obtain ⟨hseq, hcs⟩ := hst rfl
      cases r with
      | done => exact absurd hrun.1 (by decide)
      | failed => exact absurd hrun.1 (by decide)
      | slot c b p =>
        obtain ⟨_, hsh, hdot, hck⟩ := hrun
        have hsh2 : slotShort (clusterBlock w c b) (p * 32) := hsh
        have hdot2 : ReadBinaryInt8 (clusterBlock w c b) (p * 32 + 0x0) ≠ 0x2E := hdot
        have hck2 : checksumFold (bytesOf (clusterBlock w c b) (p * 32) 11) = C := hck
        have hl : v.hasLongName (clusterBlock w c b) (p * 32) := by
          refine ⟨hdot2, ?_, ?_⟩
          · rw [hseq]; rfl
          · rw [vfat_checksum_eq, hck2, hcs]
        refine ⟨v.afterShort (clusterBlock w c b) (p * 32), ?_⟩
        simp only [scan]
        rw [if_neg (show ¬ slotEnd (clusterBlock w c b) (p * 32) from hsh2.1),
          if_neg (slotShort_not_vfat _ _ hsh2),
          if_neg (show ¬ slotIgnored (clusterBlock w c b) (p * 32) from fun hi =>
            hi.elim (fun e => hsh2.2.1 e) (fun e => e.elim (fun e => e hsh2.2.2.1)
              (fun e => e hsh2.2.2.2)))]
        unfold VfatState.shortName
        rw [if_pos hl, hP]
        rfl
  | succ n ih =>
    intro first r v P hn hrun hsz hst _ hP hPM hfit
    cases r with
    | done => exact absurd hrun.1 (by decide)
    | failed => exact absurd hrun.1 (by decide)
    | slot c b p =>
      obtain ⟨_, h0, hattr, h12, hcs, hrest⟩ := hrun
      obtain ⟨hsize, hszrest⟩ := hsz
      have h0b : ReadBinaryInt8 (clusterBlock w c b) (p * 32 + 0x0) =
          (if first = true then 0x40 + (n + 1) else n + 1) := h0
      have hfit1 : (lfnName w n (nextSlot w c b p)).length +
          (fragmentName (slotUnits (clusterBlock w c b) (p * 32))).length ≤ P := by
        have hname : lfnName w (n + 1) (Seek.slot c b p) =
            lfnName w n (nextSlot w c b p) ++
              fragmentName (slotUnits (clusterBlock w c b) (p * 32)) := rfl
        rw [hname, List.length_append] at hfit
        exact hfit
      obtain ⟨e1, e2, e3, e4, e5⟩ := vfat_step v (clusterBlock w c b) (p * 32) first (n + 1) C
        (by omega) hn h0b hcs hst P hP hPM (by omega)
      have hne : ReadBinaryInt8 (clusterBlock w c b) (p * 32 + 0x0) ≠ 0 ∧
          ReadBinaryInt8 (clusterBlock w c b) (p * 32 + 0x0) ≠ 0xE5 := by
        rw [h0b]
        cases first with
        | true =>
          rw [if_pos rfl]
          constructor <;> omega
        | false =>
          simp only [Bool.false_eq_true, if_false]
          constructor <;> omega
      obtain ⟨v2, hv2⟩ := ih false (nextSlot w c b p)
        (v.afterVfat (clusterBlock w c b) (p * 32))
        (P - (fragmentName (slotUnits (clusterBlock w c b) (p * 32))).length) (by omega)
        hrest hszrest (fun _ => ⟨by rw [e2]; rfl, e3⟩) (fun e => absurd e (by decide))
        (by simp only [Bool.false_eq_true, if_false]; exact e4.symm)
        (by rw [e1]; omega) (by omega)
      refine ⟨v2, ?_⟩
      simp only [scan]
      rw [if_neg (show ¬ slotEnd (clusterBlock w c b) (p * 32) from hne.1),
        if_pos (show slotVfat (clusterBlock w c b) (p * 32) from ⟨hne.2, hattr, h12, hsize⟩),
        hv2, e1, e5]
      have hname : lfnName w (n + 1) (Seek.slot c b p) =
          lfnName w n (nextSlot w c b p) ++
            fragmentName (slotUnits (clusterBlock w c b) (p * 32)) := rfl
      have hend : runEnd w (n + 1) (Seek.slot c b p) = runEnd w n (nextSlot w c b p) := rfl
      rw [hname, hend, List.append_assoc]

end FatFs

namespace FatFs

/-- A `DirLister` whose iterator is about to look at the slot `seek`: when `scan` gives a
result from there, the event loop and the block cache bring about one call of the handler
of the client, with that result. -/
theorem lister_scan (n : Nat) (d : DirWorld) (hq : d.queue = [.iter_event])
    (hop : d.opener = none) (hP : d.Positioned) (hB : d.w.DirEntriesPerBlock ≠ 0)
    (out : Outcome) (stop next : Seek) (v : VfatState)
    (h : scan d.w n d.seek d.vfat = some (out, stop, next, v)) :
    ∃ fuel d2, dirRun fuel [] d = some d2 ∧
      d2.calls = .DirListerHandler out.is_error out.name out.fsEntry :: d.calls := by
  obtain ⟨d2, ⟨s, hs⟩, e2, e3, _, _, _, e7, e8⟩ := scan_refines n d hq hP hB out stop next v h
  have hop2 : d2.opener = none := e7.trans hop
  rw [complete_request_lister d2 hop2] at hs
  refine ⟨1 + s, ?_⟩
  refine ⟨{ d2 with it := { d2.it with m_state := DirIterState.WAIT_REQUEST },
                     calls := .DirListerHandler out.is_error out.name out.fsEntry :: d2.calls },
    ?_, ?_⟩
  · rw [hs]
    exact dirRun_quiet _ _ e2 e3.2.1 e3.2.2.1
  · show _ :: d2.calls = _
    rw [e8]

/-- C17, as the code has it: VFAT reconstruction.  A `DirLister` whose iterator is about
to look at the first slot of a run of `N` VFAT slots (`1 <= N <= 31`) with the sequence
numbers `N`, ..., 1, the first with the start bit, all with attributes `0x0F`, byte 12
equal to 0, the checksum byte `csum` and a size field (bytes 28..31) that is not 0,
followed by a short entry whose first byte is not `.` and whose name bytes have the VFAT
checksum `csum`, the long name being at most `MaxFileNameSize` bytes long: the handler is
called with the long name, which is the name fragments of the slots from sequence number 1
up to sequence number `N`, and with the entry of the short slot. -/
theorem vfat_reconstruction (d : DirWorld) (N csum : Nat) (hq : d.queue = [.iter_event])
    (hop : d.opener = none) (hP : d.Positioned) (hB : d.w.DirEntriesPerBlock ≠ 0)
    (hN1 : 1 ≤ N) (hN : N ≤ 31) (hrun : lfnRun d.w csum true N d.seek)
    (hsz : lfnSized d.w N d.seek)
    (hfit : (lfnName d.w N d.seek).length ≤ d.MaxFileNameSize) :
    ∃ fuel d2, dirRun fuel [] d = some d2 ∧
      d2.calls = .DirListerHandler false (some (lfnName d.w N d.seek))
        (Seek.entry d.w (runEnd d.w N d.seek)) :: d.calls := by
  obtain ⟨v2, hv2⟩ := scan_run d.w csum N true d.seek d.vfat d.MaxFileNameSize hN hrun hsz
    (fun e => absurd e (by decide)) (fun _ => hN1) rfl (le_refl _) hfit
  have hb : bytesOf d.vfat.m_filename d.MaxFileNameSize
      (d.vfat.MaxFileNameSize - d.MaxFileNameSize) = [] := by
    show bytesOf _ _ (d.MaxFileNameSize - d.MaxFileNameSize) = []
    rw [Nat.sub_self]
    rfl
  rw [hb, List.append_nil, cstr_eq_self _ (lfnName_ne_zero d.w N d.seek)] at hv2
  exact lister_scan (N + 1) d hq hop hP hB _ _ _ _ hv2

/-- Witness of `vfat_reconstruction`: the run of `Réadme.md` in the sample directory gives
the bytes `52 C3 A9 61 64 6D 65 2E 6D 64`. -/
theorem vfat_reconstruction_witness :
    lfnName dirSampleAtLfn.w 1 dirSampleAtLfn.seek =
      [0x52, 0xC3, 0xA9, 0x61, 0x64, 0x6D, 0x65, 0x2E, 0x6D, 0x64] ∧
    Seek.entry dirSampleAtLfn.w (runEnd dirSampleAtLfn.w 1 dirSampleAtLfn.seek) =
      sampleReadmeEntry ∧
    ∃ fuel d2, dirRun fuel [] dirSampleAtLfn = some d2 ∧
      d2.calls = .DirListerHandler false (some (lfnName dirSampleAtLfn.w 1 dirSampleAtLfn.seek))
        (Seek.entry dirSampleAtLfn.w (runEnd dirSampleAtLfn.w 1 dirSampleAtLfn.seek)) ::
          dirSampleAtLfn.calls :=
  ⟨by decide, by decide, vfat_reconstruction dirSampleAtLfn 1 235 (by decide) (by decide)
    (by decide) (by decide) (by decide) (by decide) (by decide) (by decide) (by decide)⟩

/-- C17 as claimed fails: in the sample directory the short entry `AB` is preceded by one
VFAT slot with sequence number 1 and the start bit, attributes `0x0F`, byte 12 equal to 0
and the checksum of `AB`, whose name fragment is `Ab` and fits; but the unused code units
of the slot are 0, so that its size field is 0, the slot is passed over as a volume label,
and the handler is called with the 8.3 name `AB`. -/
theorem vfat_run_with_zero_size_field_gets_short_name :
    (dirSampleAtAb.queue = [.iter_event] ∧ dirSampleAtAb.opener = none ∧
      dirSampleAtAb.Positioned ∧ dirSampleAtAb.w.DirEntriesPerBlock ≠ 0) ∧
    lfnRun dirSampleAtAb.w 145 true 1 dirSampleAtAb.seek ∧
    lfnName dirSampleAtAb.w 1 dirSampleAtAb.seek = [0x41, 0x62] ∧
    (lfnName dirSampleAtAb.w 1 dirSampleAtAb.seek).length ≤ dirSampleAtAb.MaxFileNameSize ∧
    ¬ lfnSized dirSampleAtAb.w 1 dirSampleAtAb.seek ∧
    (dirRun 20 [] dirSampleAtAb).map (fun d => d.calls.head?) =
      some (some (.DirListerHandler false (some [0x41, 0x42]) sampleAbEntry)) :=
  ⟨by decide, by decide, by decide, by decide, by decide, by decide⟩

/-- C32, as the code has it: a volume-label or device slot is passed over without a call
of the handler, and the VFAT run that has been collected is forgotten.  A `DirLister`
whose iterator is about to look at a slot that is not the end marker and not a VFAT slot
and has attribute bit 3 or bit 6, and that is followed by a short entry: whatever VFAT run
has been collected, the handler is called with the canonical 8.3 name of the short entry,
as a C string, and with the entry of the short slot; when none of the 11 name bytes of the
short slot is 0, that C string is the canonical 8.3 name byte for byte. -/
theorem label_slot_forgets_vfat_run (d : DirWorld) (c b p c2 b2 p2 : Nat)
    (hq : d.queue = [.iter_event]) (hop : d.opener = none) (hP : d.Positioned)
    (hB : d.w.DirEntriesPerBlock ≠ 0) (hs : d.seek = Seek.slot c b p)
    (h0 : ¬ slotEnd (clusterBlock d.w c b) (p * 32))
    (hv : ¬ slotVfat (clusterBlock d.w c b) (p * 32))
    (hl : ReadBinaryInt8 (clusterBlock d.w c b) (p * 32 + 0xB) &&& 0x8 ≠ 0 ∨
      ReadBinaryInt8 (clusterBlock d.w c b) (p * 32 + 0xB) &&& 0x40 ≠ 0)
    (hn : nextSlot d.w c b p = Seek.slot c2 b2 p2)
    (hsh : slotShort (clusterBlock d.w c2 b2) (p2 * 32)) :
    (∃ fuel d2, dirRun fuel [] d = some d2 ∧
      d2.calls = .DirListerHandler false
        (some (cstr (canonical83 (bytesOf (clusterBlock d.w c2 b2) (p2 * 32) 8)
          (bytesOf (clusterBlock d.w c2 b2) (p2 * 32 + 8) 3)
          (ReadBinaryInt8 (clusterBlock d.w c2 b2) (p2 * 32 + 0xC)))))
        (slotEntry d.w c2 b2 p2) :: d.calls) ∧
    ((∀ x ∈ bytesOf (clusterBlock d.w c2 b2) (p2 * 32) 11, x ≠ 0) →
      cstr (canonical83 (bytesOf (clusterBlock d.w c2 b2) (p2 * 32) 8)
        (bytesOf (clusterBlock d.w c2 b2) (p2 * 32 + 8) 3)
        (ReadBinaryInt8 (clusterBlock d.w c2 b2) (p2 * 32 + 0xC))) =
      canonical83 (bytesOf (clusterBlock d.w c2 b2) (p2 * 32) 8)
        (bytesOf (clusterBlock d.w c2 b2) (p2 * 32 + 8) 3)
        (ReadBinaryInt8 (clusterBlock d.w c2 b2) (p2 * 32 + 0xC))) := by
  have hnl : ¬ d.vfat.forget.hasLongName (clusterBlock d.w c2 b2) (p2 * 32) := by
    intro hx
    exact absurd hx.2.1 (by show (-1 : Int) ≠ 0; decide)
  have hsc : scan d.w 2 d.seek d.vfat =
      some (Outcome.entry
        (cstr (canonical83 (bytesOf (clusterBlock d.w c2 b2) (p2 * 32) 8)
          (bytesOf (clusterBlock d.w c2 b2) (p2 * 32 + 8) 3)
          (ReadBinaryInt8 (clusterBlock d.w c2 b2) (p2 * 32 + 0xC))))
        (slotEntry d.w c2 b2 p2), Seek.slot c2 b2 p2, nextSlot d.w c2 b2 p2,
        d.vfat.forget.afterShort (clusterBlock d.w c2 b2) (p2 * 32)) := by
    rw [hs]
    simp only [scan]
    rw [if_neg h0, if_neg hv, if_pos (show slotIgnored (clusterBlock d.w c b) (p * 32) from
      Or.inr hl), hn]
    simp only [scan]
    rw [if_neg (show ¬ slotEnd (clusterBlock d.w c2 b2) (p2 * 32) from hsh.1),
      if_neg (slotShort_not_vfat _ _ hsh),
      if_neg (show ¬ slotIgnored (clusterBlock d.w c2 b2) (p2 * 32) from fun hi =>
        hi.elim (fun e => hsh.2.1 e) (fun e => e.elim (fun e => e hsh.2.2.1)
          (fun e => e hsh.2.2.2)))]
    unfold VfatState.shortName
    rw [if_neg hnl, name_83_eq]
  exact ⟨lister_scan 2 d hq hop hP hB _ _ _ _ hsc, cstr_canonical83 _ _ _⟩

/-- Witness of `label_slot_forgets_vfat_run`: in the sample directory the volume label
between the VFAT slot of `Cd.e` and the short slot `CD.E`. -/
theorem label_slot_forgets_vfat_run_witness :
    dirSampleAtCdLabel.it.m_vfat_seq = 0 ∧
    canonical83 (bytesOf (clusterBlock dirSampleAtCdLabel.w 2 0) (10 * 32) 8)
      (bytesOf (clusterBlock dirSampleAtCdLabel.w 2 0) (10 * 32 + 8) 3)
      (ReadBinaryInt8 (clusterBlock dirSampleAtCdLabel.w 2 0) (10 * 32 + 0xC)) =
        [0x43, 0x44, 0x2E, 0x45] ∧
    (∀ x ∈ bytesOf (clusterBlock dirSampleAtCdLabel.w 2 0) (10 * 32) 11, x ≠ 0) ∧
    ((∃ fuel d2, dirRun fuel [] dirSampleAtCdLabel = some d2 ∧
      d2.calls = .DirListerHandler false
        (some (cstr (canonical83 (bytesOf (clusterBlock dirSampleAtCdLabel.w 2 0) (10 * 32) 8)
          (bytesOf (clusterBlock dirSampleAtCdLabel.w 2 0) (10 * 32 + 8) 3)
          (ReadBinaryInt8 (clusterBlock dirSampleAtCdLabel.w 2 0) (10 * 32 + 0xC)))))
        (slotEntry dirSampleAtCdLabel.w 2 0 10) :: dirSampleAtCdLabel.calls) ∧
    ((∀ x ∈ bytesOf (clusterBlock dirSampleAtCdLabel.w 2 0) (10 * 32) 11, x ≠ 0) →
      cstr (canonical83 (bytesOf (clusterBlock dirSampleAtCdLabel.w 2 0) (10 * 32) 8)
        (bytesOf (clusterBlock dirSampleAtCdLabel.w 2 0) (10 * 32 + 8) 3)
        (ReadBinaryInt8 (clusterBlock dirSampleAtCdLabel.w 2 0) (10 * 32 + 0xC))) =
      canonical83 (bytesOf (clusterBlock dirSampleAtCdLabel.w 2 0) (10 * 32) 8)
        (bytesOf (clusterBlock dirSampleAtCdLabel.w 2 0) (10 * 32 + 8) 3)
        (ReadBinaryInt8 (clusterBlock dirSampleAtCdLabel.w 2 0) (10 * 32 + 0xC)))) :=
  ⟨by decide, by decide, by decide,
    label_slot_forgets_vfat_run dirSampleAtCdLabel 2 0 9 2 0 10
    (by decide) (by decide) (by decide) (by decide) (by decide) (by decide) (by decide)
    (by decide) (by decide) (by decide)⟩

/-- C32 as claimed fails: in the sample directory a complete VFAT run (one slot with the
start bit and the sequence number 1, whose name fragment is `Cd.e`) is followed by a volume
label and then by the short entry `CD.E`, whose VFAT checksum 91 is the checksum byte of
the run; the handler is called with the 8.3 name `CD.E`, not with the long name. -/
theorem label_slot_discards_vfat_run :
    (dirSampleAtCd.queue = [.iter_event] ∧ dirSampleAtCd.opener = none ∧
      dirSampleAtCd.seek = Seek.slot 2 0 8) ∧
    (slotVfat (clusterBlock dirSampleAtCd.w 2 0) (8 * 32) ∧
      ReadBinaryInt8 (clusterBlock dirSampleAtCd.w 2 0) (8 * 32 + 0x0) = 0x41 ∧
      ReadBinaryInt8 (clusterBlock dirSampleAtCd.w 2 0) (8 * 32 + 0xD) = 91 ∧
      fragmentName (slotUnits (clusterBlock dirSampleAtCd.w 2 0) (8 * 32)) =
        [0x43, 0x64, 0x2E, 0x65]) ∧
    (¬ slotVfat (clusterBlock dirSampleAtCd.w 2 0) (9 * 32) ∧
      ReadBinaryInt8 (clusterBlock dirSampleAtCd.w 2 0) (9 * 32 + 0xB) &&& 0x8 ≠ 0) ∧
    (slotShort (clusterBlock dirSampleAtCd.w 2 0) (10 * 32) ∧
      checksumFold (bytesOf (clusterBlock dirSampleAtCd.w 2 0) (10 * 32) 11) = 91) ∧
    (dirRun 20 [] dirSampleAtCd).map (fun d => d.calls.head?) =
      some (some (.DirListerHandler false (some [0x43, 0x44, 0x2E, 0x45]) sampleCdEntry)) :=
  ⟨by decide, by decide, by decide, by decide, by decide⟩

end FatFs

namespace FatFs

/-- `event_handler` on a short slot, for a `DirLister`: the handler is called with a name
and the entry of the slot. -/
theorem short_slot_call (d : DirWorld) (hop : d.opener = none)
    (h : slotShort d.buffer d.entry_ptr) :
    ∃ name, (DirectoryIterator.event_handler_entry d).calls =
      .DirListerHandler false (some name) d.slot_entry :: d.calls := by
  by_cases hc : ReadBinaryInt8 d.buffer (d.entry_ptr + 0x0) = 0x2E ∨ d.it.m_vfat_seq ≠ 0 ∨
      vfat_checksum d.buffer d.entry_ptr ≠ d.it.m_vfat_csum
  · refine ⟨cstr (DirectoryIterator.name_83 d.buffer d.entry_ptr), ?_⟩
    rw [event_handler_entry_83 d h hc, complete_request_lister]
    exact hop
  · have h1 : ReadBinaryInt8 d.buffer (d.entry_ptr + 0x0) ≠ 0x2E := fun e => hc (Or.inl e)
    have h2 : d.it.m_vfat_seq = 0 := by
      by_contra e
      exact hc (Or.inr (Or.inl e))
    have h3 : vfat_checksum d.buffer d.entry_ptr = d.it.m_vfat_csum := by
      by_contra e
      exact hc (Or.inr (Or.inr e))
    refine ⟨cstr (bytesOf d.it.m_filename d.it.m_filename_pos
      (d.MaxFileNameSize - d.it.m_filename_pos)), ?_⟩
    rw [event_handler_entry_long d h h1 h2 h3, complete_request_lister]
    exact hop

theorem WriteBinaryInt16_outside (value : Nat) (buffer : Buffer) (off k : Nat)
    (hk : k < off ∨ off + 2 ≤ k) : WriteBinaryInt16 value buffer off k = buffer k := by
  unfold WriteBinaryInt16
  have h0 : k ≠ off := by omega
  have h1 : k ≠ off + 1 := by omega
  rw [if_neg h0, if_neg h1]

/-- C39: the location of a directory entry.  When the iterator of a `DirLister` looks at a
short slot of the block that it has pinned, whose first byte is not `.` and which is a
file, the handler is called with an entry such that: the block `dir_entry_block_index` of
the volume is the pinned block and `dir_entry_block_offset` is the number of the slot; on
every volume with the same block range on which that block has the same contents, a
`DirEntryRef` on (`dir_entry_block_index`, `dir_entry_block_offset`) reads the first cluster
and the size of the entry, and a `File` initialised from the entry meets the identity check
of `startOpenWritable` when the volume is `MOUNTED`.  Moreover `setFirstCluster(v)` reads
back as `v` for `v < 2^28`, `setFirstCluster` changes no bytes but those at the offsets
`0x14..0x15` and `0x1A..0x1B` of the slot, and `setFileSize` none but those at
`0x1C..0x1F`. -/
theorem dir_entry_location_round_trip (d : DirWorld) (c b p : Nat) (hA : d.At c b p)
    (hop : d.opener = none) (hsh : slotShort d.buffer d.entry_ptr)
    (hdot : ReadBinaryInt8 d.buffer (d.entry_ptr + 0x0) ≠ 0x2E)
    (hfile : ReadBinaryInt8 d.buffer (d.entry_ptr + 0xB) &&& 0x10 = 0) :
    (∃ name entry,
      (DirectoryIterator.event_handler_entry d).calls =
        .DirListerHandler false (some name) entry :: d.calls ∧
      entry.type = EntryType.FILE ∧
      d.w.data (get_abs_block_index d.w entry.dir_entry_block_index) = d.buffer ∧
      entry.dir_entry_block_offset * 32 = d.entry_ptr ∧
      (∀ (w2 : World) (i : Nat), w2.o.block_range = d.w.o.block_range →
        w2.data (get_abs_block_index d.w entry.dir_entry_block_index) =
          d.w.data (get_abs_block_index d.w entry.dir_entry_block_index) →
        (w2.file i).m_dir_entry.m_block_ref.block =
          get_abs_block_index w2 entry.dir_entry_block_index →
        (w2.file i).m_dir_entry.m_block_offset = entry.dir_entry_block_offset →
        DirEntryRef.getFirstCluster w2 i = entry.cluster_index ∧
        DirEntryRef.getFileSize w2 i = entry.file_size) ∧
      (∀ (w2 : World), w2.o.block_range = d.w.o.block_range →
        w2.data (get_abs_block_index d.w entry.dir_entry_block_index) =
          d.w.data (get_abs_block_index d.w entry.dir_entry_block_index) →
        w2.o.write_mount_state = WriteMountState.MOUNTED →
        OpenConditions (File.init w2 entry) w2.files.length false)) ∧
    (∀ (w : World) (i v : Nat), v < 2 ^ 28 →
      DirEntryRef.getFirstCluster (DirEntryRef.setFirstCluster w i v) i = v) ∧
    (∀ (w : World) (i v block k : Nat),
      ¬ (block = (w.file i).m_dir_entry.m_block_ref.block ∧
        ((DirEntryRef.get_entry_ptr w i + 0x14 ≤ k ∧ k < DirEntryRef.get_entry_ptr w i + 0x16) ∨
         (DirEntryRef.get_entry_ptr w i + 0x1A ≤ k ∧
          k < DirEntryRef.get_entry_ptr w i + 0x1C))) →
      (DirEntryRef.setFirstCluster w i v).data block k = w.data block k) ∧
    (∀ (w : World) (i v block k : Nat),
      ¬ (block = (w.file i).m_dir_entry.m_block_ref.block ∧
        DirEntryRef.get_entry_ptr w i + 0x1C ≤ k ∧ k < DirEntryRef.get_entry_ptr w i + 0x20) →
      (DirEntryRef.setFileSize w i v).data block k = w.data block k) := by
  refine ⟨?_, fun w i v hv => getFirstCluster_setFirstCluster w i v hv, ?_, ?_⟩
  · obtain ⟨name, hn⟩ := short_slot_call d hop hsh
    obtain ⟨e1, e2⟩ := at_buffer d c b p hA
    have he := slot_entry_at d c b p hA
    rw [he] at hn
    rw [e1, e2] at hdot hfile
    have hci : (slotEntry d.w c b p).cluster_index =
        mask_cluster_entry (read_dir_entry_first_cluster (clusterBlock d.w c b) (p * 32)) := by
      unfold slotEntry
      simp only []
      rw [if_neg (fun hx => hdot hx.1)]
    refine ⟨name, slotEntry d.w c b p, hn, ?_, ?_, ?_, ?_, ?_⟩
    · unfold slotEntry
      simp only []
      rw [if_neg (fun hx => hx hfile)]
    · rw [e1]
      rfl
    · rw [e2]
      rfl
    · intro w2 i hbr hdata hblock hoff
      have habs : get_abs_block_index w2 (slotEntry d.w c b p).dir_entry_block_index =
          get_abs_block_index d.w (slotEntry d.w c b p).dir_entry_block_index := by
        unfold get_abs_block_index
        rw [hbr]
      unfold DirEntryRef.getFirstCluster DirEntryRef.getFileSize DirEntryRef.get_entry_ptr
        World.getData
      rw [hblock, hoff, habs, hdata, hci]
      exact ⟨rfl, rfl⟩
    · intro w2 hbr hdata hm
      have habs : get_abs_block_index w2 (slotEntry d.w c b p).dir_entry_block_index =
          get_abs_block_index d.w (slotEntry d.w c b p).dir_entry_block_index := by
        unfold get_abs_block_index
        rw [hbr]
      have hd : (File.init w2 (slotEntry d.w c b p)).data
          (get_abs_block_index w2 (slotEntry d.w c b p).dir_entry_block_index) =
          clusterBlock d.w c b := by
        show w2.data _ = _
        rw [habs, hdata]
        rfl
      have hfields : ((File.init w2 (slotEntry d.w c b p)).file w2.files.length).m_dir_entry_block_index
            = (slotEntry d.w c b p).dir_entry_block_index ∧
          ((File.init w2 (slotEntry d.w c b p)).file w2.files.length).m_dir_entry_block_offset
            = (slotEntry d.w c b p).dir_entry_block_offset ∧
          ((File.init w2 (slotEntry d.w c b p)).file w2.files.length).m_file_size
            = (slotEntry d.w c b p).file_size ∧
          ((File.init w2 (slotEntry d.w c b p)).chain w2.files.length).m_first_cluster
            = (slotEntry d.w c b p).cluster_index := by
        simp only [File.init, ClusterChain.init, ClusterChain.rewind_internal,
          World.setChain, World.setFile, World.file, World.chain, set_append_singleton,
          getD_append_length, and_self]
      obtain ⟨f1, f2, f3, f4⟩ := hfields
      unfold OpenConditions
      rw [f1, f2, f3, f4]
      have hab2 : get_abs_block_index (File.init w2 (slotEntry d.w c b p))
          (slotEntry d.w c b p).dir_entry_block_index =
          get_abs_block_index w2 (slotEntry d.w c b p).dir_entry_block_index := rfl
      rw [hab2, hd, hci]
      exact ⟨hm, rfl, rfl, rfl⟩
  · intro w i v block k hk
    unfold DirEntryRef.setFirstCluster
    simp only [World.setData, World.markDirty]
    by_cases hb : block = (w.file i).m_dir_entry.m_block_ref.block
    · rw [if_pos hb]
      unfold write_dir_entry_first_cluster
      have hk2 := fun hx => hk ⟨hb, hx⟩
      rw [WriteBinaryInt16_outside _ _ _ _ (by omega), WriteBinaryInt16_outside _ _ _ _ (by omega),
        hb]
      rfl
    · rw [if_neg hb]
  · intro w i v block k hk
    unfold DirEntryRef.setFileSize
    simp only [World.setData, World.markDirty]
    by_cases hb : block = (w.file i).m_dir_entry.m_block_ref.block
    · rw [if_pos hb]
      have hk2 := fun hx => hk ⟨hb, hx⟩
      rw [WriteBinaryInt32_outside _ _ _ _ (by unfold DirEntrySizeOffset; omega), hb]
      rfl
    · rw [if_neg hb]

/-- Witness of `dir_entry_location_round_trip`: the slot of `hi.txt` in the sample
directory, slot 4 of the first block of cluster 2. -/
theorem dir_entry_location_round_trip_witness :
    dirSampleAtHi.At 2 0 4 ∧
    (∃ name entry,
      (DirectoryIterator.event_handler_entry dirSampleAtHi).calls =
        .DirListerHandler false (some name) entry :: dirSampleAtHi.calls ∧
      entry.type = EntryType.FILE ∧
      dirSampleAtHi.w.data (get_abs_block_index dirSampleAtHi.w entry.dir_entry_block_index) =
          dirSampleAtHi.buffer ∧
      entry.dir_entry_block_offset * 32 = dirSampleAtHi.entry_ptr ∧
      (∀ (w2 : World) (i : Nat), w2.o.block_range = dirSampleAtHi.w.o.block_range →
        w2.data (get_abs_block_index dirSampleAtHi.w entry.dir_entry_block_index) =
          dirSampleAtHi.w.data (get_abs_block_index dirSampleAtHi.w entry.dir_entry_block_index) →
        (w2.file i).m_dir_entry.m_block_ref.block =
          get_abs_block_index w2 entry.dir_entry_block_index →
        (w2.file i).m_dir_entry.m_block_offset = entry.dir_entry_block_offset →
        DirEntryRef.getFirstCluster w2 i = entry.cluster_index ∧
        DirEntryRef.getFileSize w2 i = entry.file_size) ∧
      (∀ (w2 : World), w2.o.block_range = dirSampleAtHi.w.o.block_range →
        w2.data (get_abs_block_index dirSampleAtHi.w entry.dir_entry_block_index) =
          dirSampleAtHi.w.data (get_abs_block_index dirSampleAtHi.w entry.dir_entry_block_index) →
        w2.o.write_mount_state = WriteMountState.MOUNTED →
        OpenConditions (File.init w2 entry) w2.files.length false)) ∧
    (∀ (w : World) (i v : Nat), v < 2 ^ 28 →
      DirEntryRef.getFirstCluster (DirEntryRef.setFirstCluster w i v) i = v) ∧
    (∀ (w : World) (i v block k : Nat),
      ¬ (block = (w.file i).m_dir_entry.m_block_ref.block ∧
        ((DirEntryRef.get_entry_ptr w i + 0x14 ≤ k ∧ k < DirEntryRef.get_entry_ptr w i + 0x16) ∨
         (DirEntryRef.get_entry_ptr w i + 0x1A ≤ k ∧
          k < DirEntryRef.get_entry_ptr w i + 0x1C))) →
      (DirEntryRef.setFirstCluster w i v).data block k = w.data block k) ∧
    (∀ (w : World) (i v block k : Nat),
      ¬ (block = (w.file i).m_dir_entry.m_block_ref.block ∧
        DirEntryRef.get_entry_ptr w i + 0x1C ≤ k ∧ k < DirEntryRef.get_entry_ptr w i + 0x20) →
      (DirEntryRef.setFileSize w i v).data block k = w.data block k) :=
  ⟨by decide, dir_entry_location_round_trip dirSampleAtHi 2 0 4 (by decide) (by decide)
    (by decide) (by decide) (by decide)⟩

end FatFs

namespace FatFs

theorem filter_length_lt (l : List Nat) (p q : Nat → Bool)
    (hpq : ∀ y ∈ l, q y = true → p y = true) (y0 : Nat) (h0 : y0 ∈ l) (hp : p y0 = true)
    (hq : q y0 = false) : (l.filter q).length < (l.filter p).length := by
  induction l with
  | nil => exact absurd h0 (List.not_mem_nil _)
  | cons a t ih =>
    have hle : (t.filter q).length ≤ (t.filter p).length := by
      rw [← List.countP_eq_length_filter, ← List.countP_eq_length_filter]
      exact List.countP_mono_left (fun x hx hqx => hpq x (List.mem_cons_of_mem _ hx) hqx)
    rcases List.mem_cons.1 h0 with rfl | hmem
    · rw [List.filter_cons_of_pos hp, List.filter_cons_of_neg (by rw [hq]; simp)]
      exact Nat.lt_succ_of_le hle
    · have ih2 := ih (fun y hy => hpq y (List.mem_cons_of_mem _ hy)) hmem
      by_cases hqa : q a = true
      · rw [List.filter_cons_of_pos hqa,
          List.filter_cons_of_pos (hpq a (List.mem_cons_self _ _) hqa)]
        exact Nat.succ_lt_succ ih2
      · rw [List.filter_cons_of_neg hqa]
        by_cases hpa : p a = true
        · rw [List.filter_cons_of_pos hpa]
          exact Nat.lt_succ_of_lt ih2
        · rw [List.filter_cons_of_neg hpa]
          exact ih2

/-- One iteration of the loop of a truncation that unlinks and frees a cluster leaves one
FAT entry less that is not 0. -/
theorem nonzeroFatEntries_truncate_step (w : World) (data : Nat → Buffer) (c : Nat)
    (hfs : FsInfoBeforeFat w)
    (hfat : is_cluster_idx_valid_for_fat w c = true)
    (hnext : is_cluster_idx_normal (fatOf w data c) = true)
    (hnfat : is_cluster_idx_valid_for_fat w (fatOf w data c) = true) :
    nonzeroFatEntries w
        (fsInfoUpdate w (fatWrite w (fatWrite w data c (fatOf w data (fatOf w data c)))
          (fatOf w data c) 0) true) <
      nonzeroFatEntries w data := by
  have hap := fsInfo_apart w hfs
  have hc : c < w.o.num_fat_entries := by
    unfold is_cluster_idx_valid_for_fat at hfat
    exact of_decide_eq_true hfat
  have hx : fatOf w data c < w.o.num_fat_entries := by
    unfold is_cluster_idx_valid_for_fat at hnfat
    exact of_decide_eq_true hnfat
  have hx0 : fatOf w data c ≠ 0 := by
    unfold is_cluster_idx_normal at hnext
    have := of_decide_eq_true hnext
    omega
  unfold nonzeroFatEntries
  by_cases hxc : fatOf w data c = c
  · -- the cluster points to itself
    have hF : ∀ z, fatOf w (fsInfoUpdate w (fatWrite w (fatWrite w data c
        (fatOf w data (fatOf w data c))) (fatOf w data c) 0) true) z =
        if z = c then 0 else fatOf w data z := by
      intro z
      rw [fatOf_fsInfoUpdate _ _ _ _ (hap z), hxc]
      by_cases hz : z = c
      · rw [if_pos hz, hz, fatOf_fatWrite_self _ _ _ _ (by norm_num)]
      · rw [if_neg hz, fatOf_fatWrite_other _ _ _ _ _ hz, fatOf_fatWrite_other _ _ _ _ _ hz]
    apply filter_length_lt _ _ _ _ c (List.mem_range.2 hc)
    · exact decide_eq_true hx0
    · rw [hF, if_pos rfl]
      simp
    · intro y _ hy
      rw [hF] at hy
      by_cases hz : y = c
      · rw [if_pos hz] at hy
        simp at hy
      · rw [if_neg hz] at hy
        exact hy
  · obtain ⟨e1, e2, e3⟩ := fatOf_truncate_step w data c (fatOf w data c) hxc (hap _) (hap _)
    by_cases hfx : fatOf w data (fatOf w data c) = 0
    · -- the next cluster is already free: the entry of the current cluster becomes 0
      apply filter_length_lt _ _ _ _ c (List.mem_range.2 hc)
      · exact decide_eq_true hx0
      · rw [e1, hfx]
        simp
      · intro y _ hy
        by_cases hyc : y = c
        · rw [hyc]
          exact decide_eq_true hx0
        · by_cases hyx : y = fatOf w data c
          · rw [hyx, e2] at hy
            simp at hy
          · rw [e3 y hyc hyx (hap y)] at hy
            exact hy
    · apply filter_length_lt _ _ _ _ (fatOf w data c) (List.mem_range.2 hx)
      · exact decide_eq_true hfx
      · rw [e2]
        simp
      · intro y _ hy
        by_cases hyc : y = c
        · rw [hyc]
          exact decide_eq_true hx0
        · by_cases hyx : y = fatOf w data c
          · rw [hyx, e2] at hy
            simp at hy
          · rw [e3 y hyc hyx (hap y)] at hy
            exact hy

/-- The file after its truncation has completed: idle, with an idle chain that holds no
FAT block. -/
theorem truncate_done_pending (f : File) (i : Nat)
    (hd : f.m_dir_entry.m_block_ref.state ≠ CacheRefState.REQUESTING)
    (hu : f.m_block_user.busy = false) (c : ClusterChain)
    (h1 : c.m_fat_cache_ref1 = CacheBlockRef.reset {})
    (h2 : c.m_fat_cache_ref2 = CacheBlockRef.reset {}) :
    File.pending { f with m_state := FileState.IDLE, m_chain := c } i = none := by
  simp [File.pending, h1, h2, CacheBlockRef.reset, hd, hu]

theorem truncate_event_not_valid (w : World) (i : Nat) (hi : i < w.files.length)
    (f : File) (hst : f.m_state = FileState.TRUNC_CHAIN)
    (hcs : f.m_chain.m_state = ChainState.TRUNCATE_CHECK)
    (r1 r2 : CacheBlockRef) (data : Nat → Buffer) (dirty l : Nat → Bool)
    (cs : List HandlerCall)
    (hnorm : is_cluster_idx_normal f.m_chain.m_current_cluster = true)
    (hfat : is_cluster_idx_valid_for_fat w f.m_chain.m_current_cluster = false) :
    ClusterChain.event_handler (fileWorld w i
          { f with m_chain := { f.m_chain with m_fat_cache_ref1 := r1,
                                               m_fat_cache_ref2 := r2 } }
          w.o data dirty l [] cs) i =
      fileWorld w i
        { f with
          m_state := FileState.IDLE,
          m_chain :=
            { f.m_chain with
              m_state := ChainState.IDLE,
              m_fat_cache_ref1 := CacheBlockRef.reset {},
              m_fat_cache_ref2 := CacheBlockRef.reset {} } }
        w.o data dirty l [] (.FileHandler i true 0 :: cs) := by
  have hfile := fun g o d dd l q c => fileWorld_file w i g o d dd l q c hi
  have hfat2 : ∀ g d dd l q c y, is_cluster_idx_valid_for_fat (fileWorld w i g w.o d dd l q c)
      y = is_cluster_idx_valid_for_fat w y := fun _ _ _ _ _ _ _ => rfl
  have hF : ∀ y, mask_cluster_entry (ReadBinaryInt32
      (data (get_abs_block_index_for_fat_entry w y))
      (4 * (y % w.FatEntriesPerBlock))) = fatOf w data y := fun _ => rfl
  have hB : ∀ y, w.o.block_range.getAbsBlockIndex (w.o.num_reserved_blocks +
      y / w.FatEntriesPerBlock) = get_abs_block_index_for_fat_entry w y := fun _ => rfl
  simp only [↓reduceIte, ClusterChain.event_handler, World.chain, hfile, hcs, hnorm, hfat2,
    World.setChain, fileWorld_setFile, if_true, Bool.false_eq_true, if_false,
    Bool.true_eq_false, ClusterChain.complete_request, File.chain_handler, hst,
    File.complete_request, fileWorld_call, hfat]
  rfl

theorem truncate_event_pin1 (w : World) (i : Nat) (hi : i < w.files.length)
    (f : File)
    (hcs : f.m_chain.m_state = ChainState.TRUNCATE_CHECK)
    (r1 r2 : CacheBlockRef) (data : Nat → Buffer) (dirty l : Nat → Bool)
    (cs : List HandlerCall)
    (hnorm : is_cluster_idx_normal f.m_chain.m_current_cluster = true)
    (hfat : is_cluster_idx_valid_for_fat w f.m_chain.m_current_cluster = true)
    (himm : ¬ Immediate l r1 (get_abs_block_index_for_fat_entry w f.m_chain.m_current_cluster)) :
    ClusterChain.event_handler (fileWorld w i
          { f with m_chain := { f.m_chain with m_fat_cache_ref1 := r1,
                                               m_fat_cache_ref2 := r2 } }
          w.o data dirty l [] cs) i =
      fileWorld w i
        { f with m_chain := { f.m_chain with
            m_state := ChainState.TRUNCATE_REQUESTING_FAT,
            m_fat_cache_ref1 :=
              { state := .REQUESTING,
                block := get_abs_block_index_for_fat_entry w f.m_chain.m_current_cluster },
            m_fat_cache_ref2 := r2 } }
        w.o data dirty l [] cs := by
  have hfile := fun g o d dd l q c => fileWorld_file w i g o d dd l q c hi
  have hfat2 : ∀ g d dd l q c y, is_cluster_idx_valid_for_fat (fileWorld w i g w.o d dd l q c)
      y = is_cluster_idx_valid_for_fat w y := fun _ _ _ _ _ _ _ => rfl
  have hF : ∀ y, mask_cluster_entry (ReadBinaryInt32
      (data (get_abs_block_index_for_fat_entry w y))
      (4 * (y % w.FatEntriesPerBlock))) = fatOf w data y := fun _ => rfl
  have hB : ∀ y, w.o.block_range.getAbsBlockIndex (w.o.num_reserved_blocks +
      y / w.FatEntriesPerBlock) = get_abs_block_index_for_fat_entry w y := fun _ => rfl
  have hc2 : ¬ ((r1.state = CacheRefState.READY ∧
        r1.block = get_abs_block_index_for_fat_entry w f.m_chain.m_current_cluster) ∨
      l (get_abs_block_index_for_fat_entry w f.m_chain.m_current_cluster) = true) := himm
  simp only [↓reduceIte, ClusterChain.event_handler, World.chain, hfile, hcs, hnorm, hfat2, hfat,
    request_fat_cache_block, World.requestBlock, fileWorld_loaded,
    fileWorld_get_abs_block_index_for_fat_entry, hB, hc2, and_false, and_self, true_and,
    World.setChain, fileWorld_setFile, if_true, Bool.false_eq_true, if_false,
    Bool.true_eq_false]

theorem truncate_event_next_not_valid (w : World) (i : Nat) (hi : i < w.files.length)
    (f : File) (hst : f.m_state = FileState.TRUNC_CHAIN)
    (hcs : f.m_chain.m_state = ChainState.TRUNCATE_CHECK)
    (r1 r2 : CacheBlockRef) (data : Nat → Buffer) (dirty l : Nat → Bool)
    (cs : List HandlerCall)
    (hnorm : is_cluster_idx_normal f.m_chain.m_current_cluster = true)
    (hfat : is_cluster_idx_valid_for_fat w f.m_chain.m_current_cluster = true)
    (himm : Immediate l r1 (get_abs_block_index_for_fat_entry w f.m_chain.m_current_cluster))
    (hnext : is_cluster_idx_normal (fatOf w data f.m_chain.m_current_cluster) = true)
    (hnfat : is_cluster_idx_valid_for_fat w (fatOf w data f.m_chain.m_current_cluster) = false) :
    ClusterChain.event_handler (fileWorld w i
          { f with m_chain := { f.m_chain with m_fat_cache_ref1 := r1,
                                               m_fat_cache_ref2 := r2 } }
          w.o data dirty l [] cs) i =
      fileWorld w i
        { f with
          m_state := FileState.IDLE,
          m_chain :=
            { f.m_chain with
              m_state := ChainState.IDLE,
              m_fat_cache_ref1 := CacheBlockRef.reset {},
              m_fat_cache_ref2 := CacheBlockRef.reset {} } }
        w.o data dirty l [] (.FileHandler i true 0 :: cs) := by
  have hfile := fun g o d dd l q c => fileWorld_file w i g o d dd l q c hi
  have hfat2 : ∀ g d dd l q c y, is_cluster_idx_valid_for_fat (fileWorld w i g w.o d dd l q c)
      y = is_cluster_idx_valid_for_fat w y := fun _ _ _ _ _ _ _ => rfl
  have hF : ∀ y, mask_cluster_entry (ReadBinaryInt32
      (data (get_abs_block_index_for_fat_entry w y))
      (4 * (y % w.FatEntriesPerBlock))) = fatOf w data y := fun _ => rfl
  have hB : ∀ y, w.o.block_range.getAbsBlockIndex (w.o.num_reserved_blocks +
      y / w.FatEntriesPerBlock) = get_abs_block_index_for_fat_entry w y := fun _ => rfl
  have hc2 : (r1.state = CacheRefState.READY ∧
        r1.block = get_abs_block_index_for_fat_entry w f.m_chain.m_current_cluster) ∨
      l (get_abs_block_index_for_fat_entry w f.m_chain.m_current_cluster) = true := himm
  simp only [↓reduceIte, ClusterChain.event_handler, World.chain, hfile, hcs, hnorm, hfat2,
    World.setChain, fileWorld_setFile, if_true, Bool.false_eq_true, if_false,
    Bool.true_eq_false, ClusterChain.complete_request, File.chain_handler, hst,
    File.complete_request, fileWorld_call, hfat,
    request_fat_cache_block, World.requestBlock, fileWorld_loaded,
    fileWorld_get_abs_block_index_for_fat_entry, hB, hc2, and_self, true_and,
    fileWorld_read_fat_entry, hF, hnext, hnfat]
  rfl

theorem truncate_event_pin2 (w : World) (i : Nat) (hi : i < w.files.length)
    (f : File)
    (hcs : f.m_chain.m_state = ChainState.TRUNCATE_CHECK)
    (r1 r2 : CacheBlockRef) (data : Nat → Buffer) (dirty l : Nat → Bool)
    (cs : List HandlerCall)
    (hnorm : is_cluster_idx_normal f.m_chain.m_current_cluster = true)
    (hfat : is_cluster_idx_valid_for_fat w f.m_chain.m_current_cluster = true)
    (himm : Immediate l r1 (get_abs_block_index_for_fat_entry w f.m_chain.m_current_cluster))
    (hnext : is_cluster_idx_normal (fatOf w data f.m_chain.m_current_cluster) = true)
    (hnfat : is_cluster_idx_valid_for_fat w (fatOf w data f.m_chain.m_current_cluster) = true)
    (himm2 : ¬ Immediate l r2
      (get_abs_block_index_for_fat_entry w (fatOf w data f.m_chain.m_current_cluster))) :
    ClusterChain.event_handler (fileWorld w i
          { f with m_chain := { f.m_chain with m_fat_cache_ref1 := r1,
                                               m_fat_cache_ref2 := r2 } }
          w.o data dirty l [] cs) i =
      fileWorld w i
        { f with m_chain := { f.m_chain with
            m_state := ChainState.TRUNCATE_REQUESTING_FAT2,
            m_fat_cache_ref1 :=
              { state := .READY,
                block := get_abs_block_index_for_fat_entry w f.m_chain.m_current_cluster },
            m_fat_cache_ref2 :=
              { state := .REQUESTING,
                block := get_abs_block_index_for_fat_entry w
                  (fatOf w data f.m_chain.m_current_cluster) } } }
        w.o data dirty l [] cs := by
  have hfile := fun g o d dd l q c => fileWorld_file w i g o d dd l q c hi
  have hfat2 : ∀ g d dd l q c y, is_cluster_idx_valid_for_fat (fileWorld w i g w.o d dd l q c)
      y = is_cluster_idx_valid_for_fat w y := fun _ _ _ _ _ _ _ => rfl
  have hF : ∀ y, mask_cluster_entry (ReadBinaryInt32
      (data (get_abs_block_index_for_fat_entry w y))
      (4 * (y % w.FatEntriesPerBlock))) = fatOf w data y := fun _ => rfl
  have hB : ∀ y, w.o.block_range.getAbsBlockIndex (w.o.num_reserved_blocks +
      y / w.FatEntriesPerBlock) = get_abs_block_index_for_fat_entry w y := fun _ => rfl
  have hc2 : (r1.state = CacheRefState.READY ∧
        r1.block = get_abs_block_index_for_fat_entry w f.m_chain.m_current_cluster) ∨
      l (get_abs_block_index_for_fat_entry w f.m_chain.m_current_cluster) = true := himm
  have hc3 : ¬ ((r2.state = CacheRefState.READY ∧
        r2.block = get_abs_block_index_for_fat_entry w
          (fatOf w data f.m_chain.m_current_cluster)) ∨
      l (get_abs_block_index_for_fat_entry w
          (fatOf w data f.m_chain.m_current_cluster)) = true) := himm2
  simp only [↓reduceIte, ClusterChain.event_handler, World.chain, hfile, hcs, hnorm, hfat2, hfat,
    request_fat_cache_block, World.requestBlock, fileWorld_loaded,
    fileWorld_get_abs_block_index_for_fat_entry, hc2, and_self, true_and,
    World.setChain, fileWorld_setFile, if_true, Bool.false_eq_true, if_false,
    Bool.true_eq_false, fileWorld_read_fat_entry, hB, hF, hnext, hnfat, hc3, and_false]

end FatFs

namespace FatFs

theorem fileWorld_blockLoaded_error (w : World) (i : Nat) (f : File) (o : Object)
    (data : Nat → Buffer) (dirty loaded : Nat → Bool) (queue : List QueuedEvent)
    (calls : List HandlerCall) (r : CacheBlockRef) :
    (fileWorld w i f o data dirty loaded queue calls).blockLoaded r true =
      fileWorld w i f o data dirty loaded queue calls := rfl

theorem run_answer_any (n : Nat) (errors : List Bool) (W : World) (answer : Bool → Input)
    (hq : W.queue = []) (hp : pending W = some answer) :
    run (n + 1) errors W = (step W (answer (errors.headD false))).bind (run n errors.tail) := by
  simp [run, hq, hp]

/-- The answer of the block cache to the pin of the FAT block of the current cluster. -/
theorem truncate_answer1 (w : World) (i : Nat) (hi : i < w.files.length)
    (f : File) (hst : f.m_state = FileState.TRUNC_CHAIN) (r2 : CacheBlockRef) (B : Nat)
    (data : Nat → Buffer) (dirty l : Nat → Bool) (cs : List HandlerCall) (e : Bool) :
    step (fileWorld w i
        { f with m_chain := { f.m_chain with
            m_state := ChainState.TRUNCATE_REQUESTING_FAT,
            m_fat_cache_ref1 := { state := .REQUESTING, block := B },
            m_fat_cache_ref2 := r2 } }
        w.o data dirty l [] cs) (.fat_cache_ref1 i e) =
      some (if e = true then
        fileWorld w i
          { f with
            m_state := FileState.IDLE,
            m_chain :=
              { f.m_chain with
                m_state := ChainState.IDLE,
                m_fat_cache_ref1 := CacheBlockRef.reset {},
                m_fat_cache_ref2 := CacheBlockRef.reset {} } }
          w.o data dirty l [] (.FileHandler i true 0 :: cs)
      else
        fileWorld w i
          { f with m_chain := { f.m_chain with
              m_state := ChainState.TRUNCATE_CHECK,
              m_fat_cache_ref1 := { state := .READY, block := B },
              m_fat_cache_ref2 := r2 } }
          w.o data dirty (fun b => if b = B then true else l b) [.chain_event i] cs) := by
  have hfile := fun g o d dd l q c => fileWorld_file w i g o d dd l q c hi
  cases e with
  | true =>
    simp only [step, fileWorld_length, hi, World.chain, hfile, true_and, if_true,
      Option.some_bind, World.answer_fat_cache_ref1, fileWorld_blockLoaded, World.setChain,
      fileWorld_setFile, CacheBlockRef.complete, Bool.false_eq_true, if_false,
      ClusterChain.fat_cache_ref_handler, fileWorld_prepend, and_self,
      ClusterChain.complete_request, File.chain_handler, hst, File.complete_request,
      fileWorld_call, fileWorld_blockLoaded_error]
    rfl
  | false =>
    simp only [step, fileWorld_length, hi, World.chain, hfile, true_and, if_true,
      Option.some_bind, World.answer_fat_cache_ref1, fileWorld_blockLoaded, World.setChain,
      fileWorld_setFile, CacheBlockRef.complete, Bool.false_eq_true, if_false,
      ClusterChain.fat_cache_ref_handler, fileWorld_prepend, and_self]

/-- The answer of the block cache to the pin of the FAT block of the next cluster. -/
theorem truncate_answer2 (w : World) (i : Nat) (hi : i < w.files.length)
    (f : File) (hst : f.m_state = FileState.TRUNC_CHAIN) (r1 : CacheBlockRef) (B : Nat)
    (data : Nat → Buffer) (dirty l : Nat → Bool) (cs : List HandlerCall) (e : Bool) :
    step (fileWorld w i
        { f with m_chain := { f.m_chain with
            m_state := ChainState.TRUNCATE_REQUESTING_FAT2,
            m_fat_cache_ref1 := r1,
            m_fat_cache_ref2 := { state := .REQUESTING, block := B } } }
        w.o data dirty l [] cs) (.fat_cache_ref2 i e) =
      some (if e = true then
        fileWorld w i
          { f with
            m_state := FileState.IDLE,
            m_chain :=
              { f.m_chain with
                m_state := ChainState.IDLE,
                m_fat_cache_ref1 := CacheBlockRef.reset {},
                m_fat_cache_ref2 := CacheBlockRef.reset {} } }
          w.o data dirty l [] (.FileHandler i true 0 :: cs)
      else
        fileWorld w i
          { f with m_chain := { f.m_chain with
              m_state := ChainState.TRUNCATE_CHECK,
              m_fat_cache_ref1 := r1,
              m_fat_cache_ref2 := { state := .READY, block := B } } }
          w.o data dirty (fun b => if b = B then true else l b) [.chain_event i] cs) := by
  have hfile := fun g o d dd l q c => fileWorld_file w i g o d dd l q c hi
  cases e with
  | true =>
    simp only [step, fileWorld_length, hi, World.chain, hfile, true_and, if_true,
      Option.some_bind, World.answer_fat_cache_ref2, fileWorld_blockLoaded, World.setChain,
      fileWorld_setFile, CacheBlockRef.complete, Bool.false_eq_true, if_false,
      ClusterChain.fat_cache_ref_handler, fileWorld_prepend, and_self,
      ClusterChain.complete_request, File.chain_handler, hst, File.complete_request,
      fileWorld_call, fileWorld_blockLoaded_error]
    rfl
  | false =>
    simp only [step, fileWorld_length, hi, World.chain, hfile, true_and, if_true,
      Option.some_bind, World.answer_fat_cache_ref2, fileWorld_blockLoaded, World.setChain,
      fileWorld_setFile, CacheBlockRef.complete, Bool.false_eq_true, if_false,
      ClusterChain.fat_cache_ref_handler, fileWorld_prepend, and_self]

/-- A world in which the truncation has completed is at rest. -/
theorem truncate_ends_done (w : World) (i : Nat) (hi : i < w.files.length)
    (hpf : pendingFiles w.files 0 = none)
    (hb1 : w.o.block_ref.state ≠ CacheRefState.REQUESTING)
    (hb2 : w.o.fs_info_block_ref.state ≠ CacheRefState.REQUESTING)
    (hb3 : w.o.flush_request = false)
    (f : File) (hd : f.m_dir_entry.m_block_ref.state ≠ CacheRefState.REQUESTING)
    (hu : f.m_block_user.busy = false) (c : ClusterChain) (hc : c.m_state = ChainState.IDLE)
    (h1 : c.m_fat_cache_ref1 = CacheBlockRef.reset {})
    (h2 : c.m_fat_cache_ref2 = CacheBlockRef.reset {})
    (data : Nat → Buffer) (dirty l : Nat → Bool) (cs : List HandlerCall) (err : Bool)
    (k : Nat) (errors : List Bool) :
    TruncateEnds w i cs (k + 1) errors
      (fileWorld w i { f with m_state := FileState.IDLE, m_chain := c } w.o data dirty l []
        (.FileHandler i err 0 :: cs)) :=
  ⟨{ f with m_state := FileState.IDLE, m_chain := c }, data, dirty, l, err,
    run_fileWorld_done _ _ _ _ _ _ _ _ _ _ hi hpf hb1 hb2 hb3
      (truncate_done_pending f i hd hu c h1 h2), rfl, hc⟩

theorem run_chainWorld (w : World) (i : Nat) (f : File) (r1 r2 : CacheBlockRef)
    (data : Nat → Buffer) (dirty l : Nat → Bool) (cs : List HandlerCall) (n : Nat)
    (errors : List Bool) :
    run (n + 1) errors (chainWorld w i f r1 r2 data dirty l cs) =
      run n errors (ClusterChain.event_handler (fileWorld w i
          { f with m_chain := { f.m_chain with m_fat_cache_ref1 := r1,
                                               m_fat_cache_ref2 := r2 } }
          w.o data dirty l [] cs) i) := by
  unfold chainWorld
  rw [run_chain_event]

end FatFs

namespace FatFs

theorem chain_check_eq (c : ClusterChain) (h : c.m_state = ChainState.TRUNCATE_CHECK)
    (r1 r2 : CacheBlockRef) :
    { c with m_state := ChainState.TRUNCATE_CHECK, m_fat_cache_ref1 := r1,
             m_fat_cache_ref2 := r2 } =
      { c with m_fat_cache_ref1 := r1, m_fat_cache_ref2 := r2 } := by
  cases c
  simp only at h
  subst h
  rfl

/-- An event of the loop that calls `complete_request` ends the truncation. -/
theorem truncate_ends_event (w : World) (i : Nat) (f : File) (h : Truncating w i f)
    (cs : List HandlerCall) (r1 r2 : CacheBlockRef) (data : Nat → Buffer)
    (dirty l : Nat → Bool) (errors : List Bool) (c : ClusterChain)
    (data2 : Nat → Buffer) (dirty2 : Nat → Bool) (err : Bool)
    (hc : c.m_state = ChainState.IDLE)
    (h1 : c.m_fat_cache_ref1 = CacheBlockRef.reset {})
    (h2 : c.m_fat_cache_ref2 = CacheBlockRef.reset {})
    (heq : ClusterChain.event_handler (fileWorld w i
          { f with m_chain := { f.m_chain with m_fat_cache_ref1 := r1,
                                               m_fat_cache_ref2 := r2 } }
          w.o data dirty l [] cs) i =
        fileWorld w i { f with m_state := FileState.IDLE, m_chain := c } w.o data2 dirty2 l []
          (.FileHandler i err 0 :: cs)) :
    TruncateEnds w i cs 2 errors (chainWorld w i f r1 r2 data dirty l cs) := by
  obtain ⟨hi, hpf, hb1, hb2, hb3, _, _, _, hd, hu⟩ := h
  obtain ⟨f2, d2, dd2, l2, e2, hrun, hs1, hs2⟩ :=
    truncate_ends_done w i hi hpf hb1 hb2 hb3 f hd hu c hc h1 h2 data2 dirty2 l cs err 0 errors
  refine ⟨f2, d2, dd2, l2, e2, ?_, hs1, hs2⟩
  rw [run_chainWorld, heq]
  exact hrun

/-- One event of the loop when no pin has to wait: the truncation ends, or a cluster is
unlinked and the loop continues on a FAT with fewer entries that are not 0. -/
theorem truncate_round_pinned (w : World) (i : Nat) (f : File) (h : Truncating w i f)
    (cs : List HandlerCall) (r1 r2 : CacheBlockRef) (data : Nat → Buffer)
    (dirty l : Nat → Bool) (errors : List Bool) (N : Nat)
    (himm1 : is_cluster_idx_normal f.m_chain.m_current_cluster = true →
      is_cluster_idx_valid_for_fat w f.m_chain.m_current_cluster = true →
      Immediate l r1 (get_abs_block_index_for_fat_entry w f.m_chain.m_current_cluster))
    (himm2 : is_cluster_idx_normal f.m_chain.m_current_cluster = true →
      is_cluster_idx_valid_for_fat w f.m_chain.m_current_cluster = true →
      is_cluster_idx_normal (fatOf w data f.m_chain.m_current_cluster) = true →
      is_cluster_idx_valid_for_fat w (fatOf w data f.m_chain.m_current_cluster) = true →
      Immediate l r2
        (get_abs_block_index_for_fat_entry w (fatOf w data f.m_chain.m_current_cluster)))
    (IH : ∀ (r1 r2 : CacheBlockRef) (data2 : Nat → Buffer) (dirty2 l2 : Nat → Bool)
      (errors2 : List Bool), nonzeroFatEntries w data2 < nonzeroFatEntries w data →
      ∃ fuel, fuel ≤ N ∧
        TruncateEnds w i cs fuel errors2 (chainWorld w i f r1 r2 data2 dirty2 l2 cs)) :
    ∃ fuel, fuel ≤ N + 2 ∧
      TruncateEnds w i cs fuel errors (chainWorld w i f r1 r2 data dirty l cs) := by
  have hT := h
  obtain ⟨hi, hpf, hb1, hb2, hb3, hfs, hst, hcs, hd, hu⟩ := h
  by_cases hnorm : is_cluster_idx_normal f.m_chain.m_current_cluster = true
  · by_cases hfat : is_cluster_idx_valid_for_fat w f.m_chain.m_current_cluster = true
    · have i1 := himm1 hnorm hfat
      by_cases hnext : is_cluster_idx_normal (fatOf w data f.m_chain.m_current_cluster) = true
      · by_cases hnfat : is_cluster_idx_valid_for_fat w
            (fatOf w data f.m_chain.m_current_cluster) = true
        · have i2 := himm2 hnorm hfat hnext hnfat
          obtain ⟨fuel, hle, f2, d2, dd2, l2, err, hrun, h1, h2⟩ :=
            IH _ _ _ _ l errors
              (nonzeroFatEntries_truncate_step w data f.m_chain.m_current_cluster hfs hfat
                hnext hnfat)
          refine ⟨fuel + 1, by omega, f2, d2, dd2, l2, err, ?_, h1, h2⟩
          rw [run_chainWorld,
            truncate_step_world w i hi f hcs hnorm hfat r1 r2 data dirty l cs i1 hnext hnfat i2]
          exact hrun
        · exact ⟨2, by omega, truncate_ends_event w i f hT cs r1 r2 data dirty l errors _ _ _ _
            rfl rfl rfl
            (truncate_event_next_not_valid w i hi f hst hcs r1 r2 data dirty l cs hnorm hfat i1
              hnext (Bool.eq_false_iff.2 hnfat))⟩
      · by_cases hit : f.m_chain.m_iter_state = IterState.START
        · obtain ⟨dirty2, heq⟩ := truncate_event_free w i hi f hst hcs r1 r2 data dirty l cs
            hnorm hfat i1 (Bool.eq_false_iff.2 hnext) hit
          exact ⟨2, by omega, truncate_ends_event w i f hT cs r1 r2 data dirty l errors _ _ _ _
            rfl rfl rfl heq⟩
        · exact ⟨2, by omega, truncate_ends_event w i f hT cs r1 r2 data dirty l errors _ _ _ _
            rfl rfl rfl
            (truncate_event_keep w i hi f hst hcs r1 r2 data dirty l cs hnorm hfat i1
              (Bool.eq_false_iff.2 hnext) hit)⟩
    · exact ⟨2, by omega, truncate_ends_event w i f hT cs r1 r2 data dirty l errors _ _ _ _
        rfl rfl rfl
        (truncate_event_not_valid w i hi f hst hcs r1 r2 data dirty l cs hnorm
          (Bool.eq_false_iff.2 hfat))⟩
  · exact ⟨2, by omega, truncate_ends_event w i f hT cs r1 r2 data dirty l errors _ _ _ _
      rfl rfl rfl
      (truncate_event_not_normal w i hi f hst hcs r1 r2 data dirty l cs
        (Bool.eq_false_iff.2 hnorm))⟩

/-- The answer to a pin of the loop ends the truncation when it is an error. -/
theorem truncate_ends_answer (w : World) (i : Nat) (f : File) (h : Truncating w i f)
    (cs : List HandlerCall) (data : Nat → Buffer) (dirty l : Nat → Bool)
    (errors : List Bool) (W : World) (answer : Bool → Input)
    (hq : W.queue = []) (hp : pending W = some answer)
    (hs : step W (answer true) =
      some (fileWorld w i
          { f with
            m_state := FileState.IDLE,
            m_chain :=
              { f.m_chain with
                m_state := ChainState.IDLE,
                m_fat_cache_ref1 := CacheBlockRef.reset {},
                m_fat_cache_ref2 := CacheBlockRef.reset {} } }
          w.o data dirty l [] (.FileHandler i true 0 :: cs)))
    (he : errors.headD false = true) :
    TruncateEnds w i cs 2 errors W := by
  obtain ⟨hi, hpf, hb1, hb2, hb3, _, _, _, hd, hu⟩ := h
  obtain ⟨f2, d2, dd2, l2, e2, hrun, hs1, hs2⟩ :=
    truncate_ends_done w i hi hpf hb1 hb2 hb3 f hd hu
      { f.m_chain with
        m_state := ChainState.IDLE,
        m_fat_cache_ref1 := CacheBlockRef.reset {},
        m_fat_cache_ref2 := CacheBlockRef.reset {} }
      rfl rfl rfl data dirty l cs true 0 errors.tail
  refine ⟨f2, d2, dd2, l2, e2, ?_, hs1, hs2⟩
  rw [run_answer_any 1 errors W answer hq hp, he, hs]
  exact hrun

/-- One round of the loop when the FAT block of the current cluster is at hand: at most
one pin has to wait. -/
theorem truncate_round_first (w : World) (i : Nat) (f : File) (h : Truncating w i f)
    (cs : List HandlerCall) (r1 r2 : CacheBlockRef) (data : Nat → Buffer)
    (dirty l : Nat → Bool) (errors : List Bool) (N : Nat)
    (himm1 : is_cluster_idx_normal f.m_chain.m_current_cluster = true →
      is_cluster_idx_valid_for_fat w f.m_chain.m_current_cluster = true →
      Immediate l r1 (get_abs_block_index_for_fat_entry w f.m_chain.m_current_cluster))
    (IH : ∀ (r1 r2 : CacheBlockRef) (data2 : Nat → Buffer) (dirty2 l2 : Nat → Bool)
      (errors2 : List Bool), nonzeroFatEntries w data2 < nonzeroFatEntries w data →
      ∃ fuel, fuel ≤ N ∧
        TruncateEnds w i cs fuel errors2 (chainWorld w i f r1 r2 data2 dirty2 l2 cs)) :
    ∃ fuel, fuel ≤ N + 4 ∧
      TruncateEnds w i cs fuel errors (chainWorld w i f r1 r2 data dirty l cs) := by
  have hT := h
  obtain ⟨hi, hpf, hb1, hb2, hb3, hfs, hst, hcs, hd, hu⟩ := h
  by_cases hx : is_cluster_idx_normal f.m_chain.m_current_cluster = true ∧
      is_cluster_idx_valid_for_fat w f.m_chain.m_current_cluster = true ∧
      is_cluster_idx_normal (fatOf w data f.m_chain.m_current_cluster) = true ∧
      is_cluster_idx_valid_for_fat w (fatOf w data f.m_chain.m_current_cluster) = true ∧
      ¬ Immediate l r2
        (get_abs_block_index_for_fat_entry w (fatOf w data f.m_chain.m_current_cluster))
  · obtain ⟨hnorm, hfat, hnext, hnfat, hni⟩ := hx
    have hev := truncate_event_pin2 w i hi f hcs r1 r2 data dirty l cs hnorm hfat
      (himm1 hnorm hfat) hnext hnfat hni
    have hpend := pending_fileWorld w i
        { f with m_chain := { f.m_chain with
            m_state := ChainState.TRUNCATE_REQUESTING_FAT2,
            m_fat_cache_ref1 :=
              { state := .READY,
                block := get_abs_block_index_for_fat_entry w f.m_chain.m_current_cluster },
            m_fat_cache_ref2 :=
              { state := .REQUESTING,
                block := get_abs_block_index_for_fat_entry w
                  (fatOf w data f.m_chain.m_current_cluster) } } }
        w.o data dirty l [] cs hi hpf hb1 hb2 hb3
    have hfp : File.pending
        { f with m_chain := { f.m_chain with
            m_state := ChainState.TRUNCATE_REQUESTING_FAT2,
            m_fat_cache_ref1 :=
              { state := .READY,
                block := get_abs_block_index_for_fat_entry w f.m_chain.m_current_cluster },
            m_fat_cache_ref2 :=
              { state := .REQUESTING,
                block := get_abs_block_index_for_fat_entry w
                  (fatOf w data f.m_chain.m_current_cluster) } } } i =
        some (Input.fat_cache_ref2 i) := by
      simp [File.pending]
    rw [hfp] at hpend
    have hstep := fun e => truncate_answer2 w i hi f hst
      { state := .READY,
        block := get_abs_block_index_for_fat_entry w f.m_chain.m_current_cluster }
      (get_abs_block_index_for_fat_entry w (fatOf w data f.m_chain.m_current_cluster))
      data dirty l cs e
    by_cases he : errors.headD false = true
    · have hs := hstep true
      rw [if_pos rfl] at hs
      obtain ⟨f2, d2, dd2, l2, e2, hrun, hs1, hs2⟩ :=
        truncate_ends_answer w i f hT cs data dirty l errors _ _ rfl hpend hs he
      refine ⟨3, by omega, f2, d2, dd2, l2, e2, ?_, hs1, hs2⟩
      rw [run_chainWorld, hev]
      exact hrun
    · have he2 : errors.headD false = false := Bool.eq_false_iff.2 he
      have hs := hstep false
      rw [if_neg (by decide), chain_check_eq f.m_chain hcs] at hs
      obtain ⟨fuel, hle, f2, d2, dd2, l2, e2, hrun, hs1, hs2⟩ :=
        truncate_round_pinned w i f hT cs
          { state := .READY,
            block := get_abs_block_index_for_fat_entry w f.m_chain.m_current_cluster }
          { state := .READY,
            block := get_abs_block_index_for_fat_entry w
              (fatOf w data f.m_chain.m_current_cluster) }
          data dirty
          (fun b => if b = get_abs_block_index_for_fat_entry w
            (fatOf w data f.m_chain.m_current_cluster) then true else l b)
          errors.tail N (fun _ _ => Or.inl ⟨rfl, rfl⟩) (fun _ _ _ _ => Or.inl ⟨rfl, rfl⟩) IH
      refine ⟨fuel + 2, by omega, f2, d2, dd2, l2, e2, ?_, hs1, hs2⟩
      rw [run_chainWorld, hev, run_answer_any (fuel) errors _ _ rfl hpend, he2, hs]
      exact hrun
  · obtain ⟨fuel, hle, hends⟩ := truncate_round_pinned w i f hT cs r1 r2 data dirty l errors N
      himm1 (fun a b c d => by
        by_contra hni
        exact hx ⟨a, b, c, d, hni⟩) IH
    exact ⟨fuel, by omega, hends⟩

/-- One round of the loop: at most two pins have to wait. -/
theorem truncate_round (w : World) (i : Nat) (f : File) (h : Truncating w i f)
    (cs : List HandlerCall) (r1 r2 : CacheBlockRef) (data : Nat → Buffer)
    (dirty l : Nat → Bool) (errors : List Bool) (N : Nat)
    (IH : ∀ (r1 r2 : CacheBlockRef) (data2 : Nat → Buffer) (dirty2 l2 : Nat → Bool)
      (errors2 : List Bool), nonzeroFatEntries w data2 < nonzeroFatEntries w data →
      ∃ fuel, fuel ≤ N ∧
        TruncateEnds w i cs fuel errors2 (chainWorld w i f r1 r2 data2 dirty2 l2 cs)) :
    ∃ fuel, fuel ≤ N + 6 ∧
      TruncateEnds w i cs fuel errors (chainWorld w i f r1 r2 data dirty l cs) := by
  have hT := h
  obtain ⟨hi, hpf, hb1, hb2, hb3, hfs, hst, hcs, hd, hu⟩ := h
  by_cases hx : is_cluster_idx_normal f.m_chain.m_current_cluster = true ∧
      is_cluster_idx_valid_for_fat w f.m_chain.m_current_cluster = true ∧
      ¬ Immediate l r1 (get_abs_block_index_for_fat_entry w f.m_chain.m_current_cluster)
  · obtain ⟨hnorm, hfat, hni⟩ := hx
    have hev := truncate_event_pin1 w i hi f hcs r1 r2 data dirty l cs hnorm hfat hni
    have hpend := pending_fileWorld w i
        { f with m_chain := { f.m_chain with
            m_state := ChainState.TRUNCATE_REQUESTING_FAT,
            m_fat_cache_ref1 :=
              { state := .REQUESTING,
                block := get_abs_block_index_for_fat_entry w f.m_chain.m_current_cluster },
            m_fat_cache_ref2 := r2 } }
        w.o data dirty l [] cs hi hpf hb1 hb2 hb3
    have hfp : File.pending
        { f with m_chain := { f.m_chain with
            m_state := ChainState.TRUNCATE_REQUESTING_FAT,
            m_fat_cache_ref1 :=
              { state := .REQUESTING,
                block := get_abs_block_index_for_fat_entry w f.m_chain.m_current_cluster },
            m_fat_cache_ref2 := r2 } } i =
        some (Input.fat_cache_ref1 i) := by
      simp [File.pending]
    rw [hfp] at hpend
    have hstep := fun e => truncate_answer1 w i hi f hst r2
      (get_abs_block_index_for_fat_entry w f.m_chain.m_current_cluster)
      data dirty l cs e
    by_cases he : errors.headD false = true
    · have hs := hstep true
      rw [if_pos rfl] at hs
      obtain ⟨f2, d2, dd2, l2, e2, hrun, hs1, hs2⟩ :=
        truncate_ends_answer w i f hT cs data dirty l errors _ _ rfl hpend hs he
      refine ⟨3, by omega, f2, d2, dd2, l2, e2, ?_, hs1, hs2⟩
      rw [run_chainWorld, hev]
      exact hrun
    · have he2 : errors.headD false = false := Bool.eq_false_iff.2 he
      have hs := hstep false
      rw [if_neg (by decide), chain_check_eq f.m_chain hcs] at hs
      obtain ⟨fuel, hle, f2, d2, dd2, l2, e2, hrun, hs1, hs2⟩ :=
        truncate_round_first w i f hT cs
          { state := .READY,
            block := get_abs_block_index_for_fat_entry w f.m_chain.m_current_cluster }
          r2 data dirty
          (fun b => if b = get_abs_block_index_for_fat_entry w
            f.m_chain.m_current_cluster then true else l b)
          errors.tail N (fun _ _ => Or.inl ⟨rfl, rfl⟩) IH
      refine ⟨fuel + 2, by omega, f2, d2, dd2, l2, e2, ?_, hs1, hs2⟩
      rw [run_chainWorld, hev, run_answer_any (fuel) errors _ _ rfl hpend, he2, hs]
      exact hrun
  · obtain ⟨fuel, hle, hends⟩ := truncate_round_first w i f hT cs r1 r2 data dirty l errors N
      (fun a b => by
        by_contra hni
        exact hx ⟨a, b, hni⟩) IH
    exact ⟨fuel, by omega, hends⟩

/-- The loop of a truncation ends, by induction on the number of FAT entries that are
not 0. -/
theorem truncate_loop_ends (w : World) (i : Nat) (f : File) (h : Truncating w i f)
    (cs : List HandlerCall) (n : Nat) :
    ∀ (r1 r2 : CacheBlockRef) (data : Nat → Buffer) (dirty l : Nat → Bool)
      (errors : List Bool), nonzeroFatEntries w data = n →
      ∃ fuel, fuel ≤ 6 * n + 6 ∧
        TruncateEnds w i cs fuel errors (chainWorld w i f r1 r2 data dirty l cs) := by
  induction n using Nat.strong_induction_on with
  | _ n ih =>
    intro r1 r2 data dirty l errors hn
    obtain ⟨fuel, hle, hends⟩ := truncate_round w i f h cs r1 r2 data dirty l errors (6 * n)
      (fun r1 r2 data2 dirty2 l2 errors2 hlt => by
        obtain ⟨fuel, hle, hends⟩ := ih (nonzeroFatEntries w data2) (by omega) r1 r2 data2
          dirty2 l2 errors2 rfl
        exact ⟨fuel, by omega, hends⟩)
    exact ⟨fuel, by omega, hends⟩

/-- An event of the loop that leaves the event of the chain queued has unlinked a cluster:
the FAT has fewer entries that are not 0. -/
theorem truncate_event_requeued (w : World) (i : Nat) (f : File) (h : Truncating w i f)
    (cs : List HandlerCall) (r1 r2 : CacheBlockRef) (data : Nat → Buffer)
    (dirty l : Nat → Bool)
    (hq : (ClusterChain.event_handler (fileWorld w i
          { f with m_chain := { f.m_chain with m_fat_cache_ref1 := r1,
                                               m_fat_cache_ref2 := r2 } }
          w.o data dirty l [] cs) i).queue ≠ []) :
    nonzeroFatEntries w (ClusterChain.event_handler (fileWorld w i
          { f with m_chain := { f.m_chain with m_fat_cache_ref1 := r1,
                                               m_fat_cache_ref2 := r2 } }
          w.o data dirty l [] cs) i).data < nonzeroFatEntries w data := by
  obtain ⟨hi, hpf, hb1, hb2, hb3, hfs, hst, hcs, hd, hu⟩ := h
  by_cases hnorm : is_cluster_idx_normal f.m_chain.m_current_cluster = true
  · by_cases hfat : is_cluster_idx_valid_for_fat w f.m_chain.m_current_cluster = true
    · by_cases i1 : Immediate l r1
          (get_abs_block_index_for_fat_entry w f.m_chain.m_current_cluster)
      · by_cases hnext :
            is_cluster_idx_normal (fatOf w data f.m_chain.m_current_cluster) = true
        · by_cases hnfat : is_cluster_idx_valid_for_fat w
              (fatOf w data f.m_chain.m_current_cluster) = true
          · by_cases i2 : Immediate l r2 (get_abs_block_index_for_fat_entry w
                (fatOf w data f.m_chain.m_current_cluster))
            · rw [truncate_step_world w i hi f hcs hnorm hfat r1 r2 data dirty l cs i1 hnext
                hnfat i2]
              exact nonzeroFatEntries_truncate_step w data f.m_chain.m_current_cluster hfs hfat
                hnext hnfat
            · rw [truncate_event_pin2 w i hi f hcs r1 r2 data dirty l cs hnorm hfat i1 hnext
                hnfat i2] at hq
              exact absurd rfl hq
          · rw [truncate_event_next_not_valid w i hi f hst hcs r1 r2 data dirty l cs hnorm hfat
              i1 hnext (Bool.eq_false_iff.2 hnfat)] at hq
            exact absurd rfl hq
        · by_cases hit : f.m_chain.m_iter_state = IterState.START
          · obtain ⟨dirty2, heq⟩ := truncate_event_free w i hi f hst hcs r1 r2 data dirty l cs
              hnorm hfat i1 (Bool.eq_false_iff.2 hnext) hit
            rw [heq] at hq
            exact absurd rfl hq
          · rw [truncate_event_keep w i hi f hst hcs r1 r2 data dirty l cs hnorm hfat i1
              (Bool.eq_false_iff.2 hnext) hit] at hq
            exact absurd rfl hq
      · rw [truncate_event_pin1 w i hi f hcs r1 r2 data dirty l cs hnorm hfat i1] at hq
        exact absurd rfl hq
    · rw [truncate_event_not_valid w i hi f hst hcs r1 r2 data dirty l cs hnorm
        (Bool.eq_false_iff.2 hfat)] at hq
      exact absurd rfl hq
  · rw [truncate_event_not_normal w i hi f hst hcs r1 r2 data dirty l cs
      (Bool.eq_false_iff.2 hnorm)] at hq
    exact absurd rfl hq

/-- C37: truncate terminates on every FAT.  Let file `i` be in the loop of a truncation
(file state `TRUNC_CHAIN`, chain state `TRUNCATE_CHECK`, the event of the chain queued),
with any chain iterator, any FAT references `r1` and `r2`, any cache contents `data`
(so any FAT, cyclic or corrupt), any set `l` of loaded blocks and any answers `errors` of
the block cache to the pins.  Then the run reaches `complete_request` (the handler of the
file is called once, with or without error, and the file and its chain are idle) within
`6 * n + 6` transitions, where `n` is the number of FAT entries whose masked value is not
0; and every event of the loop that leaves the event of the chain queued, so that the
loop goes on, strictly decreases that number. -/
theorem truncate_terminates (w : World) (i : Nat) (f : File) (h : Truncating w i f)
    (cs : List HandlerCall) (r1 r2 : CacheBlockRef) (data : Nat → Buffer)
    (dirty l : Nat → Bool) (errors : List Bool) :
    (∃ fuel, fuel ≤ 6 * nonzeroFatEntries w data + 6 ∧
      TruncateEnds w i cs fuel errors (chainWorld w i f r1 r2 data dirty l cs)) ∧
    ((ClusterChain.event_handler (fileWorld w i
          { f with m_chain := { f.m_chain with m_fat_cache_ref1 := r1,
                                               m_fat_cache_ref2 := r2 } }
          w.o data dirty l [] cs) i).queue ≠ [] →
      nonzeroFatEntries w (ClusterChain.event_handler (fileWorld w i
          { f with m_chain := { f.m_chain with m_fat_cache_ref1 := r1,
                                               m_fat_cache_ref2 := r2 } }
          w.o data dirty l [] cs) i).data < nonzeroFatEntries w data) :=
  ⟨truncate_loop_ends w i f h cs _ r1 r2 data dirty l errors rfl,
    truncate_event_requeued w i f h cs r1 r2 data dirty l⟩

theorem truncate_terminates_witness :
    Truncating markerTruncating 0 (markerTruncating.file 0) ∧
    (∃ fuel, fuel ≤ 6 * nonzeroFatEntries markerTruncating markerTruncating.data + 6 ∧
      TruncateEnds markerTruncating 0 [] fuel [false, true]
        (chainWorld markerTruncating 0 (markerTruncating.file 0) {} {} markerTruncating.data
          markerTruncating.dirty (fun _ => false) [])) :=
  ⟨by decide,
    (truncate_terminates markerTruncating 0 (markerTruncating.file 0) (by decide) [] {} {}
      markerTruncating.data markerTruncating.dirty (fun _ => false) [false, true]).1⟩

end FatFs

namespace FatFs

theorem rest_of_files (w w2 : World) (i : Nat) (h : w2.files = w.files) :
    w2.rest i = w.rest i := by
  unfold World.rest World.file
  rw [h]

@[simp]
theorem rest_setFile (w : World) (i : Nat) (g : File) : (w.setFile i g).rest i = w.rest i := by
  unfold World.rest World.setFile World.file
  simp only [List.length_set, Prod.mk.injEq, true_and]
  funext j
  by_cases hj : j = i
  · rw [if_pos hj, if_pos hj]
  · rw [if_neg hj, if_neg hj]
    simp only [List.getD_eq_getElem?_getD, List.getElem?_set]
    rw [if_neg (fun h => hj h.symm)]

@[simp]
theorem rest_setChain (w : World) (i : Nat) (c : ClusterChain) :
    (w.setChain i c).rest i = w.rest i :=
  rest_setFile w i _

@[simp]
theorem rest_prependNowNotAlready (w : World) (e : QueuedEvent) (i : Nat) :
    (w.prependNowNotAlready e).rest i = w.rest i := rfl

@[simp]
theorem rest_unset (w : World) (e : QueuedEvent) (i : Nat) : (w.unset e).rest i = w.rest i := rfl

@[simp]
theorem rest_call (w : World) (c : HandlerCall) (i : Nat) : (w.call c).rest i = w.rest i := rfl

@[simp]
theorem rest_setData (w : World) (b : Nat) (buffer : Buffer) (i : Nat) :
    (w.setData b buffer).rest i = w.rest i := rfl

@[simp]
theorem rest_markDirty (w : World) (r : CacheBlockRef) (i : Nat) :
    (w.markDirty r).rest i = w.rest i := rfl

theorem rest_mk (bs sb : Nat) (wr : Bool) (o : Object) (d : Nat → Buffer)
    (dd l : Nat → Bool) (fs : List File) (q : List QueuedEvent) (cs : List HandlerCall)
    (i : Nat) :
    World.rest ⟨bs, sb, wr, o, d, dd, l, fs, q, cs⟩ i =
      (fs.length, fun j => if j = i then default else fs.getD j default) := rfl

theorem rest_eta (w : World) (i : Nat) :
    (w.files.length, fun j => if j = i then default else w.files.getD j default) =
      w.rest i := rfl

@[simp]
theorem rest_update_fat_entry_in_cache_block (w : World) (r : CacheBlockRef) (y v i : Nat) :
    (update_fat_entry_in_cache_block w r y v).rest i = w.rest i := rfl

@[simp]
theorem rest_update_fs_clean_bit (w : World) (r : CacheBlockRef) (b : Bool) (i : Nat) :
    (update_fs_clean_bit w r b).rest i = w.rest i := rfl

@[simp]
theorem rest_update_fs_info_allocated_cluster (w : World) (i : Nat) :
    (update_fs_info_allocated_cluster w).rest i = w.rest i := rfl

@[simp]
theorem rest_update_fs_info_free_clusters (w : World) (b : Bool) (i : Nat) :
    (update_fs_info_free_clusters w b).rest i = w.rest i := by
  unfold update_fs_info_free_clusters
  dsimp only
  split_ifs <;> rfl

@[simp]
theorem rest_startWriteMount (w : World) (i : Nat) : (startWriteMount w).rest i = w.rest i := rfl

@[simp]
theorem rest_startWriteUnmount (w : World) (i : Nat) :
    (startWriteUnmount w).rest i = w.rest i := rfl

@[simp]
theorem rest_complete_write_mount_request (w : World) (e : Bool) (i : Nat) :
    (complete_write_mount_request w e).rest i = w.rest i := by
  unfold complete_write_mount_request
  dsimp only
  split_ifs <;> rfl

@[simp]
theorem rest_complete_write_unmount_request (w : World) (e : Bool) (i : Nat) :
    (complete_write_unmount_request w e).rest i = w.rest i := by
  unfold complete_write_unmount_request
  dsimp only
  split_ifs <;> rfl

@[simp]
theorem rest_write_mount_metablock_ref_handler (w : World) (e : Bool) (i : Nat) :
    (write_mount_metablock_ref_handler w e).rest i = w.rest i := by
  unfold write_mount_metablock_ref_handler
  dsimp only
  split_ifs <;> rfl

@[simp]
theorem rest_write_unmount_metablock_ref_handler (w : World) (e : Bool) (i : Nat) :
    (write_unmount_metablock_ref_handler w e).rest i = w.rest i := by
  unfold write_unmount_metablock_ref_handler
  dsimp only
  split_ifs <;> rfl

@[simp]
theorem rest_flush_request_handler (w : World) (e : Bool) (i : Nat) :
    (flush_request_handler w e).rest i = w.rest i := by
  unfold flush_request_handler
  dsimp only
  split <;> (try split_ifs) <;>
    first
    | rfl
    | exact rest_complete_write_unmount_request _ _ _

@[simp]
theorem rest_take (w : World) (i : Nat) : (WriteReference.take w i).1.rest i = w.rest i := by
  unfold WriteReference.take
  split_ifs
  · rfl
  · dsimp only
    exact (rest_setFile _ _ _).trans rfl
  · rfl

@[simp]
theorem rest_release (w : World) (i : Nat) : (WriteReference.release w i).rest i = w.rest i := by
  unfold WriteReference.release
  split_ifs
  · dsimp only
    exact (rest_setFile _ _ _).trans rfl
  · rfl

@[simp]
theorem rest_DirEntryRef_reset (w : World) (i : Nat) :
    (DirEntryRef.reset w i).rest i = w.rest i :=
  rest_setFile _ _ _

@[simp]
theorem rest_requestEntryRef (w : World) (i a b : Nat) :
    (DirEntryRef.requestEntryRef w i a b).rest i = w.rest i :=
  rest_setFile _ _ _

@[simp]
theorem rest_setFirstCluster (w : World) (i v k : Nat) :
    (DirEntryRef.setFirstCluster w i v).rest k = w.rest k := rfl

@[simp]
theorem rest_setFileSize (w : World) (i v k : Nat) :
    (DirEntryRef.setFileSize w i v).rest k = w.rest k := rfl

@[simp]
theorem rest_requestNext (w : World) (i : Nat) :
    (ClusterChain.requestNext w i).rest i = w.rest i := by
  unfold ClusterChain.requestNext
  dsimp only
  simp only [rest_prependNowNotAlready, rest_setChain]

@[simp]
theorem rest_requestNew (w : World) (i : Nat) :
    (ClusterChain.requestNew w i).rest i = w.rest i := by
  unfold ClusterChain.requestNew
  dsimp only
  simp only [rest_prependNowNotAlready, rest_setChain]

@[simp]
theorem rest_startTruncate (w : World) (i : Nat) :
    (ClusterChain.startTruncate w i).rest i = w.rest i := by
  unfold ClusterChain.startTruncate
  dsimp only
  simp only [rest_prependNowNotAlready, rest_setChain]

@[simp]
theorem rest_BlockAccessUser_startRead (w : World) (i b : Nat) :
    (BlockAccessUser.startRead w i b).rest i = w.rest i :=
  rest_setFile _ _ _

@[simp]
theorem rest_BlockAccessUser_startWrite (w : World) (i b : Nat) :
    (BlockAccessUser.startWrite w i b).rest i = w.rest i :=
  rest_setFile _ _ _

@[simp]
theorem rest_File_complete_request (w : World) (i : Nat) (e : Bool) (n : Nat) :
    (File.complete_request w i e n).rest i = w.rest i := by
  unfold File.complete_request
  dsimp only
  simp only [rest_call, rest_setFile]

@[simp]
theorem rest_File_startRead (w : World) (i : Nat) : (File.startRead w i).rest i = w.rest i := by
  unfold File.startRead
  dsimp only
  simp only [rest_prependNowNotAlready, rest_setFile]

@[simp]
theorem rest_File_startOpenWritable (w : World) (i : Nat) :
    (File.startOpenWritable w i).rest i = w.rest i := by
  unfold File.startOpenWritable
  dsimp only
  simp only [rest_prependNowNotAlready, rest_setFile]

@[simp]
theorem rest_File_startWrite (w : World) (i n : Nat) :
    (File.startWrite w i n).rest i = w.rest i := by
  unfold File.startWrite
  dsimp only
  simp only [rest_prependNowNotAlready, rest_setFile]

@[simp]
theorem rest_File_startTruncate (w : World) (i : Nat) :
    (File.startTruncate w i).rest i = w.rest i := by
  unfold File.startTruncate
  dsimp only
  simp only [rest_prependNowNotAlready, rest_setFile]

@[simp]
theorem rest_File_clean_up_writability (w : World) (i : Nat) :
    (File.clean_up_writability w i).rest i = w.rest i := by
  unfold File.clean_up_writability
  dsimp only
  simp only [rest_DirEntryRef_reset, rest_release]

@[simp]
theorem rest_File_complete_open_writable_request (w : World) (i : Nat) (e : Bool) :
    (File.complete_open_writable_request w i e).rest i = w.rest i := by
  unfold File.complete_open_writable_request
  dsimp only
  split_ifs <;> simp only [rest_File_complete_request, rest_File_clean_up_writability]

@[simp]
theorem rest_File_closeWritable (w : World) (i : Nat) :
    (File.closeWritable w i).rest i = w.rest i :=
  rest_File_clean_up_writability w i

@[simp]
theorem rest_File_event_handler (w : World) (i : Nat) :
    (File.event_handler w i).rest i = w.rest i := by
  unfold File.event_handler
  dsimp only
  split <;> (try split_ifs) <;>
    simp only [rest_File_complete_request, rest_requestNext, rest_startTruncate,
      rest_BlockAccessUser_startRead, rest_BlockAccessUser_startWrite, rest_requestEntryRef,
      rest_File_complete_open_writable_request, rest_take, rest_setFileSize,
      rest_setFile]

@[simp]
theorem rest_File_chain_handler (w : World) (i : Nat) (e b : Bool) :
    (File.chain_handler w i e b).rest i = w.rest i := by
  unfold File.chain_handler
  dsimp only
  split <;> (try split_ifs) <;>
    simp only [rest_File_complete_request, rest_requestNew, rest_setFirstCluster,
      rest_prependNowNotAlready, rest_setFile]

@[simp]
theorem rest_File_block_user_handler (w : World) (i : Nat) (e : Bool) :
    (File.block_user_handler w i e).rest i = w.rest i := by
  unfold File.block_user_handler
  dsimp only
  split <;> (try split_ifs) <;>
    simp only [rest_File_complete_request, rest_setFileSize, rest_setFile]

@[simp]
theorem rest_File_dir_entry_handler (w : World) (i : Nat) (e : Bool) :
    (File.dir_entry_handler w i e).rest i = w.rest i := by
  unfold File.dir_entry_handler
  split_ifs <;> simp only [rest_File_complete_open_writable_request]

@[simp]
theorem rest_DirEntryRef_block_ref_handler (w : World) (i : Nat) (e : Bool) :
    (DirEntryRef.block_ref_handler w i e).rest i = w.rest i := by
  unfold DirEntryRef.block_ref_handler
  dsimp only
  simp only [rest_File_dir_entry_handler, rest_setFile]

@[simp]
theorem rest_ClusterChain_complete_request (w : World) (i : Nat) (e b : Bool) :
    (ClusterChain.complete_request w i e b).rest i = w.rest i := by
  unfold ClusterChain.complete_request
  dsimp only
  simp only [rest_File_chain_handler, rest_setChain]

@[simp]
theorem rest_start_new_allocation (w : World) (i : Nat) :
    (start_new_allocation w).rest i = w.rest i := rfl

@[simp]
theorem rest_allocation_request_added (w : World) (i : Nat) :
    (allocation_request_added w).rest i = w.rest i := by
  unfold allocation_request_added
  split_ifs <;> rfl

@[simp]
theorem rest_allocation_request_removed (w : World) (i : Nat) :
    (allocation_request_removed w).rest i = w.rest i := by
  unfold allocation_request_removed
  split_ifs <;> rfl

@[simp]
theorem rest_fat_cache_ref_handler (w : World) (i : Nat) (e : Bool) :
    (ClusterChain.fat_cache_ref_handler w i e).rest i = w.rest i := by
  unfold ClusterChain.fat_cache_ref_handler
  dsimp only
  split <;> (try split_ifs) <;>
    simp only [rest_ClusterChain_complete_request, rest_prependNowNotAlready, rest_setChain]

@[simp]
theorem rest_ClusterChain_deinit (w : World) (i : Nat) :
    (ClusterChain.deinit w i).rest i = w.rest i := by
  unfold ClusterChain.deinit
  dsimp only
  split_ifs <;>
    simp only [rest_unset, rest_setChain, rest_allocation_request_removed, rest_mk, rest_eta]

@[simp]
theorem rest_File_deinit (w : World) (i : Nat) : (File.deinit w i).rest i = w.rest i := by
  unfold File.deinit
  dsimp only
  simp only [rest_unset, rest_ClusterChain_deinit, rest_setFile, rest_DirEntryRef_reset,
    rest_release]

@[simp]
theorem rest_blockLoaded (w : World) (r : CacheBlockRef) (e : Bool) (i : Nat) :
    (w.blockLoaded r e).rest i = w.rest i := by
  unfold World.blockLoaded
  split_ifs <;> rfl

@[simp]
theorem rest_flushDone (w : World) (e : Bool) (i : Nat) : (w.flushDone e).rest i = w.rest i := by
  unfold World.flushDone
  dsimp only
  split_ifs <;> rfl

@[simp]
theorem rest_answer_block_ref (w : World) (e : Bool) (i : Nat) :
    (w.answer_block_ref e).rest i = w.rest i := by
  unfold World.answer_block_ref World.blockLoaded
  dsimp only
  split_ifs <;> rfl

@[simp]
theorem rest_answer_fs_info_block_ref (w : World) (e : Bool) (i : Nat) :
    (w.answer_fs_info_block_ref e).rest i = w.rest i := by
  unfold World.answer_fs_info_block_ref World.blockLoaded
  dsimp only
  split_ifs <;> rfl

@[simp]
theorem rest_answer_fat_cache_ref1 (w : World) (i : Nat) (e : Bool) :
    (w.answer_fat_cache_ref1 i e).rest i = w.rest i := by
  unfold World.answer_fat_cache_ref1
  dsimp only
  simp only [rest_blockLoaded, rest_setChain]

@[simp]
theorem rest_answer_fat_cache_ref2 (w : World) (i : Nat) (e : Bool) :
    (w.answer_fat_cache_ref2 i e).rest i = w.rest i := by
  unfold World.answer_fat_cache_ref2
  dsimp only
  simp only [rest_blockLoaded, rest_setChain]

@[simp]
theorem rest_answer_dir_entry_block_ref (w : World) (i : Nat) (e : Bool) :
    (w.answer_dir_entry_block_ref i e).rest i = w.rest i := by
  unfold World.answer_dir_entry_block_ref
  dsimp only
  simp only [rest_blockLoaded, rest_setFile]

@[simp]
theorem rest_answer_block_user (w : World) (i : Nat) :
    (w.answer_block_user i).rest i = w.rest i := by
  unfold World.answer_block_user
  dsimp only
  simp only [rest_setFile]

@[simp]
theorem rest_rewind_internal (w : World) (i : Nat) :
    (ClusterChain.rewind_internal w i).rest i = w.rest i := by
  unfold ClusterChain.rewind_internal
  dsimp only
  simp only [rest_setChain]

@[simp]
theorem rest_File_rewind (w : World) (i : Nat) : (File.rewind w i).rest i = w.rest i := by
  unfold File.rewind ClusterChain.rewind
  dsimp only
  simp only [rest_setFile, rest_rewind_internal]

@[simp]
theorem rest_next_check_end (w : World) (i : Nat) :
    (ClusterChain.event_handler_next_check_end w i).rest i = w.rest i := by
  unfold ClusterChain.event_handler_next_check_end
  dsimp only
  split_ifs <;> simp only [rest_ClusterChain_complete_request, rest_setChain]

@[simp]
theorem rest_ClusterChain_event_handler (w : World) (i : Nat) :
    (ClusterChain.event_handler w i).rest i = w.rest i := by
  unfold ClusterChain.event_handler
  dsimp only
  split <;> (try split_ifs) <;>
    simp only [rest_ClusterChain_complete_request, rest_setChain, rest_next_check_end,
      rest_allocation_request_added, rest_mk, rest_eta, rest_prependNowNotAlready,
      rest_update_fs_info_free_clusters, rest_update_fat_entry_in_cache_block]

@[simp]
theorem rest_allocation_result (w : World) (i : Nat) (e : Bool) (n : Nat) :
    (ClusterChain.allocation_result w i e n).rest i = w.rest i := by
  unfold ClusterChain.allocation_result
  dsimp only
  split_ifs <;>
    simp only [rest_ClusterChain_complete_request, rest_setChain, rest_mk, rest_eta,
      rest_update_fat_entry_in_cache_block]

end FatFs

namespace FatFs

theorem length_of_rest (w w2 : World) (i : Nat) (h : w2.rest i = w.rest i) :
    w2.files.length = w.files.length :=
  congrArg Prod.fst h

theorem file_of_rest (w w2 : World) (i j : Nat) (h : w2.rest i = w.rest i) (hj : j ≠ i) :
    w2.file j = w.file j := by
  have := congrFun (congrArg Prod.snd h) j
  simpa [World.rest, hj] using this

theorem file_out_of_range (w : World) (i : Nat) (hi : ¬ i < w.files.length) :
    w.file i = default := by
  unfold World.file
  rw [List.getD_eq_default _ _ (by omega)]

/-- An invariant of the files is kept by a transition that changes one file only, when it
holds for that file afterwards. -/
theorem files_inv_of_rest (P : File → Prop) (w w2 : World) (i : Nat)
    (h : ∀ j, P (w.file j)) (hr : w2.rest i = w.rest i)
    (hi : i < w.files.length → P (w2.file i)) : ∀ j, P (w2.file j) := by
  intro j
  by_cases hj : j = i
  · subst hj
    by_cases hlt : j < w.files.length
    · exact hi hlt
    · have hl := length_of_rest w w2 j hr
      rw [file_out_of_range w2 j (by omega), ← file_out_of_range w j hlt]
      exact h j
  · rw [file_of_rest w w2 i j hr hj]
    exact h j

@[simp]
theorem file_setFile (w : World) (i : Nat) (g : File) (hi : i < w.files.length) :
    (w.setFile i g).file i = g := by
  unfold World.setFile World.file
  simp only [List.getD_eq_getElem?_getD, List.getElem?_set, hi, if_true]
  rfl

@[simp]
theorem length_setFile (w : World) (i : Nat) (g : File) :
    (w.setFile i g).files.length = w.files.length := by
  unfold World.setFile
  simp only [List.length_set]

@[simp]
theorem file_prependNowNotAlready (w : World) (e : QueuedEvent) (i : Nat) :
    (w.prependNowNotAlready e).file i = w.file i := rfl

@[simp]
theorem length_prependNowNotAlready (w : World) (e : QueuedEvent) :
    (w.prependNowNotAlready e).files.length = w.files.length := rfl

@[simp]
theorem file_call (w : World) (c : HandlerCall) (i : Nat) : (w.call c).file i = w.file i := rfl

@[simp]
theorem length_call (w : World) (c : HandlerCall) :
    (w.call c).files.length = w.files.length := rfl

@[simp]
theorem file_setFirstCluster (w : World) (i v k : Nat) :
    (DirEntryRef.setFirstCluster w i v).file k = w.file k := rfl

@[simp]
theorem length_setFirstCluster (w : World) (i v : Nat) :
    (DirEntryRef.setFirstCluster w i v).files.length = w.files.length := rfl

@[simp]
theorem file_setFileSize (w : World) (i v k : Nat) :
    (DirEntryRef.setFileSize w i v).file k = w.file k := rfl

@[simp]
theorem length_setFileSize (w : World) (i v : Nat) :
    (DirEntryRef.setFileSize w i v).files.length = w.files.length := rfl

@[simp]
theorem file_update_fat_entry (w : World) (r : CacheBlockRef) (y v k : Nat) :
    (update_fat_entry_in_cache_block w r y v).file k = w.file k := rfl

@[simp]
theorem length_update_fat_entry (w : World) (r : CacheBlockRef) (y v : Nat) :
    (update_fat_entry_in_cache_block w r y v).files.length = w.files.length := rfl

@[simp]
theorem file_update_fs_info_free_clusters (w : World) (b : Bool) (k : Nat) :
    (update_fs_info_free_clusters w b).file k = w.file k := by
  unfold update_fs_info_free_clusters
  dsimp only
  split_ifs <;> rfl

@[simp]
theorem length_update_fs_info_free_clusters (w : World) (b : Bool) :
    (update_fs_info_free_clusters w b).files.length = w.files.length := by
  unfold update_fs_info_free_clusters
  dsimp only
  split_ifs <;> rfl

@[simp]
theorem file_blockLoaded (w : World) (r : CacheBlockRef) (e : Bool) (k : Nat) :
    (w.blockLoaded r e).file k = w.file k := by
  unfold World.blockLoaded
  split_ifs <;> rfl

@[simp]
theorem length_blockLoaded (w : World) (r : CacheBlockRef) (e : Bool) :
    (w.blockLoaded r e).files.length = w.files.length := by
  unfold World.blockLoaded
  split_ifs <;> rfl

theorem file_File_complete_request (w : World) (i : Nat) (e : Bool) (n : Nat)
    (hi : i < w.files.length) :
    (File.complete_request w i e n).file i = { w.file i with m_state := FileState.IDLE } := by
  unfold File.complete_request
  simp only [file_call, file_setFile, hi]

/-- The handler of the file for its chain keeps the invariant, for an idle chain. -/
theorem chain_handler_inv (w : World) (i : Nat) (e b : Bool) (hi : i < w.files.length)
    (h1 : IterLinks (w.file i).m_chain) (h2 : (w.file i).m_chain.m_state = ChainState.IDLE)
    (h3 : DirWaits (w.file i)) :
    ChainInv ((File.chain_handler w i e b).file i) := by
  unfold File.chain_handler
  dsimp only
  have hb : (if b = true then DirEntryRef.setFirstCluster w i (ClusterChain.getFirstCluster w i)
      else w).file i = w.file i := by
    split_ifs <;> rfl
  have hl : (if b = true then DirEntryRef.setFirstCluster w i (ClusterChain.getFirstCluster w i)
      else w).files.length = w.files.length := by
    split_ifs <;> rfl
  generalize (if b = true then DirEntryRef.setFirstCluster w i (ClusterChain.getFirstCluster w i)
      else w) = W at hb hl
  rw [← hb] at h1 h2 h3
  rw [← hl] at hi
  clear hb hl
  unfold ChainInv DirWaits ClusterChain.extending IterLinks at *
  split <;> (try split_ifs) <;>
    simp_all [file_File_complete_request, hi, ClusterChain.requestNew, World.setChain,
      World.chain, ClusterChain.endReached]

/-- The completion of a request of the chain keeps the invariant. -/
theorem complete_request_inv (w : World) (i : Nat) (e b : Bool) (hi : i < w.files.length)
    (h1 : IterLinks (w.file i).m_chain) (h3 : DirWaits (w.file i)) :
    ChainInv ((ClusterChain.complete_request w i e b).file i) := by
  unfold ClusterChain.complete_request
  dsimp only
  apply chain_handler_inv _ _ _ _ (by simpa [World.setChain] using hi) <;>
    unfold IterLinks DirWaits at * <;>
    simp_all [World.setChain, World.chain]

theorem next_check_end_inv (w : World) (i : Nat) (hi : i < w.files.length)
    (h0 : (w.file i).m_chain.m_iter_state = IterState.START →
      (w.file i).m_chain.m_prev_cluster = 0 ∧
      (w.file i).m_chain.m_current_cluster = (w.file i).m_chain.m_first_cluster)
    (h1 : (w.file i).m_chain.m_iter_state = IterState.CLUSTER →
      is_cluster_idx_normal (w.file i).m_chain.m_first_cluster = true ∧
      is_cluster_idx_normal (w.file i).m_chain.m_prev_cluster = true)
    (h2 : (w.file i).m_chain.m_iter_state = IterState.END →
      is_cluster_idx_normal (w.file i).m_chain.m_current_cluster = false ∧
      is_cluster_idx_normal (w.file i).m_chain.m_first_cluster =
        is_cluster_idx_normal (w.file i).m_chain.m_prev_cluster)
    (h3 : DirWaits (w.file i)) :
    ChainInv ((ClusterChain.event_handler_next_check_end w i).file i) := by
  have hz : is_cluster_idx_normal 0 = false := by decide
  unfold ClusterChain.event_handler_next_check_end
  dsimp only
  split_ifs <;>
    (apply complete_request_inv _ _ _ _ (by simpa [World.setChain] using hi) <;>
      unfold IterLinks DirWaits at * <;>
      simp_all [World.setChain, World.chain]) <;>
    (cases hit : (w.file i).m_chain.m_iter_state <;> simp_all)

@[simp]
theorem file_start_new_allocation (w : World) (k : Nat) :
    (start_new_allocation w).file k = w.file k := rfl

@[simp]
theorem file_allocation_request_added (w : World) (k : Nat) :
    (allocation_request_added w).file k = w.file k := by
  unfold allocation_request_added
  split_ifs <;> rfl

@[simp]
theorem file_allocation_request_removed (w : World) (k : Nat) :
    (allocation_request_removed w).file k = w.file k := by
  unfold allocation_request_removed
  split_ifs <;> rfl

@[simp]
theorem length_setChain (w : World) (i : Nat) (c : ClusterChain) :
    (w.setChain i c).files.length = w.files.length :=
  length_setFile w i _

theorem file_setChain (w : World) (i : Nat) (c : ClusterChain) (hi : i < w.files.length) :
    (w.setChain i c).file i = { w.file i with m_chain := c } :=
  file_setFile w i _ hi

theorem file_with_o (w : World) (o : Object) (k : Nat) :
    ({ w with o := o } : World).file k = w.file k := rfl

theorem length_with_o (w : World) (o : Object) :
    ({ w with o := o } : World).files.length = w.files.length := rfl

theorem chain_prependNowNotAlready (w : World) (e : QueuedEvent) (i : Nat) :
    (w.prependNowNotAlready e).chain i = w.chain i := rfl

theorem file_m_chain (w : World) (i : Nat) : (w.file i).m_chain = w.chain i := rfl

theorem setChain_file_state (w : World) (i : Nat) (c : ClusterChain) (hi : i < w.files.length) :
    ((w.setChain i c).file i).m_state = (w.file i).m_state := by
  rw [file_setChain w i c hi]

theorem setChain_file_dir (w : World) (i : Nat) (c : ClusterChain) (hi : i < w.files.length) :
    ((w.setChain i c).file i).m_dir_entry = (w.file i).m_dir_entry := by
  rw [file_setChain w i c hi]

theorem ChainInv_iff (w : World) (i : Nat) :
    ChainInv (w.file i) ↔
      ((((w.chain i).m_iter_state = IterState.START →
          (w.chain i).m_prev_cluster = 0 ∧
          (w.chain i).m_current_cluster = (w.chain i).m_first_cluster) ∧
        ((w.chain i).m_iter_state = IterState.CLUSTER →
          is_cluster_idx_normal (w.chain i).m_first_cluster = true ∧
          is_cluster_idx_normal (w.chain i).m_current_cluster = true) ∧
        ((w.chain i).m_iter_state = IterState.END →
          is_cluster_idx_normal (w.chain i).m_current_cluster = false ∧
          is_cluster_idx_normal (w.chain i).m_first_cluster =
            is_cluster_idx_normal (w.chain i).m_prev_cluster)) ∧
      (((w.chain i).m_state = ChainState.NEW_CHECK ∨
          (w.chain i).m_state = ChainState.NEW_REQUESTING_FAT ∨
          (w.chain i).m_state = ChainState.NEW_ALLOCATING) →
        (w.file i).m_state = FileState.WRITE_NEXT_CLUSTER ∧
        (w.chain i).m_iter_state = IterState.END) ∧
      ((w.file i).m_dir_entry.m_block_ref.state = CacheRefState.REQUESTING →
        (w.file i).m_state = FileState.OPENWR_DIR_ENTRY)) := Iff.rfl

theorem IterLinks_iff (w : World) (i : Nat) :
    IterLinks (w.file i).m_chain ↔
      (((w.chain i).m_iter_state = IterState.START →
          (w.chain i).m_prev_cluster = 0 ∧
          (w.chain i).m_current_cluster = (w.chain i).m_first_cluster) ∧
        ((w.chain i).m_iter_state = IterState.CLUSTER →
          is_cluster_idx_normal (w.chain i).m_first_cluster = true ∧
          is_cluster_idx_normal (w.chain i).m_current_cluster = true) ∧
        ((w.chain i).m_iter_state = IterState.END →
          is_cluster_idx_normal (w.chain i).m_current_cluster = false ∧
          is_cluster_idx_normal (w.chain i).m_first_cluster =
            is_cluster_idx_normal (w.chain i).m_prev_cluster)) := Iff.rfl

theorem DirWaits_iff (w : World) (i : Nat) :
    DirWaits (w.file i) ↔
      ((w.file i).m_dir_entry.m_block_ref.state = CacheRefState.REQUESTING →
        (w.file i).m_state = FileState.OPENWR_DIR_ENTRY) := Iff.rfl

/-- The event of the chain keeps the invariant. -/
theorem chain_event_inv (w : World) (i : Nat) (hi : i < w.files.length)
    (h : ChainInv (w.file i)) :
    ChainInv ((ClusterChain.event_handler w i).file i) := by
  have h0 := h
  rw [ChainInv_iff] at h
  obtain ⟨⟨a0, a1, a2⟩, hq, hs⟩ := h
  unfold ClusterChain.event_handler
  dsimp only
  split
  · -- NEXT_CHECK
    split_ifs with hC hv hr
    · exact complete_request_inv _ _ _ _ hi h0.1 h0.2.2
    · rw [ChainInv_iff]
      simp only [setChain_chain, length_setChain, setChain_file_state, setChain_file_dir, hi]
      simp_all
    · obtain ⟨b1, b2⟩ := a1 hC
      apply next_check_end_inv _ _ (by simp only [length_setChain]; exact hi) <;>
        (try rw [DirWaits_iff]) <;>
        simp only [file_m_chain, setChain_chain, length_setChain, setChain_file_state,
          setChain_file_dir, hi] <;>
        simp_all
    · apply next_check_end_inv _ _ hi _ _ a2 h0.2.2
      · exact a0
      · intro h1
        exact absurd h1 hC
  · -- NEW_CHECK
    split_ifs <;>
      rw [ChainInv_iff] <;>
      simp only [World.chain, file_setChain, length_setChain, hi, file_with_o,
        file_allocation_request_added] <;>
      simp only [World.chain] at * <;>
      simp_all
  · -- TRUNCATE_CHECK
    split_ifs with hn hv hr hnn hS hnv hr2
    · exact complete_request_inv _ _ _ _ hi h0.1 h0.2.2
    · exact complete_request_inv _ _ _ _ hi h0.1 h0.2.2
    · rw [ChainInv_iff]
      simp only [setChain_chain, length_setChain, setChain_file_state, setChain_file_dir, hi]
      simp_all
    · simp only [setChain_chain, length_setChain, hi] at hS
      apply complete_request_inv _ _ _ _
          (by
            simp only [length_setChain, length_update_fat_entry,
              length_update_fs_info_free_clusters]
            exact hi) <;>
        (first | rw [IterLinks_iff] | rw [DirWaits_iff]) <;>
        simp only [setChain_chain, length_setChain, setChain_file_state,
          setChain_file_dir, file_update_fat_entry, length_update_fat_entry,
          file_update_fs_info_free_clusters, length_update_fs_info_free_clusters,
          update_fat_entry_chain, update_fs_info_free_clusters_chain, hi] <;>
        simp_all
    · apply complete_request_inv _ _ _ _ (by simp only [length_setChain]; exact hi) <;>
        (first | rw [IterLinks_iff] | rw [DirWaits_iff]) <;>
        simp only [setChain_chain, length_setChain, setChain_file_state,
          setChain_file_dir, hi] <;>
        simp_all
    · apply complete_request_inv _ _ _ _ (by simp only [length_setChain]; exact hi) <;>
        (first | rw [IterLinks_iff] | rw [DirWaits_iff]) <;>
        simp only [setChain_chain, length_setChain, setChain_file_state,
          setChain_file_dir, hi] <;>
        simp_all
    · rw [ChainInv_iff]
      simp only [setChain_chain, length_setChain, setChain_file_state, setChain_file_dir, hi]
      simp_all
    · rw [ChainInv_iff]
      simp only [setChain_chain, length_setChain, setChain_file_state, setChain_file_dir,
        file_update_fat_entry, length_update_fat_entry, file_update_fs_info_free_clusters,
        length_update_fs_info_free_clusters, update_fat_entry_chain,
        update_fs_info_free_clusters_chain, file_prependNowNotAlready,
        chain_prependNowNotAlready, hi]
      simp_all
  · exact h0

end FatFs

namespace FatFs

theorem file_release (w : World) (i : Nat) (hi : i < w.files.length) :
    ∃ t, (WriteReference.release w i).file i = { w.file i with m_write_ref := t } := by
  unfold WriteReference.release
  split_ifs with h
  · dsimp only
    refine ⟨{ m_taken := false }, ?_⟩
    rw [file_setFile _ _ _ (by exact hi)]
    rfl
  · exact ⟨(w.file i).m_write_ref, rfl⟩

@[simp]
theorem length_release (w : World) (i : Nat) :
    (WriteReference.release w i).files.length = w.files.length :=
  length_of_rest w _ i (rest_release w i)

@[simp]
theorem length_take (w : World) (i : Nat) :
    (WriteReference.take w i).1.files.length = w.files.length :=
  length_of_rest w _ i (rest_take w i)

theorem file_take (w : World) (i : Nat) (hi : i < w.files.length) :
    ∃ t, (WriteReference.take w i).1.file i = { w.file i with m_write_ref := t } := by
  unfold WriteReference.take
  split_ifs with h1 h2
  · exact ⟨(w.file i).m_write_ref, rfl⟩
  · dsimp only
    refine ⟨{ m_taken := true }, ?_⟩
    rw [file_setFile _ _ _ (by exact hi)]
    rfl
  · exact ⟨(w.file i).m_write_ref, rfl⟩

theorem file_clean_up_writability (w : World) (i : Nat) (hi : i < w.files.length) :
    ∃ t, (File.clean_up_writability w i).file i =
      { w.file i with
        m_write_ref := t,
        m_dir_entry :=
          { m_block_ref := (w.file i).m_dir_entry.m_block_ref.reset,
            m_state := DirEntryRefState.INVALID,
            m_block_offset := (w.file i).m_dir_entry.m_block_offset } } := by
  obtain ⟨t, ht⟩ := file_release w i hi
  refine ⟨t, ?_⟩
  unfold File.clean_up_writability DirEntryRef.reset
  dsimp only
  rw [file_setFile _ _ _ (by simpa using hi), ht]

@[simp]
theorem length_clean_up_writability (w : World) (i : Nat) :
    (File.clean_up_writability w i).files.length = w.files.length :=
  length_of_rest w _ i (rest_File_clean_up_writability w i)

theorem file_complete_open_writable_request (w : World) (i : Nat) (e : Bool)
    (hi : i < w.files.length) :
    ∃ d t, (File.complete_open_writable_request w i e).file i =
        { w.file i with m_state := FileState.IDLE, m_dir_entry := d, m_write_ref := t } ∧
      (d.m_block_ref.state = CacheRefState.REQUESTING →
        (w.file i).m_dir_entry.m_block_ref.state = CacheRefState.REQUESTING) := by
  unfold File.complete_open_writable_request
  dsimp only
  split_ifs
  · obtain ⟨t, ht⟩ := file_clean_up_writability w i hi
    refine ⟨{ m_block_ref := (w.file i).m_dir_entry.m_block_ref.reset,
              m_state := DirEntryRefState.INVALID,
              m_block_offset := (w.file i).m_dir_entry.m_block_offset }, t, ?_, ?_⟩
    · rw [file_File_complete_request _ _ _ _ (by simpa using hi), ht]
    · intro h
      simp [CacheBlockRef.reset] at h
  · exact ⟨(w.file i).m_dir_entry, (w.file i).m_write_ref,
      file_File_complete_request _ _ _ _ hi, fun h => h⟩

/-- The event of the file keeps the invariant. -/
theorem file_event_inv (w : World) (i : Nat) (hi : i < w.files.length)
    (h : ChainInv (w.file i)) :
    ChainInv ((File.event_handler w i).file i) := by
  unfold ChainInv IterLinks DirWaits ClusterChain.extending at *
  unfold File.event_handler
  dsimp only
  split
  · split_ifs <;>
      simp_all [file_File_complete_request, ClusterChain.requestNext, World.setChain,
        World.chain, BlockAccessUser.startRead]
  · obtain ⟨t, ht⟩ := file_take w i hi
    have hl := length_take w i
    generalize WriteReference.take w i = p at ht hl
    obtain ⟨W, taken⟩ := p
    dsimp only at ht hl ⊢
    split_ifs
    · obtain ⟨d, t2, h1, h2⟩ := file_complete_open_writable_request W i true (by omega)
      rw [h1, ht]
      simp_all
    · simp_all [DirEntryRef.requestEntryRef, World.requestBlock]
  · split_ifs <;>
      simp_all [file_File_complete_request, ClusterChain.requestNext, World.setChain,
        World.chain, BlockAccessUser.startWrite]
  · split_ifs <;>
      simp_all [file_File_complete_request, ClusterChain.startTruncate, World.setChain,
        World.chain]
  · exact h

/-- The end of a block transfer keeps the invariant. -/
theorem block_user_inv (w : World) (i : Nat) (e : Bool) (hi : i < w.files.length)
    (h : ChainInv (w.file i)) :
    ChainInv ((File.block_user_handler (w.answer_block_user i) i e).file i) := by
  unfold ChainInv IterLinks DirWaits ClusterChain.extending at *
  unfold File.block_user_handler World.answer_block_user
  dsimp only
  split <;> (try split_ifs) <;>
    simp_all [file_File_complete_request]

theorem file_dir_entry_handler (w : World) (i : Nat) (e : Bool) (hi : i < w.files.length) :
    ∃ d t, (File.dir_entry_handler w i e).file i =
        { w.file i with m_state := FileState.IDLE, m_dir_entry := d, m_write_ref := t } ∧
      (d.m_block_ref.state = CacheRefState.REQUESTING →
        (w.file i).m_dir_entry.m_block_ref.state = CacheRefState.REQUESTING) := by
  unfold File.dir_entry_handler
  split_ifs <;> exact file_complete_open_writable_request w i _ hi

theorem complete_not_requesting (r : CacheBlockRef) (e : Bool) :
    (r.complete e).state ≠ CacheRefState.REQUESTING := by
  unfold CacheBlockRef.complete CacheBlockRef.reset
  split_ifs <;> simp

/-- The answer to the pin of the directory entry keeps the invariant. -/
theorem dir_entry_inv (w : World) (i : Nat) (e : Bool) (hi : i < w.files.length)
    (h : ChainInv (w.file i))
    (hr : (w.file i).m_dir_entry.m_block_ref.state = CacheRefState.REQUESTING) :
    ChainInv ((DirEntryRef.block_ref_handler (w.answer_dir_entry_block_ref i e) i e).file i) := by
  have hfs := h.2.2 hr
  unfold DirEntryRef.block_ref_handler
  dsimp only
  have hl : (w.answer_dir_entry_block_ref i e).files.length = w.files.length :=
    length_of_rest w _ i (rest_answer_dir_entry_block_ref w i e)
  have hf : (w.answer_dir_entry_block_ref i e).file i =
      { w.file i with m_dir_entry :=
        { (w.file i).m_dir_entry with
          m_block_ref := (w.file i).m_dir_entry.m_block_ref.complete e } } := by
    unfold World.answer_dir_entry_block_ref
    dsimp only
    rw [file_setFile _ _ _ (by simpa using hi)]
    simp only [file_blockLoaded]
  generalize w.answer_dir_entry_block_ref i e = W at hl hf
  obtain ⟨d, t, h1, h2⟩ := file_dir_entry_handler
    (W.setFile i { W.file i with m_dir_entry :=
      { (W.file i).m_dir_entry with
        m_state := if e = true then DirEntryRefState.INVALID else DirEntryRefState.READY } })
    i e (by simpa [hl] using hi)
  rw [h1, file_setFile _ _ _ (by omega), hf]
  rw [file_setFile _ _ _ (by omega), hf] at h2
  have h3 : d.m_block_ref.state ≠ CacheRefState.REQUESTING :=
    fun h4 => complete_not_requesting _ e (h2 h4)
  unfold ChainInv IterLinks DirWaits ClusterChain.extending at *
  simp_all

end FatFs

namespace FatFs

/-- The handler of the FAT pins of the chain keeps the invariant. -/
theorem fat_cache_ref_handler_inv (w : World) (i : Nat) (e : Bool) (hi : i < w.files.length)
    (h : ChainInv (w.file i)) :
    ChainInv ((ClusterChain.fat_cache_ref_handler w i e).file i) := by
  have h0 := h
  rw [ChainInv_iff] at h
  obtain ⟨⟨a0, a1, a2⟩, hq, hs⟩ := h
  unfold ClusterChain.fat_cache_ref_handler
  dsimp only
  split
  · split_ifs
    · exact complete_request_inv _ _ _ _ hi h0.1 h0.2.2
    · rw [ChainInv_iff]
      simp only [setChain_chain, length_setChain, setChain_file_state, setChain_file_dir,
        file_prependNowNotAlready, chain_prependNowNotAlready, hi]
      simp_all
  · split_ifs
    · exact complete_request_inv _ _ _ _ hi h0.1 h0.2.2
    · rw [ChainInv_iff]
      simp only [setChain_chain, length_setChain, setChain_file_state, setChain_file_dir,
        file_prependNowNotAlready, chain_prependNowNotAlready, hi]
      simp_all
  · split_ifs
    · exact complete_request_inv _ _ _ _ hi h0.1 h0.2.2
    · rw [ChainInv_iff]
      simp only [setChain_chain, length_setChain, setChain_file_state, setChain_file_dir,
        file_prependNowNotAlready, chain_prependNowNotAlready, hi]
      simp_all
  · split_ifs
    · exact complete_request_inv _ _ _ _ hi h0.1 h0.2.2
    · rw [ChainInv_iff]
      simp only [setChain_chain, length_setChain, setChain_file_state, setChain_file_dir,
        file_prependNowNotAlready, chain_prependNowNotAlready, hi]
      simp_all
  · exact h0

theorem ChainInv_refs (f : File) (r1 r2 : CacheBlockRef) (h : ChainInv f) :
    ChainInv { f with m_chain := { f.m_chain with m_fat_cache_ref1 := r1,
                                                  m_fat_cache_ref2 := r2 } } := h

theorem fat_cache_ref1_inv (w : World) (i : Nat) (e : Bool) (hi : i < w.files.length)
    (h : ChainInv (w.file i)) :
    ChainInv ((ClusterChain.fat_cache_ref_handler (w.answer_fat_cache_ref1 i e) i e).file i) := by
  apply fat_cache_ref_handler_inv _ _ _
    (by rw [length_of_rest w _ i (rest_answer_fat_cache_ref1 w i e)]; exact hi)
  unfold World.answer_fat_cache_ref1
  dsimp only
  rw [file_setChain _ _ _ (by simpa using hi)]
  simp only [World.chain, file_blockLoaded]
  exact ChainInv_refs (w.file i) _ _ h

theorem fat_cache_ref2_inv (w : World) (i : Nat) (e : Bool) (hi : i < w.files.length)
    (h : ChainInv (w.file i)) :
    ChainInv ((ClusterChain.fat_cache_ref_handler (w.answer_fat_cache_ref2 i e) i e).file i) := by
  apply fat_cache_ref_handler_inv _ _ _
    (by rw [length_of_rest w _ i (rest_answer_fat_cache_ref2 w i e)]; exact hi)
  unfold World.answer_fat_cache_ref2
  dsimp only
  rw [file_setChain _ _ _ (by simpa using hi)]
  simp only [World.chain, file_blockLoaded]
  exact ChainInv_refs (w.file i) _ _ h

/-- The calls of the client on an idle file keep the invariant. -/
theorem File_startRead_inv (w : World) (i : Nat) (hi : i < w.files.length)
    (h : ChainInv (w.file i)) (hs : (w.file i).m_state = FileState.IDLE) :
    ChainInv ((File.startRead w i).file i) := by
  unfold ChainInv IterLinks DirWaits ClusterChain.extending at *
  unfold File.startRead
  simp_all

theorem File_startOpenWritable_inv (w : World) (i : Nat) (hi : i < w.files.length)
    (h : ChainInv (w.file i)) (hs : (w.file i).m_state = FileState.IDLE) :
    ChainInv ((File.startOpenWritable w i).file i) := by
  unfold ChainInv IterLinks DirWaits ClusterChain.extending at *
  unfold File.startOpenWritable
  simp_all

theorem File_startWrite_inv (w : World) (i n : Nat) (hi : i < w.files.length)
    (h : ChainInv (w.file i)) (hs : (w.file i).m_state = FileState.IDLE) :
    ChainInv ((File.startWrite w i n).file i) := by
  unfold ChainInv IterLinks DirWaits ClusterChain.extending at *
  unfold File.startWrite
  simp_all

theorem File_startTruncate_inv (w : World) (i : Nat) (hi : i < w.files.length)
    (h : ChainInv (w.file i)) (hs : (w.file i).m_state = FileState.IDLE) :
    ChainInv ((File.startTruncate w i).file i) := by
  unfold ChainInv IterLinks DirWaits ClusterChain.extending at *
  unfold File.startTruncate
  simp_all

theorem File_rewind_inv (w : World) (i : Nat) (hi : i < w.files.length)
    (h : ChainInv (w.file i)) (hs : (w.file i).m_state = FileState.IDLE) :
    ChainInv ((File.rewind w i).file i) := by
  unfold ChainInv IterLinks DirWaits ClusterChain.extending at *
  unfold File.rewind ClusterChain.rewind ClusterChain.rewind_internal
  simp_all [World.setChain, World.chain]

theorem File_closeWritable_inv (w : World) (i : Nat) (hi : i < w.files.length)
    (h : ChainInv (w.file i)) (hs : (w.file i).m_state = FileState.IDLE) :
    ChainInv ((File.closeWritable w i).file i) := by
  obtain ⟨t, ht⟩ := file_clean_up_writability w i hi
  unfold File.closeWritable
  rw [ht]
  unfold ChainInv IterLinks DirWaits ClusterChain.extending at *
  simp_all [CacheBlockRef.reset]

@[simp]
theorem file_unset (w : World) (e : QueuedEvent) (k : Nat) : (w.unset e).file k = w.file k := rfl

@[simp]
theorem length_unset (w : World) (e : QueuedEvent) :
    (w.unset e).files.length = w.files.length := rfl

theorem file_ClusterChain_deinit (w : World) (i : Nat) (hi : i < w.files.length) :
    (ClusterChain.deinit w i).file i =
      { w.file i with m_chain :=
        { (w.file i).m_chain with
          m_fat_cache_ref2 := (w.file i).m_chain.m_fat_cache_ref2.reset,
          m_fat_cache_ref1 := (w.file i).m_chain.m_fat_cache_ref1.reset } } := by
  unfold ClusterChain.deinit
  dsimp only
  split_ifs <;>
    simp only [file_unset, setChain_chain, length_setChain, file_setChain,
      file_allocation_request_removed, file_with_o, hi, World.chain,
      length_of_rest _ _ i (rest_allocation_request_removed _ i), length_with_o]

theorem File_deinit_inv (w : World) (i : Nat) (hi : i < w.files.length)
    (h : ChainInv (w.file i)) (hs : (w.file i).m_state = FileState.IDLE) :
    ChainInv ((File.deinit w i).file i) := by
  obtain ⟨t, ht⟩ := file_clean_up_writability w i hi
  have hl := length_clean_up_writability w i
  unfold File.clean_up_writability at ht hl
  dsimp only at ht hl
  unfold File.deinit
  dsimp only
  rw [file_unset, file_ClusterChain_deinit _ _ (by simpa [hl] using hi),
    file_setFile _ _ _ (by simpa [hl] using hi), ht]
  unfold ChainInv IterLinks DirWaits ClusterChain.extending at *
  simp_all [CacheBlockRef.reset]

theorem file_append_default (w : World) (j : Nat) :
    ({ w with files := w.files ++ [default] } : World).file j = w.file j := by
  unfold World.file
  dsimp only
  simp only [List.getD_eq_getElem?_getD]
  by_cases hj : j < w.files.length
  · rw [List.getElem?_append_left hj]
  · rw [List.getElem?_append_right (by omega), List.getElem?_eq_none (l := w.files) (by omega)]
    cases j - w.files.length <;> rfl

theorem ChainInv_default : ChainInv (default : File) := by decide

/-- The invariant holds for every file after `File::init`. -/
theorem File_init_inv (w : World) (e : FsEntry) (h : ∀ j, ChainInv (w.file j)) :
    ∀ j, ChainInv ((File.init w e).file j) := by
  have h1 : ∀ j, ChainInv (({ w with files := w.files ++ [default] } : World).file j) := by
    intro j
    rw [file_append_default]
    exact h j
  have hl : w.files.length <
      ({ w with files := w.files ++ [default] } : World).files.length := by
    simp
  unfold File.init ClusterChain.init ClusterChain.rewind_internal
  dsimp only
  generalize ({ w with files := w.files ++ [default] } : World) = W at h1 hl
  generalize w.files.length = i at hl
  refine files_inv_of_rest ChainInv W _ i h1 ?_ (fun hi => ?_)
  · simp only [rest_setFile, rest_setChain]
  · rw [file_setFile _ _ _ (by simpa using hi)]
    unfold ChainInv IterLinks DirWaits ClusterChain.extending
    simp [World.chain, file_setChain, hi]

end FatFs

namespace FatFs

theorem ChainsInv_of_files (w w2 : World) (hf : w2.files = w.files) (h : ChainsInv w) :
    ChainsInv w2 := by
  intro j
  have : w2.file j = w.file j := by
    unfold World.file
    rw [hf]
  rw [this]
  exact h j

theorem ChainsInv_of_rest (w w2 : World) (i : Nat) (h : ChainsInv w)
    (hr : w2.rest i = w.rest i) (hi : i < w.files.length → ChainInv (w2.file i)) :
    ChainsInv w2 :=
  files_inv_of_rest ChainInv w w2 i h hr hi

theorem World.files_update_fs_info_allocated_cluster (w : World) :
    (update_fs_info_allocated_cluster w).files = w.files := rfl

theorem World.files_update_fs_info_free_clusters (w : World) (b : Bool) :
    (update_fs_info_free_clusters w b).files = w.files := by
  unfold update_fs_info_free_clusters
  dsimp only
  split_ifs <;> rfl

/-- The result of an allocation keeps the invariant: the new cluster is a normal cluster
index when there is no error. -/
theorem allocation_result_inv (w : World) (i : Nat) (e : Bool) (n : Nat)
    (hi : i < w.files.length) (h : ChainInv (w.file i))
    (hn : e = false → is_cluster_idx_normal n = true) :
    ChainInv ((ClusterChain.allocation_result w i e n).file i) := by
  have hz : is_cluster_idx_normal 0 = false := by decide
  unfold ClusterChain.allocation_result
  dsimp only
  have hW1 : ({ w with o.allocating_chains_list := w.o.allocating_chains_list.erase i } :
      World).file i = w.file i := rfl
  have hW2 : ({ w with o.allocating_chains_list := w.o.allocating_chains_list.erase i } :
      World).files.length = w.files.length := rfl
  generalize ({ w with o.allocating_chains_list := w.o.allocating_chains_list.erase i } :
      World) = W at hW1 hW2
  rw [← hW1] at h
  rw [← hW2] at hi
  clear hW1 hW2
  have h0 := h
  rw [ChainInv_iff] at h
  obtain ⟨⟨a0, a1, a2⟩, hq, hs⟩ := h
  split_ifs with he hp
  · exact complete_request_inv _ _ _ _ hi h0.1 h0.2.2
  · have hn2 := hn (by simpa using he)
    simp only [setChain_chain, length_setChain, hi] at hp
    apply complete_request_inv _ _ _ _ (by simp only [length_setChain]; exact hi) <;>
      (first | rw [IterLinks_iff] | rw [DirWaits_iff]) <;>
      simp only [setChain_chain, length_setChain, setChain_file_state, setChain_file_dir, hi] <;>
      simp_all
  · have hn2 := hn (by simpa using he)
    simp only [setChain_chain, length_setChain, hi] at hp
    apply complete_request_inv _ _ _ _
        (by simp only [length_setChain, length_update_fat_entry]; exact hi) <;>
      (first | rw [IterLinks_iff] | rw [DirWaits_iff]) <;>
      simp only [setChain_chain, length_setChain, setChain_file_state, setChain_file_dir,
        file_update_fat_entry, length_update_fat_entry, update_fat_entry_chain, hi] <;>
      simp_all
    cases hit : (W.chain i).m_iter_state <;> simp_all

theorem complete_allocation_inv (w : World) (e : Bool) (n : Nat)
    (hn : e = false → is_cluster_idx_normal n = true) (h : ChainsInv w) :
    ChainsInv (complete_allocation w e n) := by
  unfold complete_allocation
  split
  · exact h
  · rename_i k more hl
    dsimp only
    have hW : ∀ W : World, W.files = w.files →
        ChainsInv (ClusterChain.allocation_result W k e n) := by
      intro W hf
      have hW := ChainsInv_of_files w W hf h
      exact ChainsInv_of_rest W _ k hW (rest_allocation_result W k e n)
        (fun hi => allocation_result_inv W k e n hi (hW k) hn)
    apply hW
    split_ifs <;> rfl

theorem alloc_event_handler_loop_inv (fuel : Nat) (w w2 : World)
    (hp : w.o.alloc_position < w.o.num_valid_clusters)
    (hv : w.o.num_valid_clusters ≤ 0x0FFFFFF6) (h : ChainsInv w)
    (hr : alloc_event_handler_loop fuel w = some w2) : ChainsInv w2 := by
  induction fuel generalizing w with
  | zero => exact absurd hr (by simp [alloc_event_handler_loop])
  | succ fuel ih =>
    have hpos : (2 + w.o.alloc_position) % 2 ^ 32 = 2 + w.o.alloc_position :=
      Nat.mod_eq_of_lt (by omega)
    have hnorm : is_cluster_idx_normal ((2 + w.o.alloc_position) % 2 ^ 32) = true := by
      rw [hpos]
      unfold is_cluster_idx_normal NormalClusterIndexEnd
      simp only [decide_eq_true_eq]
      omega
    have e : (w.o.alloc_position + 1) % 2 ^ 32 = w.o.alloc_position + 1 :=
      Nat.mod_eq_of_lt (by omega)
    unfold alloc_event_handler_loop at hr
    dsimp only at hr
    split_ifs at hr with hreq hadv hfree hstart hfree hstart
    · simp only [Option.some.injEq] at hr
      subst hr
      exact ChainsInv_of_files w _ rfl h
    · simp only [Option.some.injEq] at hr
      subst hr
      refine complete_allocation_inv _ false _ (fun _ => hnorm) ?_
      refine ChainsInv_of_files w _ ?_ h
      simp only [World.files_update_fs_info_allocated_cluster,
        World.files_update_fs_info_free_clusters]
      rfl
    · simp only [Option.some.injEq] at hr
      subst hr
      exact complete_allocation_inv _ true _ (fun e => absurd e (by simp))
        (ChainsInv_of_files w _ rfl h)
    · refine ih _ ?_ ?_ ?_ hr
      · show 0 < w.o.num_valid_clusters
        omega
      · exact hv
      · exact ChainsInv_of_files w _ rfl h
    · simp only [Option.some.injEq] at hr
      subst hr
      refine complete_allocation_inv _ false _ (fun _ => hnorm) ?_
      refine ChainsInv_of_files w _ ?_ h
      simp only [World.files_update_fs_info_allocated_cluster,
        World.files_update_fs_info_free_clusters]
      rfl
    · simp only [Option.some.injEq] at hr
      subst hr
      exact complete_allocation_inv _ true _ (fun e => absurd e (by simp))
        (ChainsInv_of_files w _ rfl h)
    · refine ih _ ?_ ?_ ?_ hr
      · have hc2 : (w.o.alloc_position + 1) % 2 ^ 32 ≠ w.o.num_valid_clusters := hadv
        show (w.o.alloc_position + 1) % 2 ^ 32 < w.o.num_valid_clusters
        omega
      · exact hv
      · exact ChainsInv_of_files w _ rfl h

end FatFs

namespace FatFs

theorem rest_fs_info_block_ref_handler (w : World) (e : Bool) (i : Nat) :
    (fs_info_block_ref_handler w e).rest i = w.rest i := by
  unfold fs_info_block_ref_handler
  dsimp only
  split_ifs <;> rfl

/-- A transition that leaves every file as it is keeps the invariant. -/
theorem ChainsInv_of_rest_all (w w2 : World) (h : ChainsInv w)
    (hr : w2.rest w.files.length = w.rest w.files.length) : ChainsInv w2 :=
  ChainsInv_of_rest w w2 w.files.length h hr (fun hi => absurd hi (Nat.lt_irrefl _))

theorem alloc_block_ref_handler_inv (w : World) (e : Bool) (h : ChainsInv w) :
    ChainsInv (alloc_block_ref_handler w e) := by
  unfold alloc_block_ref_handler
  split_ifs with he
  · exact complete_allocation_inv w true 0 (fun e => absurd e (by simp)) h
  · exact ChainsInv_of_files w _ rfl h

theorem block_ref_handler_inv (w w2 : World) (e : Bool) (h : ChainsInv w)
    (hs : block_ref_handler w e = some w2) : ChainsInv w2 := by
  unfold block_ref_handler at hs
  split_ifs at hs
  · exact ChainsInv_of_files w w2 (init_block_ref_handler_frame w w2 e hs).1 h
  · simp only [Option.some.injEq] at hs
    subst hs
    exact ChainsInv_of_rest_all w _ h (rest_write_mount_metablock_ref_handler w e _)
  · simp only [Option.some.injEq] at hs
    subst hs
    exact ChainsInv_of_rest_all w _ h (rest_write_unmount_metablock_ref_handler w e _)
  · simp only [Option.some.injEq] at hs
    subst hs
    exact alloc_block_ref_handler_inv w e h
  · simp only [Option.some.injEq] at hs
    subst hs
    exact h
  · simp only [Option.some.injEq] at hs
    subst hs
    exact h

/-- Every transition of the driver keeps the invariant of the files. -/
theorem step_chains_inv (w w2 : World) (input : Input) (hI : Inv w) (h : ChainsInv w)
    (hs : step w input = some w2) : ChainsInv w2 := by
  cases input with
  | queued =>
    simp only [step] at hs
    split at hs
    · exact absurd hs (by simp)
    · rename_i e rest hq
      have h0 : ChainsInv ({ w with queue := rest } : World) := ChainsInv_of_files w _ rfl h
      split at hs
      · rcases hI with hR | hU
        · exact alloc_event_handler_loop_inv _ ({ w with queue := rest } : World) w2
            hR.2.2.2.1 hR.2.1 h0 hs
        · rw [hU.2.2.1] at hq
          exact absurd hq (by simp)
      · simp only [Option.some.injEq] at hs
        subst hs
        rename_i i
        exact ChainsInv_of_rest _ _ i h0 (rest_File_event_handler _ i)
          (fun hi => file_event_inv _ i hi (h0 i))
      · simp only [Option.some.injEq] at hs
        subst hs
        rename_i i
        exact ChainsInv_of_rest _ _ i h0 (rest_ClusterChain_event_handler _ i)
          (fun hi => chain_event_inv _ i hi (h0 i))
  | block_ref error =>
    simp only [step] at hs
    split_ifs at hs
    exact block_ref_handler_inv _ w2 error
      (ChainsInv_of_rest_all w _ h (rest_answer_block_ref w error _)) hs
  | fs_info_block_ref error =>
    simp only [step] at hs
    split_ifs at hs
    simp only [Option.some.injEq] at hs
    subst hs
    refine ChainsInv_of_rest_all w _ h ?_
    rw [rest_fs_info_block_ref_handler, rest_answer_fs_info_block_ref]
  | flush_request error =>
    simp only [step] at hs
    split_ifs at hs
    simp only [Option.some.injEq] at hs
    subst hs
    refine ChainsInv_of_rest_all w _ h ?_
    rw [rest_flush_request_handler, rest_flushDone]
  | fat_cache_ref1 i error =>
    simp only [step] at hs
    split_ifs at hs with hc
    simp only [Option.some.injEq] at hs
    subst hs
    refine ChainsInv_of_rest w _ i h ?_ (fun hi => fat_cache_ref1_inv w i error hi (h i))
    rw [rest_fat_cache_ref_handler, rest_answer_fat_cache_ref1]
  | fat_cache_ref2 i error =>
    simp only [step] at hs
    split_ifs at hs with hc
    simp only [Option.some.injEq] at hs
    subst hs
    refine ChainsInv_of_rest w _ i h ?_ (fun hi => fat_cache_ref2_inv w i error hi (h i))
    rw [rest_fat_cache_ref_handler, rest_answer_fat_cache_ref2]
  | dir_entry_block_ref i error =>
    simp only [step] at hs
    split_ifs at hs with hc
    simp only [Option.some.injEq] at hs
    subst hs
    refine ChainsInv_of_rest w _ i h ?_ (fun hi => dir_entry_inv w i error hi (h i) hc.2)
    rw [rest_DirEntryRef_block_ref_handler, rest_answer_dir_entry_block_ref]
  | block_user i error =>
    simp only [step] at hs
    split_ifs at hs with hc
    simp only [Option.some.injEq] at hs
    subst hs
    refine ChainsInv_of_rest w _ i h ?_ (fun hi => block_user_inv w i error hi (h i))
    rw [rest_File_block_user_handler, rest_answer_block_user]
  | startWriteMount =>
    simp only [step] at hs
    split_ifs at hs
    simp only [Option.some.injEq] at hs
    subst hs
    exact ChainsInv_of_rest_all w _ h (rest_startWriteMount w _)
  | startWriteUnmount =>
    simp only [step] at hs
    split_ifs at hs
    simp only [Option.some.injEq] at hs
    subst hs
    exact ChainsInv_of_rest_all w _ h (rest_startWriteUnmount w _)
  | File_init file_entry =>
    simp only [step] at hs
    split_ifs at hs
    simp only [Option.some.injEq] at hs
    subst hs
    exact File_init_inv w file_entry h
  | File_deinit i =>
    simp only [step] at hs
    split_ifs at hs with hc
    simp only [Option.some.injEq] at hs
    subst hs
    exact ChainsInv_of_rest w _ i h (rest_File_deinit w i)
      (fun hi => File_deinit_inv w i hi (h i) hc.2)
  | File_rewind i =>
    simp only [step] at hs
    split_ifs at hs with hc
    simp only [Option.some.injEq] at hs
    subst hs
    exact ChainsInv_of_rest w _ i h (rest_File_rewind w i)
      (fun hi => File_rewind_inv w i hi (h i) hc.2)
  | File_startRead i =>
    simp only [step] at hs
    split_ifs at hs with hc
    simp only [Option.some.injEq] at hs
    subst hs
    exact ChainsInv_of_rest w _ i h (rest_File_startRead w i)
      (fun hi => File_startRead_inv w i hi (h i) hc.2)
  | File_startOpenWritable i =>
    simp only [step] at hs
    split_ifs at hs with hc
    simp only [Option.some.injEq] at hs
    subst hs
    exact ChainsInv_of_rest w _ i h (rest_File_startOpenWritable w i)
      (fun hi => File_startOpenWritable_inv w i hi (h i) hc.2.1)
  | File_closeWritable i =>
    simp only [step] at hs
    split_ifs at hs with hc
    simp only [Option.some.injEq] at hs
    subst hs
    exact ChainsInv_of_rest w _ i h (rest_File_closeWritable w i)
      (fun hi => File_closeWritable_inv w i hi (h i) hc.2)
  | File_startWrite i bytes_in_block =>
    simp only [step] at hs
    split_ifs at hs with hc
    simp only [Option.some.injEq] at hs
    subst hs
    exact ChainsInv_of_rest w _ i h (rest_File_startWrite w i bytes_in_block)
      (fun hi => File_startWrite_inv w i bytes_in_block hi (h i) hc.2.1)
  | File_startTruncate i =>
    simp only [step] at hs
    split_ifs at hs with hc
    simp only [Option.some.injEq] at hs
    subst hs
    exact ChainsInv_of_rest w _ i h (rest_File_startTruncate w i)
      (fun hi => File_startTruncate_inv w i hi (h i) hc.2)

theorem init_chains_inv (w : World) (block_range : BlockRange) :
    ChainsInv (init w block_range) := by
  intro j
  have : (init w block_range).file j = default := by
    unfold init World.file
    dsimp only
    rfl
  rw [this]
  exact ChainInv_default

/-- Every state that the driver reaches satisfies the invariant of the files. -/
theorem reachable_chains_inv (w : World) (h : Reachable w) : ChainsInv w := by
  induction h with
  | init w block_range hBS hlen => exact init_chains_inv w block_range
  | step w w2 input hw hs ih => exact step_chains_inv w w2 input (reachable_inv w hw) ih hs

end FatFs

namespace FatFs

theorem reachable_sampleEmptyWritable : Reachable sampleEmptyWritable :=
  reachable_call 20 [] _ _ (.File_startOpenWritable 0)
    (reachable_call 20 [] sampleMounted _ (.File_init emptyFileEntry)
      reachable_sampleMounted rfl) rfl

theorem reachable_sampleAllocating : Reachable sampleAllocating :=
  Reachable.step sampleEndFound _ .queued
    (Reachable.step sampleWriteEvent _ .queued
      (Reachable.step sampleWriteStarted _ .queued
        (Reachable.step sampleEmptyWritable _ (.File_startWrite 0 512)
          reachable_sampleEmptyWritable rfl) rfl) rfl) rfl

/-- C38: the assertions of `allocation_result` are valid.  In every state that the driver
reaches from `init` (through any sequence of client calls, among them `rewind`, reads and
writes, which call `requestNext` and `requestNew`, and `startTruncate`, of queued events and
of answers of the collaborators, with or without errors, over any contents of the device),
the chain of every file satisfies: at `CLUSTER` the first cluster is a normal cluster
index; at `END` the first cluster is normal if and only if the previous cluster is; and
whenever the chain is in `NEW_ALLOCATING`, the iterator is at `END`, the current cluster
is not normal, and `is_cluster_idx_normal` gives the same answer for the first and for
the previous cluster. -/
theorem allocation_result_assertions (w : World) (h : Reachable w) (j : Nat) :
    ((w.chain j).m_iter_state = IterState.CLUSTER →
      is_cluster_idx_normal (w.chain j).m_first_cluster = true) ∧
    ((w.chain j).m_iter_state = IterState.END →
      (is_cluster_idx_normal (w.chain j).m_first_cluster = true ↔
        is_cluster_idx_normal (w.chain j).m_prev_cluster = true)) ∧
    ((w.chain j).m_state = ChainState.NEW_ALLOCATING →
      (w.chain j).m_iter_state = IterState.END ∧
      is_cluster_idx_normal (w.chain j).m_current_cluster = false ∧
      is_cluster_idx_normal (w.chain j).m_first_cluster =
        is_cluster_idx_normal (w.chain j).m_prev_cluster) := by
  obtain ⟨⟨_, a1, a2⟩, hq, _⟩ := reachable_chains_inv w h j
  refine ⟨fun hc => (a1 hc).1, fun he => ?_, fun hn => ?_⟩
  · show is_cluster_idx_normal (w.file j).m_chain.m_first_cluster = true ↔
      is_cluster_idx_normal (w.file j).m_chain.m_prev_cluster = true
    rw [(a2 he).2]
  · have hend := (hq (Or.inr (Or.inr hn))).2
    exact ⟨hend, (a2 hend).1, (a2 hend).2⟩

theorem allocation_result_assertions_witness :
    (sampleAllocating.chain 0).m_state = ChainState.NEW_ALLOCATING ∧
    sampleAllocating.o.allocating_chains_list = [0] ∧
    (sampleAllocating.chain 0).m_iter_state = IterState.END ∧
    is_cluster_idx_normal (sampleAllocating.chain 0).m_current_cluster = false ∧
    is_cluster_idx_normal (sampleAllocating.chain 0).m_first_cluster =
      is_cluster_idx_normal (sampleAllocating.chain 0).m_prev_cluster :=
  ⟨by decide, by decide,
    (allocation_result_assertions sampleAllocating reachable_sampleAllocating 0).2.2
      (by decide)⟩

end FatFs

namespace FatFs

theorem fileWorld_base (W w : World) (i : Nat) (f : File) (o : Object) (data : Nat → Buffer)
    (dirty loaded : Nat → Bool) (queue : List QueuedEvent) (calls : List HandlerCall)
    (h1 : W.BlockSize = w.BlockSize) (h2 : W.SizeBits = w.SizeBits)
    (h3 : W.writable = w.writable) (h4 : W.files = w.files) :
    fileWorld W i f o data dirty loaded queue calls =
      fileWorld w i f o data dirty loaded queue calls := by
  unfold fileWorld
  rw [h1, h2, h3, h4]

theorem allocFound_frame (w : World) (p : Nat) (l : Nat → Bool) :
    (allocFound w p l).BlockSize = w.BlockSize ∧ (allocFound w p l).SizeBits = w.SizeBits ∧
    (allocFound w p l).writable = w.writable ∧ (allocFound w p l).files = w.files ∧
    (allocFound w p l).loaded = l ∧ (allocFound w p l).queue = [] ∧
    (allocFound w p l).calls = w.calls := by
  unfold allocFound update_fs_info_allocated_cluster update_fs_info_free_clusters
  simp only [World.markDirty, World.setData]
  split_ifs <;> exact ⟨rfl, rfl, rfl, rfl, rfl, rfl, rfl⟩

/-- The state in which a scan that has found a free cluster calls `complete_allocation`,
seen from file `c`. -/
theorem allocFound_fileWorld (w : World) (p : Nat) (l : Nat → Bool) (c : Nat) :
    allocFound w p l =
      fileWorld w c (w.file c)
        { w.o with
          alloc_position := (p + 1) % w.o.num_valid_clusters,
          block_ref := { state := .READY,
                         block := get_abs_block_index_for_fat_entry w (2 + p) },
          alloc_state := AllocationState.CHECK_EVENT }
        (allocFound w p l).data (allocFound w p l).dirty l [] w.calls := by
  obtain ⟨h1, h2, h3, h4, h5, h6, h7⟩ := allocFound_frame w p l
  have hs := fileWorld_self (allocFound w p l) c
  have hf : (allocFound w p l).file c = w.file c := by
    unfold World.file
    rw [h4]
  rw [hf, allocFound_o, h5, h6, h7,
    fileWorld_base (allocFound w p l) w c _ _ _ _ _ _ _ h1 h2 h3 h4] at hs
  exact hs.symm

end FatFs

namespace FatFs

theorem fileWorld_update_fat_ref (w : World) (i : Nat) (f : File) (o : Object)
    (data : Nat → Buffer) (dirty loaded : Nat → Bool) (queue : List QueuedEvent)
    (calls : List HandlerCall) (r : CacheBlockRef) (y v : Nat)
    (hr : r.block = get_abs_block_index_for_fat_entry w y) :
    update_fat_entry_in_cache_block (fileWorld w i f o data dirty loaded queue calls) r y v =
      fileWorld w i f o (fatWrite w data y v)
        (fun x => if x = get_abs_block_index_for_fat_entry w y then true else dirty x)
        loaded queue calls := by
  unfold update_fat_entry_in_cache_block fatWrite World.setData World.markDirty World.getData
    get_fat_ptr_in_cache_block World.FatEntriesPerBlock fileWorld
  simp only [hr]

theorem complete_allocation_cons (W : World) (c : Nat) (cs : List Nat) (e : Bool) (n : Nat)
    (h : W.o.allocating_chains_list = c :: cs) :
    complete_allocation W e n =
      ClusterChain.allocation_result
        (if (!cs.isEmpty) = true then start_new_allocation W
         else { ({ W with o.alloc_state := AllocationState.IDLE } : World) with
                o.block_ref := W.o.block_ref.reset }) c e n := by
  unfold complete_allocation
  split
  · rename_i h0
    rw [h] at h0
    exact absurd h0 (by simp)
  · rename_i c2 more h0
    rw [h] at h0
    simp only [List.cons.injEq] at h0
    obtain ⟨rfl, rfl⟩ := h0
    rfl

theorem complete_allocation_fileWorld (w : World) (c : Nat) (f : File) (o : Object)
    (cs : List Nat) (hl : o.allocating_chains_list = c :: cs)
    (data : Nat → Buffer) (dirty l : Nat → Bool) (calls : List HandlerCall) (e : Bool)
    (n : Nat) :
    complete_allocation (fileWorld w c f o data dirty l [] calls) e n =
      ClusterChain.allocation_result
        (fileWorld w c f (allocNext o (!cs.isEmpty)) data dirty l (allocQueue cs) calls)
        c e n := by
  rw [complete_allocation_cons _ c cs e n hl]
  unfold allocNext allocQueue
  cases (!cs.isEmpty) <;> rfl

theorem stopWaiting_fileWorld (w : World) (c : Nat) (f : File) (o : Object)
    (data : Nat → Buffer) (dirty l : Nat → Bool) (q : List QueuedEvent)
    (calls : List HandlerCall) :
    stopWaiting (fileWorld w c f o data dirty l q calls) c =
      fileWorld w c f { o with allocating_chains_list := o.allocating_chains_list.erase c }
        data dirty l q calls := rfl

/-- The end of a scan that has found the cluster `n` for a chain that has a previous
cluster: the cluster is linked and the file is to write on. -/
theorem complete_allocation_link (w : World) (c : Nat) (hc : c < w.files.length)
    (f : File) (hst : f.m_state = FileState.WRITE_NEXT_CLUSTER) (o : Object)
    (cs : List Nat) (hl : o.allocating_chains_list = c :: cs)
    (data : Nat → Buffer) (dirty l : Nat → Bool) (calls : List HandlerCall) (n : Nat)
    (hprev : is_cluster_idx_normal f.m_chain.m_prev_cluster = true)
    (href : f.m_chain.m_fat_cache_ref1.block =
      get_abs_block_index_for_fat_entry w f.m_chain.m_prev_cluster) :
    complete_allocation (fileWorld w c f o data dirty l [] calls) false n =
      fileWorld w c
        { f with
          m_state := FileState.WRITE_EVENT,
          m_block_in_cluster := 0,
          m_chain :=
            { f.m_chain with
              m_state := ChainState.IDLE,
              m_fat_cache_ref1 := CacheBlockRef.reset {},
              m_fat_cache_ref2 := CacheBlockRef.reset {},
              m_current_cluster := n,
              m_iter_state := IterState.CLUSTER } }
        (allocServed o c cs) (fatWrite w data f.m_chain.m_prev_cluster n)
        (fun x => if x = get_abs_block_index_for_fat_entry w f.m_chain.m_prev_cluster
          then true else dirty x)
        l (.file_event c :: allocQueue cs) calls := by
  have hfile := fun g o d dd l q cc => fileWorld_file w c g o d dd l q cc hc
  have hupd := fun g o d dd l q cc => fileWorld_update_fat_ref w c g o d dd l q cc
    f.m_chain.m_fat_cache_ref1 f.m_chain.m_prev_cluster n href
  rw [complete_allocation_fileWorld w c f o cs hl,
    allocation_result_link _ _ _ (by simpa using hc)
      (by simp only [World.chain, hfile]; exact hprev)]
  simp only [World.chain, hfile, stopWaiting_fileWorld, hupd, chainCompleted, World.setChain,
    fileWorld_setFile, File.chain_handler, Bool.false_eq_true, if_false, hst,
    ClusterChain.endReached, decide_False, fileWorld_prepend]
  rfl

/-- The end of a scan that has found the cluster `n` for a chain without a previous
cluster: the cluster becomes the first one, also in the directory entry, and the file is to
write on. -/
theorem complete_allocation_first (w : World) (c : Nat) (hc : c < w.files.length)
    (f : File) (hst : f.m_state = FileState.WRITE_NEXT_CLUSTER) (o : Object)
    (cs : List Nat) (hl : o.allocating_chains_list = c :: cs)
    (data : Nat → Buffer) (dirty l : Nat → Bool) (calls : List HandlerCall) (n : Nat)
    (hprev : is_cluster_idx_normal f.m_chain.m_prev_cluster = false) :
    complete_allocation (fileWorld w c f o data dirty l [] calls) false n =
      fileWorld w c
        { f with
          m_state := FileState.WRITE_EVENT,
          m_block_in_cluster := 0,
          m_chain :=
            { f.m_chain with
              m_state := ChainState.IDLE,
              m_fat_cache_ref1 := CacheBlockRef.reset {},
              m_fat_cache_ref2 := CacheBlockRef.reset {},
              m_current_cluster := n,
              m_first_cluster := n,
              m_iter_state := IterState.CLUSTER } }
        (allocServed o c cs) (dirEntryFirst f data n)
        (fun x => if x = f.m_dir_entry.m_block_ref.block then true else dirty x)
        l (.file_event c :: allocQueue cs) calls := by
  have hfile := fun g o d dd l q cc => fileWorld_file w c g o d dd l q cc hc
  have hsfc := fun g o d dd l q cc v => fileWorld_setFirstCluster w c hc g o d dd l q cc v
  rw [complete_allocation_fileWorld w c f o cs hl,
    allocation_result_first _ _ _ (by simpa using hc)
      (by simp only [World.chain, hfile]; exact hprev)]
  simp only [World.chain, hfile, stopWaiting_fileWorld, chainCompleted, World.setChain,
    fileWorld_setFile, File.chain_handler, Bool.false_eq_true, if_false, if_true, hst,
    ClusterChain.endReached, decide_False, fileWorld_prepend, hsfc,
    ClusterChain.getFirstCluster]
  rfl

/-- The event of a file that is to write on in a cluster that it has just got: nothing
but the file and the handler calls changes. -/
theorem write_event_fileWorld (w : World) (c : Nat) (hc : c < w.files.length)
    (f : File) (hst : f.m_state = FileState.WRITE_EVENT) (o : Object)
    (hb : f.m_block_in_cluster ≠ o.blocks_per_cluster)
    (data : Nat → Buffer) (dirty l : Nat → Bool) (q : List QueuedEvent)
    (calls : List HandlerCall) :
    ∃ f2 calls2,
      File.event_handler (fileWorld w c f o data dirty l q calls) c =
        fileWorld w c f2 o data dirty l q calls2 ∧
      f2.m_chain = f.m_chain := by
  have hfile := fun g o d dd l q cc => fileWorld_file w c g o d dd l q cc hc
  unfold File.event_handler
  simp only [hfile, hst, WriteReference.isTaken, fileWorld_o, hb, if_false]
  by_cases ht : f.m_write_ref.m_taken = false
  · rw [if_pos ht]
    simp only [File.complete_request, hfile, fileWorld_setFile, fileWorld_call]
    refine ⟨_, _, rfl, ?_⟩
    rfl
  · rw [if_neg ht]
    by_cases hv : is_cluster_idx_valid_for_data (fileWorld w c f o data dirty l q calls)
        (ClusterChain.getCurrentCluster (fileWorld w c f o data dirty l q calls) c) = false
    · rw [if_pos hv]
      simp only [File.complete_request, hfile, fileWorld_setFile, fileWorld_call]
      refine ⟨_, _, rfl, ?_⟩
      rfl
    · rw [if_neg hv]
      simp only [BlockAccessUser.startWrite, hfile, fileWorld_setFile]
      refine ⟨_, _, rfl, ?_⟩
      rfl

end FatFs

namespace FatFs

theorem rest_fileWorld (w : World) (i : Nat) (f : File) (o : Object) (data : Nat → Buffer)
    (dirty loaded : Nat → Bool) (queue : List QueuedEvent) (calls : List HandlerCall) :
    (fileWorld w i f o data dirty loaded queue calls).rest i = w.rest i :=
  (rest_setFile
    ({ w with o := o, data := data, dirty := dirty, loaded := loaded, queue := queue,
              calls := calls } : World) i f).trans rfl

theorem fat_block_of_geometry (W w : World) (h1 : W.BlockSize = w.BlockSize)
    (h2 : W.o.block_range = w.o.block_range)
    (h3 : W.o.num_reserved_blocks = w.o.num_reserved_blocks) (z : Nat) :
    get_abs_block_index_for_fat_entry W z = get_abs_block_index_for_fat_entry w z := by
  unfold get_abs_block_index_for_fat_entry get_abs_block_index World.FatEntriesPerBlock
  rw [h1, h2, h3]

theorem allocNext_frame (o : Object) (more : Bool) :
    (allocNext o more).state = o.state ∧
    (allocNext o more).write_mount_state = o.write_mount_state ∧
    (allocNext o more).num_valid_clusters = o.num_valid_clusters ∧
    (allocNext o more).num_fat_entries = o.num_fat_entries ∧
    (allocNext o more).alloc_position = o.alloc_position ∧
    (allocNext o more).block_range = o.block_range ∧
    (allocNext o more).num_reserved_blocks = o.num_reserved_blocks ∧
    (allocNext o more).fs_info_block_ref = o.fs_info_block_ref ∧
    (allocNext o more).blocks_per_cluster = o.blocks_per_cluster ∧
    (allocNext o more).allocating_chains_list = o.allocating_chains_list ∧
    (more = true → (allocNext o more).alloc_state = AllocationState.CHECK_EVENT ∧
      (allocNext o more).alloc_start = o.alloc_position) := by
  unfold allocNext
  cases more
  · exact ⟨rfl, rfl, rfl, rfl, rfl, rfl, rfl, rfl, rfl, rfl, fun h => absurd h (by simp)⟩
  · exact ⟨rfl, rfl, rfl, rfl, rfl, rfl, rfl, rfl, rfl, rfl, fun _ => ⟨rfl, rfl⟩⟩

theorem allocServed_frame (o : Object) (c : Nat) (cs : List Nat)
    (hl : o.allocating_chains_list = c :: cs) :
    (allocServed o c cs).state = o.state ∧
    (allocServed o c cs).write_mount_state = o.write_mount_state ∧
    (allocServed o c cs).num_valid_clusters = o.num_valid_clusters ∧
    (allocServed o c cs).num_fat_entries = o.num_fat_entries ∧
    (allocServed o c cs).alloc_position = o.alloc_position ∧
    (allocServed o c cs).block_range = o.block_range ∧
    (allocServed o c cs).num_reserved_blocks = o.num_reserved_blocks ∧
    (allocServed o c cs).fs_info_block_ref = o.fs_info_block_ref ∧
    (allocServed o c cs).blocks_per_cluster = o.blocks_per_cluster ∧
    (allocServed o c cs).allocating_chains_list = cs ∧
    (cs ≠ [] → (allocServed o c cs).alloc_state = AllocationState.CHECK_EVENT ∧
      (allocServed o c cs).alloc_start = o.alloc_position) := by
  obtain ⟨a1, a2, a3, a4, a5, a6, a7, a8, a9, a10, a11⟩ := allocNext_frame o (!cs.isEmpty)
  unfold allocServed
  refine ⟨a1, a2, a3, a4, a5, a6, a7, a8, a9, ?_, fun h => ?_⟩
  · show (allocNext o (!cs.isEmpty)).allocating_chains_list.erase c = cs
    rw [a10, hl, List.erase_cons_head]
  · exact a11 (by cases cs <;> simp_all)

theorem firstFree_of_free (fat : Nat → Nat) (n start q : Nat) (hs : start < n) (hq : q < n)
    (h : fat (2 + q) = 0) : ∃ p, firstFree fat n start = some p := by
  cases hf : firstFree fat n start with
  | some p => exact ⟨p, rfl⟩
  | none =>
    rw [firstFree_none] at hf
    have hmod : (start + (q + n - start) % n) % n = q := by
      by_cases hqs : start ≤ q
      · have : (q + n - start) % n = q - start := by
          rw [show q + n - start = (q - start) + n by omega, Nat.add_mod_right,
            Nat.mod_eq_of_lt (by omega)]
        rw [this, show start + (q - start) = q by omega, Nat.mod_eq_of_lt hq]
      · have : (q + n - start) % n = q + n - start := Nat.mod_eq_of_lt (by omega)
        rw [this, show start + (q + n - start) = q + n by omega, Nat.add_mod_right,
          Nat.mod_eq_of_lt hq]
    have := hf ((q + n - start) % n) (Nat.mod_lt _ (by omega))
    rw [hmod] at this
    exact absurd h this

theorem allocFound_o_frame (v : World) (p : Nat) (l : Nat → Bool) :
    (allocFound v p l).o.state = v.o.state ∧
    (allocFound v p l).o.write_mount_state = v.o.write_mount_state ∧
    (allocFound v p l).o.num_valid_clusters = v.o.num_valid_clusters ∧
    (allocFound v p l).o.num_fat_entries = v.o.num_fat_entries ∧
    (allocFound v p l).o.alloc_position = (p + 1) % v.o.num_valid_clusters ∧
    (allocFound v p l).o.block_range = v.o.block_range ∧
    (allocFound v p l).o.num_reserved_blocks = v.o.num_reserved_blocks ∧
    (allocFound v p l).o.fs_info_block_ref = v.o.fs_info_block_ref ∧
    (allocFound v p l).o.blocks_per_cluster = v.o.blocks_per_cluster ∧
    (allocFound v p l).o.allocating_chains_list = v.o.allocating_chains_list := by
  rw [allocFound_o]
  exact ⟨rfl, rfl, rfl, rfl, rfl, rfl, rfl, rfl, rfl, rfl⟩

end FatFs

namespace FatFs

theorem step_file_event (w : World) (i : Nat) (f : File) (o : Object) (data : Nat → Buffer)
    (dirty loaded : Nat → Bool) (queue : List QueuedEvent) (calls : List HandlerCall)
    (j : Nat) :
    step (fileWorld w i f o data dirty loaded (.file_event j :: queue) calls) .queued =
      some (File.event_handler (fileWorld w i f o data dirty loaded queue calls) j) := rfl

theorem allocFound_fatOf (w : World) (pos : Nat) (l : Nat → Bool) (h : FsInfoBeforeFat w)
    (z : Nat) :
    fatOf w (allocFound w pos l).data z =
      if z = 2 + pos then EndOfChainMarker else fatNext w z := by
  rw [← allocFound_fat w pos l h z]
  refine (fatNext_of_geometry _ w (allocFound_frame w pos l).1 ?_ ?_ z).symm
  · rw [allocFound_o]
    rfl
  · rw [allocFound_o]
    rfl

/-- One round of the allocator, seen from the file of the first waiting chain: in the
state `v` the allocation event has been taken from the queue. -/
theorem alloc_round_world (v : World) (c : Nat) (cs : List Nat)
    (hs : v.o.state = FsState.READY)
    (hm : v.o.write_mount_state = WriteMountState.MOUNTED)
    (hn : v.o.num_valid_clusters + 2 ≤ 2 ^ 28)
    (hpos : v.o.alloc_position < v.o.num_valid_clusters)
    (hfs : FsInfoBeforeFat v) (hbpc : v.o.blocks_per_cluster ≠ 0)
    (hl : v.o.allocating_chains_list = c :: cs)
    (hcs : v.o.alloc_state = AllocationState.CHECK_EVENT)
    (hstart2 : v.o.alloc_start = v.o.alloc_position) (hq : v.queue = [])
    (hc : c < v.files.length) (hst : (v.file c).m_state = FileState.WRITE_NEXT_CLUSTER)
    (hlink : is_cluster_idx_normal (v.chain c).m_prev_cluster = true →
      (v.chain c).m_prev_cluster < v.o.num_fat_entries ∧
      (v.chain c).m_fat_cache_ref1.block =
        get_abs_block_index_for_fat_entry v (v.chain c).m_prev_cluster ∧
      fatNext v (v.chain c).m_prev_cluster ≠ 0)
    (hfirst : is_cluster_idx_normal (v.chain c).m_prev_cluster = false → DirEntryApart v c)
    (q : Nat) (hqn : q < v.o.num_valid_clusters) (hq0 : fatNext v (2 + q) = 0) :
    ∃ (p fuel s : Nat) (examined : List Nat) (l : Nat → Bool) (f : File)
      (data : Nat → Buffer) (dirty : Nat → Bool) (calls : List HandlerCall),
      p < v.o.num_valid_clusters ∧ fatNext v (2 + p) = 0 ∧
      allocScan fuel v [] = some (allocFound v p l, false, 2 + p, examined) ∧
      step (complete_allocation (allocFound v p l) false (2 + p)) .queued =
        some (fileWorld v c f (allocServed (allocFound v p l).o c cs) data dirty l
          (allocQueue cs) calls) ∧
      (∀ n, run (n + s) [] { v with queue := [.alloc_event] } =
        run n [] (fileWorld v c f (allocServed (allocFound v p l).o c cs) data dirty l
          (allocQueue cs) calls)) ∧
      f.m_chain.m_state = ChainState.IDLE ∧
      f.m_chain.m_iter_state = IterState.CLUSTER ∧
      f.m_chain.m_current_cluster = 2 + p ∧
      ∀ z, z < v.o.num_fat_entries →
        fatOf v data z =
          if z = 2 + p then EndOfChainMarker
          else if is_cluster_idx_normal (v.chain c).m_prev_cluster = true ∧
              z = (v.chain c).m_prev_cluster then 2 + p
          else fatNext v z := by
  obtain ⟨p, hp⟩ := firstFree_of_free (fatNext v) _ v.o.alloc_start q
    (by rw [hstart2]; exact hpos) hqn hq0
  obtain ⟨j, hj, hpe, hz, hbefore⟩ := firstFree_some _ _ _ _ hp
  have hpn : p < v.o.num_valid_clusters := by
    rw [hpe]
    exact Nat.mod_lt _ (by omega)
  have h0 : ScanStart v :=
    ⟨hs, hm, hcs, hq, by rw [hl]; exact List.cons_ne_nil _ _, hstart2, hpos, by omega⟩
  obtain ⟨l2, s, e1, e2⟩ := allocScan_found v hs hm (by omega)
    (by rw [hstart2]; exact hpos) j hj
    hbefore (by rw [← hpe]; exact hz) v.o.num_valid_clusters
    (2 ^ 32 + v.o.num_valid_clusters + 1) v.o.block_ref v.loaded (by omega) (by omega)
  have e3 := allocScan_start v h0 v.o.num_valid_clusters
  rw [← e3] at e1
  have e4 := fun k => (run_scan_start v h0 (k + s)).trans (e2 k)
  rw [← hpe] at e1 e4
  clear e2 e3
  have hX := allocFound_fileWorld v p l2 c
  have hfat := fun z => allocFound_fatOf v p l2 hfs z
  have hXo : (allocFound v p l2).o = ({ v.o with
      alloc_position := (p + 1) % v.o.num_valid_clusters,
      block_ref := { state := .READY,
                     block := get_abs_block_index_for_fat_entry v (2 + p) },
      alloc_state := AllocationState.CHECK_EVENT } : Object) := by
    rw [allocFound_o]
    rfl
  generalize (allocFound v p l2).data = dX at hX hfat
  generalize (allocFound v p l2).dirty = dd at hX
  have hl2 : ({ v.o with
      alloc_position := (p + 1) % v.o.num_valid_clusters,
      block_ref := { state := .READY,
                     block := get_abs_block_index_for_fat_entry v (2 + p) },
      alloc_state := AllocationState.CHECK_EVENT } : Object).allocating_chains_list =
      c :: cs := hl
  by_cases hprev : is_cluster_idx_normal (v.chain c).m_prev_cluster = true
  · obtain ⟨_, href, hused⟩ := hlink hprev
    have hC := complete_allocation_link v c hc (v.file c) hst _ cs hl2
      dX dd l2 v.calls (2 + p) hprev href
    obtain ⟨f3, calls3, hE, hch⟩ := write_event_fileWorld v c hc
      ({ v.file c with
        m_state := FileState.WRITE_EVENT,
        m_block_in_cluster := 0,
        m_chain :=
          { (v.file c).m_chain with
            m_state := ChainState.IDLE,
            m_fat_cache_ref1 := CacheBlockRef.reset {},
            m_fat_cache_ref2 := CacheBlockRef.reset {},
            m_current_cluster := 2 + p,
            m_iter_state := IterState.CLUSTER } } : File) rfl
      (allocServed ({ v.o with
        alloc_position := (p + 1) % v.o.num_valid_clusters,
        block_ref := { state := .READY,
                       block := get_abs_block_index_for_fat_entry v
                         (2 + p) },
        alloc_state := AllocationState.CHECK_EVENT } : Object) c cs)
      (by
        rw [(allocServed_frame _ c cs hl2).2.2.2.2.2.2.2.2.1]
        exact fun h => hbpc h.symm)
      (fatWrite v dX (v.file c).m_chain.m_prev_cluster (2 + p))
      (fun x => if x = get_abs_block_index_for_fat_entry v
          (v.file c).m_chain.m_prev_cluster then true else dd x)
      l2 (allocQueue cs) v.calls
    refine ⟨p, _, s + 2, _, l2, f3,
      fatWrite v dX (v.file c).m_chain.m_prev_cluster (2 + p),
      (fun x => if x = get_abs_block_index_for_fat_entry v
          (v.file c).m_chain.m_prev_cluster then true else dd x),
      calls3, hpn, hz, e1, ?_, fun n => ?_, ?_, ?_, ?_, fun z hzn => ?_⟩
    · rw [hXo]
      rw [← hE, ← step_file_event, ← hC, ← hX]
    · rw [hXo, ← hE, ← run_file_event, ← hC, ← hX, ← e4,
        show n + (s + 2) = n + 1 + s + 1 by omega]
    · rw [hch]
    · rw [hch]
    · rw [hch]
    · show fatOf v _ z = _
      by_cases hzp : z = (v.chain c).m_prev_cluster
      · have hne : z ≠ 2 + p := by
          intro he
          rw [← hzp, he] at hused
          exact hused hz
        rw [if_neg hne, if_pos ⟨hprev, hzp⟩, hzp]
        exact fatOf_fatWrite_self _ _ _ _ (by omega)
      · rw [fatOf_fatWrite_other v dX (v.file c).m_chain.m_prev_cluster (2 + p) z hzp, hfat z]
        by_cases hzq : z = 2 + p
        · rw [if_pos hzq, if_pos hzq]
        · rw [if_neg hzq, if_neg hzq, if_neg (fun h => hzp h.2)]
  · have hprev2 : is_cluster_idx_normal (v.chain c).m_prev_cluster = false := by
      simpa using hprev
    have hC := complete_allocation_first v c hc (v.file c) hst _ cs hl2
      dX dd l2 v.calls (2 + p) hprev2
    obtain ⟨f3, calls3, hE, hch⟩ := write_event_fileWorld v c hc
      ({ v.file c with
        m_state := FileState.WRITE_EVENT,
        m_block_in_cluster := 0,
        m_chain :=
          { (v.file c).m_chain with
            m_state := ChainState.IDLE,
            m_fat_cache_ref1 := CacheBlockRef.reset {},
            m_fat_cache_ref2 := CacheBlockRef.reset {},
            m_current_cluster := 2 + p,
            m_first_cluster := 2 + p,
            m_iter_state := IterState.CLUSTER } } : File) rfl
      (allocServed ({ v.o with
        alloc_position := (p + 1) % v.o.num_valid_clusters,
        block_ref := { state := .READY,
                       block := get_abs_block_index_for_fat_entry v
                         (2 + p) },
        alloc_state := AllocationState.CHECK_EVENT } : Object) c cs)
      (by
        rw [(allocServed_frame _ c cs hl2).2.2.2.2.2.2.2.2.1]
        exact fun h => hbpc h.symm)
      (dirEntryFirst (v.file c) dX (2 + p))
      (fun x => if x = (v.file c).m_dir_entry.m_block_ref.block then true else dd x)
      l2 (allocQueue cs) v.calls
    refine ⟨p, _, s + 2, _, l2, f3, dirEntryFirst (v.file c) dX (2 + p),
      (fun x => if x = (v.file c).m_dir_entry.m_block_ref.block then true else dd x),
      calls3, hpn, hz, e1, ?_, fun n => ?_, ?_, ?_, ?_, fun z hzn => ?_⟩
    · rw [hXo]
      rw [← hE, ← step_file_event, ← hC, ← hX]
    · rw [hXo, ← hE, ← run_file_event, ← hC, ← hX, ← e4,
        show n + (s + 2) = n + 1 + s + 1 by omega]
    · rw [hch]
    · rw [hch]
    · rw [hch]
    · show fatOf v _ z = _
      rw [fatOf_dirEntryFirst _ _ _ _ _ (hfirst hprev2 z hzn), hfat z]
      by_cases hzq : z = 2 + p
      · rw [if_pos hzq, if_pos hzq]
      · rw [if_neg hzq, if_neg hzq, if_neg (fun h => hprev h.1)]

end FatFs

namespace FatFs

/-- One round of the allocator: the first waiting chain gets a cluster that was free,
and the chains that are left wait as before. -/
theorem alloc_round (w : World) (c : Nat) (cs : List Nat) (h : Allocating w (c :: cs)) :
    ∃ (k s : Nat) (X W1 : World) (fuel : Nat) (examined : List Nat),
      allocScan fuel { w with queue := [] } [] = some (X, false, k, examined) ∧
      X.o.allocating_chains_list = c :: cs ∧
      step (complete_allocation X false k) .queued = some W1 ∧
      (∀ n, run (n + s) [] w = run n [] W1) ∧
      Allocating W1 cs ∧
      (W1.chain c).m_state = ChainState.IDLE ∧
      (W1.chain c).m_iter_state = IterState.CLUSTER ∧
      (W1.chain c).m_current_cluster = k ∧
      2 ≤ k ∧ k < 2 + w.o.num_valid_clusters ∧ fatNext w k = 0 ∧
      W1.rest c = w.rest c ∧
      W1.o.num_valid_clusters = w.o.num_valid_clusters ∧
      W1.o.num_fat_entries = w.o.num_fat_entries ∧
      ∀ z, z < w.o.num_fat_entries →
        fatNext W1 z =
          if z = k then EndOfChainMarker
          else if is_cluster_idx_normal (w.chain c).m_prev_cluster = true ∧
              z = (w.chain c).m_prev_cluster then k
          else fatNext w z := by
  obtain ⟨hs, hm, hn, hpos, hnfe, hfs, hbpc, hl, hnd, hwait, hstart, hfree, hq⟩ := h
  obtain ⟨hcs, hstart2⟩ := hstart (List.cons_ne_nil _ _)
  obtain ⟨hc, hst, hlink, hfirst⟩ := hwait c (List.mem_cons_self _ _)
  obtain ⟨fs, hfnd, hflen, hfs2⟩ := hfree
  obtain ⟨q, hqmem⟩ : ∃ q, q ∈ fs :=
    List.exists_mem_of_length_pos (by rw [List.length_cons] at hflen; omega)
  obtain ⟨hqn, hq0⟩ := hfs2 q hqmem
  have hw : ({ ({ w with queue := [] } : World) with queue := [.alloc_event] } : World) = w := by
    cases w
    simp only [allocQueue] at hq
    subst hq
    rfl
  obtain ⟨p, fuel, s, examined, l, f, data, dirty, calls, hpn, hz, e1, e2, e3, g1, g2, g3,
      hfat⟩ :=
    alloc_round_world { w with queue := [] } c cs hs hm hn hpos hfs hbpc hl hcs hstart2 rfl
      hc hst hlink hfirst q hqn hq0
  rw [hw] at e3
  have hpn : p < w.o.num_valid_clusters := hpn
  have hz : fatNext w (2 + p) = 0 := hz
  have hfat : ∀ z, z < w.o.num_fat_entries →
      fatOf w data z =
        if z = 2 + p then EndOfChainMarker
        else if is_cluster_idx_normal (w.chain c).m_prev_cluster = true ∧
            z = (w.chain c).m_prev_cluster then 2 + p
        else fatNext w z := hfat
  have hx : (allocFound { w with queue := [] } p l).o.state = w.o.state ∧
      (allocFound { w with queue := [] } p l).o.write_mount_state = w.o.write_mount_state ∧
      (allocFound { w with queue := [] } p l).o.num_valid_clusters = w.o.num_valid_clusters ∧
      (allocFound { w with queue := [] } p l).o.num_fat_entries = w.o.num_fat_entries ∧
      (allocFound { w with queue := [] } p l).o.alloc_position =
        (p + 1) % w.o.num_valid_clusters ∧
      (allocFound { w with queue := [] } p l).o.block_range = w.o.block_range ∧
      (allocFound { w with queue := [] } p l).o.num_reserved_blocks =
        w.o.num_reserved_blocks ∧
      (allocFound { w with queue := [] } p l).o.fs_info_block_ref = w.o.fs_info_block_ref ∧
      (allocFound { w with queue := [] } p l).o.blocks_per_cluster = w.o.blocks_per_cluster ∧
      (allocFound { w with queue := [] } p l).o.allocating_chains_list =
        w.o.allocating_chains_list := allocFound_o_frame { w with queue := [] } p l
  obtain ⟨x1, x2, x3, x4, x5, x6, x7, x8, x9, x10⟩ := hx
  obtain ⟨y1, y2, y3, y4, y5, y6, y7, y8, y9, y10, y11⟩ :=
    allocServed_frame (allocFound { w with queue := [] } p l).o c cs (x10.trans hl)
  generalize allocServed (allocFound { w with queue := [] } p l).o c cs = O at *
  have hX : (allocFound { w with queue := [] } p l).o.allocating_chains_list = c :: cs :=
    x10.trans hl
  generalize allocFound { w with queue := [] } p l = X at *
  have hrest : (fileWorld { w with queue := [] } c f O data dirty l (allocQueue cs) calls).rest c
      = w.rest c := rest_fileWorld _ _ _ _ _ _ _ _ _
  have hgeo : ∀ z, fatNext (fileWorld { w with queue := [] } c f O data dirty l (allocQueue cs)
      calls) z = fatOf w data z := fun z =>
    fatNext_of_geometry (fileWorld { w with queue := [] } c f O data dirty l (allocQueue cs)
      calls) w rfl (y6.trans x6) (y7.trans x7) z
  have hblock : ∀ z, get_abs_block_index_for_fat_entry
      (fileWorld { w with queue := [] } c f O data dirty l (allocQueue cs) calls) z =
      get_abs_block_index_for_fat_entry w z := fun z =>
    fat_block_of_geometry (fileWorld { w with queue := [] } c f O data dirty l
      (allocQueue cs) calls) w rfl (y6.trans x6) (y7.trans x7) z
  have hframe : ∀ z, z < w.o.num_fat_entries →
      fatNext (fileWorld { w with queue := [] } c f O data dirty l (allocQueue cs) calls) z =
        if z = 2 + p then EndOfChainMarker
        else if is_cluster_idx_normal (w.chain c).m_prev_cluster = true ∧
            z = (w.chain c).m_prev_cluster then 2 + p
        else fatNext w z := fun z hzn => (hgeo z).trans (hfat z hzn)
  have hchain : ((fileWorld { w with queue := [] } c f O data dirty l (allocQueue cs)
      calls).chain c) = f.m_chain := fileWorld_chain _ _ _ _ _ _ _ _ _ hc
  have hO : (fileWorld { w with queue := [] } c f O data dirty l (allocQueue cs) calls).o = O :=
    rfl
  have hQ : (fileWorld { w with queue := [] } c f O data dirty l (allocQueue cs)
      calls).queue = allocQueue cs := rfl
  generalize fileWorld { w with queue := [] } c f O data dirty l (allocQueue cs) calls = W1 at *
  have hfile : ∀ j, j ≠ c → W1.file j = w.file j := fun j hj => file_of_rest w W1 c j hrest hj
  have hlen : W1.files.length = w.files.length := length_of_rest w W1 c hrest
  refine ⟨2 + p, s, X, W1, fuel, examined, e1, hX, e2, e3, ?_, ?_, ?_, ?_, by omega,
    by omega, hz, hrest, ?_, ?_, hframe⟩
  · have hcn : c ∉ cs := (List.nodup_cons.mp hnd).1
    refine ⟨by rw [hO]; exact (y1.trans x1).trans hs, by rw [hO]; exact (y2.trans x2).trans hm,
      by rw [hO, y3, x3]; exact hn, ?_, by rw [hO, y3, x3, y4, x4]; exact hnfe, ?_,
      by rw [hO, y9, x9]; exact hbpc, by rw [hO]; exact y10, (List.nodup_cons.mp hnd).2,
      fun d hd => ?_, fun hne => ?_, ?_, hQ⟩
    · rw [hO, y5, x5, y3, x3]
      exact Nat.mod_lt _ (by omega)
    · show W1.o.fs_info_block_ref.block < W1.o.block_range.base + W1.o.num_reserved_blocks
      rw [hO, y8, x8, y6, x6, y7, x7]
      exact hfs
    · have hdc : d ≠ c := fun e => hcn (e ▸ hd)
      obtain ⟨w1, w2, w3, w4⟩ := hwait d (List.mem_cons_of_mem _ hd)
      have hch : W1.chain d = w.chain d := by
        unfold World.chain
        rw [hfile d hdc]
      refine ⟨by rw [hlen]; exact w1, by rw [hfile d hdc]; exact w2, fun hp => ?_,
        fun hp => ?_⟩
      · rw [hch] at hp ⊢
        obtain ⟨a1, a2, a3⟩ := w3 hp
        refine ⟨by rw [hO, y4, x4]; exact a1, by rw [hblock]; exact a2, ?_⟩
        rw [hframe _ a1]
        split_ifs
        · decide
        · omega
        · exact a3
      · rw [hch] at hp
        intro z hzn
        rw [hblock, hfile d hdc]
        rw [hO, y4, x4] at hzn
        exact w4 hp z hzn
    · obtain ⟨b1, b2⟩ := y11 hne
      rw [hO]
      exact ⟨b1, b2.trans y5.symm⟩
    · refine ⟨fs.erase p, hfnd.erase p, ?_, fun t ht => ?_⟩
      · by_cases hpm : p ∈ fs
        · rw [List.length_erase_of_mem hpm]
          rw [List.length_cons] at hflen
          omega
        · rw [List.erase_of_not_mem hpm]
          rw [List.length_cons] at hflen
          omega
      · obtain ⟨t1, t2⟩ := (List.Nodup.mem_erase_iff hfnd).mp ht
        obtain ⟨t3, t4⟩ := hfs2 t t2
        refine ⟨by rw [hO, y3, x3]; exact t3, ?_⟩
        rw [hframe _ (by omega), if_neg (by omega)]
        split_ifs with hpr
        · exfalso
          have hu := (hlink hpr.1).2.2
          rw [← hpr.2] at hu
          exact hu t4
        · exact t4
  · rw [hchain]
    exact g1
  · rw [hchain]
    exact g2
  · rw [hchain]
    exact g3
  · rw [hO]
    exact y3.trans x3
  · rw [hO]
    exact y4.trans x4

end FatFs

namespace FatFs

theorem servedInOrder_nil (w W : World) : ServedInOrder w [] [] W ↔ W = w := by
  unfold ServedInOrder
  exact Iff.rfl

theorem servedInOrder_cons (w W : World) (c k : Nat) (cs ks : List Nat) :
    ServedInOrder w (c :: cs) (k :: ks) W ↔
      ∃ (X W1 : World) (fuel : Nat) (examined : List Nat),
        allocScan fuel { w with queue := [] } [] = some (X, false, k, examined) ∧
        X.o.allocating_chains_list = c :: cs ∧
        step (complete_allocation X false k) .queued = some W1 ∧
        W1.o.allocating_chains_list = cs ∧
        (W1.chain c).m_state = ChainState.IDLE ∧
        (W1.chain c).m_iter_state = IterState.CLUSTER ∧
        (W1.chain c).m_current_cluster = k ∧
        2 ≤ k ∧ k < 2 + w.o.num_valid_clusters ∧
        fatNext w k = 0 ∧ fatNext W1 k = EndOfChainMarker ∧
        ServedInOrder W1 cs ks W := by
  rw [ServedInOrder]

/-- The allocator serves all waiting chains, in their order. -/
theorem alloc_rounds (cs : List Nat) : ∀ w : World, Allocating w cs →
    ∃ (ks : List Nat) (s : Nat) (W : World),
      ServedInOrder w cs ks W ∧
      (∀ n, run (n + s) [] w = run n [] W) ∧
      ks.length = cs.length ∧ ks.Nodup ∧
      (∀ k ∈ ks, 2 ≤ k ∧ k < 2 + w.o.num_valid_clusters ∧ fatNext w k = 0 ∧
        fatNext W k = EndOfChainMarker) ∧
      (∀ ck ∈ cs.zip ks, (W.chain ck.1).m_iter_state = IterState.CLUSTER ∧
        (W.chain ck.1).m_current_cluster = ck.2) ∧
      W.o.allocating_chains_list = [] ∧
      W.o.num_valid_clusters = w.o.num_valid_clusters ∧
      W.o.num_fat_entries = w.o.num_fat_entries ∧
      (∀ j, j ∉ cs → W.file j = w.file j) ∧
      (∀ z, z < w.o.num_fat_entries → z ∉ ks →
        (∀ c ∈ cs, is_cluster_idx_normal (w.chain c).m_prev_cluster = true →
          z ≠ (w.chain c).m_prev_cluster) →
        fatNext W z = fatNext w z) := by
  induction cs with
  | nil =>
    intro w h
    refine ⟨[], 0, w, (servedInOrder_nil w w).mpr rfl, fun n => rfl, rfl, List.nodup_nil,
      fun k hk => absurd hk (List.not_mem_nil k), fun ck hck => ?_, h.2.2.2.2.2.2.2.1, rfl, rfl,
      fun j _ => rfl, fun z _ _ _ => rfl⟩
    simp at hck
  | cons c cs ih =>
    intro w h
    have hwait := h.2.2.2.2.2.2.2.2.2.1
    have hnd := h.2.2.2.2.2.2.2.2.1
    have hnfe := h.2.2.2.2.1
    have hcn : c ∉ cs := (List.nodup_cons.mp hnd).1
    obtain ⟨k, s, X, W1, fuel, examined, r1, r2, r3, r4, r5, r6, r7, r8, r9, r10, r11, r12,
      r13, r14, r15⟩ := alloc_round w c cs h
    obtain ⟨ks, s2, W, i1, i2, i3, i4, i5, i6, i7, i8, i9, i10, i11⟩ := ih W1 r5
    have hfile : ∀ j, j ≠ c → W1.file j = w.file j := fun j hj => file_of_rest w W1 c j r12 hj
    have hch : ∀ d, d ∈ cs → W1.chain d = w.chain d := by
      intro d hd
      unfold World.chain
      rw [hfile d (fun e => hcn (e ▸ hd))]
    have hk1 : fatNext W1 k = EndOfChainMarker := by
      rw [r15 k (by omega), if_pos rfl]
    have hkn : k ∉ ks := by
      intro hk
      have := (i5 k hk).2.2.1
      rw [hk1] at this
      exact absurd this (by decide)
    have hprev : ∀ d ∈ cs, is_cluster_idx_normal (W1.chain d).m_prev_cluster = true →
        k ≠ (W1.chain d).m_prev_cluster := by
      intro d hd hp e
      rw [hch d hd] at hp e
      have := (hwait d (List.mem_cons_of_mem _ hd)).2.2.1 hp
      rw [← e] at this
      exact this.2.2 r11
    refine ⟨k :: ks, s2 + s, W, ?_, fun n => ?_, ?_, List.nodup_cons.mpr ⟨hkn, i4⟩,
      fun t ht => ?_, fun ck hck => ?_, i7, i8.trans r13, i9.trans r14, fun j hj => ?_,
      fun z hz hzk hzp => ?_⟩
    · exact (servedInOrder_cons w W c k cs ks).mpr
        ⟨X, W1, fuel, examined, r1, r2, r3, r5.2.2.2.2.2.2.2.1, r6, r7, r8, r9, r10, r11, hk1,
          i1⟩
    · rw [← i2, ← r4, Nat.add_assoc]
    · rw [List.length_cons, List.length_cons, i3]
    · rcases List.mem_cons.mp ht with rfl | ht
      · refine ⟨r9, r10, r11, ?_⟩
        rw [i11 t (by rw [r14]; omega) hkn hprev]
        exact hk1
      · obtain ⟨a1, a2, a3, a4⟩ := i5 t ht
        rw [r13] at a2
        refine ⟨a1, a2, ?_, a4⟩
        rw [r15 t (by omega)] at a3
        split_ifs at a3 with e1 e2
        · exact absurd a3 (by decide)
        · omega
        · exact a3
    · rw [List.zip_cons_cons] at hck
      rcases List.mem_cons.mp hck with rfl | hck
      · have : W.chain c = W1.chain c := by
          unfold World.chain
          rw [i10 c hcn]
        rw [this]
        exact ⟨r7, r8⟩
      · exact i6 ck hck
    · rw [i10 j (fun e => hj (List.mem_cons_of_mem _ e)),
        hfile j (fun (e : j = c) => hj (e ▸ List.mem_cons_self _ _))]
    · rw [i11 z (by rw [r14]; exact hz) (fun e => hzk (List.mem_cons_of_mem _ e))
        (fun d hd hp => by
          rw [hch d hd] at hp ⊢
          exact hzp d (List.mem_cons_of_mem _ hd) hp),
        r15 z hz, if_neg (fun (e : z = k) => hzk (e ▸ List.mem_cons_self _ _)),
        if_neg (fun e => hzp c (List.mem_cons_self _ _) e.1 e.2)]

end FatFs

namespace FatFs

theorem dirEntryApart_of_behind (w : World) (c : Nat)
    (h : get_abs_block_index_for_fat_entry w (w.o.num_fat_entries - 1) <
      (w.file c).m_dir_entry.m_block_ref.block) : DirEntryApart w c := by
  intro z hz
  have h2 : w.o.block_range.base +
      (w.o.num_reserved_blocks + (w.o.num_fat_entries - 1) / w.FatEntriesPerBlock) <
      (w.file c).m_dir_entry.m_block_ref.block := h
  show w.o.block_range.base + (w.o.num_reserved_blocks + z / w.FatEntriesPerBlock) ≠ _
  have := Nat.div_le_div_right (c := w.FatEntriesPerBlock)
    (show z ≤ w.o.num_fat_entries - 1 by omega)
  omega

theorem threeWaiting_waiting (c : Nat) (hc : c ∈ [2, 1, 0]) : Waiting threeWaiting c := by
  have h : ∀ d ∈ [2, 1, 0], d < threeWaiting.files.length ∧
      (threeWaiting.file d).m_state = FileState.WRITE_NEXT_CLUSTER ∧
      is_cluster_idx_normal (threeWaiting.chain d).m_prev_cluster = false ∧
      get_abs_block_index_for_fat_entry threeWaiting (threeWaiting.o.num_fat_entries - 1) <
        (threeWaiting.file d).m_dir_entry.m_block_ref.block := by
    decide
  obtain ⟨h1, h2, h3, h4⟩ := h c hc
  exact ⟨h1, h2, fun hp => absurd hp (by rw [h3]; decide),
    fun _ => dirEntryApart_of_behind _ _ h4⟩

theorem threeWaiting_allocating : Allocating threeWaiting [2, 1, 0] :=
  ⟨by decide, by decide, by decide, by decide, by decide, by decide, by decide, by decide,
    by decide, threeWaiting_waiting, fun _ => by decide,
    ⟨[128, 129, 130], by decide, by decide, by decide⟩, by decide⟩

end FatFs

namespace FatFs

/-- C15: allocator fairness and no double allocation.  Let the chains `c1, ..., cN` be on
the list of the allocator in this order, which is the order in which they have entered
`NEW_ALLOCATING` (`NEW_CHECK` appends to the list), in a state mounted for writing in
which the allocator is about to scan for the first of them (`Allocating`): only the
allocation event is queued and at least N valid clusters are free.  The volume is valid:
the FAT entry of the last cluster of each waiting chain is in use (not 0), and the block
of the directory entry of a chain that has no cluster yet is not a block of the FAT.  When
no block error occurs, the event loop serves the chains in exactly that order
(`ServedInOrder`): each scan ends with `complete_allocation(false, k)` while the next of
the chains is the first on the list, so that `allocation_result` is delivered to `c1`,
then `c2`, ..., then `cN`, each with `error = false`; the N clusters are pairwise
distinct valid clusters; each of them was free (FAT entry 0) before and its FAT entry
reads `0x0FFFFFFF` afterwards; in the end every chain is at the cluster it got and no
chain is left on the list. -/
theorem allocator_fairness (w : World) (cs : List Nat) (h : Allocating w cs) :
    ∃ (ks : List Nat) (s : Nat) (W : World),
      ServedInOrder w cs ks W ∧
      (∀ n, run (n + s) [] w = run n [] W) ∧
      ks.length = cs.length ∧ ks.Nodup ∧
      (∀ k ∈ ks, 2 ≤ k ∧ k < 2 + w.o.num_valid_clusters ∧ fatNext w k = 0 ∧
        fatNext W k = EndOfChainMarker) ∧
      (∀ ck ∈ cs.zip ks, (W.chain ck.1).m_iter_state = IterState.CLUSTER ∧
        (W.chain ck.1).m_current_cluster = ck.2) ∧
      W.o.allocating_chains_list = [] := by
  obtain ⟨ks, s, W, h1, h2, h3, h4, h5, h6, h7, _⟩ := alloc_rounds cs w h
  exact ⟨ks, s, W, h1, h2, h3, h4, h5, h6, h7⟩

theorem allocator_fairness_witness :
    Allocating threeWaiting [2, 1, 0] ∧
    ∃ (ks : List Nat) (s : Nat) (W : World),
      ServedInOrder threeWaiting [2, 1, 0] ks W ∧
      (∀ n, run (n + s) [] threeWaiting = run n [] W) ∧
      ks.length = [2, 1, 0].length ∧ ks.Nodup ∧
      (∀ k ∈ ks, 2 ≤ k ∧ k < 2 + threeWaiting.o.num_valid_clusters ∧
        fatNext threeWaiting k = 0 ∧ fatNext W k = EndOfChainMarker) ∧
      (∀ ck ∈ [2, 1, 0].zip ks, (W.chain ck.1).m_iter_state = IterState.CLUSTER ∧
        (W.chain ck.1).m_current_cluster = ck.2) ∧
      W.o.allocating_chains_list = [] :=
  ⟨threeWaiting_allocating, allocator_fairness threeWaiting [2, 1, 0] threeWaiting_allocating⟩

end FatFs

namespace FatFs

theorem chainCompleted_frame (X : World) (c : Nat) (ch : ClusterChain) :
    (chainCompleted X c ch).o = X.o ∧ (chainCompleted X c ch).data = X.data ∧
    (chainCompleted X c ch).calls = X.calls ∧
    (chainCompleted X c ch).BlockSize = X.BlockSize ∧
    (chainCompleted X c ch).dirty = X.dirty :=
  ⟨rfl, rfl, rfl, rfl, rfl⟩

theorem chainCompleted_chain (X : World) (c : Nat) (ch : ClusterChain)
    (hc : c < X.files.length) :
    (chainCompleted X c ch).chain c =
      { ch with m_state := ChainState.IDLE, m_fat_cache_ref1 := CacheBlockRef.reset {},
                m_fat_cache_ref2 := CacheBlockRef.reset {} } :=
  setChain_chain X c _ hc

theorem chainCompleted_file (X : World) (c : Nat) (ch : ClusterChain)
    (hc : c < X.files.length) :
    (chainCompleted X c ch).file c =
      { X.file c with m_chain :=
        { ch with m_state := ChainState.IDLE, m_fat_cache_ref1 := CacheBlockRef.reset {},
                  m_fat_cache_ref2 := CacheBlockRef.reset {} } } :=
  file_setChain X c _ hc

/-- The state in which `complete_allocation` calls `allocation_result`: the next allocation
has been started when a chain is left, and the allocator is idle otherwise. -/
theorem complete_allocation_next (W : World) (c : Nat) (cs : List Nat) (e : Bool) (n : Nat)
    (h : W.o.allocating_chains_list = c :: cs) :
    ∃ W1 : World, complete_allocation W e n = ClusterChain.allocation_result W1 c e n ∧
      W1.files = W.files ∧ W1.data = W.data ∧ W1.calls = W.calls ∧ W1.dirty = W.dirty ∧
      W1.BlockSize = W.BlockSize ∧ W1.o.block_range = W.o.block_range ∧
      W1.o.num_reserved_blocks = W.o.num_reserved_blocks ∧
      W1.o.allocating_chains_list = c :: cs ∧ W1.o.alloc_position = W.o.alloc_position ∧
      W1.o.fs_info_block_ref = W.o.fs_info_block_ref ∧
      W1.o.num_valid_clusters = W.o.num_valid_clusters := by
  refine ⟨_, complete_allocation_cons W c cs e n h, ?_⟩
  cases (!cs.isEmpty)
  · exact ⟨rfl, rfl, rfl, rfl, rfl, rfl, rfl, h, rfl, rfl, rfl⟩
  · exact ⟨rfl, rfl, rfl, rfl, rfl, rfl, rfl, h, rfl, rfl, rfl⟩

/-- The end of a scan: `complete_allocation` takes the first waiting chain `c` from the
list and calls `allocation_result` of that chain, which ends in a call of the handler of
the chain (`File::chain_handler`) with the flag `error` of the allocator, in a state `W2`
in which the chain is idle.  With an error nothing else has changed.  Without an error
the chain is at the new cluster `n`; when it had no cluster, `n` is its first cluster and
the cache contents are as before; otherwise the FAT entry of its previous cluster has
been set to `n`. -/
theorem complete_allocation_delivers (W : World) (c : Nat) (cs : List Nat) (e : Bool)
    (n : Nat) (hl : W.o.allocating_chains_list = c :: cs) (hc : c < W.files.length) :
    ∃ (W2 : World) (fcc : Bool),
      complete_allocation W e n = File.chain_handler W2 c e fcc ∧
      W2.o.allocating_chains_list = cs ∧
      (W2.chain c).m_state = ChainState.IDLE ∧
      (W2.chain c).m_prev_cluster = (W.chain c).m_prev_cluster ∧
      (W2.file c).m_state = (W.file c).m_state ∧
      W2.calls = W.calls ∧ W2.BlockSize = W.BlockSize ∧
      W2.o.block_range = W.o.block_range ∧
      W2.o.num_reserved_blocks = W.o.num_reserved_blocks ∧
      W2.o.alloc_position = W.o.alloc_position ∧
      W2.o.fs_info_block_ref = W.o.fs_info_block_ref ∧
      (e = true → fcc = false ∧ W2.data = W.data ∧
        (W2.chain c).m_iter_state = (W.chain c).m_iter_state ∧
        (W2.chain c).m_current_cluster = (W.chain c).m_current_cluster ∧
        (W2.chain c).m_first_cluster = (W.chain c).m_first_cluster) ∧
      (e = false →
        (W2.chain c).m_iter_state = IterState.CLUSTER ∧
        (W2.chain c).m_current_cluster = n ∧
        (is_cluster_idx_normal (W.chain c).m_prev_cluster = false →
          fcc = true ∧ (W2.chain c).m_first_cluster = n ∧ W2.data = W.data) ∧
        (is_cluster_idx_normal (W.chain c).m_prev_cluster = true →
          fcc = false ∧ (W2.chain c).m_first_cluster = (W.chain c).m_first_cluster ∧
          ((W.chain c).m_fat_cache_ref1.block =
              get_abs_block_index_for_fat_entry W (W.chain c).m_prev_cluster →
            W2.data = fatWrite W W.data (W.chain c).m_prev_cluster n))) := by
  obtain ⟨W1, e0, f1, f2, f3, f4, f5, f6, f7, f8, f9, f10, f11⟩ :=
    complete_allocation_next W c cs e n hl
  have hc1 : c < W1.files.length := by rw [f1]; exact hc
  have hch : W1.chain c = W.chain c := by
    unfold World.chain World.file
    rw [f1]
  have hfile : W1.file c = W.file c := by
    unfold World.file
    rw [f1]
  have hsw : (stopWaiting W1 c).o.allocating_chains_list = cs := by
    show W1.o.allocating_chains_list.erase c = cs
    rw [f8, List.erase_cons_head]
  have hblock : ∀ z, get_abs_block_index_for_fat_entry W1 z =
      get_abs_block_index_for_fat_entry W z := by
    intro z
    unfold get_abs_block_index_for_fat_entry get_abs_block_index World.FatEntriesPerBlock
    rw [f5, f6, f7]
  cases e with
  | true =>
    refine ⟨_, false, e0.trans (allocation_result_error W1 c n), hsw, ?_, ?_, ?_, f3, f5, f6,
      f7, f9, f10, fun _ => ⟨rfl, f2, ?_, ?_, ?_⟩, fun h => absurd h (by decide)⟩
    · rw [chainCompleted_chain _ _ _ (by exact hc1)]
    · rw [chainCompleted_chain _ _ _ (by exact hc1)]
      show (W1.chain c).m_prev_cluster = _
      rw [hch]
    · rw [chainCompleted_file _ _ _ (by exact hc1)]
      show (W1.file c).m_state = _
      rw [hfile]
    · rw [chainCompleted_chain _ _ _ (by exact hc1)]
      show (W1.chain c).m_iter_state = _
      rw [hch]
    · rw [chainCompleted_chain _ _ _ (by exact hc1)]
      show (W1.chain c).m_current_cluster = _
      rw [hch]
    · rw [chainCompleted_chain _ _ _ (by exact hc1)]
      show (W1.chain c).m_first_cluster = _
      rw [hch]
  | false =>
    by_cases hp : is_cluster_idx_normal (W.chain c).m_prev_cluster = true
    · have hp1 : is_cluster_idx_normal (W1.chain c).m_prev_cluster = true := by
        rw [hch]; exact hp
      have hd := fun (href : (W.chain c).m_fat_cache_ref1.block =
          get_abs_block_index_for_fat_entry W (W.chain c).m_prev_cluster) =>
        update_fat_entry_fatWrite (stopWaiting W1 c) (W1.chain c).m_fat_cache_ref1
          (W1.chain c).m_prev_cluster n (by
            rw [hch]
            exact href.trans (hblock _).symm)
      refine ⟨_, false, e0.trans (allocation_result_link W1 c n hc1 hp1), hsw, ?_, ?_, ?_, f3,
        f5, f6, f7, f9, f10, fun h => absurd h (by decide), fun _ => ⟨?_, ?_,
          fun h => absurd hp (by rw [h]; decide), fun _ => ⟨rfl, ?_, fun href => ?_⟩⟩⟩
      · rw [chainCompleted_chain _ _ _ (by exact hc1)]
      · rw [chainCompleted_chain _ _ _ (by exact hc1)]
        show (W1.chain c).m_prev_cluster = _
        rw [hch]
      · rw [chainCompleted_file _ _ _ (by exact hc1)]
        show (W1.file c).m_state = _
        rw [hfile]
      · rw [chainCompleted_chain _ _ _ (by exact hc1)]
      · rw [chainCompleted_chain _ _ _ (by exact hc1)]
      · rw [chainCompleted_chain _ _ _ (by exact hc1)]
        show (W1.chain c).m_first_cluster = _
        rw [hch]
      · show (update_fat_entry_in_cache_block (stopWaiting W1 c) _ _ n).data = _
        rw [hd href, hch]
        show fatWrite (stopWaiting W1 c) W1.data _ n = _
        rw [f2]
        unfold fatWrite get_fat_ptr_in_cache_block
        simp only [hblock, show (stopWaiting W1 c).BlockSize = W.BlockSize from f5,
          World.FatEntriesPerBlock,
          show ∀ z, get_abs_block_index_for_fat_entry (stopWaiting W1 c) z =
            get_abs_block_index_for_fat_entry W z from hblock]
    · have hp0 : is_cluster_idx_normal (W.chain c).m_prev_cluster = false := by
        simpa using hp
      have hp1 : is_cluster_idx_normal (W1.chain c).m_prev_cluster = false := by
        rw [hch]; exact hp0
      refine ⟨_, true, e0.trans (allocation_result_first W1 c n hc1 hp1), hsw, ?_, ?_, ?_, f3,
        f5, f6, f7, f9, f10, fun h => absurd h (by decide), fun _ => ⟨?_, ?_,
          fun _ => ⟨rfl, ?_, f2⟩, fun h => absurd h hp⟩⟩
      · rw [chainCompleted_chain _ _ _ (by exact hc1)]
      · rw [chainCompleted_chain _ _ _ (by exact hc1)]
        show (W1.chain c).m_prev_cluster = _
        rw [hch]
      · rw [chainCompleted_file _ _ _ (by exact hc1)]
        show (W1.file c).m_state = _
        rw [hfile]
      · rw [chainCompleted_chain _ _ _ (by exact hc1)]
      · rw [chainCompleted_chain _ _ _ (by exact hc1)]
      · rw [chainCompleted_chain _ _ _ (by exact hc1)]

end FatFs

namespace FatFs

theorem chain_handler_write_error (W : World) (c : Nat)
    (h : (W.file c).m_state = FileState.WRITE_NEXT_CLUSTER) :
    File.chain_handler W c true false = File.complete_request W c true 0 := by
  unfold File.chain_handler
  simp only [Bool.false_eq_true, if_false, h, if_true]

/-- C14: out of space.  For a scan of the allocator that starts in a state
mounted for writing in which the chain of file `c` is the first that waits
(`ScanStart`) and whose FAT blocks arrive without error, the scan ends with a call of
`complete_allocation`, which takes the chain from the list and calls its handler
(`File::chain_handler`) with the flag `error`, the chain being idle; `error` is `true`
if and only if none of the clusters `2 .. 2 + num_valid_clusters - 1` has FAT entry 0.
In that case the scan has read the FAT entry of each of these `num_valid_clusters`
clusters exactly once, and when the handler is called no byte of the cache contents
(FAT and FS information sector included) has changed, `alloc_position` is what it was
at the start and the iterator of the chain is where it was; a file that waits for the
cluster in `WRITE_NEXT_CLUSTER` reports the error to its client.  Running the
allocation event from the queue leads to that call. -/
theorem alloc_scan_out_of_space (w : World) (fuel c : Nat) (cs : List Nat)
    (h : ScanStart w) (hl : w.o.allocating_chains_list = c :: cs)
    (hc : c < w.files.length) (hfuel : w.o.num_valid_clusters + 1 ≤ fuel) :
    ∃ (W : World) (error : Bool) (cluster_index : Nat) (examined : List Nat),
      allocScan fuel w [] = some (W, error, cluster_index, examined) ∧
      W.o.allocating_chains_list = w.o.allocating_chains_list ∧
      (error = true ↔
        ∀ c, 2 ≤ c → c < 2 + w.o.num_valid_clusters → fatNext w c ≠ 0) ∧
      (error = true →
        examined.length = w.o.num_valid_clusters ∧ examined.Nodup ∧
        (∀ c, c ∈ examined ↔ 2 ≤ c ∧ c < 2 + w.o.num_valid_clusters) ∧
        W.data = w.data ∧ W.o.alloc_position = w.o.alloc_position) ∧
      (∃ s, ∀ k, run (k + s + 1) [] { w with queue := [.alloc_event] } =
        run k [] (complete_allocation W error cluster_index)) ∧
      ∃ (W2 : World) (fcc : Bool),
        complete_allocation W error cluster_index = File.chain_handler W2 c error fcc ∧
        W2.o.allocating_chains_list = cs ∧
        (W2.chain c).m_state = ChainState.IDLE ∧
        (error = true →
          fcc = false ∧ W2.data = w.data ∧ W2.o.alloc_position = w.o.alloc_position ∧
          (W2.chain c).m_iter_state = (w.chain c).m_iter_state ∧
          (W2.chain c).m_current_cluster = (w.chain c).m_current_cluster ∧
          (W2.chain c).m_first_cluster = (w.chain c).m_first_cluster ∧
          (W2.chain c).m_prev_cluster = (w.chain c).m_prev_cluster ∧
          ((w.file c).m_state = FileState.WRITE_NEXT_CLUSTER →
            (complete_allocation W error cluster_index).calls =
              .FileHandler c true 0 :: w.calls ∧
            ((complete_allocation W error cluster_index).file c).m_state = FileState.IDLE ∧
            (complete_allocation W error cluster_index).data = w.data)) := by
  obtain ⟨n, rfl⟩ : ∃ n, fuel = n + 1 := ⟨fuel - 1, by omega⟩
  have h0 := h
  obtain ⟨hs, hm, _, _, _, h6, h7, hn⟩ := h
  have hst : w.o.alloc_start < w.o.num_valid_clusters := by rw [h6]; exact h7
  rw [allocScan_start w h0]
  by_cases hfree : ∃ j, j < w.o.num_valid_clusters ∧
      fatNext w (2 + (w.o.alloc_start + j) % w.o.num_valid_clusters) = 0
  · classical
    obtain ⟨hj, hz⟩ := Nat.find_spec hfree
    have hbefore : ∀ t, t < Nat.find hfree →
        fatNext w (2 + (w.o.alloc_start + t) % w.o.num_valid_clusters) ≠ 0 := by
      intro t ht h0
      exact Nat.find_min hfree ht ⟨by omega, h0⟩
    obtain ⟨l2, s, e1, e2⟩ := allocScan_found w hs hm hn hst _ hj hbefore hz n
      (2 ^ 32 + w.o.num_valid_clusters + 1) w.o.block_ref w.loaded (by omega) (by omega)
    obtain ⟨g1, g2, g3, g4, g5, g6, g7⟩ := allocFound_frame w
      ((w.o.alloc_start + Nat.find hfree) % w.o.num_valid_clusters) l2
    have hlW := (allocFound_o_frame w
      ((w.o.alloc_start + Nat.find hfree) % w.o.num_valid_clusters) l2).2.2.2.2.2.2.2.2.2
    obtain ⟨W2, fcc, d1, d2, d3, _⟩ := complete_allocation_delivers _ c cs false
      (2 + (w.o.alloc_start + Nat.find hfree) % w.o.num_valid_clusters) (hlW.trans hl)
      (by rw [g4]; exact hc)
    refine ⟨_, false, _, _, e1, hlW, ?_, fun hc => Bool.noConfusion hc, ⟨s, fun k => ?_⟩,
      W2, fcc, d1, d2, d3, fun hc => Bool.noConfusion hc⟩
    · constructor
      · intro hc
        exact Bool.noConfusion hc
      · intro hall
        have hlt := Nat.mod_lt (w.o.alloc_start + Nat.find hfree)
          (show 0 < w.o.num_valid_clusters by omega)
        exact absurd hz (hall _ (by omega) (by omega))
    · rw [run_scan_start w h0, e2]
  · have hnone : ∀ t, t < w.o.num_valid_clusters →
        fatNext w (2 + (w.o.alloc_start + t) % w.o.num_valid_clusters) ≠ 0 :=
      fun t ht h0 => hfree ⟨t, ht, h0⟩
    obtain ⟨r2, l2, s, e1, e2⟩ := allocScan_full w hs hm hn hst hnone n
      (2 ^ 32 + w.o.num_valid_clusters + 1) w.o.block_ref w.loaded (by omega) (by omega)
    obtain ⟨W2, fcc, d1, d2, d3, d4, d5, d6, d7, d8, d9, d10, d11, d12, _⟩ :=
      complete_allocation_delivers (allocWorld w w.o.alloc_start r2 l2) c cs true 0 hl hc
    obtain ⟨t1, t2, t3, t4, t5⟩ := d12 rfl
    subst t1
    refine ⟨_, true, _, _, e1, rfl, ?_, fun _ => ⟨examinedAfter_length _ _ _,
      examinedAfter_nodup _ _ _ hst (le_refl _), fun c => mem_examinedAfter _ _ c hst, rfl,
      h6⟩,
      ⟨s, fun k => ?_⟩, W2, false, d1, d2, d3, fun _ => ⟨rfl, t2, d10.trans h6, t3, t4, t5, d4,
        fun hf => ?_⟩⟩
    · constructor
      · intro _ c hc1 hc2
        obtain ⟨t, ht, he⟩ := cyclic_surj w.o.num_valid_clusters w.o.alloc_start (c - 2) hst
          (by omega)
        have := hnone t ht
        rw [he] at this
        rwa [show 2 + (c - 2) = c by omega] at this
      · intro _
        rfl
    · rw [run_scan_start w h0, e2]
    · have hf2 : (W2.file c).m_state = FileState.WRITE_NEXT_CLUSTER := d5.trans hf
      have hlen : c < W2.files.length := by
        by_contra hno
        have : W2.file c = default := by
          unfold World.file
          exact List.getD_eq_default _ _ (by omega)
        rw [this] at hf2
        exact absurd hf2 (by decide)
      rw [d1, chain_handler_write_error W2 c hf2]
      refine ⟨?_, ?_, t2⟩
      · show HandlerCall.FileHandler c true 0 :: W2.calls = _
        rw [d6]
        rfl
      · show ((W2.setFile c { W2.file c with m_state := FileState.IDLE }).file c).m_state = _
        rw [file_setFile _ _ _ hlen]

theorem alloc_scan_out_of_space_witness :
    (∀ c, c < 2 + fullScanStart.o.num_valid_clusters → 2 ≤ c → fatNext fullScanStart c ≠ 0) ∧
    (fullScanStart.file 0).m_state = FileState.WRITE_NEXT_CLUSTER ∧
    ∃ (W : World) (error : Bool) (cluster_index : Nat) (examined : List Nat),
      allocScan 9 fullScanStart [] = some (W, error, cluster_index, examined) ∧
      W.o.allocating_chains_list = fullScanStart.o.allocating_chains_list ∧
      (error = true ↔
        ∀ c, 2 ≤ c → c < 2 + fullScanStart.o.num_valid_clusters → fatNext fullScanStart c ≠ 0) ∧
      (error = true →
        examined.length = fullScanStart.o.num_valid_clusters ∧ examined.Nodup ∧
        (∀ c, c ∈ examined ↔ 2 ≤ c ∧ c < 2 + fullScanStart.o.num_valid_clusters) ∧
        W.data = fullScanStart.data ∧
        W.o.alloc_position = fullScanStart.o.alloc_position) ∧
      (∃ s, ∀ k, run (k + s + 1) [] { fullScanStart with queue := [.alloc_event] } =
        run k [] (complete_allocation W error cluster_index)) ∧
      ∃ (W2 : World) (fcc : Bool),
        complete_allocation W error cluster_index = File.chain_handler W2 0 error fcc ∧
        W2.o.allocating_chains_list = [] ∧
        (W2.chain 0).m_state = ChainState.IDLE ∧
        (error = true →
          fcc = false ∧ W2.data = fullScanStart.data ∧
          W2.o.alloc_position = fullScanStart.o.alloc_position ∧
          (W2.chain 0).m_iter_state = (fullScanStart.chain 0).m_iter_state ∧
          (W2.chain 0).m_current_cluster = (fullScanStart.chain 0).m_current_cluster ∧
          (W2.chain 0).m_first_cluster = (fullScanStart.chain 0).m_first_cluster ∧
          (W2.chain 0).m_prev_cluster = (fullScanStart.chain 0).m_prev_cluster ∧
          ((fullScanStart.file 0).m_state = FileState.WRITE_NEXT_CLUSTER →
            (complete_allocation W error cluster_index).calls =
              .FileHandler 0 true 0 :: fullScanStart.calls ∧
            ((complete_allocation W error cluster_index).file 0).m_state = FileState.IDLE ∧
            (complete_allocation W error cluster_index).data = fullScanStart.data)) :=
  ⟨by decide, by decide,
    alloc_scan_out_of_space fullScanStart 9 0 [] (by decide) (by decide) (by decide)
      (by decide)⟩

theorem fatWrite_other_block (w : World) (data : Nat → Buffer) (y v b : Nat)
    (h : b ≠ get_abs_block_index_for_fat_entry w y) : fatWrite w data y v b = data b := by
  unfold fatWrite
  rw [if_neg h]

/-- C24, amended: the result of the allocator.  For a scan that starts in a state mounted
for writing in which the chain of file `c` is the first that waits (`ScanStart`), with
the FS information sector before the FAT, whose FAT blocks arrive without error and for
which `p` is the first position in the cyclic order `alloc_position`,
`alloc_position + 1`, ..., wrapping at `num_valid_clusters`, whose cluster `2 + p` has
FAT entry 0: the scan ends with the call `complete_allocation(false, 2 + p)`; at that
call the FAT entry of cluster `2 + p` reads `0x0FFFFFFF`, `alloc_position` is
`(p + 1) mod num_valid_clusters`, the last-allocated field of the FS information sector
is `2 +` that new `alloc_position`, and no other FAT entry has changed.  The call takes
the chain from the list and its `allocation_result` calls the handler of the chain
(`File::chain_handler`) without error, the chain being idle with its iterator on
cluster `2 + p`; `alloc_position` and the last-allocated field are as at the call.  When
the chain had no cluster, `2 + p` is its first cluster and the FAT is as at the call.
When it had one (with the first FAT reference of the chain on the block of the entry of
`prev_cluster`, where `NEW_CHECK` has put it), the FAT entry of `prev_cluster` has
changed too: it holds `2 + p`; every FAT entry other than these two is as it was. -/
theorem alloc_scan_result (w : World) (fuel p c : Nat) (cs : List Nat) (h : ScanStart w)
    (hap : FsInfoBeforeFat w) (hn28 : w.o.num_valid_clusters + 2 ≤ 2 ^ 28)
    (hl : w.o.allocating_chains_list = c :: cs) (hc : c < w.files.length)
    (href : is_cluster_idx_normal (w.chain c).m_prev_cluster = true →
      (w.chain c).m_fat_cache_ref1.block =
        get_abs_block_index_for_fat_entry w (w.chain c).m_prev_cluster)
    (hp : firstFree (fatNext w) w.o.num_valid_clusters w.o.alloc_position = some p)
    (hfuel : w.o.num_valid_clusters + 1 ≤ fuel) :
    ∃ (W : World) (examined : List Nat),
      allocScan fuel w [] = some (W, false, 2 + p, examined) ∧
      W.o.allocating_chains_list = w.o.allocating_chains_list ∧
      fatNext W (2 + p) = EndOfChainMarker ∧
      W.o.alloc_position = (p + 1) % w.o.num_valid_clusters ∧
      ReadBinaryInt32 (W.getData W.o.fs_info_block_ref) FsInfoAllocatedClusterOffset =
        2 + W.o.alloc_position ∧
      (∀ z, z ≠ 2 + p → fatNext W z = fatNext w z) ∧
      (∃ s, ∀ k, run (k + s + 1) [] { w with queue := [.alloc_event] } =
        run k [] (complete_allocation W false (2 + p))) ∧
      ∃ (W2 : World) (fcc : Bool),
        complete_allocation W false (2 + p) = File.chain_handler W2 c false fcc ∧
        W2.o.allocating_chains_list = cs ∧
        (W2.chain c).m_state = ChainState.IDLE ∧
        (W2.chain c).m_iter_state = IterState.CLUSTER ∧
        (W2.chain c).m_current_cluster = 2 + p ∧
        (W2.chain c).m_prev_cluster = (w.chain c).m_prev_cluster ∧
        W2.o.alloc_position = (p + 1) % w.o.num_valid_clusters ∧
        ReadBinaryInt32 (W2.getData W2.o.fs_info_block_ref) FsInfoAllocatedClusterOffset =
          2 + W2.o.alloc_position ∧
        (is_cluster_idx_normal (w.chain c).m_prev_cluster = false →
          fcc = true ∧ (W2.chain c).m_first_cluster = 2 + p ∧
          ∀ z, fatNext W2 z = if z = 2 + p then EndOfChainMarker else fatNext w z) ∧
        (is_cluster_idx_normal (w.chain c).m_prev_cluster = true →
          fcc = false ∧ (W2.chain c).m_first_cluster = (w.chain c).m_first_cluster ∧
          ∀ z, fatNext W2 z =
            if z = (w.chain c).m_prev_cluster then 2 + p
            else if z = 2 + p then EndOfChainMarker else fatNext w z) := by
  obtain ⟨n, rfl⟩ : ∃ n, fuel = n + 1 := ⟨fuel - 1, by omega⟩
  have h0 := h
  obtain ⟨hs, hm, _, _, _, h6, h7, hn⟩ := h
  have hst : w.o.alloc_start < w.o.num_valid_clusters := by rw [h6]; exact h7
  rw [← h6] at hp
  obtain ⟨j, hj, rfl, hz, hbefore⟩ := firstFree_some _ _ _ _ hp
  have hlt := Nat.mod_lt (w.o.alloc_start + j) (show 0 < w.o.num_valid_clusters by omega)
  obtain ⟨l2, s, e1, e2⟩ := allocScan_found w hs hm hn hst _ hj hbefore hz n
    (2 ^ 32 + w.o.num_valid_clusters + 1) w.o.block_ref w.loaded (by omega) (by omega)
  rw [allocScan_start w h0]
  generalize (w.o.alloc_start + j) % w.o.num_valid_clusters = p at *
  obtain ⟨g1, g2, g3, g4, g5, g6, g7⟩ := allocFound_frame w p l2
  obtain ⟨x1, x2, x3, x4, x5, x6, x7, x8, x9, x10⟩ := allocFound_o_frame w p l2
  have hlast := allocFound_last_allocated w p l2 hn hlt
  have hfat := allocFound_fat w p l2 hap
  have hchW : (allocFound w p l2).chain c = w.chain c := by
    unfold World.chain World.file
    rw [g4]
  have hblockW : ∀ z, get_abs_block_index_for_fat_entry (allocFound w p l2) z =
      get_abs_block_index_for_fat_entry w z := fun z =>
    fat_block_of_geometry (allocFound w p l2) w g1 x6 x7 z
  obtain ⟨W2, fcc, d1, d2, d3, d4, d5, d6, d7, d8, d9, d10, d11, _, d13⟩ :=
    complete_allocation_delivers (allocFound w p l2) c cs false (2 + p) (x10.trans hl)
      (by rw [g4]; exact hc)
  obtain ⟨k1, k2, k3, k4⟩ := d13 rfl
  rw [hchW] at d4 k3 k4
  have hgeo : ∀ z, fatNext W2 z = fatOf (allocFound w p l2) W2.data z :=
    fatNext_of_geometry W2 (allocFound w p l2) d7 d8 d9
  have hgeoW : ∀ z, fatOf (allocFound w p l2) (allocFound w p l2).data z =
      fatNext (allocFound w p l2) z := fun z =>
    (fatNext_of_geometry (allocFound w p l2) (allocFound w p l2) rfl rfl rfl z).symm
  have hinfo : W2.data W2.o.fs_info_block_ref.block =
      (allocFound w p l2).data (allocFound w p l2).o.fs_info_block_ref.block := by
    rw [d11]
    by_cases hpn : is_cluster_idx_normal (w.chain c).m_prev_cluster = true
    · rw [(k4 hpn).2.2 ((href hpn).trans (hblockW _).symm),
        fatWrite_other_block _ _ _ _ _ (by
          rw [hblockW, x8]
          exact (fsInfo_apart w hap _).symm)]
    · rw [(k3 (by simpa using hpn)).2.2]
  refine ⟨_, _, e1, x10, ?_, x5, hlast, fun z hzn => ?_, ⟨s, fun k => ?_⟩, W2, fcc, d1, d2,
    d3, k1, k2, d4, d10.trans x5, ?_, fun hpn => ?_, fun hpn => ?_⟩
  · rw [hfat, if_pos rfl]
  · rw [hfat, if_neg hzn]
  · rw [run_scan_start w h0, e2]
  · unfold World.getData
    rw [hinfo, d10]
    exact hlast
  · obtain ⟨a1, a2, a3⟩ := k3 hpn
    refine ⟨a1, a2, fun z => ?_⟩
    rw [hgeo, a3, hgeoW, hfat]
  · obtain ⟨a1, a2, a3⟩ := k4 hpn
    refine ⟨a1, a2, fun z => ?_⟩
    rw [hgeo, a3 ((href hpn).trans (hblockW _).symm)]
    by_cases hzp : z = (w.chain c).m_prev_cluster
    · rw [if_pos hzp, hzp]
      exact fatOf_fatWrite_self _ _ _ _ (by omega)
    · rw [if_neg hzp, fatOf_fatWrite_other _ _ _ _ _ hzp, hgeoW, hfat]

theorem alloc_scan_result_witness :
    is_cluster_idx_normal (linkScanStart.chain 0).m_prev_cluster = true ∧
    ∃ (W : World) (examined : List Nat),
      allocScan 67 linkScanStart [] = some (W, false, 2 + 2, examined) ∧
      W.o.allocating_chains_list = linkScanStart.o.allocating_chains_list ∧
      fatNext W (2 + 2) = EndOfChainMarker ∧
      W.o.alloc_position = (2 + 1) % linkScanStart.o.num_valid_clusters ∧
      ReadBinaryInt32 (W.getData W.o.fs_info_block_ref) FsInfoAllocatedClusterOffset =
        2 + W.o.alloc_position ∧
      (∀ z, z ≠ 2 + 2 → fatNext W z = fatNext linkScanStart z) ∧
      (∃ s, ∀ k, run (k + s + 1) [] { linkScanStart with queue := [.alloc_event] } =
        run k [] (complete_allocation W false (2 + 2))) ∧
      ∃ (W2 : World) (fcc : Bool),
        complete_allocation W false (2 + 2) = File.chain_handler W2 0 false fcc ∧
        W2.o.allocating_chains_list = [] ∧
        (W2.chain 0).m_state = ChainState.IDLE ∧
        (W2.chain 0).m_iter_state = IterState.CLUSTER ∧
        (W2.chain 0).m_current_cluster = 2 + 2 ∧
        (W2.chain 0).m_prev_cluster = (linkScanStart.chain 0).m_prev_cluster ∧
        W2.o.alloc_position = (2 + 1) % linkScanStart.o.num_valid_clusters ∧
        ReadBinaryInt32 (W2.getData W2.o.fs_info_block_ref) FsInfoAllocatedClusterOffset =
          2 + W2.o.alloc_position ∧
        (is_cluster_idx_normal (linkScanStart.chain 0).m_prev_cluster = false →
          fcc = true ∧ (W2.chain 0).m_first_cluster = 2 + 2 ∧
          ∀ z, fatNext W2 z =
            if z = 2 + 2 then EndOfChainMarker else fatNext linkScanStart z) ∧
        (is_cluster_idx_normal (linkScanStart.chain 0).m_prev_cluster = true →
          fcc = false ∧
          (W2.chain 0).m_first_cluster = (linkScanStart.chain 0).m_first_cluster ∧
          ∀ z, fatNext W2 z =
            if z = (linkScanStart.chain 0).m_prev_cluster then 2 + 2
            else if z = 2 + 2 then EndOfChainMarker else fatNext linkScanStart z) :=
  ⟨by decide,
    alloc_scan_result linkScanStart 67 2 0 [] (by decide) (by decide) (by decide)
      (by decide) (by decide) (fun _ => by decide) (by decide) (by decide)⟩

/-- C24 as claimed fails for a chain that has a cluster already: the FAT entry of the
cluster found is not the only one that has changed when the chain has got its cluster.
On `linkImage` the file is one cluster long (cluster 3, whose FAT entry is the
end-of-chain mark) and asks for a second cluster with the allocator at position 1.  The
first free cluster in the cyclic order is cluster 4 (position 2).  When the allocation
event has run, the chain is at cluster 4, the FAT entry of cluster 4 reads `0x0FFFFFFF`,
and the FAT entry of cluster 3 has changed as well: it holds 4. -/
theorem alloc_scan_result_as_claimed_fails :
    ScanStart linkScanStart ∧
    linkScanStart.o.allocating_chains_list = [0] ∧
    linkScanStart.o.alloc_position = 1 ∧
    firstFree (fatNext linkScanStart) linkScanStart.o.num_valid_clusters
      linkScanStart.o.alloc_position = some 2 ∧
    fatNext linkScanStart 3 = EndOfChainMarker ∧ fatNext linkScanStart 4 = 0 ∧
    (linkAllocated.chain 0).m_current_cluster = 4 ∧
    linkAllocated.o.allocating_chains_list = [] ∧
    fatNext linkAllocated 4 = EndOfChainMarker ∧
    fatNext linkAllocated 3 = 4 ∧ fatNext linkAllocated 3 ≠ fatNext linkScanStart 3 := by
  decide

end FatFs

namespace FatFs

theorem wall_dir_block (w w0 : World) (h : w.wall = w0.wall) (i : Nat) :
    (w.file i).m_dir_entry.m_block_ref.block = (w0.file i).m_dir_entry.m_block_ref.block := by
  simp only [World.wall, Prod.mk.injEq] at h
  have hm := h.2.2.2.2.2.2.2
  have e := congrArg (fun l => l.getD i ((default : File).m_dir_entry.m_block_ref.block)) hm
  simp only [List.getD_map] at e
  exact e

theorem fatOf_of_wall (w w0 : World) (h : w.wall = w0.wall) (data : Nat → Buffer) (z : Nat) :
    fatOf w data z = fatOf w0 data z := by
  simp only [World.wall, Prod.mk.injEq] at h
  unfold fatOf get_abs_block_index_for_fat_entry get_abs_block_index get_fat_ptr_in_cache_block
    World.FatEntriesPerBlock
  rw [h.1, h.2.1, h.2.2.1]

theorem fatBlock_of_wall (w w0 : World) (h : w.wall = w0.wall) (z : Nat) :
    get_abs_block_index_for_fat_entry w z = get_abs_block_index_for_fat_entry w0 z := by
  simp only [World.wall, Prod.mk.injEq] at h
  unfold get_abs_block_index_for_fat_entry get_abs_block_index World.FatEntriesPerBlock
  rw [h.1, h.2.1, h.2.2.1]

theorem FatOrigin_lt (w0 : World) (v : Nat) (h : FatOrigin w0 v) : v < 268435456 := by
  rcases h with h | h | h | ⟨y, _, _, h⟩
  · omega
  · unfold is_cluster_idx_normal NormalClusterIndexEnd at h
    simp only [decide_eq_true_eq] at h
    omega
  · rw [h]
    decide
  · rw [h, fatNext_of_geometry w0 w0 rfl rfl rfl]
    exact mask_cluster_entry_lt _

theorem FatOrigin_fatOf (w0 : World) (y : Nat) (h2 : 2 ≤ y) (hy : y < w0.o.num_fat_entries) :
    FatOrigin w0 (fatOf w0 w0.data y) :=
  Or.inr (Or.inr (Or.inr ⟨y, h2, hy, (fatNext_of_geometry w0 w0 rfl rfl rfl y).symm⟩))

theorem FatOrigin_normal (w0 : World) (v : Nat) (h : is_cluster_idx_normal v = true) :
    FatOrigin w0 v := Or.inr (Or.inl h)

theorem SafeFrom_refl (w0 : World) : SafeFrom w0 w0 :=
  ⟨rfl, fun z h2 hz => FatOrigin_fatOf w0 z h2 hz⟩

/-- A step that changes neither the layout nor the contents of the blocks. -/
theorem SafeFrom_of_eq (w0 w w2 : World) (h : SafeFrom w0 w) (hw : w2.wall = w.wall)
    (hd : w2.data = w.data) : SafeFrom w0 w2 := by
  refine ⟨hw.trans h.1, ?_⟩
  rw [hd]
  exact h.2

/-- A write to a block that holds no FAT entry. -/
theorem SafeFrom_poke_apart (w0 w w2 : World) (h : SafeFrom w0 w) (hw : w2.wall = w.wall)
    (b : Nat) (hb : NoFatEntry w0 b)
    (hd : ∀ x, x ≠ b → w2.data x = w.data x) : SafeFrom w0 w2 := by
  refine ⟨hw.trans h.1, fun z h2 hz => ?_⟩
  have e : fatOf w0 w2.data z = fatOf w0 w.data z := by
    unfold fatOf
    rw [hd _ (hb z hz)]
  rw [e]
  exact h.2 z h2 hz

theorem fat_ptr_apart (n c z : Nat) (h : 4 * (c % n) ≠ 4 * (z % n)) :
    4 * (z % n) + 4 ≤ 4 * (c % n) ∨ 4 * (c % n) + 4 ≤ 4 * (z % n) := by
  omega

/-- A write of the value `v` to a FAT entry through a reference to any block. -/
theorem SafeFrom_poke_fat (w0 w w2 : World) (h : SafeFrom w0 w) (hw : w2.wall = w.wall)
    (b c v : Nat) (hv : FatOrigin w0 v)
    (hd : ∀ x, w2.data x =
      if x = b then
        WriteBinaryInt32
          (update_cluster_entry (ReadBinaryInt32 (w.data b) (4 * (c % (w.BlockSize / 4)))) v)
          (w.data b) (4 * (c % (w.BlockSize / 4)))
      else w.data x) : SafeFrom w0 w2 := by
  refine ⟨hw.trans h.1, fun z h2 hz => ?_⟩
  have hBS : w.BlockSize = w0.BlockSize := by
    have := h.1
    simp only [World.wall, Prod.mk.injEq] at this
    exact this.1
  have hvl := FatOrigin_lt w0 v hv
  by_cases hb : get_abs_block_index_for_fat_entry w0 z = b
  · by_cases hp : 4 * (c % (w.BlockSize / 4)) = 4 * (z % (w0.BlockSize / 4))
    · have e : fatOf w0 w2.data z = v := by
        unfold fatOf get_fat_ptr_in_cache_block World.FatEntriesPerBlock
        rw [hd, if_pos hb, ← hp, ReadBinaryInt32_WriteBinaryInt32,
          Nat.mod_eq_of_lt (update_cluster_entry_lt _ _ (by omega))]
        exact mask_update_cluster_entry _ _ hvl
      rw [e]
      exact hv
    · have e : fatOf w0 w2.data z = fatOf w0 w.data z := by
        unfold fatOf get_fat_ptr_in_cache_block World.FatEntriesPerBlock
        rw [hd, if_pos hb, hb, ReadBinaryInt32_WriteBinaryInt32_disjoint _ _ _ _
          (by rw [hBS] at hp ⊢; exact fat_ptr_apart _ _ _ hp)]
      rw [e]
      exact h.2 z h2 hz
  · have e : fatOf w0 w2.data z = fatOf w0 w.data z := by
      unfold fatOf
      rw [hd, if_neg hb]
    rw [e]
    exact h.2 z h2 hz

theorem safe_setFile (w0 w : World) (h : SafeFrom w0 w) (i : Nat) (g : File)
    (hg : g.m_dir_entry.m_block_ref.block = (w.file i).m_dir_entry.m_block_ref.block) :
    SafeFrom w0 (w.setFile i g) := by
  refine SafeFrom_of_eq w0 w _ h ?_ rfl
  unfold World.wall World.setFile
  simp only [Prod.mk.injEq, true_and]
  rw [List.map_set, hg]
  apply List.ext_getElem
  · simp
  · intro n h1 h2
    simp only [List.getElem_set, List.getElem_map]
    split_ifs with hn
    · subst hn
      unfold World.file
      rw [List.getD_eq_getElem _ _ (by simpa using h2)]
    · rfl

theorem safe_setChain (w0 w : World) (h : SafeFrom w0 w) (i : Nat) (c : ClusterChain) :
    SafeFrom w0 (w.setChain i c) :=
  safe_setFile w0 w h i _ rfl

theorem safe_prepend (w0 w : World) (h : SafeFrom w0 w) (e : QueuedEvent) :
    SafeFrom w0 (w.prependNowNotAlready e) :=
  SafeFrom_of_eq w0 w _ h rfl rfl

theorem safe_call (w0 w : World) (h : SafeFrom w0 w) (c : HandlerCall) :
    SafeFrom w0 (w.call c) :=
  SafeFrom_of_eq w0 w _ h rfl rfl

theorem safe_update_fat (w0 w : World) (h : SafeFrom w0 w) (r : CacheBlockRef) (c v : Nat)
    (hv : FatOrigin w0 v) : SafeFrom w0 (update_fat_entry_in_cache_block w r c v) :=
  SafeFrom_poke_fat w0 w _ h rfl r.block c v hv (update_fat_entry_data w r c v)

theorem fs_block_of_wall (w w0 : World) (h : w.wall = w0.wall) :
    w.o.fs_info_block_ref.block = w0.o.fs_info_block_ref.block := by
  simp only [World.wall, Prod.mk.injEq] at h
  exact h.2.2.2.2.2.1

theorem safe_update_fs_info_free (w0 w : World) (G : FatGuard w0) (h : SafeFrom w0 w)
    (b : Bool) : SafeFrom w0 (update_fs_info_free_clusters w b) := by
  have hp : ∀ buffer, SafeFrom w0
      ((w.setData w.o.fs_info_block_ref.block buffer).markDirty w.o.fs_info_block_ref) := by
    intro buffer
    refine SafeFrom_poke_apart w0 w _ h rfl w.o.fs_info_block_ref.block
      (by rw [fs_block_of_wall w w0 h.1]; exact G.1) (fun x hx => ?_)
    show (if x = w.o.fs_info_block_ref.block then _ else w.data x) = w.data x
    rw [if_neg hx]
  unfold update_fs_info_free_clusters
  dsimp only
  split_ifs
  · exact hp _
  · exact hp _
  · exact h

theorem safe_update_fs_info_allocated (w0 w : World) (G : FatGuard w0) (h : SafeFrom w0 w) :
    SafeFrom w0 (update_fs_info_allocated_cluster w) := by
  unfold update_fs_info_allocated_cluster
  dsimp only
  refine SafeFrom_poke_apart w0 w _ h rfl w.o.fs_info_block_ref.block
    (by rw [fs_block_of_wall w w0 h.1]; exact G.1) (fun x hx => ?_)
  show (if x = w.o.fs_info_block_ref.block then _ else w.data x) = w.data x
  rw [if_neg hx]

theorem dir_block_apart (w0 : World) (G : FatGuard w0) (i : Nat) :
    NoFatEntry w0 (w0.file i).m_dir_entry.m_block_ref.block := by
  by_cases hi : i < w0.files.length
  · exact G.2.2.1 i hi
  · have e : w0.file i = default := by
      unfold World.file
      rw [List.getD_eq_default _ _ (by omega)]
    rw [e]
    exact G.2.1

theorem safe_setFirstCluster (w0 w : World) (G : FatGuard w0) (h : SafeFrom w0 w)
    (i v : Nat) : SafeFrom w0 (DirEntryRef.setFirstCluster w i v) := by
  refine SafeFrom_poke_apart w0 w _ h rfl (w.file i).m_dir_entry.m_block_ref.block
    (by rw [wall_dir_block w w0 h.1]; exact dir_block_apart w0 G i) (fun x hx => ?_)
  show (if x = (w.file i).m_dir_entry.m_block_ref.block then _ else w.data x) = w.data x
  rw [if_neg hx]

theorem safe_File_complete_request (w0 w : World) (h : SafeFrom w0 w) (i : Nat) (e : Bool)
    (n : Nat) : SafeFrom w0 (File.complete_request w i e n) := by
  unfold File.complete_request
  dsimp only
  apply safe_call
  apply safe_setFile w0 w h
  rfl

theorem safe_requestNew (w0 w : World) (h : SafeFrom w0 w) (i : Nat) :
    SafeFrom w0 (ClusterChain.requestNew w i) := by
  unfold ClusterChain.requestNew
  dsimp only
  apply safe_prepend
  exact safe_setChain w0 w h i _

theorem file_dir_setFile (w : World) (i : Nat) (g : File)
    (hg : g.m_dir_entry = (w.file i).m_dir_entry) :
    ((w.setFile i g).file i).m_dir_entry = (w.file i).m_dir_entry := by
  by_cases hi : i < w.files.length
  · rw [file_setFile w i g hi]
    exact hg
  · have e : w.setFile i g = w := by
      unfold World.setFile
      rw [List.set_eq_of_length_le (by omega)]
    rw [e]

/-- Two fields of the file `i` are set one after the other, neither of them the directory
entry. -/
theorem safe_setFile_twice (w0 w : World) (h : SafeFrom w0 w) (i : Nat) (g1 g2 : File)
    (h1 : g1.m_dir_entry = (w.file i).m_dir_entry)
    (h2 : g2.m_dir_entry = ((w.setFile i g1).file i).m_dir_entry) :
    SafeFrom w0 ((w.setFile i g1).setFile i g2) := by
  apply safe_setFile w0 _ (safe_setFile w0 w h i g1 (by rw [h1])) i g2
  rw [h2]

theorem safe_File_chain_handler (w0 w : World) (G : FatGuard w0) (h : SafeFrom w0 w)
    (i : Nat) (e b : Bool) : SafeFrom w0 (File.chain_handler w i e b) := by
  have h1 : SafeFrom w0 (if b = true then
      DirEntryRef.setFirstCluster w i (ClusterChain.getFirstCluster w i) else w) := by
    split_ifs
    · exact safe_setFirstCluster w0 w G h i _
    · exact h
  unfold File.chain_handler
  dsimp only
  generalize (if b = true then
      DirEntryRef.setFirstCluster w i (ClusterChain.getFirstCluster w i) else w) = X at h1 ⊢
  split
  · split_ifs
    · exact safe_File_complete_request w0 X h1 i true 0
    · apply safe_prepend
      exact safe_setFile_twice w0 X h1 i _ _ rfl rfl
  · split_ifs
    · exact safe_File_complete_request w0 X h1 i true 0
    · exact safe_requestNew w0 X h1 i
    · apply safe_prepend
      exact safe_setFile_twice w0 X h1 i _ _ rfl rfl
  · exact safe_File_complete_request w0 X h1 i e 0
  · exact h1

theorem safe_complete_request (w0 w : World) (G : FatGuard w0) (h : SafeFrom w0 w)
    (i : Nat) (e b : Bool) : SafeFrom w0 (ClusterChain.complete_request w i e b) := by
  unfold ClusterChain.complete_request
  exact safe_File_chain_handler w0 _ G (safe_setChain w0 w h i _) i e b

theorem safe_start_new_allocation (w0 w : World) (h : SafeFrom w0 w) :
    SafeFrom w0 (start_new_allocation w) :=
  SafeFrom_of_eq w0 w _ h rfl rfl

theorem safe_allocation_request_added (w0 w : World) (h : SafeFrom w0 w) :
    SafeFrom w0 (allocation_request_added w) := by
  unfold allocation_request_added
  split_ifs
  · exact safe_start_new_allocation w0 w h
  · exact h

theorem safe_next_check_end (w0 w : World) (G : FatGuard w0) (h : SafeFrom w0 w) (i : Nat) :
    SafeFrom w0 (ClusterChain.event_handler_next_check_end w i) := by
  unfold ClusterChain.event_handler_next_check_end
  dsimp only
  apply safe_complete_request w0 _ G
  split_ifs
  all_goals first
    | exact h
    | exact safe_setChain w0 w h i _

theorem safe_fat_cache_ref_handler (w0 w : World) (G : FatGuard w0) (h : SafeFrom w0 w)
    (i : Nat) (e : Bool) : SafeFrom w0 (ClusterChain.fat_cache_ref_handler w i e) := by
  unfold ClusterChain.fat_cache_ref_handler
  dsimp only
  split
  all_goals first
    | exact h
    | (split_ifs
       · exact safe_complete_request w0 w G h i true false
       · apply safe_prepend
         exact safe_setChain w0 w h i _)

theorem safe_chains_list (w0 w : World) (h : SafeFrom w0 w) (l : List Nat) :
    SafeFrom w0 { w with o.allocating_chains_list := l } :=
  SafeFrom_of_eq w0 w _ h rfl rfl

theorem request_fat_cache_block_block (w : World) (r : CacheBlockRef) (c : Nat) (b : Bool) :
    (request_fat_cache_block w r c b).1.block = get_abs_block_index_for_fat_entry w c := by
  unfold request_fat_cache_block World.requestBlock
  dsimp only
  split_ifs <;> rfl

theorem read_fat_of_block (X w : World) (r : CacheBlockRef) (c : Nat) (hd : X.data = w.data)
    (hb : X.BlockSize = w.BlockSize)
    (hr : r.block = get_abs_block_index_for_fat_entry w c) :
    read_fat_entry_in_cache_block X r c = fatOf w w.data c := by
  unfold read_fat_entry_in_cache_block fatOf World.getData get_fat_ptr_in_cache_block
    World.FatEntriesPerBlock
  rw [hd, hb, hr]

/-- The value that a chain reads from the FAT entry of a cluster that is normal and valid
for the FAT has an origin. -/
theorem SafeFrom_read (w0 w : World) (h : SafeFrom w0 w) (c : Nat)
    (hn : is_cluster_idx_normal c = true) (hv : is_cluster_idx_valid_for_fat w c = true) :
    FatOrigin w0 (fatOf w w.data c) := by
  rw [fatOf_of_wall w w0 h.1]
  have hw := h.1
  simp only [World.wall, Prod.mk.injEq] at hw
  unfold is_cluster_idx_normal at hn
  unfold is_cluster_idx_valid_for_fat at hv
  simp only [decide_eq_true_eq] at hn hv
  exact h.2 c hn.1 (by rw [← hw.2.2.2.1]; exact hv)

theorem safe_event_handler (w0 w : World) (G : FatGuard w0) (h : SafeFrom w0 w)
    (i : Nat) (hi : i < w.files.length) : SafeFrom w0 (ClusterChain.event_handler w i) := by
  unfold ClusterChain.event_handler
  split
  · lift_lets
    intro r c0 w1 c1 w2 v c2 w3
    have s1 : SafeFrom w0 w1 := safe_setChain w0 w h i _
    have s2 : SafeFrom w0 w2 := safe_setChain w0 w1 s1 i _
    have s3 : SafeFrom w0 w3 := safe_setChain w0 w2 s2 i _
    split_ifs
    · exact safe_complete_request w0 w G h i true false
    · exact safe_setChain w0 w1 s1 i _
    · exact safe_next_check_end w0 w3 G s3 i
    · exact safe_next_check_end w0 w G h i
  · lift_lets
    intro r c0 w1 c1 w2 o2 w3
    have s1 : SafeFrom w0 w1 := safe_setChain w0 w h i _
    have s2 : SafeFrom w0 w2 := safe_setChain w0 w1 s1 i _
    have s3 : SafeFrom w0 w3 := SafeFrom_of_eq w0 w2 w3 s2 rfl rfl
    split_ifs
    · exact safe_setChain w0 w1 s1 i _
    · exact safe_allocation_request_added w0 w3 s3
  · lift_lets
    intro r c0 w1 c1 next w2 w3 c3 w4 c4 w5 r2 w6 c6 after w7 w8 w9
    have s1 : SafeFrom w0 w1 := safe_setChain w0 w h i _
    have s2 : SafeFrom w0 w2 := safe_update_fat w0 w1 s1 _ _ _ (Or.inl rfl)
    have s3 : SafeFrom w0 w3 := safe_update_fs_info_free w0 w2 G s2 true
    have s4 : SafeFrom w0 w4 := safe_setChain w0 w3 s3 i _
    have s5 : SafeFrom w0 w5 := safe_setChain w0 w4 s4 i _
    have s6 : SafeFrom w0 w6 := safe_setChain w0 w1 s1 i _
    split_ifs with hnorm hvalid hr hnext hstart hnvalid hr2
    · exact safe_complete_request w0 w G h i false false
    · exact safe_complete_request w0 w G h i true false
    · exact safe_setChain w0 w1 s1 i _
    · exact safe_complete_request w0 w5 G s5 i false true
    · exact safe_complete_request w0 w1 G s1 i false false
    · exact safe_complete_request w0 w1 G s1 i true false
    · exact safe_setChain w0 w6 s6 i _
    · have hr2b : (w6.chain i).m_fat_cache_ref2 = r2.1 := by
        show ((w1.setChain i _).chain i).m_fat_cache_ref2 = _
        rw [setChain_chain w1 i _ (by rw [setChain_files_length]; exact hi)]
      have haf : after = fatOf w w.data next := by
        show read_fat_entry_in_cache_block w6 (w6.chain i).m_fat_cache_ref2 next = _
        rw [hr2b]
        exact read_fat_of_block w6 w r2.1 _ rfl rfl (request_fat_cache_block_block w1 _ _ _)
      have hnn : is_cluster_idx_normal next = true := by
        simpa using hnext
      have hnv : is_cluster_idx_valid_for_fat w next = true := by
        have e : is_cluster_idx_valid_for_fat w1 next = true := by simpa using hnvalid
        exact e
      have hao : FatOrigin w0 after := by
        rw [haf]
        exact SafeFrom_read w0 w h next hnn hnv
      have s7 : SafeFrom w0 w7 := safe_update_fat w0 w6 s6 _ _ _ hao
      have s8 : SafeFrom w0 w8 := safe_update_fat w0 w7 s7 _ _ _ (Or.inl rfl)
      have s9 : SafeFrom w0 w9 := safe_update_fs_info_free w0 w8 G s8 true
      exact safe_prepend w0 w9 s9 _
  · exact h

theorem safe_allocation_result (w0 w : World) (G : FatGuard w0) (h : SafeFrom w0 w)
    (i : Nat) (e : Bool) (n : Nat) (hn : e = false → is_cluster_idx_normal n = true) :
    SafeFrom w0 (ClusterChain.allocation_result w i e n) := by
  unfold ClusterChain.allocation_result
  lift_lets
  intro o0 w1 c1 w2 cf c2 w3 c3 w4
  have s1 : SafeFrom w0 w1 := SafeFrom_of_eq w0 w w1 h rfl rfl
  have s2 : SafeFrom w0 w2 := safe_setChain w0 w1 s1 i _
  split_ifs with he
  · exact safe_complete_request w0 w1 G s1 i e false
  · have hv : FatOrigin w0 (w2.chain i).m_current_cluster := by
      by_cases hi : i < w.files.length
      · have e1 : (w2.chain i).m_current_cluster = n := by
          show ((w1.setChain i _).chain i).m_current_cluster = n
          rw [setChain_chain w1 i _ hi]
        rw [e1]
        exact FatOrigin_normal w0 n (hn (by simpa using he))
      · have e1 : w2.chain i = (default : File).m_chain :=
          chain_out_of_range w2 i (by rw [setChain_files_length]; exact hi)
        rw [e1]
        exact Or.inl rfl
    have s3 : SafeFrom w0 w3 := by
      show SafeFrom w0 (if cf = true then _ else _)
      split_ifs
      · exact safe_setChain w0 w2 s2 i _
      · exact safe_update_fat w0 w2 s2 _ _ _ hv
    have s4 : SafeFrom w0 w4 := safe_setChain w0 w3 s3 i _
    exact safe_complete_request w0 w4 G s4 i false cf

theorem safe_complete_allocation (w0 w : World) (G : FatGuard w0) (h : SafeFrom w0 w)
    (e : Bool) (n : Nat) (hn : e = false → is_cluster_idx_normal n = true) :
    SafeFrom w0 (complete_allocation w e n) := by
  unfold complete_allocation
  split
  · exact h
  · lift_lets
    intro more2 o1 w1 o2 w2
    apply safe_allocation_result w0 _ G _ _ e n hn
    show SafeFrom w0 (if more2 = true then _ else _)
    split_ifs
    · exact safe_start_new_allocation w0 w h
    · exact SafeFrom_of_eq w0 w _ h rfl rfl

theorem wall_eq_of (w w2 : World) (h1 : w2.BlockSize = w.BlockSize)
    (h2 : w2.o.block_range = w.o.block_range)
    (h3 : w2.o.num_reserved_blocks = w.o.num_reserved_blocks)
    (h4 : w2.o.num_fat_entries = w.o.num_fat_entries)
    (h5 : w2.o.num_valid_clusters = w.o.num_valid_clusters)
    (h6 : w2.o.fs_info_block_ref = w.o.fs_info_block_ref)
    (h7 : w2.o.alloc_position < w2.o.num_valid_clusters ↔
      w.o.alloc_position < w.o.num_valid_clusters)
    (h8 : w2.files = w.files) : w2.wall = w.wall := by
  unfold World.wall
  rw [h1, h2, h3, h4, h6, h8, decide_eq_decide.2 h7, h5]

theorem alloc_candidate_normal (w0 w : World) (G : FatGuard w0) (h : SafeFrom w0 w) :
    w.o.alloc_position < w.o.num_valid_clusters ∧
    w.o.num_valid_clusters + 2 ≤ 268435448 ∧
    (2 + w.o.alloc_position) % 2 ^ 32 = 2 + w.o.alloc_position ∧
    is_cluster_idx_normal (2 + w.o.alloc_position) = true := by
  have hw := h.1
  simp only [World.wall, Prod.mk.injEq] at hw
  have h1 : w.o.alloc_position < w.o.num_valid_clusters := by
    have e := hw.2.2.2.2.2.2.1
    rw [decide_eq_true G.2.2.2.1] at e
    exact of_decide_eq_true e
  have h2 : w.o.num_valid_clusters + 2 ≤ NormalClusterIndexEnd := by
    rw [hw.2.2.2.2.1]
    exact G.2.2.2.2
  unfold NormalClusterIndexEnd at h2
  refine ⟨h1, h2, ?_, ?_⟩
  · exact Nat.mod_eq_of_lt (by omega)
  · unfold is_cluster_idx_normal NormalClusterIndexEnd
    simp only [decide_eq_true_eq]
    omega

theorem safe_alloc_loop (w0 : World) (G : FatGuard w0) :
    ∀ (fuel : Nat) (w w2 : World), SafeFrom w0 w → alloc_event_handler_loop fuel w = some w2 →
      SafeFrom w0 w2 := by
  intro fuel
  induction fuel with
  | zero =>
    intro w w2 _ hl
    simp only [alloc_event_handler_loop] at hl
    exact absurd hl (by simp)
  | succ fuel ih =>
    intro w w2 h hl
    obtain ⟨hp, hv, hm, hnorm⟩ := alloc_candidate_normal w0 w G h
    unfold alloc_event_handler_loop at hl
    revert hl
    lift_lets
    intro cur r o0 w1 o1 x2 o2 o3 w3 v w4 w5 w6 hl
    have e32 : (2 : Nat) ^ 32 = 4294967296 := by norm_num
    have hw3 : w3.wall = w.wall := by
      show (if x2.o.alloc_position = x2.o.num_valid_clusters then _ else x2).wall = w.wall
      have hx : x2.o.alloc_position = w.o.alloc_position + 1 := by
        show (w.o.alloc_position + 1) % 2 ^ 32 = _
        exact Nat.mod_eq_of_lt (by omega)
      have hn : x2.o.num_valid_clusters = w.o.num_valid_clusters := rfl
      split_ifs with hc
      · refine wall_eq_of _ _ rfl rfl rfl rfl rfl rfl ?_ rfl
        show 0 < w.o.num_valid_clusters ↔ _
        constructor
        · intro _
          exact hp
        · intro _
          omega
      · refine wall_eq_of _ _ rfl rfl rfl rfl rfl rfl ?_ rfl
        rw [hx, hn]
        rw [hx, hn] at hc
        constructor
        · intro _
          exact hp
        · intro _
          omega
    have hd3 : w3.data = w.data := by
      show (if x2.o.alloc_position = x2.o.num_valid_clusters then _ else x2).data = w.data
      split_ifs <;> rfl
    have s3 : SafeFrom w0 w3 := SafeFrom_of_eq w0 w w3 h hw3 hd3
    have hcur : is_cluster_idx_normal cur = true := by
      show is_cluster_idx_normal ((2 + w.o.alloc_position) % 2 ^ 32) = true
      rw [hm]
      exact hnorm
    split_ifs at hl
    · rw [← Option.some.inj hl]
      exact SafeFrom_of_eq w0 w _ h rfl rfl
    · rw [← Option.some.inj hl]
      have s4 : SafeFrom w0 w4 := safe_update_fat w0 w3 s3 _ _ _ (Or.inr (Or.inr (Or.inl rfl)))
      have s5 : SafeFrom w0 w5 := safe_update_fs_info_free w0 w4 G s4 false
      have s6 : SafeFrom w0 w6 := safe_update_fs_info_allocated w0 w5 G s5
      exact safe_complete_allocation w0 w6 G s6 false cur (fun _ => hcur)
    · rw [← Option.some.inj hl]
      exact safe_complete_allocation w0 w3 G s3 true 0 (fun e => absurd e (by decide))
    · exact ih w3 w2 s3 hl

theorem safe_alloc_event_handler (w0 w w2 : World) (G : FatGuard w0) (h : SafeFrom w0 w)
    (hl : alloc_event_handler w = some w2) : SafeFrom w0 w2 :=
  safe_alloc_loop w0 G _ w w2 h hl

theorem safe_alloc_block_ref_handler (w0 w : World) (G : FatGuard w0) (h : SafeFrom w0 w)
    (e : Bool) : SafeFrom w0 (alloc_block_ref_handler w e) := by
  unfold alloc_block_ref_handler
  lift_lets
  intro o1 w1
  split_ifs with he
  · exact safe_complete_allocation w0 w G h true 0 (fun e => absurd e (by decide))
  · exact safe_prepend w0 w1 (SafeFrom_of_eq w0 w w1 h rfl rfl) _

theorem safe_blockLoaded (w0 w : World) (h : SafeFrom w0 w) (r : CacheBlockRef) (e : Bool) :
    SafeFrom w0 (w.blockLoaded r e) := by
  unfold World.blockLoaded
  split_ifs
  · exact h
  · exact SafeFrom_of_eq w0 w _ h rfl rfl

theorem safe_answer_block_ref (w0 w : World) (h : SafeFrom w0 w) (e : Bool) :
    SafeFrom w0 (w.answer_block_ref e) := by
  unfold World.answer_block_ref
  lift_lets
  intro w1 o1
  exact SafeFrom_of_eq w0 w1 _ (safe_blockLoaded w0 w h _ e) rfl rfl

theorem safe_answer_fat_cache_ref1 (w0 w : World) (h : SafeFrom w0 w) (i : Nat) (e : Bool) :
    SafeFrom w0 (w.answer_fat_cache_ref1 i e) := by
  unfold World.answer_fat_cache_ref1
  lift_lets
  intro w1 r c1
  exact safe_setChain w0 w1 (safe_blockLoaded w0 w h _ e) i _

theorem safe_answer_fat_cache_ref2 (w0 w : World) (h : SafeFrom w0 w) (i : Nat) (e : Bool) :
    SafeFrom w0 (w.answer_fat_cache_ref2 i e) := by
  unfold World.answer_fat_cache_ref2
  lift_lets
  intro w1 r c1
  exact safe_setChain w0 w1 (safe_blockLoaded w0 w h _ e) i _

/-- One step of allocation, chain extension or truncation keeps the layout and the origin of
the FAT entries. -/
theorem safe_step (w0 w w2 : World) (G : FatGuard w0) (h : SafeFrom w0 w) (input : Input)
    (hin : FatStepInput w input = true) (hs : step w input = some w2) : SafeFrom w0 w2 := by
  cases input with
  | queued =>
    simp only [step] at hs
    simp only [FatStepInput] at hin
    split at hs
    · exact absurd hs (by simp)
    · rename_i ev rest hq
      have h0 : SafeFrom w0 ({ w with queue := rest } : World) :=
        SafeFrom_of_eq w0 w _ h rfl rfl
      rw [hq] at hin
      split at hs
      · exact safe_alloc_event_handler w0 _ w2 G h0 hs
      · exact absurd hin (by simp)
      · rename_i i
        simp only [Option.some.injEq] at hs
        subst hs
        exact safe_event_handler w0 _ G h0 i (by simpa using hin)
  | block_ref e =>
    simp only [FatStepInput, decide_eq_true_eq] at hin
    simp only [step] at hs
    split_ifs at hs
    have s1 := safe_answer_block_ref w0 w h e
    have hst : (w.answer_block_ref e).o.state = FsState.READY := by
      unfold World.answer_block_ref World.blockLoaded
      split_ifs <;> exact hin.1
    have hwm : (w.answer_block_ref e).o.write_mount_state = WriteMountState.MOUNTED := by
      unfold World.answer_block_ref World.blockLoaded
      split_ifs <;> exact hin.2
    unfold block_ref_handler at hs
    rw [if_neg (by rw [hst]; decide), if_pos hst, if_neg (by rw [hwm]; decide),
      if_neg (by rw [hwm]; decide)] at hs
    split_ifs at hs
    · rw [← Option.some.inj hs]
      exact safe_alloc_block_ref_handler w0 _ G s1 e
    · rw [← Option.some.inj hs]
      exact s1
  | fat_cache_ref1 i e =>
    simp only [step] at hs
    split_ifs at hs
    rw [← Option.some.inj hs]
    exact safe_fat_cache_ref_handler w0 _ G (safe_answer_fat_cache_ref1 w0 w h i e) i e
  | fat_cache_ref2 i e =>
    simp only [step] at hs
    split_ifs at hs
    rw [← Option.some.inj hs]
    exact safe_fat_cache_ref_handler w0 _ G (safe_answer_fat_cache_ref2 w0 w h i e) i e
  | _ => exact absurd hin (by simp [FatStepInput])

theorem safe_fatSteps (w0 : World) (G : FatGuard w0) :
    ∀ (inputs : List Input) (w w2 : World), SafeFrom w0 w → fatSteps w inputs = some w2 →
      SafeFrom w0 w2 := by
  intro inputs
  induction inputs with
  | nil =>
    intro w w2 h hs
    simp only [fatSteps] at hs
    rw [← Option.some.inj hs]
    exact h
  | cons input rest ih =>
    intro w w2 h hs
    simp only [fatSteps] at hs
    split_ifs at hs with hin
    cases hst : step w input with
    | none =>
      rw [hst] at hs
      exact absurd hs (by simp)
    | some w1 =>
      rw [hst] at hs
      exact ih w1 w2 (safe_step w0 w w1 G h input hin hst) hs

theorem fatSteps_getD (w : World) (inputs : List Input)
    (h : (fatSteps w inputs).isSome = true) :
    fatSteps w inputs = some ((fatSteps w inputs).getD default) := by
  cases hx : fatSteps w inputs with
  | none =>
    rw [hx] at h
    exact absurd h (by decide)
  | some x => rfl

/-- C23, amended: the values that the driver stores into the FAT.  On a volume that is laid
out as `init` and the write mount leave it (the FS information sector, block 0 and the
directory entries of the open files are outside the FAT, and the allocator position is
below the number of valid clusters, all of which have normal indices), after every sequence
of steps of allocation, chain extension and truncation (the events of the allocator and of
the chains, and the answers of the block cache to their requests for FAT blocks) and for
every content of the FAT, each FAT entry of index at least 2 holds 0, a normal cluster
index, `0x0FFFFFFF`, or a value that a FAT entry of index at least 2 held before the
sequence: the only values that the driver originates are 0, normal cluster indices and
`0x0FFFFFFF`, and every other value has been copied from the FAT as it was.  So when at the
start no entry holds a value in `0x0FFFFFF8..0x0FFFFFFE`, none does afterwards. -/
theorem fat_values_stored (w0 w : World) (inputs : List Input) (hg : FatGuard w0)
    (hs : fatSteps w0 inputs = some w) :
    w.o.num_fat_entries = w0.o.num_fat_entries ∧
    (∀ z, 2 ≤ z → z < w0.o.num_fat_entries →
      fatNext w z = 0 ∨ is_cluster_idx_normal (fatNext w z) = true ∨
      fatNext w z = EndOfChainMarker ∨
      ∃ y, 2 ≤ y ∧ y < w0.o.num_fat_entries ∧ fatNext w z = fatNext w0 y) ∧
    ((∀ y, 2 ≤ y → y < w0.o.num_fat_entries →
        fatNext w0 y < 0x0FFFFFF8 ∨ fatNext w0 y = EndOfChainMarker) →
      ∀ z, 2 ≤ z → z < w0.o.num_fat_entries →
        fatNext w z < 0x0FFFFFF8 ∨ fatNext w z = EndOfChainMarker) := by
  have S := safe_fatSteps w0 hg inputs w0 w (SafeFrom_refl w0) hs
  have hw := S.1
  simp only [World.wall, Prod.mk.injEq] at hw
  have hF : ∀ z, fatNext w z = fatOf w0 w.data z :=
    fatNext_of_geometry w w0 hw.1 hw.2.1 hw.2.2.1
  have hO : ∀ z, 2 ≤ z → z < w0.o.num_fat_entries →
      fatNext w z = 0 ∨ is_cluster_idx_normal (fatNext w z) = true ∨
      fatNext w z = EndOfChainMarker ∨
      ∃ y, 2 ≤ y ∧ y < w0.o.num_fat_entries ∧ fatNext w z = fatNext w0 y := by
    intro z h2 hz
    rw [hF]
    exact S.2 z h2 hz
  refine ⟨hw.2.2.2.1, hO, fun h0 z h2 hz => ?_⟩
  rcases hO z h2 hz with e | e | e | ⟨y, hy2, hy, e⟩
  · left
    rw [e]
    decide
  · left
    unfold is_cluster_idx_normal NormalClusterIndexEnd at e
    simp only [decide_eq_true_eq] at e
    exact e.2
  · right
    exact e
  · rw [e]
    exact h0 y hy2 hy

/-- Witness of `fat_values_stored`: the truncation of the sample file on the volume whose
chain 3, 4 ends with `0x0FFFFFF8` takes two events of the chain; afterwards the FAT entry of
cluster 3 holds `0x0FFFFFF8`, the value that the entry of cluster 4 held before, and the
entry of cluster 4 holds 0.  And on the volume of `linkScanStart` the event of the allocator
stores `0x0FFFFFFF` into the entry of the free cluster 4 and the normal cluster index 4 into
the entry of cluster 3, the last cluster of the chain that is extended. -/
theorem fat_values_stored_witness :
    (FatGuard markerChainQueued ∧
    fatSteps markerChainQueued [.queued, .queued] = some markerUnlinked ∧
    (fatNext markerChainQueued 3 = 4 ∧ fatNext markerChainQueued 4 = 0x0FFFFFF8 ∧
      fatNext markerUnlinked 3 = 0x0FFFFFF8 ∧ fatNext markerUnlinked 4 = 0) ∧
    (markerUnlinked.o.num_fat_entries = markerChainQueued.o.num_fat_entries ∧
    (∀ z, 2 ≤ z → z < markerChainQueued.o.num_fat_entries →
      fatNext markerUnlinked z = 0 ∨ is_cluster_idx_normal (fatNext markerUnlinked z) = true ∨
      fatNext markerUnlinked z = EndOfChainMarker ∨
      ∃ y, 2 ≤ y ∧ y < markerChainQueued.o.num_fat_entries ∧
        fatNext markerUnlinked z = fatNext markerChainQueued y) ∧
    ((∀ y, 2 ≤ y → y < markerChainQueued.o.num_fat_entries →
        fatNext markerChainQueued y < 0x0FFFFFF8 ∨
        fatNext markerChainQueued y = EndOfChainMarker) →
      ∀ z, 2 ≤ z → z < markerChainQueued.o.num_fat_entries →
        fatNext markerUnlinked z < 0x0FFFFFF8 ∨
        fatNext markerUnlinked z = EndOfChainMarker))) ∧
    (FatGuard linkEventQueued ∧
    fatSteps linkEventQueued [.queued] = some linkStored ∧
    (fatNext linkEventQueued 3 = EndOfChainMarker ∧ fatNext linkEventQueued 4 = 0 ∧
      fatNext linkStored 3 = 4 ∧ fatNext linkStored 4 = EndOfChainMarker) ∧
    ∀ z, 2 ≤ z → z < linkEventQueued.o.num_fat_entries →
      fatNext linkStored z = 0 ∨ is_cluster_idx_normal (fatNext linkStored z) = true ∨
      fatNext linkStored z = EndOfChainMarker ∨
      ∃ y, 2 ≤ y ∧ y < linkEventQueued.o.num_fat_entries ∧
        fatNext linkStored z = fatNext linkEventQueued y) :=
  ⟨⟨by decide, fatSteps_getD _ _ (by decide), by decide,
    fat_values_stored markerChainQueued markerUnlinked [.queued, .queued] (by decide)
      (fatSteps_getD _ _ (by decide))⟩,
    ⟨by decide, fatSteps_getD _ _ (by decide), by decide,
    (fat_values_stored linkEventQueued linkStored [.queued] (by decide)
      (fatSteps_getD _ _ (by decide))).2.1⟩⟩

end FatFs
